import Mathlib

/-!
# Pipes: corridor graph (`LocationGraph`) — shallow embedding and verified properties

The development embeds the corridor-graph part of the routing engine
(`Location/LocationGraph.hpp`, `Location/LocationGraphNode.hpp`, the accessors of
`WaterConnections/*.hpp` and `PipeObjectsBag::getExternalDiameter`).

Modelling conventions.

* Heap objects of type `LocationGraphNode` live in `LocationGraph.nodePs`; a pointer
  `LocationGraphNode*` is the position of the object in that list (objects are only ever
  appended, so positions are stable addresses).
* A pointer `const WaterSource*` into `waterConnectionObjects.waterSources` is the index of
  the element in that vector.
* `std::map<unsigned int, T>` is an association list with unique keys.
* A C++ function that may throw returns an `Outcome`: normal return, an `Exception` together
  with the graph as it is when the exception leaves the function, or `undefined` when the
  execution reads an unassigned pointer, fails an `assert`, or overflows a signed counter.
* `unsigned int` is 32 bits wide; arithmetic on it is taken modulo `2 ^ 32`.
-/

namespace Pipes

/-! ## Numbers and points -/

/-- Modelled from the spec: the header `CalcNumber.hpp` that declares the scalar type is not
part of the sources. The spec calls coordinates "real-valued" and reasons in exact
arithmetic, so `CalcNumber` is an exact ordered field with decidable comparisons. -/
abbrev CalcNumber := ℚ

/-- Width of `unsigned int`. -/
def UINT_WIDTH : Nat := 32

/-- Number of values of `unsigned int`. -/
def UINT_RANGE : Nat := 2 ^ UINT_WIDTH

/-- A point `Point(x, y, z)` of `Geometry&Matrices/Point.hpp`. -/
structure Point where
  x : CalcNumber
  y : CalcNumber
  z : CalcNumber
deriving DecidableEq

/-- Radicand of `Point::distanceToPoint`: the source returns
`sqrt(dx * dx + dy * dy + dz * dz)`. The square root is strictly increasing on non-negative
numbers, so every comparison `d1 < d2` of two distances made by the callers is the comparison
of the two radicands; the embedding carries the radicand. -/
def Point.distanceToPointSquared (self point : Point) : CalcNumber :=
  let dx := point.x - self.x
  let dy := point.y - self.y
  let dz := point.z - self.z
  dx * dx + dy * dy + dz * dz

/-! ## Water connection objects and the catalog -/

/-- A water source, `WaterConnections/WaterSource.hpp`. -/
structure WaterSource where
  name : String
  point : Point
  diameter : Nat
  slopeSin : CalcNumber
deriving DecidableEq

/-- A water destination, `WaterConnections/WaterDestination.hpp`. -/
structure WaterDestination where
  name : String
  point : Point
  diameter : Nat
deriving DecidableEq

/-- The fields of `WaterConnectionObjects`. -/
structure WaterConnectionObjects where
  waterSources : List WaterSource
  waterDestination : WaterDestination
  waterDestinationIsSet : Bool
deriving DecidableEq

/-- Modelled from the spec: the header `PipeObjectType.hpp` that declares the enumeration is
not part of the sources; the spec names the closed set of the kinds of pipe objects. -/
inductive PipeObjectType where
  | direct
  | fan
  | reduction
  | angle
  | tee
  | cross
deriving DecidableEq

/-- The members of the classes derived from `PipeObject` that the track reads through a
`static_cast` of the pointer `pipeObjectP`: `DirectPipe::diameter`, `FanPipe::diameter`,
`ReductionPipe::fDiameter`, the diameter and the two leg lengths of an `AnglePipe`, the
diameters and the leg lengths of a `TeePipe` and of a `CrossPipe`. -/
inductive PipeObjectData where
  | direct (diameter : Nat)
  | fan (diameter : Nat)
  | reduction (fDiameter : Nat)
  | angle (diameter : Nat) (fLength mLength : CalcNumber)
  | tee (baseDiameter extraDiameter : Nat) (fLength baseMLength extraMLength : CalcNumber)
  | cross (baseDiameter secondDiameter thirdDiameter : Nat)
      (fLength baseMLength secondMLength thirdMLength : CalcNumber)
deriving DecidableEq

/-- An object of a class derived from `PipeObject`, `PipeObjects/PipeObject.hpp`: the members
of the base class and, in `data`, those of the derived class. The pointer
`externalDiameterForDiameterP` is the map it points to; `none` is `nullptr`. -/
structure PipeObject where
  id : Int
  name : String
  cost : CalcNumber
  externalDiameterForDiameterP : Option (List (Nat × Nat))
  data : PipeObjectData
deriving DecidableEq

/-- The part of `PipeObjectsBag` read by the corridor graph and by the routing: the map from a
diameter to the external diameter of the joint, and the map from a diameter to the direct
pipe of that diameter. -/
structure PipeObjectsBag where
  externalDiameterForDiameter : List (Nat × Nat)
  directPipeForDiameter : List (Nat × PipeObject) := []
deriving DecidableEq

/-- The method `PipeObjectsBag::getDirectPipeP`: `none` is `nullptr`. -/
def PipeObjectsBag.getDirectPipeP (self : PipeObjectsBag) (diameter : Nat) : Option PipeObject :=
  self.directPipeForDiameter.lookup diameter

/-- The method `PipeObjectsBag::getExternalDiameter`: `none` is the failed
`assert(externalDiameterIter != externalDiameterForDiameter.end())`. -/
def PipeObjectsBag.getExternalDiameter (self : PipeObjectsBag) (diameter : Nat) : Option Nat :=
  self.externalDiameterForDiameter.lookup diameter

/-- The struct `OptimizationParameters` with its default member initialisers. -/
structure OptimizationParameters where
  minSourceDistanceToSeparate : CalcNumber := 150
  maxNodeWidthToSeparate : CalcNumber := 150
deriving DecidableEq

/-! ## Corridor nodes -/

/-- The struct `LocationGraphNode`. Pointers to nodes are positions in
`LocationGraph.nodePs`; `waterSourcesPs` holds indices into the source vector;
`waterDestinationP = none` is `nullptr`. -/
structure LocationGraphNode where
  id : Nat
  left : CalcNumber
  right : CalcNumber
  bottom : CalcNumber
  top : CalcNumber
  leftNodesPs : List Nat := []
  rightNodesPs : List Nat := []
  bottomNodesPs : List Nat := []
  topNodesPs : List Nat := []
  waterSourcesPs : List Nat := []
  waterSourcesConnectionPoints : List Point := []
  waterDestinationP : Option WaterDestination := none
deriving DecidableEq

namespace LocationGraphNode

/-- The constructor `LocationGraphNode(id, left, right, bottom, top)`: empty vectors and
`waterDestinationP(nullptr)`. -/
def new (id : Nat) (left right bottom top : CalcNumber) : LocationGraphNode :=
  { id := id, left := left, right := right, bottom := bottom, top := top }

/-- The method `sizeX`. -/
def sizeX (self : LocationGraphNode) : CalcNumber := self.right - self.left

/-- The method `sizeY`. -/
def sizeY (self : LocationGraphNode) : CalcNumber := self.top - self.bottom

/-- The method `findClosestPoint(point)`. -/
def findClosestPoint (self : LocationGraphNode) (point : Point) : Point :=
  let x := if point.x < self.left then self.left
    else if point.x > self.right then self.right else point.x
  let y := if point.y < self.bottom then self.bottom
    else if point.y > self.top then self.top else point.y
  ⟨x, y, 0⟩

/-- The method `contains(const Point &)`. -/
def contains (self : LocationGraphNode) (point : Point) : Bool :=
  decide (self.left ≤ point.x) && decide (point.x ≤ self.right)
    && decide (self.bottom ≤ point.y) && decide (point.y ≤ self.top)

/-- The method `contains(const LocationGraphNode &)`. -/
def containsNode (self anotherNode : LocationGraphNode) : Bool :=
  decide (self.left ≤ anotherNode.left) && decide (self.right ≥ anotherNode.right)
    && decide (self.bottom ≤ anotherNode.bottom) && decide (self.top ≥ anotherNode.top)

/-- The method `intersectWith`. -/
def intersectWith (self anotherNode : LocationGraphNode) : Bool :=
  (decide (self.left > anotherNode.right) || decide (self.right < anotherNode.left)
    || decide (self.bottom > anotherNode.top) || decide (self.top < anotherNode.bottom)) == false

/-- The method `hasNonZeroIntersectionAreaWith`. -/
def hasNonZeroIntersectionAreaWith (self anotherNode : LocationGraphNode) : Bool :=
  (decide (self.left ≥ anotherNode.right) || decide (self.right ≤ anotherNode.left)
    || decide (self.bottom ≥ anotherNode.top) || decide (self.top ≤ anotherNode.bottom)) == false

end LocationGraphNode

/-! ## The corridor graph -/

/-- The messages of the `Exception`s thrown by the corridor graph, by kind. -/
inductive Exception where
  /-- Thrown by `addNodeAndReturnId`: the added node has incorrect bounds. -/
  | incorrectBounds
  /-- Thrown by `addNodeAndReturnId`: the added node has an intersection of positive area
  with an existing node. -/
  | positiveAreaIntersection
  /-- Thrown by the connectors: no node with identifier `nodeId` in the graph. -/
  | nodeIdAbsent (nodeId : Nat)
  /-- Thrown by the connectors: the connection is already set in the graph. -/
  | alreadyConnected
  /-- Thrown by the connectors: the nodes do not have this connection. -/
  | notAdjacent
  /-- Thrown by `addWaterConnectionObjects`: there are no sources. -/
  | noWaterSources
  /-- Thrown by `addWaterConnectionObjects`: there is no destination. -/
  | noWaterDestination
  /-- Thrown by `addWaterConnectionObjects`: no node contains the destination completely. -/
  | destinationNotContained
  /-- Thrown by `loadObjectsFromFile`: the file has several destinations. -/
  | severalDestinationsInFile
  /-- Thrown by `loadObjectsFromFile`: the file has no sources. -/
  | noSourcesInFile
  /-- Thrown by `loadObjectsFromFile`: the file has no destination. -/
  | noDestinationInFile
  /-- Thrown by `connectSourceToPipeTrack`: no polyline was found from the source named
  `sourceName` to the track or to the destination. -/
  | zigzagNotFound (sourceName : String)
deriving DecidableEq

/-- The struct `LocationGraph`. -/
structure LocationGraph where
  lastGeneratedId : Nat := 0
  pipeObjectsBagP : PipeObjectsBag
  optimizationParametersP : OptimizationParameters
  nodePs : List LocationGraphNode := []
  nodePForId : List (Nat × Nat) := []
  waterDestinationNodeP : Option Nat := none
deriving DecidableEq

/-- The result of `LocationGraph::findClosestPoint`. -/
structure FindPointResult where
  point : Point
  nodeP : Nat
deriving DecidableEq

/-- How a call of a graph method ends. -/
inductive Outcome (α : Type) where
  /-- The call returns `value` and leaves the graph `graph`. -/
  | ok (value : α) (graph : LocationGraph)
  /-- The call throws `e`; the graph is `graph` at that moment. -/
  | exception (e : Exception) (graph : LocationGraph)
  /-- The execution has no defined behaviour. -/
  | undefined
deriving DecidableEq

/-- Assignment `m[key] = value` of a `std::map`. -/
def mapAssign {α : Type} (m : List (Nat × α)) (key : Nat) (value : α) : List (Nat × α) :=
  (key, value) :: m.filter (fun kv => kv.1 != key)

namespace LocationGraph

/-- The constructor `LocationGraph(pipeObjectsBagP, optimizationParametersP)`: the empty
graph. -/
def new (pipeObjectsBagP : PipeObjectsBag) (optimizationParametersP : OptimizationParameters) :
    LocationGraph :=
  { pipeObjectsBagP := pipeObjectsBagP, optimizationParametersP := optimizationParametersP }

/-- The method `generateNewNodeId`: `return ++lastGeneratedId;` on `unsigned int`. -/
def generateNewNodeId (g : LocationGraph) : Nat × LocationGraph :=
  let newId := (g.lastGeneratedId + 1) % UINT_RANGE
  (newId, { g with lastGeneratedId := newId })

/-- The method `addNodeAndReturnId`. -/
def addNodeAndReturnId (g : LocationGraph) (left right bottom top : CalcNumber) : Outcome Nat :=
  if (decide (left < right) && decide (bottom < top)) == false then
    .exception .incorrectBounds g
  else if g.nodePs.any (fun nodeP =>
      (decide (left ≥ nodeP.right) || decide (right ≤ nodeP.left)
        || decide (bottom ≥ nodeP.top) || decide (top ≤ nodeP.bottom)) == false) then
    .exception .positiveAreaIntersection g
  else
    let (newId, g1) := g.generateNewNodeId
    let newNodeP := g1.nodePs.length
    .ok newId { g1 with
      nodePs := g1.nodePs ++ [LocationGraphNode.new newId left right bottom top]
      nodePForId := mapAssign g1.nodePForId newId newNodeP }

/-- Dereference of a node pointer followed by the assignment of the whole object. -/
def setNode (g : LocationGraph) (nodeP : Nat) (node : LocationGraphNode) : LocationGraph :=
  { g with nodePs := g.nodePs.set nodeP node }

/-- The method `connectLeftAndRightNodes`. The two `push_back`s are executed one after the
other on the heap, so that `leftNodeP == rightNodeP` is covered. -/
def connectLeftAndRightNodes (g : LocationGraph) (leftNodeId rightNodeId : Nat) : Outcome Unit :=
  match g.nodePForId.lookup leftNodeId with
  | none => .exception (.nodeIdAbsent leftNodeId) g
  | some leftNodeP =>
    match g.nodePForId.lookup rightNodeId with
    | none => .exception (.nodeIdAbsent rightNodeId) g
    | some rightNodeP =>
      match g.nodePs[leftNodeP]?, g.nodePs[rightNodeP]? with
      | some leftNode, some rightNode =>
        if rightNodeP ∈ leftNode.rightNodesPs then .exception .alreadyConnected g
        else if leftNodeP ∈ rightNode.leftNodesPs then .exception .alreadyConnected g
        else if leftNode.right ≠ rightNode.left ∨ leftNode.bottom ≥ rightNode.top
            ∨ leftNode.top ≤ rightNode.bottom then .exception .notAdjacent g
        else
          let g1 := g.setNode leftNodeP
            { leftNode with rightNodesPs := leftNode.rightNodesPs ++ [rightNodeP] }
          match g1.nodePs[rightNodeP]? with
          | some rightNode1 =>
            .ok () (g1.setNode rightNodeP
              { rightNode1 with leftNodesPs := rightNode1.leftNodesPs ++ [leftNodeP] })
          | none => .undefined
      | _, _ => .undefined

/-- The method `connectBottomAndTopNodes`. -/
def connectBottomAndTopNodes (g : LocationGraph) (bottomNodeId topNodeId : Nat) : Outcome Unit :=
  match g.nodePForId.lookup bottomNodeId with
  | none => .exception (.nodeIdAbsent bottomNodeId) g
  | some bottomNodeP =>
    match g.nodePForId.lookup topNodeId with
    | none => .exception (.nodeIdAbsent topNodeId) g
    | some topNodeP =>
      match g.nodePs[bottomNodeP]?, g.nodePs[topNodeP]? with
      | some bottomNode, some topNode =>
        if topNodeP ∈ bottomNode.topNodesPs then .exception .alreadyConnected g
        else if bottomNodeP ∈ topNode.bottomNodesPs then .exception .alreadyConnected g
        else if bottomNode.top ≠ topNode.bottom ∨ bottomNode.left ≥ topNode.right
            ∨ bottomNode.right ≤ topNode.left then .exception .notAdjacent g
        else
          let g1 := g.setNode bottomNodeP
            { bottomNode with topNodesPs := bottomNode.topNodesPs ++ [topNodeP] }
          match g1.nodePs[topNodeP]? with
          | some topNode1 =>
            .ok () (g1.setNode topNodeP
              { topNode1 with bottomNodesPs := topNode1.bottomNodesPs ++ [bottomNodeP] })
          | none => .undefined
      | _, _ => .undefined

/-- A `for` loop whose counter runs through `counters`; an exception or an undefined
execution of the body leaves the loop. -/
def forLoop (body : Nat → LocationGraph → Outcome Unit) :
    List Nat → LocationGraph → Outcome Unit
  | [], g => .ok () g
  | c :: counters, g =>
    match body c g with
    | .ok _ g1 => forLoop body counters g1
    | .exception e g1 => .exception e g1
    | .undefined => .undefined

/-- The body of the inner loop of `connectAllNodes` for the counters `i` and `j`. -/
def connectAllNodesBody (i j : Nat) (g : LocationGraph) : Outcome Unit :=
  match g.nodePs[i]?, g.nodePs[j]? with
  | some node1P, some node2P =>
    if node1P.intersectWith node2P then
      if node1P.left = node2P.right then g.connectLeftAndRightNodes node2P.id node1P.id
      else if node1P.right = node2P.left then g.connectLeftAndRightNodes node1P.id node2P.id
      else if node1P.bottom = node2P.top then g.connectBottomAndTopNodes node2P.id node1P.id
      else g.connectBottomAndTopNodes node1P.id node2P.id
    else .ok () g
  | _, _ => .undefined

/-- The method `connectAllNodes`. The connectors never change `nodePs.size()`, so the bounds
of both loops are those of the graph at the call; the number of nodes is taken to fit the
`int` counters. For the empty graph the bound `nodePs.size() - 1` of the outer loop wraps
around to the largest `size_t`; no body is ever executed and the `int` counter overflows:
that execution is `undefined`. -/
def connectAllNodes (g : LocationGraph) : Outcome Unit :=
  let size := g.nodePs.length
  if size = 0 then .undefined
  else
    forLoop (fun i => forLoop (connectAllNodesBody i) (List.range' (i + 1) (size - (i + 1))))
      (List.range (size - 1)) g

/-- The loop of `LocationGraph::findClosestPoint` over the nodes from position `nodeP` on.
`minDistanceSquared` is the square of the variable `minDistance`; `result = none` is the
local `FindPointResult result;` before its first assignment. -/
def findClosestPointLoop (point : Point) :
    List LocationGraphNode → Nat → CalcNumber → Option FindPointResult → Option FindPointResult
  | [], _, _, result => result
  | node :: rest, nodeP, minDistanceSquared, result =>
    let closestPoint := node.findClosestPoint point
    let distanceSquared := closestPoint.distanceToPointSquared point
    if distanceSquared < minDistanceSquared then
      findClosestPointLoop point rest (nodeP + 1) distanceSquared (some ⟨closestPoint, nodeP⟩)
    else
      findClosestPointLoop point rest (nodeP + 1) minDistanceSquared result

/-- The method `LocationGraph::findClosestPoint`, with `minDistance = 999999999.0`. -/
def findClosestPoint (g : LocationGraph) (point : Point) : Option FindPointResult :=
  findClosestPointLoop point g.nodePs 0 (999999999 * 999999999) none

/-- The value `pipeObjectsBagP->getExternalDiameter(diameter) / 2`: a division of
`unsigned int`s, converted to `CalcNumber` afterwards. -/
def externalDiameterHalfed (g : LocationGraph) (diameter : Nat) : Option CalcNumber :=
  (g.pipeObjectsBagP.getExternalDiameter diameter).map (fun d => ((d / 2 : Nat) : CalcNumber))

/-- The adjustment of the connection point in the loop of `addWaterConnectionObjects`. -/
def adjustConnectionPoint (node : LocationGraphNode) (externalDiameterHalfed : CalcNumber)
    (connectionPoint : Point) : Point :=
  let x := if connectionPoint.x = node.left then connectionPoint.x + externalDiameterHalfed
    else if connectionPoint.x = node.right then connectionPoint.x - externalDiameterHalfed
    else connectionPoint.x
  let y := if connectionPoint.y = node.bottom then connectionPoint.y + externalDiameterHalfed
    else if connectionPoint.y = node.top then connectionPoint.y - externalDiameterHalfed
    else connectionPoint.y
  ⟨x, y, connectionPoint.z⟩

/-- The body of the loop over the sources in `addWaterConnectionObjects`; `sourceP` is the
address `&waterSource`. -/
def addWaterSource (waterSource : WaterSource) (sourceP : Nat) (g : LocationGraph) :
    Outcome Unit :=
  match g.findClosestPoint waterSource.point with
  | none => .undefined
  | some findPointResult =>
    match g.nodePs[findPointResult.nodeP]?, g.externalDiameterHalfed waterSource.diameter with
    | some node, some externalDiameterHalfed =>
      let connectionPoint :=
        adjustConnectionPoint node externalDiameterHalfed findPointResult.point
      .ok () (g.setNode findPointResult.nodeP
        { node with
          waterSourcesPs := node.waterSourcesPs ++ [sourceP]
          waterSourcesConnectionPoints := node.waterSourcesConnectionPoints ++ [connectionPoint] })
    | _, _ => .undefined

/-- The loop over the sources in `addWaterConnectionObjects`, from the source with address
`sourceP` on. -/
def addWaterSources : List WaterSource → Nat → LocationGraph → Outcome Unit
  | [], _, g => .ok () g
  | waterSource :: rest, sourceP, g =>
    match addWaterSource waterSource sourceP g with
    | .ok _ g1 => addWaterSources rest (sourceP + 1) g1
    | .exception e g1 => .exception e g1
    | .undefined => .undefined

/-- The part of `addWaterConnectionObjects` after the loop: the destination. -/
def addWaterDestination (waterDestinationP : WaterDestination) (g : LocationGraph) :
    Outcome Unit :=
  let waterDestinationPoint := waterDestinationP.point
  match g.findClosestPoint waterDestinationPoint with
  | none => .undefined
  | some findPointResult =>
    let nodeP := findPointResult.nodeP
    match g.nodePs[nodeP]? with
    | none => .undefined
    | some node =>
      let g1 := { g.setNode nodeP { node with waterDestinationP := some waterDestinationP } with
        waterDestinationNodeP := some nodeP }
      match g1.externalDiameterHalfed waterDestinationP.diameter, g1.nodePs[nodeP]? with
      | some waterDestinationExternalRadius, some node1 =>
        if node1.containsNode (LocationGraphNode.new 0
            (waterDestinationPoint.x - waterDestinationExternalRadius)
            (waterDestinationPoint.x + waterDestinationExternalRadius)
            (waterDestinationPoint.y - waterDestinationExternalRadius)
            (waterDestinationPoint.y + waterDestinationExternalRadius)) == false then
          .exception .destinationNotContained g1
        else .ok () g1
      | _, _ => .undefined

/-- The method `addWaterConnectionObjects`. -/
def addWaterConnectionObjects (g : LocationGraph)
    (waterConnectionObjects : WaterConnectionObjects) : Outcome Unit :=
  if waterConnectionObjects.waterSources.length = 0 then .exception .noWaterSources g
  else if waterConnectionObjects.waterDestinationIsSet == false then
    .exception .noWaterDestination g
  else
    match addWaterSources waterConnectionObjects.waterSources 0 g with
    | .ok _ g1 => addWaterDestination waterConnectionObjects.waterDestination g1
    | .exception e g1 => .exception e g1
    | .undefined => .undefined

end LocationGraph

/-! ## Separating the nodes that hold several sources -/

/-- The four adjacency lists of a node. -/
inductive Side where
  | left
  | right
  | bottom
  | top
deriving DecidableEq

/-- The adjacency list of the node on the side `side`. -/
def LocationGraphNode.nodesPs (self : LocationGraphNode) : Side → List Nat
  | .left => self.leftNodesPs
  | .right => self.rightNodesPs
  | .bottom => self.bottomNodesPs
  | .top => self.topNodesPs

/-- The node with the adjacency list on the side `side` replaced by `nodesPs`. -/
def LocationGraphNode.setNodesPs (self : LocationGraphNode) (side : Side) (nodesPs : List Nat) :
    LocationGraphNode :=
  match side with
  | .left => { self with leftNodesPs := nodesPs }
  | .right => { self with rightNodesPs := nodesPs }
  | .bottom => { self with bottomNodesPs := nodesPs }
  | .top => { self with topNodesPs := nodesPs }

/-- A cut found by `separateWaterSources`: along the line `x = separationX` or along the line
`y = separationY`. -/
inductive Separation where
  | alongX (separationX : CalcNumber)
  | alongY (separationY : CalcNumber)
deriving DecidableEq

namespace LocationGraph

/-- The method `std::set<CalcNumber>::insert` on the increasing sequence of the elements of
the set. -/
def setInsert (value : CalcNumber) : List CalcNumber → List CalcNumber
  | [] => [value]
  | first :: rest =>
    if value < first then value :: first :: rest
    else if first < value then first :: setInsert value rest
    else first :: rest

/-- The vector `xsArr` (or `ysArr`) of `separateWaterSources` for the coordinates of the
connection points in the order of the points: the elements of the set of the coordinates,
copied in increasing order, after `std::sort`. -/
def sortedCoordinates (coordinates : List CalcNumber) : List CalcNumber :=
  (coordinates.foldl (fun set value => setInsert value set) []).insertionSort (· ≤ ·)

/-- The loop `for (int i = 1; i < xsArr.size(); i++)` of `separateWaterSources` on the part of
the array from `xsArr[i - 1]` on. `destination` is the coordinate of the point of the
destination of the node and its diameter, `none` for `waterDestinationP == nullptr`. The
result is `some (some separation)` when the loop ends with `needToSeparate == true`,
`some none` when it ends with `needToSeparate == false`, and `none` when
`getExternalDiameter` fails its assertion. -/
def findSeparation (g : LocationGraph) (destination : Option (CalcNumber × Nat)) :
    List CalcNumber → Option (Option CalcNumber)
  | previous :: current :: rest =>
    if current - previous ≥ g.optimizationParametersP.minSourceDistanceToSeparate then
      let separation := (previous + current) / 2
      match destination with
      | none => some (some separation)
      | some (waterDestinationCoordinate, diameter) =>
        match g.externalDiameterHalfed diameter with
        | none => none
        | some waterDestinationExternalRadius =>
          if separation < waterDestinationCoordinate - waterDestinationExternalRadius
              ∨ separation > waterDestinationCoordinate + waterDestinationExternalRadius then
            some (some separation)
          else findSeparation g destination (current :: rest)
    else findSeparation g destination (current :: rest)
  | _ => some none

/-- The check of the separation of `node` along a line `x = ...`. -/
def findSeparationX (g : LocationGraph) (node : LocationGraphNode) : Option (Option CalcNumber) :=
  let xsArr := sortedCoordinates (node.waterSourcesConnectionPoints.map Point.x)
  if xsArr.length > 1 ∧ node.sizeY ≤ g.optimizationParametersP.maxNodeWidthToSeparate then
    findSeparation g (node.waterDestinationP.map (fun d => (d.point.x, d.diameter))) xsArr
  else some none

/-- The check of the separation of `node` along a line `y = ...`. -/
def findSeparationY (g : LocationGraph) (node : LocationGraphNode) : Option (Option CalcNumber) :=
  let ysArr := sortedCoordinates (node.waterSourcesConnectionPoints.map Point.y)
  if ysArr.length > 1 ∧ node.sizeX ≤ g.optimizationParametersP.maxNodeWidthToSeparate then
    findSeparation g (node.waterDestinationP.map (fun d => (d.point.y, d.diameter))) ysArr
  else some none

/-- The body of the loop over the nodes in `separateWaterSources` up to the calls of
`separateNodeX` and `separateNodeY`: the cut to make in `node`, if any. -/
def nodeSeparation (g : LocationGraph) (node : LocationGraphNode) : Option (Option Separation) :=
  if node.waterSourcesPs.length > 1 then
    match findSeparationX g node with
    | none => none
    | some (some separationX) => some (some (.alongX separationX))
    | some none =>
      match findSeparationY g node with
      | none => none
      | some (some separationY) => some (some (.alongY separationY))
      | some none => some none
  else some none

/-- The assignment `*std::find(nodesPs.begin(), nodesPs.end(), nodeP) = newNodeP`; `none`
when `nodeP` is not in the vector: the iterator returned is `end()` and the assignment
writes past the elements. -/
def replaceFirst (nodeP newNodeP : Nat) : List Nat → Option (List Nat)
  | [] => none
  | first :: rest =>
    if first = nodeP then some (newNodeP :: rest)
    else (replaceFirst nodeP newNodeP rest).map (fun rest1 => first :: rest1)

/-- The two statements `auto iter = std::find(...); *iter = newNodeP;` on the adjacency list
`side` of the node at the address `neighbourP`. -/
def redirect (side : Side) (nodeP newNodeP neighbourP : Nat) (g : LocationGraph) :
    Option LocationGraph :=
  match g.nodePs[neighbourP]? with
  | none => none
  | some neighbour =>
    match replaceFirst nodeP newNodeP (neighbour.nodesPs side) with
    | none => none
    | some nodesPs => some (g.setNode neighbourP (neighbour.setNodesPs side nodesPs))

/-- The loop over the neighbours on the far side of the cut node: in the list `side` of
every one of them the cut node is overwritten by the new node. -/
def redirectAll (side : Side) (nodeP newNodeP : Nat) :
    List Nat → LocationGraph → Option LocationGraph
  | [], g => some g
  | neighbourP :: rest, g =>
    match redirect side nodeP newNodeP neighbourP g with
    | none => none
    | some g1 => redirectAll side nodeP newNodeP rest g1

/-- The loop over the neighbours on a side `listSide` perpendicular to the cut: a neighbour
that reaches beyond the cut is appended to the list `listSide` of the new node, and in its
list `oppositeSide` the cut node is overwritten by the new node. -/
def moveNeighbours (listSide oppositeSide : Side) (beyond : LocationGraphNode → Bool)
    (nodeP newNodeP : Nat) : List Nat → LocationGraph → Option LocationGraph
  | [], g => some g
  | neighbourP :: rest, g =>
    match g.nodePs[neighbourP]?, g.nodePs[newNodeP]? with
    | some neighbour, some newNode =>
      if beyond neighbour then
        match redirect oppositeSide nodeP newNodeP neighbourP
            (g.setNode newNodeP
              (newNode.setNodesPs listSide (newNode.nodesPs listSide ++ [neighbourP]))) with
        | none => none
        | some g1 => moveNeighbours listSide oppositeSide beyond nodeP newNodeP rest g1
      else moveNeighbours listSide oppositeSide beyond nodeP newNodeP rest g
    | _, _ => none

/-- The loop that erases from an adjacency list of the cut node the neighbours that lie
beyond the cut: the list that remains. -/
def keptNeighbours (g : LocationGraph) (beyond : LocationGraphNode → Bool) :
    List Nat → Option (List Nat)
  | [] => some []
  | neighbourP :: rest =>
    match g.nodePs[neighbourP]?, keptNeighbours g beyond rest with
    | some neighbour, some kept => some (if beyond neighbour then kept else neighbourP :: kept)
    | _, _ => none

/-- The loop `for (int i = 0; i < node.waterSourcesPs.size(); i++)` that copies the sources
beyond the cut to the new node: the sources and connection points copied. The result is
`none` when `waterSourcesConnectionPoints` is shorter than `waterSourcesPs`. -/
def movedSources (beyond : Point → Bool) : List Nat → List Point → Option (List Nat × List Point)
  | [], _ => some ([], [])
  | _ :: _, [] => none
  | sourceP :: sourcesPs, point :: points =>
    match movedSources beyond sourcesPs points with
    | none => none
    | some (movedPs, movedPoints) =>
      some (if beyond point then (sourceP :: movedPs, point :: movedPoints)
        else (movedPs, movedPoints))

/-- The loop that erases from the cut node the sources beyond the cut: the sources and
connection points that remain. The connection points at positions from
`waterSourcesPs.size()` on are never looked at and remain. -/
def keptSources (beyond : Point → Bool) : List Nat → List Point → Option (List Nat × List Point)
  | [], points => some ([], points)
  | _ :: _, [] => none
  | sourceP :: sourcesPs, point :: points =>
    match keptSources beyond sourcesPs points with
    | none => none
    | some (keptPs, keptPoints) =>
      some (if beyond point then (keptPs, keptPoints)
        else (sourceP :: keptPs, point :: keptPoints))

/-- The statements of `separateNodeX` and of `separateNodeY` that copy the sources and the
destination beyond the cut from the node at `nodeP` to the node at `newNodeP`. -/
def copyObjects (beyond : Point → Bool) (nodeP newNodeP : Nat) (g : LocationGraph) :
    Option LocationGraph :=
  match g.nodePs[nodeP]?, g.nodePs[newNodeP]? with
  | some node, some newNode =>
    match movedSources beyond node.waterSourcesPs node.waterSourcesConnectionPoints with
    | none => none
    | some (movedPs, movedPoints) =>
      some (g.setNode newNodeP
        { newNode with
          waterSourcesPs := newNode.waterSourcesPs ++ movedPs
          waterSourcesConnectionPoints := newNode.waterSourcesConnectionPoints ++ movedPoints
          waterDestinationP :=
            match node.waterDestinationP with
            | some waterDestination =>
              if beyond waterDestination.point then some waterDestination
              else newNode.waterDestinationP
            | none => newNode.waterDestinationP })
  | _, _ => none

/-- The destination pointer of the cut node after
`if (node.waterDestinationP != nullptr && beyond the cut) node.waterDestinationP = nullptr`. -/
def keptDestination (beyond : Point → Bool) (node : LocationGraphNode) : Option WaterDestination :=
  match node.waterDestinationP with
  | some waterDestination => if beyond waterDestination.point then none else some waterDestination
  | none => none


/-- The statements of `separateNodeX` up to the first loop: the new node, the right half, is
created with a new id, appended to `nodePs` and entered into `nodePForId`; its left list
receives the cut node and its right list is the right list of the cut node. -/
def separateNodeXCreate (separationX : CalcNumber) (nodeP : Nat) (g : LocationGraph) :
    Option LocationGraph :=
  let (newId, g1) := g.generateNewNodeId
  match g1.nodePs[nodeP]? with
  | none => none
  | some node =>
    some { g1 with
      nodePs := g1.nodePs ++
        [{ LocationGraphNode.new newId separationX node.right node.bottom node.top with
          leftNodesPs := [nodeP], rightNodesPs := node.rightNodesPs }]
      nodePForId := mapAssign g1.nodePForId newId g1.nodePs.length }

/-- The statements of `separateNodeX` after the comment "the existing node (the left one) is
corrected". The bounds of the neighbours read by the erasing loops are not changed by the
assignment `node.right = separationX`. -/
def separateNodeXShrink (separationX : CalcNumber) (nodeP newNodeP : Nat) (g : LocationGraph) :
    Option LocationGraph :=
  match g.nodePs[nodeP]? with
  | none => none
  | some node =>
    let beyond := fun (neighbour : LocationGraphNode) => decide (neighbour.left > separationX)
    match keptNeighbours g beyond node.bottomNodesPs, keptNeighbours g beyond node.topNodesPs,
      keptSources (fun point => decide (point.x > separationX)) node.waterSourcesPs
        node.waterSourcesConnectionPoints with
    | some bottomNodesPs, some topNodesPs, some (sourcesPs, points) =>
      some (g.setNode nodeP
        { node with
          right := separationX
          rightNodesPs := [newNodeP]
          bottomNodesPs := bottomNodesPs
          topNodesPs := topNodesPs
          waterSourcesPs := sourcesPs
          waterSourcesConnectionPoints := points
          waterDestinationP :=
            keptDestination (fun point => decide (point.x > separationX)) node })
    | _, _, _ => none

/-- The list `nodesPs side` of the node at the address `nodeP`, read when a loop over it
starts. -/
def neighboursOf (g : LocationGraph) (nodeP : Nat) (side : Side) : Option (List Nat) :=
  g.nodePs[nodeP]?.map (fun node => node.nodesPs side)

/-- The method `separateNodeX` for the node at the address `nodeP`; the new node has the
address `nodePs.size()` of the call. The result is `none` when a neighbour of the cut node
does not list the cut node on the opposite side, so that `*iter = newNodeP` writes through
`end()`, or when the node has fewer connection points than sources. -/
def separateNodeX (g : LocationGraph) (nodeP : Nat) (separationX : CalcNumber) :
    Option LocationGraph :=
  let newNodeP := g.nodePs.length
  let beyond := fun (neighbour : LocationGraphNode) => decide (neighbour.right > separationX)
  (separateNodeXCreate separationX nodeP g).bind fun g1 =>
  (g1.neighboursOf nodeP .right).bind fun rightNodesPs =>
  (redirectAll .left nodeP newNodeP rightNodesPs g1).bind fun g2 =>
  (g2.neighboursOf nodeP .bottom).bind fun bottomNodesPs =>
  (moveNeighbours .bottom .top beyond nodeP newNodeP bottomNodesPs g2).bind fun g3 =>
  (g3.neighboursOf nodeP .top).bind fun topNodesPs =>
  (moveNeighbours .top .bottom beyond nodeP newNodeP topNodesPs g3).bind fun g4 =>
  (copyObjects (fun point => decide (point.x > separationX)) nodeP newNodeP g4).bind fun g5 =>
  separateNodeXShrink separationX nodeP newNodeP g5

/-- The statements of `separateNodeY` up to the first loop: the new node, the top half, is
created with a new id, appended to `nodePs` and entered into `nodePForId`. -/
def separateNodeYCreate (separationY : CalcNumber) (nodeP : Nat) (g : LocationGraph) :
    Option LocationGraph :=
  let (newId, g1) := g.generateNewNodeId
  match g1.nodePs[nodeP]? with
  | none => none
  | some node =>
    some { g1 with
      nodePs := g1.nodePs ++
        [LocationGraphNode.new newId node.left node.right separationY node.top]
      nodePForId := mapAssign g1.nodePForId newId g1.nodePs.length }

/-- The statements `newNodeP->bottomNodesPs.push_back(&node); newNodeP->topNodesPs =
node.topNodesPs;` of `separateNodeY`. -/
def separateNodeYLink (nodeP newNodeP : Nat) (g : LocationGraph) : Option LocationGraph :=
  match g.nodePs[nodeP]?, g.nodePs[newNodeP]? with
  | some node, some newNode =>
    some (g.setNode newNodeP
      { newNode with
        bottomNodesPs := newNode.bottomNodesPs ++ [nodeP]
        topNodesPs := node.topNodesPs })
  | _, _ => none

/-- The statements of `separateNodeY` after the comment "the existing node (the bottom one)
is corrected". -/
def separateNodeYShrink (separationY : CalcNumber) (nodeP newNodeP : Nat) (g : LocationGraph) :
    Option LocationGraph :=
  match g.nodePs[nodeP]? with
  | none => none
  | some node =>
    let beyond := fun (neighbour : LocationGraphNode) => decide (neighbour.bottom > separationY)
    match keptNeighbours g beyond node.leftNodesPs, keptNeighbours g beyond node.rightNodesPs,
      keptSources (fun point => decide (point.y > separationY)) node.waterSourcesPs
        node.waterSourcesConnectionPoints with
    | some leftNodesPs, some rightNodesPs, some (sourcesPs, points) =>
      some (g.setNode nodeP
        { node with
          top := separationY
          leftNodesPs := leftNodesPs
          rightNodesPs := rightNodesPs
          topNodesPs := [newNodeP]
          waterSourcesPs := sourcesPs
          waterSourcesConnectionPoints := points
          waterDestinationP :=
            keptDestination (fun point => decide (point.y > separationY)) node })
    | _, _, _ => none

/-- The method `separateNodeY` for the node at the address `nodeP`; the new node has the
address `nodePs.size()` of the call. -/
def separateNodeY (g : LocationGraph) (nodeP : Nat) (separationY : CalcNumber) :
    Option LocationGraph :=
  let newNodeP := g.nodePs.length
  let beyond := fun (neighbour : LocationGraphNode) => decide (neighbour.top > separationY)
  (separateNodeYCreate separationY nodeP g).bind fun g1 =>
  (g1.neighboursOf nodeP .left).bind fun leftNodesPs =>
  (moveNeighbours .left .right beyond nodeP newNodeP leftNodesPs g1).bind fun g2 =>
  (g2.neighboursOf nodeP .right).bind fun rightNodesPs =>
  (moveNeighbours .right .left beyond nodeP newNodeP rightNodesPs g2).bind fun g3 =>
  (separateNodeYLink nodeP newNodeP g3).bind fun g4 =>
  (g4.neighboursOf nodeP .top).bind fun topNodesPs =>
  (redirectAll .bottom nodeP newNodeP topNodesPs g4).bind fun g5 =>
  (copyObjects (fun point => decide (point.y > separationY)) nodeP newNodeP g5).bind fun g6 =>
  separateNodeYShrink separationY nodeP newNodeP g6

/-- The call `separateNodeX(*nodeP, separationX)` or `separateNodeY(*nodeP, separationY)`
made by `separateWaterSources`. -/
def separateNode (g : LocationGraph) (nodeP : Nat) : Separation → Option LocationGraph
  | .alongX separationX => g.separateNodeX nodeP separationX
  | .alongY separationY => g.separateNodeY nodeP separationY

/-- The loop of `recalculateWaterDestinationNodeP` from the node at the address `nodeP` on;
`result` is the value of `waterDestinationNodeP`. -/
def recalculateLoop : List LocationGraphNode → Nat → Option Nat → Option Nat
  | [], _, result => result
  | locationNodeP :: rest, nodeP, result =>
    recalculateLoop rest (nodeP + 1)
      (if locationNodeP.waterDestinationP ≠ none then some nodeP else result)

/-- The method `recalculateWaterDestinationNodeP`. -/
def recalculateWaterDestinationNodeP (g : LocationGraph) : LocationGraph :=
  { g with waterDestinationNodeP := recalculateLoop g.nodePs 0 g.waterDestinationNodeP }


/-- The loop over the nodes in `separateWaterSources`, from the node at the address `nodeP`
on: the address of the first node to cut, with the cut. -/
def findNodeToSeparate (g : LocationGraph) :
    List LocationGraphNode → Nat → Option (Option (Nat × Separation))
  | [], _ => some none
  | node :: rest, nodeP =>
    match nodeSeparation g node with
    | none => none
    | some (some separation) => some (some (nodeP, separation))
    | some none => findNodeToSeparate g rest (nodeP + 1)


/-- The `while (successSeparation)` loop of `separateWaterSources`, cut after `fuel` passes:
a pass looks for the first node to cut, cuts it and starts the next pass, or ends the loop
when there is no node to cut. The result is `none` when the loop has not ended after `fuel`
passes. -/
def separateWaterSourcesLoop : Nat → LocationGraph → Option (Outcome Unit)
  | 0, _ => none
  | fuel + 1, g =>
    match findNodeToSeparate g g.nodePs 0 with
    | none => some .undefined
    | some none => some (.ok () g)
    | some (some (nodeP, separation)) =>
      match g.separateNode nodeP separation with
      | none => some .undefined
      | some g1 => separateWaterSourcesLoop fuel g1

/-- The method `separateWaterSources`, with at most `fuel` passes of its loop. -/
def separateWaterSources (fuel : Nat) (g : LocationGraph) : Option (Outcome Unit) :=
  match separateWaterSourcesLoop fuel g with
  | none => none
  | some (.ok _ g1) => some (.ok () g1.recalculateWaterDestinationNodeP)
  | some (.exception e g1) => some (.exception e g1)
  | some .undefined => some .undefined


end LocationGraph

/-! ## Reading the water connection objects -/

/-- A data line of the CSV file read by `loadObjectsFromFile` whose fields were all read
without an error: the line of a source, for which the loop executes
`waterSources.push_back(WaterSource(...))`, or the line of a destination. -/
inductive ObjectLine where
  | source (waterSource : WaterSource)
  | destination (waterDestination : WaterDestination)
deriving DecidableEq

namespace WaterConnectionObjects

/-- Step 1 of `loadObjectsFromFile` on the data lines of the file, in file order. -/
def readLines : List ObjectLine → WaterConnectionObjects → Except Exception WaterConnectionObjects
  | [], objects => .ok objects
  | .source waterSource :: lines, objects =>
    readLines lines { objects with waterSources := objects.waterSources ++ [waterSource] }
  | .destination waterDestination :: lines, objects =>
    if objects.waterDestinationIsSet then .error .severalDestinationsInFile
    else readLines lines
      { objects with waterDestination := waterDestination, waterDestinationIsSet := true }

/-- The body of the inner loop of step 2 of `loadObjectsFromFile` for the counters `i` and
`j`: the two sources are exchanged when `waterSources[i].diameter() <
waterSources[j].diameter()`. -/
def exchangeSources (i j : Nat) (waterSources : List WaterSource) : List WaterSource :=
  match waterSources[i]?, waterSources[j]? with
  | some sourceI, some sourceJ =>
    if sourceI.diameter < sourceJ.diameter then (waterSources.set i sourceJ).set j sourceI
    else waterSources
  | _, _ => waterSources

/-- Step 2 of `loadObjectsFromFile`: the outer counter `i` runs from `0` to
`waterSources.size() - 2`, the inner counter `j` from `1` to `waterSources.size() - 1`. The
vector is not empty when the step is reached. -/
def sortWaterSources (waterSources : List WaterSource) : List WaterSource :=
  let size := waterSources.length
  (List.range (size - 1)).foldl
    (fun sources i =>
      (List.range' 1 (size - 1)).foldl (fun sources j => exchangeSources i j sources) sources)
    waterSources

/-- The method `loadObjectsFromFile`, from the data lines of the file on. -/
def loadObjectsFromFile (self : WaterConnectionObjects) (lines : List ObjectLine) :
    Except Exception WaterConnectionObjects :=
  match readLines lines { self with waterSources := [], waterDestinationIsSet := false } with
  | .error e => .error e
  | .ok objects =>
    if objects.waterSources.isEmpty then .error .noSourcesInFile
    else if objects.waterDestinationIsSet == false then .error .noDestinationInFile
    else .ok { objects with waterSources := sortWaterSources objects.waterSources }

/-- The constructor `WaterConnectionObjects()`: the empty set of objects. -/
def new : WaterConnectionObjects :=
  { waterSources := [], waterDestination := ⟨"", ⟨0, 0, 0⟩, 1⟩, waterDestinationIsSet := false }

end WaterConnectionObjects


/-! ## Points, lines and linear systems -/

namespace Point

/-- The constructor `Point()`: the origin. -/
def origin : Point := ⟨0, 0, 0⟩

/-- The operator `+` of two points. -/
def add (self anotherPoint : Point) : Point :=
  ⟨self.x + anotherPoint.x, self.y + anotherPoint.y, self.z + anotherPoint.z⟩

/-- The operator `-` of two points. -/
def sub (self anotherPoint : Point) : Point :=
  ⟨self.x - anotherPoint.x, self.y - anotherPoint.y, self.z - anotherPoint.z⟩

/-- The operator `*` of a point and a number. -/
def mul (self : Point) (number : CalcNumber) : Point :=
  ⟨self.x * number, self.y * number, self.z * number⟩

/-- The operator `/` of a point and a number. The quotient by zero is not a number of the
embedding: `none`. -/
def div (self : Point) (number : CalcNumber) : Option Point :=
  if number = 0 then none else some ⟨self.x / number, self.y / number, self.z / number⟩

/-- The method `scalarProdWith`. -/
def scalarProdWith (self secondPoint : Point) : CalcNumber :=
  self.x * secondPoint.x + self.y * secondPoint.y + self.z * secondPoint.z

/-- The method `length`: `sqrt(x * x + y * y + z * z)`. The function `sqrt` of the C library
is a parameter of the embedding. -/
def length (sqrt : CalcNumber → CalcNumber) (self : Point) : CalcNumber :=
  sqrt (self.x * self.x + self.y * self.y + self.z * self.z)

end Point

/-- A `Line` of `Geometry&Matrices/Line.hpp`: the two points given to the constructor. -/
structure Line where
  a : Point
  b : Point
deriving DecidableEq

namespace Line

/-- The constructor `Line(a, b)`; `none` is the failed `assert(a != b)`. -/
def new (a b : Point) : Option Line :=
  if a ≠ b then some ⟨a, b⟩ else none

/-- The method `directionVector`: the vector from `a` to `b` divided by its length. -/
def directionVector (sqrt : CalcNumber → CalcNumber) (self : Line) : Option Point :=
  let directionVector : Point :=
    ⟨self.b.x - self.a.x, self.b.y - self.a.y, self.b.z - self.a.z⟩
  directionVector.div (directionVector.length sqrt)

end Line

/-- A row `tempMatrix[k]` of the matrix of `solveSoLE3x3WithNonZeroDeterminant` together with
the entry `rightPart[k]`. -/
structure SoLERow where
  c0 : CalcNumber
  c1 : CalcNumber
  c2 : CalcNumber
  rightPart : CalcNumber
deriving DecidableEq

namespace SoLESolver

/-- The entry `tempMatrix[k][j]` of the row `k`. -/
def entry (row : SoLERow) (j : Nat) : CalcNumber :=
  if j = 0 then row.c0 else if j = 1 then row.c1 else row.c2

/-- Step 3.1 for the column `i`: the position of the first row `k >= i` with
`tempMatrix[k][i] != 0`; `none` is the `assert(false)` reached when there is none. -/
def pivotRow (i : Nat) (rows : List SoLERow) : Option Nat :=
  (List.range' i (3 - i)).find? (fun k => (rows[k]?.map (fun row => entry row i)).getD 0 ≠ 0)

/-- Step 3.2 for the column `i` and one row `k > i`: the row after
`tempMatrix[k][i] = 0`, `tempMatrix[k][j] -= tempMatrix[i][j] * coef` for `j > i` and
`rightPart[k] -= rightPart[i] * coef`. -/
def eliminate (i : Nat) (rowI rowK : SoLERow) : SoLERow :=
  let coef := entry rowK i / entry rowI i
  let newEntry := fun j =>
    if j = i then 0 else if i < j then entry rowK j - entry rowI j * coef else entry rowK j
  ⟨newEntry 0, newEntry 1, newEntry 2, rowK.rightPart - rowI.rightPart * coef⟩

/-- Step 3 for the column `i`: the exchange of the rows `i` and `k` of step 3.1 followed by
the eliminations of step 3.2. -/
def gaussStep (i : Nat) (rows : List SoLERow) : Option (List SoLERow) :=
  match pivotRow i rows with
  | none => none
  | some k =>
    match rows[i]?, rows[k]? with
    | some rowI, some rowK =>
      let rows1 := (rows.set i rowK).set k rowI
      some (rows1.mapIdx (fun n row => if i < n then eliminate i rowK row else row))
    | _, _ => none

/-- The method `SoLESolver::solveSoLE3x3WithNonZeroDeterminant`. -/
def solveSoLE3x3WithNonZeroDeterminant (a11 a12 a13 b1 a21 a22 a23 b2 a31 a32 a33 b3 : CalcNumber) :
    Option Point :=
  match (gaussStep 0 [⟨a11, a12, a13, b1⟩, ⟨a21, a22, a23, b2⟩, ⟨a31, a32, a33, b3⟩]).bind
      (fun rows => (gaussStep 1 rows).bind (gaussStep 2)) with
  | some [row0, row1, row2] =>
    let z := row2.rightPart / row2.c2
    let y := (row1.rightPart - row1.c2 * z) / row1.c1
    let x := (row0.rightPart - row0.c1 * y - row0.c2 * z) / row0.c0
    some ⟨x, y, z⟩
  | _ => none

end SoLESolver


/-- The method `Line::projectionForPoint`: the solution of the system that the method hands
to the solver, for the direction vector `lineDirection` of the line. The result is `none` when
the direction vector is not a number or the solver reaches `assert(false)`. -/
def Line.projectionForPoint (sqrt : CalcNumber → CalcNumber) (self : Line) (point : Point) :
    Option Point :=
  match self.directionVector sqrt with
  | none => none
  | some lineDirection =>
    let ldx := lineDirection.x
    let ldy := lineDirection.y
    let ldz := lineDirection.z
    SoLESolver.solveSoLE3x3WithNonZeroDeterminant
      ldy (-ldx) 0 (ldy * self.a.x - ldx * self.a.y)
      ldz 0 (-ldx) (ldz * self.a.x - ldx * self.a.z)
      ldx ldy ldz (lineDirection.scalarProdWith point)



/-! ## Track nodes -/

/-- The struct `PipeTrackNode`. Pointers to track nodes are positions in `PipeTrack.nodePs`.
A direction is `none` when the constructor divided the zero vector by its length. -/
structure PipeTrackNode where
  type : PipeObjectType
  pipeObjectP : Option PipeObject
  centerPoint : Point
  startPoint : Point
  endPoint : Point
  baseDirection : Option Point
  secondDirection : Option Point
  thirdDirection : Option Point
  nextNodeP : Option Nat := none
  basePrevNodeP : Option Nat := none
  secondPrevNodeP : Option Nat := none
  thirdPrevNodeP : Option Nat := none
deriving DecidableEq

namespace PipeTrackNode

/-- The constructor of `PipeTrackNode`: the three directions are divided by their lengths,
the four pointers are `nullptr`. -/
def new (sqrt : CalcNumber → CalcNumber) (type : PipeObjectType)
    (pipeObjectP : Option PipeObject)
    (centerPoint startPoint endPoint baseDirection secondDirection thirdDirection : Point) :
    PipeTrackNode :=
  { type := type, pipeObjectP := pipeObjectP, centerPoint := centerPoint,
    startPoint := startPoint, endPoint := endPoint,
    baseDirection := baseDirection.div (baseDirection.length sqrt),
    secondDirection := secondDirection.div (secondDirection.length sqrt),
    thirdDirection := thirdDirection.div (thirdDirection.length sqrt) }

/-- The method `calculateCost`; `none` is the dereference of `pipeObjectP == nullptr`. -/
def calculateCost (sqrt : CalcNumber → CalcNumber) (self : PipeTrackNode) : Option CalcNumber :=
  match self.pipeObjectP with
  | none => none
  | some pipeObject =>
    match self.type with
    | .direct => some (pipeObject.cost * (self.endPoint.sub self.startPoint).length sqrt)
    | .fan => some (pipeObject.cost * (self.endPoint.sub self.startPoint).length sqrt)
    | .reduction => some pipeObject.cost
    | .angle => some pipeObject.cost
    | .tee => some pipeObject.cost
    | .cross => some pipeObject.cost

/-- The method `calculateNormal2D`; `none` is the failed `assert(x != 0 || y != 0)` or a
division by a zero length. -/
def calculateNormal2D (sqrt : CalcNumber → CalcNumber) (vector : Point) : Option Point :=
  let x := vector.x
  let y := vector.y
  if x ≠ 0 ∨ y ≠ 0 then
    let resultVector : Point := if x ≠ 0 then ⟨-y / x, 1, 0⟩ else ⟨1, -x / y, 0⟩
    resultVector.div (resultVector.length sqrt)
  else none

/-- Step 3 of the first case of `rectanglesAreIntersected`, for the bounds of the two
rectangles. -/
def axisRectanglesAreIntersected (left1 right1 bottom1 top1 left2 right2 bottom2 top2 : CalcNumber) :
    Bool :=
  if left1 = left2 ∨ right1 = right2 then
    if bottom1 = bottom2 ∨ top1 = top2 then true
    else if bottom1 < bottom2 then decide (top1 > bottom2)
    else decide (bottom1 < top2)
  else if top1 = top2 ∨ bottom1 = bottom2 then
    if left1 = left2 ∨ right1 = right2 then true
    else if left1 < left2 then decide (right1 > left2)
    else decide (left1 < right2)
  else
    decide ((left1 < left2 ∧ left2 < right1 ∧ bottom1 < bottom2 ∧ bottom2 < top1)
      ∨ (left1 < left2 ∧ left2 < right1 ∧ bottom1 < top2 ∧ top2 < top1)
      ∨ (left1 < right2 ∧ right2 < right1 ∧ bottom1 < bottom2 ∧ bottom2 < top1)
      ∨ (left1 < right2 ∧ right2 < right1 ∧ bottom1 < top2 ∧ top2 < top1)
      ∨ (left2 < left1 ∧ left1 < right2 ∧ bottom2 < bottom1 ∧ bottom1 < top2)
      ∨ (left2 < left1 ∧ left1 < right2 ∧ bottom2 < top1 ∧ top1 < top2)
      ∨ (left2 < right1 ∧ right1 < right2 ∧ bottom2 < bottom1 ∧ bottom1 < top2)
      ∨ (left2 < right1 ∧ right1 < right2 ∧ bottom2 < top1 ∧ top1 < top2))

/-- The test of one pair of edges in the second case of `rectanglesAreIntersected`. A
quotient by zero is an infinity or not a number in the source, for which the comparison
`0 <= alfa && alfa <= 1 && 0 <= betta && betta <= 1` is false. -/
def edgesAreIntersected (edge1 edge2 : Point × Point) : Bool :=
  let a11 := edge1.1.x - edge1.2.x
  let a12 := edge2.2.x - edge2.1.x
  let a21 := edge1.1.y - edge1.2.y
  let a22 := edge2.2.y - edge2.1.y
  let b1 := edge2.2.x - edge1.2.x
  let b2 := edge2.2.y - edge1.2.y
  if a11 * b2 - a21 * b1 = 0 ∨ a11 = 0 then false
  else
    let betta := (a11 * a22 - a21 * a12) / (a11 * b2 - a21 * b1)
    let alfa := (b1 - a12 * betta) / a11
    decide (0 ≤ alfa ∧ alfa ≤ 1 ∧ 0 ≤ betta ∧ betta ≤ 1)

/-- The method `rectanglesAreIntersected`. The direction that selects the case is computed
from the members `startPoint` and `endPoint` of the node, as in the source, and so are the
bounds of the first case; the second case uses the arguments. -/
def rectanglesAreIntersected (sqrt : CalcNumber → CalcNumber) (self : PipeTrackNode)
    (startPoint1 endPoint1 : Point) (width1 left2 right2 bottom2 top2 : CalcNumber) :
    Option Bool :=
  let direction := self.endPoint.sub self.startPoint
  if direction.x = 0 ∨ direction.y = 0 then
    let left1 := if direction.x = 0 then self.startPoint.x - width1 / 2
      else min self.startPoint.x self.endPoint.x
    let right1 := if direction.x = 0 then self.startPoint.x + width1 / 2
      else max self.startPoint.x self.endPoint.x
    let bottom1 := if direction.x = 0 then min self.startPoint.y self.endPoint.y
      else self.startPoint.y - width1 / 2
    let top1 := if direction.x = 0 then max self.startPoint.y self.endPoint.y
      else self.startPoint.y + width1 / 2
    if left1 ≥ right2 ∨ right1 ≤ left2 ∨ bottom1 ≥ top2 ∨ top1 ≤ bottom2 then some false
    else some (axisRectanglesAreIntersected left1 right1 bottom1 top1 left2 right2 bottom2 top2)
  else
    let left1WithReserve := min startPoint1.x endPoint1.x - width1
    let right1WithReserve := max startPoint1.x endPoint1.x + width1
    let bottom1WithReserve := min startPoint1.y endPoint1.y - width1
    let top1WithReserve := max startPoint1.y endPoint1.y + width1
    if left1WithReserve ≥ right2 ∨ right1WithReserve ≤ left2 ∨ bottom1WithReserve ≥ top2
        ∨ top1WithReserve ≤ bottom2 then some false
    else
      let direction1 := endPoint1.sub startPoint1
      match calculateNormal2D sqrt direction1 with
      | none => none
      | some unitNormal =>
        let normal1 := unitNormal.mul (width1 / 2)
        let edges1 : List (Point × Point) :=
          [(startPoint1.add normal1, startPoint1.sub normal1),
            (endPoint1.add normal1, endPoint1.sub normal1),
            (startPoint1.add normal1, endPoint1.add normal1),
            (startPoint1.sub normal1, endPoint1.sub normal1)]
        let edges2 : List (Point × Point) :=
          [(⟨left2, bottom2, 0⟩, ⟨left2, top2, 0⟩), (⟨right2, bottom2, 0⟩, ⟨right2, top2, 0⟩),
            (⟨left2, bottom2, 0⟩, ⟨right2, bottom2, 0⟩), (⟨left2, top2, 0⟩, ⟨right2, top2, 0⟩)]
        some (edges1.any (fun edge1 => edges2.any (fun edge2 => edgesAreIntersected edge1 edge2)))

end PipeTrackNode


namespace PipeTrackNode

/-- The value `pipeObjectP->externalDiameterForDiameterP->find(diameter)->second`; `none`
when the pointer to the map is `nullptr` or the diameter is not a key of the map. -/
def externalDiameter (pipeObject : PipeObject) (diameter : Nat) : Option Nat :=
  pipeObject.externalDiameterForDiameterP.bind (fun map => map.lookup diameter)

/-- The disjunction `a || b` of two calls of `rectanglesAreIntersected`: the second call is
made when the first returns `false`. -/
def orElseRectangles (first : Option Bool) (second : Unit → Option Bool) : Option Bool :=
  match first with
  | none => none
  | some true => some true
  | some false => second ()

/-- The method `isIntersectedWithRectangle`. The result is `none` when `pipeObjectP` is
`nullptr`, when the object it points to is not of the class of the `static_cast`, when an
external diameter is looked up in vain, or when a direction used is not a number. -/
def isIntersectedWithRectangle (sqrt : CalcNumber → CalcNumber) (self : PipeTrackNode)
    (left right bottom top : CalcNumber) : Option Bool :=
  let straight := fun (diameter : Nat) (pipeObject : PipeObject) =>
    (externalDiameter pipeObject diameter).bind (fun externalDiameter =>
      self.rectanglesAreIntersected sqrt self.startPoint self.endPoint externalDiameter
        left right bottom top)
  match self.pipeObjectP with
  | none => none
  | some pipeObject =>
    match self.type, pipeObject.data with
    | .direct, .direct diameter => straight diameter pipeObject
    | .fan, .fan diameter => straight diameter pipeObject
    | .reduction, .reduction fDiameter => straight fDiameter pipeObject
    | .angle, .angle diameter fLength mLength =>
      match externalDiameter pipeObject diameter, self.baseDirection with
      | some externalDiameter, some baseDirection =>
        orElseRectangles
          (self.rectanglesAreIntersected sqrt self.centerPoint
            (self.centerPoint.add (baseDirection.mul fLength)) externalDiameter
            left right bottom top)
          (fun _ => self.secondDirection.bind (fun secondDirection =>
            self.rectanglesAreIntersected sqrt self.centerPoint
              (self.centerPoint.sub (secondDirection.mul mLength)) externalDiameter
              left right bottom top))
      | _, _ => none
    | .tee, .tee baseDiameter extraDiameter fLength baseMLength extraMLength =>
      match externalDiameter pipeObject baseDiameter, externalDiameter pipeObject extraDiameter,
        self.baseDirection with
      | some baseExternalDiameter, some extraExternalDiameter, some baseDirection =>
        orElseRectangles
          (self.rectanglesAreIntersected sqrt (self.centerPoint.add (baseDirection.mul fLength))
            (self.centerPoint.sub (baseDirection.mul baseMLength)) baseExternalDiameter
            left right bottom top)
          (fun _ => self.secondDirection.bind (fun secondDirection =>
            self.rectanglesAreIntersected sqrt self.centerPoint
              (self.centerPoint.sub (secondDirection.mul extraMLength)) extraExternalDiameter
              left right bottom top))
      | _, _, _ => none
    | .cross, .cross baseDiameter secondDiameter thirdDiameter fLength baseMLength
        secondMLength thirdMLength =>
      match externalDiameter pipeObject baseDiameter, externalDiameter pipeObject secondDiameter,
        externalDiameter pipeObject thirdDiameter, self.baseDirection with
      | some baseExternalDiameter, some secondExternalDiameter, some thirdExternalDiameter,
          some baseDirection =>
        orElseRectangles
          (self.rectanglesAreIntersected sqrt (self.centerPoint.add (baseDirection.mul fLength))
            (self.centerPoint.sub (baseDirection.mul baseMLength)) baseExternalDiameter
            left right bottom top)
          (fun _ => orElseRectangles
            (self.secondDirection.bind (fun secondDirection =>
              self.rectanglesAreIntersected sqrt self.centerPoint
                (self.centerPoint.sub (secondDirection.mul secondMLength))
                secondExternalDiameter left right bottom top))
            (fun _ => self.thirdDirection.bind (fun thirdDirection =>
              self.rectanglesAreIntersected sqrt self.centerPoint
                (self.centerPoint.sub (thirdDirection.mul thirdMLength))
                thirdExternalDiameter left right bottom top)))
      | _, _, _, _ => none
    | _, _ => none

/-- The method `calculateNearestCenterPoint2D`; `none` is the failed `assert(a != b)` of the
constructor of `Line`, a direction vector that is not a number, or the failed assertion of
the solver. -/
def calculateNearestCenterPoint2D (sqrt : CalcNumber → CalcNumber) (self : PipeTrackNode)
    (point : Point) : Option Point :=
  match self.type with
  | .angle => some self.centerPoint
  | .tee => some self.centerPoint
  | .cross => some self.centerPoint
  | _ =>
    let startPoint : Point := ⟨self.startPoint.x, self.startPoint.y, 0⟩
    let endPoint : Point := ⟨self.endPoint.x, self.endPoint.y, 0⟩
    match Line.new startPoint endPoint with
    | none => none
    | some line =>
      match line.directionVector sqrt with
      | none => none
      | some lineDirection =>
        let lineProj : Option Point :=
          if lineDirection.x = 0 then some ⟨startPoint.x, point.y, 0⟩
          else if lineDirection.y = 0 then some ⟨point.x, startPoint.y, 0⟩
          else
            let ldx := lineDirection.x
            let ldy := lineDirection.y
            let ldz := lineDirection.z
            SoLESolver.solveSoLE3x3WithNonZeroDeterminant
              ldy (-ldx) 0 (ldy * startPoint.x - ldx * startPoint.y)
              0 0 1 0
              ldx ldy ldz (lineDirection.scalarProdWith point)
        match lineProj with
        | none => none
        | some lineProj =>
          let startEndLength := (endPoint.sub startPoint).length sqrt
          let startProjLength := (lineProj.sub startPoint).length sqrt
          let projEndLength := (endPoint.sub lineProj).length sqrt
          if max startProjLength projEndLength ≤ startEndLength then some lineProj
          else if max startEndLength projEndLength ≤ startProjLength then some endPoint
          else some startPoint

end PipeTrackNode

/-! ## The track -/

/-- The struct `PipeTrack`: the nodes in the order of their creation and the pointer to the
root node. -/
structure PipeTrack where
  nodePs : List PipeTrackNode := []
  rootNodeP : Option Nat := none
deriving DecidableEq

namespace PipeTrack

/-- The constructor `PipeTrack(viewP)`: the empty track. -/
def new : PipeTrack := {}

/-- The method `createNodeAndReturnP`: the new node is appended; the pointer returned is its
position. -/
def createNodeAndReturnP (sqrt : CalcNumber → CalcNumber) (self : PipeTrack)
    (type : PipeObjectType) (pipeObjectP : Option PipeObject)
    (centerPoint startPoint endPoint baseDirection secondDirection thirdDirection : Point) :
    Nat × PipeTrack :=
  (self.nodePs.length,
    { self with nodePs := self.nodePs ++ [PipeTrackNode.new sqrt type pipeObjectP centerPoint
        startPoint endPoint baseDirection secondDirection thirdDirection] })

/-- The loop of `calculateCost` over the nodes, from the value `resultCost` on. -/
def calculateCostLoop (sqrt : CalcNumber → CalcNumber) :
    List PipeTrackNode → CalcNumber → Option CalcNumber
  | [], resultCost => some resultCost
  | pipeTrackNodeP :: rest, resultCost =>
    match pipeTrackNodeP.calculateCost sqrt with
    | none => none
    | some cost => calculateCostLoop sqrt rest (resultCost + cost)

/-- The method `PipeTrack::calculateCost`. -/
def calculateCost (sqrt : CalcNumber → CalcNumber) (self : PipeTrack) : Option CalcNumber :=
  calculateCostLoop sqrt self.nodePs 0

end PipeTrack


/-! ## The routing engine -/

/-- How a call of a method of `OptimalPipeTrackFinder` ends: it returns `value`, it throws
`e`, or the execution has no defined behaviour. -/
inductive Result (α : Type) where
  | ok (value : α)
  | exception (e : Exception)
  | undefined
deriving DecidableEq

/-- The members of the class `OptimalPipeTrackFinder` that its methods read and write. -/
structure OptimalPipeTrackFinder where
  waterConnectionObjects : WaterConnectionObjects
  pipeObjectsBag : PipeObjectsBag
  locationGraph : LocationGraph
deriving DecidableEq

/-- The method `LocationGraphNode::adjacentNodes`. -/
def LocationGraphNode.adjacentNodes (self : LocationGraphNode) : List Nat :=
  self.leftNodesPs ++ self.rightNodesPs ++ self.bottomNodesPs ++ self.topNodesPs

/-- A polyline with the track node it ends on; the pointer is `none` when the polyline ends
in the centre of the destination and when the polyline is empty. -/
abbrev Zigzag := List Point × Option Nat

namespace OptimalPipeTrackFinder

/-- The entry `pipeTrackNodesForLocationNode[locationNodeP]` after step 1 of
`connectSourceToPipeTrack`: the addresses of the track nodes, from the address `pipeTrackNodeP`
on, that are intersected with the rectangle of the corridor node. -/
def intersectedPipeTrackNodes (sqrt : CalcNumber → CalcNumber) (locationNode : LocationGraphNode) :
    List PipeTrackNode → Nat → Option (List Nat)
  | [], _ => some []
  | pipeTrackNode :: rest, pipeTrackNodeP =>
    match pipeTrackNode.isIntersectedWithRectangle sqrt locationNode.left locationNode.right
        locationNode.bottom locationNode.top,
      intersectedPipeTrackNodes sqrt locationNode rest (pipeTrackNodeP + 1) with
    | some isIntersected, some nodesPs =>
      some (if isIntersected then pipeTrackNodeP :: nodesPs else nodesPs)
    | _, _ => none

/-- Step 1 of `connectSourceToPipeTrack`: the map `pipeTrackNodesForLocationNode`, as the list
of its values in the order of the corridor nodes. -/
def pipeTrackNodesForLocationNodes (sqrt : CalcNumber → CalcNumber) (pipeTrack : PipeTrack) :
    List LocationGraphNode → Option (List (List Nat))
  | [] => some []
  | locationNode :: rest =>
    match intersectedPipeTrackNodes sqrt locationNode pipeTrack.nodePs 0,
      pipeTrackNodesForLocationNodes sqrt pipeTrack rest with
    | some nodesPs, some others => some (nodesPs :: others)
    | _, _ => none

/-- Step 2 of `connectSourceToPipeTrack`: the loop over the corridor nodes from the address
`locationNodeP` on; the last node that holds the source at the address `sourceP` wins. -/
def findSourceLocationNodeP (sourceP : Nat) : List LocationGraphNode → Nat → Option Nat → Option Nat
  | [], _, sourceLocationNodeP => sourceLocationNodeP
  | locationNode :: rest, locationNodeP, sourceLocationNodeP =>
    findSourceLocationNodeP sourceP rest (locationNodeP + 1)
      (if sourceP ∈ locationNode.waterSourcesPs then some locationNodeP else sourceLocationNodeP)

/-- The method `findAllPathsFromSourceToPipeTrack`, with the depth of the recursion bounded by
`depth`. Every call deeper in the recursion has one more node in `passedNodes`, all of them
distinct, so that a depth above the number of corridor nodes is reached only through a
pointer that is not the address of a node, and that call has no defined behaviour either. -/
def findAllPathsFromSourceToPipeTrack (locationGraph : LocationGraph)
    (pipeTrackNodesForLocationNode : List (List Nat)) :
    Nat → List (List Nat) → List Nat → List Nat → Option (List (List Nat))
  | 0, _, _, _ => none
  | depth + 1, builtPaths, buildingPath, passedNodes =>
    match buildingPath.getLast? with
    | none => none
    | some lastPassedNode =>
      match locationGraph.nodePs[lastPassedNode]? with
      | none => none
      | some lastNode =>
        lastNode.adjacentNodes.foldl
          (fun builtPaths? adjacentNodeP =>
            match builtPaths? with
            | none => none
            | some builtPaths1 =>
              if adjacentNodeP ∈ passedNodes then some builtPaths1
              else findAllPathsFromSourceToPipeTrack locationGraph pipeTrackNodesForLocationNode
                depth builtPaths1 (buildingPath ++ [adjacentNodeP])
                (adjacentNodeP :: passedNodes))
          (some (if (pipeTrackNodesForLocationNode[lastPassedNode]?.getD []).length > 0
              ∨ some lastPassedNode = locationGraph.waterDestinationNodeP then
            builtPaths ++ [buildingPath] else builtPaths))

/-- The loop of `findMinPseudoLengthZigzagFromSourceToPipeTrackAndPipeTrackNodeP` that puts
the entry points of the source at the address `sourceP` into the polyline. -/
def entryPointsOfSource (sourceP : Nat) : List Nat → List Point → Option (List Point)
  | [], _ => some []
  | waterSourceP :: sourcesPs, points =>
    if sourceP = waterSourceP then
      match points with
      | [] => none
      | point :: rest => (entryPointsOfSource sourceP sourcesPs rest).map (fun zigzag => point :: zigzag)
    else entryPointsOfSource sourceP sourcesPs points.tail

/-- The loop of `findMinPseudoLengthZigzagFromSourceToPipeTrackAndPipeTrackNodeP` over the
borders between consecutive nodes of the path, on the part of the path from the current node
on. The result is `some none` when a passage is narrower than the external diameter and the
method returns the empty polyline, and `none` when a pointer of the path is not the address of
a node or the polyline is empty. The flag `isRightLeft` of the source is set and never
read. -/
def zigzagAlongPath (locationGraph : LocationGraph) (externalDiameterHalfed : CalcNumber) :
    List Nat → List Point → Option (Option (List Point))
  | currentNodeP :: nextNodeP :: rest, zigzag =>
    match locationGraph.nodePs[currentNodeP]?, locationGraph.nodePs[nextNodeP]?,
      zigzag.getLast? with
    | some currentNode, some nextNode, some lastAddedPoint =>
      let isLeftRight := decide (nextNodeP ∈ currentNode.rightNodesPs)
      let isTopBottom := decide (nextNodeP ∈ currentNode.bottomNodesPs)
      let isBottomTop := decide (nextNodeP ∈ currentNode.topNodesPs)
      if isBottomTop ∨ isTopBottom then
        let left := max currentNode.left nextNode.left
        let right := min currentNode.right nextNode.right
        if right - left < 2 * externalDiameterHalfed then some none
        else
          let x := if lastAddedPoint.x < left + externalDiameterHalfed then
              left + externalDiameterHalfed
            else if lastAddedPoint.x > right - externalDiameterHalfed then
              right - externalDiameterHalfed
            else lastAddedPoint.x
          let y := if isBottomTop then currentNode.top + externalDiameterHalfed
            else currentNode.bottom - externalDiameterHalfed
          zigzagAlongPath locationGraph externalDiameterHalfed (nextNodeP :: rest)
            (zigzag ++ [⟨x, y, 0⟩])
      else
        let bottom := max currentNode.bottom nextNode.bottom
        let top := min currentNode.top nextNode.top
        if top - bottom < 2 * externalDiameterHalfed then some none
        else
          let y := if lastAddedPoint.y < bottom + externalDiameterHalfed then
              bottom + externalDiameterHalfed
            else if lastAddedPoint.y > top - externalDiameterHalfed then
              top - externalDiameterHalfed
            else lastAddedPoint.y
          let x := if isLeftRight then currentNode.right + externalDiameterHalfed
            else currentNode.left - externalDiameterHalfed
          zigzagAlongPath locationGraph externalDiameterHalfed (nextNodeP :: rest)
            (zigzag ++ [⟨x, y, 0⟩])
    | _, _, _ => none
  | _, zigzag => some (some zigzag)

end OptimalPipeTrackFinder


namespace OptimalPipeTrackFinder

/-- The local variables of the search for the last point of the polyline. -/
structure EndSearch where
  somePointIsFound : Bool := false
  endPoint : Point := Point.origin
  resultPipeTrackNodeP : Option Nat := none
  minDistance : CalcNumber := 999999
deriving DecidableEq

/-- The loop over the track nodes of the last node of the path, `pipeTrackNodesForLocationNode[
endNodeP]`: for a direct or fan pipe whose nearest centre point to the last point of the
polyline lies in the node and is nearer than `minDistance`, that point becomes the end
point. The result is `none` when an address is not the address of a track node or
`calculateNearestCenterPoint2D` has no defined result. -/
def searchPipeTrackNodes (sqrt : CalcNumber → CalcNumber) (pipeTrack : PipeTrack)
    (endNode : LocationGraphNode) (lastAddedPoint : Point) :
    List Nat → EndSearch → Option EndSearch
  | [], search => some search
  | pipeTrackNodeP :: rest, search =>
    match pipeTrack.nodePs[pipeTrackNodeP]? with
    | none => none
    | some pipeTrackNode =>
      if pipeTrackNode.type = .direct ∨ pipeTrackNode.type = .fan then
        match pipeTrackNode.calculateNearestCenterPoint2D sqrt lastAddedPoint with
        | none => none
        | some nearestCenterPoint =>
          if endNode.left ≤ nearestCenterPoint.x ∧ nearestCenterPoint.x ≤ endNode.right
              ∧ endNode.bottom ≤ nearestCenterPoint.y ∧ nearestCenterPoint.y ≤ endNode.top then
            let distance := (lastAddedPoint.sub nearestCenterPoint).length sqrt
            if distance < search.minDistance then
              searchPipeTrackNodes sqrt pipeTrack endNode lastAddedPoint rest
                { somePointIsFound := true, endPoint := nearestCenterPoint,
                  resultPipeTrackNodeP := some pipeTrackNodeP, minDistance := distance }
            else searchPipeTrackNodes sqrt pipeTrack endNode lastAddedPoint rest search
          else searchPipeTrackNodes sqrt pipeTrack endNode lastAddedPoint rest search
      else searchPipeTrackNodes sqrt pipeTrack endNode lastAddedPoint rest search

/-- The check of the destination at the end of
`findMinPseudoLengthZigzagFromSourceToPipeTrackAndPipeTrackNodeP`. -/
def searchDestination (sqrt : CalcNumber → CalcNumber) (endNode : LocationGraphNode)
    (lastAddedPoint : Point) (search : EndSearch) : EndSearch :=
  match endNode.waterDestinationP with
  | none => search
  | some waterDestination =>
    let waterDestinationPoint : Point := ⟨waterDestination.point.x, waterDestination.point.y, 0⟩
    let distanceToDestination := (waterDestinationPoint.sub lastAddedPoint).length sqrt
    if distanceToDestination < search.minDistance then
      { somePointIsFound := true, endPoint := waterDestinationPoint,
        resultPipeTrackNodeP := none, minDistance := distanceToDestination }
    else search

/-- The method `findMinPseudoLengthZigzagFromSourceToPipeTrackAndPipeTrackNodeP` for the
source at the address `sourceP`. The result is `none` when the execution has no defined
behaviour. -/
def findMinPseudoLengthZigzagFromSourceToPipeTrackAndPipeTrackNodeP
    (sqrt : CalcNumber → CalcNumber) (self : OptimalPipeTrackFinder)
    (pathFromSourceToPipeTrack : List Nat) (pipeTrack : PipeTrack) (sourceP : Nat)
    (waterSource : WaterSource) (pipeTrackNodesForLocationNode : List (List Nat)) :
    Option Zigzag :=
  match self.pipeObjectsBag.getExternalDiameter waterSource.diameter,
    pathFromSourceToPipeTrack.head?, pathFromSourceToPipeTrack.getLast? with
  | some externalDiameter, some sourceLocationNodeP, some endNodeP =>
    let externalDiameterHalfed : CalcNumber := ((externalDiameter / 2 : Nat) : CalcNumber)
    match self.locationGraph.nodePs[sourceLocationNodeP]?, self.locationGraph.nodePs[endNodeP]? with
    | some sourceLocationNode, some endNode =>
      match entryPointsOfSource sourceP sourceLocationNode.waterSourcesPs
          sourceLocationNode.waterSourcesConnectionPoints with
      | none => none
      | some zigzag0 =>
        match zigzagAlongPath self.locationGraph externalDiameterHalfed pathFromSourceToPipeTrack
            zigzag0 with
        | none => none
        | some none => some ([], none)
        | some (some zigzag) =>
          match zigzag.getLast? with
          | none => none
          | some lastAddedPoint =>
            match searchPipeTrackNodes sqrt pipeTrack endNode lastAddedPoint
                (pipeTrackNodesForLocationNode[endNodeP]?.getD []) {} with
            | none => none
            | some search1 =>
              let search := searchDestination sqrt endNode lastAddedPoint search1
              if search.somePointIsFound then
                some (zigzag ++ [search.endPoint], search.resultPipeTrackNodeP)
              else some ([], search.resultPipeTrackNodeP)
    | _, _ => none
  | _, _, _ => none

/-- The pseudo-length of a polyline in step 5 of `connectSourceToPipeTrack`, from the value
`zigzagLength` on: the lengths of the segments of the polyline are added one after the
other. -/
def zigzagLengthLoop (sqrt : CalcNumber → CalcNumber) : List Point → CalcNumber → CalcNumber
  | previous :: current :: rest, zigzagLength =>
    zigzagLengthLoop sqrt (current :: rest) (zigzagLength + (current.sub previous).length sqrt)
  | _, zigzagLength => zigzagLength

/-- The pseudo-length that step 5 of `connectSourceToPipeTrack` computes for a polyline:
`999999` for the empty polyline. -/
def zigzagLength (sqrt : CalcNumber → CalcNumber) (zigzag : List Point) : CalcNumber :=
  if zigzag.length = 0 then 999999 else zigzagLengthLoop sqrt zigzag 0

/-- The body of the inner loop of step 5 of `connectSourceToPipeTrack` for the counters `i` and
`j`: the paths and their polylines at the positions `i` and `j` are exchanged when the second
polyline is shorter than the first. -/
def exchangePaths (sqrt : CalcNumber → CalcNumber) (i j : Nat)
    (paths : List (List Nat × Zigzag)) : List (List Nat × Zigzag) :=
  match paths[i]?, paths[j]? with
  | some pathI, some pathJ =>
    if zigzagLength sqrt pathJ.2.1 < zigzagLength sqrt pathI.2.1 then
      (paths.set i pathJ).set j pathI
    else paths
  | _, _ => paths

/-- Step 5 of `connectSourceToPipeTrack` for a non-empty vector of paths: the outer counter `i`
runs from `0` to `size - 2`, the inner counter `j` from `i + 1` to `size - 1`. -/
def sortPaths (sqrt : CalcNumber → CalcNumber) (paths : List (List Nat × Zigzag)) :
    List (List Nat × Zigzag) :=
  let size := paths.length
  (List.range (size - 1)).foldl
    (fun paths1 i =>
      (List.range' (i + 1) (size - (i + 1))).foldl (fun paths2 j => exchangePaths sqrt i j paths2)
        paths1)
    paths

/-- Step 6 of `connectSourceToPipeTrack`: the counter `i` runs from `size - 1` down to `0`, and
every time the polyline at the position `i` is empty the last path and the last polyline are
removed. The result is `none` when the position `i` is past the end of the vector. -/
def removeFailedPaths : List Nat → List (List Nat × Zigzag) → Option (List (List Nat × Zigzag))
  | [], paths => some paths
  | i :: counters, paths =>
    match paths[i]? with
    | none => none
    | some path =>
      if path.2.1.length = 0 then removeFailedPaths counters paths.dropLast
      else removeFailedPaths counters paths

end OptimalPipeTrackFinder


namespace OptimalPipeTrackFinder

/-- Step 4 of `connectSourceToPipeTrack`: the polyline of every path, in the order of the
paths. -/
def zigzagsForPaths (sqrt : CalcNumber → CalcNumber) (self : OptimalPipeTrackFinder)
    (pipeTrack : PipeTrack) (sourceP : Nat) (waterSource : WaterSource)
    (pipeTrackNodesForLocationNode : List (List Nat)) :
    List (List Nat) → Option (List (List Nat × Zigzag))
  | [] => some []
  | pathFromSourceToPipeTrack :: rest =>
    match findMinPseudoLengthZigzagFromSourceToPipeTrackAndPipeTrackNodeP sqrt self
        pathFromSourceToPipeTrack pipeTrack sourceP waterSource pipeTrackNodesForLocationNode,
      zigzagsForPaths sqrt self pipeTrack sourceP waterSource pipeTrackNodesForLocationNode
        rest with
    | some findResult, some others => some ((pathFromSourceToPipeTrack, findResult) :: others)
    | _, _ => none

/-- Steps 1 to 7 of `connectSourceToPipeTrack` for the source at the address `sourceP`: the
path used to connect the source, with its polyline and the track node to connect to. When
the source is in no corridor node, `nullptr` is pushed into the path and dereferenced. When
no path at all was found, the bound `pathsFromSourceToPipeTrack.size() - 1` of the outer loop
of step 5 wraps around to the largest `size_t`, no body of the inner loop is ever executed
and the `int` counter overflows: these executions are `undefined`. -/
def selectPath (sqrt : CalcNumber → CalcNumber) (self : OptimalPipeTrackFinder)
    (pipeTrack : PipeTrack) (sourceP : Nat) (waterSource : WaterSource) :
    Result (List Nat × Zigzag) :=
  match pipeTrackNodesForLocationNodes sqrt pipeTrack self.locationGraph.nodePs,
    findSourceLocationNodeP sourceP self.locationGraph.nodePs 0 none with
  | some pipeTrackNodesForLocationNode, some sourceLocationNodeP =>
    match findAllPathsFromSourceToPipeTrack self.locationGraph pipeTrackNodesForLocationNode
        (self.locationGraph.nodePs.length + 1) [] [sourceLocationNodeP] [sourceLocationNodeP] with
    | none => .undefined
    | some pathsFromSourceToPipeTrack =>
      match zigzagsForPaths sqrt self pipeTrack sourceP waterSource
          pipeTrackNodesForLocationNode pathsFromSourceToPipeTrack with
      | none => .undefined
      | some paths =>
        if paths.length = 0 then .undefined
        else
          match removeFailedPaths (List.range paths.length).reverse (sortPaths sqrt paths) with
          | none => .undefined
          | some [] => .exception (.zigzagNotFound waterSource.name)
          | some (path :: _) => .ok path
  | _, _ => .undefined

/-- The loop of step 8 of `connectSourceToPipeTrack` over the points of the polyline from the
second point on: a direct pipe from the end point of the previous node to the point. -/
def appendPipes (sqrt : CalcNumber → CalcNumber) (directPipeP : Option PipeObject) :
    List Point → Nat → PipeTrack → Option PipeTrack
  | [], _, pipeTrack => some pipeTrack
  | point :: rest, previousNodeP, pipeTrack =>
    match pipeTrack.nodePs[previousNodeP]? with
    | none => none
    | some previousNode =>
      let created := pipeTrack.createNodeAndReturnP sqrt .direct directPipeP Point.origin
        previousNode.endPoint point Point.origin Point.origin Point.origin
      appendPipes sqrt directPipeP rest created.1 created.2

/-- Step 8 of `connectSourceToPipeTrack`: the pipes laid along the polyline; `none` is the
read of `zigzagFromSourceToPipeTrack[0]` in an empty polyline. -/
def layPipes (sqrt : CalcNumber → CalcNumber) (self : OptimalPipeTrackFinder)
    (pipeTrack : PipeTrack) (waterSource : WaterSource) (zigzagFromSourceToPipeTrack : List Point) :
    Option PipeTrack :=
  match zigzagFromSourceToPipeTrack with
  | [] => none
  | first :: rest =>
    let diameter := waterSource.diameter
    let sourcePoint : Point := ⟨waterSource.point.x, waterSource.point.y, 0⟩
    let created := pipeTrack.createNodeAndReturnP sqrt .direct
      (self.pipeObjectsBag.getDirectPipeP diameter) Point.origin sourcePoint first
      Point.origin Point.origin Point.origin
    appendPipes sqrt (self.pipeObjectsBag.getDirectPipeP diameter) rest created.1 created.2

/-- The method `connectSourceToPipeTrack` for the source `waterSource` at the address
`sourceP`. -/
def connectSourceToPipeTrack (sqrt : CalcNumber → CalcNumber) (self : OptimalPipeTrackFinder)
    (pipeTrack : PipeTrack) (sourceP : Nat) (waterSource : WaterSource) : Result PipeTrack :=
  match selectPath sqrt self pipeTrack sourceP waterSource with
  | .undefined => .undefined
  | .exception e => .exception e
  | .ok path =>
    match layPipes sqrt self pipeTrack waterSource path.2.1 with
    | none => .undefined
    | some pipeTrack1 => .ok pipeTrack1

/-- The loop of step 3 of `calculateOptimalPipeTrack` over the sources, from the source at the
address `sourceP` on. -/
def connectSources (sqrt : CalcNumber → CalcNumber) (self : OptimalPipeTrackFinder) :
    List WaterSource → Nat → PipeTrack → Result PipeTrack
  | [], _, pipeTrack => .ok pipeTrack
  | waterSource :: rest, sourceP, pipeTrack =>
    match connectSourceToPipeTrack sqrt self pipeTrack sourceP waterSource with
    | .ok pipeTrack1 => connectSources sqrt self rest (sourceP + 1) pipeTrack1
    | .exception e => .exception e
    | .undefined => .undefined

/-- The method `calculateOptimalPipeTrack`, with at most `fuel` passes of the loop of
`separateWaterSources`; `none` when that loop has not ended. The cost computed in step 4 is
converted to `int` for the message, which has no defined behaviour when the integral part of
the cost is not a value of `int`. -/
def calculateOptimalPipeTrack (sqrt : CalcNumber → CalcNumber) (fuel : Nat)
    (self : OptimalPipeTrackFinder) : Option (Result PipeTrack) :=
  match self.locationGraph.addWaterConnectionObjects self.waterConnectionObjects with
  | .undefined => some .undefined
  | .exception e _ => some (.exception e)
  | .ok _ locationGraph1 =>
    match locationGraph1.separateWaterSources fuel with
    | none => none
    | some .undefined => some .undefined
    | some (.exception e _) => some (.exception e)
    | some (.ok _ locationGraph2) =>
      match connectSources sqrt { self with locationGraph := locationGraph2 }
          self.waterConnectionObjects.waterSources 0 PipeTrack.new with
      | .undefined => some .undefined
      | .exception e => some (.exception e)
      | .ok pipeTrack =>
        match pipeTrack.calculateCost sqrt with
        | none => some .undefined
        | some cost =>
          if -2147483649 < cost ∧ cost < 2147483648 then some (.ok pipeTrack)
          else some .undefined

end OptimalPipeTrackFinder


/-! ## Matrices of size 4 by 4 -/

/-- The class `Matrix4x4`: the array `elems[4][4]`, a row index and a column index from 0
to 3. -/
structure Matrix4x4 where
  elems : Fin 4 → Fin 4 → CalcNumber

namespace Matrix4x4

/-- The constructor of a matrix from its sixteen elements, row after row. -/
def new (a11 a12 a13 a14 a21 a22 a23 a24 a31 a32 a33 a34 a41 a42 a43 a44 : CalcNumber) :
    Matrix4x4 :=
  ⟨![![a11, a12, a13, a14], ![a21, a22, a23, a24], ![a31, a32, a33, a34],
    ![a41, a42, a43, a44]]⟩

/-- The static method `getIdentityMatrix`. -/
def getIdentityMatrix : Matrix4x4 :=
  new 1 0 0 0 0 1 0 0 0 0 1 0 0 0 0 1

/-- The operator `*` of two matrices: `val` is the sum over `k` from 0 to 3 of
`elems[i][k] * anotherMatrix.elems[k][j]`, added in this order to 0. -/
def mul (self anotherMatrix : Matrix4x4) : Matrix4x4 :=
  ⟨fun i j => (List.finRange 4).foldl
    (fun val k => val + self.elems i k * anotherMatrix.elems k j) 0⟩

/-- The search of steps 2.1 of `determinant` and of `inversed` in the column `i`: the first
row `k >= i` with `tempMatrix[k][i] != 0`, `none` when there is none. -/
def pivotRow (tempMatrix : Fin 4 → Fin 4 → CalcNumber) (i : Fin 4) : Option (Fin 4) :=
  (List.finRange 4).find? (fun k => decide (i ≤ k) && decide (tempMatrix k i ≠ 0))

/-- The exchange of the rows `i` and `k` of an array by the three calls of `memcpy`. -/
def exchangeRows (matrix : Fin 4 → Fin 4 → CalcNumber) (i k : Fin 4) :
    Fin 4 → Fin 4 → CalcNumber :=
  fun row => if row = i then matrix k else if row = k then matrix i else matrix row

/-- The array `tempMatrix` after the loop of step 2.2 for the column `i`: in every row `k > i`
the element of the column `i` is set to 0 and `tempMatrix[i][j] * coef` is subtracted from the
elements of the columns `j > i`, with `coef = tempMatrix[k][i] / tempMatrix[i][i]`. The row
`i` is not changed by the loop. -/
def eliminateBelow (tempMatrix : Fin 4 → Fin 4 → CalcNumber) (i : Fin 4) :
    Fin 4 → Fin 4 → CalcNumber :=
  fun k j =>
    if i < k then
      if j = i then 0
      else if i < j then tempMatrix k j - tempMatrix i j * (tempMatrix k i / tempMatrix i i)
      else tempMatrix k j
    else tempMatrix k j

/-- The loop of step 2 of `determinant` over the columns; `none` is the statement
`return 0` of step 2.1. -/
def determinantLoop : List (Fin 4) → (Fin 4 → Fin 4 → CalcNumber) →
    Option (Fin 4 → Fin 4 → CalcNumber)
  | [], tempMatrix => some tempMatrix
  | i :: rest, tempMatrix =>
    match pivotRow tempMatrix i with
    | none => none
    | some k =>
      determinantLoop rest
        (eliminateBelow (if i < k then exchangeRows tempMatrix i k else tempMatrix) i)

/-- The method `determinant`. -/
def determinant (self : Matrix4x4) : CalcNumber :=
  match determinantLoop (List.finRange 4) self.elems with
  | none => 0
  | some tempMatrix => tempMatrix 0 0 * tempMatrix 1 1 * tempMatrix 2 2 * tempMatrix 3 3

/-- The number of exchanges of rows that the loop of step 2 of `determinant` makes: one for
every column `i` whose pivot row `k` found in step 2.1 has `k > i`. -/
def exchangeCount : List (Fin 4) → (Fin 4 → Fin 4 → CalcNumber) → Nat
  | [], _ => 0
  | i :: rest, tempMatrix =>
    match pivotRow tempMatrix i with
    | none => 0
    | some k =>
      (if i < k then 1 else 0) + exchangeCount rest
        (eliminateBelow (if i < k then exchangeRows tempMatrix i k else tempMatrix) i)

/-- The array `resultMatrix` after the loop of step 2.2 of `inversed` for the column `i`:
from every row `k > i` the row `i` times `coef` is subtracted, in all columns, with
`coef = tempMatrix[k][i] / tempMatrix[i][i]`. -/
def eliminateBelowResult (tempMatrix resultMatrix : Fin 4 → Fin 4 → CalcNumber) (i : Fin 4) :
    Fin 4 → Fin 4 → CalcNumber :=
  fun k j =>
    if i < k then resultMatrix k j - resultMatrix i j * (tempMatrix k i / tempMatrix i i)
    else resultMatrix k j

/-- The loop of step 2 of `inversed` over the columns, on the pair of `tempMatrix` and
`resultMatrix`; `none` is the `assert(false)` of step 2.1, or a divisor `tempMatrix[i][i]`
of step 2.2 that is zero: the quotient is not a number of the embedding. -/
def inversedForward : List (Fin 4) →
    (Fin 4 → Fin 4 → CalcNumber) × (Fin 4 → Fin 4 → CalcNumber) →
    Option ((Fin 4 → Fin 4 → CalcNumber) × (Fin 4 → Fin 4 → CalcNumber))
  | [], matrices => some matrices
  | i :: rest, (tempMatrix, resultMatrix) =>
    match pivotRow tempMatrix i with
    | none => none
    | some k =>
      let tempMatrix1 := if i < k then exchangeRows tempMatrix i k else tempMatrix
      let resultMatrix1 := if i < k then exchangeRows resultMatrix i k else resultMatrix
      if tempMatrix1 i i = 0 then none
      else
        inversedForward rest
          (eliminateBelow tempMatrix1 i, eliminateBelowResult tempMatrix1 resultMatrix1 i)

/-- The arrays after the body of the loop of step 3 of `inversed` for the row `i`: the row `i`
of `resultMatrix` is multiplied by `coef = 1.0 / tempMatrix[i][i]` and `tempMatrix[i][i]` is
set to 1; then for every row `k < i` the element `tempMatrix[k][i]` is set to 0 and the new
row `i` of `resultMatrix` times the old `tempMatrix[k][i]` is subtracted from the row `k` of
`resultMatrix`. The result is `none` when `tempMatrix[i][i]` is zero: the quotient is not a
number of the embedding. -/
def inversedBackwardStep (i : Fin 4)
    (matrices : (Fin 4 → Fin 4 → CalcNumber) × (Fin 4 → Fin 4 → CalcNumber)) :
    Option ((Fin 4 → Fin 4 → CalcNumber) × (Fin 4 → Fin 4 → CalcNumber)) :=
  let tempMatrix := matrices.1
  let resultMatrix := matrices.2
  if tempMatrix i i = 0 then none
  else
    let coef := 1 / tempMatrix i i
    some (fun k j => if k = i ∧ j = i then 1 else if k < i ∧ j = i then 0 else tempMatrix k j,
      fun k j =>
        if k = i then resultMatrix i j * coef
        else if k < i then resultMatrix k j - resultMatrix i j * coef * tempMatrix k i
        else resultMatrix k j)

/-- The loop of step 3 of `inversed` over the rows, from the last row to the first. -/
def inversedBackward : List (Fin 4) →
    (Fin 4 → Fin 4 → CalcNumber) × (Fin 4 → Fin 4 → CalcNumber) →
    Option ((Fin 4 → Fin 4 → CalcNumber) × (Fin 4 → Fin 4 → CalcNumber))
  | [], matrices => some matrices
  | i :: rest, matrices =>
    match inversedBackwardStep i matrices with
    | none => none
    | some matrices1 => inversedBackward rest matrices1

/-- The method `inversed`; `none` is the `assert(false)` of step 2.1 or a quotient by zero in
step 3. -/
def inversed (self : Matrix4x4) : Option Matrix4x4 :=
  match inversedForward (List.finRange 4) (self.elems, getIdentityMatrix.elems) with
  | none => none
  | some matrices =>
    match inversedBackward (List.finRange 4).reverse matrices with
    | none => none
    | some matrices1 => some ⟨matrices1.2⟩

end Matrix4x4


/-! ## The simple track -/

/-- The struct `SimplePipeTrackNode`. Pointers to nodes are positions in
`SimplePipeTrack.heap`. -/
structure SimplePipeTrackNode where
  id : Int
  point : Point
  pipeDirection : Point
  diameter : Nat
  nextNodesPs : List Nat
deriving DecidableEq

/-- The constructor of `SimplePipeTrackNode`; `none` is the failed `assert(diameter > 0)`. -/
def SimplePipeTrackNode.new (id : Int) (point pipeDirection : Point) (diameter : Nat)
    (nextNodesPs : List Nat) : Option SimplePipeTrackNode :=
  if diameter > 0 then some ⟨id, point, pipeDirection, diameter, nextNodesPs⟩ else none

/-- The struct `SimplePipeTrack`. The list `heap` holds the nodes created with `new`, in the
order of their creation; `nodePsForId` and `rootNodeP` hold positions in it, and
`rootNodeP = none` is `nullptr`. -/
structure SimplePipeTrack where
  nodePsForId : List (Int × Nat) := []
  rootNodeP : Option Nat := none
  heap : List SimplePipeTrackNode := []
deriving DecidableEq

/-- The conversion of a `CalcNumber` to the `unsigned int` parameter `diameter` of the
constructor of a node: the value is truncated towards zero; `none` when the truncated value is
not a value of `unsigned int`, for which the conversion has no defined behaviour. -/
def toUnsignedInt (value : CalcNumber) : Option Nat :=
  if value ≤ -1 ∨ value ≥ (UINT_RANGE : CalcNumber) then none
  else if value < 0 then some 0
  else some (value.num.toNat / value.den)

namespace SimplePipeTrack

/-- The constructor `SimplePipeTrack()`: the empty track. -/
def new : SimplePipeTrack := {}

/-- The method `addNewRootNode`; `none` is a failed assertion, or the dereference of a root
pointer that is no position of the heap. The key `id` is new in `nodePsForId` when the
assertion holds, so `nodePsForId[id] = nodeP` adds an entry. -/
def addNewRootNode (self : SimplePipeTrack) (id : Int) (point : Point) (diameter : Nat) :
    Option SimplePipeTrack :=
  if self.nodePsForId.lookup id ≠ none then none
  else
    match SimplePipeTrackNode.new id point ⟨0, 0, 0⟩ 1 [] with
    | none => none
    | some node =>
      let nodeP := self.heap.length
      match self.rootNodeP with
      | none =>
        some { nodePsForId := (id, nodeP) :: self.nodePsForId, rootNodeP := some nodeP,
               heap := self.heap ++ [node] }
      | some rootNodeP =>
        match self.heap[rootNodeP]? with
        | none => none
        | some rootNode =>
          some { nodePsForId := (id, nodeP) :: self.nodePsForId, rootNodeP := some nodeP,
                 heap := self.heap.set rootNodeP
                     { rootNode with pipeDirection := rootNode.point.sub point
                                     diameter := diameter }
                   ++ [{ node with nextNodesPs := node.nextNodesPs ++ [rootNodeP] }] }

/-- The method `addNewNodeToExisting`; `none` is a failed assertion, a conversion of the
diameter without defined behaviour, or the dereference of a pointer that is no position of
the heap. -/
def addNewNodeToExisting (self : SimplePipeTrack) (newNodeId : Int) (newNodePoint : Point)
    (newNodeDiameter : CalcNumber) (existingNodeId : Int) : Option SimplePipeTrack :=
  if self.nodePsForId.lookup newNodeId ≠ none then none
  else
    match self.nodePsForId.lookup existingNodeId with
    | none => none
    | some existingNodeP =>
      match self.heap[existingNodeP]? with
      | none => none
      | some existingNode =>
        match toUnsignedInt newNodeDiameter with
        | none => none
        | some diameter =>
          match SimplePipeTrackNode.new newNodeId newNodePoint
              (newNodePoint.sub existingNode.point) diameter [] with
          | none => none
          | some newNode =>
            let newNodeP := self.heap.length
            some { nodePsForId := (newNodeId, newNodeP) :: self.nodePsForId,
                   rootNodeP := self.rootNodeP,
                   heap := self.heap.set existingNodeP
                       { existingNode with
                         nextNodesPs := existingNode.nextNodesPs ++ [newNodeP] }
                     ++ [newNode] }

/-- The method `getNodePForId`. -/
def getNodePForId (self : SimplePipeTrack) (nodeId : Int) : Option Nat :=
  self.nodePsForId.lookup nodeId

/-- The two statements of `calculateMinSlopeAngleSin` that take the pipe to a node into
account: `std::min(minSlopeAngleSin, pipeDirection.z / pipeDirection.length())`. When the
length is zero the quotient is not a number or is positive infinity, and `std::min` then
returns its first argument; negative infinity is not a number of the embedding: `none`. -/
def minWithSlope (sqrt : CalcNumber → CalcNumber) (minSlopeAngleSin : CalcNumber)
    (pipeDirection : Point) : Option CalcNumber :=
  if pipeDirection.length sqrt = 0 then
    if pipeDirection.z < 0 then none else some minSlopeAngleSin
  else some (min minSlopeAngleSin (pipeDirection.z / pipeDirection.length sqrt))

/-- The loop of `calculateMinSlopeAngleSin(rootNodeP)` over the pointers `nextNodesPs`, where
`subTree` is the recursive call. -/
def slopeLoop (sqrt : CalcNumber → CalcNumber) (self : SimplePipeTrack)
    (subTree : Nat → Option CalcNumber) : List Nat → CalcNumber → Option CalcNumber
  | [], minSlopeAngleSin => some minSlopeAngleSin
  | nodeP :: rest, minSlopeAngleSin =>
    match subTree nodeP, self.heap[nodeP]? with
    | some subTreeSin, some node =>
      match minWithSlope sqrt (min minSlopeAngleSin subTreeSin) node.pipeDirection with
      | none => none
      | some minSlopeAngleSin1 => slopeLoop sqrt self subTree rest minSlopeAngleSin1
    | _, _ => none

/-- The private method `calculateMinSlopeAngleSin(rootNodeP)`, with at most `fuel` nested
calls. The result is `none` when the calls are nested deeper, when a pointer is no position of
the heap, or when a quotient is negative infinity. -/
def calculateMinSlopeAngleSinFrom (sqrt : CalcNumber → CalcNumber) (self : SimplePipeTrack) :
    Nat → Option Nat → Option CalcNumber
  | _, none => some 1
  | 0, some _ => none
  | fuel + 1, some rootNodeP =>
    match self.heap[rootNodeP]? with
    | none => none
    | some rootNode =>
      slopeLoop sqrt self (fun nodeP => calculateMinSlopeAngleSinFrom sqrt self fuel (some nodeP))
        rootNode.nextNodesPs 1

/-- The public method `calculateMinSlopeAngleSin`, with at most `fuel` nested calls. -/
def calculateMinSlopeAngleSin (sqrt : CalcNumber → CalcNumber) (fuel : Nat)
    (self : SimplePipeTrack) : Option CalcNumber :=
  calculateMinSlopeAngleSinFrom sqrt self fuel self.rootNodeP

end SimplePipeTrack



/-! ## Concrete graphs used in the examples -/

/-- A catalog in which diameter 50 has external diameter 60 and diameter 100 has 120. -/
def exampleBag : PipeObjectsBag := { externalDiameterForDiameter := [(50, 60), (100, 120)] }

/-- The empty graph over `exampleBag` with default optimisation parameters. -/
def emptyGraph : LocationGraph := LocationGraph.new exampleBag {}

/-- The graph left by an outcome, when there is one. -/
def Outcome.graph? {α : Type} : Outcome α → Option LocationGraph
  | .ok _ g => some g
  | .exception _ g => some g
  | .undefined => none

/-- A sequence of `addNodeAndReturnId` calls; a call that throws leaves the graph as the
exception found it and the sequence goes on. -/
def addNodes : LocationGraph → List (CalcNumber × CalcNumber × CalcNumber × CalcNumber) →
    LocationGraph
  | g, [] => g
  | g, (left, right, bottom, top) :: calls =>
    match g.addNodeAndReturnId left right bottom top with
    | .ok _ g1 => addNodes g1 calls
    | .exception _ g1 => addNodes g1 calls
    | .undefined => addNodes g calls

/-- The value returned by a call, when it returns. -/
def Outcome.value? {α : Type} : Outcome α → Option α
  | .ok value _ => some value
  | .exception _ _ => none
  | .undefined => none

/-- The exception thrown by a call, when it throws. -/
def Outcome.exception? {α : Type} : Outcome α → Option Exception
  | .ok _ _ => none
  | .exception e _ => some e
  | .undefined => none

/-- The graph of one corridor node `[0, 1] x [0, 1]` whose id counter has reached the largest
`unsigned int`: `generateNewNodeId` is a public method, and `4294967294` further calls of it
after the node was added leave the counter there. -/
def wrappedGraph : LocationGraph :=
  { addNodes emptyGraph [(0, 1, 0, 1)] with lastGeneratedId := 4294967295 }

/-- Two corridor nodes `[0, 1] x [0, 1]` and `[1, 2] x [1, 2]` that meet in the corner
`(1, 1)` only. -/
def cornerGraph : LocationGraph := addNodes emptyGraph [(0, 1, 0, 1), (1, 2, 1, 2)]

/-- The node at address `p` once the left-right edge from the node at `pa` to the node at
`pb` is recorded: `pb` is appended to the right list of `pa`, `pa` to the left list of
`pb`. -/
def withLeftRightEdge (pa pb p : Nat) (n : LocationGraphNode) : LocationGraphNode :=
  { n with
    rightNodesPs := if p = pa then n.rightNodesPs ++ [pb] else n.rightNodesPs
    leftNodesPs := if p = pb then n.leftNodesPs ++ [pa] else n.leftNodesPs }

/-- The node at address `p` once the bottom-top edge from the node at `pa` to the node at
`pb` is recorded: `pb` is appended to the top list of `pa`, `pa` to the bottom list of
`pb`. -/
def withBottomTopEdge (pa pb p : Nat) (n : LocationGraphNode) : LocationGraphNode :=
  { n with
    topNodesPs := if p = pa then n.topNodesPs ++ [pb] else n.topNodesPs
    bottomNodesPs := if p = pb then n.bottomNodesPs ++ [pa] else n.bottomNodesPs }

/-- Two corridor nodes `[0, 1] x [0, 1]` and `[1, 2] x [0, 1]` that share the edge
`x = 1`. -/
def twoNodeGraph : LocationGraph := addNodes emptyGraph [(0, 1, 0, 1), (1, 2, 0, 1)]

/-- The graph `twoNodeGraph` with the left-right edge between its nodes recorded. -/
def twoNodeGraphConnected : LocationGraph :=
  { twoNodeGraph with
    nodePs := [{ LocationGraphNode.new 1 0 1 0 1 with rightNodesPs := [1] },
      { LocationGraphNode.new 2 1 2 0 1 with leftNodesPs := [0] }] }

/-- Three corridor nodes: `[0, 1] x [0, 1]` and `[1, 2] x [0, 1]` side by side and
`[0, 2] x [1, 2]` on top of both. -/
def threeNodeGraph : LocationGraph :=
  addNodes emptyGraph [(0, 1, 0, 1), (1, 2, 0, 1), (0, 2, 1, 2)]

/-- The graph `threeNodeGraph` with its three edges recorded. -/
def threeNodeGraphConnected : LocationGraph :=
  { threeNodeGraph with
    nodePs := [{ LocationGraphNode.new 1 0 1 0 1 with rightNodesPs := [1], topNodesPs := [2] },
      { LocationGraphNode.new 2 1 2 0 1 with leftNodesPs := [0], topNodesPs := [2] },
      { LocationGraphNode.new 3 0 2 1 2 with bottomNodesPs := [0, 1] }] }

/-- The corridor graph of the single node `[0, 1000] x [0, 1000]` over `exampleBag`. -/
def squareGraph : LocationGraph := addNodes emptyGraph [(0, 1000, 0, 1000)]

/-- A source of diameter 50 at `(100, 500, 0)` and a destination of diameter 100 (external
diameter 120) at `(900, 500, 0)`. -/
def squareObjects : WaterConnectionObjects :=
  { waterSources := [⟨"S1", ⟨100, 500, 0⟩, 50, 0⟩]
    waterDestination := ⟨"D", ⟨900, 500, 0⟩, 100⟩
    waterDestinationIsSet := true }

/-- The graph `squareGraph` after `squareObjects` were attached. -/
def squareGraphAttached : LocationGraph :=
  { squareGraph with
    nodePs := [{ LocationGraphNode.new 1 0 1000 0 1000 with
      waterSourcesPs := [0]
      waterSourcesConnectionPoints := [⟨100, 500, 0⟩]
      waterDestinationP := some squareObjects.waterDestination }]
    waterDestinationNodeP := some 0 }

/-- A catalog in which diameter 50 has the odd external diameter 61. -/
def oddBag : PipeObjectsBag := { externalDiameterForDiameter := [(50, 61), (100, 120)] }

/-- The corridor graph of the single node `[0, 1000] x [0, 1000]` over `oddBag`. -/
def oddGraph : LocationGraph := addNodes (LocationGraph.new oddBag {}) [(0, 1000, 0, 1000)]

/-- A source of diameter 50 at `(-100, 500, 0)`, to the left of the node of `oddGraph`, and a
destination of diameter 100 at `(900, 500, 0)`. -/
def oddObjects : WaterConnectionObjects :=
  { waterSources := [⟨"S1", ⟨-100, 500, 0⟩, 50, 0⟩]
    waterDestination := ⟨"D", ⟨900, 500, 0⟩, 100⟩
    waterDestinationIsSet := true }

/-- The graph `oddGraph` after `oddObjects` were attached: the entry point of the source is
`(0 + 30, 500, 0)`. -/
def oddGraphAttached : LocationGraph :=
  { oddGraph with
    nodePs := [{ LocationGraphNode.new 1 0 1000 0 1000 with
      waterSourcesPs := [0]
      waterSourcesConnectionPoints := [⟨30, 500, 0⟩]
      waterDestinationP := some oddObjects.waterDestination }]
    waterDestinationNodeP := some 0 }

/-- The objects `squareObjects` with the destination moved to `(990, 500, 0)`: its footprint
`[930, 1050] x [440, 560]` exceeds the right edge of the node. -/
def squareObjectsNearEdge : WaterConnectionObjects :=
  { squareObjects with waterDestination := ⟨"D", ⟨990, 500, 0⟩, 100⟩ }

/-- The data lines of a file with four sources of the diameters 50, 50, 100 and 100, in this
order, and a destination. -/
def fourSourceLines : List ObjectLine :=
  [.source ⟨"S1", ⟨100, 100, 0⟩, 50, 0⟩, .source ⟨"S2", ⟨200, 100, 0⟩, 50, 0⟩,
    .source ⟨"S3", ⟨300, 100, 0⟩, 100, 0⟩, .source ⟨"S4", ⟨400, 100, 0⟩, 100, 0⟩,
    .destination ⟨"D", ⟨900, 500, 0⟩, 100⟩]


/-- Steps 1 and 2 of `calculateOptimalPipeTrack`: `addWaterConnectionObjects` followed by
`separateWaterSources`, the latter with at most `fuel` passes of its loop. -/
def attachAndSeparate (fuel : Nat) (g : LocationGraph)
    (waterConnectionObjects : WaterConnectionObjects) : Option (Outcome Unit) :=
  match g.addWaterConnectionObjects waterConnectionObjects with
  | .ok _ g1 => g1.separateWaterSources fuel
  | .exception e g1 => some (.exception e g1)
  | .undefined => some .undefined

/-- The corridor graph of the single node `[0, 300] x [0, 1000]` over `exampleBag`, with
`minSourceDistanceToSeparate = 150` and the given `maxNodeWidthToSeparate`. -/
def sharedNodeGraph (maxNodeWidthToSeparate : CalcNumber) : LocationGraph :=
  addNodes (LocationGraph.new exampleBag { maxNodeWidthToSeparate := maxNodeWidthToSeparate })
    [(0, 300, 0, 1000)]

/-- Two sources of diameter 50 at `(150, 200, 0)` and `(150, 800, 0)` and a destination of
diameter 50 (external diameter 60) at `(150, 950, 0)`. -/
def sharedNodeObjects : WaterConnectionObjects :=
  { waterSources := [⟨"S1", ⟨150, 200, 0⟩, 50, 0⟩, ⟨"S2", ⟨150, 800, 0⟩, 50, 0⟩]
    waterDestination := ⟨"D", ⟨150, 950, 0⟩, 50⟩
    waterDestinationIsSet := true }

/-- The graph `sharedNodeGraph` after `sharedNodeObjects` were attached: both sources lie
inside the node and enter it at their own points. -/
def sharedNodeGraphAttached (maxNodeWidthToSeparate : CalcNumber) : LocationGraph :=
  { sharedNodeGraph maxNodeWidthToSeparate with
    nodePs := [{ LocationGraphNode.new 1 0 300 0 1000 with
      waterSourcesPs := [0, 1]
      waterSourcesConnectionPoints := [⟨150, 200, 0⟩, ⟨150, 800, 0⟩]
      waterDestinationP := some sharedNodeObjects.waterDestination }]
    waterDestinationNodeP := some 0 }

/-- The graph `sharedNodeGraphAttached 300` after the cut along `y = 500`: the bottom half
keeps the first source, the new top half holds the second source and the destination. -/
def sharedNodeGraphSplit : LocationGraph :=
  { sharedNodeGraph 300 with
    lastGeneratedId := 2
    nodePs := [{ LocationGraphNode.new 1 0 300 0 500 with
        topNodesPs := [1]
        waterSourcesPs := [0]
        waterSourcesConnectionPoints := [⟨150, 200, 0⟩] },
      { LocationGraphNode.new 2 0 300 500 1000 with
        bottomNodesPs := [0]
        waterSourcesPs := [1]
        waterSourcesConnectionPoints := [⟨150, 800, 0⟩]
        waterDestinationP := some sharedNodeObjects.waterDestination }]
    nodePForId := [(2, 1), (1, 0)]
    waterDestinationNodeP := some 1 }


/-- Two corridor nodes `A = [0, 300] x [0, 100]` and `B = [0, 300] x [-100, 0]`, `B` below
`A` along the whole width of `A`, with the bottom-top edge between them recorded; to `A` are
attached two sources of diameter 50 that lie inside it at `(50, 50, 0)` and `(250, 50, 0)`,
to `B` a destination of diameter 50 at `(150, -50, 0)`. -/
def straddleGraphAttached : LocationGraph :=
  { emptyGraph with
    lastGeneratedId := 2
    nodePs := [{ LocationGraphNode.new 1 0 300 0 100 with
        bottomNodesPs := [1]
        waterSourcesPs := [0, 1]
        waterSourcesConnectionPoints := [⟨50, 50, 0⟩, ⟨250, 50, 0⟩] },
      { LocationGraphNode.new 2 0 300 (-100) 0 with
        topNodesPs := [0]
        waterDestinationP := some ⟨"D", ⟨150, -50, 0⟩, 50⟩ }]
    nodePForId := [(2, 1), (1, 0)]
    waterDestinationNodeP := some 1 }

/-- The objects attached in `straddleGraphAttached`. -/
def straddleObjects : WaterConnectionObjects :=
  { waterSources := [⟨"S1", ⟨50, 50, 0⟩, 50, 0⟩, ⟨"S2", ⟨250, 50, 0⟩, 50, 0⟩]
    waterDestination := ⟨"D", ⟨150, -50, 0⟩, 50⟩
    waterDestinationIsSet := true }

/-- The graph `straddleGraphAttached` after `separateWaterSources`: `A` was cut along
`x = 150` into the left half at the address 0 and the new right half at the address 2. The
top list of `B` holds the new node only, and the bottom list of the left half still holds
`B`. -/
def straddleGraphSplit : LocationGraph :=
  { emptyGraph with
    lastGeneratedId := 3
    nodePs := [{ LocationGraphNode.new 1 0 150 0 100 with
        rightNodesPs := [2]
        bottomNodesPs := [1]
        waterSourcesPs := [0]
        waterSourcesConnectionPoints := [⟨50, 50, 0⟩] },
      { LocationGraphNode.new 2 0 300 (-100) 0 with
        topNodesPs := [2]
        waterDestinationP := some ⟨"D", ⟨150, -50, 0⟩, 50⟩ },
      { LocationGraphNode.new 3 150 300 0 100 with
        leftNodesPs := [0]
        bottomNodesPs := [1]
        waterSourcesPs := [1]
        waterSourcesConnectionPoints := [⟨250, 50, 0⟩] }]
    nodePForId := [(3, 2), (2, 1), (1, 0)]
    waterDestinationNodeP := some 1 }

/-- A catalog in which diameter 400 has external diameter 410. -/
def wideBag : PipeObjectsBag := { externalDiameterForDiameter := [(50, 60), (400, 410)] }

/-- Two corridor nodes over `wideBag`: the thin node `[0, 10] x [0, 100]` and the node
`[1000, 2000] x [0, 1000]`. -/
def thinGraph : LocationGraph :=
  addNodes (LocationGraph.new wideBag {}) [(0, 10, 0, 100), (1000, 2000, 0, 1000)]

/-- A source of diameter 400 (clearance radius 205) at `(-100, 50, 0)`, to the left of the thin
node of `thinGraph`, a source of diameter 50 at `(5, 50, 0)` inside the thin node, and a
destination of diameter 50 at `(1500, 500, 0)` inside the other node. -/
def thinObjects : WaterConnectionObjects :=
  { waterSources := [⟨"S1", ⟨-100, 50, 0⟩, 400, 0⟩, ⟨"S2", ⟨5, 50, 0⟩, 50, 0⟩]
    waterDestination := ⟨"D", ⟨1500, 500, 0⟩, 50⟩
    waterDestinationIsSet := true }

/-- The graph `thinGraph` after `thinObjects` were attached and `separateWaterSources` ran:
the entry points of the thin node were `(205, 50, 0)` and `(5, 50, 0)`, and the node was cut
along `x = 105`, to the right of its right edge `x = 10`. -/
def thinGraphSplit : LocationGraph :=
  { thinGraph with
    lastGeneratedId := 3
    nodePs := [{ LocationGraphNode.new 1 0 105 0 100 with
        rightNodesPs := [2]
        waterSourcesPs := [1]
        waterSourcesConnectionPoints := [⟨5, 50, 0⟩] },
      { LocationGraphNode.new 2 1000 2000 0 1000 with
        waterDestinationP := some ⟨"D", ⟨1500, 500, 0⟩, 50⟩ },
      { LocationGraphNode.new 3 105 10 0 100 with
        leftNodesPs := [0]
        waterSourcesPs := [0]
        waterSourcesConnectionPoints := [⟨205, 50, 0⟩] }]
    nodePForId := [(3, 2), (2, 1), (1, 0)]
    waterDestinationNodeP := some 1 }


/-- Newton's iteration for the integer square root of `n`, from the guess `guess`, with at most
`fuel` steps. -/
def sqrtIter (n : Nat) : Nat → Nat → Nat
  | 0, guess => guess
  | fuel + 1, guess =>
    let next := (guess + n / guess) / 2
    if next < guess then sqrtIter n fuel next else guess

/-- The integer square root of `n`. -/
def natSqrt (n : Nat) : Nat := if n ≤ 1 then n else sqrtIter n n (n / 2)

/-- The square-root function used to evaluate the examples: the quotient of the integer square
roots of the numerator and of the denominator. It is the square root on the squares of
rational numbers, and all radicands of the examples are such squares. -/
def exactSqrt (q : CalcNumber) : CalcNumber :=
  (natSqrt q.num.toNat : CalcNumber) / (natSqrt q.den : CalcNumber)

/-- The map of external diameters of `routingBag`: diameter 50 has external diameter 60 and
diameter 100 has 120. -/
def routingDiameters : List (Nat × Nat) := [(50, 60), (100, 120)]

/-- The direct pipe of diameter 50 of `routingBag`, of cost 2 per millimetre. -/
def directPipe50 : PipeObject := ⟨1, "direct 50", 2, some routingDiameters, .direct 50⟩

/-- The direct pipe of diameter 100 of `routingBag`, of cost 3 per millimetre. -/
def directPipe100 : PipeObject := ⟨2, "direct 100", 3, some routingDiameters, .direct 100⟩

/-- A catalog with the external diameters `routingDiameters` and direct pipes of the diameters
50 and 100. -/
def routingBag : PipeObjectsBag :=
  { externalDiameterForDiameter := routingDiameters
    directPipeForDiameter := [(50, directPipe50), (100, directPipe100)] }

/-- A direct pipe of diameter 50 from `startPoint` to `endPoint`, as step 8 of
`connectSourceToPipeTrack` creates it when the square root of 0 is 0: the three directions
are the zero vector divided by its length and are not numbers. -/
def directNode50 (startPoint endPoint : Point) : PipeTrackNode :=
  { type := .direct, pipeObjectP := some directPipe50, centerPoint := ⟨0, 0, 0⟩,
    startPoint := startPoint, endPoint := endPoint,
    baseDirection := none, secondDirection := none, thirdDirection := none }

/-- The finder of the first scenario: the corridor graph of the single node
`[0, 1000] x [0, 1000]` over `routingBag` and the objects `squareObjects`, a source of
diameter 50 at `(100, 500, 0)` and a destination of diameter 100 at `(900, 500, 0)`. -/
def squareFinder : OptimalPipeTrackFinder :=
  { waterConnectionObjects := squareObjects
    pipeObjectsBag := routingBag
    locationGraph := addNodes (LocationGraph.new routingBag {}) [(0, 1000, 0, 1000)] }

/-- The finder `squareFinder` after steps 1 and 2 of `calculateOptimalPipeTrack`: the source
lies inside the node and enters it at its own point `(100, 500, 0)`. -/
def squareFinderAttached : OptimalPipeTrackFinder :=
  { squareFinder with
    locationGraph :=
      { squareFinder.locationGraph with
        nodePs := [{ LocationGraphNode.new 1 0 1000 0 1000 with
          waterSourcesPs := [0]
          waterSourcesConnectionPoints := [⟨100, 500, 0⟩]
          waterDestinationP := some squareObjects.waterDestination }]
        waterDestinationNodeP := some 0 } }

/-- The track that `calculateOptimalPipeTrack` builds for `squareFinder`: a pipe of length 0
from the point of the source to its entry point, the same point, and a pipe from there to
the centre of the destination. -/
def squareTrack : PipeTrack :=
  { nodePs := [directNode50 ⟨100, 500, 0⟩ ⟨100, 500, 0⟩, directNode50 ⟨100, 500, 0⟩ ⟨900, 500, 0⟩] }

/-- The finder of the fourth scenario: the corridor graph of the single node
`[0, 300] x [0, 1000]` over `routingBag` with `maxNodeWidthToSeparate = 100`, and the objects
`sharedNodeObjects`: two sources of diameter 50 at `(150, 200, 0)` and `(150, 800, 0)` and a
destination of diameter 50 at `(150, 950, 0)`. -/
def sharedNodeFinder : OptimalPipeTrackFinder :=
  { waterConnectionObjects := sharedNodeObjects
    pipeObjectsBag := routingBag
    locationGraph :=
      addNodes (LocationGraph.new routingBag { maxNodeWidthToSeparate := 100 }) [(0, 300, 0, 1000)] }

/-- The finder `sharedNodeFinder` after steps 1 and 2 of `calculateOptimalPipeTrack`: the node
is not cut and holds both sources and the destination. -/
def sharedNodeFinderAttached : OptimalPipeTrackFinder :=
  { sharedNodeFinder with
    locationGraph :=
      { sharedNodeFinder.locationGraph with
        nodePs := [{ LocationGraphNode.new 1 0 300 0 1000 with
          waterSourcesPs := [0, 1]
          waterSourcesConnectionPoints := [⟨150, 200, 0⟩, ⟨150, 800, 0⟩]
          waterDestinationP := some sharedNodeObjects.waterDestination }]
        waterDestinationNodeP := some 0 } }

/-- The track of `sharedNodeFinder` after the first source was connected: a pipe of length 0
at the point `(150, 200, 0)` of the source and a pipe from there to the centre of the
destination. -/
def sharedNodeTrack : PipeTrack :=
  { nodePs := [directNode50 ⟨150, 200, 0⟩ ⟨150, 200, 0⟩, directNode50 ⟨150, 200, 0⟩ ⟨150, 950, 0⟩] }

/-- A source of diameter 50 at `(100, 100, 0)` and a destination of diameter 50 at
`(700, 900, 0)`. -/
def passageObjects : WaterConnectionObjects :=
  { waterSources := [⟨"S1", ⟨100, 100, 0⟩, 50, 0⟩]
    waterDestination := ⟨"D", ⟨700, 900, 0⟩, 50⟩
    waterDestinationIsSet := true }

/-- The finder of the fifth scenario: the nodes `[0, 500] x [0, 500]` and
`[450, 950] x [500, 1000]` over `routingBag`, joined bottom-top through the shared x-range
`[450, 500]` of width 50, with the objects `passageObjects` attached: the source, of external
diameter 60, in the bottom node and the destination in the top node. -/
def passageFinderAttached : OptimalPipeTrackFinder :=
  { waterConnectionObjects := passageObjects
    pipeObjectsBag := routingBag
    locationGraph :=
      { LocationGraph.new routingBag {} with
        lastGeneratedId := 2
        nodePs := [{ LocationGraphNode.new 1 0 500 0 500 with
            topNodesPs := [1]
            waterSourcesPs := [0]
            waterSourcesConnectionPoints := [⟨100, 100, 0⟩] },
          { LocationGraphNode.new 2 450 950 500 1000 with
            bottomNodesPs := [0]
            waterDestinationP := some passageObjects.waterDestination }]
        nodePForId := [(2, 1), (1, 0)]
        waterDestinationNodeP := some 1 } }

/-- A source of diameter 50 at `(50, 50, 0)` and a destination of diameter 50 at
`(250, 50, 0)`. -/
def apartObjects : WaterConnectionObjects :=
  { waterSources := [⟨"S1", ⟨50, 50, 0⟩, 50, 0⟩]
    waterDestination := ⟨"D", ⟨250, 50, 0⟩, 50⟩
    waterDestinationIsSet := true }

/-- A finder whose corridor graph has the two nodes `[0, 100] x [0, 100]` and
`[200, 300] x [0, 100]` over `routingBag`, which do not touch, with the objects
`apartObjects`: the source lies in the first node and the destination in the second. -/
def apartFinder : OptimalPipeTrackFinder :=
  { waterConnectionObjects := apartObjects
    pipeObjectsBag := routingBag
    locationGraph := addNodes (LocationGraph.new routingBag {}) [(0, 100, 0, 100), (200, 300, 0, 100)] }

/-- The finder `apartFinder` after steps 1 and 2 of `calculateOptimalPipeTrack`. -/
def apartFinderAttached : OptimalPipeTrackFinder :=
  { apartFinder with
    locationGraph :=
      { apartFinder.locationGraph with
        nodePs := [{ LocationGraphNode.new 1 0 100 0 100 with
            waterSourcesPs := [0]
            waterSourcesConnectionPoints := [⟨50, 50, 0⟩] },
          { LocationGraphNode.new 2 200 300 0 100 with
            waterDestinationP := some apartObjects.waterDestination }]
        waterDestinationNodeP := some 1 } }


/-! ## Specification-level predicates -/

/-- A node is a rectangle of positive width and positive height. -/
def LocationGraphNode.Valid (n : LocationGraphNode) : Prop :=
  n.left < n.right ∧ n.bottom < n.top

/-- The two rectangles have an intersection of positive area: the intersection of the closed
rectangles is `[max lefts, min rights] x [max bottoms, min tops]`, and both of its sides
have positive length. -/
def PositiveAreaIntersection (a b : LocationGraphNode) : Prop :=
  max a.left b.left < min a.right b.right ∧ max a.bottom b.bottom < min a.top b.top

/-- The y-ranges of the two nodes overlap with positive length. -/
def YRangesOverlap (a b : LocationGraphNode) : Prop :=
  max a.bottom b.bottom < min a.top b.top

/-- The x-ranges of the two nodes overlap with positive length. -/
def XRangesOverlap (a b : LocationGraphNode) : Prop :=
  max a.left b.left < min a.right b.right

/-- All nodes of the graph are valid rectangles. -/
def LocationGraph.NodesValid (g : LocationGraph) : Prop :=
  ∀ n ∈ g.nodePs, n.Valid

/-- No two nodes of the graph, at distinct positions, have an intersection of positive
area. -/
def LocationGraph.NodesDisjoint (g : LocationGraph) : Prop :=
  g.nodePs.Pairwise (fun a b => ¬ PositiveAreaIntersection a b)

/-- The id index `nodePForId` agrees with the nodes: an id is a key exactly when a node
carries it, and the value stored under it is the address of that node. In particular no two
nodes carry the same id. -/
structure LocationGraph.IndexConsistent (g : LocationGraph) : Prop where
  sound : ∀ id p, g.nodePForId.lookup id = some p → ∃ n, g.nodePs[p]? = some n ∧ n.id = id
  complete : ∀ p n, g.nodePs[p]? = some n → g.nodePForId.lookup n.id = some p

/-- No node carries an id above the id counter. -/
def LocationGraph.IdsBelowCounter (g : LocationGraph) : Prop :=
  ∀ n ∈ g.nodePs, n.id ≤ g.lastGeneratedId

/-- All four adjacency lists of every node are empty. -/
def LocationGraph.AdjacencyEmpty (g : LocationGraph) : Prop :=
  ∀ n ∈ g.nodePs, n.leftNodesPs = [] ∧ n.rightNodesPs = [] ∧ n.bottomNodesPs = [] ∧
    n.topNodesPs = []

/-- Adjacency is symmetric: for the nodes at the addresses `A` and `B`, `B` is in the right
list of `A` iff `A` is in the left list of `B`, and `B` is in the top list of `A` iff `A` is
in the bottom list of `B`. -/
def LocationGraph.AdjacencySymmetric (g : LocationGraph) : Prop :=
  ∀ (A B : Nat) (nA nB : LocationGraphNode), g.nodePs[A]? = some nA → g.nodePs[B]? = some nB →
    (B ∈ nA.rightNodesPs ↔ A ∈ nB.leftNodesPs) ∧ (B ∈ nA.topNodesPs ↔ A ∈ nB.bottomNodesPs)

/-- The graph `g'` is `g` after one successful `connectLeftAndRightNodes`. -/
def StepLeftRight (g g' : LocationGraph) : Prop :=
  ∃ pa pb na nb, g.nodePs[pa]? = some na ∧ g.nodePs[pb]? = some nb ∧
    pb ∉ na.rightNodesPs ∧ pa ∉ nb.leftNodesPs ∧ na.right = nb.left ∧
    na.bottom < nb.top ∧ nb.bottom < na.top ∧
    g' = { g with nodePs := g.nodePs.mapIdx (withLeftRightEdge pa pb) }

/-- The graph `g'` is `g` after one successful `connectBottomAndTopNodes`. -/
def StepBottomTop (g g' : LocationGraph) : Prop :=
  ∃ pa pb na nb, g.nodePs[pa]? = some na ∧ g.nodePs[pb]? = some nb ∧
    pb ∉ na.topNodesPs ∧ pa ∉ nb.bottomNodesPs ∧ na.top = nb.bottom ∧
    na.left < nb.right ∧ nb.left < na.right ∧
    g' = { g with nodePs := g.nodePs.mapIdx (withBottomTopEdge pa pb) }

/-- Every recorded edge is geometrically valid, points to a node, and is recorded once: for
the node `nA` at address `A`, every entry `B` of its right list is the address of a node `nB`
with `nA.right = nB.left` and y-ranges overlapping with positive length, every entry of its
top list is the address of a node `nB` with `nA.top = nB.bottom` and x-ranges overlapping
with positive length, and none of its four lists holds an address twice. -/
def LocationGraph.EdgesSound (g : LocationGraph) : Prop :=
  ∀ (A : Nat) (nA : LocationGraphNode), g.nodePs[A]? = some nA →
    (∀ B ∈ nA.rightNodesPs, ∃ nB, g.nodePs[B]? = some nB ∧ nA.right = nB.left ∧
      YRangesOverlap nA nB) ∧
    (∀ B ∈ nA.topNodesPs, ∃ nB, g.nodePs[B]? = some nB ∧ nA.top = nB.bottom ∧
      XRangesOverlap nA nB) ∧
    nA.leftNodesPs.Nodup ∧ nA.rightNodesPs.Nodup ∧ nA.bottomNodesPs.Nodup ∧
    nA.topNodesPs.Nodup

/-- The graph `g'` has the id index of `g` and, at every address, a node with the id and the
bounds of the node of `g` whose right and top lists contain those of the node of `g`. -/
structure Extends (g g' : LocationGraph) : Prop where
  index : g'.nodePForId = g.nodePForId
  length : g'.nodePs.length = g.nodePs.length
  nodes : ∀ (p : Nat) (n : LocationGraphNode), g.nodePs[p]? = some n →
    ∃ n', g'.nodePs[p]? = some n' ∧ n'.id = n.id ∧ n'.left = n.left ∧ n'.right = n.right ∧
      n'.bottom = n.bottom ∧ n'.top = n.top ∧
      (∀ q ∈ n.rightNodesPs, q ∈ n'.rightNodesPs) ∧ (∀ q ∈ n.topNodesPs, q ∈ n'.topNodesPs)

/-- The square of the distance from `point` to the node: the radicand of the distance
between `point` and the closest point of the node. -/
def LocationGraphNode.distanceSquaredTo (n : LocationGraphNode) (point : Point) : CalcNumber :=
  (n.findClosestPoint point).distanceToPointSquared point

/-- The node at address `k` is the first node in list order among those at minimal distance
from `point`. -/
def LocationGraph.FirstClosestNode (g : LocationGraph) (point : Point) (k : Nat) : Prop :=
  ∃ n, g.nodePs[k]? = some n ∧
    (∀ (j : Nat) (m : LocationGraphNode), g.nodePs[j]? = some m →
      n.distanceSquaredTo point ≤ m.distanceSquaredTo point) ∧
    ∀ (j : Nat) (m : LocationGraphNode), j < k → g.nodePs[j]? = some m →
      n.distanceSquaredTo point < m.distanceSquaredTo point

/-- The two nodes have the same bounds. -/
def SameBounds (n m : LocationGraphNode) : Prop :=
  n.left = m.left ∧ n.right = m.right ∧ n.bottom = m.bottom ∧ n.top = m.top

/-- The pairs (address of the source, entry point) that the loop of
`addWaterConnectionObjects` over `waterSources`, whose first element has the address
`sourceP`, appends to the node `n` at the address `k` of the graph `g`, in the order of the
loop. -/
def attachedSources (g : LocationGraph) (k : Nat) (n : LocationGraphNode) :
    List WaterSource → Nat → List (Nat × Point)
  | [], _ => []
  | waterSource :: rest, sourceP =>
    match g.findClosestPoint waterSource.point,
      g.externalDiameterHalfed waterSource.diameter with
    | some findPointResult, some externalDiameterHalfed =>
      if findPointResult.nodeP = k then
        (sourceP, LocationGraph.adjustConnectionPoint n externalDiameterHalfed
          findPointResult.point) :: attachedSources g k n rest (sourceP + 1)
      else attachedSources g k n rest (sourceP + 1)
    | _, _ => attachedSources g k n rest (sourceP + 1)

/-- The node `n` with the pairs (address of the source, entry point) appended to its two
source lists. -/
def withSources (n : LocationGraphNode) (pairs : List (Nat × Point)) : LocationGraphNode :=
  { n with
    waterSourcesPs := n.waterSourcesPs ++ pairs.map Prod.fst
    waterSourcesConnectionPoints := n.waterSourcesConnectionPoints ++ pairs.map Prod.snd }

/-- The square footprint of the destination: the axis-aligned box of half side
`externalRadius` around the point of the destination, as the temporary node that
`addWaterConnectionObjects` passes to `contains`. -/
def destinationBox (waterDestination : WaterDestination) (externalRadius : CalcNumber) :
    LocationGraphNode :=
  LocationGraphNode.new 0
    (waterDestination.point.x - externalRadius) (waterDestination.point.x + externalRadius)
    (waterDestination.point.y - externalRadius) (waterDestination.point.y + externalRadius)

/-- The graph `g` after the destination was attached to the node `n` at the address `k`. -/
def withDestination (g : LocationGraph) (k : Nat) (n : LocationGraphNode)
    (waterDestination : WaterDestination) : LocationGraph :=
  { g with
    nodePs := g.nodePs.set k { n with waterDestinationP := some waterDestination }
    waterDestinationNodeP := some k }

/-- No source and no destination is attached to any node of the graph. -/
def LocationGraph.NothingAttached (g : LocationGraph) : Prop :=
  ∀ n ∈ g.nodePs, n.waterSourcesPs = [] ∧ n.waterSourcesConnectionPoints = [] ∧
    n.waterDestinationP = none

instance (g : LocationGraph) : Decidable g.NothingAttached := by
  unfold LocationGraph.NothingAttached
  exact inferInstance

instance (n : LocationGraphNode) : Decidable n.Valid := by
  unfold LocationGraphNode.Valid
  exact inferInstance

instance (a b : LocationGraphNode) : Decidable (PositiveAreaIntersection a b) := by
  unfold PositiveAreaIntersection
  exact inferInstance

instance (a b : LocationGraphNode) : Decidable (YRangesOverlap a b) := by
  unfold YRangesOverlap
  exact inferInstance

instance (a b : LocationGraphNode) : Decidable (XRangesOverlap a b) := by
  unfold XRangesOverlap
  exact inferInstance

instance (g : LocationGraph) : Decidable g.NodesValid := by
  unfold LocationGraph.NodesValid
  exact inferInstance

instance (g : LocationGraph) : Decidable g.AdjacencyEmpty := by
  unfold LocationGraph.AdjacencyEmpty
  exact inferInstance

instance (g : LocationGraph) : Decidable g.NodesDisjoint := by
  unfold LocationGraph.NodesDisjoint
  exact inferInstance

/-- The cost of the track node `node` whose pipe object is `pipe`, in the words of the
specification: the cost of the pipe times the Euclidean length of the segment from the start
point to the end point for a direct or fan node, the cost of the pipe for a fitting. -/
def nodeCost (sqrt : CalcNumber → CalcNumber) (node : PipeTrackNode) (pipe : PipeObject) :
    CalcNumber :=
  if node.type = .direct ∨ node.type = .fan then
    pipe.cost * sqrt ((node.endPoint.x - node.startPoint.x) * (node.endPoint.x - node.startPoint.x)
      + (node.endPoint.y - node.startPoint.y) * (node.endPoint.y - node.startPoint.y)
      + (node.endPoint.z - node.startPoint.z) * (node.endPoint.z - node.startPoint.z))
  else pipe.cost

/-- The costs of the nodes of a track, in the order of the nodes, when every node has a
cost. -/
def nodeCosts (sqrt : CalcNumber → CalcNumber) : List PipeTrackNode → Option (List CalcNumber)
  | [] => some []
  | node :: rest =>
    match node.calculateCost sqrt, nodeCosts sqrt rest with
    | some cost, some costs => some (cost :: costs)
    | _, _ => none


/-- The numbers `a < b` are adjacent in the increasing sequence of the distinct values of
`coordinates`: both occur in it and no value of it lies strictly between them. -/
def AdjacentCoordinates (coordinates : List CalcNumber) (a b : CalcNumber) : Prop :=
  a ∈ coordinates ∧ b ∈ coordinates ∧ a < b ∧ ∀ c ∈ coordinates, ¬ (a < c ∧ c < b)

/-- The node `n` of the graph `g` admits a feasible split across the axis of `coordinate`,
in the words of the specification: the extent `width` of the node along the cut is at most
`maxNodeWidthToSeparate`, and two adjacent values `a < b` of the sorted distinct coordinates
of its entry points are at least `minSourceDistanceToSeparate` apart with their midpoint
outside the closed footprint `[c - rd, c + rd]` of the destination attached to the node,
where `c` is the coordinate of the destination and `rd` the half of its external
diameter. -/
def FeasibleSplit (g : LocationGraph) (n : LocationGraphNode) (coordinate : Point → CalcNumber)
    (width : CalcNumber) : Prop :=
  width ≤ g.optimizationParametersP.maxNodeWidthToSeparate ∧
  ∃ a b, AdjacentCoordinates (n.waterSourcesConnectionPoints.map coordinate) a b ∧
    b - a ≥ g.optimizationParametersP.minSourceDistanceToSeparate ∧
    ∀ d ext, n.waterDestinationP = some d →
      g.pipeObjectsBagP.getExternalDiameter d.diameter = some ext →
      (a + b) / 2 < coordinate d.point - (ext : CalcNumber) / 2
        ∨ (a + b) / 2 > coordinate d.point + (ext : CalcNumber) / 2

/-- No node of the graph that holds two or more sources admits a feasible split, neither
along a line `x = ...` nor along a line `y = ...`. -/
def LocationGraph.NoFeasibleSplit (g : LocationGraph) : Prop :=
  ∀ n ∈ g.nodePs, 2 ≤ n.waterSourcesPs.length →
    ¬ FeasibleSplit g n Point.x n.sizeY ∧ ¬ FeasibleSplit g n Point.y n.sizeX


/-- The rectangle of a node with its sources and entry points: the node without its id, its
adjacency lists and its destination. -/
def LocationGraphNode.core (n : LocationGraphNode) : LocationGraphNode :=
  { LocationGraphNode.new 0 n.left n.right n.bottom n.top with
    waterSourcesPs := n.waterSourcesPs
    waterSourcesConnectionPoints := n.waterSourcesConnectionPoints }

/-- The node has as many entry points as sources, and every entry point lies in the closed
rectangle of the node. -/
def LocationGraphNode.EntriesInside (n : LocationGraphNode) : Prop :=
  n.waterSourcesConnectionPoints.length = n.waterSourcesPs.length ∧
    ∀ pt ∈ n.waterSourcesConnectionPoints,
      n.left ≤ pt.x ∧ pt.x ≤ n.right ∧ n.bottom ≤ pt.y ∧ pt.y ≤ n.top

/-- Every node of the list is a valid rectangle that holds its entry points, and no two nodes
of the list have an intersection of positive area. -/
def NodesSound (nodes : List LocationGraphNode) : Prop :=
  (∀ n ∈ nodes, n.Valid) ∧ nodes.Pairwise (fun a b => ¬ PositiveAreaIntersection a b) ∧
    ∀ n ∈ nodes, n.EntriesInside

/-- The rectangle of `a` is a part of the rectangle of `b`. -/
def SubRectangle (a b : LocationGraphNode) : Prop :=
  b.left ≤ a.left ∧ a.right ≤ b.right ∧ b.bottom ≤ a.bottom ∧ a.top ≤ b.top


/-- The rectangle `[left, right] x [bottom, top]` with the given sources and entry points. -/
def rectangleWith (left right bottom top : CalcNumber) (sources : List Nat × List Point) :
    LocationGraphNode :=
  { LocationGraphNode.new 0 left right bottom top with
    waterSourcesPs := sources.1
    waterSourcesConnectionPoints := sources.2 }


/-- The chain of direct pipes along a polyline, in the words of the specification: one track
node per point of the polyline, the first from `startPoint` to the first point and every
other one from the point before to the point, each a direct pipe that refers to `directPipeP`
and has no centre point and no directions given. -/
def directSegments (sqrt : CalcNumber → CalcNumber) (directPipeP : Option PipeObject) :
    Point → List Point → List PipeTrackNode
  | _, [] => []
  | startPoint, point :: rest =>
    PipeTrackNode.new sqrt .direct directPipeP Point.origin startPoint point Point.origin
      Point.origin Point.origin :: directSegments sqrt directPipeP point rest


/-- Steps 1 to 4 of `connectSourceToPipeTrack` for the source at the address `sourceP`: the
enumerated paths, each with the polyline and the track node found for it; `none` when one of
these steps has no defined behaviour. -/
def enumeratedPaths (sqrt : CalcNumber → CalcNumber) (self : OptimalPipeTrackFinder)
    (pipeTrack : PipeTrack) (sourceP : Nat) (waterSource : WaterSource) :
    Option (List (List Nat × Zigzag)) :=
  match OptimalPipeTrackFinder.pipeTrackNodesForLocationNodes sqrt pipeTrack
      self.locationGraph.nodePs,
    OptimalPipeTrackFinder.findSourceLocationNodeP sourceP self.locationGraph.nodePs 0 none with
  | some pipeTrackNodesForLocationNode, some sourceLocationNodeP =>
    match OptimalPipeTrackFinder.findAllPathsFromSourceToPipeTrack self.locationGraph
        pipeTrackNodesForLocationNode (self.locationGraph.nodePs.length + 1) []
        [sourceLocationNodeP] [sourceLocationNodeP] with
    | none => none
    | some pathsFromSourceToPipeTrack =>
      OptimalPipeTrackFinder.zigzagsForPaths sqrt self pipeTrack sourceP waterSource
        pipeTrackNodesForLocationNode pathsFromSourceToPipeTrack
  | _, _ => none

/-- The polylines of `paths` that are not empty are shorter than the value `999999` that
step 5 of `connectSourceToPipeTrack` takes for the length of an empty polyline. -/
def ShortZigzags (sqrt : CalcNumber → CalcNumber) (paths : List (List Nat × Zigzag)) : Prop :=
  ∀ path ∈ paths, path.2.1 ≠ [] → OptimalPipeTrackFinder.zigzagLength sqrt path.2.1 < 999999

/-- The first of `paths` has a polyline that is not empty. -/
def HeadFound (paths : List (List Nat × Zigzag)) : Prop :=
  ∃ path, paths[0]? = some path ∧ path.2.1 ≠ []


/-- The value `v` clamped to the interval `[lo, hi]`. -/
def clamp (v lo hi : CalcNumber) : CalcNumber := max lo (min v hi)

/-- The square of the distance in the plane Oxy between the points `(p.x, p.y)` and
`(q.x, q.y)`; of two distances the smaller is the one with the smaller square. -/
def planeDistanceSquared (p q : Point) : CalcNumber :=
  (p.x - q.x) * (p.x - q.x) + (p.y - q.y) * (p.y - q.y)


/-- The rectangles `[left1, right1] x [bottom1, top1]` and `[left2, right2] x [bottom2, top2]`
overlap beyond their boundaries. -/
def Overlap (left1 right1 bottom1 top1 left2 right2 bottom2 top2 : CalcNumber) : Prop :=
  left1 < right2 ∧ right1 > left2 ∧ bottom1 < top2 ∧ top1 > bottom2

/-- The two rectangles cross: one of them reaches beyond the other on both sides along Ox
and the other one reaches beyond the first on both sides along Oy, so that no corner of one
of them lies in the other. -/
def Crossing (left1 right1 bottom1 top1 left2 right2 bottom2 top2 : CalcNumber) : Prop :=
  (left1 < left2 ∧ right2 < right1 ∧ bottom2 < bottom1 ∧ top1 < top2)
    ∨ (left2 < left1 ∧ right1 < right2 ∧ bottom1 < bottom2 ∧ top2 < top1)

instance (left1 right1 bottom1 top1 left2 right2 bottom2 top2 : CalcNumber) :
    Decidable (Overlap left1 right1 bottom1 top1 left2 right2 bottom2 top2) := by
  unfold Overlap; infer_instance

instance (left1 right1 bottom1 top1 left2 right2 bottom2 top2 : CalcNumber) :
    Decidable (Crossing left1 right1 bottom1 top1 left2 right2 bottom2 top2) := by
  unfold Crossing; infer_instance

/-- The bounds `(left1, right1, bottom1, top1)` of the footprint in the plane Oxy of a straight
pipe from `startPoint` to `endPoint` whose axis is parallel to Oy or to Ox: the segment of the
axis, widened to `width` across the axis. -/
def footprint (startPoint endPoint : Point) (width : CalcNumber) :
    CalcNumber × CalcNumber × CalcNumber × CalcNumber :=
  if endPoint.x - startPoint.x = 0 then
    (startPoint.x - width / 2, startPoint.x + width / 2,
      min startPoint.y endPoint.y, max startPoint.y endPoint.y)
  else
    (min startPoint.x endPoint.x, max startPoint.x endPoint.x,
      startPoint.y - width / 2, startPoint.y + width / 2)


/-- The point `p` satisfies the equation of the row: `c0 * x + c1 * y + c2 * z = rightPart`. -/
def SoLERow.Satisfies (row : SoLERow) (p : Point) : Prop :=
  row.c0 * p.x + row.c1 * p.y + row.c2 * p.z = row.rightPart

/-- The determinant of the matrix of coefficients of three rows. -/
def determinant3 (row0 row1 row2 : SoLERow) : CalcNumber :=
  row0.c0 * (row1.c1 * row2.c2 - row1.c2 * row2.c1)
    - row0.c1 * (row1.c0 * row2.c2 - row1.c2 * row2.c0)
    + row0.c2 * (row1.c0 * row2.c1 - row1.c1 * row2.c0)


/-- The row `rowK` minus `coef` times the row `rowI`, in every column and in the right part. -/
def SoLERow.minus (rowK rowI : SoLERow) (coef : CalcNumber) : SoLERow :=
  ⟨rowK.c0 - rowI.c0 * coef, rowK.c1 - rowI.c1 * coef, rowK.c2 - rowI.c2 * coef,
    rowK.rightPart - rowI.rightPart * coef⟩


/-- A function that is zero at zero and strictly increasing on the non-negative numbers, as
the square root is. -/
def IsSquareRootLike (sqrt : CalcNumber → CalcNumber) : Prop :=
  sqrt 0 = 0 ∧ ∀ x y : CalcNumber, 0 ≤ x → x < y → sqrt x < sqrt y

/-- The point at the parameter `t` of the segment in the plane Oxy from `(s.x, s.y)`, at the
parameter 0, to `(e.x, e.y)`, at the parameter 1; its z-coordinate is zero. -/
def segmentPoint (s e : Point) (t : CalcNumber) : Point :=
  ⟨s.x + t * (e.x - s.x), s.y + t * (e.y - s.y), 0⟩

/-- The parameter of the perpendicular projection of `(p.x, p.y)` onto the line through
`(s.x, s.y)` and `(e.x, e.y)`. -/
def projectionParameter (s e p : Point) : CalcNumber :=
  ((p.x - s.x) * (e.x - s.x) + (p.y - s.y) * (e.y - s.y))
    / ((e.x - s.x) * (e.x - s.x) + (e.y - s.y) * (e.y - s.y))

/-- The general formula for the point of the segment from `(s.x, s.y)` to `(e.x, e.y)` that is
nearest to `(p.x, p.y)`: the perpendicular projection onto the line, with its parameter
clamped to the segment. -/
def nearestOnSegment (s e p : Point) : Point :=
  segmentPoint s e (clamp (projectionParameter s e p) 0 1)


/-- The pairs (source, entry point) of a node: the source at a position of `waterSourcesPs`
with the point at the same position of `waterSourcesConnectionPoints`. -/
def LocationGraphNode.sourcePairs (n : LocationGraphNode) : List (Nat × Point) :=
  n.waterSourcesPs.zip n.waterSourcesConnectionPoints

/-- The pairs (source, entry point) of all nodes of the graph, node after node. -/
def LocationGraph.sourcePairs (g : LocationGraph) : List (Nat × Point) :=
  g.nodePs.flatMap LocationGraphNode.sourcePairs

/-- The test of `separateNodeX` and `separateNodeY` that a point lies beyond the cut:
`point.x > separationX` or `point.y > separationY`. -/
def Separation.beyond : Separation → Point → Bool
  | .alongX separationX, point => decide (point.x > separationX)
  | .alongY separationY, point => decide (point.y > separationY)


/-- A call of one of the two methods that build a simple track. -/
inductive TrackCall where
  | addNewRootNode (id : Int) (point : Point) (diameter : Nat)
  | addNewNodeToExisting (newNodeId : Int) (newNodePoint : Point)
      (newNodeDiameter : CalcNumber) (existingNodeId : Int)

/-- The track after the call, `none` when the call fails an assertion. -/
def SimplePipeTrack.call (self : SimplePipeTrack) : TrackCall → Option SimplePipeTrack
  | .addNewRootNode id point diameter => self.addNewRootNode id point diameter
  | .addNewNodeToExisting newNodeId newNodePoint newNodeDiameter existingNodeId =>
    self.addNewNodeToExisting newNodeId newNodePoint newNodeDiameter existingNodeId

/-- The track after a sequence of calls, `none` when one of them fails an assertion. -/
def SimplePipeTrack.calls : SimplePipeTrack → List TrackCall → Option SimplePipeTrack
  | self, [] => some self
  | self, call :: rest =>
    match self.call call with
    | none => none
    | some track => track.calls rest

/-- The node at `nodeP` is one of the next nodes of the node at `parentP`. -/
def SimplePipeTrack.IsChild (self : SimplePipeTrack) (parentP nodeP : Nat) : Prop :=
  ∃ parent, self.heap[parentP]? = some parent ∧ nodeP ∈ parent.nextNodesPs

/-- The position `nodeP` holds a node of the track other than the root node. -/
def SimplePipeTrack.NonRoot (self : SimplePipeTrack) (nodeP : Nat) : Prop :=
  nodeP < self.heap.length ∧ self.rootNodeP ≠ some nodeP

/-- The quotient `pipeDirection.z / |pipeDirection|` of the node at `nodeP` is `slope`, the
length being other than zero. -/
def SimplePipeTrack.HasSlope (sqrt : CalcNumber → CalcNumber) (self : SimplePipeTrack)
    (nodeP : Nat) (slope : CalcNumber) : Prop :=
  ∃ node, self.heap[nodeP]? = some node ∧ node.pipeDirection.length sqrt ≠ 0 ∧
    slope = node.pipeDirection.z / node.pipeDirection.length sqrt

/-- The number `r` is the minimum of 1 and of the quotients `pipeDirection.z /
|pipeDirection|` of the nodes other than the root. -/
def SimplePipeTrack.IsMinSlopeAngleSin (sqrt : CalcNumber → CalcNumber)
    (self : SimplePipeTrack) (r : CalcNumber) : Prop :=
  r ≤ 1 ∧
    (∀ nodeP slope, self.NonRoot nodeP → self.HasSlope sqrt nodeP slope → r ≤ slope) ∧
    (r = 1 ∨ ∃ nodeP, self.NonRoot nodeP ∧ self.HasSlope sqrt nodeP r)

/-- The pipe direction of every node that has a parent is its point minus the point of the
parent. -/
def SimplePipeTrack.DirectionsFromParents (self : SimplePipeTrack) : Prop :=
  ∀ (parentP nodeP : Nat) (parent node : SimplePipeTrackNode),
    self.heap[parentP]? = some parent →
    nodeP ∈ parent.nextNodesPs → self.heap[nodeP]? = some node →
    node.pipeDirection = node.point.sub parent.point

/-- The nodes of the heap form a tree under the root: the root pointer and the pointers of
`nodePsForId` are positions of the heap, a track without a root has no nodes, and with the
levels `level` the root is at level 0, every next node of a node is a position of the heap
one level further, every node other than the root is a next node of some node, and all levels
are less than the number of nodes. -/
def SimplePipeTrack.TreeWith (self : SimplePipeTrack) (level : Nat → Nat) : Prop :=
  (self.rootNodeP = none → self.heap = []) ∧
    (∀ rootNodeP, self.rootNodeP = some rootNodeP →
      rootNodeP < self.heap.length ∧ level rootNodeP = 0) ∧
    (∀ parentP nodeP, self.IsChild parentP nodeP →
      nodeP < self.heap.length ∧ level nodeP = level parentP + 1) ∧
    (∀ nodeP, self.NonRoot nodeP → ∃ parentP, self.IsChild parentP nodeP) ∧
    (∀ nodeP, nodeP < self.heap.length → level nodeP < self.heap.length)

/-- The track is a tree with pipe directions from the parents. -/
def SimplePipeTrack.WellFormed (self : SimplePipeTrack) : Prop :=
  (∃ level, self.TreeWith level) ∧ self.DirectionsFromParents

/-- The node at `nodeP` is reached from the node at `ancestorP` along next nodes, in one step
or more. -/
inductive SimplePipeTrack.Descendant (self : SimplePipeTrack) : Nat → Nat → Prop where
  | child (parentP nodeP : Nat) : self.IsChild parentP nodeP → Descendant self parentP nodeP
  | step (ancestorP parentP nodeP : Nat) : self.IsChild ancestorP parentP →
      Descendant self parentP nodeP → Descendant self ancestorP nodeP

/-- The number `r` is the minimum of 1 and of the quotients `pipeDirection.z /
|pipeDirection|` of the nodes reached from the node at `nodeP`. -/
def SimplePipeTrack.IsSubTreeMin (sqrt : CalcNumber → CalcNumber) (self : SimplePipeTrack)
    (nodeP : Nat) (r : CalcNumber) : Prop :=
  r ≤ 1 ∧
    (∀ d slope, self.Descendant nodeP d → self.HasSlope sqrt d slope → r ≤ slope) ∧
    (r = 1 ∨ ∃ d, self.Descendant nodeP d ∧ self.HasSlope sqrt d r)

/-- The three calls of the test of `SimplePipeTrack`: the root 5 at `(4, 7, 11)`, with the
diameter `-1` converted to `unsigned int`, the new root 4 at `(4, 7, 10)`, and the node 6 at
`(5, 4, 12)` attached to the node 5. -/
def slopeTestCalls : List TrackCall :=
  [.addNewRootNode 5 ⟨4, 7, 11⟩ (UINT_RANGE - 1), .addNewRootNode 4 ⟨4, 7, 10⟩ 3,
    .addNewNodeToExisting 6 ⟨5, 4, 12⟩ 5 5]

/-- The track of the test of `SimplePipeTrack` after the calls `slopeTestCalls`. -/
def slopeTestTrack : SimplePipeTrack :=
  { nodePsForId := [(6, 2), (4, 1), (5, 0)]
    rootNodeP := some 1
    heap := [⟨5, ⟨4, 7, 11⟩, ⟨0, 0, 1⟩, 3, [2]⟩, ⟨4, ⟨4, 7, 10⟩, ⟨0, 0, 0⟩, 1, [0]⟩,
      ⟨6, ⟨5, 4, 12⟩, ⟨1, -3, 1⟩, 5, []⟩] }


/-- The determinant of a 4 by 4 array, expanded along the first row. -/
def determinant4 (m : Fin 4 → Fin 4 → CalcNumber) : CalcNumber :=
  m 0 0 * (m 1 1 * (m 2 2 * m 3 3 - m 2 3 * m 3 2) - m 1 2 * (m 2 1 * m 3 3 - m 2 3 * m 3 1)
    + m 1 3 * (m 2 1 * m 3 2 - m 2 2 * m 3 1))
  - m 0 1 * (m 1 0 * (m 2 2 * m 3 3 - m 2 3 * m 3 2) - m 1 2 * (m 2 0 * m 3 3 - m 2 3 * m 3 0)
    + m 1 3 * (m 2 0 * m 3 2 - m 2 2 * m 3 0))
  + m 0 2 * (m 1 0 * (m 2 1 * m 3 3 - m 2 3 * m 3 1) - m 1 1 * (m 2 0 * m 3 3 - m 2 3 * m 3 0)
    + m 1 3 * (m 2 0 * m 3 1 - m 2 1 * m 3 0))
  - m 0 3 * (m 1 0 * (m 2 1 * m 3 2 - m 2 2 * m 3 1) - m 1 1 * (m 2 0 * m 3 2 - m 2 2 * m 3 0)
    + m 1 2 * (m 2 0 * m 3 1 - m 2 1 * m 3 0))

/-- The rows `k > i` of an array less the row `i` times `c k`. -/
def rowsMinus (m : Fin 4 → Fin 4 → CalcNumber) (i : Fin 4) (c : Fin 4 → CalcNumber) :
    Fin 4 → Fin 4 → CalcNumber :=
  fun k j => if i < k then m k j - m i j * c k else m k j

/-- The columns before the column `n` hold zeros below the main diagonal. -/
def UpperTo (n : Nat) (m : Fin 4 → Fin 4 → CalcNumber) : Prop :=
  ∀ k j : Fin 4, j.val < n → j < k → m k j = 0

/-- The columns from the column `n` on are those of the identity matrix. -/
def UnitFrom (n : Nat) (m : Fin 4 → Fin 4 → CalcNumber) : Prop :=
  ∀ k j : Fin 4, n ≤ j.val → m k j = if k = j then 1 else 0

/-- The array `t` is the product of the arrays `r` and `m`, element by element. -/
def IsProduct (r m t : Fin 4 → Fin 4 → CalcNumber) : Prop :=
  ∀ k j : Fin 4, ∑ l : Fin 4, r k l * m l j = t k j

/-- The matrix of the test of `determinant`. -/
def determinantTestMatrix : Matrix4x4 :=
  Matrix4x4.new 1 2 3 4 5 4 9 8 6 2 1 4 7 2 0 3

/-- The identity matrix with its first two rows exchanged. -/
def exchangedRowsMatrix : Matrix4x4 :=
  Matrix4x4.new 0 1 0 0 1 0 0 0 0 0 1 0 0 0 0 1

/-- The matrix of the test of `inversed`. -/
def inversedTestMatrix : Matrix4x4 :=
  Matrix4x4.new 1 2 1 (-1) 2 8 2 (-2) (-1) 2 1 4 4 2 0 0

/-- The matrix that the test of `inversed` compares the result with, in exact numbers. -/
def inversedTestResult : Matrix4x4 :=
  Matrix4x4.new (1 / 4) (-1 / 8) 0 (1 / 4) (-1 / 2) (1 / 4) 0 0 (33 / 20) (-17 / 40) (1 / 5)
    (-3 / 20) (-1 / 10) (-1 / 20) (1 / 5) (1 / 10)


/-- The sources of the data lines of a file, in file order. -/
def sourcesOfLines : List ObjectLine → List WaterSource
  | [] => []
  | .source waterSource :: lines => waterSource :: sourcesOfLines lines
  | .destination _ :: lines => sourcesOfLines lines


/-- The width of the range that the node `currentNode` and the next node of a path share along
the border between them: their common x-range when the next node is in the top or in the
bottom list of `currentNode`, their common y-range otherwise. -/
def sharedWidth (currentNode nextNode : LocationGraphNode) (nextNodeP : Nat) : CalcNumber :=
  if nextNodeP ∈ currentNode.topNodesPs ∨ nextNodeP ∈ currentNode.bottomNodesPs then
    min currentNode.right nextNode.right - max currentNode.left nextNode.left
  else min currentNode.top nextNode.top - max currentNode.bottom nextNode.bottom

/-- The point of a polyline behind the border between `currentNode` and the next node of the
path, for the clearance radius `r` and the point `previous` of the polyline before it: at the
distance `r` behind the border, with the other coordinate that of `previous` clamped into the
common range of the two nodes made narrower by `r` on both sides. -/
def crossingPoint (r : CalcNumber) (currentNode nextNode : LocationGraphNode) (nextNodeP : Nat)
    (previous : Point) : Point :=
  let x := clamp previous.x (max currentNode.left nextNode.left + r)
    (min currentNode.right nextNode.right - r)
  let y := clamp previous.y (max currentNode.bottom nextNode.bottom + r)
    (min currentNode.top nextNode.top - r)
  if nextNodeP ∈ currentNode.topNodesPs then ⟨x, currentNode.top + r, 0⟩
  else if nextNodeP ∈ currentNode.bottomNodesPs then ⟨x, currentNode.bottom - r, 0⟩
  else if nextNodeP ∈ currentNode.rightNodesPs then ⟨currentNode.right + r, y, 0⟩
  else ⟨currentNode.left - r, y, 0⟩

/-- The nodes at the positions `i` and `i + 1` of the path have the addresses `currentNodeP`
and `nextNodeP` and are the nodes `currentNode` and `nextNode` of the graph. -/
def PathStep (locationGraph : LocationGraph) (path : List Nat) (i currentNodeP nextNodeP : Nat)
    (currentNode nextNode : LocationGraphNode) : Prop :=
  path[i]? = some currentNodeP ∧ path[i + 1]? = some nextNodeP ∧
    locationGraph.nodePs[currentNodeP]? = some currentNode ∧
    locationGraph.nodePs[nextNodeP]? = some nextNode

/-- The distance from the last point `lastAddedPoint` of a polyline to the point `candidate`
as the search for the end of the polyline computes it. -/
def endDistance (sqrt : CalcNumber → CalcNumber) (lastAddedPoint candidate : Point) :
    CalcNumber :=
  (lastAddedPoint.sub candidate).length sqrt

/-- The point `candidate` is a candidate for the end of a polyline that has reached the node
`endNode` with the last point `lastAddedPoint`: with `nodeP = some p`, the nearest centre point
to `lastAddedPoint` of the direct or fan track node at the address `p`, one of
`pipeTrackNodesPs`, when that point lies in the closed rectangle of `endNode`; with
`nodeP = none`, the point of the destination attached to `endNode`, in the plane Oxy. -/
def IsEndCandidate (sqrt : CalcNumber → CalcNumber) (pipeTrack : PipeTrack)
    (endNode : LocationGraphNode) (pipeTrackNodesPs : List Nat) (lastAddedPoint candidate : Point)
    (nodeP : Option Nat) : Prop :=
  (∃ p pipeTrackNode, nodeP = some p ∧ p ∈ pipeTrackNodesPs ∧
      pipeTrack.nodePs[p]? = some pipeTrackNode ∧
      (pipeTrackNode.type = .direct ∨ pipeTrackNode.type = .fan) ∧
      pipeTrackNode.calculateNearestCenterPoint2D sqrt lastAddedPoint = some candidate ∧
      endNode.left ≤ candidate.x ∧ candidate.x ≤ endNode.right ∧
      endNode.bottom ≤ candidate.y ∧ candidate.y ≤ endNode.top)
    ∨ (nodeP = none ∧ ∃ waterDestination, endNode.waterDestinationP = some waterDestination ∧
      candidate = ⟨waterDestination.point.x, waterDestination.point.y, 0⟩)

/-- The entry points of the source at the address `sourceP` in a node: the entry points
paired with the source in the lists of the node. -/
def LocationGraphNode.entryPointsOf (self : LocationGraphNode) (sourceP : Nat) : List Point :=
  (self.sourcePairs.filter (fun pair => decide (pair.1 = sourceP))).map Prod.snd

/-- The state of the search for the end of a polyline after the track nodes `done` were
looked at. -/
def EndSearchAfter (sqrt : CalcNumber → CalcNumber) (pipeTrack : PipeTrack)
    (endNode : LocationGraphNode) (lastAddedPoint : Point) (done : List Nat)
    (search : OptimalPipeTrackFinder.EndSearch) : Prop :=
  (search.somePointIsFound = true →
      IsEndCandidate sqrt pipeTrack endNode done lastAddedPoint search.endPoint
        search.resultPipeTrackNodeP ∧
      search.resultPipeTrackNodeP ≠ none ∧
      endDistance sqrt lastAddedPoint search.endPoint = search.minDistance ∧
      search.minDistance < 999999) ∧
    (search.somePointIsFound = false →
      search.minDistance = 999999 ∧ search.resultPipeTrackNodeP = none) ∧
    ∀ candidate p, IsEndCandidate sqrt pipeTrack endNode done lastAddedPoint candidate (some p) →
      search.minDistance ≤ endDistance sqrt lastAddedPoint candidate

/-- The map of external diameters of `oddRoutingBag`: the diameter 50 has the external
diameter 61. -/
def oddRoutingDiameters : List (Nat × Nat) := [(50, 61)]

/-- A catalog with the external diameters `oddRoutingDiameters` and a direct pipe of the
diameter 50. -/
def oddRoutingBag : PipeObjectsBag :=
  { externalDiameterForDiameter := oddRoutingDiameters
    directPipeForDiameter := [(50, ⟨1, "direct 50", 2, some oddRoutingDiameters, .direct 50⟩)] }

/-- A source of diameter 50 at `(100, 100, 0)` and a destination of diameter 50 at
`(770, 930, 0)`. -/
def oddPassageObjects : WaterConnectionObjects :=
  { waterSources := [⟨"S1", ⟨100, 100, 0⟩, 50, 0⟩]
    waterDestination := ⟨"D", ⟨770, 930, 0⟩, 50⟩
    waterDestinationIsSet := true }

/-- The node `[0, 500] x [0, 500]` of `oddPassageFinder`, with the source. -/
def oddPassageBottomNode : LocationGraphNode :=
  { LocationGraphNode.new 1 0 500 0 500 with
    topNodesPs := [1]
    waterSourcesPs := [0]
    waterSourcesConnectionPoints := [⟨100, 100, 0⟩] }

/-- The node `[440, 940] x [500, 1000]` of `oddPassageFinder`, with the destination. -/
def oddPassageTopNode : LocationGraphNode :=
  { LocationGraphNode.new 2 440 940 500 1000 with
    bottomNodesPs := [0]
    waterDestinationP := some oddPassageObjects.waterDestination }

/-- A finder over `oddRoutingBag` whose corridor graph has the nodes `[0, 500] x [0, 500]` and
`[440, 940] x [500, 1000]`, joined bottom-top through the shared x-range `[440, 500]` of width
60, with the objects `oddPassageObjects` attached: the source, of external diameter 61, in the
bottom node and the destination in the top node. -/
def oddPassageFinder : OptimalPipeTrackFinder :=
  { waterConnectionObjects := oddPassageObjects
    pipeObjectsBag := oddRoutingBag
    locationGraph :=
      { LocationGraph.new oddRoutingBag {} with
        lastGeneratedId := 2
        nodePs := [oddPassageBottomNode, oddPassageTopNode]
        nodePForId := [(2, 1), (1, 0)]
        waterDestinationNodeP := some 1 } }

/-- The point of the edge from `edge.1` to `edge.2` at the parameter `s`, in the plane Oxy. -/
def edgePoint (edge : Point × Point) (s : CalcNumber) : CalcNumber × CalcNumber :=
  (edge.1.x + s * (edge.2.x - edge.1.x), edge.1.y + s * (edge.2.y - edge.1.y))

/-- The two edges cross: they share a point whose parameters on both edges lie between 0
and 1. -/
def EdgesCross (edge1 edge2 : Point × Point) : Prop :=
  ∃ s t : CalcNumber, 0 ≤ s ∧ s ≤ 1 ∧ 0 ≤ t ∧ t ≤ 1 ∧ edgePoint edge1 s = edgePoint edge2 t

/-- The edges of the footprint of a pipe with the axis from `startPoint` to `endPoint`: the two
end caps and the axis moved by `normal` to either side, `normal` being the unit normal of the
axis times the half of the external diameter. -/
def footprintEdges (startPoint endPoint normal : Point) : List (Point × Point) :=
  [(startPoint.add normal, startPoint.sub normal), (endPoint.add normal, endPoint.sub normal),
    (startPoint.add normal, endPoint.add normal), (startPoint.sub normal, endPoint.sub normal)]

/-- The edges of the rectangle `[left, right] x [bottom, top]`: left, right, bottom, top. -/
def rectangleEdges (left right bottom top : CalcNumber) : List (Point × Point) :=
  [(⟨left, bottom, 0⟩, ⟨left, top, 0⟩), (⟨right, bottom, 0⟩, ⟨right, top, 0⟩),
    (⟨left, bottom, 0⟩, ⟨right, bottom, 0⟩), (⟨left, top, 0⟩, ⟨right, top, 0⟩)]


/-- A source of diameter 50 at `(100, 100, 0)` and a destination of diameter 50 at
`(830, 930, 0)`. -/
def ringObjects : WaterConnectionObjects :=
  { waterSources := [⟨"S1", ⟨100, 100, 0⟩, 50, 0⟩]
    waterDestination := ⟨"D", ⟨830, 930, 0⟩, 50⟩
    waterDestinationIsSet := true }

/-- A finder over `routingBag` whose corridor graph is a ring of the four quarters of the
square `[0, 1000] x [0, 1000]`: the node 0 is `[0, 500] x [0, 500]`, the node 1 is
`[500, 1000] x [0, 500]`, the node 2 is `[0, 500] x [500, 1000]` and the node 3 is
`[500, 1000] x [500, 1000]`, with the objects `ringObjects` attached: the source in the node 0
and the destination in the node 3. Two simple paths lead from the source to the destination,
through the node 1 and through the node 2. -/
def ringFinder : OptimalPipeTrackFinder :=
  { waterConnectionObjects := ringObjects
    pipeObjectsBag := routingBag
    locationGraph :=
      { LocationGraph.new routingBag {} with
        lastGeneratedId := 4
        nodePs := [{ LocationGraphNode.new 1 0 500 0 500 with
            rightNodesPs := [1]
            topNodesPs := [2]
            waterSourcesPs := [0]
            waterSourcesConnectionPoints := [⟨100, 100, 0⟩] },
          { LocationGraphNode.new 2 500 1000 0 500 with
            leftNodesPs := [0]
            topNodesPs := [3] },
          { LocationGraphNode.new 3 0 500 500 1000 with
            rightNodesPs := [3]
            bottomNodesPs := [0] },
          { LocationGraphNode.new 4 500 1000 500 1000 with
            leftNodesPs := [2]
            bottomNodesPs := [1]
            waterDestinationP := some ringObjects.waterDestination }]
        nodePForId := [(4, 3), (3, 2), (2, 1), (1, 0)]
        waterDestinationNodeP := some 3 } }

/-- The paths of `ringFinder` with their polylines, in the order of the enumeration: both
polylines have the length 1360. -/
def ringPaths : List (List Nat × Zigzag) :=
  [([0, 1, 3], ([⟨100, 100, 0⟩, ⟨530, 100, 0⟩, ⟨530, 530, 0⟩, ⟨830, 930, 0⟩], none)),
    ([0, 2, 3], ([⟨100, 100, 0⟩, ⟨100, 530, 0⟩, ⟨530, 530, 0⟩, ⟨830, 930, 0⟩], none))]

/-- The path `path` with its polyline is the first shortest of `paths`: it stands at a
position `m`, no polyline of `paths` is shorter than its polyline, by the lengths that step 5
of `connectSourceToPipeTrack` computes, and all polylines before the position `m` are
longer. -/
def IsFirstShortest (sqrt : CalcNumber → CalcNumber) (paths : List (List Nat × Zigzag))
    (path : List Nat × Zigzag) : Prop :=
  ∃ m, paths[m]? = some path ∧
    (∀ (n : Nat) (q : List Nat × Zigzag), paths[n]? = some q →
      OptimalPipeTrackFinder.zigzagLength sqrt path.2.1
        ≤ OptimalPipeTrackFinder.zigzagLength sqrt q.2.1) ∧
    ∀ (n : Nat) (q : List Nat × Zigzag), n < m → paths[n]? = some q →
      OptimalPipeTrackFinder.zigzagLength sqrt path.2.1
        < OptimalPipeTrackFinder.zigzagLength sqrt q.2.1

/-- The polylines at the positions before `i` are in their final places: none of them is
longer than a polyline at a later position. -/
def SortedBefore (sqrt : CalcNumber → CalcNumber) (i : Nat) (paths : List (List Nat × Zigzag)) :
    Prop :=
  ∀ (a b : Nat) (pa pb : List Nat × Zigzag), a < i → a < b → paths[a]? = some pa →
    paths[b]? = some pb →
    OptimalPipeTrackFinder.zigzagLength sqrt pa.2.1
      ≤ OptimalPipeTrackFinder.zigzagLength sqrt pb.2.1

/-- The empty polylines stand at the end: behind an empty polyline all polylines are
empty. -/
def FailedLast (paths : List (List Nat × Zigzag)) : Prop :=
  ∀ (a b : Nat) (pa pb : List Nat × Zigzag), a < b → paths[a]? = some pa →
    paths[b]? = some pb → pa.2.1 = [] → pb.2.1 = []


/-- The total length of a polyline, in the words of the specification: the sum of the lengths
of its segments, each from a point to the next point. -/
def polylineLength (sqrt : CalcNumber → CalcNumber) (zigzag : List Point) : CalcNumber :=
  (List.zipWith (fun previous current => (current.sub previous).length sqrt) zigzag
    zigzag.tail).sum

/-- The corridor node at the address `b` is adjacent to the node at the address `a`: it is in
one of the four adjacency lists of that node. -/
def Adjacent (locationGraph : LocationGraph) (a b : Nat) : Prop :=
  ∃ node, locationGraph.nodePs[a]? = some node ∧ b ∈ node.adjacentNodes

/-- A path that ends at the corridor node at the address `p` is recorded: the node holds a
node of the track or is the node of the destination. -/
def EndsPath (locationGraph : LocationGraph) (pipeTrackNodesForLocationNode : List (List Nat))
    (p : Nat) : Prop :=
  (pipeTrackNodesForLocationNode[p]?.getD []).length > 0
    ∨ some p = locationGraph.waterDestinationNodeP

instance (locationGraph : LocationGraph) (pipeTrackNodesForLocationNode : List (List Nat))
    (p : Nat) : Decidable (EndsPath locationGraph pipeTrackNodesForLocationNode p) := by
  unfold EndsPath
  infer_instance

/-- The paths to record from the node at the address `start`, in the words of the
specification: the simple paths, with no corridor node repeated and consecutive nodes
adjacent, that start at `start` and end at the node of the destination or at a node that
holds a node of the track. -/
def IsRecordedPath (locationGraph : LocationGraph)
    (pipeTrackNodesForLocationNode : List (List Nat)) (start : Nat) (path : List Nat) : Prop :=
  path.head? = some start ∧ path.Nodup ∧ List.Chain' (Adjacent locationGraph) path ∧
    ∃ last, path.getLast? = some last ∧
      EndsPath locationGraph pipeTrackNodesForLocationNode last

/-- The depth-first enumeration of the specification, at most `fuel` nodes deep: the simple
paths that extend `path`, `path` itself first when its last node ends a path, then the
extensions through every adjacent node that is not on `path`, in the order of the adjacent
nodes. -/
def simplePathsFrom (locationGraph : LocationGraph)
    (pipeTrackNodesForLocationNode : List (List Nat)) : Nat → List Nat → List (List Nat)
  | 0, _ => []
  | fuel + 1, path =>
    match path.getLast? with
    | none => []
    | some last =>
      (if EndsPath locationGraph pipeTrackNodesForLocationNode last then [path] else [])
        ++ (((locationGraph.nodePs[last]?.map LocationGraphNode.adjacentNodes).getD []).filter
            (fun next => decide (next ∉ path))).flatMap
          (fun next => simplePathsFrom locationGraph pipeTrackNodesForLocationNode fuel
            (path ++ [next]))

/-- The depth-first order of two paths: `p` is a proper prefix of `q`, or at the first
position where they differ, behind a common node, the node of `p` stands before the node of
`q` in the list of the adjacent nodes of the common node. -/
def DfsBefore (locationGraph : LocationGraph) (p q : List Nat) : Prop :=
  (∃ ext, ext ≠ [] ∧ q = p ++ ext) ∨
    ∃ (pre : List Nat) (last x y : Nat) (restP restQ : List Nat) (node : LocationGraphNode)
        (i j : Nat),
      p = pre ++ last :: x :: restP ∧ q = pre ++ last :: y :: restQ ∧
        locationGraph.nodePs[last]? = some node ∧ i < j ∧
        node.adjacentNodes[i]? = some x ∧ node.adjacentNodes[j]? = some y

/-- Every pointer in the adjacency lists of the graph is the address of a node of the
graph. -/
def AdjacencyValid (locationGraph : LocationGraph) : Prop :=
  ∀ node ∈ locationGraph.nodePs, ∀ p ∈ node.adjacentNodes, p < locationGraph.nodePs.length

/-- The rectangle of a node with the destination attached to it: the node without its id, its
adjacency lists and its sources. -/
def LocationGraphNode.place (n : LocationGraphNode) : LocationGraphNode :=
  { LocationGraphNode.new 0 n.left n.right n.bottom n.top with
    waterDestinationP := n.waterDestinationP }

/-- The rectangle `[left, right] x [bottom, top]` with the given destination pointer. -/
def placeWith (left right bottom top : CalcNumber) (destination : Option WaterDestination) :
    LocationGraphNode :=
  { LocationGraphNode.new 0 left right bottom top with waterDestinationP := destination }

/-- The destination pointer that the new node receives in a cut: the destination of the cut
node when its point lies beyond the cut. -/
def movedDestination (beyond : Point → Bool) (node : LocationGraphNode) :
    Option WaterDestination :=
  match node.waterDestinationP with
  | some waterDestination => if beyond waterDestination.point then some waterDestination else none
  | none => none

/-- The footprint box of the destination `d`, the box of radius `rd` around its point, lies
inside the closed rectangle of the node `n`. -/
def FootprintInside (d : WaterDestination) (rd : CalcNumber) (n : LocationGraphNode) : Prop :=
  n.left ≤ d.point.x - rd ∧ d.point.x + rd ≤ n.right ∧
    n.bottom ≤ d.point.y - rd ∧ d.point.y + rd ≤ n.top

/-- Exactly one node of `nodes` has a destination attached, the node at the address `p`; the
destination is `d`, and its footprint box of radius `rd` lies inside that node. -/
def DestinationInside (nodes : List LocationGraphNode) (p : Nat) (d : WaterDestination)
    (rd : CalcNumber) : Prop :=
  (∃ n, nodes[p]? = some n ∧ n.waterDestinationP = some d ∧ FootprintInside d rd n) ∧
    ∀ (q : Nat) (m : LocationGraphNode), nodes[q]? = some m → m.waterDestinationP ≠ none →
      q = p

/-- The line of the cut does not meet the closed footprint of the destination `d`, the
interval of radius `rd` around the coordinate of its point across the cut. -/
def Separation.AvoidsFootprint (separation : Separation) (d : WaterDestination)
    (rd : CalcNumber) : Prop :=
  match separation with
  | .alongX separationX => separationX < d.point.x - rd ∨ separationX > d.point.x + rd
  | .alongY separationY => separationY < d.point.y - rd ∨ separationY > d.point.y + rd

/-- The cuts that the loop of `separateWaterSources` makes in at most `fuel` passes, in their
order: the node that is cut, as it is before the cut, and the cut. -/
def LocationGraph.cutsMade : Nat → LocationGraph → List (LocationGraphNode × Separation)
  | 0, _ => []
  | fuel + 1, g =>
    match LocationGraph.findNodeToSeparate g g.nodePs 0 with
    | some (some (nodeP, separation)) =>
      match g.nodePs[nodeP]?, g.separateNode nodeP separation with
      | some node, some g1 => (node, separation) :: LocationGraph.cutsMade fuel g1
      | _, _ => []
    | _ => []

/-- The corridor graph of the single node `[0, 1000] x [0, 100]` over `oddBag`, with the
default parameters. -/
def oddStripGraph : LocationGraph := addNodes (LocationGraph.new oddBag {}) [(0, 1000, 0, 100)]

/-- Two sources of diameter 50 at `(380, 50, 0)` and `(680.5, 50, 0)` and a destination of
diameter 50, of the odd external diameter 61, at `(500, 50, 0)`. -/
def oddStripObjects : WaterConnectionObjects :=
  { waterSources := [⟨"S1", ⟨380, 50, 0⟩, 50, 0⟩, ⟨"S2", ⟨1361 / 2, 50, 0⟩, 50, 0⟩]
    waterDestination := ⟨"D", ⟨500, 50, 0⟩, 50⟩
    waterDestinationIsSet := true }

/-- The graph `oddStripGraph` after `oddStripObjects` were attached: both sources lie inside
the node and enter it at their own points, and the node holds the destination. -/
def oddStripGraphAttached : LocationGraph :=
  { oddStripGraph with
    nodePs := [{ LocationGraphNode.new 1 0 1000 0 100 with
      waterSourcesPs := [0, 1]
      waterSourcesConnectionPoints := [⟨380, 50, 0⟩, ⟨1361 / 2, 50, 0⟩]
      waterDestinationP := some oddStripObjects.waterDestination }]
    waterDestinationNodeP := some 0 }

/-- The graph `oddStripGraphAttached` after the cut along `x = 530.25`: the left part keeps
the first source and the destination, the new right part holds the second source. -/
def oddStripGraphSplit : LocationGraph :=
  { oddStripGraph with
    lastGeneratedId := 2
    nodePs := [{ LocationGraphNode.new 1 0 (2121 / 4) 0 100 with
        rightNodesPs := [1]
        waterSourcesPs := [0]
        waterSourcesConnectionPoints := [⟨380, 50, 0⟩]
        waterDestinationP := some oddStripObjects.waterDestination },
      { LocationGraphNode.new 2 (2121 / 4) 1000 0 100 with
        leftNodesPs := [0]
        waterSourcesPs := [1]
        waterSourcesConnectionPoints := [⟨1361 / 2, 50, 0⟩] }]
    nodePForId := [(2, 1), (1, 0)]
    waterDestinationNodeP := some 0 }

/-- A source of diameter 50 at `(100, 100, 0)` and a destination of diameter 50 at
`(630, 930, 0)`. -/
def oddWideObjects : WaterConnectionObjects :=
  { waterSources := [⟨"S1", ⟨100, 100, 0⟩, 50, 0⟩]
    waterDestination := ⟨"D", ⟨630, 930, 0⟩, 50⟩
    waterDestinationIsSet := true }

/-- The node `[300, 940] x [500, 1000]` of `oddWideFinder`, with the destination. -/
def oddWideTopNode : LocationGraphNode :=
  { LocationGraphNode.new 2 300 940 500 1000 with
    bottomNodesPs := [0]
    waterDestinationP := some oddWideObjects.waterDestination }

/-- A finder over `oddRoutingBag` whose corridor graph has the nodes `[0, 500] x [0, 500]` and
`[300, 940] x [500, 1000]`, joined bottom-top through the shared x-range `[300, 500]` of width
200, with the objects `oddWideObjects` attached: the source, of external diameter 61, in the
bottom node and the destination in the top node. -/
def oddWideFinder : OptimalPipeTrackFinder :=
  { waterConnectionObjects := oddWideObjects
    pipeObjectsBag := oddRoutingBag
    locationGraph :=
      { LocationGraph.new oddRoutingBag {} with
        lastGeneratedId := 2
        nodePs := [oddPassageBottomNode, oddWideTopNode]
        nodePForId := [(2, 1), (1, 0)]
        waterDestinationNodeP := some 1 } }

/-- A source of diameter 50 at `(100, 100, 0)` and a destination of diameter 50 at
`(930, 770, 0)`. -/
def oddSideObjects : WaterConnectionObjects :=
  { waterSources := [⟨"S1", ⟨100, 100, 0⟩, 50, 0⟩]
    waterDestination := ⟨"D", ⟨930, 770, 0⟩, 50⟩
    waterDestinationIsSet := true }

/-- The node `[0, 500] x [0, 500]` of `oddSideFinder`, with the source. -/
def oddSideLeftNode : LocationGraphNode :=
  { LocationGraphNode.new 1 0 500 0 500 with
    rightNodesPs := [1]
    waterSourcesPs := [0]
    waterSourcesConnectionPoints := [⟨100, 100, 0⟩] }

/-- The node `[500, 1000] x [440, 940]` of `oddSideFinder`, with the destination. -/
def oddSideRightNode : LocationGraphNode :=
  { LocationGraphNode.new 2 500 1000 440 940 with
    leftNodesPs := [0]
    waterDestinationP := some oddSideObjects.waterDestination }

/-- A finder over `oddRoutingBag` whose corridor graph has the nodes `[0, 500] x [0, 500]` and
`[500, 1000] x [440, 940]`, joined left-right through the shared y-range `[440, 500]` of width
60, with the objects `oddSideObjects` attached: the source, of external diameter 61, in the
left node and the destination in the right node. -/
def oddSideFinder : OptimalPipeTrackFinder :=
  { waterConnectionObjects := oddSideObjects
    pipeObjectsBag := oddRoutingBag
    locationGraph :=
      { LocationGraph.new oddRoutingBag {} with
        lastGeneratedId := 2
        nodePs := [oddSideLeftNode, oddSideRightNode]
        nodePForId := [(2, 1), (1, 0)]
        waterDestinationNodeP := some 1 } }

/-- A track of two direct pipes of diameter 50 in the node `[500, 1000] x [500, 1000]` of
`ringFinder`: the pipe at the address 0 from `(650, 690, 0)` to `(900, 690, 0)` and the pipe
at the address 1 from `(560, 570, 0)` to `(560, 900, 0)`. -/
def ringTrack : PipeTrack :=
  { nodePs := [directNode50 ⟨650, 690, 0⟩ ⟨900, 690, 0⟩, directNode50 ⟨560, 570, 0⟩ ⟨560, 900, 0⟩] }

/-! ## Adding nodes -/

theorem positiveAreaIntersection_symm {a b : LocationGraphNode}
    (h : PositiveAreaIntersection a b) : PositiveAreaIntersection b a := by
  unfold PositiveAreaIntersection at *
  rw [max_comm b.left, min_comm b.right, max_comm b.bottom, min_comm b.top]
  exact h

theorem positiveAreaIntersection_new_iff (l r b t : CalcNumber) (n : LocationGraphNode)
    (hlr : l < r) (hbt : b < t) (hn : n.Valid) :
    PositiveAreaIntersection (LocationGraphNode.new 0 l r b t) n ↔
      (l < n.right ∧ n.left < r ∧ b < n.top ∧ n.bottom < t) := by
  obtain ⟨h1, h2⟩ := hn
  simp only [PositiveAreaIntersection, LocationGraphNode.new, max_lt_iff, lt_min_iff]
  tauto

/-- The method `addNodeAndReturnId`, with its three exits written as one conditional. -/
theorem addNodeAndReturnId_eq (g : LocationGraph) (l r b t : CalcNumber) :
    g.addNodeAndReturnId l r b t =
      if ¬ (l < r ∧ b < t) then Outcome.exception .incorrectBounds g
      else if ∃ n ∈ g.nodePs, l < n.right ∧ n.left < r ∧ b < n.top ∧ n.bottom < t then
        Outcome.exception .positiveAreaIntersection g
      else
        Outcome.ok ((g.lastGeneratedId + 1) % UINT_RANGE)
          { g with
            lastGeneratedId := (g.lastGeneratedId + 1) % UINT_RANGE
            nodePs := g.nodePs ++
              [LocationGraphNode.new ((g.lastGeneratedId + 1) % UINT_RANGE) l r b t]
            nodePForId :=
              mapAssign g.nodePForId ((g.lastGeneratedId + 1) % UINT_RANGE) g.nodePs.length } := by
  unfold LocationGraph.addNodeAndReturnId LocationGraph.generateNewNodeId
  by_cases h1 : l < r ∧ b < t
  · obtain ⟨hlr, hbt⟩ := h1
    by_cases h2 : ∃ n ∈ g.nodePs, l < n.right ∧ n.left < r ∧ b < n.top ∧ n.bottom < t
    · have h2' : (g.nodePs.any fun nodeP =>
          (decide (l ≥ nodeP.right) || decide (r ≤ nodeP.left)
            || decide (b ≥ nodeP.top) || decide (t ≤ nodeP.bottom)) == false) = true := by
        obtain ⟨n, hn, h3, h4, h5, h6⟩ := h2
        rw [List.any_eq_true]
        refine ⟨n, hn, ?_⟩
        simp [not_le.mpr h3, not_le.mpr h4, not_le.mpr h5, not_le.mpr h6]
      rw [if_neg (not_not.mpr ⟨hlr, hbt⟩), if_pos h2, h2']
      simp [hlr, hbt]
    · have h2' : (g.nodePs.any fun nodeP =>
          (decide (l ≥ nodeP.right) || decide (r ≤ nodeP.left)
            || decide (b ≥ nodeP.top) || decide (t ≤ nodeP.bottom)) == false) = false := by
        rw [Bool.eq_false_iff]
        intro hany
        rw [List.any_eq_true] at hany
        obtain ⟨n, hn, h3⟩ := hany
        apply h2
        refine ⟨n, hn, ?_⟩
        simpa [and_assoc] using h3
      rw [if_neg (not_not.mpr ⟨hlr, hbt⟩), if_neg h2, h2']
      simp [hlr, hbt]
  · have h1' : (decide (l < r) && decide (b < t)) = false := by
      rw [Bool.eq_false_iff]
      intro h
      apply h1
      simpa using h
    rw [if_pos h1]
    simp [h1']

theorem lookup_mapAssign_self {α : Type} (m : List (Nat × α)) (key : Nat) (value : α) :
    (mapAssign m key value).lookup key = some value := by
  simp [mapAssign, List.lookup]

theorem lookup_filter_ne {α : Type} (m : List (Nat × α)) (key k : Nat) (h : k ≠ key) :
    (m.filter (fun kv => kv.1 != key)).lookup k = m.lookup k := by
  induction m with
  | nil => rfl
  | cons kv m ih =>
    obtain ⟨k1, v1⟩ := kv
    by_cases h1 : k1 = key
    · subst h1
      have h2 : (k == k1) = false := by simpa using h
      simp [List.filter, List.lookup, h2, ih]
    · have h2 : (k1 != key) = true := by simpa using h1
      simp only [List.filter, h2, List.lookup]
      rw [ih]

theorem lookup_mapAssign_ne {α : Type} (m : List (Nat × α)) (key k : Nat) (value : α)
    (h : k ≠ key) : (mapAssign m key value).lookup k = m.lookup k := by
  have h2 : (k == key) = false := by simpa using h
  simp only [mapAssign, List.lookup, h2]
  exact lookup_filter_ne m key k h

theorem addNodeAndReturnId_preserves (g : LocationGraph) (l r b t : CalcNumber)
    (hv : g.NodesValid) (hd : g.NodesDisjoint) (g' : LocationGraph)
    (h : (g.addNodeAndReturnId l r b t).graph? = some g') :
    g'.NodesValid ∧ g'.NodesDisjoint := by
  rw [addNodeAndReturnId_eq] at h
  by_cases h1 : l < r ∧ b < t
  · rw [if_neg (not_not.mpr h1)] at h
    by_cases h2 : ∃ n ∈ g.nodePs, l < n.right ∧ n.left < r ∧ b < n.top ∧ n.bottom < t
    · rw [if_pos h2] at h
      simp only [Outcome.graph?, Option.some.injEq] at h
      subst h
      exact ⟨hv, hd⟩
    · rw [if_neg h2] at h
      simp only [Outcome.graph?, Option.some.injEq] at h
      subst h
      constructor
      · intro n hn
        simp only [List.mem_append, List.mem_singleton] at hn
        rcases hn with hn | hn
        · exact hv n hn
        · subst hn
          exact h1
      · unfold LocationGraph.NodesDisjoint
        rw [List.pairwise_append]
        refine ⟨hd, List.pairwise_singleton _ _, ?_⟩
        intro a ha c hc hpai
        simp only [List.mem_singleton] at hc
        subst hc
        apply h2
        refine ⟨a, ha, ?_⟩
        have h3 := (positiveAreaIntersection_new_iff l r b t a h1.1 h1.2 (hv a ha)).mp
        apply h3
        have h4 := positiveAreaIntersection_symm hpai
        simpa [PositiveAreaIntersection, LocationGraphNode.new] using h4
  · rw [if_pos h1] at h
    simp only [Outcome.graph?, Option.some.injEq] at h
    subst h
    exact ⟨hv, hd⟩

theorem addNodes_preserves (calls : List (CalcNumber × CalcNumber × CalcNumber × CalcNumber)) :
    ∀ g : LocationGraph, g.NodesValid → g.NodesDisjoint →
      (addNodes g calls).NodesValid ∧ (addNodes g calls).NodesDisjoint := by
  induction calls with
  | nil => intro g hv hd; exact ⟨hv, hd⟩
  | cons c calls ih =>
    intro g hv hd
    obtain ⟨l, r, b, t⟩ := c
    have hp := addNodeAndReturnId_preserves g l r b t hv hd
    simp only [addNodes]
    cases hcall : g.addNodeAndReturnId l r b t with
    | ok v g1 =>
      have h1 := hp g1 (by rw [hcall]; rfl)
      exact ih g1 h1.1 h1.2
    | exception e g1 =>
      have h1 := hp g1 (by rw [hcall]; rfl)
      exact ih g1 h1.1 h1.2
    | undefined => exact ih g hv hd

/-- C6. In every graph obtained from the empty graph by a sequence of `addNodeAndReturnId`
calls, successful or failing, every node has `left < right` and `bottom < top`, and no two
nodes at distinct positions have an intersection of positive area. -/
theorem addNodes_nodes_valid_and_disjoint (bag : PipeObjectsBag)
    (params : OptimizationParameters)
    (calls : List (CalcNumber × CalcNumber × CalcNumber × CalcNumber)) :
    (∀ n ∈ (addNodes (LocationGraph.new bag params) calls).nodePs,
        n.left < n.right ∧ n.bottom < n.top) ∧
      ∀ (i j : Nat) (a c : LocationGraphNode),
        (addNodes (LocationGraph.new bag params) calls).nodePs[i]? = some a →
        (addNodes (LocationGraph.new bag params) calls).nodePs[j]? = some c →
        i ≠ j → ¬ PositiveAreaIntersection a c := by
  have h := addNodes_preserves calls (LocationGraph.new bag params)
    (by intro n hn; simp [LocationGraph.new] at hn)
    (by simp [LocationGraph.NodesDisjoint, LocationGraph.new])
  refine ⟨h.1, ?_⟩
  intro i j a c hi hj hij
  have hd := h.2
  unfold LocationGraph.NodesDisjoint at hd
  rw [List.pairwise_iff_getElem] at hd
  obtain ⟨hi1, hi2⟩ := List.getElem?_eq_some_iff.mp hi
  obtain ⟨hj1, hj2⟩ := List.getElem?_eq_some_iff.mp hj
  rcases Nat.lt_or_gt_of_ne hij with hlt | hgt
  · have := hd i j hi1 hj1 hlt
    rw [hi2, hj2] at this
    exact this
  · have := hd j i hj1 hi1 hgt
    rw [hi2, hj2] at this
    exact fun hp => this (positiveAreaIntersection_symm hp)

/-- C5, as amended. Let the nodes of the graph be valid rectangles whose ids do not exceed
the id counter, and let the counter be below the largest `unsigned int`. Then
`addNodeAndReturnId(l, r, b, t)` throws if and only if not `(l < r and b < t)` or some
existing node has an intersection of positive area with `[l, r] x [b, t]`; when it throws the
graph is unchanged; otherwise it appends exactly one node with those bounds, empty adjacency
and source lists and no destination, registers its address under the new id in the id index
(the other entries keep their values), and the new id is the counter plus one: strictly
greater than the counter and than the id of every node of the graph. -/
theorem addNodeAndReturnId_spec (g : LocationGraph) (l r b t : CalcNumber)
    (hvalid : g.NodesValid) (hids : ∀ n ∈ g.nodePs, n.id ≤ g.lastGeneratedId)
    (hroom : g.lastGeneratedId + 1 < UINT_RANGE) :
    ((∃ e g', g.addNodeAndReturnId l r b t = .exception e g') ↔
        (¬ (l < r ∧ b < t) ∨
          ∃ n ∈ g.nodePs, PositiveAreaIntersection (LocationGraphNode.new 0 l r b t) n)) ∧
      (∀ e g', g.addNodeAndReturnId l r b t = .exception e g' → g' = g) ∧
      ((¬ ∃ e g', g.addNodeAndReturnId l r b t = .exception e g') →
        ∃ newId g', g.addNodeAndReturnId l r b t = .ok newId g' ∧
          g'.nodePs = g.nodePs ++
            [{ id := newId, left := l, right := r, bottom := b, top := t,
               leftNodesPs := [], rightNodesPs := [], bottomNodesPs := [], topNodesPs := [],
               waterSourcesPs := [], waterSourcesConnectionPoints := [],
               waterDestinationP := none }] ∧
          g'.nodePForId.lookup newId = some g.nodePs.length ∧
          (∀ k, k ≠ newId → g'.nodePForId.lookup k = g.nodePForId.lookup k) ∧
          g'.pipeObjectsBagP = g.pipeObjectsBagP ∧
          g'.optimizationParametersP = g.optimizationParametersP ∧
          g'.waterDestinationNodeP = g.waterDestinationNodeP ∧
          g'.lastGeneratedId = newId ∧ newId = g.lastGeneratedId + 1 ∧
          g.lastGeneratedId < newId ∧ ∀ n ∈ g.nodePs, n.id < newId) := by
  have hmod : (g.lastGeneratedId + 1) % UINT_RANGE = g.lastGeneratedId + 1 :=
    Nat.mod_eq_of_lt hroom
  rw [addNodeAndReturnId_eq]
  by_cases h1 : l < r ∧ b < t
  · rw [if_neg (not_not.mpr h1)]
    have hiff : (∃ n ∈ g.nodePs, l < n.right ∧ n.left < r ∧ b < n.top ∧ n.bottom < t) ↔
        ∃ n ∈ g.nodePs, PositiveAreaIntersection (LocationGraphNode.new 0 l r b t) n := by
      constructor
      · rintro ⟨n, hn, h⟩
        exact ⟨n, hn, (positiveAreaIntersection_new_iff l r b t n h1.1 h1.2 (hvalid n hn)).mpr h⟩
      · rintro ⟨n, hn, h⟩
        exact ⟨n, hn, (positiveAreaIntersection_new_iff l r b t n h1.1 h1.2 (hvalid n hn)).mp h⟩
    by_cases h2 : ∃ n ∈ g.nodePs, l < n.right ∧ n.left < r ∧ b < n.top ∧ n.bottom < t
    · rw [if_pos h2]
      refine ⟨⟨fun _ => Or.inr (hiff.mp h2), fun _ => ⟨_, _, rfl⟩⟩, ?_, ?_⟩
      · intro e g' h
        injection h with _ hg
        exact hg.symm
      · intro h
        exact absurd ⟨_, _, rfl⟩ h
    · rw [if_neg h2]
      refine ⟨⟨?_, ?_⟩, ?_, ?_⟩
      · rintro ⟨e, g', h⟩
        exact absurd h (by simp)
      · rintro (h | h)
        · exact absurd h1 h
        · exact absurd (hiff.mpr h) h2
      · intro e g' h
        exact absurd h (by simp)
      · intro _
        refine ⟨_, _, rfl, ?_, ?_, ?_, rfl, rfl, rfl, rfl, hmod, ?_, ?_⟩
        · rfl
        · exact lookup_mapAssign_self _ _ _
        · intro k hk
          exact lookup_mapAssign_ne _ _ _ _ hk
        · rw [hmod]
          exact Nat.lt_succ_self _
        · intro n hn
          rw [hmod]
          exact Nat.lt_succ_of_le (hids n hn)
  · rw [if_pos h1]
    refine ⟨⟨fun _ => Or.inl h1, fun _ => ⟨_, _, rfl⟩⟩, ?_, ?_⟩
    · intro e g' h
      injection h with _ hg
      exact hg.symm
    · intro h
      exact absurd ⟨_, _, rfl⟩ h

/-- Witness for C5: on the graph of the single node `[0, 1] x [0, 1]` with id 1 the
hypotheses hold, and adding `[1, 2] x [0, 1]` does not throw. -/
theorem addNodeAndReturnId_spec_witness :
    (addNodes emptyGraph [(0, 1, 0, 1)]).NodesValid ∧
      (addNodes emptyGraph [(0, 1, 0, 1)]).lastGeneratedId + 1 < UINT_RANGE ∧
      ((addNodes emptyGraph [(0, 1, 0, 1)]).addNodeAndReturnId 1 2 0 1).value? = some 2 ∧
      ((∃ e g', (addNodes emptyGraph [(0, 1, 0, 1)]).addNodeAndReturnId 1 2 0 1 =
          .exception e g') ↔
        (¬ ((1 : CalcNumber) < 2 ∧ (0 : CalcNumber) < 1) ∨
          ∃ n ∈ (addNodes emptyGraph [(0, 1, 0, 1)]).nodePs,
            PositiveAreaIntersection (LocationGraphNode.new 0 1 2 0 1) n)) :=
  ⟨by decide!, by decide!, by decide!,
    (addNodeAndReturnId_spec (addNodes emptyGraph [(0, 1, 0, 1)]) 1 2 0 1
      (by decide!) (by decide!) (by decide!)).1⟩

/-- Counterexample for C5 as stated: with the id counter at `4294967295` the increment
`++lastGeneratedId` wraps around, the call returns the id 0, and 0 is neither greater than
the counter nor than the id 1 of the node the graph already holds. -/
theorem addNodeAndReturnId_id_wraps :
    (wrappedGraph.addNodeAndReturnId 1 2 0 1).value? = some 0 ∧
      wrappedGraph.nodePs.map (fun n => n.id) = [1] ∧
      ¬ (∀ newId, (wrappedGraph.addNodeAndReturnId 1 2 0 1).value? = some newId →
          wrappedGraph.lastGeneratedId < newId ∧ ∀ n ∈ wrappedGraph.nodePs, n.id < newId) := by
  have h : (wrappedGraph.addNodeAndReturnId 1 2 0 1).value? = some 0 := by decide!
  refine ⟨h, by decide!, ?_⟩
  intro hall
  exact absurd (hall 0 h).1 (Nat.not_lt_zero _)

/-- C10, the code at the failing input: the graph of the two nodes `[0, 1] x [0, 1]` and
`[1, 2] x [1, 2]` is built by `addNodeAndReturnId` alone, its nodes share the corner `(1, 1)`
only and no adjacency is set, and `connectAllNodes` throws "the nodes do not have this
connection" and leaves the graph as it was. -/
theorem connectAllNodes_throws_on_corner_contact :
    cornerGraph = addNodes emptyGraph [(0, 1, 0, 1), (1, 2, 1, 2)] ∧
      cornerGraph.nodePs.length = 2 ∧
      cornerGraph.connectAllNodes = .exception .notAdjacent cornerGraph := by
  refine ⟨rfl, by decide!, by decide!⟩

/-! ## Connecting two nodes -/

theorem set_set_eq_mapIdx_leftRight (l : List LocationGraphNode) (pa pb : Nat)
    (na nb : LocationGraphNode) (ha : l[pa]? = some na) (hb : l[pb]? = some nb)
    (nb1 : LocationGraphNode)
    (hb1 : (l.set pa { na with rightNodesPs := na.rightNodesPs ++ [pb] })[pb]? = some nb1) :
    (l.set pa { na with rightNodesPs := na.rightNodesPs ++ [pb] }).set pb
        { nb1 with leftNodesPs := nb1.leftNodesPs ++ [pa] } =
      l.mapIdx (withLeftRightEdge pa pb) := by
  obtain ⟨hpa, hna⟩ := List.getElem?_eq_some_iff.mp ha
  obtain ⟨hpb, hnb⟩ := List.getElem?_eq_some_iff.mp hb
  apply List.ext_getElem?
  intro q
  rw [List.getElem?_mapIdx, List.getElem?_set, List.getElem?_set, List.length_set]
  rw [List.getElem?_set] at hb1
  by_cases hab : pa = pb
  · subst hab
    simp only [if_true, hpa, Option.some.injEq] at hb1
    subst hb1
    by_cases hq : pa = q
    · subst hq
      simp [ha, hpa, withLeftRightEdge]
    · have hq' : ¬ q = pa := fun h => hq h.symm
      simp only [hq, if_false]
      cases hl : l[q]? with
      | none => rfl
      | some n => simp [withLeftRightEdge, hq']
  · simp only [hab, if_false, hb, Option.some.injEq] at hb1
    subst hb1
    by_cases hq : pb = q
    · subst hq
      have hab' : ¬ pb = pa := fun h => hab h.symm
      simp [hb, hpb, withLeftRightEdge, hab']
    · have hq' : ¬ q = pb := fun h => hq h.symm
      simp only [hq, if_false]
      by_cases hq2 : pa = q
      · subst hq2
        simp [ha, hpa, withLeftRightEdge, hab]
      · have hq2' : ¬ q = pa := fun h => hq2 h.symm
        simp only [hq2, if_false]
        cases hl : l[q]? with
        | none => rfl
        | some n => simp [withLeftRightEdge, hq', hq2']

/-- The three ways in which `connectLeftAndRightNodes` ends. -/
theorem connectLeftAndRightNodes_cases (g : LocationGraph) (a b : Nat) :
    (g.connectLeftAndRightNodes a b = .undefined ∧
        ∃ pa pb, g.nodePForId.lookup a = some pa ∧ g.nodePForId.lookup b = some pb ∧
          (g.nodePs[pa]? = none ∨ g.nodePs[pb]? = none)) ∨
      ((∃ e, g.connectLeftAndRightNodes a b = .exception e g) ∧
        (g.nodePForId.lookup a = none ∨ g.nodePForId.lookup b = none ∨
          ∃ pa pb na nb, g.nodePForId.lookup a = some pa ∧ g.nodePForId.lookup b = some pb ∧
            g.nodePs[pa]? = some na ∧ g.nodePs[pb]? = some nb ∧
            (pb ∈ na.rightNodesPs ∨ pa ∈ nb.leftNodesPs ∨ na.right ≠ nb.left ∨
              na.bottom ≥ nb.top ∨ na.top ≤ nb.bottom))) ∨
      ∃ pa pb na nb, g.nodePForId.lookup a = some pa ∧ g.nodePForId.lookup b = some pb ∧
        g.nodePs[pa]? = some na ∧ g.nodePs[pb]? = some nb ∧
        pb ∉ na.rightNodesPs ∧ pa ∉ nb.leftNodesPs ∧ na.right = nb.left ∧
        na.bottom < nb.top ∧ nb.bottom < na.top ∧
        g.connectLeftAndRightNodes a b =
          .ok () { g with nodePs := g.nodePs.mapIdx (withLeftRightEdge pa pb) } := by
  unfold LocationGraph.connectLeftAndRightNodes
  cases hla : g.nodePForId.lookup a with
  | none => exact Or.inr (Or.inl ⟨⟨_, rfl⟩, Or.inl rfl⟩)
  | some pa =>
    cases hlb : g.nodePForId.lookup b with
    | none => exact Or.inr (Or.inl ⟨⟨_, rfl⟩, Or.inr (Or.inl rfl)⟩)
    | some pb =>
      dsimp only
      cases hna : g.nodePs[pa]? with
      | none => exact Or.inl ⟨rfl, pa, pb, rfl, rfl, Or.inl hna⟩
      | some na =>
        cases hnb : g.nodePs[pb]? with
        | none => exact Or.inl ⟨rfl, pa, pb, rfl, rfl, Or.inr hnb⟩
        | some nb =>
          simp only
          by_cases h1 : pb ∈ na.rightNodesPs
          · rw [if_pos h1]
            exact Or.inr (Or.inl ⟨⟨_, rfl⟩, Or.inr (Or.inr
              ⟨pa, pb, na, nb, rfl, rfl, hna, hnb, Or.inl h1⟩)⟩)
          · rw [if_neg h1]
            by_cases h2 : pa ∈ nb.leftNodesPs
            · rw [if_pos h2]
              exact Or.inr (Or.inl ⟨⟨_, rfl⟩, Or.inr (Or.inr
                ⟨pa, pb, na, nb, rfl, rfl, hna, hnb, Or.inr (Or.inl h2)⟩)⟩)
            · rw [if_neg h2]
              by_cases h3 : na.right ≠ nb.left ∨ na.bottom ≥ nb.top ∨ na.top ≤ nb.bottom
              · rw [if_pos h3]
                exact Or.inr (Or.inl ⟨⟨_, rfl⟩, Or.inr (Or.inr
                  ⟨pa, pb, na, nb, rfl, rfl, hna, hnb, Or.inr (Or.inr h3)⟩)⟩)
              · rw [if_neg h3]
                simp only [not_or, not_not, not_le, ge_iff_le] at h3
                obtain ⟨h4, h5, h6⟩ := h3
                refine Or.inr (Or.inr ⟨pa, pb, na, nb, rfl, rfl, hna, hnb, h1, h2, h4, h5, h6, ?_⟩)
                obtain ⟨hpb, _⟩ := List.getElem?_eq_some_iff.mp hnb
                have hlen : pb < (g.setNode pa
                    { na with rightNodesPs := na.rightNodesPs ++ [pb] }).nodePs.length := by
                  simp [LocationGraph.setNode, hpb]
                obtain ⟨nb1, hnb1⟩ : ∃ nb1, (g.setNode pa
                    { na with rightNodesPs := na.rightNodesPs ++ [pb] }).nodePs[pb]? = some nb1 :=
                  ⟨_, List.getElem?_eq_getElem hlen⟩
                rw [hnb1]
                simp only [LocationGraph.setNode] at hnb1 ⊢
                rw [set_set_eq_mapIdx_leftRight g.nodePs pa pb na nb hna hnb nb1 hnb1]

theorem set_set_eq_mapIdx_bottomTop (l : List LocationGraphNode) (pa pb : Nat)
    (na nb : LocationGraphNode) (ha : l[pa]? = some na) (hb : l[pb]? = some nb)
    (nb1 : LocationGraphNode)
    (hb1 : (l.set pa { na with topNodesPs := na.topNodesPs ++ [pb] })[pb]? = some nb1) :
    (l.set pa { na with topNodesPs := na.topNodesPs ++ [pb] }).set pb
        { nb1 with bottomNodesPs := nb1.bottomNodesPs ++ [pa] } =
      l.mapIdx (withBottomTopEdge pa pb) := by
  obtain ⟨hpa, hna⟩ := List.getElem?_eq_some_iff.mp ha
  obtain ⟨hpb, hnb⟩ := List.getElem?_eq_some_iff.mp hb
  apply List.ext_getElem?
  intro q
  rw [List.getElem?_mapIdx, List.getElem?_set, List.getElem?_set, List.length_set]
  rw [List.getElem?_set] at hb1
  by_cases hab : pa = pb
  · subst hab
    simp only [if_true, hpa, Option.some.injEq] at hb1
    subst hb1
    by_cases hq : pa = q
    · subst hq
      simp [ha, hpa, withBottomTopEdge]
    · have hq' : ¬ q = pa := fun h => hq h.symm
      simp only [hq, if_false]
      cases hl : l[q]? with
      | none => rfl
      | some n => simp [withBottomTopEdge, hq']
  · simp only [hab, if_false, hb, Option.some.injEq] at hb1
    subst hb1
    by_cases hq : pb = q
    · subst hq
      have hab' : ¬ pb = pa := fun h => hab h.symm
      simp [hb, hpb, withBottomTopEdge, hab']
    · have hq' : ¬ q = pb := fun h => hq h.symm
      simp only [hq, if_false]
      by_cases hq2 : pa = q
      · subst hq2
        simp [ha, hpa, withBottomTopEdge, hab]
      · have hq2' : ¬ q = pa := fun h => hq2 h.symm
        simp only [hq2, if_false]
        cases hl : l[q]? with
        | none => rfl
        | some n => simp [withBottomTopEdge, hq', hq2']

/-- The three ways in which `connectBottomAndTopNodes` ends. -/
theorem connectBottomAndTopNodes_cases (g : LocationGraph) (a b : Nat) :
    (g.connectBottomAndTopNodes a b = .undefined ∧
        ∃ pa pb, g.nodePForId.lookup a = some pa ∧ g.nodePForId.lookup b = some pb ∧
          (g.nodePs[pa]? = none ∨ g.nodePs[pb]? = none)) ∨
      ((∃ e, g.connectBottomAndTopNodes a b = .exception e g) ∧
        (g.nodePForId.lookup a = none ∨ g.nodePForId.lookup b = none ∨
          ∃ pa pb na nb, g.nodePForId.lookup a = some pa ∧ g.nodePForId.lookup b = some pb ∧
            g.nodePs[pa]? = some na ∧ g.nodePs[pb]? = some nb ∧
            (pb ∈ na.topNodesPs ∨ pa ∈ nb.bottomNodesPs ∨ na.top ≠ nb.bottom ∨
              na.left ≥ nb.right ∨ na.right ≤ nb.left))) ∨
      ∃ pa pb na nb, g.nodePForId.lookup a = some pa ∧ g.nodePForId.lookup b = some pb ∧
        g.nodePs[pa]? = some na ∧ g.nodePs[pb]? = some nb ∧
        pb ∉ na.topNodesPs ∧ pa ∉ nb.bottomNodesPs ∧ na.top = nb.bottom ∧
        na.left < nb.right ∧ nb.left < na.right ∧
        g.connectBottomAndTopNodes a b =
          .ok () { g with nodePs := g.nodePs.mapIdx (withBottomTopEdge pa pb) } := by
  unfold LocationGraph.connectBottomAndTopNodes
  cases hla : g.nodePForId.lookup a with
  | none => exact Or.inr (Or.inl ⟨⟨_, rfl⟩, Or.inl rfl⟩)
  | some pa =>
    cases hlb : g.nodePForId.lookup b with
    | none => exact Or.inr (Or.inl ⟨⟨_, rfl⟩, Or.inr (Or.inl rfl)⟩)
    | some pb =>
      dsimp only
      cases hna : g.nodePs[pa]? with
      | none => exact Or.inl ⟨rfl, pa, pb, rfl, rfl, Or.inl hna⟩
      | some na =>
        cases hnb : g.nodePs[pb]? with
        | none => exact Or.inl ⟨rfl, pa, pb, rfl, rfl, Or.inr hnb⟩
        | some nb =>
          simp only
          by_cases h1 : pb ∈ na.topNodesPs
          · rw [if_pos h1]
            exact Or.inr (Or.inl ⟨⟨_, rfl⟩, Or.inr (Or.inr
              ⟨pa, pb, na, nb, rfl, rfl, hna, hnb, Or.inl h1⟩)⟩)
          · rw [if_neg h1]
            by_cases h2 : pa ∈ nb.bottomNodesPs
            · rw [if_pos h2]
              exact Or.inr (Or.inl ⟨⟨_, rfl⟩, Or.inr (Or.inr
                ⟨pa, pb, na, nb, rfl, rfl, hna, hnb, Or.inr (Or.inl h2)⟩)⟩)
            · rw [if_neg h2]
              by_cases h3 : na.top ≠ nb.bottom ∨ na.left ≥ nb.right ∨ na.right ≤ nb.left
              · rw [if_pos h3]
                exact Or.inr (Or.inl ⟨⟨_, rfl⟩, Or.inr (Or.inr
                  ⟨pa, pb, na, nb, rfl, rfl, hna, hnb, Or.inr (Or.inr h3)⟩)⟩)
              · rw [if_neg h3]
                simp only [not_or, not_not, not_le, ge_iff_le] at h3
                obtain ⟨h4, h5, h6⟩ := h3
                refine Or.inr (Or.inr ⟨pa, pb, na, nb, rfl, rfl, hna, hnb, h1, h2, h4, h5, h6, ?_⟩)
                obtain ⟨hpb, _⟩ := List.getElem?_eq_some_iff.mp hnb
                have hlen : pb < (g.setNode pa
                    { na with topNodesPs := na.topNodesPs ++ [pb] }).nodePs.length := by
                  simp [LocationGraph.setNode, hpb]
                obtain ⟨nb1, hnb1⟩ : ∃ nb1, (g.setNode pa
                    { na with topNodesPs := na.topNodesPs ++ [pb] }).nodePs[pb]? = some nb1 :=
                  ⟨_, List.getElem?_eq_getElem hlen⟩
                rw [hnb1]
                simp only [LocationGraph.setNode] at hnb1 ⊢
                rw [set_set_eq_mapIdx_bottomTop g.nodePs pa pb na nb hna hnb nb1 hnb1]

theorem connectLeftAndRightNodes_spec (g : LocationGraph) (hidx : g.IndexConsistent)
    (hvalid : g.NodesValid) (a b : Nat) :
    ((∃ e g', g.connectLeftAndRightNodes a b = .exception e g') ↔
        ((¬ ∃ n ∈ g.nodePs, n.id = a) ∨ (¬ ∃ n ∈ g.nodePs, n.id = b) ∨
          ∃ pa pb na nb, g.nodePs[pa]? = some na ∧ na.id = a ∧
            g.nodePs[pb]? = some nb ∧ nb.id = b ∧
            (pb ∈ na.rightNodesPs ∨ pa ∈ nb.leftNodesPs ∨ na.right ≠ nb.left ∨
              ¬ YRangesOverlap na nb))) ∧
      (∀ e g', g.connectLeftAndRightNodes a b = .exception e g' → g' = g) ∧
      ((¬ ∃ e g', g.connectLeftAndRightNodes a b = .exception e g') →
        ∃ pa pb na nb, g.nodePs[pa]? = some na ∧ na.id = a ∧
          g.nodePs[pb]? = some nb ∧ nb.id = b ∧
          g.connectLeftAndRightNodes a b =
            .ok () { g with nodePs := g.nodePs.mapIdx (withLeftRightEdge pa pb) }) := by
  have huniq : ∀ (p q : Nat) (n m : LocationGraphNode),
      g.nodePs[p]? = some n → g.nodePs[q]? = some m → n.id = m.id →
      p = q ∧ n = m := by
    intro p q n m hn hm hid
    have h1 := hidx.complete p n hn
    have h2 := hidx.complete q m hm
    rw [hid, h2] at h1
    have hpq : q = p := Option.some.inj h1
    subst hpq
    rw [hn] at hm
    exact ⟨rfl, Option.some.inj hm⟩
  have hyr : ∀ n m : LocationGraphNode, n.Valid → m.Valid →
      (YRangesOverlap n m ↔ n.bottom < m.top ∧ m.bottom < n.top) := by
    intro n m hn hm
    obtain ⟨_, hn2⟩ := hn
    obtain ⟨_, hm2⟩ := hm
    simp only [YRangesOverlap, max_lt_iff, lt_min_iff]
    tauto
  rcases connectLeftAndRightNodes_cases g a b with h | h | h
  · obtain ⟨_, pa, pb, hla, hlb, hnone⟩ := h
    obtain ⟨na, hna, _⟩ := hidx.sound a pa hla
    obtain ⟨nb, hnb, _⟩ := hidx.sound b pb hlb
    rcases hnone with h1 | h1
    · rw [hna] at h1
      exact absurd h1 (by simp)
    · rw [hnb] at h1
      exact absurd h1 (by simp)
  · obtain ⟨⟨e, he⟩, hwhy⟩ := h
    refine ⟨⟨fun _ => ?_, fun _ => ⟨e, g, he⟩⟩, ?_, ?_⟩
    · rcases hwhy with h1 | h1 | ⟨pa, pb, na, nb, hla, hlb, hna, hnb, h1⟩
      · left
        rintro ⟨n, hn, hid⟩
        obtain ⟨p, hp⟩ := List.mem_iff_getElem?.mp hn
        have := hidx.complete p n hp
        rw [hid, h1] at this
        exact absurd this (by simp)
      · right; left
        rintro ⟨n, hn, hid⟩
        obtain ⟨p, hp⟩ := List.mem_iff_getElem?.mp hn
        have := hidx.complete p n hp
        rw [hid, h1] at this
        exact absurd this (by simp)
      · right; right
        obtain ⟨na', hna', hida⟩ := hidx.sound a pa hla
        obtain ⟨nb', hnb', hidb⟩ := hidx.sound b pb hlb
        rw [hna] at hna'
        rw [hnb] at hnb'
        have e1 : na = na' := Option.some.inj hna'
        have e2 : nb = nb' := Option.some.inj hnb'
        subst e1 e2
        refine ⟨pa, pb, na, nb, hna, hida, hnb, hidb, ?_⟩
        have hva := hvalid na (List.mem_iff_getElem?.mpr ⟨pa, hna⟩)
        have hvb := hvalid nb (List.mem_iff_getElem?.mpr ⟨pb, hnb⟩)
        rcases h1 with h1 | h1 | h1 | h1 | h1
        · exact Or.inl h1
        · exact Or.inr (Or.inl h1)
        · exact Or.inr (Or.inr (Or.inl h1))
        · refine Or.inr (Or.inr (Or.inr ?_))
          rw [hyr na nb hva hvb]
          intro h2
          exact absurd h2.1 (not_lt.mpr h1)
        · refine Or.inr (Or.inr (Or.inr ?_))
          rw [hyr na nb hva hvb]
          intro h2
          exact absurd h2.2 (not_lt.mpr h1)
    · intro e' g' h'
      rw [he] at h'
      injection h' with _ hg
      exact hg.symm
    · intro hno
      exact absurd ⟨e, g, he⟩ hno
  · obtain ⟨pa, pb, na, nb, hla, hlb, hna, hnb, h1, h2, h3, h4, h5, hok⟩ := h
    obtain ⟨na', hna', hida⟩ := hidx.sound a pa hla
    obtain ⟨nb', hnb', hidb⟩ := hidx.sound b pb hlb
    rw [hna] at hna'
    rw [hnb] at hnb'
    have e1 : na = na' := Option.some.inj hna'
    have e2 : nb = nb' := Option.some.inj hnb'
    subst e1 e2
    have hva := hvalid na (List.mem_iff_getElem?.mpr ⟨pa, hna⟩)
    have hvb := hvalid nb (List.mem_iff_getElem?.mpr ⟨pb, hnb⟩)
    refine ⟨⟨?_, ?_⟩, ?_, ?_⟩
    · rintro ⟨e, g', he⟩
      rw [hok] at he
      exact absurd he (by simp)
    · rintro (hx | hx | ⟨qa, qb, ma, mb, hma, hida', hmb, hidb', hx⟩)
      · exact absurd ⟨na, List.mem_iff_getElem?.mpr ⟨pa, hna⟩, hida⟩ hx
      · exact absurd ⟨nb, List.mem_iff_getElem?.mpr ⟨pb, hnb⟩, hidb⟩ hx
      · obtain ⟨e3, e4⟩ := huniq qa pa ma na hma hna (by rw [hida', hida])
        obtain ⟨e5, e6⟩ := huniq qb pb mb nb hmb hnb (by rw [hidb', hidb])
        subst e3 e4 e5 e6
        rcases hx with hx | hx | hx | hx
        · exact absurd hx h1
        · exact absurd hx h2
        · exact absurd h3 hx
        · exact absurd ((hyr ma mb hva hvb).mpr ⟨h4, h5⟩) hx
    · intro e g' he
      rw [hok] at he
      exact absurd he (by simp)
    · intro _
      exact ⟨pa, pb, na, nb, hna, hida, hnb, hidb, hok⟩

theorem connectBottomAndTopNodes_spec (g : LocationGraph) (hidx : g.IndexConsistent)
    (hvalid : g.NodesValid) (a b : Nat) :
    ((∃ e g', g.connectBottomAndTopNodes a b = .exception e g') ↔
        ((¬ ∃ n ∈ g.nodePs, n.id = a) ∨ (¬ ∃ n ∈ g.nodePs, n.id = b) ∨
          ∃ pa pb na nb, g.nodePs[pa]? = some na ∧ na.id = a ∧
            g.nodePs[pb]? = some nb ∧ nb.id = b ∧
            (pb ∈ na.topNodesPs ∨ pa ∈ nb.bottomNodesPs ∨ na.top ≠ nb.bottom ∨
              ¬ XRangesOverlap na nb))) ∧
      (∀ e g', g.connectBottomAndTopNodes a b = .exception e g' → g' = g) ∧
      ((¬ ∃ e g', g.connectBottomAndTopNodes a b = .exception e g') →
        ∃ pa pb na nb, g.nodePs[pa]? = some na ∧ na.id = a ∧
          g.nodePs[pb]? = some nb ∧ nb.id = b ∧
          g.connectBottomAndTopNodes a b =
            .ok () { g with nodePs := g.nodePs.mapIdx (withBottomTopEdge pa pb) }) := by
  have huniq : ∀ (p q : Nat) (n m : LocationGraphNode),
      g.nodePs[p]? = some n → g.nodePs[q]? = some m → n.id = m.id →
      p = q ∧ n = m := by
    intro p q n m hn hm hid
    have h1 := hidx.complete p n hn
    have h2 := hidx.complete q m hm
    rw [hid, h2] at h1
    have hpq : q = p := Option.some.inj h1
    subst hpq
    rw [hn] at hm
    exact ⟨rfl, Option.some.inj hm⟩
  have hyr : ∀ n m : LocationGraphNode, n.Valid → m.Valid →
      (XRangesOverlap n m ↔ n.left < m.right ∧ m.left < n.right) := by
    intro n m hn hm
    obtain ⟨hn2, _⟩ := hn
    obtain ⟨hm2, _⟩ := hm
    simp only [XRangesOverlap, max_lt_iff, lt_min_iff]
    tauto
  rcases connectBottomAndTopNodes_cases g a b with h | h | h
  · obtain ⟨_, pa, pb, hla, hlb, hnone⟩ := h
    obtain ⟨na, hna, _⟩ := hidx.sound a pa hla
    obtain ⟨nb, hnb, _⟩ := hidx.sound b pb hlb
    rcases hnone with h1 | h1
    · rw [hna] at h1
      exact absurd h1 (by simp)
    · rw [hnb] at h1
      exact absurd h1 (by simp)
  · obtain ⟨⟨e, he⟩, hwhy⟩ := h
    refine ⟨⟨fun _ => ?_, fun _ => ⟨e, g, he⟩⟩, ?_, ?_⟩
    · rcases hwhy with h1 | h1 | ⟨pa, pb, na, nb, hla, hlb, hna, hnb, h1⟩
      · left
        rintro ⟨n, hn, hid⟩
        obtain ⟨p, hp⟩ := List.mem_iff_getElem?.mp hn
        have := hidx.complete p n hp
        rw [hid, h1] at this
        exact absurd this (by simp)
      · right; left
        rintro ⟨n, hn, hid⟩
        obtain ⟨p, hp⟩ := List.mem_iff_getElem?.mp hn
        have := hidx.complete p n hp
        rw [hid, h1] at this
        exact absurd this (by simp)
      · right; right
        obtain ⟨na', hna', hida⟩ := hidx.sound a pa hla
        obtain ⟨nb', hnb', hidb⟩ := hidx.sound b pb hlb
        rw [hna] at hna'
        rw [hnb] at hnb'
        have e1 : na = na' := Option.some.inj hna'
        have e2 : nb = nb' := Option.some.inj hnb'
        subst e1 e2
        refine ⟨pa, pb, na, nb, hna, hida, hnb, hidb, ?_⟩
        have hva := hvalid na (List.mem_iff_getElem?.mpr ⟨pa, hna⟩)
        have hvb := hvalid nb (List.mem_iff_getElem?.mpr ⟨pb, hnb⟩)
        rcases h1 with h1 | h1 | h1 | h1 | h1
        · exact Or.inl h1
        · exact Or.inr (Or.inl h1)
        · exact Or.inr (Or.inr (Or.inl h1))
        · refine Or.inr (Or.inr (Or.inr ?_))
          rw [hyr na nb hva hvb]
          intro h2
          exact absurd h2.1 (not_lt.mpr h1)
        · refine Or.inr (Or.inr (Or.inr ?_))
          rw [hyr na nb hva hvb]
          intro h2
          exact absurd h2.2 (not_lt.mpr h1)
    · intro e' g' h'
      rw [he] at h'
      injection h' with _ hg
      exact hg.symm
    · intro hno
      exact absurd ⟨e, g, he⟩ hno
  · obtain ⟨pa, pb, na, nb, hla, hlb, hna, hnb, h1, h2, h3, h4, h5, hok⟩ := h
    obtain ⟨na', hna', hida⟩ := hidx.sound a pa hla
    obtain ⟨nb', hnb', hidb⟩ := hidx.sound b pb hlb
    rw [hna] at hna'
    rw [hnb] at hnb'
    have e1 : na = na' := Option.some.inj hna'
    have e2 : nb = nb' := Option.some.inj hnb'
    subst e1 e2
    have hva := hvalid na (List.mem_iff_getElem?.mpr ⟨pa, hna⟩)
    have hvb := hvalid nb (List.mem_iff_getElem?.mpr ⟨pb, hnb⟩)
    refine ⟨⟨?_, ?_⟩, ?_, ?_⟩
    · rintro ⟨e, g', he⟩
      rw [hok] at he
      exact absurd he (by simp)
    · rintro (hx | hx | ⟨qa, qb, ma, mb, hma, hida', hmb, hidb', hx⟩)
      · exact absurd ⟨na, List.mem_iff_getElem?.mpr ⟨pa, hna⟩, hida⟩ hx
      · exact absurd ⟨nb, List.mem_iff_getElem?.mpr ⟨pb, hnb⟩, hidb⟩ hx
      · obtain ⟨e3, e4⟩ := huniq qa pa ma na hma hna (by rw [hida', hida])
        obtain ⟨e5, e6⟩ := huniq qb pb mb nb hmb hnb (by rw [hidb', hidb])
        subst e3 e4 e5 e6
        rcases hx with hx | hx | hx | hx
        · exact absurd hx h1
        · exact absurd hx h2
        · exact absurd h3 hx
        · exact absurd ((hyr ma mb hva hvb).mpr ⟨h4, h5⟩) hx
    · intro e g' he
      rw [hok] at he
      exact absurd he (by simp)
    · intro _
      exact ⟨pa, pb, na, nb, hna, hida, hnb, hidb, hok⟩

/-! ## The id index of graphs built by `addNodeAndReturnId` -/

theorem addNodeAndReturnId_index (g : LocationGraph) (l r b t : CalcNumber)
    (hidx : g.IndexConsistent) (hids : g.IdsBelowCounter)
    (hroom : g.lastGeneratedId + 1 < UINT_RANGE) (g' : LocationGraph)
    (h : (g.addNodeAndReturnId l r b t).graph? = some g') :
    g'.IndexConsistent ∧ g'.IdsBelowCounter ∧ g'.lastGeneratedId ≤ g.lastGeneratedId + 1 := by
  have hmod : (g.lastGeneratedId + 1) % UINT_RANGE = g.lastGeneratedId + 1 :=
    Nat.mod_eq_of_lt hroom
  rw [addNodeAndReturnId_eq, hmod] at h
  by_cases h1 : l < r ∧ b < t
  · rw [if_neg (not_not.mpr h1)] at h
    by_cases h2 : ∃ n ∈ g.nodePs, l < n.right ∧ n.left < r ∧ b < n.top ∧ n.bottom < t
    · rw [if_pos h2] at h
      simp only [Outcome.graph?, Option.some.injEq] at h
      subst h
      exact ⟨hidx, hids, Nat.le_succ _⟩
    · rw [if_neg h2] at h
      simp only [Outcome.graph?, Option.some.injEq] at h
      subst h
      refine ⟨⟨?_, ?_⟩, ?_, le_refl _⟩
      · intro id p hl
        simp only at hl ⊢
        by_cases hid : id = g.lastGeneratedId + 1
        · subst hid
          rw [lookup_mapAssign_self] at hl
          have hp : g.nodePs.length = p := Option.some.inj hl
          subst hp
          exact ⟨LocationGraphNode.new (g.lastGeneratedId + 1) l r b t, by simp, rfl⟩
        · rw [lookup_mapAssign_ne _ _ _ _ hid] at hl
          obtain ⟨n, hn, hnid⟩ := hidx.sound id p hl
          obtain ⟨hp, _⟩ := List.getElem?_eq_some_iff.mp hn
          exact ⟨n, by rw [List.getElem?_append_left hp]; exact hn, hnid⟩
      · intro p n hn
        simp only at hn ⊢
        by_cases hp : p < g.nodePs.length
        · rw [List.getElem?_append_left hp] at hn
          have hle := hids n (List.mem_iff_getElem?.mpr ⟨p, hn⟩)
          have hne : n.id ≠ g.lastGeneratedId + 1 := by omega
          rw [lookup_mapAssign_ne _ _ _ _ hne]
          exact hidx.complete p n hn
        · rw [List.getElem?_append_right (not_lt.mp hp)] at hn
          have hp0 : p - g.nodePs.length = 0 := by
            by_contra hne
            have : 1 ≤ p - g.nodePs.length := Nat.one_le_iff_ne_zero.mpr hne
            rw [List.getElem?_eq_none (by simpa using this)] at hn
            exact absurd hn (by simp)
          rw [hp0] at hn
          simp only [List.getElem?_cons_zero, Option.some.injEq] at hn
          subst hn
          have hpe : p = g.nodePs.length := by omega
          subst hpe
          exact lookup_mapAssign_self _ _ _
      · intro n hn
        simp only [List.mem_append, List.mem_singleton] at hn
        rcases hn with hn | hn
        · exact Nat.le_succ_of_le (hids n hn)
        · subst hn
          exact le_refl _
  · rw [if_pos h1] at h
    simp only [Outcome.graph?, Option.some.injEq] at h
    subst h
    exact ⟨hidx, hids, Nat.le_succ _⟩

theorem addNodes_index (calls : List (CalcNumber × CalcNumber × CalcNumber × CalcNumber)) :
    ∀ g : LocationGraph, g.IndexConsistent → g.IdsBelowCounter →
      g.lastGeneratedId + calls.length < UINT_RANGE →
      (addNodes g calls).IndexConsistent ∧ (addNodes g calls).IdsBelowCounter := by
  induction calls with
  | nil => intro g h1 h2 _; exact ⟨h1, h2⟩
  | cons c calls ih =>
    intro g h1 h2 hlen
    obtain ⟨l, r, b, t⟩ := c
    simp only [List.length_cons] at hlen
    have hp := addNodeAndReturnId_index g l r b t h1 h2 (by omega)
    simp only [addNodes]
    cases hcall : g.addNodeAndReturnId l r b t with
    | ok v g1 =>
      obtain ⟨h3, h4, h5⟩ := hp g1 (by rw [hcall]; rfl)
      exact ih g1 h3 h4 (by omega)
    | exception e g1 =>
      obtain ⟨h3, h4, h5⟩ := hp g1 (by rw [hcall]; rfl)
      exact ih g1 h3 h4 (by omega)
    | undefined => exact ih g h1 h2 (by omega)

/-- A graph built from the empty graph by fewer than `2 ^ 32` calls of `addNodeAndReturnId`
has a consistent id index. -/
theorem addNodes_indexConsistent (bag : PipeObjectsBag) (params : OptimizationParameters)
    (calls : List (CalcNumber × CalcNumber × CalcNumber × CalcNumber))
    (hlen : calls.length < UINT_RANGE) :
    (addNodes (LocationGraph.new bag params) calls).IndexConsistent := by
  refine (addNodes_index calls (LocationGraph.new bag params) ⟨?_, ?_⟩ ?_ ?_).1
  · intro id p h
    simp [LocationGraph.new, List.lookup] at h
  · intro p n h
    simp [LocationGraph.new] at h
  · intro n hn
    simp [LocationGraph.new] at hn
  · simpa [LocationGraph.new] using hlen

/-! ## C7 -/

/-- C7. In a graph with a consistent id index and valid nodes,
`connectLeftAndRightNodes(a, b)` throws if and only if `a` or `b` is not the id of a node of
the graph, or `b` is already in the right list of `a`, or `a` is already in the left list of
`b`, or `a.right` differs from `b.left`, or the two y-ranges do not overlap with positive
length; an exception leaves the graph unchanged; otherwise the call returns, the address of
`b` is appended to the right list of `a`, the address of `a` to the left list of `b`, and
nothing else changes. `connectBottomAndTopNodes` behaves the same with the axes
exchanged (top list, bottom list, `a.top`, `b.bottom`, x-ranges). -/
theorem connectors_spec (g : LocationGraph) (hidx : g.IndexConsistent) (hvalid : g.NodesValid)
    (a b : Nat) :
    (((∃ e g', g.connectLeftAndRightNodes a b = .exception e g') ↔
        ((¬ ∃ n ∈ g.nodePs, n.id = a) ∨ (¬ ∃ n ∈ g.nodePs, n.id = b) ∨
          ∃ pa pb na nb, g.nodePs[pa]? = some na ∧ na.id = a ∧
            g.nodePs[pb]? = some nb ∧ nb.id = b ∧
            (pb ∈ na.rightNodesPs ∨ pa ∈ nb.leftNodesPs ∨ na.right ≠ nb.left ∨
              ¬ YRangesOverlap na nb))) ∧
      (∀ e g', g.connectLeftAndRightNodes a b = .exception e g' → g' = g) ∧
      ((¬ ∃ e g', g.connectLeftAndRightNodes a b = .exception e g') →
        ∃ pa pb na nb, g.nodePs[pa]? = some na ∧ na.id = a ∧
          g.nodePs[pb]? = some nb ∧ nb.id = b ∧
          g.connectLeftAndRightNodes a b =
            .ok () { g with nodePs := g.nodePs.mapIdx (withLeftRightEdge pa pb) })) ∧
    (((∃ e g', g.connectBottomAndTopNodes a b = .exception e g') ↔
        ((¬ ∃ n ∈ g.nodePs, n.id = a) ∨ (¬ ∃ n ∈ g.nodePs, n.id = b) ∨
          ∃ pa pb na nb, g.nodePs[pa]? = some na ∧ na.id = a ∧
            g.nodePs[pb]? = some nb ∧ nb.id = b ∧
            (pb ∈ na.topNodesPs ∨ pa ∈ nb.bottomNodesPs ∨ na.top ≠ nb.bottom ∨
              ¬ XRangesOverlap na nb))) ∧
      (∀ e g', g.connectBottomAndTopNodes a b = .exception e g' → g' = g) ∧
      ((¬ ∃ e g', g.connectBottomAndTopNodes a b = .exception e g') →
        ∃ pa pb na nb, g.nodePs[pa]? = some na ∧ na.id = a ∧
          g.nodePs[pb]? = some nb ∧ nb.id = b ∧
          g.connectBottomAndTopNodes a b =
            .ok () { g with nodePs := g.nodePs.mapIdx (withBottomTopEdge pa pb) })) :=
  ⟨connectLeftAndRightNodes_spec g hidx hvalid a b,
    connectBottomAndTopNodes_spec g hidx hvalid a b⟩

/-- Witness for C7: the graph of the nodes `[0, 1] x [0, 1]` (id 1) and `[1, 2] x [0, 1]`
(id 2) satisfies the hypotheses; connecting 1 and 2 as left and right returns, and
connecting them as bottom and top throws and leaves the graph unchanged. -/
theorem connectors_spec_witness :
    (addNodes emptyGraph [(0, 1, 0, 1), (1, 2, 0, 1)]).IndexConsistent ∧
      (addNodes emptyGraph [(0, 1, 0, 1), (1, 2, 0, 1)]).NodesValid ∧
      ((addNodes emptyGraph [(0, 1, 0, 1), (1, 2, 0, 1)]).connectLeftAndRightNodes 1 2).graph?
        = some { addNodes emptyGraph [(0, 1, 0, 1), (1, 2, 0, 1)] with
            nodePs := [{ LocationGraphNode.new 1 0 1 0 1 with rightNodesPs := [1] },
              { LocationGraphNode.new 2 1 2 0 1 with leftNodesPs := [0] }] } ∧
      (∀ e g', (addNodes emptyGraph [(0, 1, 0, 1), (1, 2, 0, 1)]).connectBottomAndTopNodes 1 2
          = .exception e g' → g' = addNodes emptyGraph [(0, 1, 0, 1), (1, 2, 0, 1)]) :=
  ⟨addNodes_indexConsistent _ _ _ (by decide), by decide!, by decide!,
    (connectors_spec (addNodes emptyGraph [(0, 1, 0, 1), (1, 2, 0, 1)])
      (addNodes_indexConsistent _ _ _ (by decide)) (by decide!) 1 2).2.2.1⟩

/-! ## Connecting all nodes -/

theorem connectLeftAndRightNodes_ok {g g' : LocationGraph} {a b : Nat} {u : Unit}
    (h : g.connectLeftAndRightNodes a b = .ok u g') :
    ∃ pa pb na nb, g.nodePForId.lookup a = some pa ∧ g.nodePForId.lookup b = some pb ∧
      g.nodePs[pa]? = some na ∧ g.nodePs[pb]? = some nb ∧
      pb ∉ na.rightNodesPs ∧ pa ∉ nb.leftNodesPs ∧ na.right = nb.left ∧
      na.bottom < nb.top ∧ nb.bottom < na.top ∧
      g' = { g with nodePs := g.nodePs.mapIdx (withLeftRightEdge pa pb) } := by
  rcases connectLeftAndRightNodes_cases g a b with h1 | h1 | h1
  · rw [h1.1] at h
    exact absurd h (by simp)
  · obtain ⟨⟨e, he⟩, _⟩ := h1
    rw [he] at h
    exact absurd h (by simp)
  · obtain ⟨pa, pb, na, nb, h2, h3, h4, h5, h6, h7, h8, h9, h10, hok⟩ := h1
    rw [hok] at h
    injection h with _ hg
    exact ⟨pa, pb, na, nb, h2, h3, h4, h5, h6, h7, h8, h9, h10, hg.symm⟩

theorem connectBottomAndTopNodes_ok {g g' : LocationGraph} {a b : Nat} {u : Unit}
    (h : g.connectBottomAndTopNodes a b = .ok u g') :
    ∃ pa pb na nb, g.nodePForId.lookup a = some pa ∧ g.nodePForId.lookup b = some pb ∧
      g.nodePs[pa]? = some na ∧ g.nodePs[pb]? = some nb ∧
      pb ∉ na.topNodesPs ∧ pa ∉ nb.bottomNodesPs ∧ na.top = nb.bottom ∧
      na.left < nb.right ∧ nb.left < na.right ∧
      g' = { g with nodePs := g.nodePs.mapIdx (withBottomTopEdge pa pb) } := by
  rcases connectBottomAndTopNodes_cases g a b with h1 | h1 | h1
  · rw [h1.1] at h
    exact absurd h (by simp)
  · obtain ⟨⟨e, he⟩, _⟩ := h1
    rw [he] at h
    exact absurd h (by simp)
  · obtain ⟨pa, pb, na, nb, h2, h3, h4, h5, h6, h7, h8, h9, h10, hok⟩ := h1
    rw [hok] at h
    injection h with _ hg
    exact ⟨pa, pb, na, nb, h2, h3, h4, h5, h6, h7, h8, h9, h10, hg.symm⟩

theorem stepLeftRight_of_ok {g g' : LocationGraph} {a b : Nat} {u : Unit}
    (h : g.connectLeftAndRightNodes a b = .ok u g') : StepLeftRight g g' := by
  obtain ⟨pa, pb, na, nb, _, _, h4, h5, h6, h7, h8, h9, h10, hg⟩ :=
    connectLeftAndRightNodes_ok h
  exact ⟨pa, pb, na, nb, h4, h5, h6, h7, h8, h9, h10, hg⟩

theorem stepBottomTop_of_ok {g g' : LocationGraph} {a b : Nat} {u : Unit}
    (h : g.connectBottomAndTopNodes a b = .ok u g') : StepBottomTop g g' := by
  obtain ⟨pa, pb, na, nb, _, _, h4, h5, h6, h7, h8, h9, h10, hg⟩ :=
    connectBottomAndTopNodes_ok h
  exact ⟨pa, pb, na, nb, h4, h5, h6, h7, h8, h9, h10, hg⟩

/-- A successful execution of the body of the inner loop of `connectAllNodes` either
changes nothing or is one successful call of a connector. -/
theorem connectAllNodesBody_ok {g g' : LocationGraph} {i j : Nat} {u : Unit}
    (h : LocationGraph.connectAllNodesBody i j g = .ok u g') :
    g' = g ∨ StepLeftRight g g' ∨ StepBottomTop g g' := by
  unfold LocationGraph.connectAllNodesBody at h
  cases h1 : g.nodePs[i]? with
  | none => rw [h1] at h; exact absurd h (by simp)
  | some n1 =>
    cases h2 : g.nodePs[j]? with
    | none => rw [h1, h2] at h; exact absurd h (by simp)
    | some n2 =>
      rw [h1, h2] at h
      dsimp only at h
      split_ifs at h
      · exact Or.inr (Or.inl (stepLeftRight_of_ok h))
      · exact Or.inr (Or.inl (stepLeftRight_of_ok h))
      · exact Or.inr (Or.inr (stepBottomTop_of_ok h))
      · exact Or.inr (Or.inr (stepBottomTop_of_ok h))
      · injection h with _ hg
        exact Or.inl hg.symm

/-- A property that every successful execution of the body preserves holds after the
loop. -/
theorem forLoop_invariant (P : LocationGraph → Prop)
    (body : Nat → LocationGraph → Outcome Unit)
    (hbody : ∀ c g g' u, P g → body c g = .ok u g' → P g') :
    ∀ (counters : List Nat) (g g' : LocationGraph) (u : Unit),
      P g → LocationGraph.forLoop body counters g = .ok u g' → P g' := by
  intro counters
  induction counters with
  | nil =>
    intro g g' u hP h
    simp only [LocationGraph.forLoop] at h
    injection h with _ hg
    rw [← hg]
    exact hP
  | cons c counters ih =>
    intro g g' u hP h
    simp only [LocationGraph.forLoop] at h
    cases hb : body c g with
    | ok u1 g1 =>
      rw [hb] at h
      exact ih g1 g' u (hbody c g g1 u1 hP hb) h
    | exception e g1 => rw [hb] at h; exact absurd h (by simp)
    | undefined => rw [hb] at h; exact absurd h (by simp)

/-- A property preserved by both connectors holds after `connectAllNodes`. -/
theorem connectAllNodes_invariant (P : LocationGraph → Prop)
    (hLR : ∀ g g', P g → StepLeftRight g g' → P g')
    (hBT : ∀ g g', P g → StepBottomTop g g' → P g')
    (g g' : LocationGraph) (u : Unit) (hP : P g) (h : g.connectAllNodes = .ok u g') : P g' := by
  unfold LocationGraph.connectAllNodes at h
  dsimp only at h
  split_ifs at h with h0
  refine forLoop_invariant P _ ?_ _ g g' u hP h
  intro i g1 g2 u1 hP1 h1
  refine forLoop_invariant P _ ?_ _ g1 g2 u1 hP1 h1
  intro j g3 g4 u2 hP3 h3
  rcases connectAllNodesBody_ok h3 with h4 | h4 | h4
  · rw [h4]; exact hP3
  · exact hLR g3 g4 hP3 h4
  · exact hBT g3 g4 hP3 h4

theorem withLeftRightEdge_right_mem (pa pb p B : Nat) (n : LocationGraphNode) :
    B ∈ (withLeftRightEdge pa pb p n).rightNodesPs ↔ B ∈ n.rightNodesPs ∨ (p = pa ∧ B = pb) := by
  unfold withLeftRightEdge
  by_cases h : p = pa <;> simp [h]

theorem withLeftRightEdge_left_mem (pa pb p A : Nat) (n : LocationGraphNode) :
    A ∈ (withLeftRightEdge pa pb p n).leftNodesPs ↔ A ∈ n.leftNodesPs ∨ (p = pb ∧ A = pa) := by
  unfold withLeftRightEdge
  by_cases h : p = pb <;> simp [h]

theorem withBottomTopEdge_top_mem (pa pb p B : Nat) (n : LocationGraphNode) :
    B ∈ (withBottomTopEdge pa pb p n).topNodesPs ↔ B ∈ n.topNodesPs ∨ (p = pa ∧ B = pb) := by
  unfold withBottomTopEdge
  by_cases h : p = pa <;> simp [h]

theorem withBottomTopEdge_bottom_mem (pa pb p A : Nat) (n : LocationGraphNode) :
    A ∈ (withBottomTopEdge pa pb p n).bottomNodesPs ↔
      A ∈ n.bottomNodesPs ∨ (p = pb ∧ A = pa) := by
  unfold withBottomTopEdge
  by_cases h : p = pb <;> simp [h]

theorem adjacencySymmetric_stepLeftRight (g g' : LocationGraph) (hs : g.AdjacencySymmetric)
    (h : StepLeftRight g g') : g'.AdjacencySymmetric := by
  obtain ⟨pa, pb, na, nb, _, _, _, _, _, _, _, hg⟩ := h
  subst hg
  intro A B nA nB hA hB
  simp only [List.getElem?_mapIdx, Option.map_eq_some'] at hA hB
  obtain ⟨mA, hmA, rfl⟩ := hA
  obtain ⟨mB, hmB, rfl⟩ := hB
  obtain ⟨h1, h2⟩ := hs A B mA mB hmA hmB
  constructor
  · rw [withLeftRightEdge_right_mem, withLeftRightEdge_left_mem, h1]
    tauto
  · simpa [withLeftRightEdge] using h2

theorem adjacencySymmetric_stepBottomTop (g g' : LocationGraph) (hs : g.AdjacencySymmetric)
    (h : StepBottomTop g g') : g'.AdjacencySymmetric := by
  obtain ⟨pa, pb, na, nb, _, _, _, _, _, _, _, hg⟩ := h
  subst hg
  intro A B nA nB hA hB
  simp only [List.getElem?_mapIdx, Option.map_eq_some'] at hA hB
  obtain ⟨mA, hmA, rfl⟩ := hA
  obtain ⟨mB, hmB, rfl⟩ := hB
  obtain ⟨h1, h2⟩ := hs A B mA mB hmA hmB
  constructor
  · simpa [withBottomTopEdge] using h1
  · rw [withBottomTopEdge_top_mem, withBottomTopEdge_bottom_mem, h2]
    tauto

/-- C8. If `connectAllNodes` returns on a graph whose adjacency lists were all empty, then
adjacency is symmetric afterwards: for all nodes `A` and `B`, `B` is in the right list of `A`
iff `A` is in the left list of `B`, and `B` is in the top list of `A` iff `A` is in the
bottom list of `B`. -/
theorem connectAllNodes_adjacency_symmetric (g g' : LocationGraph) (u : Unit)
    (hempty : g.AdjacencyEmpty) (h : g.connectAllNodes = .ok u g') :
    ∀ (A B : Nat) (nA nB : LocationGraphNode),
      g'.nodePs[A]? = some nA → g'.nodePs[B]? = some nB →
      (B ∈ nA.rightNodesPs ↔ A ∈ nB.leftNodesPs) ∧
        (B ∈ nA.topNodesPs ↔ A ∈ nB.bottomNodesPs) := by
  have h0 : g.AdjacencySymmetric := by
    intro A B nA nB hA hB
    obtain ⟨_, h2, _, h4⟩ := hempty nA (List.mem_iff_getElem?.mpr ⟨A, hA⟩)
    obtain ⟨h5, _, h7, _⟩ := hempty nB (List.mem_iff_getElem?.mpr ⟨B, hB⟩)
    simp [h2, h4, h5, h7]
  exact connectAllNodes_invariant LocationGraph.AdjacencySymmetric
    adjacencySymmetric_stepLeftRight adjacencySymmetric_stepBottomTop g g' u h0 h

/-- Witness for C8: `connectAllNodes` returns on `twoNodeGraph`, whose adjacency lists are
empty, and in the result the second node is in the right list of the first and the first in
the left list of the second. -/
theorem connectAllNodes_adjacency_symmetric_witness :
    twoNodeGraph.AdjacencyEmpty ∧ twoNodeGraph.connectAllNodes = .ok () twoNodeGraphConnected ∧
      ((1 ∈ ({ LocationGraphNode.new 1 0 1 0 1 with rightNodesPs := [1] } :
            LocationGraphNode).rightNodesPs ↔
          0 ∈ ({ LocationGraphNode.new 2 1 2 0 1 with leftNodesPs := [0] } :
            LocationGraphNode).leftNodesPs) ∧
        (1 ∈ ({ LocationGraphNode.new 1 0 1 0 1 with rightNodesPs := [1] } :
            LocationGraphNode).topNodesPs ↔
          0 ∈ ({ LocationGraphNode.new 2 1 2 0 1 with leftNodesPs := [0] } :
            LocationGraphNode).bottomNodesPs)) :=
  ⟨by decide!, by decide!,
    connectAllNodes_adjacency_symmetric twoNodeGraph twoNodeGraphConnected () (by decide!)
      (by decide!) 0 1 _ _ (by decide!) (by decide!)⟩

/-! ## Edges recorded by `connectAllNodes` -/

theorem extends_refl (g : LocationGraph) : Extends g g :=
  ⟨rfl, rfl, fun _ n hn => ⟨n, hn, rfl, rfl, rfl, rfl, rfl, fun _ h => h, fun _ h => h⟩⟩

theorem extends_trans {g1 g2 g3 : LocationGraph} (h12 : Extends g1 g2) (h23 : Extends g2 g3) :
    Extends g1 g3 := by
  refine ⟨h23.index.trans h12.index, h23.length.trans h12.length, ?_⟩
  intro p n hn
  obtain ⟨n2, hn2, e1, e2, e3, e4, e5, e6, e7⟩ := h12.nodes p n hn
  obtain ⟨n3, hn3, f1, f2, f3, f4, f5, f6, f7⟩ := h23.nodes p n2 hn2
  exact ⟨n3, hn3, f1.trans e1, f2.trans e2, f3.trans e3, f4.trans e4, f5.trans e5,
    fun q hq => f6 q (e6 q hq), fun q hq => f7 q (e7 q hq)⟩

theorem extends_stepLeftRight {g g' : LocationGraph} (h : StepLeftRight g g') :
    Extends g g' := by
  obtain ⟨pa, pb, na, nb, _, _, _, _, _, _, _, hg⟩ := h
  subst hg
  refine ⟨rfl, by simp, ?_⟩
  intro p n hn
  refine ⟨withLeftRightEdge pa pb p n, by simp [List.getElem?_mapIdx, hn], rfl, rfl, rfl, rfl,
    rfl, ?_, ?_⟩
  · intro q hq
    rw [withLeftRightEdge_right_mem]
    exact Or.inl hq
  · intro q hq
    simpa [withLeftRightEdge] using hq

theorem extends_stepBottomTop {g g' : LocationGraph} (h : StepBottomTop g g') :
    Extends g g' := by
  obtain ⟨pa, pb, na, nb, _, _, _, _, _, _, _, hg⟩ := h
  subst hg
  refine ⟨rfl, by simp, ?_⟩
  intro p n hn
  refine ⟨withBottomTopEdge pa pb p n, by simp [List.getElem?_mapIdx, hn], rfl, rfl, rfl, rfl,
    rfl, ?_, ?_⟩
  · intro q hq
    simpa [withBottomTopEdge] using hq
  · intro q hq
    rw [withBottomTopEdge_top_mem]
    exact Or.inl hq

theorem extends_connectAllNodesBody {g g' : LocationGraph} {i j : Nat} {u : Unit}
    (h : LocationGraph.connectAllNodesBody i j g = .ok u g') : Extends g g' := by
  rcases connectAllNodesBody_ok h with h1 | h1 | h1
  · rw [h1]; exact extends_refl g
  · exact extends_stepLeftRight h1
  · exact extends_stepBottomTop h1

/-- If every successful execution of the body extends the graph, then so does the loop, and
for every counter of the loop the body was executed on an extension of the initial graph and
left a graph that the final graph extends. -/
theorem forLoop_extends (body : Nat → LocationGraph → Outcome Unit)
    (hbody : ∀ c g g' u, body c g = .ok u g' → Extends g g') :
    ∀ (counters : List Nat) (g g' : LocationGraph) (u : Unit),
      LocationGraph.forLoop body counters g = .ok u g' →
      Extends g g' ∧ ∀ c ∈ counters, ∃ g1 g2 u1,
        Extends g g1 ∧ body c g1 = .ok u1 g2 ∧ Extends g2 g' := by
  intro counters
  induction counters with
  | nil =>
    intro g g' u h
    simp only [LocationGraph.forLoop] at h
    injection h with _ hg
    subst hg
    exact ⟨extends_refl g, fun c hc => absurd hc (List.not_mem_nil c)⟩
  | cons c counters ih =>
    intro g g' u h
    simp only [LocationGraph.forLoop] at h
    cases hb : body c g with
    | ok u1 g1 =>
      rw [hb] at h
      obtain ⟨h1, h2⟩ := ih g1 g' u h
      have h0 := hbody c g g1 u1 hb
      refine ⟨extends_trans h0 h1, ?_⟩
      intro c' hc'
      rcases List.mem_cons.mp hc' with hc' | hc'
      · subst hc'
        exact ⟨g, g1, u1, extends_refl g, hb, h1⟩
      · obtain ⟨g2, g3, u2, h3, h4, h5⟩ := h2 c' hc'
        exact ⟨g2, g3, u2, extends_trans h0 h3, h4, h5⟩
    | exception e g1 => rw [hb] at h; exact absurd h (by simp)
    | undefined => rw [hb] at h; exact absurd h (by simp)

/-- After a successful `connectAllNodes` the final graph extends the initial one, and for
all addresses `i < j` of nodes the loop body for `(i, j)` was executed successfully on an
extension of the initial graph, leaving a graph that the final graph extends. -/
theorem connectAllNodes_visits (g g' : LocationGraph) (u : Unit)
    (h : g.connectAllNodes = .ok u g') :
    Extends g g' ∧ ∀ i j, i < j → j < g.nodePs.length → ∃ g1 g2 u1,
      Extends g g1 ∧ LocationGraph.connectAllNodesBody i j g1 = .ok u1 g2 ∧ Extends g2 g' := by
  unfold LocationGraph.connectAllNodes at h
  dsimp only at h
  split_ifs at h with h0
  have hinner : ∀ (i : Nat) (cs : List Nat) (g1 g2 : LocationGraph) (u1 : Unit),
      LocationGraph.forLoop (LocationGraph.connectAllNodesBody i) cs g1 = .ok u1 g2 →
      Extends g1 g2 ∧ ∀ c ∈ cs, ∃ g3 g4 u2, Extends g1 g3 ∧
        LocationGraph.connectAllNodesBody i c g3 = .ok u2 g4 ∧ Extends g4 g2 :=
    fun i cs g1 g2 u1 h1 =>
      forLoop_extends (LocationGraph.connectAllNodesBody i)
        (fun c g3 g4 u2 h2 => extends_connectAllNodesBody h2) cs g1 g2 u1 h1
  obtain ⟨h1, h2⟩ := forLoop_extends _
    (fun i g1 g2 u1 h3 => (hinner i _ g1 g2 u1 h3).1) _ g g' u h
  refine ⟨h1, ?_⟩
  intro i j hij hj
  obtain ⟨g1, g2, u1, h3, h4, h5⟩ := h2 i (List.mem_range.mpr (by omega))
  obtain ⟨_, h6⟩ := hinner i _ g1 g2 u1 h4
  obtain ⟨g3, g4, u2, h7, h8, h9⟩ := h6 j
    (List.mem_range'.mpr ⟨j - (i + 1), by omega, by omega⟩)
  exact ⟨g3, g4, u2, extends_trans h3 h7, h8, extends_trans h9 h5⟩

theorem intersectWith_eq_true_iff (n m : LocationGraphNode) :
    n.intersectWith m = true ↔
      n.left ≤ m.right ∧ m.left ≤ n.right ∧ n.bottom ≤ m.top ∧ m.bottom ≤ n.top := by
  simp only [LocationGraphNode.intersectWith, beq_eq_false_iff_ne, ne_eq, Bool.or_eq_true,
    decide_eq_true_eq, not_or, not_lt, gt_iff_lt, Bool.not_eq_true, Bool.or_eq_false_iff,
    decide_eq_false_iff_not, beq_iff_eq, and_assoc]

theorem nodesValid_stepLeftRight (g g' : LocationGraph) (hv : g.NodesValid)
    (h : StepLeftRight g g') : g'.NodesValid := by
  obtain ⟨pa, pb, na, nb, _, _, _, _, _, _, _, hg⟩ := h
  subst hg
  intro n hn
  obtain ⟨p, hp⟩ := List.mem_iff_getElem?.mp hn
  simp only [List.getElem?_mapIdx, Option.map_eq_some'] at hp
  obtain ⟨m, hm, rfl⟩ := hp
  exact hv m (List.mem_iff_getElem?.mpr ⟨p, hm⟩)

theorem nodesValid_stepBottomTop (g g' : LocationGraph) (hv : g.NodesValid)
    (h : StepBottomTop g g') : g'.NodesValid := by
  obtain ⟨pa, pb, na, nb, _, _, _, _, _, _, _, hg⟩ := h
  subst hg
  intro n hn
  obtain ⟨p, hp⟩ := List.mem_iff_getElem?.mp hn
  simp only [List.getElem?_mapIdx, Option.map_eq_some'] at hp
  obtain ⟨m, hm, rfl⟩ := hp
  exact hv m (List.mem_iff_getElem?.mpr ⟨p, hm⟩)

theorem edgesSound_stepLeftRight (g g' : LocationGraph)
    (hP : g.NodesValid ∧ g.EdgesSound) (h : StepLeftRight g g') :
    g'.NodesValid ∧ g'.EdgesSound := by
  refine ⟨nodesValid_stepLeftRight g g' hP.1 h, ?_⟩
  obtain ⟨hv, hs⟩ := hP
  obtain ⟨pa, pb, na, nb, hna, hnb, h1, h2, h3, h4, h5, hg⟩ := h
  subst hg
  intro A nA hA
  simp only [List.getElem?_mapIdx, Option.map_eq_some'] at hA
  obtain ⟨mA, hmA, rfl⟩ := hA
  obtain ⟨s1, s2, s3, s4, s5, s6⟩ := hs A mA hmA
  refine ⟨?_, ?_, ?_, ?_, ?_, ?_⟩
  · intro B hB
    rw [withLeftRightEdge_right_mem] at hB
    rcases hB with hB | ⟨hA', hB'⟩
    · obtain ⟨mB, hmB, e1, e2⟩ := s1 B hB
      exact ⟨withLeftRightEdge pa pb B mB, by simp [List.getElem?_mapIdx, hmB], e1, e2⟩
    · subst hA' hB'
      rw [hna] at hmA
      have e : na = mA := Option.some.inj hmA
      subst e
      refine ⟨withLeftRightEdge A B B nb, by simp [List.getElem?_mapIdx, hnb], h3, ?_⟩
      have hva := hv na (List.mem_iff_getElem?.mpr ⟨A, hna⟩)
      have hvb := hv nb (List.mem_iff_getElem?.mpr ⟨B, hnb⟩)
      simp only [YRangesOverlap, withLeftRightEdge, max_lt_iff, lt_min_iff]
      exact ⟨⟨hva.2, h5⟩, ⟨h4, hvb.2⟩⟩
  · intro B hB
    have hB' : B ∈ mA.topNodesPs := by simpa [withLeftRightEdge] using hB
    obtain ⟨mB, hmB, e1, e2⟩ := s2 B hB'
    exact ⟨withLeftRightEdge pa pb B mB, by simp [List.getElem?_mapIdx, hmB], e1, e2⟩
  · by_cases hA' : A = pb
    · subst hA'
      rw [hnb] at hmA
      have e : nb = mA := Option.some.inj hmA
      subst e
      simp only [withLeftRightEdge, if_true]
      exact List.nodup_append.mpr ⟨s3, List.nodup_singleton _, by simpa using h2⟩
    · simpa [withLeftRightEdge, hA'] using s3
  · by_cases hA' : A = pa
    · subst hA'
      rw [hna] at hmA
      have e : na = mA := Option.some.inj hmA
      subst e
      simp only [withLeftRightEdge, if_true]
      exact List.nodup_append.mpr ⟨s4, List.nodup_singleton _, by simpa using h1⟩
    · simpa [withLeftRightEdge, hA'] using s4
  · simpa [withLeftRightEdge] using s5
  · simpa [withLeftRightEdge] using s6

theorem edgesSound_stepBottomTop (g g' : LocationGraph)
    (hP : g.NodesValid ∧ g.EdgesSound) (h : StepBottomTop g g') :
    g'.NodesValid ∧ g'.EdgesSound := by
  refine ⟨nodesValid_stepBottomTop g g' hP.1 h, ?_⟩
  obtain ⟨hv, hs⟩ := hP
  obtain ⟨pa, pb, na, nb, hna, hnb, h1, h2, h3, h4, h5, hg⟩ := h
  subst hg
  intro A nA hA
  simp only [List.getElem?_mapIdx, Option.map_eq_some'] at hA
  obtain ⟨mA, hmA, rfl⟩ := hA
  obtain ⟨s1, s2, s3, s4, s5, s6⟩ := hs A mA hmA
  refine ⟨?_, ?_, ?_, ?_, ?_, ?_⟩
  · intro B hB
    have hB' : B ∈ mA.rightNodesPs := by simpa [withBottomTopEdge] using hB
    obtain ⟨mB, hmB, e1, e2⟩ := s1 B hB'
    exact ⟨withBottomTopEdge pa pb B mB, by simp [List.getElem?_mapIdx, hmB], e1, e2⟩
  · intro B hB
    rw [withBottomTopEdge_top_mem] at hB
    rcases hB with hB | ⟨hA', hB'⟩
    · obtain ⟨mB, hmB, e1, e2⟩ := s2 B hB
      exact ⟨withBottomTopEdge pa pb B mB, by simp [List.getElem?_mapIdx, hmB], e1, e2⟩
    · subst hA' hB'
      rw [hna] at hmA
      have e : na = mA := Option.some.inj hmA
      subst e
      refine ⟨withBottomTopEdge A B B nb, by simp [List.getElem?_mapIdx, hnb], h3, ?_⟩
      have hva := hv na (List.mem_iff_getElem?.mpr ⟨A, hna⟩)
      have hvb := hv nb (List.mem_iff_getElem?.mpr ⟨B, hnb⟩)
      simp only [XRangesOverlap, withBottomTopEdge, max_lt_iff, lt_min_iff]
      exact ⟨⟨hva.1, h5⟩, ⟨h4, hvb.1⟩⟩
  · simpa [withBottomTopEdge] using s3
  · simpa [withBottomTopEdge] using s4
  · by_cases hA' : A = pb
    · subst hA'
      rw [hnb] at hmA
      have e : nb = mA := Option.some.inj hmA
      subst e
      simp only [withBottomTopEdge, if_true]
      exact List.nodup_append.mpr ⟨s5, List.nodup_singleton _, by simpa using h2⟩
    · simpa [withBottomTopEdge, hA'] using s5
  · by_cases hA' : A = pa
    · subst hA'
      rw [hna] at hmA
      have e : na = mA := Option.some.inj hmA
      subst e
      simp only [withBottomTopEdge, if_true]
      exact List.nodup_append.mpr ⟨s6, List.nodup_singleton _, by simpa using h1⟩
    · simpa [withBottomTopEdge, hA'] using s6

theorem connectLeftAndRightNodes_records (g1 g2 : LocationGraph) (A B : Nat)
    (nA nB : LocationGraphNode) (u : Unit) (hA : g1.nodePs[A]? = some nA)
    (hlA : g1.nodePForId.lookup nA.id = some A) (hlB : g1.nodePForId.lookup nB.id = some B)
    (h : g1.connectLeftAndRightNodes nA.id nB.id = .ok u g2) :
    ∃ n2, g2.nodePs[A]? = some n2 ∧ B ∈ n2.rightNodesPs := by
  obtain ⟨pa, pb, na, nb, h1, h2, _, _, _, _, _, _, _, hg⟩ := connectLeftAndRightNodes_ok h
  rw [hlA] at h1
  rw [hlB] at h2
  have e1 : A = pa := Option.some.inj h1
  have e2 : B = pb := Option.some.inj h2
  subst e1 e2 hg
  refine ⟨withLeftRightEdge A B A nA, by simp [List.getElem?_mapIdx, hA], ?_⟩
  rw [withLeftRightEdge_right_mem]
  exact Or.inr ⟨rfl, rfl⟩

theorem connectBottomAndTopNodes_records (g1 g2 : LocationGraph) (A B : Nat)
    (nA nB : LocationGraphNode) (u : Unit) (hA : g1.nodePs[A]? = some nA)
    (hlA : g1.nodePForId.lookup nA.id = some A) (hlB : g1.nodePForId.lookup nB.id = some B)
    (h : g1.connectBottomAndTopNodes nA.id nB.id = .ok u g2) :
    ∃ n2, g2.nodePs[A]? = some n2 ∧ B ∈ n2.topNodesPs := by
  obtain ⟨pa, pb, na, nb, h1, h2, _, _, _, _, _, _, _, hg⟩ := connectBottomAndTopNodes_ok h
  rw [hlA] at h1
  rw [hlB] at h2
  have e1 : A = pa := Option.some.inj h1
  have e2 : B = pb := Option.some.inj h2
  subst e1 e2 hg
  refine ⟨withBottomTopEdge A B A nA, by simp [List.getElem?_mapIdx, hA], ?_⟩
  rw [withBottomTopEdge_top_mem]
  exact Or.inr ⟨rfl, rfl⟩

/-- The body of the loop of `connectAllNodes`, executed for the addresses of two valid nodes
`nA` and `nB` in either order, records `B` in the right list of `A` when
`nA.right = nB.left` and the y-ranges overlap with positive length. -/
theorem connectAllNodesBody_records_right (g1 g2 : LocationGraph) (A B : Nat)
    (nA nB : LocationGraphNode) (u : Unit)
    (hA : g1.nodePs[A]? = some nA) (hB : g1.nodePs[B]? = some nB)
    (hlA : g1.nodePForId.lookup nA.id = some A) (hlB : g1.nodePForId.lookup nB.id = some B)
    (hvA : nA.Valid) (hvB : nB.Valid) (hgeo : nA.right = nB.left) (hy : YRangesOverlap nA nB)
    (h : LocationGraph.connectAllNodesBody A B g1 = .ok u g2 ∨
      LocationGraph.connectAllNodesBody B A g1 = .ok u g2) :
    ∃ n2, g2.nodePs[A]? = some n2 ∧ B ∈ n2.rightNodesPs := by
  obtain ⟨hA1, hA2⟩ := hvA
  obtain ⟨hB1, hB2⟩ := hvB
  simp only [YRangesOverlap, max_lt_iff, lt_min_iff] at hy
  obtain ⟨⟨_, hy1⟩, ⟨hy2, _⟩⟩ := hy
  rcases h with h | h
  · unfold LocationGraph.connectAllNodesBody at h
    rw [hA, hB] at h
    dsimp only at h
    have hint : nA.intersectWith nB = true := by
      rw [intersectWith_eq_true_iff]
      refine ⟨?_, ?_, ?_, ?_⟩ <;> linarith
    have hne : ¬ nA.left = nB.right := by
      intro he
      linarith
    rw [if_pos hint, if_neg hne, if_pos hgeo] at h
    exact connectLeftAndRightNodes_records g1 g2 A B nA nB u hA hlA hlB h
  · unfold LocationGraph.connectAllNodesBody at h
    rw [hA, hB] at h
    dsimp only at h
    have hint : nB.intersectWith nA = true := by
      rw [intersectWith_eq_true_iff]
      refine ⟨?_, ?_, ?_, ?_⟩ <;> linarith
    rw [if_pos hint, if_pos hgeo.symm] at h
    exact connectLeftAndRightNodes_records g1 g2 A B nA nB u hA hlA hlB h

/-- The body of the loop of `connectAllNodes`, executed for the addresses of two valid nodes
`nA` and `nB` in either order, records `B` in the top list of `A` when `nA.top = nB.bottom`
and the x-ranges overlap with positive length. -/
theorem connectAllNodesBody_records_top (g1 g2 : LocationGraph) (A B : Nat)
    (nA nB : LocationGraphNode) (u : Unit)
    (hA : g1.nodePs[A]? = some nA) (hB : g1.nodePs[B]? = some nB)
    (hlA : g1.nodePForId.lookup nA.id = some A) (hlB : g1.nodePForId.lookup nB.id = some B)
    (hvA : nA.Valid) (hvB : nB.Valid) (hgeo : nA.top = nB.bottom) (hx : XRangesOverlap nA nB)
    (h : LocationGraph.connectAllNodesBody A B g1 = .ok u g2 ∨
      LocationGraph.connectAllNodesBody B A g1 = .ok u g2) :
    ∃ n2, g2.nodePs[A]? = some n2 ∧ B ∈ n2.topNodesPs := by
  obtain ⟨hA1, hA2⟩ := hvA
  obtain ⟨hB1, hB2⟩ := hvB
  simp only [XRangesOverlap, max_lt_iff, lt_min_iff] at hx
  obtain ⟨⟨_, hx1⟩, ⟨hx2, _⟩⟩ := hx
  rcases h with h | h
  · unfold LocationGraph.connectAllNodesBody at h
    rw [hA, hB] at h
    dsimp only at h
    have hint : nA.intersectWith nB = true := by
      rw [intersectWith_eq_true_iff]
      refine ⟨?_, ?_, ?_, ?_⟩ <;> linarith
    have hne1 : ¬ nA.left = nB.right := by
      intro he
      linarith
    have hne2 : ¬ nA.right = nB.left := by
      intro he
      linarith
    have hne3 : ¬ nA.bottom = nB.top := by
      intro he
      linarith
    rw [if_pos hint, if_neg hne1, if_neg hne2, if_neg hne3] at h
    exact connectBottomAndTopNodes_records g1 g2 A B nA nB u hA hlA hlB h
  · unfold LocationGraph.connectAllNodesBody at h
    rw [hA, hB] at h
    dsimp only at h
    have hint : nB.intersectWith nA = true := by
      rw [intersectWith_eq_true_iff]
      refine ⟨?_, ?_, ?_, ?_⟩ <;> linarith
    have hne1 : ¬ nB.left = nA.right := by
      intro he
      linarith
    have hne2 : ¬ nB.right = nA.left := by
      intro he
      linarith
    rw [if_pos hint, if_neg hne1, if_neg hne2, if_pos hgeo.symm] at h
    exact connectBottomAndTopNodes_records g1 g2 A B nA nB u hA hlA hlB h

/-- After a successful `connectAllNodes`, for two distinct addresses `A` and `B` of nodes the
loop body was executed for the pair, in one of the two orders, on a graph that holds nodes
with the same ids and bounds at `A` and `B` and has the same id index, and the final graph
extends the graph that this execution left. -/
theorem connectAllNodes_pair_visited (g g' : LocationGraph) (u : Unit)
    (hidx : g.IndexConsistent) (h : g.connectAllNodes = .ok u g')
    (A B : Nat) (nA nB : LocationGraphNode)
    (hA : g'.nodePs[A]? = some nA) (hB : g'.nodePs[B]? = some nB) (hAB : A ≠ B) :
    ∃ g1 g2 u1 n1A n1B, g1.nodePs[A]? = some n1A ∧ g1.nodePs[B]? = some n1B ∧
      g1.nodePForId.lookup n1A.id = some A ∧ g1.nodePForId.lookup n1B.id = some B ∧
      (n1A.left = nA.left ∧ n1A.right = nA.right ∧ n1A.bottom = nA.bottom ∧
        n1A.top = nA.top) ∧
      (n1B.left = nB.left ∧ n1B.right = nB.right ∧ n1B.bottom = nB.bottom ∧
        n1B.top = nB.top) ∧
      (LocationGraph.connectAllNodesBody A B g1 = .ok u1 g2 ∨
        LocationGraph.connectAllNodesBody B A g1 = .ok u1 g2) ∧
      Extends g2 g' := by
  obtain ⟨hext, hvis⟩ := connectAllNodes_visits g g' u h
  obtain ⟨hA1, _⟩ := List.getElem?_eq_some_iff.mp hA
  obtain ⟨hB1, _⟩ := List.getElem?_eq_some_iff.mp hB
  rw [hext.length] at hA1 hB1
  have hmA : g.nodePs[A]? = some g.nodePs[A] := List.getElem?_eq_getElem hA1
  have hmB : g.nodePs[B]? = some g.nodePs[B] := List.getElem?_eq_getElem hB1
  obtain ⟨nA', hnA', _, a2, a3, a4, a5, _, _⟩ := hext.nodes A _ hmA
  obtain ⟨nB', hnB', _, b2, b3, b4, b5, _, _⟩ := hext.nodes B _ hmB
  rw [hA] at hnA'
  rw [hB] at hnB'
  have eA : nA = nA' := Option.some.inj hnA'
  have eB : nB = nB' := Option.some.inj hnB'
  subst eA eB
  have hfin : ∀ (g1 g2 : LocationGraph) (u1 : Unit), Extends g g1 →
      (LocationGraph.connectAllNodesBody A B g1 = .ok u1 g2 ∨
        LocationGraph.connectAllNodesBody B A g1 = .ok u1 g2) → Extends g2 g' →
      ∃ g1 g2 u1 n1A n1B, g1.nodePs[A]? = some n1A ∧ g1.nodePs[B]? = some n1B ∧
        g1.nodePForId.lookup n1A.id = some A ∧ g1.nodePForId.lookup n1B.id = some B ∧
        (n1A.left = nA.left ∧ n1A.right = nA.right ∧ n1A.bottom = nA.bottom ∧
          n1A.top = nA.top) ∧
        (n1B.left = nB.left ∧ n1B.right = nB.right ∧ n1B.bottom = nB.bottom ∧
          n1B.top = nB.top) ∧
        (LocationGraph.connectAllNodesBody A B g1 = .ok u1 g2 ∨
          LocationGraph.connectAllNodesBody B A g1 = .ok u1 g2) ∧
        Extends g2 g' := by
    intro g1 g2 u1 h1 h2 h3
    obtain ⟨n1A, hn1A, c1, c2, c3, c4, c5, _, _⟩ := h1.nodes A _ hmA
    obtain ⟨n1B, hn1B, d1, d2, d3, d4, d5, _, _⟩ := h1.nodes B _ hmB
    refine ⟨g1, g2, u1, n1A, n1B, hn1A, hn1B, ?_, ?_,
      ⟨c2.trans a2.symm, c3.trans a3.symm, c4.trans a4.symm, c5.trans a5.symm⟩,
      ⟨d2.trans b2.symm, d3.trans b3.symm, d4.trans b4.symm, d5.trans b5.symm⟩, h2, h3⟩
    · rw [h1.index, c1]
      exact hidx.complete A _ hmA
    · rw [h1.index, d1]
      exact hidx.complete B _ hmB
  rcases Nat.lt_or_gt_of_ne hAB with hlt | hgt
  · obtain ⟨g1, g2, u1, h1, h2, h3⟩ := hvis A B hlt hB1
    exact hfin g1 g2 u1 h1 (Or.inl h2) h3
  · obtain ⟨g1, g2, u1, h1, h2, h3⟩ := hvis B A hgt hA1
    exact hfin g1 g2 u1 h1 (Or.inr h2) h3

/-- C9. Let the graph have a consistent id index, valid nodes and empty adjacency lists.
If `connectAllNodes` returns, then for all nodes `A` and `B` of the resulting graph `B` is in
the right list of `A` if and only if `A.right = B.left` and the y-ranges of `A` and `B`
overlap with positive length, `B` is in the top list of `A` if and only if
`A.top = B.bottom` and the x-ranges overlap with positive length, and no address occurs more
than once in any adjacency list. (The claim's hypothesis that the nodes are pairwise
non-overlapping is not needed.) -/
theorem connectAllNodes_edges (g g' : LocationGraph) (u : Unit)
    (hidx : g.IndexConsistent) (hvalid : g.NodesValid) (hempty : g.AdjacencyEmpty)
    (h : g.connectAllNodes = .ok u g') :
    (∀ (A B : Nat) (nA nB : LocationGraphNode),
      g'.nodePs[A]? = some nA → g'.nodePs[B]? = some nB →
      (B ∈ nA.rightNodesPs ↔ nA.right = nB.left ∧ YRangesOverlap nA nB) ∧
        (B ∈ nA.topNodesPs ↔ nA.top = nB.bottom ∧ XRangesOverlap nA nB)) ∧
      ∀ n ∈ g'.nodePs, n.leftNodesPs.Nodup ∧ n.rightNodesPs.Nodup ∧ n.bottomNodesPs.Nodup ∧
        n.topNodesPs.Nodup := by
  have h0 : g.EdgesSound := by
    intro A nA hA
    obtain ⟨e1, e2, e3, e4⟩ := hempty nA (List.mem_iff_getElem?.mpr ⟨A, hA⟩)
    rw [e1, e2, e3, e4]
    simp
  obtain ⟨hv', hs'⟩ := connectAllNodes_invariant
    (fun g => g.NodesValid ∧ g.EdgesSound) edgesSound_stepLeftRight edgesSound_stepBottomTop
    g g' u ⟨hvalid, h0⟩ h
  constructor
  · intro A B nA nB hA hB
    obtain ⟨s1, s2, _⟩ := hs' A nA hA
    have hvA : nA.Valid := hv' nA (List.mem_iff_getElem?.mpr ⟨A, hA⟩)
    have hvB : nB.Valid := hv' nB (List.mem_iff_getElem?.mpr ⟨B, hB⟩)
    constructor
    · constructor
      · intro hmem
        obtain ⟨nB', hnB', e1, e2⟩ := s1 B hmem
        rw [hB] at hnB'
        have e : nB = nB' := Option.some.inj hnB'
        subst e
        exact ⟨e1, e2⟩
      · rintro ⟨hgeo, hy⟩
        have hAB : A ≠ B := by
          intro he
          subst he
          rw [hA] at hB
          have e : nA = nB := Option.some.inj hB
          subst e
          exact absurd hgeo (ne_of_gt hvA.1)
        obtain ⟨g1, g2, u1, n1A, n1B, k1, k2, k3, k4, ⟨a1, a2, a3, a4⟩, ⟨b1, b2, b3, b4⟩,
          k5, k6⟩ := connectAllNodes_pair_visited g g' u hidx h A B nA nB hA hB hAB
        obtain ⟨n2, hn2, hmem⟩ := connectAllNodesBody_records_right g1 g2 A B n1A n1B u1
          k1 k2 k3 k4
          (by unfold LocationGraphNode.Valid; rw [a1, a2, a3, a4]; exact hvA)
          (by unfold LocationGraphNode.Valid; rw [b1, b2, b3, b4]; exact hvB)
          (by rw [a2, b1]; exact hgeo)
          (by unfold YRangesOverlap at hy ⊢; rw [a3, a4, b3, b4]; exact hy) k5
        obtain ⟨n3, hn3, _, _, _, _, _, hr, _⟩ := k6.nodes A n2 hn2
        rw [hA] at hn3
        have e : nA = n3 := Option.some.inj hn3
        subst e
        exact hr B hmem
    · constructor
      · intro hmem
        obtain ⟨nB', hnB', e1, e2⟩ := s2 B hmem
        rw [hB] at hnB'
        have e : nB = nB' := Option.some.inj hnB'
        subst e
        exact ⟨e1, e2⟩
      · rintro ⟨hgeo, hx⟩
        have hAB : A ≠ B := by
          intro he
          subst he
          rw [hA] at hB
          have e : nA = nB := Option.some.inj hB
          subst e
          exact absurd hgeo (ne_of_gt hvA.2)
        obtain ⟨g1, g2, u1, n1A, n1B, k1, k2, k3, k4, ⟨a1, a2, a3, a4⟩, ⟨b1, b2, b3, b4⟩,
          k5, k6⟩ := connectAllNodes_pair_visited g g' u hidx h A B nA nB hA hB hAB
        obtain ⟨n2, hn2, hmem⟩ := connectAllNodesBody_records_top g1 g2 A B n1A n1B u1
          k1 k2 k3 k4
          (by unfold LocationGraphNode.Valid; rw [a1, a2, a3, a4]; exact hvA)
          (by unfold LocationGraphNode.Valid; rw [b1, b2, b3, b4]; exact hvB)
          (by rw [a4, b3]; exact hgeo)
          (by unfold XRangesOverlap at hx ⊢; rw [a1, a2, b1, b2]; exact hx) k5
        obtain ⟨n3, hn3, _, _, _, _, _, _, ht⟩ := k6.nodes A n2 hn2
        rw [hA] at hn3
        have e : nA = n3 := Option.some.inj hn3
        subst e
        exact ht B hmem
  · intro n hn
    obtain ⟨A, hA⟩ := List.mem_iff_getElem?.mp hn
    obtain ⟨_, _, s3, s4, s5, s6⟩ := hs' A n hA
    exact ⟨s3, s4, s5, s6⟩

/-- Witness for C9: `threeNodeGraph` satisfies the hypotheses, `connectAllNodes` returns on
it, and the adjacency lists of the result are exactly the shared edges, each once. -/
theorem connectAllNodes_edges_witness :
    threeNodeGraph.IndexConsistent ∧ threeNodeGraph.NodesValid ∧
      threeNodeGraph.AdjacencyEmpty ∧
      threeNodeGraph.connectAllNodes = .ok () threeNodeGraphConnected ∧
      ((∀ (A B : Nat) (nA nB : LocationGraphNode),
        threeNodeGraphConnected.nodePs[A]? = some nA →
        threeNodeGraphConnected.nodePs[B]? = some nB →
        (B ∈ nA.rightNodesPs ↔ nA.right = nB.left ∧ YRangesOverlap nA nB) ∧
          (B ∈ nA.topNodesPs ↔ nA.top = nB.bottom ∧ XRangesOverlap nA nB)) ∧
        ∀ n ∈ threeNodeGraphConnected.nodePs,
          n.leftNodesPs.Nodup ∧ n.rightNodesPs.Nodup ∧ n.bottomNodesPs.Nodup ∧
            n.topNodesPs.Nodup) :=
  ⟨addNodes_indexConsistent _ _ _ (by decide), by decide!, by decide!, by decide!,
    connectAllNodes_edges threeNodeGraph threeNodeGraphConnected ()
      (addNodes_indexConsistent _ _ _ (by decide)) (by decide!) (by decide!) (by decide!)⟩

/-! ## The closest node -/

theorem findClosestPointLoop_spec (point : Point) :
    ∀ (nodes : List LocationGraphNode) (start : Nat) (minD : CalcNumber)
      (res : Option FindPointResult),
      (LocationGraph.findClosestPointLoop point nodes start minD res = res ∧
          ∀ n ∈ nodes, ¬ n.distanceSquaredTo point < minD) ∨
        ∃ k n, nodes[k]? = some n ∧
          LocationGraph.findClosestPointLoop point nodes start minD res =
            some ⟨n.findClosestPoint point, start + k⟩ ∧
          n.distanceSquaredTo point < minD ∧
          (∀ (j : Nat) (m : LocationGraphNode), nodes[j]? = some m →
            n.distanceSquaredTo point ≤ m.distanceSquaredTo point) ∧
          ∀ (j : Nat) (m : LocationGraphNode), j < k → nodes[j]? = some m →
            n.distanceSquaredTo point < m.distanceSquaredTo point := by
  intro nodes
  induction nodes with
  | nil =>
    intro start minD res
    exact Or.inl ⟨rfl, fun n hn => absurd hn (List.not_mem_nil n)⟩
  | cons node rest ih =>
    intro start minD res
    simp only [LocationGraph.findClosestPointLoop]
    by_cases hlt : (node.findClosestPoint point).distanceToPointSquared point < minD
    · rw [if_pos hlt]
      rcases ih (start + 1) ((node.findClosestPoint point).distanceToPointSquared point)
        (some ⟨node.findClosestPoint point, start⟩) with ⟨h1, h2⟩ | ⟨k, n, h1, h2, h3, h4, h5⟩
      · refine Or.inr ⟨0, node, by simp, by rw [h1]; rfl, hlt, ?_, ?_⟩
        · intro j m hj
          cases j with
          | zero =>
            simp only [List.getElem?_cons_zero, Option.some.injEq] at hj
            subst hj
            exact le_refl _
          | succ j =>
            simp only [List.getElem?_cons_succ] at hj
            exact not_lt.mp (h2 m (List.mem_iff_getElem?.mpr ⟨j, hj⟩))
        · intro j m hj
          exact absurd hj (Nat.not_lt_zero j)
      · refine Or.inr ⟨k + 1, n, by simpa using h1, ?_, lt_trans h3 hlt, ?_, ?_⟩
        · rw [h2]
          congr 2
          omega
        · intro j m hj
          cases j with
          | zero =>
            simp only [List.getElem?_cons_zero, Option.some.injEq] at hj
            subst hj
            exact le_of_lt h3
          | succ j =>
            simp only [List.getElem?_cons_succ] at hj
            exact h4 j m hj
        · intro j m hjk hj
          cases j with
          | zero =>
            simp only [List.getElem?_cons_zero, Option.some.injEq] at hj
            subst hj
            exact h3
          | succ j =>
            simp only [List.getElem?_cons_succ] at hj
            exact h5 j m (by omega) hj
    · rw [if_neg hlt]
      rcases ih (start + 1) minD res with ⟨h1, h2⟩ | ⟨k, n, h1, h2, h3, h4, h5⟩
      · refine Or.inl ⟨h1, ?_⟩
        intro n hn
        rcases List.mem_cons.mp hn with hn | hn
        · subst hn
          exact hlt
        · exact h2 n hn
      · have hnode : n.distanceSquaredTo point < node.distanceSquaredTo point :=
          lt_of_lt_of_le h3 (not_lt.mp hlt)
        refine Or.inr ⟨k + 1, n, by simpa using h1, ?_, h3, ?_, ?_⟩
        · rw [h2]
          congr 2
          omega
        · intro j m hj
          cases j with
          | zero =>
            simp only [List.getElem?_cons_zero, Option.some.injEq] at hj
            subst hj
            exact le_of_lt hnode
          | succ j =>
            simp only [List.getElem?_cons_succ] at hj
            exact h4 j m hj
        · intro j m hjk hj
          cases j with
          | zero =>
            simp only [List.getElem?_cons_zero, Option.some.injEq] at hj
            subst hj
            exact hnode
          | succ j =>
            simp only [List.getElem?_cons_succ] at hj
            exact h5 j m (by omega) hj

/-- When `LocationGraph::findClosestPoint` assigns its result, the result is the closest
point of the first node among those at minimal distance, and that distance is below the
initial `minDistance`. -/
theorem findClosestPoint_some (g : LocationGraph) (point : Point) (r : FindPointResult)
    (h : g.findClosestPoint point = some r) :
    ∃ n, g.nodePs[r.nodeP]? = some n ∧ r.point = n.findClosestPoint point ∧
      n.distanceSquaredTo point < 999999999 * 999999999 ∧
      g.FirstClosestNode point r.nodeP := by
  unfold LocationGraph.findClosestPoint at h
  rcases findClosestPointLoop_spec point g.nodePs 0 (999999999 * 999999999) none with
    ⟨h1, _⟩ | ⟨k, n, h1, h2, h3, h4, h5⟩
  · rw [h1] at h
    exact absurd h (by simp)
  · rw [h2] at h
    have e := Option.some.inj h
    subst e
    simp only [Nat.zero_add]
    exact ⟨n, h1, rfl, h3, n, h1, h4, h5⟩

/-- The result of `LocationGraph::findClosestPoint` is assigned as soon as some node is
closer to the point than the initial `minDistance`. -/
theorem findClosestPoint_isSome (g : LocationGraph) (point : Point)
    (h : ∃ n ∈ g.nodePs, n.distanceSquaredTo point < 999999999 * 999999999) :
    ∃ r, g.findClosestPoint point = some r := by
  unfold LocationGraph.findClosestPoint
  rcases findClosestPointLoop_spec point g.nodePs 0 (999999999 * 999999999) none with
    ⟨_, h2⟩ | ⟨k, n, _, h2, _⟩
  · obtain ⟨n, hn, hlt⟩ := h
    exact absurd hlt (h2 n hn)
  · exact ⟨_, h2⟩

theorem findClosestPoint_sameBounds (n m : LocationGraphNode) (h : SameBounds n m)
    (point : Point) : n.findClosestPoint point = m.findClosestPoint point := by
  obtain ⟨h1, h2, h3, h4⟩ := h
  simp only [LocationGraphNode.findClosestPoint, h1, h2, h3, h4]

theorem findClosestPointLoop_set (point : Point) :
    ∀ (nodes : List LocationGraphNode) (k : Nat) (n n' : LocationGraphNode),
      nodes[k]? = some n → SameBounds n' n →
      ∀ (start : Nat) (minD : CalcNumber) (res : Option FindPointResult),
        LocationGraph.findClosestPointLoop point (nodes.set k n') start minD res =
          LocationGraph.findClosestPointLoop point nodes start minD res := by
  intro nodes
  induction nodes with
  | nil => intro k n n' hk; simp at hk
  | cons node rest ih =>
    intro k n n' hk hb start minD res
    cases k with
    | zero =>
      simp only [List.getElem?_cons_zero, Option.some.injEq] at hk
      subst hk
      simp only [List.set_cons_zero, LocationGraph.findClosestPointLoop,
        findClosestPoint_sameBounds n' node hb point]
    | succ k =>
      simp only [List.getElem?_cons_succ] at hk
      simp only [List.set_cons_succ, LocationGraph.findClosestPointLoop]
      rw [ih k n n' hk hb, ih k n n' hk hb]

theorem findClosestPoint_setNode (g : LocationGraph) (k : Nat) (n n' : LocationGraphNode)
    (hk : g.nodePs[k]? = some n) (hb : SameBounds n' n) (point : Point) :
    (g.setNode k n').findClosestPoint point = g.findClosestPoint point := by
  unfold LocationGraph.findClosestPoint LocationGraph.setNode
  exact findClosestPointLoop_set point g.nodePs k n n' hk hb _ _ _

/-! ## Attaching the sources -/

theorem addWaterSource_ok {waterSource : WaterSource} {sourceP : Nat} {g g1 : LocationGraph}
    {u : Unit} (h : LocationGraph.addWaterSource waterSource sourceP g = .ok u g1) :
    ∃ r n hd, g.findClosestPoint waterSource.point = some r ∧ g.nodePs[r.nodeP]? = some n ∧
      g.externalDiameterHalfed waterSource.diameter = some hd ∧
      g1 = g.setNode r.nodeP
        (withSources n [(sourceP, LocationGraph.adjustConnectionPoint n hd r.point)]) := by
  unfold LocationGraph.addWaterSource at h
  cases hr : g.findClosestPoint waterSource.point with
  | none => rw [hr] at h; exact absurd h (by simp)
  | some r =>
    rw [hr] at h
    dsimp only at h
    cases hn : g.nodePs[r.nodeP]? with
    | none => rw [hn] at h; exact absurd h (by simp)
    | some n =>
      cases hd : g.externalDiameterHalfed waterSource.diameter with
      | none => rw [hn, hd] at h; exact absurd h (by simp)
      | some d =>
        rw [hn, hd] at h
        dsimp only at h
        injection h with _ hg
        exact ⟨r, n, d, rfl, hn, rfl, by rw [← hg]; rfl⟩

theorem adjustConnectionPoint_sameBounds (n m : LocationGraphNode) (h : SameBounds n m)
    (hd : CalcNumber) (point : Point) :
    LocationGraph.adjustConnectionPoint n hd point =
      LocationGraph.adjustConnectionPoint m hd point := by
  obtain ⟨h1, h2, h3, h4⟩ := h
  simp only [LocationGraph.adjustConnectionPoint, h1, h2, h3, h4]

theorem attachedSources_congr (g g1 : LocationGraph) (k : Nat) (n n1 : LocationGraphNode)
    (hf : ∀ point, g1.findClosestPoint point = g.findClosestPoint point)
    (hbag : g1.pipeObjectsBagP = g.pipeObjectsBagP) (hb : SameBounds n1 n) :
    ∀ (ws : List WaterSource) (sourceP : Nat),
      attachedSources g1 k n1 ws sourceP = attachedSources g k n ws sourceP := by
  intro ws
  induction ws with
  | nil => intro sourceP; rfl
  | cons w rest ih =>
    intro sourceP
    simp only [attachedSources, hf, LocationGraph.externalDiameterHalfed, hbag,
      ih (sourceP + 1)]
    cases g.findClosestPoint w.point with
    | none => rfl
    | some r =>
      cases Option.map (fun d => ((d / 2 : Nat) : CalcNumber))
        (g.pipeObjectsBagP.getExternalDiameter w.diameter) with
      | none => rfl
      | some d =>
        simp only [adjustConnectionPoint_sameBounds n1 n hb]

theorem withSources_withSources (n : LocationGraphNode) (l1 l2 : List (Nat × Point)) :
    withSources (withSources n l1) l2 = withSources n (l1 ++ l2) := by
  simp [withSources, List.append_assoc]

theorem withSources_sameBounds (n : LocationGraphNode) (l : List (Nat × Point)) :
    SameBounds (withSources n l) n := ⟨rfl, rfl, rfl, rfl⟩

/-- The loop over the sources in closed form: it leaves everything but the source lists of
the nodes unchanged, every source has found its node and its external diameter, and the node
at every address `k` has got the pairs `attachedSources g k n waterSources sourceP`
appended. -/
theorem addWaterSources_ok :
    ∀ (ws : List WaterSource) (sourceP : Nat) (g g' : LocationGraph) (u : Unit),
      LocationGraph.addWaterSources ws sourceP g = .ok u g' →
      g'.lastGeneratedId = g.lastGeneratedId ∧ g'.pipeObjectsBagP = g.pipeObjectsBagP ∧
        g'.optimizationParametersP = g.optimizationParametersP ∧
        g'.nodePForId = g.nodePForId ∧ g'.waterDestinationNodeP = g.waterDestinationNodeP ∧
        g'.nodePs.length = g.nodePs.length ∧
        (∀ point, g'.findClosestPoint point = g.findClosestPoint point) ∧
        (∀ w ∈ ws, (∃ r, g.findClosestPoint w.point = some r) ∧
          ∃ hd, g.externalDiameterHalfed w.diameter = some hd) ∧
        ∀ (k : Nat) (n : LocationGraphNode), g.nodePs[k]? = some n →
          g'.nodePs[k]? = some (withSources n (attachedSources g k n ws sourceP)) := by
  intro ws
  induction ws with
  | nil =>
    intro sourceP g g' u h
    simp only [LocationGraph.addWaterSources] at h
    injection h with _ hg
    subst hg
    refine ⟨rfl, rfl, rfl, rfl, rfl, rfl, fun _ => rfl, ?_, ?_⟩
    · intro w hw
      exact absurd hw (List.not_mem_nil w)
    · intro k n hn
      rw [hn]
      simp [withSources, attachedSources]
  | cons w rest ih =>
    intro sourceP g g' u h
    simp only [LocationGraph.addWaterSources] at h
    cases h1 : LocationGraph.addWaterSource w sourceP g with
    | exception e g1 => rw [h1] at h; exact absurd h (by simp)
    | undefined => rw [h1] at h; exact absurd h (by simp)
    | ok u1 g1 =>
      rw [h1] at h
      dsimp only at h
      obtain ⟨r, n0, hd, hr, hn0, hhd, hg1⟩ := addWaterSource_ok h1
      obtain ⟨i1, i2, i3, i4, i5, i6, i7, i8, i9⟩ := ih (sourceP + 1) g1 g' u h
      have hf1 : ∀ point, g1.findClosestPoint point = g.findClosestPoint point := by
        intro point
        rw [hg1]
        exact findClosestPoint_setNode g r.nodeP n0 _ hn0 (withSources_sameBounds n0 _) point
      have hbag1 : g1.pipeObjectsBagP = g.pipeObjectsBagP := by rw [hg1]; rfl
      have hex1 : ∀ d, g1.externalDiameterHalfed d = g.externalDiameterHalfed d := by
        intro d
        simp only [LocationGraph.externalDiameterHalfed, hbag1]
      obtain ⟨hr1, _⟩ := List.getElem?_eq_some_iff.mp hn0
      refine ⟨?_, ?_, ?_, ?_, ?_, ?_, ?_, ?_, ?_⟩
      · rw [i1, hg1]; rfl
      · rw [i2, hg1]; rfl
      · rw [i3, hg1]; rfl
      · rw [i4, hg1]; rfl
      · rw [i5, hg1]; rfl
      · rw [i6, hg1]; simp [LocationGraph.setNode]
      · intro point
        rw [i7, hf1]
      · intro w' hw'
        rcases List.mem_cons.mp hw' with hw' | hw'
        · subst hw'
          exact ⟨⟨r, hr⟩, ⟨hd, hhd⟩⟩
        · obtain ⟨⟨r', hr'⟩, ⟨hd', hhd'⟩⟩ := i8 w' hw'
          exact ⟨⟨r', by rw [← hf1]; exact hr'⟩, ⟨hd', by rw [← hex1]; exact hhd'⟩⟩
      · intro k n hn
        by_cases hk : r.nodeP = k
        · subst hk
          rw [hn0] at hn
          have e : n0 = n := Option.some.inj hn
          subst e
          have hg1k : g1.nodePs[r.nodeP]? = some (withSources n0
              [(sourceP, LocationGraph.adjustConnectionPoint n0 hd r.point)]) := by
            rw [hg1]
            simp [LocationGraph.setNode, List.getElem?_set, hr1]
          rw [i9 r.nodeP _ hg1k, withSources_withSources,
            attachedSources_congr g g1 r.nodeP n0 _ hf1 hbag1 (withSources_sameBounds n0 _)]
          simp only [attachedSources, hr, hhd, if_true, List.singleton_append]
        · have hg1k : g1.nodePs[k]? = some n := by
            rw [hg1]
            simp only [LocationGraph.setNode, List.getElem?_set, hk, if_false]
            exact hn
          rw [i9 k n hg1k,
            attachedSources_congr g g1 k n n hf1 hbag1 ⟨rfl, rfl, rfl, rfl⟩]
          simp only [attachedSources, hr, hhd, hk, if_false]

theorem attachedSources_mem (g : LocationGraph) (k : Nat) (n : LocationGraphNode) :
    ∀ (ws : List WaterSource) (sourceP j : Nat) (pt : Point),
      (j, pt) ∈ attachedSources g k n ws sourceP ↔
        sourceP ≤ j ∧ ∃ w r hd, ws[j - sourceP]? = some w ∧
          g.findClosestPoint w.point = some r ∧
          g.externalDiameterHalfed w.diameter = some hd ∧ r.nodeP = k ∧
          pt = LocationGraph.adjustConnectionPoint n hd r.point := by
  intro ws
  induction ws with
  | nil =>
    intro sourceP j pt
    simp [attachedSources]
  | cons w rest ih =>
    intro sourceP j pt
    have hrest : (j, pt) ∈ attachedSources g k n rest (sourceP + 1) ↔
        sourceP < j ∧ ∃ w' r hd, (w :: rest)[j - sourceP]? = some w' ∧
          g.findClosestPoint w'.point = some r ∧
          g.externalDiameterHalfed w'.diameter = some hd ∧ r.nodeP = k ∧
          pt = LocationGraph.adjustConnectionPoint n hd r.point := by
      rw [ih]
      constructor
      · rintro ⟨hle, w', r, hd, hw, hrest⟩
        have hj : j - sourceP = (j - (sourceP + 1)) + 1 := by omega
        refine ⟨by omega, w', r, hd, ?_, hrest⟩
        rw [hj, List.getElem?_cons_succ]
        exact hw
      · rintro ⟨hlt, w', r, hd, hw, hrest⟩
        have hj : j - sourceP = (j - (sourceP + 1)) + 1 := by omega
        refine ⟨by omega, w', r, hd, ?_, hrest⟩
        rw [hj, List.getElem?_cons_succ] at hw
        exact hw
    have hhead : (sourceP ≤ j ∧ ∃ w' r hd, (w :: rest)[j - sourceP]? = some w' ∧
          g.findClosestPoint w'.point = some r ∧
          g.externalDiameterHalfed w'.diameter = some hd ∧ r.nodeP = k ∧
          pt = LocationGraph.adjustConnectionPoint n hd r.point) ↔
        ((j = sourceP ∧ ∃ r hd, g.findClosestPoint w.point = some r ∧
          g.externalDiameterHalfed w.diameter = some hd ∧ r.nodeP = k ∧
          pt = LocationGraph.adjustConnectionPoint n hd r.point) ∨
        (j, pt) ∈ attachedSources g k n rest (sourceP + 1)) := by
      rw [hrest]
      constructor
      · rintro ⟨hle, w', r, hd, hw, hrest'⟩
        rcases Nat.eq_or_lt_of_le hle with he | hlt
        · subst he
          simp only [Nat.sub_self, List.getElem?_cons_zero, Option.some.injEq] at hw
          subst hw
          exact Or.inl ⟨rfl, r, hd, hrest'⟩
        · exact Or.inr ⟨hlt, w', r, hd, hw, hrest'⟩
      · rintro (⟨he, r, hd, hrest'⟩ | ⟨hlt, hex⟩)
        · subst he
          exact ⟨le_refl _, w, r, hd, by simp, hrest'⟩
        · exact ⟨le_of_lt hlt, hex⟩
    rw [hhead]
    simp only [attachedSources]
    cases hr : g.findClosestPoint w.point with
    | none => simp
    | some r =>
      cases hd : g.externalDiameterHalfed w.diameter with
      | none => simp
      | some d =>
        dsimp only
        by_cases hk : r.nodeP = k
        · rw [if_pos hk, List.mem_cons]
          constructor
          · rintro (h | h)
            · injection h with h1 h2
              exact Or.inl ⟨h1, r, d, rfl, rfl, hk, h2⟩
            · exact Or.inr h
          · rintro (⟨h1, r', d', h2, h3, _, h5⟩ | h)
            · have e1 : r = r' := Option.some.inj h2
              have e2 : d = d' := Option.some.inj h3
              subst e1 e2 h1 h5
              exact Or.inl rfl
            · exact Or.inr h
        · rw [if_neg hk]
          constructor
          · intro h
            exact Or.inr h
          · rintro (⟨_, r', d', h2, _, h4, _⟩ | h)
            · have e1 : r = r' := Option.some.inj h2
              subst e1
              exact absurd h4 hk
            · exact h

theorem attachedSources_nodup (g : LocationGraph) (k : Nat) (n : LocationGraphNode) :
    ∀ (ws : List WaterSource) (sourceP : Nat),
      ((attachedSources g k n ws sourceP).map Prod.fst).Nodup := by
  intro ws
  induction ws with
  | nil => intro sourceP; simp [attachedSources]
  | cons w rest ih =>
    intro sourceP
    simp only [attachedSources]
    cases g.findClosestPoint w.point with
    | none => exact ih (sourceP + 1)
    | some r =>
      cases g.externalDiameterHalfed w.diameter with
      | none => exact ih (sourceP + 1)
      | some d =>
        dsimp only
        by_cases hk : r.nodeP = k
        · rw [if_pos hk, List.map_cons, List.nodup_cons]
          refine ⟨?_, ih (sourceP + 1)⟩
          intro hmem
          obtain ⟨⟨j, pt⟩, hx, hj⟩ := List.mem_map.mp hmem
          simp only at hj
          subst hj
          have := ((attachedSources_mem g k n rest (j + 1) j pt).mp hx).1
          omega
        · rw [if_neg hk]
          exact ih (sourceP + 1)

theorem zip_map_fst_snd {α β : Type} (l : List (α × β)) :
    (l.map Prod.fst).zip (l.map Prod.snd) = l := by
  induction l with
  | nil => rfl
  | cons x l ih => simp [ih]

theorem addWaterSources_defined :
    ∀ (ws : List WaterSource) (sourceP : Nat) (g : LocationGraph),
      (∀ w ∈ ws, (∃ r, g.findClosestPoint w.point = some r) ∧
        ∃ hd, g.externalDiameterHalfed w.diameter = some hd) →
      ∃ g1, LocationGraph.addWaterSources ws sourceP g = .ok () g1 := by
  intro ws
  induction ws with
  | nil => intro sourceP g _; exact ⟨g, rfl⟩
  | cons w rest ih =>
    intro sourceP g hdef
    obtain ⟨⟨r, hr⟩, ⟨hd, hhd⟩⟩ := hdef w (List.mem_cons_self w rest)
    obtain ⟨n, hn, _⟩ := findClosestPoint_some g w.point r hr
    have hstep : LocationGraph.addWaterSource w sourceP g = .ok () (g.setNode r.nodeP
        (withSources n [(sourceP, LocationGraph.adjustConnectionPoint n hd r.point)])) := by
      unfold LocationGraph.addWaterSource
      rw [hr]
      dsimp only
      rw [hn, hhd]
      rfl
    simp only [LocationGraph.addWaterSources, hstep]
    apply ih
    intro w' hw'
    obtain ⟨⟨r', hr'⟩, ⟨hd', hhd'⟩⟩ := hdef w' (List.mem_cons_of_mem w hw')
    refine ⟨⟨r', ?_⟩, ⟨hd', ?_⟩⟩
    · rw [findClosestPoint_setNode g r.nodeP n _ hn (withSources_sameBounds n _)]
      exact hr'
    · exact hhd'

/-- The part of `addWaterConnectionObjects` for the destination, once the closest node and
the external radius are known: the destination is attached before the footprint is
tested. -/
theorem addWaterDestination_eq (dest : WaterDestination) (g : LocationGraph)
    (r : FindPointResult) (n : LocationGraphNode) (rd : CalcNumber)
    (hr : g.findClosestPoint dest.point = some r) (hn : g.nodePs[r.nodeP]? = some n)
    (hrd : g.externalDiameterHalfed dest.diameter = some rd) :
    LocationGraph.addWaterDestination dest g =
      if n.containsNode (destinationBox dest rd) = true then
        .ok () (withDestination g r.nodeP n dest)
      else .exception .destinationNotContained (withDestination g r.nodeP n dest) := by
  obtain ⟨hlt, _⟩ := List.getElem?_eq_some_iff.mp hn
  unfold LocationGraph.addWaterDestination
  dsimp only
  rw [hr]
  dsimp only
  rw [hn]
  dsimp only
  have h1 : LocationGraph.externalDiameterHalfed
      { g.setNode r.nodeP { n with waterDestinationP := some dest } with
        waterDestinationNodeP := some r.nodeP } dest.diameter = some rd := hrd
  have h2 : ({ g.setNode r.nodeP { n with waterDestinationP := some dest } with
        waterDestinationNodeP := some r.nodeP } : LocationGraph).nodePs[r.nodeP]? =
      some { n with waterDestinationP := some dest } := by
    simp [LocationGraph.setNode, List.getElem?_set, hlt]
  rw [h1, h2]
  dsimp only
  by_cases hc : n.containsNode (destinationBox dest rd) = true
  · have hc' : ({ n with waterDestinationP := some dest } : LocationGraphNode).containsNode
        (LocationGraphNode.new 0 (dest.point.x - rd) (dest.point.x + rd)
          (dest.point.y - rd) (dest.point.y + rd)) = true := hc
    rw [if_pos hc, hc']
    rfl
  · have hc' : ({ n with waterDestinationP := some dest } : LocationGraphNode).containsNode
        (LocationGraphNode.new 0 (dest.point.x - rd) (dest.point.x + rd)
          (dest.point.y - rd) (dest.point.y + rd)) = false := by
      simpa using hc
    rw [if_neg hc, hc']
    rfl

theorem addWaterDestination_graph {dest : WaterDestination} {g g' : LocationGraph}
    (h : (LocationGraph.addWaterDestination dest g).graph? = some g') :
    ∃ r n rd, g.findClosestPoint dest.point = some r ∧ g.nodePs[r.nodeP]? = some n ∧
      g.externalDiameterHalfed dest.diameter = some rd ∧
      g' = withDestination g r.nodeP n dest := by
  cases hr : g.findClosestPoint dest.point with
  | none =>
    unfold LocationGraph.addWaterDestination at h
    dsimp only at h
    rw [hr] at h
    exact absurd h (by simp [Outcome.graph?])
  | some r =>
    obtain ⟨n, hn, _⟩ := findClosestPoint_some g dest.point r hr
    cases hrd : g.externalDiameterHalfed dest.diameter with
    | none =>
      unfold LocationGraph.addWaterDestination at h
      dsimp only at h
      rw [hr] at h
      dsimp only at h
      rw [hn] at h
      dsimp only at h
      have h1 : LocationGraph.externalDiameterHalfed
          { g.setNode r.nodeP { n with waterDestinationP := some dest } with
            waterDestinationNodeP := some r.nodeP } dest.diameter = none := hrd
      rw [h1] at h
      exact absurd h (by simp [Outcome.graph?])
    | some rd =>
      rw [addWaterDestination_eq dest g r n rd hr hn hrd] at h
      refine ⟨r, n, rd, rfl, hn, rfl, ?_⟩
      split_ifs at h <;> simp only [Outcome.graph?, Option.some.injEq] at h <;> exact h.symm

theorem addWaterSources_no_exception :
    ∀ (ws : List WaterSource) (sourceP : Nat) (g g1 : LocationGraph) (e : Exception),
      LocationGraph.addWaterSources ws sourceP g ≠ .exception e g1 := by
  intro ws
  induction ws with
  | nil => intro sourceP g g1 e h; simp [LocationGraph.addWaterSources] at h
  | cons w rest ih =>
    intro sourceP g g1 e h
    simp only [LocationGraph.addWaterSources] at h
    cases h1 : LocationGraph.addWaterSource w sourceP g with
    | ok u2 g2 =>
      rw [h1] at h
      exact ih (sourceP + 1) g2 g1 e h
    | undefined => rw [h1] at h; exact absurd h (by simp)
    | exception e2 g2 =>
      unfold LocationGraph.addWaterSource at h1
      cases hr : g.findClosestPoint w.point with
      | none => rw [hr] at h1; exact absurd h1 (by simp)
      | some r =>
        rw [hr] at h1
        dsimp only at h1
        cases hn : g.nodePs[r.nodeP]? with
        | none => rw [hn] at h1; exact absurd h1 (by simp)
        | some n =>
          cases hd : g.externalDiameterHalfed w.diameter with
          | none => rw [hn, hd] at h1; exact absurd h1 (by simp)
          | some d => rw [hn, hd] at h1; exact absurd h1 (by simp)

/-- The graph that `addWaterConnectionObjects` leaves, when the source list is not empty and
the destination is set, in closed form: the node at every address `k` has got the pairs
`attachedSources g k n waterSources 0` appended to its source lists, the first node closest
to the destination has got the destination, and the call returns or throws according to the
footprint test on that node. -/
theorem addWaterConnectionObjects_final (g g' : LocationGraph) (wco : WaterConnectionObjects)
    (hs : wco.waterSources ≠ []) (hset : wco.waterDestinationIsSet = true)
    (hg : (g.addWaterConnectionObjects wco).graph? = some g') :
    ∃ r nd rd, g.findClosestPoint wco.waterDestination.point = some r ∧
      g.nodePs[r.nodeP]? = some nd ∧
      g.externalDiameterHalfed wco.waterDestination.diameter = some rd ∧
      g'.waterDestinationNodeP = some r.nodeP ∧
      g'.nodePs.length = g.nodePs.length ∧
      (∀ w ∈ wco.waterSources, (∃ r, g.findClosestPoint w.point = some r) ∧
        ∃ hd, g.externalDiameterHalfed w.diameter = some hd) ∧
      (∀ (k : Nat) (n : LocationGraphNode), g.nodePs[k]? = some n →
        g'.nodePs[k]? = some
          { withSources n (attachedSources g k n wco.waterSources 0) with
            waterDestinationP :=
              if k = r.nodeP then some wco.waterDestination else n.waterDestinationP }) ∧
      g.addWaterConnectionObjects wco =
        if nd.containsNode (destinationBox wco.waterDestination rd) = true then .ok () g'
        else .exception .destinationNotContained g' := by
  have hlen : ¬ wco.waterSources.length = 0 := by
    intro h0
    exact hs (List.length_eq_zero.mp h0)
  unfold LocationGraph.addWaterConnectionObjects at hg ⊢
  rw [if_neg hlen] at hg ⊢
  have hset' : ¬ (wco.waterDestinationIsSet == false) = true := by simp [hset]
  rw [if_neg hset'] at hg ⊢
  cases h1 : LocationGraph.addWaterSources wco.waterSources 0 g with
  | undefined => rw [h1] at hg; exact absurd hg (by simp [Outcome.graph?])
  | exception e g1 => exact absurd h1 (addWaterSources_no_exception _ _ _ _ _)
  | ok u1 g1 =>
    rw [h1] at hg
    dsimp only at hg ⊢
    obtain ⟨_, i2, _, _, _, i6, i7, i8, i9⟩ := addWaterSources_ok _ _ _ _ _ h1
    obtain ⟨r, n1, rd, hr, hn1, hrd, hg'⟩ := addWaterDestination_graph hg
    have hr0 : g.findClosestPoint wco.waterDestination.point = some r := by
      rw [← i7]; exact hr
    have hrd0 : g.externalDiameterHalfed wco.waterDestination.diameter = some rd := by
      simp only [LocationGraph.externalDiameterHalfed, ← i2]
      exact hrd
    obtain ⟨nd, hnd, _⟩ := findClosestPoint_some g _ r hr0
    have hn1' := i9 r.nodeP nd hnd
    rw [hn1] at hn1'
    have e1 : n1 = withSources nd (attachedSources g r.nodeP nd wco.waterSources 0) :=
      Option.some.inj hn1'
    obtain ⟨hlt, _⟩ := List.getElem?_eq_some_iff.mp hn1
    refine ⟨r, nd, rd, hr0, hnd, hrd0, ?_, ?_, i8, ?_, ?_⟩
    · rw [hg']; rfl
    · rw [hg']; simp [withDestination, i6]
    · intro k n hn
      rw [hg']
      simp only [withDestination, List.getElem?_set]
      by_cases hk : r.nodeP = k
      · subst hk
        rw [hnd] at hn
        have e2 : nd = n := Option.some.inj hn
        subst e2
        simp only [if_true, hlt, e1]
      · have hk' : ¬ k = r.nodeP := fun h => hk h.symm
        simp only [hk, hk', if_false]
        rw [i9 k n hn]
        rfl
    · rw [addWaterDestination_eq _ g1 r n1 rd hr hn1 hrd, ← hg']
      have hc : n1.containsNode (destinationBox wco.waterDestination rd) =
          nd.containsNode (destinationBox wco.waterDestination rd) := by
        rw [e1]; rfl
      rw [hc]

/-! ## Properties of `addWaterConnectionObjects` -/

theorem addWaterConnectionObjects_pre (g g' : LocationGraph) (wco : WaterConnectionObjects)
    (h : (∃ u, g.addWaterConnectionObjects wco = .ok u g') ∨
      g.addWaterConnectionObjects wco = .exception .destinationNotContained g') :
    wco.waterSources ≠ [] ∧ wco.waterDestinationIsSet = true ∧
      (g.addWaterConnectionObjects wco).graph? = some g' := by
  have hg : (g.addWaterConnectionObjects wco).graph? = some g' := by
    rcases h with ⟨u, h⟩ | h <;> rw [h] <;> rfl
  refine ⟨?_, ?_, hg⟩
  · intro hnil
    unfold LocationGraph.addWaterConnectionObjects at h
    rw [hnil] at h
    simp at h
  · by_contra hset
    have hset' : wco.waterDestinationIsSet = false := by simpa using hset
    unfold LocationGraph.addWaterConnectionObjects at h
    rw [hset'] at h
    by_cases hl : wco.waterSources.length = 0
    · simp [hl] at h
    · simp [hl] at h

theorem externalDiameterHalfed_nonneg (g : LocationGraph) (d : Nat) (hd : CalcNumber)
    (h : g.externalDiameterHalfed d = some hd) : 0 ≤ hd := by
  unfold LocationGraph.externalDiameterHalfed at h
  cases hx : g.pipeObjectsBagP.getExternalDiameter d with
  | none => rw [hx] at h; simp at h
  | some x =>
    rw [hx] at h
    simp only [Option.map_some', Option.some.injEq] at h
    rw [← h]
    exact Nat.cast_nonneg _

/-- A closest point moved inward by `hd` stays in the node when the node is at least `hd`
wide and high. -/
theorem adjustConnectionPoint_inside (n : LocationGraphNode) (point : Point) (hd : CalcNumber)
    (h0 : 0 ≤ hd) (hx : hd ≤ n.sizeX) (hy : hd ≤ n.sizeY) :
    n.left ≤ (LocationGraph.adjustConnectionPoint n hd (n.findClosestPoint point)).x ∧
      (LocationGraph.adjustConnectionPoint n hd (n.findClosestPoint point)).x ≤ n.right ∧
      n.bottom ≤ (LocationGraph.adjustConnectionPoint n hd (n.findClosestPoint point)).y ∧
      (LocationGraph.adjustConnectionPoint n hd (n.findClosestPoint point)).y ≤ n.top := by
  simp only [LocationGraphNode.sizeX, LocationGraphNode.sizeY] at hx hy
  simp only [LocationGraph.adjustConnectionPoint, LocationGraphNode.findClosestPoint]
  refine ⟨?_, ?_, ?_, ?_⟩
  · split_ifs <;> linarith
  · split_ifs <;> linarith
  · split_ifs <;> linarith
  · split_ifs <;> linarith

/-- The source lists of a node after `addWaterConnectionObjects` on a graph to which nothing
was attached: the pairs of the two lists are the pairs `attachedSources`. -/
theorem addWaterConnectionObjects_pairs (g g' : LocationGraph) (wco : WaterConnectionObjects)
    (hfresh : g.NothingAttached)
    (h : (∃ u, g.addWaterConnectionObjects wco = .ok u g') ∨
      g.addWaterConnectionObjects wco = .exception .destinationNotContained g')
    (k : Nat) (n' : LocationGraphNode) (hn' : g'.nodePs[k]? = some n') :
    ∃ n, g.nodePs[k]? = some n ∧ SameBounds n' n ∧
      n'.waterSourcesPs = (attachedSources g k n wco.waterSources 0).map Prod.fst ∧
      n'.waterSourcesConnectionPoints =
        (attachedSources g k n wco.waterSources 0).map Prod.snd ∧
      n'.waterSourcesPs.zip n'.waterSourcesConnectionPoints =
        attachedSources g k n wco.waterSources 0 := by
  obtain ⟨hs, hset, hg⟩ := addWaterConnectionObjects_pre g g' wco h
  obtain ⟨r, nd, rd, _, _, _, _, hlen, _, hnodes, _⟩ :=
    addWaterConnectionObjects_final g g' wco hs hset hg
  obtain ⟨hk, _⟩ := List.getElem?_eq_some_iff.mp hn'
  rw [hlen] at hk
  have hn : g.nodePs[k]? = some g.nodePs[k] := List.getElem?_eq_getElem hk
  have h1 := hnodes k _ hn
  rw [hn'] at h1
  have e := Option.some.inj h1
  obtain ⟨f1, f2, _⟩ := hfresh _ (List.getElem_mem hk)
  have e1 : n'.waterSourcesPs =
      (attachedSources g k g.nodePs[k] wco.waterSources 0).map Prod.fst := by
    rw [e]
    simp [withSources, f1]
  have e2 : n'.waterSourcesConnectionPoints =
      (attachedSources g k g.nodePs[k] wco.waterSources 0).map Prod.snd := by
    rw [e]
    simp [withSources, f2]
  refine ⟨_, hn, ?_, e1, e2, ?_⟩
  · rw [e]
    exact ⟨rfl, rfl, rfl, rfl⟩
  · rw [e1, e2, zip_map_fst_snd]

/-- C1. After `addWaterConnectionObjects` returns on a graph to which no source and no
destination was attached (the graph is then non-empty), every input source, identified by its
address in `waterSources`, occurs exactly once in the `waterSourcesPs` list of exactly one
node; in every node the list `waterSourcesConnectionPoints` has the length of
`waterSourcesPs`, and the entry point at a position is the one computed for the source at
that position (the closest point of the node to the point of that source, adjusted by the
radius of that source); and exactly one node has a destination attached: the node recorded
as `waterDestinationNodeP`, and the destination is the one of the call. -/
theorem addWaterConnectionObjects_attaches (g g' : LocationGraph)
    (wco : WaterConnectionObjects) (u : Unit) (hfresh : g.NothingAttached)
    (h : g.addWaterConnectionObjects wco = .ok u g') :
    g.nodePs ≠ [] ∧
    (∀ (i : Nat) (w : WaterSource), wco.waterSources[i]? = some w →
      ∃ k nk, g'.nodePs[k]? = some nk ∧ nk.waterSourcesPs.count i = 1 ∧
        ∀ (k' : Nat) (nk' : LocationGraphNode), g'.nodePs[k']? = some nk' → k' ≠ k →
          i ∉ nk'.waterSourcesPs) ∧
    (∀ n ∈ g'.nodePs, n.waterSourcesConnectionPoints.length = n.waterSourcesPs.length) ∧
    (∀ (k : Nat) (n' : LocationGraphNode), g'.nodePs[k]? = some n' →
      ∀ (i : Nat) (pt : Point),
        (i, pt) ∈ n'.waterSourcesPs.zip n'.waterSourcesConnectionPoints →
        ∃ w hd, wco.waterSources[i]? = some w ∧
          g.externalDiameterHalfed w.diameter = some hd ∧
          pt = LocationGraph.adjustConnectionPoint n' hd (n'.findClosestPoint w.point)) ∧
    ∃ k nk, g'.waterDestinationNodeP = some k ∧ g'.nodePs[k]? = some nk ∧
      nk.waterDestinationP = some wco.waterDestination ∧
      ∀ (k' : Nat) (nk' : LocationGraphNode), g'.nodePs[k']? = some nk' → k' ≠ k →
        nk'.waterDestinationP = none := by
  have h' : (∃ u, g.addWaterConnectionObjects wco = .ok u g') ∨
      g.addWaterConnectionObjects wco = .exception .destinationNotContained g' :=
    Or.inl ⟨u, h⟩
  obtain ⟨hs, hset, hg⟩ := addWaterConnectionObjects_pre g g' wco h'
  obtain ⟨r, nd, rd, hr, hnd, _, hdn, hlen, hdef, hnodes, _⟩ :=
    addWaterConnectionObjects_final g g' wco hs hset hg
  refine ⟨?_, ?_, ?_, ?_, ?_⟩
  · intro hnil
    rw [hnil] at hnd
    simp at hnd
  · intro i w hw
    obtain ⟨⟨rs, hrs⟩, ⟨hd, hhd⟩⟩ := hdef w (List.mem_iff_getElem?.mpr ⟨i, hw⟩)
    obtain ⟨nw, hnw, _⟩ := findClosestPoint_some g w.point rs hrs
    have hgk := hnodes rs.nodeP nw hnw
    obtain ⟨n0, hn0, _, e1, _, _⟩ :=
      addWaterConnectionObjects_pairs g g' wco hfresh h' rs.nodeP _ hgk
    rw [hnw] at hn0
    have e0 : nw = n0 := Option.some.inj hn0
    subst e0
    refine ⟨rs.nodeP, _, hgk, ?_, ?_⟩
    · rw [e1]
      apply List.count_eq_one_of_mem (attachedSources_nodup g rs.nodeP nw wco.waterSources 0)
      apply List.mem_map.mpr
      refine ⟨(i, LocationGraph.adjustConnectionPoint nw hd rs.point), ?_, rfl⟩
      exact (attachedSources_mem g rs.nodeP nw wco.waterSources 0 i _).mpr
        ⟨Nat.zero_le i, w, rs, hd, by simpa using hw, hrs, hhd, rfl, rfl⟩
    · intro k' nk' hk' hne hmem
      obtain ⟨n1, _, _, f1, _, _⟩ :=
        addWaterConnectionObjects_pairs g g' wco hfresh h' k' nk' hk'
      rw [f1] at hmem
      obtain ⟨⟨j, pt⟩, hx, hj⟩ := List.mem_map.mp hmem
      simp only at hj
      subst hj
      obtain ⟨_, w', r', _, hw', hr', _, hk, _⟩ :=
        (attachedSources_mem g k' n1 wco.waterSources 0 j pt).mp hx
      simp only [Nat.sub_zero] at hw'
      rw [hw] at hw'
      have e2 : w = w' := Option.some.inj hw'
      subst e2
      rw [hrs] at hr'
      have e3 : rs = r' := Option.some.inj hr'
      subst e3
      exact hne hk.symm
  · intro n hn
    obtain ⟨k, hk⟩ := List.mem_iff_getElem?.mp hn
    obtain ⟨n1, _, _, f1, f2, _⟩ := addWaterConnectionObjects_pairs g g' wco hfresh h' k n hk
    rw [f1, f2, List.length_map, List.length_map]
  · intro k n' hn' i pt hmem
    obtain ⟨n, hn, hb, _, _, hzip⟩ :=
      addWaterConnectionObjects_pairs g g' wco hfresh h' k n' hn'
    rw [hzip] at hmem
    obtain ⟨_, w, rs, hd, hw, hrs, hhd, hk, hpt⟩ :=
      (attachedSources_mem g k n wco.waterSources 0 i pt).mp hmem
    obtain ⟨nr, hnr, hrp, _⟩ := findClosestPoint_some g w.point rs hrs
    rw [hk, hn] at hnr
    have e : n = nr := Option.some.inj hnr
    subst e
    refine ⟨w, hd, by simpa using hw, hhd, ?_⟩
    rw [hpt, hrp, adjustConnectionPoint_sameBounds n' n hb,
      findClosestPoint_sameBounds n' n hb]
  · refine ⟨r.nodeP, _, hdn, hnodes r.nodeP nd hnd, by simp, ?_⟩
    intro k' nk' hk' hne
    obtain ⟨hklt, _⟩ := List.getElem?_eq_some_iff.mp hk'
    rw [hlen] at hklt
    have hgk := hnodes k' _ (List.getElem?_eq_getElem hklt)
    rw [hk'] at hgk
    have e := Option.some.inj hgk
    rw [e]
    simp only [hne, if_false]
    exact (hfresh _ (List.getElem_mem hklt)).2.2

/-- Witness for C1: nothing is attached to `squareGraph`, `addWaterConnectionObjects`
returns on it for `squareObjects`, the graph is non-empty, and in the result every node has
as many entry points as sources. -/
theorem addWaterConnectionObjects_attaches_witness :
    squareGraph.NothingAttached ∧
      squareGraph.addWaterConnectionObjects squareObjects = .ok () squareGraphAttached ∧
      squareGraph.nodePs ≠ [] ∧
      ∀ n ∈ squareGraphAttached.nodePs,
        n.waterSourcesConnectionPoints.length = n.waterSourcesPs.length :=
  ⟨by decide!, by decide!,
    (addWaterConnectionObjects_attaches squareGraph squareGraphAttached squareObjects ()
      (by decide!) (by decide!)).1,
    (addWaterConnectionObjects_attaches squareGraph squareGraphAttached squareObjects ()
      (by decide!) (by decide!)).2.2.1⟩

/-- The entry points stored by `addWaterConnectionObjects`, with the radius as the code
computes it. After the call on a graph to which nothing was attached, every source `w` with
address `i` is attached to the first node `n` in list order among those whose closest point
`c` to the point of the source is at minimal distance, and the entry point stored with it is
`c` with `x` replaced by `left + r` if `c.x = left`, else by `right - r` if `c.x = right`,
and `y` replaced by `bottom + r` if `c.y = bottom`, else by `top - r` if `c.y = top`, and
`z = 0`, where `r` is the quotient of the unsigned division of the external diameter by 2. -/
theorem addWaterConnectionObjects_entry_points (g g' : LocationGraph)
    (wco : WaterConnectionObjects) (hfresh : g.NothingAttached)
    (h : (∃ u, g.addWaterConnectionObjects wco = .ok u g') ∨
      g.addWaterConnectionObjects wco = .exception .destinationNotContained g') :
    ∀ (i : Nat) (w : WaterSource), wco.waterSources[i]? = some w →
      ∃ k n n' ext, g.FirstClosestNode w.point k ∧ g.nodePs[k]? = some n ∧
        g'.nodePs[k]? = some n' ∧
        g.pipeObjectsBagP.getExternalDiameter w.diameter = some ext ∧
        (i, (⟨if (n.findClosestPoint w.point).x = n.left then n.left + ((ext / 2 : Nat) : CalcNumber)
              else if (n.findClosestPoint w.point).x = n.right then
                n.right - ((ext / 2 : Nat) : CalcNumber)
              else (n.findClosestPoint w.point).x,
            if (n.findClosestPoint w.point).y = n.bottom then
                n.bottom + ((ext / 2 : Nat) : CalcNumber)
              else if (n.findClosestPoint w.point).y = n.top then
                n.top - ((ext / 2 : Nat) : CalcNumber)
              else (n.findClosestPoint w.point).y,
            0⟩ : Point)) ∈ n'.waterSourcesPs.zip n'.waterSourcesConnectionPoints := by
  intro i w hw
  obtain ⟨hs, hset, hg⟩ := addWaterConnectionObjects_pre g g' wco h
  obtain ⟨_, _, _, _, _, _, _, _, hdef, hnodes, _⟩ :=
    addWaterConnectionObjects_final g g' wco hs hset hg
  obtain ⟨⟨rs, hrs⟩, ⟨hd, hhd⟩⟩ := hdef w (List.mem_iff_getElem?.mpr ⟨i, hw⟩)
  obtain ⟨n, hn, hpt, _, hfirst⟩ := findClosestPoint_some g w.point rs hrs
  have hgk := hnodes rs.nodeP n hn
  obtain ⟨n0, hn0, _, _, _, hzip⟩ :=
    addWaterConnectionObjects_pairs g g' wco hfresh h rs.nodeP _ hgk
  rw [hn] at hn0
  have e0 : n = n0 := Option.some.inj hn0
  subst e0
  have hhd' := hhd
  unfold LocationGraph.externalDiameterHalfed at hhd'
  cases hext : g.pipeObjectsBagP.getExternalDiameter w.diameter with
  | none => rw [hext] at hhd'; simp at hhd'
  | some ext =>
    rw [hext] at hhd'
    simp only [Option.map_some', Option.some.injEq] at hhd'
    refine ⟨rs.nodeP, n, _, ext, hfirst, hn, hgk, rfl, ?_⟩
    rw [hzip]
    have hmem := (attachedSources_mem g rs.nodeP n wco.waterSources 0 i
      (LocationGraph.adjustConnectionPoint n hd rs.point)).mpr
      ⟨Nat.zero_le i, w, rs, hd, by simpa using hw, hrs, hhd, rfl, rfl⟩
    have hpoint : LocationGraph.adjustConnectionPoint n hd rs.point =
        (⟨if (n.findClosestPoint w.point).x = n.left then
              n.left + ((ext / 2 : Nat) : CalcNumber)
            else if (n.findClosestPoint w.point).x = n.right then
              n.right - ((ext / 2 : Nat) : CalcNumber)
            else (n.findClosestPoint w.point).x,
          if (n.findClosestPoint w.point).y = n.bottom then
              n.bottom + ((ext / 2 : Nat) : CalcNumber)
            else if (n.findClosestPoint w.point).y = n.top then
              n.top - ((ext / 2 : Nat) : CalcNumber)
            else (n.findClosestPoint w.point).y,
          0⟩ : Point) := by
      rw [hpt, ← hhd']
      simp only [LocationGraph.adjustConnectionPoint]
      have hz : (n.findClosestPoint w.point).z = 0 := rfl
      rw [hz]
      congr 1
      · split_ifs with h1 h2
        · rw [h1]
        · rw [h2]
        · rfl
      · split_ifs with h1 h2
        · rw [h1]
        · rw [h2]
        · rfl
    rw [← hpoint]
    exact hmem

/-- C3, the code at the failing input. The catalog gives diameter 50 the external diameter
61; the source at `(-100, 500, 0)` is attached to the node `[0, 1000] x [0, 1000]`, whose
closest point `(0, 500)` lies on the left edge; the stored entry point is `(30, 500, 0)`,
that is `left + 61 / 2` in unsigned arithmetic, and not `left + 30.5`, the left edge moved
by half the external diameter. -/
theorem addWaterConnectionObjects_halves_by_unsigned_division :
    oddGraph.pipeObjectsBagP.getExternalDiameter 50 = some 61 ∧
      oddGraph.addWaterConnectionObjects oddObjects = .ok () oddGraphAttached ∧
      oddGraphAttached.nodePs.map (fun n => n.waterSourcesConnectionPoints)
        = [[⟨30, 500, 0⟩]] ∧
      (⟨0 + 61 / 2, 500, 0⟩ : Point) ≠ ⟨30, 500, 0⟩ := by
  refine ⟨by decide!, by decide!, by decide!, by decide!⟩

/-! ## The clearance of the destination -/

theorem nodesDisjoint_getElem (g : LocationGraph) (hd : g.NodesDisjoint) (i j : Nat)
    (a c : LocationGraphNode) (hi : g.nodePs[i]? = some a) (hj : g.nodePs[j]? = some c)
    (hij : i ≠ j) : ¬ PositiveAreaIntersection a c := by
  unfold LocationGraph.NodesDisjoint at hd
  rw [List.pairwise_iff_getElem] at hd
  obtain ⟨hi1, hi2⟩ := List.getElem?_eq_some_iff.mp hi
  obtain ⟨hj1, hj2⟩ := List.getElem?_eq_some_iff.mp hj
  rcases Nat.lt_or_gt_of_ne hij with hlt | hgt
  · have := hd i j hi1 hj1 hlt
    rw [hi2, hj2] at this
    exact this
  · have := hd j i hj1 hi1 hgt
    rw [hi2, hj2] at this
    exact fun hp => this (positiveAreaIntersection_symm hp)

theorem containsNode_destinationBox_iff (n : LocationGraphNode) (dest : WaterDestination)
    (rd : CalcNumber) :
    n.containsNode (destinationBox dest rd) = true ↔
      n.left ≤ dest.point.x - rd ∧ dest.point.x + rd ≤ n.right ∧
        n.bottom ≤ dest.point.y - rd ∧ dest.point.y + rd ≤ n.top := by
  simp only [LocationGraphNode.containsNode, destinationBox, LocationGraphNode.new,
    Bool.and_eq_true, decide_eq_true_eq, ge_iff_le, and_assoc]

/-- A node whose closest point to `point` is at squared distance at most `point.z ^ 2`
contains the projection of `point` to the plane. -/
theorem contains_of_distanceSquaredTo_le (n : LocationGraphNode) (point : Point)
    (h : n.distanceSquaredTo point ≤ point.z * point.z) :
    n.left ≤ point.x ∧ point.x ≤ n.right ∧ n.bottom ≤ point.y ∧ point.y ≤ n.top := by
  simp only [LocationGraphNode.distanceSquaredTo, Point.distanceToPointSquared,
    LocationGraphNode.findClosestPoint, sub_zero] at h
  have hx : ¬ point.x < n.left := by
    intro hlt
    rw [if_pos hlt] at h
    nlinarith [sq_nonneg (point.x - n.left),
      mul_self_nonneg (point.y - (if point.y < n.bottom then n.bottom
        else if point.y > n.top then n.top else point.y)),
      mul_pos (sub_pos.mpr hlt) (sub_pos.mpr hlt)]
  rw [if_neg hx] at h
  have hx2 : ¬ point.x > n.right := by
    intro hgt
    rw [if_pos hgt] at h
    nlinarith [mul_self_nonneg (point.y - (if point.y < n.bottom then n.bottom
        else if point.y > n.top then n.top else point.y)),
      mul_pos (sub_pos.mpr hgt) (sub_pos.mpr hgt)]
  rw [if_neg hx2] at h
  have hy : ¬ point.y < n.bottom := by
    intro hlt
    rw [if_pos hlt] at h
    nlinarith [mul_pos (sub_pos.mpr hlt) (sub_pos.mpr hlt)]
  rw [if_neg hy] at h
  have hy2 : ¬ point.y > n.top := by
    intro hgt
    rw [if_pos hgt] at h
    nlinarith [mul_pos (sub_pos.mpr hgt) (sub_pos.mpr hgt)]
  exact ⟨not_lt.mp hx, not_lt.mp hx2, not_lt.mp hy, not_lt.mp hy2⟩

theorem distanceSquaredTo_of_contains (n : LocationGraphNode) (point : Point)
    (h : n.left ≤ point.x ∧ point.x ≤ n.right ∧ n.bottom ≤ point.y ∧ point.y ≤ n.top) :
    n.distanceSquaredTo point = point.z * point.z := by
  obtain ⟨h1, h2, h3, h4⟩ := h
  simp only [LocationGraphNode.distanceSquaredTo, Point.distanceToPointSquared,
    LocationGraphNode.findClosestPoint, if_neg (not_lt.mpr h1), if_neg (not_lt.mpr h2),
    if_neg (not_lt.mpr h3), if_neg (not_lt.mpr h4), gt_iff_lt]
  ring

/-- In a graph of valid, pairwise non-overlapping nodes: if some node contains the footprint
of the destination, then so does the first node closest to the point of the destination. -/
theorem firstClosestNode_contains_box (g : LocationGraph) (hvalid : g.NodesValid)
    (hdisj : g.NodesDisjoint) (dest : WaterDestination) (rd : CalcNumber) (h0 : 0 ≤ rd)
    (k : Nat) (nd : LocationGraphNode) (hnd : g.nodePs[k]? = some nd)
    (hfirst : g.FirstClosestNode dest.point k) (m : LocationGraphNode) (hm : m ∈ g.nodePs)
    (hbox : m.containsNode (destinationBox dest rd) = true) :
    nd.containsNode (destinationBox dest rd) = true := by
  rw [containsNode_destinationBox_iff] at hbox ⊢
  obtain ⟨b1, b2, b3, b4⟩ := hbox
  obtain ⟨j, hj⟩ := List.mem_iff_getElem?.mp hm
  obtain ⟨n, hn, hmin, _⟩ := hfirst
  rw [hnd] at hn
  have e : nd = n := Option.some.inj hn
  subst e
  have hmd : m.distanceSquaredTo dest.point = dest.point.z * dest.point.z :=
    distanceSquaredTo_of_contains m dest.point
      ⟨by linarith, by linarith, by linarith, by linarith⟩
  have hle := hmin j m hj
  rw [hmd] at hle
  obtain ⟨c1, c2, c3, c4⟩ := contains_of_distanceSquaredTo_le nd dest.point hle
  by_cases hjk : j = k
  · subst hjk
    rw [hnd] at hj
    have e : nd = m := Option.some.inj hj
    subst e
    exact ⟨b1, b2, b3, b4⟩
  · rcases eq_or_lt_of_le h0 with hz | hpos
    · rw [← hz]
      simp only [sub_zero, add_zero]
      exact ⟨c1, c2, c3, c4⟩
    · exfalso
      have hv := hvalid nd (List.mem_iff_getElem?.mpr ⟨k, hnd⟩)
      have hvm := hvalid m hm
      apply nodesDisjoint_getElem g hdisj k j nd m hnd hj (fun h => hjk h.symm)
      simp only [PositiveAreaIntersection, max_lt_iff, lt_min_iff]
      obtain ⟨v1, v2⟩ := hv
      obtain ⟨v3, v4⟩ := hvm
      refine ⟨⟨⟨v1, ?_⟩, ⟨?_, v3⟩⟩, ⟨⟨v2, ?_⟩, ⟨?_, v4⟩⟩⟩ <;> linarith

/-- C2. Let the nodes of the graph be valid rectangles that pairwise share no interior
area, let the source list be non-empty and the destination set, let every source point and
the destination point be closer to some node than the search bound `999999999`, and let the
catalog hold the external diameters of the sources and of the destination. Then
`addWaterConnectionObjects` throws the destination-clearance error if and only if no single
node contains the box `[dx - rd, dx + rd] x [dy - rd, dy + rd]` around the destination
point, `rd` being the external diameter of the destination divided by 2 as the code
divides. -/
theorem addWaterConnectionObjects_clearance_iff (g : LocationGraph)
    (wco : WaterConnectionObjects) (rd : CalcNumber)
    (hvalid : g.NodesValid) (hdisj : g.NodesDisjoint)
    (hs : wco.waterSources ≠ []) (hset : wco.waterDestinationIsSet = true)
    (hsrc : ∀ w ∈ wco.waterSources,
      (∃ n ∈ g.nodePs, n.distanceSquaredTo w.point < 999999999 * 999999999) ∧
        g.externalDiameterHalfed w.diameter ≠ none)
    (hdst : ∃ n ∈ g.nodePs,
      n.distanceSquaredTo wco.waterDestination.point < 999999999 * 999999999)
    (hrd : g.externalDiameterHalfed wco.waterDestination.diameter = some rd) :
    (∃ g', g.addWaterConnectionObjects wco = .exception .destinationNotContained g') ↔
      ¬ ∃ n ∈ g.nodePs,
        n.left ≤ wco.waterDestination.point.x - rd ∧
          wco.waterDestination.point.x + rd ≤ n.right ∧
          n.bottom ≤ wco.waterDestination.point.y - rd ∧
          wco.waterDestination.point.y + rd ≤ n.top := by
  have hdef : ∀ w ∈ wco.waterSources, (∃ r, g.findClosestPoint w.point = some r) ∧
      ∃ hd, g.externalDiameterHalfed w.diameter = some hd := by
    intro w hw
    exact ⟨findClosestPoint_isSome g w.point (hsrc w hw).1,
      Option.ne_none_iff_exists'.mp (hsrc w hw).2⟩
  obtain ⟨g1, hg1⟩ := addWaterSources_defined wco.waterSources 0 g hdef
  obtain ⟨_, i2, _, _, _, _, i7, _, i9⟩ := addWaterSources_ok _ _ _ _ _ hg1
  obtain ⟨r, hr⟩ := findClosestPoint_isSome g wco.waterDestination.point hdst
  obtain ⟨nd, hnd, _, _, hfirst⟩ := findClosestPoint_some g _ r hr
  have hr1 : g1.findClosestPoint wco.waterDestination.point = some r := by
    rw [i7]; exact hr
  have hrd1 : g1.externalDiameterHalfed wco.waterDestination.diameter = some rd := by
    simp only [LocationGraph.externalDiameterHalfed, i2]
    exact hrd
  have hn1 := i9 r.nodeP nd hnd
  have hres : g.addWaterConnectionObjects wco =
      if nd.containsNode (destinationBox wco.waterDestination rd) = true then
        .ok () (withDestination g1 r.nodeP
          (withSources nd (attachedSources g r.nodeP nd wco.waterSources 0))
          wco.waterDestination)
      else .exception .destinationNotContained (withDestination g1 r.nodeP
          (withSources nd (attachedSources g r.nodeP nd wco.waterSources 0))
          wco.waterDestination) := by
    have hlen : ¬ wco.waterSources.length = 0 := fun h0 => hs (List.length_eq_zero.mp h0)
    have hset' : ¬ (wco.waterDestinationIsSet == false) = true := by simp [hset]
    unfold LocationGraph.addWaterConnectionObjects
    rw [if_neg hlen, if_neg hset', hg1]
    dsimp only
    rw [addWaterDestination_eq _ g1 r _ rd hr1 hn1 hrd1]
    rfl
  have h0 := externalDiameterHalfed_nonneg g _ rd hrd
  constructor
  · rintro ⟨g', hg'⟩ ⟨m, hm, hbox⟩
    have hc := firstClosestNode_contains_box g hvalid hdisj wco.waterDestination rd h0
      r.nodeP nd hnd hfirst m hm
      ((containsNode_destinationBox_iff m wco.waterDestination rd).mpr hbox)
    rw [hres, if_pos hc] at hg'
    exact absurd hg' (by simp)
  · intro hno
    have hc : ¬ nd.containsNode (destinationBox wco.waterDestination rd) = true := by
      intro hc
      exact hno ⟨nd, List.mem_iff_getElem?.mpr ⟨r.nodeP, hnd⟩,
        (containsNode_destinationBox_iff nd wco.waterDestination rd).mp hc⟩
    rw [hres, if_neg hc]
    exact ⟨_, rfl⟩

/-- Witness for C2: the example of the claim. In `squareGraph` the destination at
`(990, 500)` with external diameter 120 has `rd = 60`; the hypotheses hold, no node contains
the box `[930, 1050] x [440, 560]`, and `addWaterConnectionObjects` throws the
destination-clearance error. -/
theorem addWaterConnectionObjects_clearance_iff_witness :
    squareGraph.NodesValid ∧ squareGraph.NodesDisjoint ∧
      squareGraph.externalDiameterHalfed squareObjectsNearEdge.waterDestination.diameter
        = some 60 ∧
      (¬ ∃ n ∈ squareGraph.nodePs,
        n.left ≤ squareObjectsNearEdge.waterDestination.point.x - 60 ∧
          squareObjectsNearEdge.waterDestination.point.x + 60 ≤ n.right ∧
          n.bottom ≤ squareObjectsNearEdge.waterDestination.point.y - 60 ∧
          squareObjectsNearEdge.waterDestination.point.y + 60 ≤ n.top) ∧
      ∃ g', squareGraph.addWaterConnectionObjects squareObjectsNearEdge =
        .exception .destinationNotContained g' :=
  ⟨by decide!, by decide!, by decide!, by decide!,
    (addWaterConnectionObjects_clearance_iff squareGraph squareObjectsNearEdge 60
      (by decide!) (by decide!) (by decide!) (by decide!) (by decide!) (by decide!)
      (by decide!)).mpr (by decide!)⟩

/-! ## The order of the sources after `loadObjectsFromFile` -/

/-- C15: `loadObjectsFromFile` does not leave the sources ordered by non-increasing diameter.
The file with the sources `S1`, `S2`, `S3`, `S4` of the diameters 50, 50, 100, 100 is read
without an error, and the vector `waterSources` is then `S3`, `S1`, `S4`, `S2` with the
diameters 100, 50, 100, 50: the inner loop of the sort starts at `j = 1` instead of
`j = i + 1`, so the pass `i = 2` compares the position 2 with the position 1 before it and
moves the smaller diameter forward. -/
theorem loadObjectsFromFile_leaves_sources_unsorted :
    ∃ objects, WaterConnectionObjects.new.loadObjectsFromFile fourSourceLines = .ok objects ∧
      objects.waterSources.map WaterSource.name = ["S3", "S1", "S4", "S2"] ∧
      objects.waterSources.map WaterSource.diameter = [100, 50, 100, 50] ∧
      ¬ (objects.waterSources.map WaterSource.diameter).Sorted (· ≥ ·) := by
  refine ⟨_, rfl, ?_, ?_, ?_⟩ <;> decide


/-! ## The cost of a track -/

theorem calculateCostLoop_eq (sqrt : CalcNumber → CalcNumber) (nodes : List PipeTrackNode) :
    ∀ resultCost : CalcNumber, PipeTrack.calculateCostLoop sqrt nodes resultCost
      = (nodeCosts sqrt nodes).map (fun costs => resultCost + costs.sum) := by
  induction nodes with
  | nil => intro resultCost; simp [PipeTrack.calculateCostLoop, nodeCosts]
  | cons node rest ih =>
    intro resultCost
    unfold PipeTrack.calculateCostLoop nodeCosts
    cases hc : node.calculateCost sqrt with
    | none => simp
    | some cost =>
      dsimp only
      rw [ih]
      cases hr : nodeCosts sqrt rest with
      | none => simp
      | some costs => simp [add_assoc]

theorem calculateCostLoop_append (sqrt : CalcNumber → CalcNumber) (nodes : List PipeTrackNode)
    (node : PipeTrackNode) :
    ∀ resultCost : CalcNumber, PipeTrack.calculateCostLoop sqrt (nodes ++ [node]) resultCost
      = (PipeTrack.calculateCostLoop sqrt nodes resultCost).bind
          (fun cost => (node.calculateCost sqrt).map (fun nodeCost => cost + nodeCost)) := by
  induction nodes with
  | nil =>
    intro resultCost
    simp only [List.nil_append, PipeTrack.calculateCostLoop, Option.some_bind]
    cases node.calculateCost sqrt <;> simp
  | cons first rest ih =>
    intro resultCost
    simp only [List.cons_append, PipeTrack.calculateCostLoop]
    cases first.calculateCost sqrt with
    | none => simp
    | some cost => exact ih (resultCost + cost)

/-- C20: `PipeTrack::calculateCost` returns the sum of the costs of the nodes of the track,
for every square-root function: the empty track costs 0; a node with the pipe object `pipe`
costs `pipe.cost` times the Euclidean length of its segment when it is a direct or a fan
node and `pipe.cost` when it is a reduction, an angle, a tee or a cross; the cost of a track
is defined exactly when every node has a cost and is then the sum of the costs of its nodes;
and the node appended by `createNodeAndReturnP` increases the cost by the cost of that
node. -/
theorem calculateCost_is_sum_of_node_costs (sqrt : CalcNumber → CalcNumber) :
    PipeTrack.new.calculateCost sqrt = some 0 ∧
    (∀ (node : PipeTrackNode) (pipe : PipeObject), node.pipeObjectP = some pipe →
      node.calculateCost sqrt = some (nodeCost sqrt node pipe)) ∧
    (∀ track : PipeTrack,
      track.calculateCost sqrt = (nodeCosts sqrt track.nodePs).map List.sum) ∧
    (∀ (track : PipeTrack) (type : PipeObjectType) (pipeObjectP : Option PipeObject)
      (centerPoint startPoint endPoint baseDirection secondDirection thirdDirection : Point)
      (cost costOfNode : CalcNumber),
      track.calculateCost sqrt = some cost →
      (PipeTrackNode.new sqrt type pipeObjectP centerPoint startPoint endPoint baseDirection
        secondDirection thirdDirection).calculateCost sqrt = some costOfNode →
      (track.createNodeAndReturnP sqrt type pipeObjectP centerPoint startPoint endPoint
        baseDirection secondDirection thirdDirection).2.calculateCost sqrt
        = some (cost + costOfNode)) := by
  refine ⟨rfl, ?_, ?_, ?_⟩
  · intro node pipe hp
    unfold PipeTrackNode.calculateCost nodeCost
    rw [hp]
    cases node.type <;> simp [Point.length, Point.sub]
  · intro track
    unfold PipeTrack.calculateCost
    rw [calculateCostLoop_eq]
    cases nodeCosts sqrt track.nodePs <;> simp
  · intro track type pipeObjectP centerPoint startPoint endPoint baseDirection secondDirection
      thirdDirection cost costOfNode hcost hnode
    unfold PipeTrack.calculateCost at hcost ⊢
    unfold PipeTrack.createNodeAndReturnP
    dsimp only
    rw [calculateCostLoop_append, hcost, hnode]
    rfl


/-! ## The search for a cut in `separateWaterSources` -/

theorem mem_setInsert (value c : CalcNumber) (set : List CalcNumber) :
    c ∈ LocationGraph.setInsert value set ↔ c = value ∨ c ∈ set := by
  induction set with
  | nil => simp [LocationGraph.setInsert]
  | cons first rest ih =>
    unfold LocationGraph.setInsert
    by_cases h1 : value < first
    · rw [if_pos h1]; simp
    · rw [if_neg h1]
      by_cases h2 : first < value
      · rw [if_pos h2]
        simp only [List.mem_cons, ih]
        tauto
      · rw [if_neg h2]
        have e : value = first := le_antisymm (not_lt.mp h2) (not_lt.mp h1)
        subst e
        simp

theorem sorted_setInsert (value : CalcNumber) (set : List CalcNumber)
    (h : set.Sorted (· < ·)) : (LocationGraph.setInsert value set).Sorted (· < ·) := by
  induction set with
  | nil => simp [LocationGraph.setInsert]
  | cons first rest ih =>
    unfold LocationGraph.setInsert
    have hrest := List.Sorted.of_cons h
    have hfirst := List.rel_of_sorted_cons h
    by_cases h1 : value < first
    · rw [if_pos h1]
      refine List.sorted_cons.mpr ⟨?_, h⟩
      intro c hc
      rcases List.mem_cons.mp hc with e | hc
      · rw [e]; exact h1
      · exact lt_trans h1 (hfirst c hc)
    · rw [if_neg h1]
      by_cases h2 : first < value
      · rw [if_pos h2]
        refine List.sorted_cons.mpr ⟨?_, ih hrest⟩
        intro c hc
        rcases (mem_setInsert value c rest).mp hc with e | hc
        · rw [e]; exact h2
        · exact hfirst c hc
      · rw [if_neg h2]
        exact h

theorem foldl_setInsert (coordinates : List CalcNumber) :
    ∀ set : List CalcNumber, set.Sorted (· < ·) →
      (coordinates.foldl (fun set value => LocationGraph.setInsert value set) set).Sorted (· < ·)
      ∧ ∀ c, c ∈ coordinates.foldl (fun set value => LocationGraph.setInsert value set) set
          ↔ c ∈ coordinates ∨ c ∈ set := by
  induction coordinates with
  | nil => intro set h; simp [h]
  | cons value rest ih =>
    intro set h
    obtain ⟨h1, h2⟩ := ih (LocationGraph.setInsert value set) (sorted_setInsert value set h)
    refine ⟨h1, ?_⟩
    intro c
    simp only [List.foldl_cons, h2, mem_setInsert, List.mem_cons]
    tauto

/-- The array `xsArr` of `separateWaterSources` is strictly increasing and holds exactly the
coordinates of the connection points. -/
theorem sortedCoordinates_spec (coordinates : List CalcNumber) :
    (LocationGraph.sortedCoordinates coordinates).Sorted (· < ·)
      ∧ ∀ c, c ∈ LocationGraph.sortedCoordinates coordinates ↔ c ∈ coordinates := by
  obtain ⟨h1, h2⟩ := foldl_setInsert coordinates [] List.sorted_nil
  have h3 : (coordinates.foldl (fun set value => LocationGraph.setInsert value set) []).Sorted
      (· ≤ ·) := h1.imp (fun h => le_of_lt h)
  unfold LocationGraph.sortedCoordinates
  rw [List.Sorted.insertionSort_eq h3]
  refine ⟨h1, ?_⟩
  intro c
  rw [h2]
  simp


/-- Two numbers that are adjacent among the values of a strictly increasing list stand next
to each other in the list. -/
theorem adjacent_consecutive (l : List CalcNumber) (a b : CalcNumber) (hs : l.Sorted (· < ·))
    (h : AdjacentCoordinates l a b) : ∃ pre post, l = pre ++ a :: b :: post := by
  induction l with
  | nil => exact absurd h.1 (List.not_mem_nil a)
  | cons x rest ih =>
    obtain ⟨ha, hb, hab, hno⟩ := h
    have hx := List.rel_of_sorted_cons hs
    have hrest := List.Sorted.of_cons hs
    rcases List.mem_cons.mp ha with e | ha'
    · subst e
      rcases List.mem_cons.mp hb with e | hb'
      · exact absurd hab (by rw [e]; exact lt_irrefl _)
      · cases rest with
        | nil => exact absurd hb' (List.not_mem_nil b)
        | cons y rest2 =>
          have hay : a < y := hx y (List.mem_cons_self y rest2)
          have hyb : y ≤ b := by
            rcases List.mem_cons.mp hb' with e | hb2
            · exact le_of_eq e.symm
            · exact le_of_lt (List.rel_of_sorted_cons hrest b hb2)
          have e : y = b := by
            rcases lt_or_eq_of_le hyb with hlt | e
            · exact absurd ⟨hay, hlt⟩
                (hno y (List.mem_cons_of_mem a (List.mem_cons_self y rest2)))
            · exact e
          subst e
          exact ⟨[], rest2, rfl⟩
    · have hb' : b ∈ rest := by
        rcases List.mem_cons.mp hb with e | hb'
        · exact absurd (lt_trans (hx a ha') hab) (by rw [e]; exact lt_irrefl _)
        · exact hb'
      obtain ⟨pre, post, e⟩ := ih hrest
        ⟨ha', hb', hab, fun c hc => hno c (List.mem_cons_of_mem x hc)⟩
      exact ⟨x :: pre, post, by rw [e]; rfl⟩

/-- When the loop over the array ends with `needToSeparate == false`, every two neighbours
`a`, `b` of the array that are at least `minSourceDistanceToSeparate` apart have their
midpoint in the interval that the loop computes for the destination of the node. -/
theorem findSeparation_none (g : LocationGraph) (destination : Option (CalcNumber × Nat))
    (l : List CalcNumber) (h : LocationGraph.findSeparation g destination l = some none) :
    ∀ (pre post : List CalcNumber) (a b : CalcNumber), l = pre ++ a :: b :: post →
      b - a ≥ g.optimizationParametersP.minSourceDistanceToSeparate →
      ∃ c diameter r, destination = some (c, diameter) ∧
        g.externalDiameterHalfed diameter = some r ∧ c - r ≤ (a + b) / 2 ∧ (a + b) / 2 ≤ c + r := by
  induction l with
  | nil => intro pre post a b e; simp at e
  | cons x t ih =>
    cases t with
    | nil =>
      intro pre post a b e
      have := congrArg List.length e
      simp at this
      omega
    | cons y rest =>
      intro pre post a b e hgap
      rw [LocationGraph.findSeparation] at h
      cases pre with
      | nil =>
        simp only [List.nil_append, List.cons.injEq] at e
        obtain ⟨e1, e2, _⟩ := e
        subst e1 e2
        rw [if_pos hgap] at h
        cases hd : destination with
        | none => rw [hd] at h; simp at h
        | some cd =>
          obtain ⟨c, diameter⟩ := cd
          rw [hd] at h
          dsimp only at h
          cases hr : g.externalDiameterHalfed diameter with
          | none => rw [hr] at h; simp at h
          | some r =>
            rw [hr] at h
            dsimp only at h
            by_cases hout : (x + y) / 2 < c - r ∨ (x + y) / 2 > c + r
            · rw [if_pos hout] at h; simp at h
            · refine ⟨c, diameter, r, rfl, hr, ?_, ?_⟩
              · exact not_lt.mp (fun hlt => hout (Or.inl hlt))
              · exact not_lt.mp (fun hlt => hout (Or.inr hlt))
      | cons p pre' =>
        simp only [List.cons_append, List.cons.injEq] at e
        obtain ⟨_, e2⟩ := e
        have hrec : LocationGraph.findSeparation g destination (y :: rest) = some none := by
          by_cases hg : y - x ≥ g.optimizationParametersP.minSourceDistanceToSeparate
          · rw [if_pos hg] at h
            cases hd : destination with
            | none => rw [hd] at h; simp at h
            | some cd =>
              obtain ⟨c, diameter⟩ := cd
              rw [hd] at h
              dsimp only at h
              cases hr : g.externalDiameterHalfed diameter with
              | none => rw [hr] at h; simp at h
              | some r =>
                rw [hr] at h
                dsimp only at h
                by_cases hout : (x + y) / 2 < c - r ∨ (x + y) / 2 > c + r
                · rw [if_pos hout] at h; simp at h
                · rw [if_neg hout] at h; exact h
          · rw [if_neg hg] at h; exact h
        exact ih hrec pre' post a b e2 hgap


/-- The radius that the code computes, the quotient of the unsigned division of the external
diameter by 2, is at most the half of the external diameter. -/
theorem externalDiameterHalfed_le (g : LocationGraph) (diameter ext : Nat) (r : CalcNumber)
    (hext : g.pipeObjectsBagP.getExternalDiameter diameter = some ext)
    (hr : g.externalDiameterHalfed diameter = some r) : r ≤ (ext : CalcNumber) / 2 := by
  unfold LocationGraph.externalDiameterHalfed at hr
  rw [hext] at hr
  simp only [Option.map_some', Option.some.injEq] at hr
  rw [← hr]
  exact Nat.cast_div_le

theorem externalDiameterHalfed_some (g : LocationGraph) (diameter : Nat) (r : CalcNumber)
    (hr : g.externalDiameterHalfed diameter = some r) :
    ∃ ext, g.pipeObjectsBagP.getExternalDiameter diameter = some ext := by
  unfold LocationGraph.externalDiameterHalfed at hr
  cases hx : g.pipeObjectsBagP.getExternalDiameter diameter with
  | none => rw [hx] at hr; simp at hr
  | some ext => exact ⟨ext, rfl⟩

/-- A check of `separateWaterSources` that ends with `needToSeparate == false` means that
the node admits no feasible split across that axis. -/
theorem check_none_not_feasible (g : LocationGraph) (n : LocationGraphNode)
    (coordinate : Point → CalcNumber) (width : CalcNumber)
    (h : (if (LocationGraph.sortedCoordinates
          (n.waterSourcesConnectionPoints.map coordinate)).length > 1
          ∧ width ≤ g.optimizationParametersP.maxNodeWidthToSeparate then
        LocationGraph.findSeparation g
          (n.waterDestinationP.map (fun d => (coordinate d.point, d.diameter)))
          (LocationGraph.sortedCoordinates (n.waterSourcesConnectionPoints.map coordinate))
      else some none) = some none) :
    ¬ FeasibleSplit g n coordinate width := by
  rintro ⟨hw, a, b, hadj, hgap, hdest⟩
  obtain ⟨hsorted, hmem⟩ :=
    sortedCoordinates_spec (n.waterSourcesConnectionPoints.map coordinate)
  have hadj' : AdjacentCoordinates
      (LocationGraph.sortedCoordinates (n.waterSourcesConnectionPoints.map coordinate)) a b :=
    ⟨(hmem a).mpr hadj.1, (hmem b).mpr hadj.2.1, hadj.2.2.1,
      fun c hc => hadj.2.2.2 c ((hmem c).mp hc)⟩
  obtain ⟨pre, post, e⟩ := adjacent_consecutive _ a b hsorted hadj'
  have hlen : (LocationGraph.sortedCoordinates
      (n.waterSourcesConnectionPoints.map coordinate)).length > 1 := by
    rw [e]; simp; omega
  rw [if_pos ⟨hlen, hw⟩] at h
  obtain ⟨c, diameter, r, hd, hr, h1, h2⟩ := findSeparation_none g _ _ h pre post a b e hgap
  cases hnd : n.waterDestinationP with
  | none => rw [hnd] at hd; simp at hd
  | some d =>
    rw [hnd] at hd
    simp only [Option.map_some', Option.some.injEq, Prod.mk.injEq] at hd
    obtain ⟨hc, hdiam⟩ := hd
    rw [← hdiam] at hr
    obtain ⟨ext, hext⟩ := externalDiameterHalfed_some g d.diameter r hr
    have hle := externalDiameterHalfed_le g d.diameter ext r hext hr
    rcases hdest d ext hnd hext with hlt | hgt
    · rw [hc] at hlt; linarith
    · rw [hc] at hgt; linarith

/-- A node for which the body of the loop of `separateWaterSources` finds no cut admits no
feasible split when it holds two or more sources. -/
theorem nodeSeparation_none (g : LocationGraph) (n : LocationGraphNode)
    (h : LocationGraph.nodeSeparation g n = some none) (h2 : 2 ≤ n.waterSourcesPs.length) :
    ¬ FeasibleSplit g n Point.x n.sizeY ∧ ¬ FeasibleSplit g n Point.y n.sizeX := by
  unfold LocationGraph.nodeSeparation at h
  rw [if_pos (by omega)] at h
  cases hx : LocationGraph.findSeparationX g n with
  | none => rw [hx] at h; simp at h
  | some sx =>
    rw [hx] at h
    cases sx with
    | some s => simp at h
    | none =>
      dsimp only at h
      cases hy : LocationGraph.findSeparationY g n with
      | none => rw [hy] at h; simp at h
      | some sy =>
        rw [hy] at h
        cases sy with
        | some s => simp at h
        | none =>
          exact ⟨check_none_not_feasible g n Point.x n.sizeY hx,
            check_none_not_feasible g n Point.y n.sizeX hy⟩

theorem findNodeToSeparate_none (g : LocationGraph) (nodes : List LocationGraphNode) :
    ∀ nodeP : Nat, LocationGraph.findNodeToSeparate g nodes nodeP = some none →
      ∀ n ∈ nodes, LocationGraph.nodeSeparation g n = some none := by
  induction nodes with
  | nil => intro nodeP _ n hn; exact absurd hn (List.not_mem_nil n)
  | cons node rest ih =>
    intro nodeP h n hn
    unfold LocationGraph.findNodeToSeparate at h
    cases hs : LocationGraph.nodeSeparation g node with
    | none => rw [hs] at h; simp at h
    | some s =>
      rw [hs] at h
      cases s with
      | some sep => simp at h
      | none =>
        dsimp only at h
        rcases List.mem_cons.mp hn with e | hn'
        · rw [e]; exact hs
        · exact ih (nodeP + 1) h n hn'

/-- The graph with which the loop of `separateWaterSources` ends has no node to cut. -/
theorem separateWaterSourcesLoop_ok (fuel : Nat) :
    ∀ (g g' : LocationGraph) (u : Unit),
      LocationGraph.separateWaterSourcesLoop fuel g = some (.ok u g') →
      LocationGraph.findNodeToSeparate g' g'.nodePs 0 = some none := by
  induction fuel with
  | zero => intro g g' u h; simp [LocationGraph.separateWaterSourcesLoop] at h
  | succ fuel ih =>
    intro g g' u h
    unfold LocationGraph.separateWaterSourcesLoop at h
    cases hf : LocationGraph.findNodeToSeparate g g.nodePs 0 with
    | none => rw [hf] at h; simp at h
    | some found =>
      rw [hf] at h
      cases found with
      | none =>
        simp only [Option.some.injEq, Outcome.ok.injEq] at h
        rw [← h.2]; exact hf
      | some ps =>
        obtain ⟨nodeP, separation⟩ := ps
        dsimp only at h
        cases hsep : g.separateNode nodeP separation with
        | none => rw [hsep] at h; simp at h
        | some g1 => rw [hsep] at h; exact ih g1 g' u h

/-- The outcome of `separateWaterSources` in terms of the outcome of its loop. -/
theorem separateWaterSources_ok (fuel : Nat) (g g' : LocationGraph) (u : Unit)
    (h : g.separateWaterSources fuel = some (.ok u g')) :
    ∃ g1 u1, LocationGraph.separateWaterSourcesLoop fuel g = some (.ok u1 g1) ∧
      g' = g1.recalculateWaterDestinationNodeP := by
  unfold LocationGraph.separateWaterSources at h
  cases hl : LocationGraph.separateWaterSourcesLoop fuel g with
  | none => rw [hl] at h; simp at h
  | some o =>
    rw [hl] at h
    cases o with
    | ok u1 g1 =>
      simp only [Option.some.injEq, Outcome.ok.injEq] at h
      exact ⟨g1, u1, rfl, h.2.symm⟩
    | exception e g1 => simp at h
    | undefined => simp at h


theorem findSeparation_congr (g1 g2 : LocationGraph)
    (hb : g1.pipeObjectsBagP = g2.pipeObjectsBagP)
    (hp : g1.optimizationParametersP = g2.optimizationParametersP)
    (destination : Option (CalcNumber × Nat)) (l : List CalcNumber) :
    LocationGraph.findSeparation g1 destination l
      = LocationGraph.findSeparation g2 destination l := by
  induction l with
  | nil => rfl
  | cons x t ih =>
    cases t with
    | nil => rfl
    | cons y rest =>
      rw [LocationGraph.findSeparation, LocationGraph.findSeparation, ih, hp]
      unfold LocationGraph.externalDiameterHalfed
      rw [hb]

theorem nodeSeparation_congr (g1 g2 : LocationGraph)
    (hb : g1.pipeObjectsBagP = g2.pipeObjectsBagP)
    (hp : g1.optimizationParametersP = g2.optimizationParametersP) (n : LocationGraphNode) :
    LocationGraph.nodeSeparation g1 n = LocationGraph.nodeSeparation g2 n := by
  unfold LocationGraph.nodeSeparation LocationGraph.findSeparationX
    LocationGraph.findSeparationY
  simp only [findSeparation_congr g1 g2 hb hp, hp]

theorem findNodeToSeparate_congr (g1 g2 : LocationGraph)
    (hb : g1.pipeObjectsBagP = g2.pipeObjectsBagP)
    (hp : g1.optimizationParametersP = g2.optimizationParametersP)
    (nodes : List LocationGraphNode) :
    ∀ nodeP : Nat, LocationGraph.findNodeToSeparate g1 nodes nodeP
      = LocationGraph.findNodeToSeparate g2 nodes nodeP := by
  induction nodes with
  | nil => intro nodeP; rfl
  | cons node rest ih =>
    intro nodeP
    unfold LocationGraph.findNodeToSeparate
    rw [nodeSeparation_congr g1 g2 hb hp, ih]

theorem recalculateLoop_idempotent (nodes : List LocationGraphNode) :
    ∀ (nodeP : Nat) (result : Option Nat),
      LocationGraph.recalculateLoop nodes nodeP (LocationGraph.recalculateLoop nodes nodeP result)
        = LocationGraph.recalculateLoop nodes nodeP result := by
  induction nodes with
  | nil => intro nodeP result; rfl
  | cons node rest ih =>
    intro nodeP result
    simp only [LocationGraph.recalculateLoop]
    by_cases hn : node.waterDestinationP ≠ none
    · simp only [if_pos hn]
    · simp only [if_neg hn]
      exact ih (nodeP + 1) result

theorem recalculate_idempotent (g : LocationGraph) :
    g.recalculateWaterDestinationNodeP.recalculateWaterDestinationNodeP
      = g.recalculateWaterDestinationNodeP := by
  unfold LocationGraph.recalculateWaterDestinationNodeP
  simp only [recalculateLoop_idempotent]

/-- C11: when `separateWaterSources` returns, no node that holds two or more sources admits a
feasible split: for no such node is the extent along the cut at most
`maxNodeWidthToSeparate` while two adjacent values of the sorted distinct coordinates of its
entry points are at least `minSourceDistanceToSeparate` apart with their midpoint outside
the closed footprint of the destination attached to the node, neither for `x` with `sizeY`
nor for `y` with `sizeX`. The node `[0, 300] x [0, 1000]` with the sources at `(150, 200)`
and `(150, 800)` ends as the two nodes `[0, 300] x [0, 500]` and `[0, 300] x [500, 1000]`
with one source each when `maxNodeWidthToSeparate = 300`, and stays one node when it is
100. -/
theorem separateWaterSources_leaves_no_feasible_split :
    (∀ (fuel : Nat) (g g' : LocationGraph),
      g.separateWaterSources fuel = some (.ok () g') → g'.NoFeasibleSplit) ∧
    attachAndSeparate 2 (sharedNodeGraph 300) sharedNodeObjects
      = some (.ok () sharedNodeGraphSplit) ∧
    attachAndSeparate 2 (sharedNodeGraph 100) sharedNodeObjects
      = some (.ok () (sharedNodeGraphAttached 100)) := by
  refine ⟨?_, by decide!, by decide!⟩
  intro fuel g g' h
  obtain ⟨g1, u1, hl, e⟩ := separateWaterSources_ok fuel g g' () h
  have hnone := separateWaterSourcesLoop_ok fuel g g1 u1 hl
  intro n hn h2
  have hn1 : n ∈ g1.nodePs := by rw [e] at hn; exact hn
  have hs := findNodeToSeparate_none g1 g1.nodePs 0 hnone n hn1
  have := nodeSeparation_none g1 n hs h2
  rw [e]
  exact this

/-- C12: `separateWaterSources` is idempotent. A second run, with any positive number of
passes allowed, on the graph that a first run returned returns the same graph: the nodes
with their bounds, adjacency lists, sources and entry points, the id index, the id counter
and the destination node are unchanged. -/
theorem separateWaterSources_idempotent (fuel fuel' : Nat) (g g' : LocationGraph)
    (h : g.separateWaterSources fuel = some (.ok () g')) :
    g'.separateWaterSources (fuel' + 1) = some (.ok () g') := by
  obtain ⟨g1, u1, hl, e⟩ := separateWaterSources_ok fuel g g' () h
  have hnone := separateWaterSourcesLoop_ok fuel g g1 u1 hl
  have h1 : LocationGraph.findNodeToSeparate g' g'.nodePs 0 = some none := by
    rw [e, findNodeToSeparate_congr g1.recalculateWaterDestinationNodeP g1 rfl rfl]
    exact hnone
  unfold LocationGraph.separateWaterSources LocationGraph.separateWaterSourcesLoop
  rw [h1]
  dsimp only
  rw [e, recalculate_idempotent]

/-- Witness for C12: the run on `sharedNodeGraphAttached 300` cuts the node along `y = 500`,
and a second run leaves the graph `sharedNodeGraphSplit` as it is. -/
theorem separateWaterSources_idempotent_witness :
    (sharedNodeGraphAttached 300).separateWaterSources 2 = some (.ok () sharedNodeGraphSplit) ∧
      sharedNodeGraphSplit.separateWaterSources 1 = some (.ok () sharedNodeGraphSplit) :=
  ⟨by decide!, separateWaterSources_idempotent 2 0 (sharedNodeGraphAttached 300)
    sharedNodeGraphSplit (by decide!)⟩


/-! ## Adjacency and bounds after `separateWaterSources` -/

/-- C13: `separateWaterSources` does not preserve the symmetry of adjacency. The graph
`straddleGraphAttached` is what `connectAllNodes` and `addWaterConnectionObjects` build from
the nodes `A = [0, 300] x [0, 100]` and `B = [0, 300] x [-100, 0]`; its adjacency is
symmetric. `separateWaterSources` cuts `A` along `x = 150` and returns
`straddleGraphSplit`, in which `B` is in the bottom list of the left half of `A` while the
left half is not in the top list of `B`: `separateNodeX` overwrote the pointer to `A` in
the top list of `B` by the pointer to the new node, and kept `B` in the bottom list of
`A`. -/
theorem separateWaterSources_breaks_adjacency_symmetry :
    (∃ g, (addNodes emptyGraph [(0, 300, 0, 100), (0, 300, -100, 0)]).connectAllNodes
        = .ok () g ∧ g.addWaterConnectionObjects straddleObjects
        = .ok () straddleGraphAttached) ∧
    straddleGraphAttached.AdjacencySymmetric ∧
    straddleGraphAttached.separateWaterSources 2 = some (.ok () straddleGraphSplit) ∧
    ¬ straddleGraphSplit.AdjacencySymmetric ∧
    (∃ nA nB, straddleGraphSplit.nodePs[0]? = some nA ∧ straddleGraphSplit.nodePs[1]? = some nB
      ∧ 1 ∈ nA.bottomNodesPs ∧ 0 ∉ nB.topNodesPs) := by
  refine ⟨⟨_, rfl, by decide!⟩, ?_, by decide!, ?_, ⟨_, _, rfl, rfl, by decide, by decide⟩⟩
  · intro A B nA nB hA hB
    rcases A with _ | _ | A
    · rcases B with _ | _ | B
      · simp [straddleGraphAttached] at hA hB; subst hA hB; simp [LocationGraphNode.new]
      · simp [straddleGraphAttached] at hA hB; subst hA hB; simp [LocationGraphNode.new]
      · simp [straddleGraphAttached] at hB
    · rcases B with _ | _ | B
      · simp [straddleGraphAttached] at hA hB; subst hA hB; simp [LocationGraphNode.new]
      · simp [straddleGraphAttached] at hA hB; subst hA hB; simp [LocationGraphNode.new]
      · simp [straddleGraphAttached] at hB
    · simp [straddleGraphAttached] at hA
  · intro h
    have := (h 1 0 _ _ (by rfl) (by rfl)).2
    revert this
    decide

/-- C14, counterexample: after `addWaterConnectionObjects` and `separateWaterSources` on the
graph `thinGraph`, built by `addNodeAndReturnId`, the node created by the cut has
`left = 105 > right = 10`. The source to the left of the thin node enters it at
`0 + 205 = 205`, outside the node, and the cut is made in the middle between the entry
points 5 and 205. -/
theorem separateWaterSources_creates_invalid_node :
    attachAndSeparate 2 thinGraph thinObjects = some (.ok () thinGraphSplit) ∧
    ¬ thinGraphSplit.NodesValid ∧
    (∃ n, thinGraphSplit.nodePs[2]? = some n ∧ n.left = 105 ∧ n.right = 10) := by
  refine ⟨by decide!, by decide!, ⟨_, rfl, rfl, rfl⟩⟩


/-! ## The bounds and the sources of the nodes during a cut -/

theorem core_setNodesPs (n : LocationGraphNode) (side : Side) (nodesPs : List Nat) :
    (n.setNodesPs side nodesPs).core = n.core := by
  cases side <;> rfl

theorem map_core_set_same (nodes : List LocationGraphNode) (p : Nat) (a b : LocationGraphNode)
    (ha : nodes[p]? = some a) (hb : b.core = a.core) :
    (nodes.set p b).map LocationGraphNode.core = nodes.map LocationGraphNode.core := by
  apply List.ext_getElem?
  intro i
  simp only [List.getElem?_map, List.getElem?_set]
  by_cases hi : p = i
  · subst hi
    rw [if_pos rfl, ha]
    obtain ⟨hlt, _⟩ := List.getElem?_eq_some_iff.mp ha
    simp [hlt, hb]
  · rw [if_neg hi]

theorem redirect_core (side : Side) (nodeP newNodeP neighbourP : Nat) (g g1 : LocationGraph)
    (h : LocationGraph.redirect side nodeP newNodeP neighbourP g = some g1) :
    g1.nodePs.map LocationGraphNode.core = g.nodePs.map LocationGraphNode.core := by
  unfold LocationGraph.redirect at h
  cases hn : g.nodePs[neighbourP]? with
  | none => rw [hn] at h; simp at h
  | some neighbour =>
    rw [hn] at h
    dsimp only at h
    cases hr : LocationGraph.replaceFirst nodeP newNodeP (neighbour.nodesPs side) with
    | none => rw [hr] at h; simp at h
    | some nodesPs =>
      rw [hr] at h
      simp only [Option.some.injEq] at h
      rw [← h]
      exact map_core_set_same g.nodePs neighbourP neighbour _ hn (core_setNodesPs _ _ _)

theorem redirectAll_core (side : Side) (nodeP newNodeP : Nat) (neighbours : List Nat) :
    ∀ (g g1 : LocationGraph),
      LocationGraph.redirectAll side nodeP newNodeP neighbours g = some g1 →
      g1.nodePs.map LocationGraphNode.core = g.nodePs.map LocationGraphNode.core := by
  induction neighbours with
  | nil =>
    intro g g1 h
    simp only [LocationGraph.redirectAll, Option.some.injEq] at h
    rw [h]
  | cons neighbourP rest ih =>
    intro g g1 h
    unfold LocationGraph.redirectAll at h
    cases hr : LocationGraph.redirect side nodeP newNodeP neighbourP g with
    | none => rw [hr] at h; simp at h
    | some g2 =>
      rw [hr] at h
      rw [ih g2 g1 h, redirect_core side nodeP newNodeP neighbourP g g2 hr]

theorem moveNeighbours_core (listSide oppositeSide : Side) (beyond : LocationGraphNode → Bool)
    (nodeP newNodeP : Nat) (neighbours : List Nat) :
    ∀ (g g1 : LocationGraph),
      LocationGraph.moveNeighbours listSide oppositeSide beyond nodeP newNodeP neighbours g
        = some g1 →
      g1.nodePs.map LocationGraphNode.core = g.nodePs.map LocationGraphNode.core := by
  induction neighbours with
  | nil =>
    intro g g1 h
    simp only [LocationGraph.moveNeighbours, Option.some.injEq] at h
    rw [h]
  | cons neighbourP rest ih =>
    intro g g1 h
    unfold LocationGraph.moveNeighbours at h
    cases hn : g.nodePs[neighbourP]? with
    | none => rw [hn] at h; simp at h
    | some neighbour =>
      cases hnew : g.nodePs[newNodeP]? with
      | none => rw [hn, hnew] at h; simp at h
      | some newNode =>
        rw [hn, hnew] at h
        dsimp only at h
        by_cases hb : beyond neighbour = true
        · rw [if_pos hb] at h
          cases hr : LocationGraph.redirect oppositeSide nodeP newNodeP neighbourP
              (g.setNode newNodeP
                (newNode.setNodesPs listSide (newNode.nodesPs listSide ++ [neighbourP]))) with
          | none => rw [hr] at h; simp at h
          | some g2 =>
            rw [hr] at h
            rw [ih g2 g1 h, redirect_core _ _ _ _ _ g2 hr]
            exact map_core_set_same g.nodePs newNodeP newNode _ hnew (core_setNodesPs _ _ _)
        · rw [if_neg hb] at h
          exact ih g g1 h


theorem keptSources_spec (beyond : Point → Bool) :
    ∀ (sourcesPs : List Nat) (points : List Point) (kept : List Nat × List Point),
      LocationGraph.keptSources beyond sourcesPs points = some kept →
      points.length = sourcesPs.length →
      kept.2.length = kept.1.length ∧ ∀ pt ∈ kept.2, pt ∈ points ∧ beyond pt = false := by
  intro sourcesPs
  induction sourcesPs with
  | nil =>
    intro points kept h hlen
    have hp : points = [] := List.length_eq_zero.mp hlen
    subst hp
    simp only [LocationGraph.keptSources, Option.some.injEq] at h
    subst h
    simp
  | cons sourceP rest ih =>
    intro points kept h hlen
    cases points with
    | nil => simp at hlen
    | cons point points' =>
      simp only [LocationGraph.keptSources] at h
      cases hr : LocationGraph.keptSources beyond rest points' with
      | none => rw [hr] at h; simp at h
      | some kept' =>
        rw [hr] at h
        obtain ⟨h1, h2⟩ := ih points' kept' hr (by simpa using hlen)
        simp only [Option.some.injEq] at h
        by_cases hb : beyond point = true
        · rw [if_pos hb] at h
          subst h
          exact ⟨h1, fun pt hpt => ⟨List.mem_cons_of_mem _ (h2 pt hpt).1, (h2 pt hpt).2⟩⟩
        · rw [if_neg hb] at h
          subst h
          refine ⟨by simp [h1], ?_⟩
          intro pt hpt
          rcases List.mem_cons.mp hpt with e | hpt'
          · subst e
            exact ⟨List.mem_cons_self _ _, by simpa using hb⟩
          · exact ⟨List.mem_cons_of_mem _ (h2 pt hpt').1, (h2 pt hpt').2⟩

theorem movedSources_spec (beyond : Point → Bool) :
    ∀ (sourcesPs : List Nat) (points : List Point) (moved : List Nat × List Point),
      LocationGraph.movedSources beyond sourcesPs points = some moved →
      moved.2.length = moved.1.length ∧ ∀ pt ∈ moved.2, pt ∈ points ∧ beyond pt = true := by
  intro sourcesPs
  induction sourcesPs with
  | nil =>
    intro points moved h
    simp only [LocationGraph.movedSources, Option.some.injEq] at h
    subst h
    simp
  | cons sourceP rest ih =>
    intro points moved h
    cases points with
    | nil => simp [LocationGraph.movedSources] at h
    | cons point points' =>
      simp only [LocationGraph.movedSources] at h
      cases hr : LocationGraph.movedSources beyond rest points' with
      | none => rw [hr] at h; simp at h
      | some moved' =>
        rw [hr] at h
        obtain ⟨h1, h2⟩ := ih points' moved' hr
        simp only [Option.some.injEq] at h
        by_cases hb : beyond point = true
        · rw [if_pos hb] at h
          subst h
          refine ⟨by simp [h1], ?_⟩
          intro pt hpt
          rcases List.mem_cons.mp hpt with e | hpt'
          · subst e
            exact ⟨List.mem_cons_self _ _, hb⟩
          · exact ⟨List.mem_cons_of_mem _ (h2 pt hpt').1, (h2 pt hpt').2⟩
        · rw [if_neg hb] at h
          subst h
          exact ⟨h1, fun pt hpt => ⟨List.mem_cons_of_mem _ (h2 pt hpt).1, (h2 pt hpt).2⟩⟩

theorem copyObjects_core (beyond : Point → Bool) (nodeP newNodeP : Nat) (g g1 : LocationGraph)
    (h : LocationGraph.copyObjects beyond nodeP newNodeP g = some g1) :
    ∃ node newNode moved, g.nodePs[nodeP]? = some node ∧ g.nodePs[newNodeP]? = some newNode ∧
      LocationGraph.movedSources beyond node.waterSourcesPs node.waterSourcesConnectionPoints
        = some moved ∧
      g1.nodePs.map LocationGraphNode.core = (g.nodePs.map LocationGraphNode.core).set newNodeP
        (rectangleWith newNode.left newNode.right newNode.bottom newNode.top
          (newNode.waterSourcesPs ++ moved.1, newNode.waterSourcesConnectionPoints ++ moved.2)) := by
  unfold LocationGraph.copyObjects at h
  cases hn : g.nodePs[nodeP]? with
  | none => rw [hn] at h; simp at h
  | some node =>
    cases hnew : g.nodePs[newNodeP]? with
    | none => rw [hn, hnew] at h; simp at h
    | some newNode =>
      rw [hn, hnew] at h
      dsimp only at h
      cases hm : LocationGraph.movedSources beyond node.waterSourcesPs
          node.waterSourcesConnectionPoints with
      | none => rw [hm] at h; simp at h
      | some moved =>
        rw [hm] at h
        obtain ⟨movedPs, movedPoints⟩ := moved
        simp only [Option.some.injEq] at h
        refine ⟨node, newNode, (movedPs, movedPoints), rfl, rfl, hm, ?_⟩
        rw [← h]
        simp only [LocationGraph.setNode, List.map_set]
        rfl

theorem separateNodeXShrink_core (separationX : CalcNumber) (nodeP newNodeP : Nat)
    (g g1 : LocationGraph)
    (h : LocationGraph.separateNodeXShrink separationX nodeP newNodeP g = some g1) :
    ∃ node kept, g.nodePs[nodeP]? = some node ∧
      LocationGraph.keptSources (fun point => decide (point.x > separationX))
        node.waterSourcesPs node.waterSourcesConnectionPoints = some kept ∧
      g1.nodePs.map LocationGraphNode.core = (g.nodePs.map LocationGraphNode.core).set nodeP
        (rectangleWith node.left separationX node.bottom node.top kept) := by
  unfold LocationGraph.separateNodeXShrink at h
  cases hn : g.nodePs[nodeP]? with
  | none => rw [hn] at h; simp at h
  | some node =>
    rw [hn] at h
    dsimp only at h
    cases hk : LocationGraph.keptSources (fun point => decide (point.x > separationX))
        node.waterSourcesPs node.waterSourcesConnectionPoints with
    | none =>
      rw [hk] at h
      split at h <;> simp_all
    | some kept =>
      rw [hk] at h
      obtain ⟨keptPs, keptPoints⟩ := kept
      split at h
      · rename_i b t sp pts hb ht hs
        simp only [Option.some.injEq, Prod.mk.injEq] at hs
        obtain ⟨e1, e2⟩ := hs
        subst e1 e2
        simp only [Option.some.injEq] at h
        refine ⟨node, (keptPs, keptPoints), rfl, hk, ?_⟩
        rw [← h]
        simp only [LocationGraph.setNode, List.map_set]
        rfl
      · simp at h

theorem separateNodeYShrink_core (separationY : CalcNumber) (nodeP newNodeP : Nat)
    (g g1 : LocationGraph)
    (h : LocationGraph.separateNodeYShrink separationY nodeP newNodeP g = some g1) :
    ∃ node kept, g.nodePs[nodeP]? = some node ∧
      LocationGraph.keptSources (fun point => decide (point.y > separationY))
        node.waterSourcesPs node.waterSourcesConnectionPoints = some kept ∧
      g1.nodePs.map LocationGraphNode.core = (g.nodePs.map LocationGraphNode.core).set nodeP
        (rectangleWith node.left node.right node.bottom separationY kept) := by
  unfold LocationGraph.separateNodeYShrink at h
  cases hn : g.nodePs[nodeP]? with
  | none => rw [hn] at h; simp at h
  | some node =>
    rw [hn] at h
    dsimp only at h
    cases hk : LocationGraph.keptSources (fun point => decide (point.y > separationY))
        node.waterSourcesPs node.waterSourcesConnectionPoints with
    | none =>
      rw [hk] at h
      split at h <;> simp_all
    | some kept =>
      rw [hk] at h
      obtain ⟨keptPs, keptPoints⟩ := kept
      split at h
      · rename_i b t sp pts hb ht hs
        simp only [Option.some.injEq, Prod.mk.injEq] at hs
        obtain ⟨e1, e2⟩ := hs
        subst e1 e2
        simp only [Option.some.injEq] at h
        refine ⟨node, (keptPs, keptPoints), rfl, hk, ?_⟩
        rw [← h]
        simp only [LocationGraph.setNode, List.map_set]
        rfl
      · simp at h


theorem separateNodeXCreate_core (separationX : CalcNumber) (nodeP : Nat) (g g1 : LocationGraph)
    (h : LocationGraph.separateNodeXCreate separationX nodeP g = some g1) :
    ∃ n, g.nodePs[nodeP]? = some n ∧
      g1.nodePs.map LocationGraphNode.core = g.nodePs.map LocationGraphNode.core
        ++ [rectangleWith separationX n.right n.bottom n.top ([], [])] := by
  simp only [LocationGraph.separateNodeXCreate, LocationGraph.generateNewNodeId] at h
  cases hn : g.nodePs[nodeP]? with
  | none => rw [hn] at h; simp at h
  | some n =>
    rw [hn] at h
    simp only [Option.some.injEq] at h
    refine ⟨n, rfl, ?_⟩
    rw [← h]
    simp only [List.map_append, List.map_cons, List.map_nil]
    rfl

theorem separateNodeYCreate_core (separationY : CalcNumber) (nodeP : Nat) (g g1 : LocationGraph)
    (h : LocationGraph.separateNodeYCreate separationY nodeP g = some g1) :
    ∃ n, g.nodePs[nodeP]? = some n ∧
      g1.nodePs.map LocationGraphNode.core = g.nodePs.map LocationGraphNode.core
        ++ [rectangleWith n.left n.right separationY n.top ([], [])] := by
  simp only [LocationGraph.separateNodeYCreate, LocationGraph.generateNewNodeId] at h
  cases hn : g.nodePs[nodeP]? with
  | none => rw [hn] at h; simp at h
  | some n =>
    rw [hn] at h
    simp only [Option.some.injEq] at h
    refine ⟨n, rfl, ?_⟩
    rw [← h]
    simp only [List.map_append, List.map_cons, List.map_nil]
    rfl

theorem separateNodeYLink_core (nodeP newNodeP : Nat) (g g1 : LocationGraph)
    (h : LocationGraph.separateNodeYLink nodeP newNodeP g = some g1) :
    g1.nodePs.map LocationGraphNode.core = g.nodePs.map LocationGraphNode.core := by
  unfold LocationGraph.separateNodeYLink at h
  cases hn : g.nodePs[nodeP]? with
  | none => rw [hn] at h; simp at h
  | some node =>
    cases hnew : g.nodePs[newNodeP]? with
    | none => rw [hn, hnew] at h; simp at h
    | some newNode =>
      rw [hn, hnew] at h
      simp only [Option.some.injEq] at h
      rw [← h]
      exact map_core_set_same g.nodePs newNodeP newNode _ hnew rfl

theorem getElem?_map_core (nodes : List LocationGraphNode) (p : Nat) (a : LocationGraphNode)
    (h : nodes[p]? = some a) : (nodes.map LocationGraphNode.core)[p]? = some a.core := by
  simp [h]

/-- The cores of the nodes after the statements of a cut that follow the creation of the new
node: the new node has received the sources beyond the cut and the cut node has kept the
others. `cut` is the rectangle that remains of the cut node, `created` the rectangle of the
new node. -/
theorem cut_cores (g g4 g5 g6 : LocationGraph) (nodeP : Nat) (n : LocationGraphNode)
    (beyond : Point → Bool)
    (cutRectangle : LocationGraphNode → List Nat × List Point → LocationGraphNode)
    (newLeft newRight newBottom newTop : CalcNumber)
    (hcut : ∀ a b : LocationGraphNode, a.core = b.core → cutRectangle a = cutRectangle b)
    (hn : g.nodePs[nodeP]? = some n)
    (h4 : g4.nodePs.map LocationGraphNode.core = g.nodePs.map LocationGraphNode.core
      ++ [rectangleWith newLeft newRight newBottom newTop ([], [])])
    (h5 : LocationGraph.copyObjects beyond nodeP g.nodePs.length g4 = some g5)
    (h6 : ∃ node kept, g5.nodePs[nodeP]? = some node ∧
      LocationGraph.keptSources beyond node.waterSourcesPs node.waterSourcesConnectionPoints
        = some kept ∧
      g6.nodePs.map LocationGraphNode.core = (g5.nodePs.map LocationGraphNode.core).set nodeP
        (cutRectangle node kept)) :
    ∃ kept moved,
      LocationGraph.keptSources beyond n.waterSourcesPs n.waterSourcesConnectionPoints
        = some kept ∧
      LocationGraph.movedSources beyond n.waterSourcesPs n.waterSourcesConnectionPoints
        = some moved ∧
      g6.nodePs.map LocationGraphNode.core
        = (g.nodePs.map LocationGraphNode.core).set nodeP (cutRectangle n kept)
          ++ [rectangleWith newLeft newRight newBottom newTop moved] := by
  obtain ⟨hlt, _⟩ := List.getElem?_eq_some_iff.mp hn
  have hlen : (g.nodePs.map LocationGraphNode.core).length = g.nodePs.length := by simp
  obtain ⟨node4, newNode4, moved, hn4, hnew4, hmoved, hM5⟩ :=
    copyObjects_core beyond nodeP g.nodePs.length g4 g5 h5
  have c4 : node4.core = n.core := by
    have e1 := getElem?_map_core _ _ _ hn4
    rw [h4, List.getElem?_append_left (by rw [hlen]; exact hlt), getElem?_map_core _ _ _ hn] at e1
    exact (Option.some.inj e1).symm
  have cnew : newNode4.core = rectangleWith newLeft newRight newBottom newTop ([], []) := by
    have e1 := getElem?_map_core _ _ _ hnew4
    rw [h4, List.getElem?_append_right (by rw [hlen]), hlen] at e1
    simp only [Nat.sub_self, List.getElem?_cons_zero, Option.some.injEq] at e1
    exact e1.symm
  obtain ⟨node5, kept, hn5, hkept, hM6⟩ := h6
  have c5 : node5.core = n.core := by
    have e1 := getElem?_map_core _ _ _ hn5
    rw [hM5, List.getElem?_set, if_neg (by omega), h4,
      List.getElem?_append_left (by rw [hlen]; exact hlt), getElem?_map_core _ _ _ hn] at e1
    exact (Option.some.inj e1).symm
  have s4 : node4.waterSourcesPs = n.waterSourcesPs :=
    (congrArg LocationGraphNode.waterSourcesPs c4 :
      node4.core.waterSourcesPs = n.core.waterSourcesPs)
  have p4 : node4.waterSourcesConnectionPoints = n.waterSourcesConnectionPoints :=
    (congrArg LocationGraphNode.waterSourcesConnectionPoints c4 :
      node4.core.waterSourcesConnectionPoints = n.core.waterSourcesConnectionPoints)
  have s5 : node5.waterSourcesPs = n.waterSourcesPs :=
    (congrArg LocationGraphNode.waterSourcesPs c5 :
      node5.core.waterSourcesPs = n.core.waterSourcesPs)
  have p5 : node5.waterSourcesConnectionPoints = n.waterSourcesConnectionPoints :=
    (congrArg LocationGraphNode.waterSourcesConnectionPoints c5 :
      node5.core.waterSourcesConnectionPoints = n.core.waterSourcesConnectionPoints)
  rw [s4, p4] at hmoved
  rw [s5, p5] at hkept
  refine ⟨kept, moved, hkept, hmoved, ?_⟩
  have b1 : newNode4.left = newLeft := congrArg LocationGraphNode.left cnew
  have b2 : newNode4.right = newRight := congrArg LocationGraphNode.right cnew
  have b3 : newNode4.bottom = newBottom := congrArg LocationGraphNode.bottom cnew
  have b4 : newNode4.top = newTop := congrArg LocationGraphNode.top cnew
  have b5 : newNode4.waterSourcesPs = [] := congrArg LocationGraphNode.waterSourcesPs cnew
  have b6 : newNode4.waterSourcesConnectionPoints = [] :=
    congrArg LocationGraphNode.waterSourcesConnectionPoints cnew
  rw [hM6, hM5, h4, b1, b2, b3, b4, b5, b6, hcut node5 n c5]
  rw [List.set_append_right _ _ (by rw [hlen]), hlen]
  simp only [Nat.sub_self, List.nil_append, List.set_cons_zero, Prod.mk.eta]
  rw [List.set_append_left _ _ (by rw [hlen]; exact hlt)]


/-- The bounds, sources and entry points of the nodes after `separateNodeX`: the node at
`nodeP` keeps its left part with the sources not beyond the cut, the new node, appended to
the list, is the right part with the sources beyond the cut, and the other nodes keep their
bounds, sources and entry points. -/
theorem separateNodeX_core (g g' : LocationGraph) (nodeP : Nat) (separationX : CalcNumber)
    (h : g.separateNodeX nodeP separationX = some g') :
    ∃ n kept moved, g.nodePs[nodeP]? = some n ∧
      LocationGraph.keptSources (fun point => decide (point.x > separationX))
        n.waterSourcesPs n.waterSourcesConnectionPoints = some kept ∧
      LocationGraph.movedSources (fun point => decide (point.x > separationX))
        n.waterSourcesPs n.waterSourcesConnectionPoints = some moved ∧
      g'.nodePs.map LocationGraphNode.core
        = (g.nodePs.map LocationGraphNode.core).set nodeP
            (rectangleWith n.left separationX n.bottom n.top kept)
          ++ [rectangleWith separationX n.right n.bottom n.top moved] := by
  unfold LocationGraph.separateNodeX at h
  simp only [Option.bind_eq_some] at h
  obtain ⟨g1, h1, rs, _, g2, h2, bs, _, g3, h3, ts, _, g4, h4, g5, h5, h6⟩ := h
  obtain ⟨n, hn, hM1⟩ := separateNodeXCreate_core separationX nodeP g g1 h1
  have hM4 : g4.nodePs.map LocationGraphNode.core = g.nodePs.map LocationGraphNode.core
      ++ [rectangleWith separationX n.right n.bottom n.top ([], [])] := by
    rw [moveNeighbours_core _ _ _ _ _ _ g3 g4 h4, moveNeighbours_core _ _ _ _ _ _ g2 g3 h3,
      redirectAll_core _ _ _ _ g1 g2 h2, hM1]
  obtain ⟨kept, moved, hk, hm, hM⟩ := cut_cores g g4 g5 g' nodeP n
    (fun point => decide (point.x > separationX))
    (fun node kept => rectangleWith node.left separationX node.bottom node.top kept)
    separationX n.right n.bottom n.top
    (by
      intro a b hab
      have e1 : a.core.left = b.core.left := congrArg LocationGraphNode.left hab
      have e2 : a.core.bottom = b.core.bottom := congrArg LocationGraphNode.bottom hab
      have e3 : a.core.top = b.core.top := congrArg LocationGraphNode.top hab
      funext kept
      show rectangleWith a.core.left separationX a.core.bottom a.core.top kept
        = rectangleWith b.core.left separationX b.core.bottom b.core.top kept
      rw [e1, e2, e3])
    hn hM4 h5 (separateNodeXShrink_core separationX nodeP g.nodePs.length g5 g' h6)
  exact ⟨n, kept, moved, hn, hk, hm, hM⟩

/-- The bounds, sources and entry points of the nodes after `separateNodeY`: the node at
`nodeP` keeps its bottom part with the sources not beyond the cut, the new node, appended to
the list, is the top part with the sources beyond the cut, and the other nodes keep their
bounds, sources and entry points. -/
theorem separateNodeY_core (g g' : LocationGraph) (nodeP : Nat) (separationY : CalcNumber)
    (h : g.separateNodeY nodeP separationY = some g') :
    ∃ n kept moved, g.nodePs[nodeP]? = some n ∧
      LocationGraph.keptSources (fun point => decide (point.y > separationY))
        n.waterSourcesPs n.waterSourcesConnectionPoints = some kept ∧
      LocationGraph.movedSources (fun point => decide (point.y > separationY))
        n.waterSourcesPs n.waterSourcesConnectionPoints = some moved ∧
      g'.nodePs.map LocationGraphNode.core
        = (g.nodePs.map LocationGraphNode.core).set nodeP
            (rectangleWith n.left n.right n.bottom separationY kept)
          ++ [rectangleWith n.left n.right separationY n.top moved] := by
  unfold LocationGraph.separateNodeY at h
  simp only [Option.bind_eq_some] at h
  obtain ⟨g1, h1, ls, _, g2, h2, rs, _, g3, h3, g4, h4, ts, _, g5, h5, g6, h6, h7⟩ := h
  obtain ⟨n, hn, hM1⟩ := separateNodeYCreate_core separationY nodeP g g1 h1
  have hM5 : g5.nodePs.map LocationGraphNode.core = g.nodePs.map LocationGraphNode.core
      ++ [rectangleWith n.left n.right separationY n.top ([], [])] := by
    rw [redirectAll_core _ _ _ _ g4 g5 h5, separateNodeYLink_core _ _ g3 g4 h4,
      moveNeighbours_core _ _ _ _ _ _ g2 g3 h3, moveNeighbours_core _ _ _ _ _ _ g1 g2 h2, hM1]
  obtain ⟨kept, moved, hk, hm, hM⟩ := cut_cores g g5 g6 g' nodeP n
    (fun point => decide (point.y > separationY))
    (fun node kept => rectangleWith node.left node.right node.bottom separationY kept)
    n.left n.right separationY n.top
    (by
      intro a b hab
      have e1 : a.core.left = b.core.left := congrArg LocationGraphNode.left hab
      have e2 : a.core.right = b.core.right := congrArg LocationGraphNode.right hab
      have e3 : a.core.bottom = b.core.bottom := congrArg LocationGraphNode.bottom hab
      funext kept
      show rectangleWith a.core.left a.core.right a.core.bottom separationY kept
        = rectangleWith b.core.left b.core.right b.core.bottom separationY kept
      rw [e1, e2, e3])
    hn hM5 h6 (separateNodeYShrink_core separationY nodeP g.nodePs.length g6 g' h7)
  exact ⟨n, kept, moved, hn, hk, hm, hM⟩


/-! ## Valid and disjoint rectangles after a cut -/

theorem nodesSound_map_core (nodes : List LocationGraphNode) :
    NodesSound (nodes.map LocationGraphNode.core) ↔ NodesSound nodes := by
  unfold NodesSound
  rw [List.pairwise_map]
  constructor
  · rintro ⟨h1, h2, h3⟩
    exact ⟨fun n hn => h1 n.core (List.mem_map_of_mem _ hn), h2,
      fun n hn => h3 n.core (List.mem_map_of_mem _ hn)⟩
  · rintro ⟨h1, h2, h3⟩
    refine ⟨?_, h2, ?_⟩
    · intro c hc
      obtain ⟨n, hn, e⟩ := List.mem_map.mp hc
      rw [← e]
      exact h1 n hn
    · intro c hc
      obtain ⟨n, hn, e⟩ := List.mem_map.mp hc
      rw [← e]
      exact h3 n hn

theorem not_positiveAreaIntersection_of_subRectangle (a b c : LocationGraphNode)
    (hab : SubRectangle a b) (h : ¬ PositiveAreaIntersection b c) :
    ¬ PositiveAreaIntersection a c := by
  intro hp
  apply h
  obtain ⟨s1, s2, s3, s4⟩ := hab
  obtain ⟨p1, p2⟩ := hp
  constructor
  · calc max b.left c.left ≤ max a.left c.left := max_le_max s1 le_rfl
      _ < min a.right c.right := p1
      _ ≤ min b.right c.right := min_le_min s2 le_rfl
  · calc max b.bottom c.bottom ≤ max a.bottom c.bottom := max_le_max s3 le_rfl
      _ < min a.top c.top := p2
      _ ≤ min b.top c.top := min_le_min s4 le_rfl

theorem pairwise_getElem?_ne (nodes : List LocationGraphNode)
    (hd : nodes.Pairwise (fun a b => ¬ PositiveAreaIntersection a b)) (i j : Nat)
    (a c : LocationGraphNode) (hi : nodes[i]? = some a) (hj : nodes[j]? = some c)
    (hij : i ≠ j) : ¬ PositiveAreaIntersection a c := by
  rw [List.pairwise_iff_getElem] at hd
  obtain ⟨hi1, hi2⟩ := List.getElem?_eq_some_iff.mp hi
  obtain ⟨hj1, hj2⟩ := List.getElem?_eq_some_iff.mp hj
  rcases Nat.lt_or_gt_of_ne hij with hlt | hgt
  · have := hd i j hi1 hj1 hlt
    rw [hi2, hj2] at this
    exact this
  · have := hd j i hj1 hi1 hgt
    rw [hi2, hj2] at this
    exact fun hp => this (positiveAreaIntersection_symm hp)

/-- A cut keeps the nodes sound: when the node `m` at the position `p` of a sound list is
replaced by a part `c1` of its rectangle and another part `c2` of its rectangle is appended,
both valid and holding their entry points, and `c1` and `c2` have no intersection of
positive area, the list is sound again. -/
theorem nodesSound_cut (nodes : List LocationGraphNode) (p : Nat) (m c1 c2 : LocationGraphNode)
    (hs : NodesSound nodes) (hm : nodes[p]? = some m)
    (v1 : c1.Valid) (v2 : c2.Valid) (s1 : SubRectangle c1 m) (s2 : SubRectangle c2 m)
    (h12 : ¬ PositiveAreaIntersection c1 c2) (e1 : c1.EntriesInside) (e2 : c2.EntriesInside) :
    NodesSound (nodes.set p c1 ++ [c2]) := by
  obtain ⟨hv, hd, he⟩ := hs
  have hmem : ∀ a ∈ nodes.set p c1, a = c1 ∨ ∃ k, k ≠ p ∧ nodes[k]? = some a := by
    intro a ha
    obtain ⟨k, hk⟩ := List.mem_iff_getElem?.mp ha
    rw [List.getElem?_set] at hk
    by_cases hpk : p = k
    · rw [if_pos hpk] at hk
      split at hk
      · exact Or.inl (Option.some.inj hk).symm
      · simp at hk
    · rw [if_neg hpk] at hk
      exact Or.inr ⟨k, fun e => hpk e.symm, hk⟩
  refine ⟨?_, ?_, ?_⟩
  · intro a ha
    rcases List.mem_append.mp ha with ha | ha
    · rcases hmem a ha with e | ⟨k, _, hk⟩
      · rw [e]; exact v1
      · exact hv a (List.mem_iff_getElem?.mpr ⟨k, hk⟩)
    · rw [List.mem_singleton.mp ha]; exact v2
  · rw [List.pairwise_append]
    refine ⟨?_, List.pairwise_singleton _ _, ?_⟩
    · rw [List.pairwise_iff_getElem]
      intro i j hi hj hij
      rw [List.length_set] at hi hj
      rw [List.getElem_set, List.getElem_set]
      have gi : nodes[i]? = some nodes[i] := List.getElem?_eq_getElem hi
      have gj : nodes[j]? = some nodes[j] := List.getElem?_eq_getElem hj
      by_cases hpi : p = i
      · rw [if_pos hpi, if_neg (by omega)]
        subst hpi
        exact not_positiveAreaIntersection_of_subRectangle c1 m _ s1
          (pairwise_getElem?_ne nodes hd p j m _ hm gj (by omega))
      · rw [if_neg hpi]
        by_cases hpj : p = j
        · rw [if_pos hpj]
          subst hpj
          intro hp
          exact not_positiveAreaIntersection_of_subRectangle c1 m _ s1
            (pairwise_getElem?_ne nodes hd p i m _ hm gi (by omega))
            (positiveAreaIntersection_symm hp)
        · rw [if_neg hpj]
          exact pairwise_getElem?_ne nodes hd i j _ _ gi gj (by omega)
    · intro a ha b hb
      rw [List.mem_singleton.mp hb]
      rcases hmem a ha with e | ⟨k, hkp, hk⟩
      · rw [e]; exact h12
      · intro hp
        exact not_positiveAreaIntersection_of_subRectangle c2 m a s2
          (pairwise_getElem?_ne nodes hd p k m a hm hk (fun e => hkp e.symm))
          (positiveAreaIntersection_symm hp)
  · intro a ha
    rcases List.mem_append.mp ha with ha | ha
    · rcases hmem a ha with e | ⟨k, _, hk⟩
      · rw [e]; exact e1
      · exact he a (List.mem_iff_getElem?.mpr ⟨k, hk⟩)
    · rw [List.mem_singleton.mp ha]; exact e2


/-- A cut found by the loop over the array lies strictly between two values of the array. -/
theorem findSeparation_some (g : LocationGraph) (destination : Option (CalcNumber × Nat))
    (l : List CalcNumber) (s : CalcNumber)
    (h : LocationGraph.findSeparation g destination l = some (some s))
    (hs : l.Sorted (· < ·)) : ∃ a b, a ∈ l ∧ b ∈ l ∧ a < s ∧ s < b := by
  induction l with
  | nil => simp [LocationGraph.findSeparation] at h
  | cons x t ih =>
    cases t with
    | nil => simp [LocationGraph.findSeparation] at h
    | cons y rest =>
      have hxy : x < y := List.rel_of_sorted_cons hs y (List.mem_cons_self y rest)
      have hrec : LocationGraph.findSeparation g destination (y :: rest) = some (some s) →
          ∃ a b, a ∈ x :: y :: rest ∧ b ∈ x :: y :: rest ∧ a < s ∧ s < b := by
        intro h'
        obtain ⟨a, b, ha, hb, h1, h2⟩ := ih h' (List.Sorted.of_cons hs)
        exact ⟨a, b, List.mem_cons_of_mem _ ha, List.mem_cons_of_mem _ hb, h1, h2⟩
      have hfound : s = (x + y) / 2 →
          ∃ a b, a ∈ x :: y :: rest ∧ b ∈ x :: y :: rest ∧ a < s ∧ s < b := by
        intro e
        refine ⟨x, y, List.mem_cons_self _ _, List.mem_cons_of_mem _ (List.mem_cons_self _ _),
          ?_, ?_⟩
        · rw [e]; linarith
        · rw [e]; linarith
      rw [LocationGraph.findSeparation] at h
      by_cases hg : y - x ≥ g.optimizationParametersP.minSourceDistanceToSeparate
      · rw [if_pos hg] at h
        cases hd : destination with
        | none =>
          rw [hd] at h
          simp only [Option.some.injEq] at h
          exact hfound h.symm
        | some cd =>
          obtain ⟨c, diameter⟩ := cd
          rw [hd] at h
          dsimp only at h
          cases hr : g.externalDiameterHalfed diameter with
          | none => rw [hr] at h; simp at h
          | some r =>
            rw [hr] at h
            dsimp only at h
            by_cases hout : (x + y) / 2 < c - r ∨ (x + y) / 2 > c + r
            · rw [if_pos hout] at h
              simp only [Option.some.injEq] at h
              exact hfound h.symm
            · rw [if_neg hout] at h
              rw [hd] at hrec
              exact hrec h
      · rw [if_neg hg] at h
        exact hrec h

/-- The cut that the body of the loop of `separateWaterSources` finds for a node lies strictly
between the coordinates of two entry points of the node. -/
theorem nodeSeparation_some (g : LocationGraph) (n : LocationGraphNode) (separation : Separation)
    (h : LocationGraph.nodeSeparation g n = some (some separation)) :
    match separation with
    | .alongX s => ∃ p q, p ∈ n.waterSourcesConnectionPoints ∧
        q ∈ n.waterSourcesConnectionPoints ∧ p.x < s ∧ s < q.x
    | .alongY s => ∃ p q, p ∈ n.waterSourcesConnectionPoints ∧
        q ∈ n.waterSourcesConnectionPoints ∧ p.y < s ∧ s < q.y := by
  have key : ∀ (coordinate : Point → CalcNumber) (destination : Option (CalcNumber × Nat))
      (s : CalcNumber),
      LocationGraph.findSeparation g destination
        (LocationGraph.sortedCoordinates (n.waterSourcesConnectionPoints.map coordinate))
        = some (some s) →
      ∃ p q, p ∈ n.waterSourcesConnectionPoints ∧ q ∈ n.waterSourcesConnectionPoints ∧
        coordinate p < s ∧ s < coordinate q := by
    intro coordinate destination s hf
    obtain ⟨hsorted, hmem⟩ :=
      sortedCoordinates_spec (n.waterSourcesConnectionPoints.map coordinate)
    obtain ⟨a, b, ha, hb, h1, h2⟩ := findSeparation_some g destination _ s hf hsorted
    obtain ⟨p, hp, ep⟩ := List.mem_map.mp ((hmem a).mp ha)
    obtain ⟨q, hq, eq⟩ := List.mem_map.mp ((hmem b).mp hb)
    exact ⟨p, q, hp, hq, by rw [ep]; exact h1, by rw [eq]; exact h2⟩
  unfold LocationGraph.nodeSeparation at h
  split at h
  · cases hx : LocationGraph.findSeparationX g n with
    | none => rw [hx] at h; simp at h
    | some sx =>
      rw [hx] at h
      cases sx with
      | some s =>
        simp only [Option.some.injEq] at h
        subst h
        unfold LocationGraph.findSeparationX at hx
        dsimp only at hx
        split at hx
        · exact key Point.x _ s hx
        · simp at hx
      | none =>
        dsimp only at h
        cases hy : LocationGraph.findSeparationY g n with
        | none => rw [hy] at h; simp at h
        | some sy =>
          rw [hy] at h
          cases sy with
          | none => simp at h
          | some s =>
            simp only [Option.some.injEq] at h
            subst h
            unfold LocationGraph.findSeparationY at hy
            dsimp only at hy
            split at hy
            · exact key Point.y _ s hy
            · simp at hy
  · simp at h

theorem findNodeToSeparate_some (g : LocationGraph) (nodes : List LocationGraphNode) :
    ∀ (k p : Nat) (separation : Separation),
      LocationGraph.findNodeToSeparate g nodes k = some (some (p, separation)) →
      ∃ n, k ≤ p ∧ nodes[p - k]? = some n ∧
        LocationGraph.nodeSeparation g n = some (some separation) := by
  induction nodes with
  | nil => intro k p separation h; simp [LocationGraph.findNodeToSeparate] at h
  | cons node rest ih =>
    intro k p separation h
    unfold LocationGraph.findNodeToSeparate at h
    cases hs : LocationGraph.nodeSeparation g node with
    | none => rw [hs] at h; simp at h
    | some found =>
      rw [hs] at h
      cases found with
      | some sep =>
        simp only [Option.some.injEq, Prod.mk.injEq] at h
        obtain ⟨e1, e2⟩ := h
        subst e1 e2
        exact ⟨node, le_rfl, by simp, hs⟩
      | none =>
        dsimp only at h
        obtain ⟨n, hk, hn, hsep⟩ := ih (k + 1) p separation h
        refine ⟨n, by omega, ?_, hsep⟩
        have e : p - k = (p - (k + 1)) + 1 := by omega
        rw [e, List.getElem?_cons_succ]
        exact hn


/-- A cut made by `separateWaterSources` keeps the nodes sound. -/
theorem separateNode_sound (g g' : LocationGraph) (p : Nat) (n : LocationGraphNode)
    (separation : Separation) (hs : NodesSound g.nodePs) (hn : g.nodePs[p]? = some n)
    (hsep : LocationGraph.nodeSeparation g n = some (some separation))
    (h : g.separateNode p separation = some g') : NodesSound g'.nodePs := by
  have hnmem : n ∈ g.nodePs := List.mem_iff_getElem?.mpr ⟨p, hn⟩
  have hsc := (nodesSound_map_core g.nodePs).mpr hs
  obtain ⟨hvalid, _, hentries⟩ := hs
  obtain ⟨hl, hb⟩ := hvalid n hnmem
  obtain ⟨hlen, hin⟩ := hentries n hnmem
  have hnc := getElem?_map_core g.nodePs p n hn
  rw [← nodesSound_map_core]
  have hfound := nodeSeparation_some g n separation hsep
  cases separation with
  | alongX s =>
    obtain ⟨a, b, ha, hb', has, hsb⟩ := hfound
    have hls : n.left < s := lt_of_le_of_lt (hin a ha).1 has
    have hsr : s < n.right := lt_of_lt_of_le hsb (hin b hb').2.1
    obtain ⟨n1, kept, moved, hn1, hk, hm, hM⟩ := separateNodeX_core g g' p s h
    rw [hn] at hn1
    have e := Option.some.inj hn1
    subst e
    obtain ⟨k1, k2⟩ := keptSources_spec _ _ _ kept hk hlen
    obtain ⟨m1, m2⟩ := movedSources_spec _ _ _ moved hm
    rw [hM]
    refine nodesSound_cut _ p n.core _ _ hsc hnc ⟨hls, hb⟩ ⟨hsr, hb⟩
      ⟨le_rfl, le_of_lt hsr, le_rfl, le_rfl⟩ ⟨le_of_lt hls, le_rfl, le_rfl, le_rfl⟩ ?_
      ⟨k1, ?_⟩ ⟨m1, ?_⟩
    · intro hp
      have h1 : max n.left s < min s n.right := hp.1
      rw [max_eq_right (le_of_lt hls), min_eq_left (le_of_lt hsr)] at h1
      exact lt_irrefl _ h1
    · intro pt hpt
      obtain ⟨hmem, hnot⟩ := k2 pt hpt
      obtain ⟨i1, i2, i3, i4⟩ := hin pt hmem
      have : ¬ pt.x > s := by simpa using hnot
      exact ⟨i1, not_lt.mp this, i3, i4⟩
    · intro pt hpt
      obtain ⟨hmem, hyes⟩ := m2 pt hpt
      obtain ⟨i1, i2, i3, i4⟩ := hin pt hmem
      have : pt.x > s := by simpa using hyes
      exact ⟨le_of_lt this, i2, i3, i4⟩
  | alongY s =>
    obtain ⟨a, b, ha, hb', has, hsb⟩ := hfound
    have hbs : n.bottom < s := lt_of_le_of_lt (hin a ha).2.2.1 has
    have hst : s < n.top := lt_of_lt_of_le hsb (hin b hb').2.2.2
    obtain ⟨n1, kept, moved, hn1, hk, hm, hM⟩ := separateNodeY_core g g' p s h
    rw [hn] at hn1
    have e := Option.some.inj hn1
    subst e
    obtain ⟨k1, k2⟩ := keptSources_spec _ _ _ kept hk hlen
    obtain ⟨m1, m2⟩ := movedSources_spec _ _ _ moved hm
    rw [hM]
    refine nodesSound_cut _ p n.core _ _ hsc hnc ⟨hl, hbs⟩ ⟨hl, hst⟩
      ⟨le_rfl, le_rfl, le_rfl, le_of_lt hst⟩ ⟨le_rfl, le_rfl, le_of_lt hbs, le_rfl⟩ ?_
      ⟨k1, ?_⟩ ⟨m1, ?_⟩
    · intro hp
      have h1 : max n.bottom s < min s n.top := hp.2
      rw [max_eq_right (le_of_lt hbs), min_eq_left (le_of_lt hst)] at h1
      exact lt_irrefl _ h1
    · intro pt hpt
      obtain ⟨hmem, hnot⟩ := k2 pt hpt
      obtain ⟨i1, i2, i3, i4⟩ := hin pt hmem
      have : ¬ pt.y > s := by simpa using hnot
      exact ⟨i1, i2, i3, not_lt.mp this⟩
    · intro pt hpt
      obtain ⟨hmem, hyes⟩ := m2 pt hpt
      obtain ⟨i1, i2, i3, i4⟩ := hin pt hmem
      have : pt.y > s := by simpa using hyes
      exact ⟨i1, i2, le_of_lt this, i4⟩

/-- The loop of `separateWaterSources` keeps the nodes sound. -/
theorem separateWaterSourcesLoop_sound (fuel : Nat) :
    ∀ (g g' : LocationGraph) (u : Unit),
      LocationGraph.separateWaterSourcesLoop fuel g = some (.ok u g') →
      NodesSound g.nodePs → NodesSound g'.nodePs := by
  induction fuel with
  | zero => intro g g' u h; simp [LocationGraph.separateWaterSourcesLoop] at h
  | succ fuel ih =>
    intro g g' u h hs
    unfold LocationGraph.separateWaterSourcesLoop at h
    cases hf : LocationGraph.findNodeToSeparate g g.nodePs 0 with
    | none => rw [hf] at h; simp at h
    | some found =>
      rw [hf] at h
      cases found with
      | none =>
        simp only [Option.some.injEq, Outcome.ok.injEq] at h
        rw [← h.2]; exact hs
      | some ps =>
        obtain ⟨nodeP, separation⟩ := ps
        dsimp only at h
        obtain ⟨n, _, hn, hsep⟩ := findNodeToSeparate_some g g.nodePs 0 nodeP separation hf
        cases hcut : g.separateNode nodeP separation with
        | none => rw [hcut] at h; simp at h
        | some g1 =>
          rw [hcut] at h
          exact ih g1 g' u h (separateNode_sound g g1 nodeP n separation hs hn hsep hcut)


/-- After `addWaterConnectionObjects` on a graph of valid and disjoint nodes to which nothing
was attached, the nodes are sound, provided that the width and the height of every node are
at least the clearance radius of every source. -/
theorem addWaterConnectionObjects_sound (g g1 : LocationGraph) (wco : WaterConnectionObjects)
    (u : Unit) (hv : g.NodesValid) (hd : g.NodesDisjoint) (hfresh : g.NothingAttached)
    (hwide : ∀ n ∈ g.nodePs, ∀ w ∈ wco.waterSources,
      ∀ r ∈ g.externalDiameterHalfed w.diameter, r ≤ n.sizeX ∧ r ≤ n.sizeY)
    (h : g.addWaterConnectionObjects wco = .ok u g1) : NodesSound g1.nodePs := by
  have h' : (∃ u, g.addWaterConnectionObjects wco = .ok u g1) ∨
      g.addWaterConnectionObjects wco = .exception .destinationNotContained g1 :=
    Or.inl ⟨u, h⟩
  refine ⟨?_, ?_, ?_⟩
  · intro n' hn'
    obtain ⟨k, hk⟩ := List.mem_iff_getElem?.mp hn'
    obtain ⟨n, hn, ⟨b1, b2, b3, b4⟩, _⟩ := addWaterConnectionObjects_pairs g g1 wco hfresh h' k n' hk
    obtain ⟨v1, v2⟩ := hv n (List.mem_iff_getElem?.mpr ⟨k, hn⟩)
    exact ⟨by rw [b1, b2]; exact v1, by rw [b3, b4]; exact v2⟩
  · rw [List.pairwise_iff_getElem]
    intro i j hi hj hij
    obtain ⟨ni, hni, ⟨a1, a2, a3, a4⟩, _⟩ := addWaterConnectionObjects_pairs g g1 wco hfresh h' i _
      (List.getElem?_eq_getElem hi)
    obtain ⟨nj, hnj, ⟨c1, c2, c3, c4⟩, _⟩ := addWaterConnectionObjects_pairs g g1 wco hfresh h' j _
      (List.getElem?_eq_getElem hj)
    have hdis := nodesDisjoint_getElem g hd i j ni nj hni hnj (by omega)
    unfold PositiveAreaIntersection at hdis ⊢
    rw [a1, a2, a3, a4, c1, c2, c3, c4]
    exact hdis
  · intro n' hn'
    obtain ⟨k, hk⟩ := List.mem_iff_getElem?.mp hn'
    obtain ⟨n, hn, ⟨b1, b2, b3, b4⟩, e1, e2, _⟩ :=
      addWaterConnectionObjects_pairs g g1 wco hfresh h' k n' hk
    refine ⟨by rw [e1, e2]; simp, ?_⟩
    intro pt hpt
    rw [e2] at hpt
    obtain ⟨⟨j, pt'⟩, hmem, ept⟩ := List.mem_map.mp hpt
    simp only at ept
    subst ept
    obtain ⟨_, w, r, hd', hw, hr, hhd, hkr, hpt'⟩ :=
      (attachedSources_mem g k n wco.waterSources 0 j pt').mp hmem
    obtain ⟨nr, hnr, hrp, _⟩ := findClosestPoint_some g w.point r hr
    rw [hkr, hn] at hnr
    have e : n = nr := Option.some.inj hnr
    subst e
    have h0 := externalDiameterHalfed_nonneg g w.diameter hd' hhd
    have hwmem : w ∈ wco.waterSources := List.mem_iff_getElem?.mpr ⟨j - 0, hw⟩
    obtain ⟨hx, hy⟩ := hwide n (List.mem_iff_getElem?.mpr ⟨k, hn⟩) w hwmem hd'
      (by rw [hhd]; exact rfl)
    have hin := adjustConnectionPoint_inside n w.point hd' h0 hx hy
    rw [hpt', hrp, b1, b2, b3, b4]
    exact hin

/-- C14, as amended. After `addWaterConnectionObjects` followed by `separateWaterSources` on
a graph of valid and disjoint nodes to which nothing was attached, every node, including
those created by cuts, still has `left < right` and `bottom < top`, and no two nodes have an
intersection of positive area, provided that the width and the height of every node of the
graph are at least the clearance radius of every source (the external diameter of the
source divided by 2 as the code divides), so that every entry point lies in its node. -/
theorem attachAndSeparate_nodes_valid_and_disjoint (fuel : Nat) (g g' : LocationGraph)
    (wco : WaterConnectionObjects) (hv : g.NodesValid) (hd : g.NodesDisjoint)
    (hfresh : g.NothingAttached)
    (hwide : ∀ n ∈ g.nodePs, ∀ w ∈ wco.waterSources,
      ∀ r ∈ g.externalDiameterHalfed w.diameter, r ≤ n.sizeX ∧ r ≤ n.sizeY)
    (h : attachAndSeparate fuel g wco = some (.ok () g')) :
    g'.NodesValid ∧ g'.NodesDisjoint := by
  unfold attachAndSeparate at h
  cases ha : g.addWaterConnectionObjects wco with
  | undefined => rw [ha] at h; simp at h
  | exception e g1 => rw [ha] at h; simp at h
  | ok u g1 =>
    rw [ha] at h
    dsimp only at h
    have hs1 := addWaterConnectionObjects_sound g g1 wco u hv hd hfresh hwide ha
    obtain ⟨g2, u2, hl, e⟩ := separateWaterSources_ok fuel g1 g' () h
    have hs2 := separateWaterSourcesLoop_sound fuel g1 g2 u2 hl hs1
    have hnodes : g'.nodePs = g2.nodePs := by rw [e]; rfl
    unfold LocationGraph.NodesValid LocationGraph.NodesDisjoint
    rw [hnodes]
    exact ⟨hs2.1, hs2.2.1⟩

/-- Witness for C14: the node `[0, 300] x [0, 1000]` of `sharedNodeGraph 300` is wider and
taller than the clearance radius 30 of the two sources of `sharedNodeObjects`; the graph is
cut into the valid and disjoint nodes of `sharedNodeGraphSplit`. -/
theorem attachAndSeparate_nodes_valid_and_disjoint_witness :
    attachAndSeparate 2 (sharedNodeGraph 300) sharedNodeObjects
        = some (.ok () sharedNodeGraphSplit) ∧
      sharedNodeGraphSplit.NodesValid ∧ sharedNodeGraphSplit.NodesDisjoint :=
  ⟨by decide!, attachAndSeparate_nodes_valid_and_disjoint 2 (sharedNodeGraph 300)
    sharedNodeGraphSplit sharedNodeObjects (by decide!) (by decide!) (by decide!) (by decide!)
    (by decide!)⟩


/-! ## Routing a source -/

theorem appendPipes_spec (sqrt : CalcNumber → CalcNumber) (directPipeP : Option PipeObject)
    (points : List Point) :
    ∀ (previousNodeP : Nat) (previousNode : PipeTrackNode) (pipeTrack : PipeTrack),
      pipeTrack.nodePs[previousNodeP]? = some previousNode →
      ∃ pipeTrack1, OptimalPipeTrackFinder.appendPipes sqrt directPipeP points previousNodeP
          pipeTrack = some pipeTrack1 ∧
        pipeTrack1.nodePs = pipeTrack.nodePs
          ++ directSegments sqrt directPipeP previousNode.endPoint points ∧
        pipeTrack1.rootNodeP = pipeTrack.rootNodeP := by
  induction points with
  | nil =>
    intro previousNodeP previousNode pipeTrack _
    exact ⟨pipeTrack, rfl, by simp [directSegments], rfl⟩
  | cons point rest ih =>
    intro previousNodeP previousNode pipeTrack hp
    unfold OptimalPipeTrackFinder.appendPipes
    rw [hp]
    dsimp only
    obtain ⟨pipeTrack1, h1, h2, h3⟩ := ih
      (pipeTrack.createNodeAndReturnP sqrt .direct directPipeP Point.origin
        previousNode.endPoint point Point.origin Point.origin Point.origin).1
      (PipeTrackNode.new sqrt .direct directPipeP Point.origin previousNode.endPoint point
        Point.origin Point.origin Point.origin)
      (pipeTrack.createNodeAndReturnP sqrt .direct directPipeP Point.origin
        previousNode.endPoint point Point.origin Point.origin Point.origin).2
      (by simp [PipeTrack.createNodeAndReturnP])
    refine ⟨pipeTrack1, h1, ?_, ?_⟩
    · rw [h2]
      simp [PipeTrack.createNodeAndReturnP, directSegments, PipeTrackNode.new]
    · rw [h3]
      rfl

theorem layPipes_spec (sqrt : CalcNumber → CalcNumber) (self : OptimalPipeTrackFinder)
    (pipeTrack pipeTrack1 : PipeTrack) (waterSource : WaterSource) (zigzag : List Point)
    (h : self.layPipes sqrt pipeTrack waterSource zigzag = some pipeTrack1) :
    zigzag ≠ [] ∧
      pipeTrack1.nodePs = pipeTrack.nodePs
        ++ directSegments sqrt (self.pipeObjectsBag.getDirectPipeP waterSource.diameter)
          ⟨waterSource.point.x, waterSource.point.y, 0⟩ zigzag ∧
      pipeTrack1.rootNodeP = pipeTrack.rootNodeP := by
  cases zigzag with
  | nil => simp [OptimalPipeTrackFinder.layPipes] at h
  | cons first rest =>
    unfold OptimalPipeTrackFinder.layPipes at h
    dsimp only at h
    obtain ⟨pipeTrack2, h1, h2, h3⟩ := appendPipes_spec sqrt
      (self.pipeObjectsBag.getDirectPipeP waterSource.diameter) rest
      (pipeTrack.createNodeAndReturnP sqrt .direct
        (self.pipeObjectsBag.getDirectPipeP waterSource.diameter) Point.origin
        ⟨waterSource.point.x, waterSource.point.y, 0⟩ first Point.origin Point.origin
        Point.origin).1
      (PipeTrackNode.new sqrt .direct (self.pipeObjectsBag.getDirectPipeP waterSource.diameter)
        Point.origin ⟨waterSource.point.x, waterSource.point.y, 0⟩ first Point.origin
        Point.origin Point.origin)
      (pipeTrack.createNodeAndReturnP sqrt .direct
        (self.pipeObjectsBag.getDirectPipeP waterSource.diameter) Point.origin
        ⟨waterSource.point.x, waterSource.point.y, 0⟩ first Point.origin Point.origin
        Point.origin).2
      (by simp [PipeTrack.createNodeAndReturnP])
    rw [h1] at h
    have e := Option.some.inj h
    subst e
    refine ⟨by simp, ?_, ?_⟩
    · rw [h2]
      simp [PipeTrack.createNodeAndReturnP, directSegments, PipeTrackNode.new]
    · rw [h3]
      rfl

theorem exchangePaths_length (sqrt : CalcNumber → CalcNumber) (i j : Nat)
    (paths : List (List Nat × Zigzag)) :
    (OptimalPipeTrackFinder.exchangePaths sqrt i j paths).length = paths.length := by
  unfold OptimalPipeTrackFinder.exchangePaths
  split
  · split <;> simp
  · rfl

theorem exchangePaths_all_failed (sqrt : CalcNumber → CalcNumber) (i j : Nat)
    (paths : List (List Nat × Zigzag)) (h : ∀ path ∈ paths, path.2.1 = []) :
    ∀ path ∈ OptimalPipeTrackFinder.exchangePaths sqrt i j paths, path.2.1 = [] := by
  unfold OptimalPipeTrackFinder.exchangePaths
  split
  · rename_i pathI pathJ hi hj
    split
    · intro path hp
      have hI := h pathI (List.getElem?_mem hi)
      have hJ := h pathJ (List.getElem?_mem hj)
      rcases List.mem_or_eq_of_mem_set hp with hp1 | rfl
      · rcases List.mem_or_eq_of_mem_set hp1 with hp2 | rfl
        · exact h path hp2
        · exact hJ
      · exact hI
    · exact h
  · exact h

theorem sortPaths_failed (sqrt : CalcNumber → CalcNumber) (paths : List (List Nat × Zigzag))
    (h : ∀ path ∈ paths, path.2.1 = []) :
    (OptimalPipeTrackFinder.sortPaths sqrt paths).length = paths.length ∧
      ∀ path ∈ OptimalPipeTrackFinder.sortPaths sqrt paths, path.2.1 = [] := by
  unfold OptimalPipeTrackFinder.sortPaths
  have inner : ∀ (i : Nat) (js : List Nat) (ps : List (List Nat × Zigzag)),
      (∀ path ∈ ps, path.2.1 = []) →
      (js.foldl (fun paths2 j => OptimalPipeTrackFinder.exchangePaths sqrt i j paths2) ps).length
          = ps.length ∧
        ∀ path ∈ js.foldl (fun paths2 j => OptimalPipeTrackFinder.exchangePaths sqrt i j paths2)
          ps, path.2.1 = [] := by
    intro i js
    induction js with
    | nil => intro ps hps; exact ⟨rfl, hps⟩
    | cons j js ih =>
      intro ps hps
      have := ih (OptimalPipeTrackFinder.exchangePaths sqrt i j ps)
        (exchangePaths_all_failed sqrt i j ps hps)
      simp only [List.foldl_cons]
      exact ⟨this.1.trans (exchangePaths_length sqrt i j ps), this.2⟩
  have outer : ∀ (size : Nat) (is : List Nat) (ps : List (List Nat × Zigzag)),
      (∀ path ∈ ps, path.2.1 = []) →
      (is.foldl (fun paths1 i =>
          (List.range' (i + 1) (size - (i + 1))).foldl
            (fun paths2 j => OptimalPipeTrackFinder.exchangePaths sqrt i j paths2) paths1)
          ps).length = ps.length ∧
        ∀ path ∈ is.foldl (fun paths1 i =>
          (List.range' (i + 1) (size - (i + 1))).foldl
            (fun paths2 j => OptimalPipeTrackFinder.exchangePaths sqrt i j paths2) paths1)
          ps, path.2.1 = [] := by
    intro size is
    induction is with
    | nil => intro ps hps; exact ⟨rfl, hps⟩
    | cons i is ih =>
      intro ps hps
      have h1 := inner i (List.range' (i + 1) (size - (i + 1))) ps hps
      have h2 := ih _ h1.2
      simp only [List.foldl_cons]
      exact ⟨h2.1.trans h1.1, h2.2⟩
  exact outer paths.length _ paths h

theorem removeFailedPaths_all_failed :
    ∀ (n : Nat) (paths : List (List Nat × Zigzag)), paths.length = n →
      (∀ path ∈ paths, path.2.1 = []) →
      OptimalPipeTrackFinder.removeFailedPaths (List.range n).reverse paths = some [] := by
  intro n
  induction n with
  | zero =>
    intro paths hl _
    have : paths = [] := List.length_eq_zero.mp hl
    subst this
    rfl
  | succ n ih =>
    intro paths hl hall
    rw [List.range_succ, List.reverse_append, List.reverse_singleton, List.singleton_append]
    unfold OptimalPipeTrackFinder.removeFailedPaths
    have hlt : n < paths.length := by omega
    rw [List.getElem?_eq_getElem hlt]
    dsimp only
    have he := hall _ (List.getElem_mem hlt)
    rw [he]
    simp only [List.length_nil, if_true]
    apply ih
    · simp [hl]
    · intro path hp
      exact hall path (List.dropLast_subset paths hp)

theorem selectPath_exception (sqrt : CalcNumber → CalcNumber) (self : OptimalPipeTrackFinder)
    (pipeTrack : PipeTrack) (sourceP : Nat) (waterSource : WaterSource) (e : Exception)
    (h : self.selectPath sqrt pipeTrack sourceP waterSource = .exception e) :
    e = .zigzagNotFound waterSource.name := by
  unfold OptimalPipeTrackFinder.selectPath at h
  repeat' split at h
  all_goals first
    | (cases h; done)
    | (injection h with h; exact h.symm)
theorem exchangePaths_subset (sqrt : CalcNumber → CalcNumber) (i j : Nat)
    (paths : List (List Nat × Zigzag)) :
    ∀ path ∈ OptimalPipeTrackFinder.exchangePaths sqrt i j paths, path ∈ paths := by
  unfold OptimalPipeTrackFinder.exchangePaths
  split
  · rename_i pathI pathJ hi hj
    split
    · intro path hp
      rcases List.mem_or_eq_of_mem_set hp with hp1 | rfl
      · rcases List.mem_or_eq_of_mem_set hp1 with hp2 | rfl
        · exact hp2
        · exact List.getElem?_mem hj
      · exact List.getElem?_mem hi
    · exact fun _ h => h
  · exact fun _ h => h

theorem zigzagLength_nil (sqrt : CalcNumber → CalcNumber) :
    OptimalPipeTrackFinder.zigzagLength sqrt [] = 999999 := by
  simp [OptimalPipeTrackFinder.zigzagLength]

theorem exchangePaths_headFound (sqrt : CalcNumber → CalcNumber) (i j : Nat) (hj : i < j)
    (paths : List (List Nat × Zigzag)) (hshort : ShortZigzags sqrt paths)
    (h : HeadFound paths) : HeadFound (OptimalPipeTrackFinder.exchangePaths sqrt i j paths) := by
  obtain ⟨hd, h0, hgood⟩ := h
  unfold OptimalPipeTrackFinder.exchangePaths
  split
  · rename_i pathI pathJ hi hjj
    split
    · rename_i hlt
      have hj0 : j ≠ 0 := by omega
      by_cases hi0 : i = 0
      · subst hi0
        rw [h0] at hi
        have e := Option.some.inj hi
        subst e
        have hJ : pathJ.2.1 ≠ [] := by
          intro hn
          rw [hn, zigzagLength_nil] at hlt
          have := hshort hd (List.getElem?_mem h0) hgood
          exact absurd (lt_trans hlt this) (lt_irrefl _)
        refine ⟨pathJ, ?_, hJ⟩
        have hlen : 0 < paths.length := by
          rcases List.getElem?_eq_some_iff.mp h0 with ⟨hl, _⟩
          exact hl
        rw [List.getElem?_set_ne hj0, List.getElem?_set_self hlen]
      · refine ⟨hd, ?_, hgood⟩
        rw [List.getElem?_set_ne hj0, List.getElem?_set_ne hi0, h0]
    · exact ⟨hd, h0, hgood⟩
  · exact ⟨hd, h0, hgood⟩

theorem exchangePaths_finds_head (sqrt : CalcNumber → CalcNumber) (j : Nat) (hj : 0 < j)
    (paths : List (List Nat × Zigzag)) (hshort : ShortZigzags sqrt paths)
    (pathJ : List Nat × Zigzag) (hjj : paths[j]? = some pathJ) (hgood : pathJ.2.1 ≠ []) :
    HeadFound (OptimalPipeTrackFinder.exchangePaths sqrt 0 j paths) := by
  have hlen : 0 < paths.length := by
    rcases List.getElem?_eq_some_iff.mp hjj with ⟨hl, _⟩
    omega
  by_cases hhead : HeadFound paths
  · exact exchangePaths_headFound sqrt 0 j hj paths hshort hhead
  · have h0 : paths[0]? = some paths[0] := List.getElem?_eq_getElem hlen
    have hbad : (paths[0]).2.1 = [] := by
      by_contra hne
      exact hhead ⟨_, h0, hne⟩
    unfold OptimalPipeTrackFinder.exchangePaths
    rw [h0, hjj]
    dsimp only
    have hlt : OptimalPipeTrackFinder.zigzagLength sqrt pathJ.2.1
        < OptimalPipeTrackFinder.zigzagLength sqrt (paths[0]).2.1 := by
      rw [hbad, zigzagLength_nil]
      exact hshort pathJ (List.getElem?_mem hjj) hgood
    rw [if_pos hlt]
    refine ⟨pathJ, ?_, hgood⟩
    rw [List.getElem?_set_ne (by omega), List.getElem?_set_self hlen]

theorem exchangePaths_getElem?_other (sqrt : CalcNumber → CalcNumber) (i j m : Nat)
    (hi : m ≠ i) (hj : m ≠ j) (paths : List (List Nat × Zigzag)) :
    (OptimalPipeTrackFinder.exchangePaths sqrt i j paths)[m]? = paths[m]? := by
  unfold OptimalPipeTrackFinder.exchangePaths
  split
  · split
    · rw [List.getElem?_set_ne (Ne.symm hj), List.getElem?_set_ne (Ne.symm hi)]
    · rfl
  · rfl

theorem shortZigzags_exchangePaths (sqrt : CalcNumber → CalcNumber) (i j : Nat)
    (paths : List (List Nat × Zigzag)) (hshort : ShortZigzags sqrt paths) :
    ShortZigzags sqrt (OptimalPipeTrackFinder.exchangePaths sqrt i j paths) :=
  fun path hp => hshort path (exchangePaths_subset sqrt i j paths path hp)

theorem innerLoop_keeps (sqrt : CalcNumber → CalcNumber) (i : Nat) :
    ∀ (js : List Nat) (paths : List (List Nat × Zigzag)), (∀ j ∈ js, i < j) →
      ShortZigzags sqrt paths →
      (js.foldl (fun paths2 j => OptimalPipeTrackFinder.exchangePaths sqrt i j paths2)
          paths).length = paths.length ∧
        ShortZigzags sqrt
          (js.foldl (fun paths2 j => OptimalPipeTrackFinder.exchangePaths sqrt i j paths2)
            paths) ∧
        (HeadFound paths → HeadFound
          (js.foldl (fun paths2 j => OptimalPipeTrackFinder.exchangePaths sqrt i j paths2)
            paths)) := by
  intro js
  induction js with
  | nil => intro paths _ hs; exact ⟨rfl, hs, fun h => h⟩
  | cons j js ih =>
    intro paths hjs hs
    have hj : i < j := hjs j (List.mem_cons_self _ _)
    have h1 := ih (OptimalPipeTrackFinder.exchangePaths sqrt i j paths)
      (fun j' hj' => hjs j' (List.mem_cons_of_mem _ hj'))
      (shortZigzags_exchangePaths sqrt i j paths hs)
    simp only [List.foldl_cons]
    exact ⟨h1.1.trans (exchangePaths_length sqrt i j paths), h1.2.1,
      fun h => h1.2.2 (exchangePaths_headFound sqrt i j hj paths hs h)⟩

theorem firstPass_finds_head (sqrt : CalcNumber → CalcNumber) :
    ∀ (js : List Nat) (paths : List (List Nat × Zigzag)), (∀ j ∈ js, 0 < j) →
      ShortZigzags sqrt paths →
      (HeadFound paths ∨ ∃ j ∈ js, ∃ pathJ, paths[j]? = some pathJ ∧ pathJ.2.1 ≠ []) →
      HeadFound
        (js.foldl (fun paths2 j => OptimalPipeTrackFinder.exchangePaths sqrt 0 j paths2)
          paths) := by
  intro js
  induction js with
  | nil =>
    intro paths _ _ h
    rcases h with h | ⟨j, hj, _⟩
    · exact h
    · cases hj
  | cons j js ih =>
    intro paths hjs hs h
    have hj : 0 < j := hjs j (List.mem_cons_self _ _)
    simp only [List.foldl_cons]
    apply ih _ (fun j' hj' => hjs j' (List.mem_cons_of_mem _ hj'))
      (shortZigzags_exchangePaths sqrt 0 j paths hs)
    rcases h with h | ⟨j', hj', pathJ, hjj, hgood⟩
    · exact Or.inl (exchangePaths_headFound sqrt 0 j hj paths hs h)
    · by_cases e : j' = j
      · subst e
        exact Or.inl (exchangePaths_finds_head sqrt j' hj paths hs pathJ hjj hgood)
      · rcases List.mem_cons.mp hj' with e' | hmem
        · exact absurd e' e
        · have h0 : j' ≠ 0 := by
            have := hjs j' hj'
            omega
          exact Or.inr ⟨j', hmem, pathJ,
            by rw [exchangePaths_getElem?_other sqrt 0 j j' h0 e paths]; exact hjj, hgood⟩

theorem outerLoop_keeps (sqrt : CalcNumber → CalcNumber) (size : Nat) :
    ∀ (is : List Nat) (paths : List (List Nat × Zigzag)), ShortZigzags sqrt paths →
      (is.foldl (fun paths1 i =>
          (List.range' (i + 1) (size - (i + 1))).foldl
            (fun paths2 j => OptimalPipeTrackFinder.exchangePaths sqrt i j paths2) paths1)
          paths).length = paths.length ∧
        (HeadFound paths → HeadFound
          (is.foldl (fun paths1 i =>
            (List.range' (i + 1) (size - (i + 1))).foldl
              (fun paths2 j => OptimalPipeTrackFinder.exchangePaths sqrt i j paths2) paths1)
            paths)) := by
  intro is
  induction is with
  | nil => intro paths _; exact ⟨rfl, fun h => h⟩
  | cons i is ih =>
    intro paths hs
    have h1 := innerLoop_keeps sqrt i (List.range' (i + 1) (size - (i + 1))) paths
      (fun j hj => by
        have := (List.mem_range'_1.mp hj).1
        omega) hs
    have h2 := ih _ h1.2.1
    simp only [List.foldl_cons]
    exact ⟨h2.1.trans h1.1, fun h => h2.2 (h1.2.2 h)⟩

theorem sortPaths_finds_head (sqrt : CalcNumber → CalcNumber)
    (paths : List (List Nat × Zigzag)) (hshort : ShortZigzags sqrt paths)
    (hfound : ∃ path ∈ paths, path.2.1 ≠ []) :
    (OptimalPipeTrackFinder.sortPaths sqrt paths).length = paths.length ∧
      HeadFound (OptimalPipeTrackFinder.sortPaths sqrt paths) := by
  unfold OptimalPipeTrackFinder.sortPaths
  dsimp only
  refine ⟨(outerLoop_keeps sqrt paths.length _ paths hshort).1, ?_⟩
  obtain ⟨path, hmem, hgood⟩ := hfound
  obtain ⟨m, hm, hget⟩ := List.getElem_of_mem hmem
  have hgetm : paths[m]? = some path := by rw [List.getElem?_eq_getElem hm, hget]
  by_cases hm0 : m = 0
  · subst hm0
    exact (outerLoop_keeps sqrt paths.length _ paths hshort).2 ⟨path, hgetm, hgood⟩
  · have hsize : paths.length - 1 = (paths.length - 2) + 1 := by omega
    rw [hsize, List.range_succ_eq_map, List.foldl_cons]
    have hjs : ∀ j ∈ List.range' (0 + 1) (paths.length - (0 + 1)), 0 < j := fun j hj => by
      have := (List.mem_range'_1.mp hj).1
      omega
    have h1 := innerLoop_keeps sqrt 0 (List.range' (0 + 1) (paths.length - (0 + 1))) paths hjs
      hshort
    have h2 := firstPass_finds_head sqrt (List.range' (0 + 1) (paths.length - (0 + 1))) paths
      hjs hshort
      (Or.inr ⟨m, List.mem_range'_1.mpr ⟨by omega, by omega⟩, path, hgetm, hgood⟩)
    exact (outerLoop_keeps sqrt paths.length _ _ h1.2.1).2 h2

theorem removeFailedPaths_keeps_head :
    ∀ (k : Nat) (paths : List (List Nat × Zigzag)), k ≤ paths.length → HeadFound paths →
      ∃ path rest, OptimalPipeTrackFinder.removeFailedPaths (List.range k).reverse paths
        = some (path :: rest) ∧ path.2.1 ≠ [] := by
  intro k
  induction k with
  | zero =>
    intro paths _ h
    obtain ⟨hd, h0, hgood⟩ := h
    cases paths with
    | nil => simp at h0
    | cons p rest =>
      simp at h0
      subst h0
      exact ⟨p, rest, rfl, hgood⟩
  | succ k ih =>
    intro paths hk h
    rw [List.range_succ, List.reverse_append, List.reverse_singleton, List.singleton_append]
    unfold OptimalPipeTrackFinder.removeFailedPaths
    have hlt : k < paths.length := by omega
    rw [List.getElem?_eq_getElem hlt]
    dsimp only
    split
    · rename_i hbad
      obtain ⟨hd, h0, hgood⟩ := h
      have hk0 : k ≠ 0 := by
        intro e
        subst e
        rw [List.getElem?_eq_getElem hlt] at h0
        have e := Option.some.inj h0
        rw [e] at hbad
        exact hgood (List.length_eq_zero.mp hbad)
      apply ih
      · simp
        omega
      · refine ⟨hd, ?_, hgood⟩
        rw [List.getElem?_eq_some_iff] at h0 ⊢
        obtain ⟨_, h0⟩ := h0
        refine ⟨by simp; omega, ?_⟩
        rw [List.getElem_dropLast]
        exact h0
    · exact ih paths (by omega) h

theorem layPipes_some (sqrt : CalcNumber → CalcNumber) (self : OptimalPipeTrackFinder)
    (pipeTrack : PipeTrack) (waterSource : WaterSource) (zigzag : List Point)
    (h : zigzag ≠ []) : ∃ pipeTrack1, self.layPipes sqrt pipeTrack waterSource zigzag
      = some pipeTrack1 := by
  cases zigzag with
  | nil => exact absurd rfl h
  | cons first rest =>
    unfold OptimalPipeTrackFinder.layPipes
    dsimp only
    obtain ⟨pipeTrack2, h1, _, _⟩ := appendPipes_spec sqrt
      (self.pipeObjectsBag.getDirectPipeP waterSource.diameter) rest
      (pipeTrack.createNodeAndReturnP sqrt .direct
        (self.pipeObjectsBag.getDirectPipeP waterSource.diameter) Point.origin
        ⟨waterSource.point.x, waterSource.point.y, 0⟩ first Point.origin Point.origin
        Point.origin).1
      (PipeTrackNode.new sqrt .direct (self.pipeObjectsBag.getDirectPipeP waterSource.diameter)
        Point.origin ⟨waterSource.point.x, waterSource.point.y, 0⟩ first Point.origin
        Point.origin Point.origin)
      (pipeTrack.createNodeAndReturnP sqrt .direct
        (self.pipeObjectsBag.getDirectPipeP waterSource.diameter) Point.origin
        ⟨waterSource.point.x, waterSource.point.y, 0⟩ first Point.origin Point.origin
        Point.origin).2
      (by simp [PipeTrack.createNodeAndReturnP])
    exact ⟨pipeTrack2, h1⟩

theorem selectPath_eq (sqrt : CalcNumber → CalcNumber) (self : OptimalPipeTrackFinder)
    (pipeTrack : PipeTrack) (sourceP : Nat) (waterSource : WaterSource) :
    self.selectPath sqrt pipeTrack sourceP waterSource
      = match enumeratedPaths sqrt self pipeTrack sourceP waterSource with
        | none => .undefined
        | some paths =>
          if paths.length = 0 then .undefined
          else
            match OptimalPipeTrackFinder.removeFailedPaths (List.range paths.length).reverse
                (OptimalPipeTrackFinder.sortPaths sqrt paths) with
            | none => .undefined
            | some [] => .exception (.zigzagNotFound waterSource.name)
            | some (path :: _) => .ok path := by
  unfold OptimalPipeTrackFinder.selectPath enumeratedPaths
  split
  · split
    · rfl
    · rfl
  · rfl

theorem selectPath_no_path (sqrt : CalcNumber → CalcNumber) (self : OptimalPipeTrackFinder)
    (pipeTrack : PipeTrack) (sourceP : Nat) (waterSource : WaterSource)
    (h : enumeratedPaths sqrt self pipeTrack sourceP waterSource = some []) :
    self.selectPath sqrt pipeTrack sourceP waterSource = .undefined := by
  rw [selectPath_eq, h]
  rfl

theorem selectPath_all_failed (sqrt : CalcNumber → CalcNumber) (self : OptimalPipeTrackFinder)
    (pipeTrack : PipeTrack) (sourceP : Nat) (waterSource : WaterSource)
    (paths : List (List Nat × Zigzag))
    (h : enumeratedPaths sqrt self pipeTrack sourceP waterSource = some paths)
    (hne : paths ≠ []) (hall : ∀ path ∈ paths, path.2.1 = []) :
    self.selectPath sqrt pipeTrack sourceP waterSource
      = .exception (.zigzagNotFound waterSource.name) := by
  rw [selectPath_eq, h]
  dsimp only
  have hlen : ¬ paths.length = 0 := fun h => hne (List.length_eq_zero.mp h)
  rw [if_neg hlen]
  have hs := sortPaths_failed sqrt paths hall
  have := removeFailedPaths_all_failed paths.length (OptimalPipeTrackFinder.sortPaths sqrt paths)
    hs.1 hs.2
  rw [this]

theorem selectPath_found (sqrt : CalcNumber → CalcNumber) (self : OptimalPipeTrackFinder)
    (pipeTrack : PipeTrack) (sourceP : Nat) (waterSource : WaterSource)
    (paths : List (List Nat × Zigzag))
    (h : enumeratedPaths sqrt self pipeTrack sourceP waterSource = some paths)
    (hshort : ShortZigzags sqrt paths) (hfound : ∃ path ∈ paths, path.2.1 ≠ []) :
    ∃ path, self.selectPath sqrt pipeTrack sourceP waterSource = .ok path ∧ path.2.1 ≠ [] := by
  rw [selectPath_eq, h]
  dsimp only
  have hlen : ¬ paths.length = 0 := by
    obtain ⟨path, hmem, _⟩ := hfound
    intro h
    rw [List.length_eq_zero.mp h] at hmem
    cases hmem
  rw [if_neg hlen]
  have hs := sortPaths_finds_head sqrt paths hshort hfound
  obtain ⟨path, rest, hr, hgood⟩ := removeFailedPaths_keeps_head paths.length
    (OptimalPipeTrackFinder.sortPaths sqrt paths) (by rw [hs.1]) hs.2
  rw [hr]
  exact ⟨path, rfl, hgood⟩

/-- C16: `connectSourceToPipeTrack` raises the routing-failed error naming the source when at
least one path was enumerated and no path has a polyline, raises no other error, and returns
a track when some path has a polyline and the polylines are shorter than `999999`; but when
the enumeration returns no path at all it does not raise the error: the bound
`pathsFromSourceToPipeTrack.size() - 1` of the sorting loop wraps around and the execution has
no defined behaviour. In `apartFinderAttached`, the state of `apartFinder` after the objects
were attached, the node of the source has no neighbour and is not the node of the destination,
so no path is enumerated on the empty track. In `passageFinderAttached` the path through the
passage of width 50 is enumerated and rejected for the external diameter 60, and the error
naming `S1` is raised. -/
theorem connectSourceToPipeTrack_undefined_without_paths :
    (∀ (sqrt : CalcNumber → CalcNumber) (self : OptimalPipeTrackFinder) (pipeTrack : PipeTrack)
        (sourceP : Nat) (waterSource : WaterSource) (paths : List (List Nat × Zigzag)),
      enumeratedPaths sqrt self pipeTrack sourceP waterSource = some paths →
        (paths = [] →
          self.connectSourceToPipeTrack sqrt pipeTrack sourceP waterSource = .undefined) ∧
        (paths ≠ [] → (∀ path ∈ paths, path.2.1 = []) →
          self.connectSourceToPipeTrack sqrt pipeTrack sourceP waterSource
            = .exception (.zigzagNotFound waterSource.name)) ∧
        (ShortZigzags sqrt paths → (∃ path ∈ paths, path.2.1 ≠ []) →
          ∃ pipeTrack1,
            self.connectSourceToPipeTrack sqrt pipeTrack sourceP waterSource = .ok pipeTrack1)) ∧
    (∀ (sqrt : CalcNumber → CalcNumber) (self : OptimalPipeTrackFinder) (pipeTrack : PipeTrack)
        (sourceP : Nat) (waterSource : WaterSource) (e : Exception),
      self.connectSourceToPipeTrack sqrt pipeTrack sourceP waterSource = .exception e →
        e = .zigzagNotFound waterSource.name) ∧
    attachAndSeparate 1 apartFinder.locationGraph apartObjects
      = some (.ok () apartFinderAttached.locationGraph) ∧
    (∀ sqrt : CalcNumber → CalcNumber,
      enumeratedPaths sqrt apartFinderAttached PipeTrack.new 0 ⟨"S1", ⟨50, 50, 0⟩, 50, 0⟩
        = some []) ∧
    (∀ sqrt : CalcNumber → CalcNumber,
      apartFinderAttached.connectSourceToPipeTrack sqrt PipeTrack.new 0 ⟨"S1", ⟨50, 50, 0⟩, 50, 0⟩
        = .undefined) ∧
    apartFinder.calculateOptimalPipeTrack exactSqrt 1 = some .undefined ∧
    enumeratedPaths exactSqrt passageFinderAttached PipeTrack.new 0 ⟨"S1", ⟨100, 100, 0⟩, 50, 0⟩
      = some [([0, 1], ([], none))] ∧
    passageFinderAttached.connectSourceToPipeTrack exactSqrt PipeTrack.new 0
      ⟨"S1", ⟨100, 100, 0⟩, 50, 0⟩ = .exception (.zigzagNotFound "S1") := by
  refine ⟨?_, ?_, by decide!, fun _ => rfl, fun _ => rfl, by decide!, by decide!, by decide!⟩
  · intro sqrt self pipeTrack sourceP waterSource paths h
    refine ⟨?_, ?_, ?_⟩
    · intro e
      subst e
      unfold OptimalPipeTrackFinder.connectSourceToPipeTrack
      rw [selectPath_no_path sqrt self pipeTrack sourceP waterSource h]
    · intro hne hall
      unfold OptimalPipeTrackFinder.connectSourceToPipeTrack
      rw [selectPath_all_failed sqrt self pipeTrack sourceP waterSource paths h hne hall]
    · intro hshort hfound
      obtain ⟨path, hp, hgood⟩ :=
        selectPath_found sqrt self pipeTrack sourceP waterSource paths h hshort hfound
      obtain ⟨pipeTrack1, hl⟩ := layPipes_some sqrt self pipeTrack waterSource path.2.1 hgood
      refine ⟨pipeTrack1, ?_⟩
      unfold OptimalPipeTrackFinder.connectSourceToPipeTrack
      rw [hp]
      dsimp only
      rw [hl]
  · intro sqrt self pipeTrack sourceP waterSource e h
    unfold OptimalPipeTrackFinder.connectSourceToPipeTrack at h
    cases hs : self.selectPath sqrt pipeTrack sourceP waterSource with
    | undefined => rw [hs] at h; cases h
    | exception e1 =>
      rw [hs] at h
      dsimp only at h
      injection h with h
      subst h
      exact selectPath_exception sqrt self pipeTrack sourceP waterSource e1 hs
    | ok path =>
      rw [hs] at h
      dsimp only at h
      split at h <;> cases h


/-- C17: on success `connectSourceToPipeTrack` appends to the track exactly one direct-pipe
node per point of the polyline `Z` that its steps 1 to 7 select: `Z` is not empty, and the
nodes of the track after the call are the nodes before the call, unchanged and in their
order, followed by the nodes `directSegments`: the first from `(source.x, source.y, 0)` to the
first point of `Z`, every other one from the point of `Z` before to the point, each of type
`direct` and with the pointer that `getDirectPipeP` returns for the diameter of the source;
the root pointer of the track is unchanged. -/
theorem connectSourceToPipeTrack_appends_direct_pipes (sqrt : CalcNumber → CalcNumber)
    (self : OptimalPipeTrackFinder) (pipeTrack pipeTrack1 : PipeTrack) (sourceP : Nat)
    (waterSource : WaterSource)
    (h : self.connectSourceToPipeTrack sqrt pipeTrack sourceP waterSource = .ok pipeTrack1) :
    ∃ path, self.selectPath sqrt pipeTrack sourceP waterSource = .ok path ∧ path.2.1 ≠ [] ∧
      pipeTrack1.nodePs = pipeTrack.nodePs
        ++ directSegments sqrt (self.pipeObjectsBag.getDirectPipeP waterSource.diameter)
          ⟨waterSource.point.x, waterSource.point.y, 0⟩ path.2.1 ∧
      pipeTrack1.nodePs.length = pipeTrack.nodePs.length + path.2.1.length ∧
      (∀ node ∈ directSegments sqrt (self.pipeObjectsBag.getDirectPipeP waterSource.diameter)
          ⟨waterSource.point.x, waterSource.point.y, 0⟩ path.2.1,
        node.type = .direct ∧
          node.pipeObjectP = self.pipeObjectsBag.getDirectPipeP waterSource.diameter) ∧
      pipeTrack1.rootNodeP = pipeTrack.rootNodeP := by
  unfold OptimalPipeTrackFinder.connectSourceToPipeTrack at h
  cases hs : self.selectPath sqrt pipeTrack sourceP waterSource with
  | undefined => rw [hs] at h; simp at h
  | exception e => rw [hs] at h; simp at h
  | ok path =>
    rw [hs] at h
    dsimp only at h
    cases hl : self.layPipes sqrt pipeTrack waterSource path.2.1 with
    | none => rw [hl] at h; simp at h
    | some pipeTrack2 =>
      rw [hl] at h
      simp only [Result.ok.injEq] at h
      subst h
      obtain ⟨h1, h2, h3⟩ := layPipes_spec sqrt self pipeTrack pipeTrack2 waterSource path.2.1 hl
      have hlen : ∀ (points : List Point) (startPoint : Point),
          (directSegments sqrt (self.pipeObjectsBag.getDirectPipeP waterSource.diameter)
            startPoint points).length = points.length := by
        intro points
        induction points with
        | nil => intro _; rfl
        | cons p rest ih => intro s; simp [directSegments, ih]
      have htype : ∀ (points : List Point) (startPoint : Point),
          ∀ node ∈ directSegments sqrt
              (self.pipeObjectsBag.getDirectPipeP waterSource.diameter) startPoint points,
            node.type = .direct ∧
              node.pipeObjectP = self.pipeObjectsBag.getDirectPipeP waterSource.diameter := by
        intro points
        induction points with
        | nil => intro _ node hn; simp [directSegments] at hn
        | cons p rest ih =>
          intro s node hn
          simp only [directSegments, List.mem_cons] at hn
          rcases hn with e | hn
          · rw [e]; exact ⟨rfl, rfl⟩
          · exact ih p node hn
      refine ⟨path, rfl, h1, h2, ?_, htype _ _, h3⟩
      rw [h2, List.length_append, hlen]

/-- Witness for C17: in `squareFinderAttached` the source `S1` is connected to the empty track
along the polyline `[(100, 500, 0), (900, 500, 0)]`, and the track is then `squareTrack` with
one direct pipe per point of the polyline. -/
theorem connectSourceToPipeTrack_appends_direct_pipes_witness :
    squareFinderAttached.connectSourceToPipeTrack exactSqrt PipeTrack.new 0
        ⟨"S1", ⟨100, 500, 0⟩, 50, 0⟩ = .ok squareTrack ∧
      ∃ path, squareFinderAttached.selectPath exactSqrt PipeTrack.new 0
          ⟨"S1", ⟨100, 500, 0⟩, 50, 0⟩ = .ok path ∧ path.2.1 ≠ [] ∧
        squareTrack.nodePs = PipeTrack.new.nodePs
          ++ directSegments exactSqrt (squareFinderAttached.pipeObjectsBag.getDirectPipeP 50)
            ⟨100, 500, 0⟩ path.2.1 ∧
        squareTrack.nodePs.length = PipeTrack.new.nodePs.length + path.2.1.length ∧
        (∀ node ∈ directSegments exactSqrt
            (squareFinderAttached.pipeObjectsBag.getDirectPipeP 50) ⟨100, 500, 0⟩ path.2.1,
          node.type = .direct ∧
            node.pipeObjectP = squareFinderAttached.pipeObjectsBag.getDirectPipeP 50) ∧
        squareTrack.rootNodeP = PipeTrack.new.rootNodeP :=
  ⟨by decide!, connectSourceToPipeTrack_appends_direct_pipes exactSqrt squareFinderAttached
    PipeTrack.new squareTrack 0 ⟨"S1", ⟨100, 500, 0⟩, 50, 0⟩ (by decide!)⟩


/-- C18, counterexample: for the single corridor node `[0, 1000] x [0, 1000]`, the source at
`(100, 500, 0)` and the destination at `(900, 500, 0)`, `calculateOptimalPipeTrack` does not
build the polyline `[(130, 500), (840, 500)]` and a track of one segment: the polyline
selected is `[(100, 500, 0), (900, 500, 0)]` and the track has two nodes. -/
theorem calculateOptimalPipeTrack_square_not_one_segment :
    (∃ path, squareFinderAttached.selectPath exactSqrt PipeTrack.new 0
        ⟨"S1", ⟨100, 500, 0⟩, 50, 0⟩ = .ok path ∧
      path.2.1 = [⟨100, 500, 0⟩, ⟨900, 500, 0⟩] ∧ path.2.1 ≠ [⟨130, 500, 0⟩, ⟨840, 500, 0⟩]) ∧
    (∃ pipeTrack, squareFinder.calculateOptimalPipeTrack exactSqrt 1 = some (.ok pipeTrack) ∧
      pipeTrack.nodePs.length = 2 ∧
      pipeTrack.nodePs ≠ [directNode50 ⟨130, 500, 0⟩ ⟨840, 500, 0⟩]) := by
  refine ⟨⟨([0], ([⟨100, 500, 0⟩, ⟨900, 500, 0⟩], none)), by decide!, rfl, by decide!⟩,
    ⟨squareTrack, by decide!, by decide!, by decide!⟩⟩

/-- C18, as amended: for the single corridor node `[0, 1000] x [0, 1000]`, the source `S1` at
`(100, 500, 0)` with diameter 50 and the destination at `(900, 500, 0)` with diameter 100,
`calculateOptimalPipeTrack` attaches the source at its own point, which lies inside the node,
selects the single path of that node with the polyline `[(100, 500, 0), (900, 500, 0)]` that
ends in the centre of the destination, and returns a track in which one pipe has distinct
end points: the direct pipe of diameter 50 from `(100, 500, 0)` to `(900, 500, 0)`, the
segment of the polyline. -/
theorem calculateOptimalPipeTrack_square :
    attachAndSeparate 1 squareFinder.locationGraph squareObjects
      = some (.ok () squareFinderAttached.locationGraph) ∧
    OptimalPipeTrackFinder.findAllPathsFromSourceToPipeTrack squareFinderAttached.locationGraph
      [[]] 2 [] [0] [0] = some [[0]] ∧
    squareFinderAttached.selectPath exactSqrt PipeTrack.new 0 ⟨"S1", ⟨100, 500, 0⟩, 50, 0⟩
      = .ok ([0], ([⟨100, 500, 0⟩, ⟨900, 500, 0⟩], none)) ∧
    ∃ pipeTrack, squareFinder.calculateOptimalPipeTrack exactSqrt 1 = some (.ok pipeTrack) ∧
      (pipeTrack.nodePs.filter (fun node => decide (node.startPoint ≠ node.endPoint))).map
          (fun node => (node.type, node.startPoint, node.endPoint,
            node.pipeObjectP.map PipeObject.data))
        = [(.direct, ⟨100, 500, 0⟩, ⟨900, 500, 0⟩, some (.direct 50))] := by
  refine ⟨by decide!, by decide!, by decide!, squareTrack, by decide!, by decide!⟩

/-- C19: a track segment appended by `connectSourceToPipeTrack` can have the same start and end
point, and a later call then constructs a `Line` through two equal points. In the node
`[0, 300] x [0, 1000]` with `maxNodeWidthToSeparate = 100` the sources at `(150, 200)` and
`(150, 800)` stay in one node. Connecting the first source appends the pipe from its point
`(150, 200, 0)` to its entry point, the same point; this pipe is intersected with the node,
so that connecting the second source calls `calculateNearestCenterPoint2D` on it, where
`assert(a != b)` of the constructor of `Line` fails for every square-root function and every
point: the routing of the second source has no defined behaviour. -/
theorem connectSourceToPipeTrack_lays_degenerate_pipe :
    attachAndSeparate 1 sharedNodeFinder.locationGraph sharedNodeObjects
      = some (.ok () sharedNodeFinderAttached.locationGraph) ∧
    sharedNodeFinderAttached.connectSourceToPipeTrack exactSqrt PipeTrack.new 0
      ⟨"S1", ⟨150, 200, 0⟩, 50, 0⟩ = .ok sharedNodeTrack ∧
    (∃ node, sharedNodeTrack.nodePs[0]? = some node ∧ node.startPoint = node.endPoint ∧
      Line.new ⟨node.startPoint.x, node.startPoint.y, 0⟩ ⟨node.endPoint.x, node.endPoint.y, 0⟩
        = none ∧
      ∀ (sqrt : CalcNumber → CalcNumber) (point : Point),
        node.calculateNearestCenterPoint2D sqrt point = none) ∧
    OptimalPipeTrackFinder.pipeTrackNodesForLocationNodes exactSqrt sharedNodeTrack
      sharedNodeFinderAttached.locationGraph.nodePs = some [[0, 1]] ∧
    sharedNodeFinderAttached.connectSourceToPipeTrack exactSqrt sharedNodeTrack 1
      ⟨"S2", ⟨150, 800, 0⟩, 50, 0⟩ = .undefined ∧
    sharedNodeFinder.calculateOptimalPipeTrack exactSqrt 1 = some .undefined := by
  refine ⟨by decide!, by decide!,
    ⟨directNode50 ⟨150, 200, 0⟩ ⟨150, 200, 0⟩, rfl, rfl, by decide!, ?_⟩, by decide!,
    by decide!, by decide!⟩
  intro sqrt point
  simp [PipeTrackNode.calculateNearestCenterPoint2D, directNode50, Line.new]


/-! ## The closest point of a node -/

theorem clamp_eq (v lo hi : CalcNumber) (h : lo ≤ hi) :
    (if v < lo then lo else if v > hi then hi else v) = clamp v lo hi := by
  unfold clamp
  by_cases h1 : v < lo
  · rw [if_pos h1, min_eq_left (by linarith), max_eq_left (le_of_lt h1)]
  · rw [if_neg h1]
    by_cases h2 : v > hi
    · rw [if_pos h2, min_eq_right (le_of_lt h2), max_eq_right h]
    · rw [if_neg h2, min_eq_left (not_lt.mp h2), max_eq_right (not_lt.mp h1)]

theorem clamp_mem (v lo hi : CalcNumber) (h : lo ≤ hi) :
    lo ≤ clamp v lo hi ∧ clamp v lo hi ≤ hi := by
  unfold clamp
  exact ⟨le_max_left _ _, max_le h (min_le_right _ _)⟩

theorem clamp_closest (v lo hi w : CalcNumber) (h1 : lo ≤ w) (h2 : w ≤ hi) :
    (v - clamp v lo hi) * (v - clamp v lo hi) ≤ (v - w) * (v - w) := by
  have h : lo ≤ hi := le_trans h1 h2
  rw [← clamp_eq v lo hi h]
  by_cases c1 : v < lo
  · rw [if_pos c1]
    nlinarith
  · rw [if_neg c1]
    by_cases c2 : v > hi
    · rw [if_pos c2]
      nlinarith
    · rw [if_neg c2]
      nlinarith [mul_self_nonneg (v - w)]

theorem contains_iff (n : LocationGraphNode) (p : Point) :
    n.contains p = true ↔ n.left ≤ p.x ∧ p.x ≤ n.right ∧ n.bottom ≤ p.y ∧ p.y ≤ n.top := by
  simp [LocationGraphNode.contains, and_assoc]

/-- C23: for a node with `left <= right` and `bottom <= top`, `findClosestPoint(p)` returns
the point `(clamp(p.x, left, right), clamp(p.y, bottom, top), 0)`; the node contains the
result; no point that the node contains is closer to `(p.x, p.y)` in the plane; and the
result is `(p.x, p.y, 0)` exactly when the node contains `p`. -/
theorem findClosestPoint_is_clamp_and_closest (n : LocationGraphNode) (p : Point)
    (hx : n.left ≤ n.right) (hy : n.bottom ≤ n.top) :
    n.findClosestPoint p = ⟨clamp p.x n.left n.right, clamp p.y n.bottom n.top, 0⟩ ∧
      n.contains (n.findClosestPoint p) = true ∧
      (∀ q : Point, n.contains q = true →
        planeDistanceSquared p (n.findClosestPoint p) ≤ planeDistanceSquared p q) ∧
      (n.findClosestPoint p = ⟨p.x, p.y, 0⟩ ↔ n.contains p = true) := by
  have e : n.findClosestPoint p = ⟨clamp p.x n.left n.right, clamp p.y n.bottom n.top, 0⟩ := by
    unfold LocationGraphNode.findClosestPoint
    dsimp only
    rw [clamp_eq p.x n.left n.right hx, clamp_eq p.y n.bottom n.top hy]
  refine ⟨e, ?_, ?_, ?_⟩
  · rw [e, contains_iff]
    exact ⟨(clamp_mem _ _ _ hx).1, (clamp_mem _ _ _ hx).2, (clamp_mem _ _ _ hy).1,
      (clamp_mem _ _ _ hy).2⟩
  · intro q hq
    rw [contains_iff] at hq
    rw [e]
    unfold planeDistanceSquared
    dsimp only
    exact add_le_add (clamp_closest p.x n.left n.right q.x hq.1 hq.2.1)
      (clamp_closest p.y n.bottom n.top q.y hq.2.2.1 hq.2.2.2)
  · rw [contains_iff]
    unfold LocationGraphNode.findClosestPoint
    dsimp only
    constructor
    · intro h
      injection h with h1 h2 _
      by_cases c1 : p.x < n.left
      · rw [if_pos c1] at h1
        linarith
      · rw [if_neg c1] at h1
        by_cases c2 : p.x > n.right
        · rw [if_pos c2] at h1
          linarith
        · by_cases c3 : p.y < n.bottom
          · rw [if_pos c3] at h2
            linarith
          · rw [if_neg c3] at h2
            by_cases c4 : p.y > n.top
            · rw [if_pos c4] at h2
              linarith
            · exact ⟨not_lt.mp c1, not_lt.mp c2, not_lt.mp c3, not_lt.mp c4⟩
    · rintro ⟨h1, h2, h3, h4⟩
      rw [if_neg (not_lt.mpr h1), if_neg (not_lt.mpr h2), if_neg (not_lt.mpr h3),
        if_neg (not_lt.mpr h4)]

/-- Witness for C23: the node `[0, 1000] x [0, 1000]` and the point `(1200, 500, 7)` outside
of it, whose closest point in the node is `(1000, 500, 0)`. -/
theorem findClosestPoint_is_clamp_and_closest_witness :
    (LocationGraphNode.new 0 0 1000 0 1000).findClosestPoint ⟨1200, 500, 7⟩ = ⟨1000, 500, 0⟩ ∧
      ((LocationGraphNode.new 0 0 1000 0 1000).findClosestPoint ⟨1200, 500, 7⟩
          = ⟨clamp 1200 0 1000, clamp 500 0 1000, 0⟩ ∧
        (LocationGraphNode.new 0 0 1000 0 1000).contains
          ((LocationGraphNode.new 0 0 1000 0 1000).findClosestPoint ⟨1200, 500, 7⟩) = true ∧
        (∀ q : Point, (LocationGraphNode.new 0 0 1000 0 1000).contains q = true →
          planeDistanceSquared ⟨1200, 500, 7⟩
              ((LocationGraphNode.new 0 0 1000 0 1000).findClosestPoint ⟨1200, 500, 7⟩)
            ≤ planeDistanceSquared ⟨1200, 500, 7⟩ q) ∧
        ((LocationGraphNode.new 0 0 1000 0 1000).findClosestPoint ⟨1200, 500, 7⟩
            = ⟨1200, 500, 0⟩ ↔
          (LocationGraphNode.new 0 0 1000 0 1000).contains ⟨1200, 500, 7⟩ = true)) :=
  ⟨by decide!, findClosestPoint_is_clamp_and_closest (LocationGraphNode.new 0 0 1000 0 1000)
    ⟨1200, 500, 7⟩ (by decide!) (by decide!)⟩


/-! ## The footprint of a pipe and a rectangle -/

theorem axisRectanglesAreIntersected_iff (l1 r1 b1 t1 l2 r2 b2 t2 : CalcNumber)
    (h : Overlap l1 r1 b1 t1 l2 r2 b2 t2) :
    PipeTrackNode.axisRectanglesAreIntersected l1 r1 b1 t1 l2 r2 b2 t2 = true
      ↔ ¬ Crossing l1 r1 b1 t1 l2 r2 b2 t2 := by
  obtain ⟨h1, h2, h3, h4⟩ := h
  unfold PipeTrackNode.axisRectanglesAreIntersected Crossing
  split_ifs with c1 c2 c3 c4 c5
  · simp only [true_iff]
    rintro (⟨a, b, c, d⟩ | ⟨a, b, c, d⟩) <;> rcases c1 with e | e <;> linarith
  · simp only [decide_eq_true_eq]
    constructor
    · intro _
      rintro (⟨a, b, c, d⟩ | ⟨a, b, c, d⟩) <;> rcases c1 with e | e <;> linarith
    · intro _; linarith
  · simp only [decide_eq_true_eq]
    constructor
    · intro _
      rintro (⟨a, b, c, d⟩ | ⟨a, b, c, d⟩) <;> rcases c1 with e | e <;> linarith
    · intro _; linarith
  · simp only [decide_eq_true_eq]
    constructor
    · intro _
      rintro (⟨a, b, c, d⟩ | ⟨a, b, c, d⟩) <;> rcases c4 with e | e <;> linarith
    · intro _; linarith
  · simp only [decide_eq_true_eq]
    constructor
    · intro _
      rintro (⟨a, b, c, d⟩ | ⟨a, b, c, d⟩) <;> rcases c4 with e | e <;> linarith
    · intro _; linarith
  · simp only [decide_eq_true_eq]
    push_neg at c1 c4
    obtain ⟨n1, n2⟩ := c1
    obtain ⟨n3, n4⟩ := c4
    rcases lt_or_gt_of_ne n1 with x1 | x1 <;> rcases lt_or_gt_of_ne n2 with x2 | x2 <;>
      rcases lt_or_gt_of_ne n3 with y1 | y1 <;> rcases lt_or_gt_of_ne n4 with y2 | y2 <;>
      constructor <;> intro hh
    all_goals first
      | (rintro (⟨a, b, c, d⟩ | ⟨a, b, c, d⟩) <;>
          rcases hh with ⟨p, q, r, s⟩ | ⟨p, q, r, s⟩ | ⟨p, q, r, s⟩ | ⟨p, q, r, s⟩ |
            ⟨p, q, r, s⟩ | ⟨p, q, r, s⟩ | ⟨p, q, r, s⟩ | ⟨p, q, r, s⟩ <;> linarith)
      | (exfalso; apply hh; first
          | exact Or.inl ⟨by linarith, by linarith, by linarith, by linarith⟩
          | exact Or.inr ⟨by linarith, by linarith, by linarith, by linarith⟩)
      | exact Or.inl ⟨by linarith, by linarith, by linarith, by linarith⟩
      | exact Or.inr (Or.inl ⟨by linarith, by linarith, by linarith, by linarith⟩)
      | exact Or.inr (Or.inr (Or.inl ⟨by linarith, by linarith, by linarith, by linarith⟩))
      | exact Or.inr (Or.inr (Or.inr (Or.inl
          ⟨by linarith, by linarith, by linarith, by linarith⟩)))
      | exact Or.inr (Or.inr (Or.inr (Or.inr (Or.inl
          ⟨by linarith, by linarith, by linarith, by linarith⟩))))
      | exact Or.inr (Or.inr (Or.inr (Or.inr (Or.inr (Or.inl
          ⟨by linarith, by linarith, by linarith, by linarith⟩)))))
      | exact Or.inr (Or.inr (Or.inr (Or.inr (Or.inr (Or.inr (Or.inl
          ⟨by linarith, by linarith, by linarith, by linarith⟩))))))

theorem isIntersectedWithRectangle_direct (sqrt : CalcNumber → CalcNumber) (self : PipeTrackNode)
    (pipeObject : PipeObject) (diameter width : Nat) (left right bottom top : CalcNumber)
    (htype : self.type = .direct) (hpipe : self.pipeObjectP = some pipeObject)
    (hdata : pipeObject.data = .direct diameter)
    (hwidth : PipeTrackNode.externalDiameter pipeObject diameter = some width)
    (haxis : self.endPoint.x - self.startPoint.x = 0 ∨ self.endPoint.y - self.startPoint.y = 0) :
    self.isIntersectedWithRectangle sqrt left right bottom top
      = some (decide
          (Overlap (footprint self.startPoint self.endPoint width).1
              (footprint self.startPoint self.endPoint width).2.1
              (footprint self.startPoint self.endPoint width).2.2.1
              (footprint self.startPoint self.endPoint width).2.2.2 left right bottom top
            ∧ ¬ Crossing (footprint self.startPoint self.endPoint width).1
              (footprint self.startPoint self.endPoint width).2.1
              (footprint self.startPoint self.endPoint width).2.2.1
              (footprint self.startPoint self.endPoint width).2.2.2 left right bottom top)) := by
  unfold PipeTrackNode.isIntersectedWithRectangle
  rw [hpipe]
  dsimp only
  rw [htype, hdata]
  dsimp only
  rw [hwidth]
  simp only [Option.some_bind]
  unfold PipeTrackNode.rectanglesAreIntersected
  simp only [Point.sub]
  rw [if_pos haxis]
  unfold footprint
  by_cases hx : self.endPoint.x - self.startPoint.x = 0
  · simp only [if_pos hx]
    by_cases hno : self.startPoint.x - (width : CalcNumber) / 2 ≥ right
        ∨ self.startPoint.x + (width : CalcNumber) / 2 ≤ left
        ∨ min self.startPoint.y self.endPoint.y ≥ top
        ∨ max self.startPoint.y self.endPoint.y ≤ bottom
    · rw [if_pos hno]
      congr 1
      symm
      rw [decide_eq_false_iff_not]
      rintro ⟨⟨a, b, c, d⟩, _⟩
      rcases hno with e | e | e | e <;> linarith
    · rw [if_neg hno]
      push_neg at hno
      have ho : Overlap (self.startPoint.x - (width : CalcNumber) / 2)
          (self.startPoint.x + (width : CalcNumber) / 2)
          (min self.startPoint.y self.endPoint.y) (max self.startPoint.y self.endPoint.y)
          left right bottom top := ⟨hno.1, hno.2.1, hno.2.2.1, hno.2.2.2⟩
      congr 1
      rw [Bool.eq_iff_iff, axisRectanglesAreIntersected_iff _ _ _ _ _ _ _ _ ho,
        decide_eq_true_iff]
      exact ⟨fun h => ⟨ho, h⟩, fun h => h.2⟩
  · simp only [if_neg hx]
    by_cases hno : min self.startPoint.x self.endPoint.x ≥ right
        ∨ max self.startPoint.x self.endPoint.x ≤ left
        ∨ self.startPoint.y - (width : CalcNumber) / 2 ≥ top
        ∨ self.startPoint.y + (width : CalcNumber) / 2 ≤ bottom
    · rw [if_pos hno]
      congr 1
      symm
      rw [decide_eq_false_iff_not]
      rintro ⟨⟨a, b, c, d⟩, _⟩
      rcases hno with e | e | e | e <;> linarith
    · rw [if_neg hno]
      push_neg at hno
      have ho : Overlap (min self.startPoint.x self.endPoint.x)
          (max self.startPoint.x self.endPoint.x)
          (self.startPoint.y - (width : CalcNumber) / 2)
          (self.startPoint.y + (width : CalcNumber) / 2)
          left right bottom top := ⟨hno.1, hno.2.1, hno.2.2.1, hno.2.2.2⟩
      congr 1
      rw [Bool.eq_iff_iff, axisRectanglesAreIntersected_iff _ _ _ _ _ _ _ _ ho,
        decide_eq_true_iff]
      exact ⟨fun h => ⟨ho, h⟩, fun h => h.2⟩

/-- C21: for a direct pipe whose axis is parallel to Ox or Oy, `isIntersectedWithRectangle`
does not return true for every rectangle that overlaps the footprint of the pipe beyond the
boundaries. The pipe of external diameter 60 from `(0, 500, 0)` to `(1000, 500, 0)` has the
footprint `[0, 1000] x [470, 530]`, which crosses the rectangle `[400, 600] x [0, 1000]`, and
the method returns false: when no two bounds are equal, step 3 of `rectanglesAreIntersected`
only looks for a corner of one rectangle inside the other one. In general the method returns
true exactly when the footprint and the rectangle overlap and do not cross. -/
theorem isIntersectedWithRectangle_misses_crossing :
    footprint ⟨0, 500, 0⟩ ⟨1000, 500, 0⟩ 60 = (0, 1000, 470, 530) ∧
    Overlap 0 1000 470 530 400 600 0 1000 ∧
    (∀ sqrt : CalcNumber → CalcNumber,
      (directNode50 ⟨0, 500, 0⟩ ⟨1000, 500, 0⟩).isIntersectedWithRectangle sqrt 400 600 0 1000
        = some false) ∧
    (∀ (sqrt : CalcNumber → CalcNumber) (self : PipeTrackNode) (pipeObject : PipeObject)
        (diameter width : Nat) (left right bottom top : CalcNumber),
      self.type = .direct → self.pipeObjectP = some pipeObject →
      pipeObject.data = .direct diameter →
      PipeTrackNode.externalDiameter pipeObject diameter = some width →
      (self.endPoint.x - self.startPoint.x = 0 ∨ self.endPoint.y - self.startPoint.y = 0) →
      (self.isIntersectedWithRectangle sqrt left right bottom top = some true ↔
        Overlap (footprint self.startPoint self.endPoint width).1
            (footprint self.startPoint self.endPoint width).2.1
            (footprint self.startPoint self.endPoint width).2.2.1
            (footprint self.startPoint self.endPoint width).2.2.2 left right bottom top
          ∧ ¬ Crossing (footprint self.startPoint self.endPoint width).1
            (footprint self.startPoint self.endPoint width).2.1
            (footprint self.startPoint self.endPoint width).2.2.1
            (footprint self.startPoint self.endPoint width).2.2.2 left right bottom top)) := by
  refine ⟨by decide!, by decide!, ?_, ?_⟩
  · intro sqrt
    rw [isIntersectedWithRectangle_direct sqrt _ directPipe50 50 60 400 600 0 1000 rfl rfl rfl
      (by decide) (Or.inr (by decide!))]
    congr 1
    decide!
  · intro sqrt self pipeObject diameter width left right bottom top htype hpipe hdata hwidth
      haxis
    rw [isIntersectedWithRectangle_direct sqrt self pipeObject diameter width left right bottom
      top htype hpipe hdata hwidth haxis]
    simp only [Option.some.injEq, decide_eq_true_eq]


/-! ## The solver of linear systems -/

theorem determinant3_eq_det (a11 a12 a13 b1 a21 a22 a23 b2 a31 a32 a33 b3 : CalcNumber) :
    determinant3 ⟨a11, a12, a13, b1⟩ ⟨a21, a22, a23, b2⟩ ⟨a31, a32, a33, b3⟩
      = (Matrix.of ![![a11, a12, a13], ![a21, a22, a23], ![a31, a32, a33]]).det := by
  rw [Matrix.det_fin_three]
  simp [determinant3]
  ring

theorem eliminate_zero_eq (rowI rowK : SoLERow) (h : rowI.c0 ≠ 0) :
    SoLESolver.eliminate 0 rowI rowK = rowK.minus rowI (rowK.c0 / rowI.c0) := by
  simp only [SoLESolver.eliminate, SoLESolver.entry, SoLERow.minus]
  simp only [if_true, Nat.lt_irrefl, if_false, one_ne_zero, Nat.zero_lt_one,
    OfNat.ofNat_ne_zero, Nat.ofNat_pos, OfNat.ofNat_ne_one]
  congr 1
  field_simp

theorem eliminate_one_eq (rowI rowK : SoLERow) (h0 : rowI.c0 = 0) (h : rowI.c1 ≠ 0) :
    SoLESolver.eliminate 1 rowI rowK = rowK.minus rowI (rowK.c1 / rowI.c1) := by
  simp only [SoLESolver.eliminate, SoLESolver.entry, SoLERow.minus]
  simp only [if_true, Nat.lt_irrefl, if_false, one_ne_zero, Nat.zero_lt_one,
    OfNat.ofNat_ne_zero, Nat.ofNat_pos, OfNat.ofNat_ne_one, zero_ne_one, Nat.not_lt_zero,
    Nat.one_lt_ofNat]
  rw [h0]
  congr 1
  · ring
  · field_simp

theorem satisfies_minus (rowK rowI : SoLERow) (coef : CalcNumber) (p : Point)
    (h : rowI.Satisfies p) : (rowK.minus rowI coef).Satisfies p ↔ rowK.Satisfies p := by
  unfold SoLERow.Satisfies at *
  simp only [SoLERow.minus]
  constructor
  · intro e; linear_combination e + coef * h
  · intro e; linear_combination e - coef * h

theorem determinant3_minus_one (r0 r1 r2 : SoLERow) (coef : CalcNumber) :
    determinant3 r0 (r1.minus r0 coef) r2 = determinant3 r0 r1 r2 := by
  simp only [determinant3, SoLERow.minus]
  ring

theorem determinant3_minus_two (r0 r1 r2 : SoLERow) (coef : CalcNumber) :
    determinant3 r0 r1 (r2.minus r0 coef) = determinant3 r0 r1 r2 := by
  simp only [determinant3, SoLERow.minus]
  ring

theorem determinant3_minus_two_one (r0 r1 r2 : SoLERow) (coef : CalcNumber) :
    determinant3 r0 r1 (r2.minus r1 coef) = determinant3 r0 r1 r2 := by
  simp only [determinant3, SoLERow.minus]
  ring

theorem determinant3_exchange_zero_one (r0 r1 r2 : SoLERow) :
    determinant3 r1 r0 r2 = - determinant3 r0 r1 r2 := by
  simp only [determinant3]
  ring

theorem determinant3_exchange_zero_two (r0 r1 r2 : SoLERow) :
    determinant3 r2 r1 r0 = - determinant3 r0 r1 r2 := by
  simp only [determinant3]
  ring

theorem determinant3_exchange_one_two (r0 r1 r2 : SoLERow) :
    determinant3 r0 r2 r1 = - determinant3 r0 r1 r2 := by
  simp only [determinant3]
  ring

theorem gaussStep_zero_pivot (r0 r1 r2 s0 s1 s2 : SoLERow)
    (hs : (s0 = r0 ∧ s1 = r1 ∧ s2 = r2) ∨ (s0 = r1 ∧ s1 = r0 ∧ s2 = r2)
      ∨ (s0 = r2 ∧ s1 = r1 ∧ s2 = r0))
    (h0 : s0.c0 ≠ 0) :
    SoLESolver.eliminate 0 s0 s1 = s1.minus s0 (s1.c0 / s0.c0) ∧
      SoLESolver.eliminate 0 s0 s2 = s2.minus s0 (s2.c0 / s0.c0) ∧
      (s1.minus s0 (s1.c0 / s0.c0)).c0 = 0 ∧ (s2.minus s0 (s2.c0 / s0.c0)).c0 = 0 ∧
      (determinant3 s0 (s1.minus s0 (s1.c0 / s0.c0)) (s2.minus s0 (s2.c0 / s0.c0))
          = determinant3 r0 r1 r2
        ∨ determinant3 s0 (s1.minus s0 (s1.c0 / s0.c0)) (s2.minus s0 (s2.c0 / s0.c0))
          = - determinant3 r0 r1 r2) ∧
      ∀ p, (s0.Satisfies p ∧ (s1.minus s0 (s1.c0 / s0.c0)).Satisfies p
          ∧ (s2.minus s0 (s2.c0 / s0.c0)).Satisfies p)
        ↔ (r0.Satisfies p ∧ r1.Satisfies p ∧ r2.Satisfies p) := by
  refine ⟨eliminate_zero_eq s0 s1 h0, eliminate_zero_eq s0 s2 h0, ?_, ?_, ?_, ?_⟩
  · simp only [SoLERow.minus]; field_simp
  · simp only [SoLERow.minus]; field_simp
  · rw [determinant3_minus_two, determinant3_minus_one]
    rcases hs with ⟨e0, e1, e2⟩ | ⟨e0, e1, e2⟩ | ⟨e0, e1, e2⟩ <;> subst e0 e1 e2
    · exact Or.inl rfl
    · exact Or.inr (determinant3_exchange_zero_one _ _ _)
    · exact Or.inr (determinant3_exchange_zero_two _ _ _)
  · intro p
    have key : (s0.Satisfies p ∧ (s1.minus s0 (s1.c0 / s0.c0)).Satisfies p
          ∧ (s2.minus s0 (s2.c0 / s0.c0)).Satisfies p)
        ↔ (s0.Satisfies p ∧ s1.Satisfies p ∧ s2.Satisfies p) := by
      constructor
      · rintro ⟨a, b, c⟩
        exact ⟨a, (satisfies_minus s1 s0 _ p a).mp b, (satisfies_minus s2 s0 _ p a).mp c⟩
      · rintro ⟨a, b, c⟩
        exact ⟨a, (satisfies_minus s1 s0 _ p a).mpr b, (satisfies_minus s2 s0 _ p a).mpr c⟩
    rw [key]
    rcases hs with ⟨e0, e1, e2⟩ | ⟨e0, e1, e2⟩ | ⟨e0, e1, e2⟩ <;> subst e0 e1 e2 <;> tauto

theorem gaussStep_zero_none (r0 r1 r2 : SoLERow) (h0 : r0.c0 = 0) (h1 : r1.c0 = 0)
    (h2 : r2.c0 = 0) : SoLESolver.gaussStep 0 [r0, r1, r2] = none := by
  simp [SoLESolver.gaussStep, SoLESolver.pivotRow, SoLESolver.entry, List.range', h0, h1, h2]

theorem gaussStep_zero (r0 r1 r2 : SoLERow) (h : ¬ (r0.c0 = 0 ∧ r1.c0 = 0 ∧ r2.c0 = 0)) :
    ∃ s0 s1 s2, SoLESolver.gaussStep 0 [r0, r1, r2] = some [s0, s1, s2] ∧
      s0.c0 ≠ 0 ∧ s1.c0 = 0 ∧ s2.c0 = 0 ∧
      (determinant3 s0 s1 s2 = determinant3 r0 r1 r2
        ∨ determinant3 s0 s1 s2 = - determinant3 r0 r1 r2) ∧
      ∀ p, (s0.Satisfies p ∧ s1.Satisfies p ∧ s2.Satisfies p)
        ↔ (r0.Satisfies p ∧ r1.Satisfies p ∧ r2.Satisfies p) := by
  by_cases h1 : r0.c0 = 0
  · by_cases h2 : r1.c0 = 0
    · have h3 : r2.c0 ≠ 0 := fun h3 => h ⟨h1, h2, h3⟩
      obtain ⟨e1, e2, z1, z2, d, s⟩ := gaussStep_zero_pivot r0 r1 r2 r2 r1 r0
        (Or.inr (Or.inr ⟨rfl, rfl, rfl⟩)) h3
      refine ⟨r2, _, _, ?_, h3, z1, z2, d, s⟩
      simp [SoLESolver.gaussStep, SoLESolver.pivotRow, SoLESolver.entry, List.range', h1, h2,
        h3, e1, e2]
    · obtain ⟨e1, e2, z1, z2, d, s⟩ := gaussStep_zero_pivot r0 r1 r2 r1 r0 r2
        (Or.inr (Or.inl ⟨rfl, rfl, rfl⟩)) h2
      refine ⟨r1, _, _, ?_, h2, z1, z2, d, s⟩
      simp [SoLESolver.gaussStep, SoLESolver.pivotRow, SoLESolver.entry, List.range', h1, h2,
        e1, e2]
  · obtain ⟨e1, e2, z1, z2, d, s⟩ := gaussStep_zero_pivot r0 r1 r2 r0 r1 r2
      (Or.inl ⟨rfl, rfl, rfl⟩) h1
    refine ⟨r0, _, _, ?_, h1, z1, z2, d, s⟩
    simp [SoLESolver.gaussStep, SoLESolver.pivotRow, SoLESolver.entry, List.range', h1,
      e1, e2]

theorem gaussStep_one_pivot (s0 s1 s2 t1 t2 : SoLERow)
    (hs : (t1 = s1 ∧ t2 = s2) ∨ (t1 = s2 ∧ t2 = s1))
    (h1 : s1.c0 = 0) (h2 : s2.c0 = 0) (ht : t1.c1 ≠ 0) :
    SoLESolver.eliminate 1 t1 t2 = t2.minus t1 (t2.c1 / t1.c1) ∧
      t1.c0 = 0 ∧ (t2.minus t1 (t2.c1 / t1.c1)).c0 = 0 ∧
      (t2.minus t1 (t2.c1 / t1.c1)).c1 = 0 ∧
      (determinant3 s0 t1 (t2.minus t1 (t2.c1 / t1.c1)) = determinant3 s0 s1 s2
        ∨ determinant3 s0 t1 (t2.minus t1 (t2.c1 / t1.c1)) = - determinant3 s0 s1 s2) ∧
      ∀ p, (s0.Satisfies p ∧ t1.Satisfies p ∧ (t2.minus t1 (t2.c1 / t1.c1)).Satisfies p)
        ↔ (s0.Satisfies p ∧ s1.Satisfies p ∧ s2.Satisfies p) := by
  have ht0 : t1.c0 = 0 := by rcases hs with ⟨e1, _⟩ | ⟨e1, _⟩ <;> rw [e1] <;> assumption
  have ht2 : t2.c0 = 0 := by rcases hs with ⟨_, e2⟩ | ⟨_, e2⟩ <;> rw [e2] <;> assumption
  refine ⟨eliminate_one_eq t1 t2 ht0 ht, ht0, ?_, ?_, ?_, ?_⟩
  · simp only [SoLERow.minus, ht0, ht2]; ring
  · simp only [SoLERow.minus]; field_simp
  · rw [determinant3_minus_two_one]
    rcases hs with ⟨e1, e2⟩ | ⟨e1, e2⟩ <;> subst e1 e2
    · exact Or.inl rfl
    · exact Or.inr (determinant3_exchange_one_two _ _ _)
  · intro p
    have key : (s0.Satisfies p ∧ t1.Satisfies p ∧ (t2.minus t1 (t2.c1 / t1.c1)).Satisfies p)
        ↔ (s0.Satisfies p ∧ t1.Satisfies p ∧ t2.Satisfies p) := by
      constructor
      · rintro ⟨a, b, c⟩
        exact ⟨a, b, (satisfies_minus t2 t1 _ p b).mp c⟩
      · rintro ⟨a, b, c⟩
        exact ⟨a, b, (satisfies_minus t2 t1 _ p b).mpr c⟩
    rw [key]
    rcases hs with ⟨e1, e2⟩ | ⟨e1, e2⟩ <;> subst e1 e2 <;> tauto

theorem gaussStep_one_none (s0 s1 s2 : SoLERow) (h1 : s1.c1 = 0) (h2 : s2.c1 = 0) :
    SoLESolver.gaussStep 1 [s0, s1, s2] = none := by
  simp [SoLESolver.gaussStep, SoLESolver.pivotRow, SoLESolver.entry, List.range', h1, h2]

theorem gaussStep_one (s0 s1 s2 : SoLERow) (h1 : s1.c0 = 0) (h2 : s2.c0 = 0)
    (h : ¬ (s1.c1 = 0 ∧ s2.c1 = 0)) :
    ∃ t1 t2, SoLESolver.gaussStep 1 [s0, s1, s2] = some [s0, t1, t2] ∧
      t1.c0 = 0 ∧ t1.c1 ≠ 0 ∧ t2.c0 = 0 ∧ t2.c1 = 0 ∧
      (determinant3 s0 t1 t2 = determinant3 s0 s1 s2
        ∨ determinant3 s0 t1 t2 = - determinant3 s0 s1 s2) ∧
      ∀ p, (s0.Satisfies p ∧ t1.Satisfies p ∧ t2.Satisfies p)
        ↔ (s0.Satisfies p ∧ s1.Satisfies p ∧ s2.Satisfies p) := by
  by_cases c1 : s1.c1 = 0
  · have c2 : s2.c1 ≠ 0 := fun c2 => h ⟨c1, c2⟩
    obtain ⟨e, z0, z1, z2, d, s⟩ := gaussStep_one_pivot s0 s1 s2 s2 s1 (Or.inr ⟨rfl, rfl⟩)
      h1 h2 c2
    refine ⟨s2, _, ?_, z0, c2, z1, z2, d, s⟩
    simp [SoLESolver.gaussStep, SoLESolver.pivotRow, SoLESolver.entry, List.range', c1, c2, e]
  · obtain ⟨e, z0, z1, z2, d, s⟩ := gaussStep_one_pivot s0 s1 s2 s1 s2 (Or.inl ⟨rfl, rfl⟩)
      h1 h2 c1
    refine ⟨s1, _, ?_, z0, c1, z1, z2, d, s⟩
    simp [SoLESolver.gaussStep, SoLESolver.pivotRow, SoLESolver.entry, List.range', c1, e]

theorem gaussStep_two (s0 t1 t2 : SoLERow) (h : t2.c2 ≠ 0) :
    SoLESolver.gaussStep 2 [s0, t1, t2] = some [s0, t1, t2] := by
  simp [SoLESolver.gaussStep, SoLESolver.pivotRow, SoLESolver.entry, List.range', h]

theorem gaussStep_two_none (s0 t1 t2 : SoLERow) (h : t2.c2 = 0) :
    SoLESolver.gaussStep 2 [s0, t1, t2] = none := by
  simp [SoLESolver.gaussStep, SoLESolver.pivotRow, SoLESolver.entry, List.range', h]

theorem ne_zero_of_eq_or_neg (a b : CalcNumber) (h : a = b ∨ a = -b) : a ≠ 0 ↔ b ≠ 0 := by
  rcases h with e | e <;> rw [e]
  exact neg_ne_zero

theorem solveSoLE3x3_spec (a11 a12 a13 b1 a21 a22 a23 b2 a31 a32 a33 b3 : CalcNumber)
    (hdet : determinant3 ⟨a11, a12, a13, b1⟩ ⟨a21, a22, a23, b2⟩ ⟨a31, a32, a33, b3⟩ ≠ 0) :
    ∃ p, SoLESolver.solveSoLE3x3WithNonZeroDeterminant a11 a12 a13 b1 a21 a22 a23 b2
        a31 a32 a33 b3 = some p ∧
      (SoLERow.mk a11 a12 a13 b1).Satisfies p ∧ (SoLERow.mk a21 a22 a23 b2).Satisfies p ∧
      (SoLERow.mk a31 a32 a33 b3).Satisfies p := by
  have hp0 : ¬ ((SoLERow.mk a11 a12 a13 b1).c0 = 0 ∧ (SoLERow.mk a21 a22 a23 b2).c0 = 0
      ∧ (SoLERow.mk a31 a32 a33 b3).c0 = 0) := by
    rintro ⟨h1, h2, h3⟩
    dsimp only at h1 h2 h3
    apply hdet
    simp only [determinant3, h1, h2, h3]
    ring
  obtain ⟨s0, s1, s2, e0, p0, z1, z2, d0, sol0⟩ := gaussStep_zero _ _ _ hp0
  have d0' : determinant3 s0 s1 s2 ≠ 0 := (ne_zero_of_eq_or_neg _ _ d0).mpr hdet
  have hp1 : ¬ (s1.c1 = 0 ∧ s2.c1 = 0) := by
    rintro ⟨c1, c2⟩
    apply d0'
    simp only [determinant3, z1, z2, c1, c2]
    ring
  obtain ⟨t1, t2, e1, y0, p1, y1, y2, d1, sol1⟩ := gaussStep_one s0 s1 s2 z1 z2 hp1
  have d1' : determinant3 s0 t1 t2 ≠ 0 := (ne_zero_of_eq_or_neg _ _ d1).mpr d0'
  have p2 : t2.c2 ≠ 0 := by
    intro h
    apply d1'
    simp only [determinant3, y0, y1, y2, h]
    ring
  have e2 := gaussStep_two s0 t1 t2 p2
  refine ⟨⟨(s0.rightPart - s0.c1 * ((t1.rightPart - t1.c2 * (t2.rightPart / t2.c2)) / t1.c1)
      - s0.c2 * (t2.rightPart / t2.c2)) / s0.c0,
    (t1.rightPart - t1.c2 * (t2.rightPart / t2.c2)) / t1.c1, t2.rightPart / t2.c2⟩, ?_, ?_⟩
  · unfold SoLESolver.solveSoLE3x3WithNonZeroDeterminant
    rw [e0]
    simp only [Option.some_bind]
    rw [e1]
    simp only [Option.some_bind]
    rw [e2]
  · apply (sol0 _).mp
    apply (sol1 _).mp
    refine ⟨?_, ?_, ?_⟩
    · simp only [SoLERow.Satisfies]
      field_simp
      ring
    · simp only [SoLERow.Satisfies, y0]
      field_simp
      ring
    · simp only [SoLERow.Satisfies, y1, y2]
      field_simp

theorem solveSoLE3x3_none (a11 a12 a13 b1 a21 a22 a23 b2 a31 a32 a33 b3 : CalcNumber)
    (hdet : determinant3 ⟨a11, a12, a13, b1⟩ ⟨a21, a22, a23, b2⟩ ⟨a31, a32, a33, b3⟩ = 0) :
    SoLESolver.solveSoLE3x3WithNonZeroDeterminant a11 a12 a13 b1 a21 a22 a23 b2
      a31 a32 a33 b3 = none := by
  unfold SoLESolver.solveSoLE3x3WithNonZeroDeterminant
  by_cases hp0 : (SoLERow.mk a11 a12 a13 b1).c0 = 0 ∧ (SoLERow.mk a21 a22 a23 b2).c0 = 0
      ∧ (SoLERow.mk a31 a32 a33 b3).c0 = 0
  · rw [gaussStep_zero_none _ _ _ hp0.1 hp0.2.1 hp0.2.2]
    rfl
  · obtain ⟨s0, s1, s2, e0, p0, z1, z2, d0, _⟩ := gaussStep_zero _ _ _ hp0
    have d0' : determinant3 s0 s1 s2 = 0 := by
      rcases d0 with e | e <;> rw [e, hdet]
      exact neg_zero
    rw [e0]
    simp only [Option.some_bind]
    by_cases hp1 : s1.c1 = 0 ∧ s2.c1 = 0
    · rw [gaussStep_one_none _ _ _ hp1.1 hp1.2]
      rfl
    · obtain ⟨t1, t2, e1, y0, p1, y1, y2, d1, _⟩ := gaussStep_one s0 s1 s2 z1 z2 hp1
      have d1' : determinant3 s0 t1 t2 = 0 := by
        rcases d1 with e | e <;> rw [e, d0']
        exact neg_zero
      have p2 : t2.c2 = 0 := by
        simp only [determinant3, y0, y1, y2] at d1'
        have : s0.c0 * t1.c1 * t2.c2 = 0 := by linear_combination d1'
        rcases mul_eq_zero.mp this with h | h
        · rcases mul_eq_zero.mp h with h | h
          · exact absurd h p0
          · exact absurd h p1
        · exact h
      rw [e1]
      simp only [Option.some_bind]
      rw [gaussStep_two_none _ _ _ p2]

theorem solveSoLE3x3_unique (r0 r1 r2 : SoLERow) (hdet : determinant3 r0 r1 r2 ≠ 0)
    (p q : Point) (hp : r0.Satisfies p ∧ r1.Satisfies p ∧ r2.Satisfies p)
    (hq : r0.Satisfies q ∧ r1.Satisfies q ∧ r2.Satisfies q) : p = q := by
  obtain ⟨p0, p1, p2⟩ := hp
  obtain ⟨q0, q1, q2⟩ := hq
  unfold SoLERow.Satisfies at *
  unfold determinant3 at hdet
  have hx : (r0.c0 * (r1.c1 * r2.c2 - r1.c2 * r2.c1) - r0.c1 * (r1.c0 * r2.c2 - r1.c2 * r2.c0)
      + r0.c2 * (r1.c0 * r2.c1 - r1.c1 * r2.c0)) * (p.x - q.x) = 0 := by
    linear_combination (r1.c1 * r2.c2 - r1.c2 * r2.c1) * (p0 - q0)
      - (r0.c1 * r2.c2 - r0.c2 * r2.c1) * (p1 - q1)
      + (r0.c1 * r1.c2 - r0.c2 * r1.c1) * (p2 - q2)
  have hy : (r0.c0 * (r1.c1 * r2.c2 - r1.c2 * r2.c1) - r0.c1 * (r1.c0 * r2.c2 - r1.c2 * r2.c0)
      + r0.c2 * (r1.c0 * r2.c1 - r1.c1 * r2.c0)) * (p.y - q.y) = 0 := by
    linear_combination - (r1.c0 * r2.c2 - r1.c2 * r2.c0) * (p0 - q0)
      + (r0.c0 * r2.c2 - r0.c2 * r2.c0) * (p1 - q1)
      - (r0.c0 * r1.c2 - r0.c2 * r1.c0) * (p2 - q2)
  have hz : (r0.c0 * (r1.c1 * r2.c2 - r1.c2 * r2.c1) - r0.c1 * (r1.c0 * r2.c2 - r1.c2 * r2.c0)
      + r0.c2 * (r1.c0 * r2.c1 - r1.c1 * r2.c0)) * (p.z - q.z) = 0 := by
    linear_combination (r1.c0 * r2.c1 - r1.c1 * r2.c0) * (p0 - q0)
      - (r0.c0 * r2.c1 - r0.c1 * r2.c0) * (p1 - q1)
      + (r0.c0 * r1.c1 - r0.c1 * r1.c0) * (p2 - q2)
  have ex := sub_eq_zero.mp ((mul_eq_zero.mp hx).resolve_left hdet)
  have ey := sub_eq_zero.mp ((mul_eq_zero.mp hy).resolve_left hdet)
  have ez := sub_eq_zero.mp ((mul_eq_zero.mp hz).resolve_left hdet)
  cases p
  cases q
  simp only at ex ey ez
  subst ex ey ez
  rfl

/-- C26: for every system of three equations whose matrix of coefficients has a determinant
other than zero, `solveSoLE3x3WithNonZeroDeterminant` returns a point, without a quotient by
zero and without reaching `assert(false)`; the point satisfies the three equations, and it is
the only point that does. -/
theorem solveSoLE3x3WithNonZeroDeterminant_solves
    (a11 a12 a13 b1 a21 a22 a23 b2 a31 a32 a33 b3 : CalcNumber)
    (hdet : (Matrix.of ![![a11, a12, a13], ![a21, a22, a23], ![a31, a32, a33]]).det ≠ 0) :
    ∃ p, SoLESolver.solveSoLE3x3WithNonZeroDeterminant a11 a12 a13 b1 a21 a22 a23 b2
        a31 a32 a33 b3 = some p ∧
      a11 * p.x + a12 * p.y + a13 * p.z = b1 ∧
      a21 * p.x + a22 * p.y + a23 * p.z = b2 ∧
      a31 * p.x + a32 * p.y + a33 * p.z = b3 ∧
      ∀ q : Point, a11 * q.x + a12 * q.y + a13 * q.z = b1 →
        a21 * q.x + a22 * q.y + a23 * q.z = b2 →
        a31 * q.x + a32 * q.y + a33 * q.z = b3 → q = p := by
  rw [← determinant3_eq_det a11 a12 a13 b1 a21 a22 a23 b2 a31 a32 a33 b3] at hdet
  obtain ⟨p, hp, s1, s2, s3⟩ := solveSoLE3x3_spec a11 a12 a13 b1 a21 a22 a23 b2 a31 a32 a33 b3
    hdet
  refine ⟨p, hp, s1, s2, s3, ?_⟩
  intro q q1 q2 q3
  exact solveSoLE3x3_unique _ _ _ hdet q p ⟨q1, q2, q3⟩ ⟨s1, s2, s3⟩

/-- Witness for C26: the system of the test of the solver, with the determinant -10, whose
solution is `(-1.4, -2, -4.2)`. -/
theorem solveSoLE3x3WithNonZeroDeterminant_solves_witness :
    SoLESolver.solveSoLE3x3WithNonZeroDeterminant 2 (-2) 1 (-3) 1 3 (-2) 1 3 (-1) (-1) 2
        = some ⟨-7 / 5, -2, -21 / 5⟩ ∧
      (Matrix.of ![![(2 : CalcNumber), -2, 1], ![1, 3, -2], ![3, -1, -1]]).det = -10 ∧
      ∃ p, SoLESolver.solveSoLE3x3WithNonZeroDeterminant 2 (-2) 1 (-3) 1 3 (-2) 1 3 (-1) (-1) 2
          = some p ∧
        2 * p.x + -2 * p.y + 1 * p.z = -3 ∧
        1 * p.x + 3 * p.y + -2 * p.z = 1 ∧
        3 * p.x + -1 * p.y + -1 * p.z = 2 ∧
        ∀ q : Point, 2 * q.x + -2 * q.y + 1 * q.z = -3 →
          1 * q.x + 3 * q.y + -2 * q.z = 1 →
          3 * q.x + -1 * q.y + -1 * q.z = 2 → q = p :=
  ⟨by decide!,
    by rw [← determinant3_eq_det 2 (-2) 1 (-3) 1 3 (-2) 1 3 (-1) (-1) 2]; decide!,
    solveSoLE3x3WithNonZeroDeterminant_solves 2 (-2) 1 (-3) 1 3 (-2) 1 3 (-1) (-1) 2
      (by rw [← determinant3_eq_det 2 (-2) 1 (-3) 1 3 (-2) 1 3 (-1) (-1) 2]; decide!)⟩


/-! ## The projection of a point onto a line -/

theorem directionVector_some (sqrt : CalcNumber → CalcNumber) (line : Line) (d : Point)
    (h : line.directionVector sqrt = some d) :
    ∃ l : CalcNumber, l ≠ 0 ∧ d = ⟨(line.b.x - line.a.x) / l, (line.b.y - line.a.y) / l,
      (line.b.z - line.a.z) / l⟩ := by
  unfold Line.directionVector Point.div at h
  dsimp only at h
  split at h
  · cases h
  · rename_i hl
    exact ⟨_, hl, (Option.some.inj h).symm⟩

theorem projectionForPoint_none (sqrt : CalcNumber → CalcNumber) (line : Line) (point : Point)
    (h : line.b.x = line.a.x) : line.projectionForPoint sqrt point = none := by
  unfold Line.projectionForPoint
  cases hd : line.directionVector sqrt with
  | none => rfl
  | some d =>
    dsimp only
    obtain ⟨l, _, e⟩ := directionVector_some sqrt line d hd
    apply solveSoLE3x3_none
    rw [e]
    simp only [determinant3, h]
    ring

theorem projectionForPoint_some (sqrt : CalcNumber → CalcNumber) (line : Line) (point : Point)
    (hl : sqrt ((line.b.x - line.a.x) * (line.b.x - line.a.x)
      + (line.b.y - line.a.y) * (line.b.y - line.a.y)
      + (line.b.z - line.a.z) * (line.b.z - line.a.z)) ≠ 0)
    (hx : line.b.x ≠ line.a.x) :
    ∃ p, line.projectionForPoint sqrt point = some p ∧
      (∃ t : CalcNumber, p = line.a.add ((line.b.sub line.a).mul t)) ∧
      (point.sub p).scalarProdWith (line.b.sub line.a) = 0 := by
  unfold Line.projectionForPoint
  have hd : line.directionVector sqrt = some
      ⟨(line.b.x - line.a.x) / sqrt ((line.b.x - line.a.x) * (line.b.x - line.a.x)
          + (line.b.y - line.a.y) * (line.b.y - line.a.y)
          + (line.b.z - line.a.z) * (line.b.z - line.a.z)),
        (line.b.y - line.a.y) / sqrt ((line.b.x - line.a.x) * (line.b.x - line.a.x)
          + (line.b.y - line.a.y) * (line.b.y - line.a.y)
          + (line.b.z - line.a.z) * (line.b.z - line.a.z)),
        (line.b.z - line.a.z) / sqrt ((line.b.x - line.a.x) * (line.b.x - line.a.x)
          + (line.b.y - line.a.y) * (line.b.y - line.a.y)
          + (line.b.z - line.a.z) * (line.b.z - line.a.z))⟩ := by
    unfold Line.directionVector Point.div Point.length
    dsimp only
    rw [if_neg hl]
  rw [hd]
  dsimp only
  generalize sqrt ((line.b.x - line.a.x) * (line.b.x - line.a.x)
      + (line.b.y - line.a.y) * (line.b.y - line.a.y)
      + (line.b.z - line.a.z) * (line.b.z - line.a.z)) = l at hl
  have hdx : line.b.x - line.a.x ≠ 0 := sub_ne_zero.mpr hx
  have hsq : (line.b.x - line.a.x) * (line.b.x - line.a.x)
      + (line.b.y - line.a.y) * (line.b.y - line.a.y)
      + (line.b.z - line.a.z) * (line.b.z - line.a.z) ≠ 0 := by
    have h1 : 0 < (line.b.x - line.a.x) * (line.b.x - line.a.x) :=
      mul_self_pos.mpr hdx
    have h2 := mul_self_nonneg (line.b.y - line.a.y)
    have h3 := mul_self_nonneg (line.b.z - line.a.z)
    linarith
  obtain ⟨p, hp, s1, s2, s3⟩ := solveSoLE3x3_spec
    ((line.b.y - line.a.y) / l) (-((line.b.x - line.a.x) / l)) 0
    ((line.b.y - line.a.y) / l * line.a.x - (line.b.x - line.a.x) / l * line.a.y)
    ((line.b.z - line.a.z) / l) 0 (-((line.b.x - line.a.x) / l))
    ((line.b.z - line.a.z) / l * line.a.x - (line.b.x - line.a.x) / l * line.a.z)
    ((line.b.x - line.a.x) / l) ((line.b.y - line.a.y) / l) ((line.b.z - line.a.z) / l)
    ((Point.mk ((line.b.x - line.a.x) / l) ((line.b.y - line.a.y) / l)
      ((line.b.z - line.a.z) / l)).scalarProdWith point)
    (by
      simp only [determinant3]
      have : ((line.b.y - line.a.y) / l * (0 * ((line.b.z - line.a.z) / l)
            - -((line.b.x - line.a.x) / l) * ((line.b.y - line.a.y) / l))
          - -((line.b.x - line.a.x) / l) * ((line.b.z - line.a.z) / l
            * ((line.b.z - line.a.z) / l)
            - -((line.b.x - line.a.x) / l) * ((line.b.x - line.a.x) / l))
          + 0 * ((line.b.z - line.a.z) / l * ((line.b.y - line.a.y) / l)
            - 0 * ((line.b.x - line.a.x) / l)))
          = (line.b.x - line.a.x) * ((line.b.x - line.a.x) * (line.b.x - line.a.x)
            + (line.b.y - line.a.y) * (line.b.y - line.a.y)
            + (line.b.z - line.a.z) * (line.b.z - line.a.z)) / (l * l * l) := by
        field_simp
        ring
      rw [this]
      exact div_ne_zero (mul_ne_zero hdx hsq) (mul_ne_zero (mul_ne_zero hl hl) hl))
  refine ⟨p, hp, ⟨(p.x - line.a.x) / (line.b.x - line.a.x), ?_⟩, ?_⟩
  · simp only [SoLERow.Satisfies] at s1 s2
    field_simp at s1 s2
    obtain ⟨px, py, pz⟩ := p
    simp only [Point.add, Point.sub, Point.mul, Point.mk.injEq]
    dsimp only at s1 s2
    refine ⟨?_, ?_, ?_⟩
    · field_simp
    · field_simp
      linear_combination -s1
    · field_simp
      linear_combination -s2
  · simp only [SoLERow.Satisfies, Point.scalarProdWith] at s3
    field_simp at s3
    simp only [Point.scalarProdWith, Point.sub]
    linear_combination -s3

/-- C27: `projectionForPoint` does not return the projection for every line: the determinant
of the system it hands to the solver is `ldx * (ldx * ldx + ldy * ldy + ldz * ldz)` for the
direction vector `(ldx, ldy, ldz)`, which is zero for a line across Ox, and the solver then
reaches `assert(false)`; so for the line through `(0, 0, 0)` and `(0, 1, 0)`. For a line whose
two points differ in `x`, and a square root that is not zero on the squared distance of the
two points, the result lies on the line and the vector from it to the point is perpendicular
to the line; so for the line of the test, through `(1, 0, 0)` and `(0, -1, 0)`, where the
points `(1, 0, 0)` and `(0, 0, 1)` have the projections `(1, 0, 0)` and `(0.5, -0.5, 0)` for
every square root that is not zero on 2. -/
theorem projectionForPoint_fails_across_Ox :
    (∀ (ldx ldy ldz ax ay az b : CalcNumber),
      determinant3 ⟨ldy, -ldx, 0, ldy * ax - ldx * ay⟩ ⟨ldz, 0, -ldx, ldz * ax - ldx * az⟩
        ⟨ldx, ldy, ldz, b⟩ = ldx * (ldx * ldx + ldy * ldy + ldz * ldz)) ∧
    (∀ (sqrt : CalcNumber → CalcNumber) (line : Line) (point : Point),
      line.b.x = line.a.x → line.projectionForPoint sqrt point = none) ∧
    Line.new ⟨0, 0, 0⟩ ⟨0, 1, 0⟩ = some ⟨⟨0, 0, 0⟩, ⟨0, 1, 0⟩⟩ ∧
    (∀ (sqrt : CalcNumber → CalcNumber) (point : Point),
      (Line.mk ⟨0, 0, 0⟩ ⟨0, 1, 0⟩).projectionForPoint sqrt point = none) ∧
    (∀ (sqrt : CalcNumber → CalcNumber) (line : Line) (point : Point),
      sqrt ((line.b.x - line.a.x) * (line.b.x - line.a.x)
        + (line.b.y - line.a.y) * (line.b.y - line.a.y)
        + (line.b.z - line.a.z) * (line.b.z - line.a.z)) ≠ 0 →
      line.b.x ≠ line.a.x →
      ∃ p, line.projectionForPoint sqrt point = some p ∧
        (∃ t : CalcNumber, p = line.a.add ((line.b.sub line.a).mul t)) ∧
        (point.sub p).scalarProdWith (line.b.sub line.a) = 0) ∧
    (∀ sqrt : CalcNumber → CalcNumber, sqrt 2 ≠ 0 →
      (Line.mk ⟨1, 0, 0⟩ ⟨0, -1, 0⟩).projectionForPoint sqrt ⟨1, 0, 0⟩ = some ⟨1, 0, 0⟩ ∧
      (Line.mk ⟨1, 0, 0⟩ ⟨0, -1, 0⟩).projectionForPoint sqrt ⟨0, 0, 1⟩
        = some ⟨1 / 2, -1 / 2, 0⟩) := by
  refine ⟨?_, fun sqrt line point h => projectionForPoint_none sqrt line point h, by decide!,
    fun sqrt point => projectionForPoint_none sqrt _ point rfl,
    fun sqrt line point hl hx => projectionForPoint_some sqrt line point hl hx, ?_⟩
  · intro ldx ldy ldz ax ay az b
    simp only [determinant3]
    ring
  · intro sqrt h2
    have hl : sqrt (((Line.mk ⟨1, 0, 0⟩ ⟨0, -1, 0⟩).b.x - (Line.mk ⟨1, 0, 0⟩ ⟨0, -1, 0⟩).a.x)
          * ((Line.mk ⟨1, 0, 0⟩ ⟨0, -1, 0⟩).b.x - (Line.mk ⟨1, 0, 0⟩ ⟨0, -1, 0⟩).a.x)
        + ((Line.mk ⟨1, 0, 0⟩ ⟨0, -1, 0⟩).b.y - (Line.mk ⟨1, 0, 0⟩ ⟨0, -1, 0⟩).a.y)
          * ((Line.mk ⟨1, 0, 0⟩ ⟨0, -1, 0⟩).b.y - (Line.mk ⟨1, 0, 0⟩ ⟨0, -1, 0⟩).a.y)
        + ((Line.mk ⟨1, 0, 0⟩ ⟨0, -1, 0⟩).b.z - (Line.mk ⟨1, 0, 0⟩ ⟨0, -1, 0⟩).a.z)
          * ((Line.mk ⟨1, 0, 0⟩ ⟨0, -1, 0⟩).b.z - (Line.mk ⟨1, 0, 0⟩ ⟨0, -1, 0⟩).a.z)) ≠ 0 := by
      have e : ((Line.mk ⟨1, 0, 0⟩ ⟨0, -1, 0⟩).b.x - (Line.mk ⟨1, 0, 0⟩ ⟨0, -1, 0⟩).a.x)
            * ((Line.mk ⟨1, 0, 0⟩ ⟨0, -1, 0⟩).b.x - (Line.mk ⟨1, 0, 0⟩ ⟨0, -1, 0⟩).a.x)
          + ((Line.mk ⟨1, 0, 0⟩ ⟨0, -1, 0⟩).b.y - (Line.mk ⟨1, 0, 0⟩ ⟨0, -1, 0⟩).a.y)
            * ((Line.mk ⟨1, 0, 0⟩ ⟨0, -1, 0⟩).b.y - (Line.mk ⟨1, 0, 0⟩ ⟨0, -1, 0⟩).a.y)
          + ((Line.mk ⟨1, 0, 0⟩ ⟨0, -1, 0⟩).b.z - (Line.mk ⟨1, 0, 0⟩ ⟨0, -1, 0⟩).a.z)
            * ((Line.mk ⟨1, 0, 0⟩ ⟨0, -1, 0⟩).b.z - (Line.mk ⟨1, 0, 0⟩ ⟨0, -1, 0⟩).a.z)
          = (2 : CalcNumber) := by decide!
      rw [e]
      exact h2
    constructor
    · obtain ⟨p, hp, ⟨t, ht⟩, hperp⟩ := projectionForPoint_some sqrt
        (Line.mk ⟨1, 0, 0⟩ ⟨0, -1, 0⟩) ⟨1, 0, 0⟩ hl (by decide!)
      rw [hp, ht]
      rw [ht] at hperp
      simp only [Point.scalarProdWith, Point.sub, Point.add, Point.mul] at hperp
      have e : t = 0 := by linarith
      rw [e]
      simp only [Point.sub, Point.add, Point.mul]
      norm_num
    · obtain ⟨p, hp, ⟨t, ht⟩, hperp⟩ := projectionForPoint_some sqrt
        (Line.mk ⟨1, 0, 0⟩ ⟨0, -1, 0⟩) ⟨0, 0, 1⟩ hl (by decide!)
      rw [hp, ht]
      rw [ht] at hperp
      simp only [Point.scalarProdWith, Point.sub, Point.add, Point.mul] at hperp
      have e : t = 1 / 2 := by linarith
      rw [e]
      simp only [Point.sub, Point.add, Point.mul]
      norm_num


/-! ## The nearest point of the axis of a pipe -/

theorem sqrtLike_le_iff (sqrt : CalcNumber → CalcNumber) (hsqrt : IsSquareRootLike sqrt)
    (a b : CalcNumber) (ha : 0 ≤ a) (hb : 0 ≤ b) : sqrt a ≤ sqrt b ↔ a ≤ b := by
  constructor
  · intro h
    by_contra hlt
    exact absurd (hsqrt.2 b a hb (not_le.mp hlt)) (not_lt.mpr h)
  · intro h
    rcases lt_or_eq_of_le h with h1 | h1
    · exact le_of_lt (hsqrt.2 a b ha h1)
    · rw [h1]

theorem sqrtLike_ne_zero (sqrt : CalcNumber → CalcNumber) (hsqrt : IsSquareRootLike sqrt)
    (a : CalcNumber) (ha : 0 < a) : sqrt a ≠ 0 := by
  have := hsqrt.2 0 a (le_refl 0) ha
  rw [hsqrt.1] at this
  exact ne_of_gt this

theorem lineProj_eq (dx dy l sx sy : CalcNumber) (p : Point) (hl : l ≠ 0)
    (hd : dx * dx + dy * dy ≠ 0) :
    (if dx / l = 0 then some (Point.mk sx p.y 0)
      else if dy / l = 0 then some (Point.mk p.x sy 0)
      else SoLESolver.solveSoLE3x3WithNonZeroDeterminant (dy / l) (-(dx / l)) 0
        (dy / l * sx - dx / l * sy) 0 0 1 0 (dx / l) (dy / l) ((0 - 0) / l)
        ((Point.mk (dx / l) (dy / l) ((0 - 0) / l)).scalarProdWith p))
      = some ⟨sx + ((p.x - sx) * dx + (p.y - sy) * dy) / (dx * dx + dy * dy) * dx,
          sy + ((p.x - sx) * dx + (p.y - sy) * dy) / (dx * dx + dy * dy) * dy, 0⟩ := by
  by_cases hx : dx = 0
  · have hy : dy ≠ 0 := by
      intro hy
      apply hd
      rw [hx, hy]
      ring
    rw [if_pos (by rw [hx]; simp)]
    subst hx
    congr 2
    · ring
    · field_simp
      ring
  · rw [if_neg (div_ne_zero hx hl)]
    by_cases hy : dy = 0
    · rw [if_pos (by rw [hy]; simp)]
      subst hy
      congr 2
      · field_simp
        ring
      · ring
    · rw [if_neg (div_ne_zero hy hl)]
      have hdet : determinant3 ⟨dy / l, -(dx / l), 0, dy / l * sx - dx / l * sy⟩ ⟨0, 0, 1, 0⟩
          ⟨dx / l, dy / l, (0 - 0) / l,
            (Point.mk (dx / l) (dy / l) ((0 - 0) / l)).scalarProdWith p⟩ ≠ 0 := by
        have e : determinant3 ⟨dy / l, -(dx / l), 0, dy / l * sx - dx / l * sy⟩ ⟨0, 0, 1, 0⟩
            ⟨dx / l, dy / l, (0 - 0) / l,
              (Point.mk (dx / l) (dy / l) ((0 - 0) / l)).scalarProdWith p⟩
            = - (dx * dx + dy * dy) / (l * l) := by
          simp only [determinant3]
          field_simp
          ring
        rw [e]
        exact div_ne_zero (neg_ne_zero.mpr hd) (mul_ne_zero hl hl)
      obtain ⟨q, hq, s1, s2, s3⟩ := solveSoLE3x3_spec _ _ _ _ _ _ _ _ _ _ _ _ hdet
      rw [hq]
      congr 1
      apply solveSoLE3x3_unique _ _ _ hdet q _ ⟨s1, s2, s3⟩
      refine ⟨?_, ?_, ?_⟩
      · simp only [SoLERow.Satisfies]
        field_simp
        ring
      · simp only [SoLERow.Satisfies]
        ring
      · simp only [SoLERow.Satisfies, Point.scalarProdWith]
        field_simp
        ring

theorem nearest_by_lengths (sqrt : CalcNumber → CalcNumber) (hsqrt : IsSquareRootLike sqrt)
    (s e : Point) (t : CalcNumber)
    (hd : 0 < (e.x - s.x) * (e.x - s.x) + (e.y - s.y) * (e.y - s.y)) :
    (if max (((segmentPoint s e t).sub ⟨s.x, s.y, 0⟩).length sqrt)
          (((Point.mk e.x e.y 0).sub (segmentPoint s e t)).length sqrt)
        ≤ ((Point.mk e.x e.y 0).sub ⟨s.x, s.y, 0⟩).length sqrt then some (segmentPoint s e t)
      else if max (((Point.mk e.x e.y 0).sub ⟨s.x, s.y, 0⟩).length sqrt)
          (((Point.mk e.x e.y 0).sub (segmentPoint s e t)).length sqrt)
        ≤ ((segmentPoint s e t).sub ⟨s.x, s.y, 0⟩).length sqrt then some (Point.mk e.x e.y 0)
      else some (Point.mk s.x s.y 0))
      = some (segmentPoint s e (clamp t 0 1)) := by
  have e1 : ((segmentPoint s e t).sub ⟨s.x, s.y, 0⟩).length sqrt
      = sqrt (t * t * ((e.x - s.x) * (e.x - s.x) + (e.y - s.y) * (e.y - s.y))) := by
    simp only [Point.length, Point.sub, segmentPoint]
    congr 1
    ring
  have e2 : ((Point.mk e.x e.y 0).sub (segmentPoint s e t)).length sqrt
      = sqrt ((1 - t) * (1 - t) * ((e.x - s.x) * (e.x - s.x) + (e.y - s.y) * (e.y - s.y))) := by
    simp only [Point.length, Point.sub, segmentPoint]
    congr 1
    ring
  have e3 : ((Point.mk e.x e.y 0).sub ⟨s.x, s.y, 0⟩).length sqrt
      = sqrt (1 * ((e.x - s.x) * (e.x - s.x) + (e.y - s.y) * (e.y - s.y))) := by
    simp only [Point.length, Point.sub]
    congr 1
    ring
  rw [e1, e2, e3]
  generalize (e.x - s.x) * (e.x - s.x) + (e.y - s.y) * (e.y - s.y) = d at hd
  have n1 : 0 ≤ t * t * d := mul_nonneg (mul_self_nonneg t) (le_of_lt hd)
  have n2 : 0 ≤ (1 - t) * (1 - t) * d := mul_nonneg (mul_self_nonneg (1 - t)) (le_of_lt hd)
  have n3 : 0 ≤ 1 * d := by linarith
  simp only [max_le_iff, sqrtLike_le_iff sqrt hsqrt _ _ n1 n3,
    sqrtLike_le_iff sqrt hsqrt _ _ n2 n3, sqrtLike_le_iff sqrt hsqrt _ _ n3 n1,
    sqrtLike_le_iff sqrt hsqrt _ _ n2 n1, mul_le_mul_right hd]
  unfold clamp
  by_cases h0 : t < 0
  · have c1 : ¬ (t * t ≤ 1 ∧ (1 - t) * (1 - t) ≤ 1) := by
      rintro ⟨_, h⟩
      nlinarith
    have c2 : ¬ (1 ≤ t * t ∧ (1 - t) * (1 - t) ≤ t * t) := by
      rintro ⟨_, h⟩
      nlinarith
    rw [if_neg c1, if_neg c2, min_eq_left (by linarith), max_eq_left (le_of_lt h0)]
    simp [segmentPoint]
  · by_cases h1 : 1 < t
    · have c1 : ¬ (t * t ≤ 1 ∧ (1 - t) * (1 - t) ≤ 1) := by
        rintro ⟨h, _⟩
        nlinarith
      have c2 : 1 ≤ t * t ∧ (1 - t) * (1 - t) ≤ t * t := by
        constructor <;> nlinarith
      rw [if_neg c1, if_pos c2, min_eq_right (le_of_lt h1), max_eq_right (by norm_num)]
      simp [segmentPoint]
    · have c1 : t * t ≤ 1 ∧ (1 - t) * (1 - t) ≤ 1 := by
        constructor <;> nlinarith
      rw [if_pos c1, min_eq_left (not_lt.mp h1), max_eq_right (not_lt.mp h0)]

theorem nearestOnSegment_is_nearest (s e p : Point) (t : CalcNumber)
    (hd : 0 < (e.x - s.x) * (e.x - s.x) + (e.y - s.y) * (e.y - s.y))
    (h0 : 0 ≤ t) (h1 : t ≤ 1) :
    planeDistanceSquared p (nearestOnSegment s e p)
      ≤ planeDistanceSquared p (segmentPoint s e t) := by
  unfold nearestOnSegment
  have key : ∀ u : CalcNumber, planeDistanceSquared p (segmentPoint s e u)
      = planeDistanceSquared p (segmentPoint s e (projectionParameter s e p))
        + (u - projectionParameter s e p) * (u - projectionParameter s e p)
          * ((e.x - s.x) * (e.x - s.x) + (e.y - s.y) * (e.y - s.y)) := by
    intro u
    simp only [planeDistanceSquared, segmentPoint, projectionParameter]
    field_simp
    ring
  rw [key t, key (clamp (projectionParameter s e p) 0 1)]
  generalize projectionParameter s e p = t0
  generalize (e.x - s.x) * (e.x - s.x) + (e.y - s.y) * (e.y - s.y) = d at hd
  have : (clamp t0 0 1 - t0) * (clamp t0 0 1 - t0) ≤ (t - t0) * (t - t0) := by
    have := clamp_closest t0 0 1 t h0 h1
    nlinarith
  nlinarith

theorem calculateNearestCenterPoint2D_straight (sqrt : CalcNumber → CalcNumber)
    (hsqrt : IsSquareRootLike sqrt) (self : PipeTrackNode) (p : Point)
    (hne : self.startPoint.x ≠ self.endPoint.x ∨ self.startPoint.y ≠ self.endPoint.y) :
    (match Line.new ⟨self.startPoint.x, self.startPoint.y, 0⟩
        ⟨self.endPoint.x, self.endPoint.y, 0⟩ with
      | none => none
      | some line =>
        match line.directionVector sqrt with
        | none => none
        | some lineDirection =>
          let lineProj : Option Point :=
            if lineDirection.x = 0 then some ⟨self.startPoint.x, p.y, 0⟩
            else if lineDirection.y = 0 then some ⟨p.x, self.startPoint.y, 0⟩
            else
              let ldx := lineDirection.x
              let ldy := lineDirection.y
              let ldz := lineDirection.z
              SoLESolver.solveSoLE3x3WithNonZeroDeterminant
                ldy (-ldx) 0 (ldy * self.startPoint.x - ldx * self.startPoint.y)
                0 0 1 0
                ldx ldy ldz (lineDirection.scalarProdWith p)
          match lineProj with
          | none => none
          | some lineProj =>
            let startEndLength := ((Point.mk self.endPoint.x self.endPoint.y 0).sub
              ⟨self.startPoint.x, self.startPoint.y, 0⟩).length sqrt
            let startProjLength :=
              (lineProj.sub ⟨self.startPoint.x, self.startPoint.y, 0⟩).length sqrt
            let projEndLength :=
              ((Point.mk self.endPoint.x self.endPoint.y 0).sub lineProj).length sqrt
            if max startProjLength projEndLength ≤ startEndLength then some lineProj
            else if max startEndLength projEndLength ≤ startProjLength then
              some (Point.mk self.endPoint.x self.endPoint.y 0)
            else some (Point.mk self.startPoint.x self.startPoint.y 0))
      = some (nearestOnSegment self.startPoint self.endPoint p) := by
  have hd : 0 < (self.endPoint.x - self.startPoint.x) * (self.endPoint.x - self.startPoint.x)
      + (self.endPoint.y - self.startPoint.y) * (self.endPoint.y - self.startPoint.y) := by
    rcases hne with h | h
    · have := mul_self_pos.mpr (sub_ne_zero.mpr (Ne.symm h))
      have := mul_self_nonneg (self.endPoint.y - self.startPoint.y)
      linarith
    · have := mul_self_pos.mpr (sub_ne_zero.mpr (Ne.symm h))
      have := mul_self_nonneg (self.endPoint.x - self.startPoint.x)
      linarith
  have hl : Line.new ⟨self.startPoint.x, self.startPoint.y, 0⟩
      ⟨self.endPoint.x, self.endPoint.y, 0⟩
      = some ⟨⟨self.startPoint.x, self.startPoint.y, 0⟩,
        ⟨self.endPoint.x, self.endPoint.y, 0⟩⟩ := by
    unfold Line.new
    rw [if_pos]
    intro h
    injection h with h1 h2 _
    rcases hne with h | h
    · exact h h1
    · exact h h2
  rw [hl]
  dsimp only
  have hlen : sqrt ((self.endPoint.x - self.startPoint.x) * (self.endPoint.x - self.startPoint.x)
      + (self.endPoint.y - self.startPoint.y) * (self.endPoint.y - self.startPoint.y)
      + (0 - 0) * (0 - 0)) ≠ 0 := by
    apply sqrtLike_ne_zero sqrt hsqrt
    linarith
  unfold Line.directionVector Point.div
  dsimp only
  simp only [Point.length]
  rw [if_neg hlen]
  dsimp only
  rw [lineProj_eq _ _ _ self.startPoint.x self.startPoint.y p hlen (ne_of_gt hd)]
  dsimp only
  exact nearest_by_lengths sqrt hsqrt self.startPoint self.endPoint
    (projectionParameter self.startPoint self.endPoint p) hd

/-- C22: for a direct, fan or reduction node whose start and end points differ in the plane
Oxy, and for every function `sqrt` that is zero at zero and strictly increasing on the
non-negative numbers, `calculateNearestCenterPoint2D(p)` returns the point
`nearestOnSegment` of the general formula, whether the segment is vertical, horizontal or
neither: its z-coordinate is zero, it is a point of the segment from start to end, no point of
the segment is nearer to `(p.x, p.y)`, it is the perpendicular projection of `p` onto the line
of the segment when the parameter of the projection lies between 0 and 1, the start point when
the parameter is negative and the end point when it exceeds 1. -/
theorem calculateNearestCenterPoint2D_is_nearest (sqrt : CalcNumber → CalcNumber)
    (hsqrt : IsSquareRootLike sqrt) (self : PipeTrackNode) (p : Point)
    (htype : self.type = .direct ∨ self.type = .fan ∨ self.type = .reduction)
    (hne : self.startPoint.x ≠ self.endPoint.x ∨ self.startPoint.y ≠ self.endPoint.y) :
    self.calculateNearestCenterPoint2D sqrt p
        = some (nearestOnSegment self.startPoint self.endPoint p) ∧
      (nearestOnSegment self.startPoint self.endPoint p).z = 0 ∧
      (∃ t : CalcNumber, 0 ≤ t ∧ t ≤ 1 ∧
        nearestOnSegment self.startPoint self.endPoint p
          = segmentPoint self.startPoint self.endPoint t) ∧
      (∀ t : CalcNumber, 0 ≤ t → t ≤ 1 →
        planeDistanceSquared p (nearestOnSegment self.startPoint self.endPoint p)
          ≤ planeDistanceSquared p (segmentPoint self.startPoint self.endPoint t)) ∧
      (p.x - (segmentPoint self.startPoint self.endPoint
            (projectionParameter self.startPoint self.endPoint p)).x)
          * (self.endPoint.x - self.startPoint.x)
        + (p.y - (segmentPoint self.startPoint self.endPoint
            (projectionParameter self.startPoint self.endPoint p)).y)
          * (self.endPoint.y - self.startPoint.y) = 0 ∧
      (0 ≤ projectionParameter self.startPoint self.endPoint p →
        projectionParameter self.startPoint self.endPoint p ≤ 1 →
        nearestOnSegment self.startPoint self.endPoint p
          = segmentPoint self.startPoint self.endPoint
            (projectionParameter self.startPoint self.endPoint p)) ∧
      (projectionParameter self.startPoint self.endPoint p < 0 →
        nearestOnSegment self.startPoint self.endPoint p
          = ⟨self.startPoint.x, self.startPoint.y, 0⟩) ∧
      (1 < projectionParameter self.startPoint self.endPoint p →
        nearestOnSegment self.startPoint self.endPoint p
          = ⟨self.endPoint.x, self.endPoint.y, 0⟩) := by
  have hd : 0 < (self.endPoint.x - self.startPoint.x) * (self.endPoint.x - self.startPoint.x)
      + (self.endPoint.y - self.startPoint.y) * (self.endPoint.y - self.startPoint.y) := by
    rcases hne with h | h
    · have := mul_self_pos.mpr (sub_ne_zero.mpr (Ne.symm h))
      have := mul_self_nonneg (self.endPoint.y - self.startPoint.y)
      linarith
    · have := mul_self_pos.mpr (sub_ne_zero.mpr (Ne.symm h))
      have := mul_self_nonneg (self.endPoint.x - self.startPoint.x)
      linarith
  refine ⟨?_, rfl, ⟨clamp (projectionParameter self.startPoint self.endPoint p) 0 1,
    (clamp_mem _ 0 1 (by norm_num)).1, (clamp_mem _ 0 1 (by norm_num)).2, rfl⟩,
    fun t h0 h1 => nearestOnSegment_is_nearest self.startPoint self.endPoint p t hd h0 h1,
    ?_, ?_, ?_, ?_⟩
  · unfold PipeTrackNode.calculateNearestCenterPoint2D
    rcases htype with h | h | h <;> rw [h] <;> dsimp only <;>
      exact calculateNearestCenterPoint2D_straight sqrt hsqrt self p hne
  · simp only [segmentPoint, projectionParameter]
    field_simp
    ring
  · intro h0 h1
    unfold nearestOnSegment clamp
    rw [min_eq_left h1, max_eq_right h0]
  · intro h0
    unfold nearestOnSegment clamp
    rw [min_eq_left (by linarith), max_eq_left (le_of_lt h0)]
    simp [segmentPoint]
  · intro h1
    unfold nearestOnSegment clamp
    rw [min_eq_right (le_of_lt h1), max_eq_right (by norm_num)]
    simp [segmentPoint]

theorem isSquareRootLike_id : IsSquareRootLike id :=
  ⟨rfl, fun _ _ _ h => h⟩

/-- Witness for C22: the direct pipe from `(0, 0, 0)` to `(3, 4, 0)`, which is neither vertical
nor horizontal, the point `(5, 0, 0)` and the identity, which is zero at zero and strictly
increasing; the nearest point is the projection `(1.8, 2.4, 0)`. -/
theorem calculateNearestCenterPoint2D_is_nearest_witness :
    (directNode50 ⟨0, 0, 0⟩ ⟨3, 4, 0⟩).calculateNearestCenterPoint2D id ⟨5, 0, 0⟩
        = some ⟨9 / 5, 12 / 5, 0⟩ ∧
      nearestOnSegment ⟨0, 0, 0⟩ ⟨3, 4, 0⟩ ⟨5, 0, 0⟩ = ⟨9 / 5, 12 / 5, 0⟩ ∧
      (directNode50 ⟨0, 0, 0⟩ ⟨3, 4, 0⟩).calculateNearestCenterPoint2D id ⟨5, 0, 0⟩
        = some (nearestOnSegment (directNode50 ⟨0, 0, 0⟩ ⟨3, 4, 0⟩).startPoint
          (directNode50 ⟨0, 0, 0⟩ ⟨3, 4, 0⟩).endPoint ⟨5, 0, 0⟩) :=
  ⟨by decide!, by decide!,
    (calculateNearestCenterPoint2D_is_nearest id isSquareRootLike_id
      (directNode50 ⟨0, 0, 0⟩ ⟨3, 4, 0⟩) ⟨5, 0, 0⟩ (Or.inl rfl) (Or.inl (by decide!))).1⟩


/-! ## The sources of the nodes during `separateWaterSources` -/

theorem movedSources_eq (beyond : Point → Bool) :
    ∀ (sourcesPs : List Nat) (points : List Point) (moved : List Nat × List Point),
      LocationGraph.movedSources beyond sourcesPs points = some moved →
      moved.1 = ((sourcesPs.zip points).filter (fun pair => beyond pair.2)).map Prod.fst ∧
        moved.2 = ((sourcesPs.zip points).filter (fun pair => beyond pair.2)).map Prod.snd := by
  intro sourcesPs
  induction sourcesPs with
  | nil =>
    intro points moved h
    simp only [LocationGraph.movedSources] at h
    cases h
    simp
  | cons sourceP rest ih =>
    intro points moved h
    cases points with
    | nil => simp [LocationGraph.movedSources] at h
    | cons point points =>
      simp only [LocationGraph.movedSources] at h
      cases hm : LocationGraph.movedSources beyond rest points with
      | none => rw [hm] at h; simp at h
      | some m =>
        rw [hm] at h
        obtain ⟨i1, i2⟩ := ih points m hm
        simp only [Option.some.injEq] at h
        subst h
        by_cases hb : beyond point = true
        · simp [hb, List.zip_cons_cons, List.filter_cons, i1, i2]
        · simp [hb, List.zip_cons_cons, List.filter_cons, i1, i2]

theorem keptSources_eq (beyond : Point → Bool) :
    ∀ (sourcesPs : List Nat) (points : List Point) (kept : List Nat × List Point),
      LocationGraph.keptSources beyond sourcesPs points = some kept →
      kept.1 = ((sourcesPs.zip points).filter (fun pair => !beyond pair.2)).map Prod.fst ∧
        kept.2 = ((sourcesPs.zip points).filter (fun pair => !beyond pair.2)).map Prod.snd
          ++ points.drop sourcesPs.length := by
  intro sourcesPs
  induction sourcesPs with
  | nil =>
    intro points kept h
    simp only [LocationGraph.keptSources] at h
    cases h
    simp
  | cons sourceP rest ih =>
    intro points kept h
    cases points with
    | nil => simp [LocationGraph.keptSources] at h
    | cons point points =>
      simp only [LocationGraph.keptSources] at h
      cases hm : LocationGraph.keptSources beyond rest points with
      | none => rw [hm] at h; simp at h
      | some m =>
        rw [hm] at h
        obtain ⟨i1, i2⟩ := ih points m hm
        simp only [Option.some.injEq] at h
        subst h
        by_cases hb : beyond point = true
        · simp [hb, List.zip_cons_cons, List.filter_cons, i1, i2]
        · simp [hb, List.zip_cons_cons, List.filter_cons, i1, i2]

theorem zip_map_fst_snd_append {α β : Type} (pairs : List (α × β)) (extra : List β) :
    (pairs.map Prod.fst).zip (pairs.map Prod.snd ++ extra) = pairs := by
  induction pairs with
  | nil => simp
  | cons pair rest ih => simp [List.zip_cons_cons, ih]

theorem movedSources_pairs (l r b t : CalcNumber) (beyond : Point → Bool)
    (sourcesPs : List Nat) (points : List Point) (moved : List Nat × List Point)
    (h : LocationGraph.movedSources beyond sourcesPs points = some moved) :
    (rectangleWith l r b t moved).sourcePairs
      = (sourcesPs.zip points).filter (fun pair => beyond pair.2) := by
  obtain ⟨e1, e2⟩ := movedSources_eq beyond sourcesPs points moved h
  simp only [LocationGraphNode.sourcePairs, rectangleWith]
  rw [e1, e2]
  have := zip_map_fst_snd_append ((sourcesPs.zip points).filter (fun pair => beyond pair.2)) []
  rw [List.append_nil] at this
  exact this

theorem keptSources_pairs (l r b t : CalcNumber) (beyond : Point → Bool)
    (sourcesPs : List Nat) (points : List Point) (kept : List Nat × List Point)
    (h : LocationGraph.keptSources beyond sourcesPs points = some kept) :
    (rectangleWith l r b t kept).sourcePairs
      = (sourcesPs.zip points).filter (fun pair => !beyond pair.2) := by
  obtain ⟨e1, e2⟩ := keptSources_eq beyond sourcesPs points kept h
  simp only [LocationGraphNode.sourcePairs, rectangleWith]
  rw [e1, e2]
  exact zip_map_fst_snd_append _ _

theorem sourcePairs_core (n : LocationGraphNode) : n.core.sourcePairs = n.sourcePairs := rfl

theorem sourcePairs_map_core (nodes : List LocationGraphNode) :
    (nodes.map LocationGraphNode.core).flatMap LocationGraphNode.sourcePairs
      = nodes.flatMap LocationGraphNode.sourcePairs := by
  induction nodes with
  | nil => rfl
  | cons n rest ih =>
    simp only [List.map_cons, List.flatMap_cons, ih, sourcePairs_core]

theorem flatMap_set_perm {α β : Type} (f : α → List β) :
    ∀ (l : List α) (i : Nat) (n a b : α), l[i]? = some n → (f a ++ f b).Perm (f n) →
      ((l.set i a ++ [b]).flatMap f).Perm (l.flatMap f) := by
  intro l
  induction l with
  | nil => intro i n a b h; simp at h
  | cons x rest ih =>
    intro i n a b h hp
    cases i with
    | zero =>
      simp only [List.getElem?_cons_zero, Option.some.injEq] at h
      subst h
      simp only [List.set_cons_zero, List.cons_append, List.flatMap_cons, List.flatMap_append,
        List.flatMap_nil, List.append_nil]
      have h1 : (f a ++ (rest.flatMap f ++ f b)).Perm ((f a ++ f b) ++ rest.flatMap f) := by
        rw [List.append_assoc]
        exact List.Perm.append_left _ List.perm_append_comm
      exact h1.trans (List.Perm.append_right _ hp)
    | succ i =>
      simp only [List.getElem?_cons_succ] at h
      simp only [List.set_cons_succ, List.cons_append, List.flatMap_cons]
      exact List.Perm.append_left _ (ih i n a b h hp)

theorem separateNode_cores (g g' : LocationGraph) (nodeP : Nat) (separation : Separation)
    (h : g.separateNode nodeP separation = some g') :
    ∃ n kept moved old new, g.nodePs[nodeP]? = some n ∧
      LocationGraph.keptSources separation.beyond n.waterSourcesPs
        n.waterSourcesConnectionPoints = some kept ∧
      LocationGraph.movedSources separation.beyond n.waterSourcesPs
        n.waterSourcesConnectionPoints = some moved ∧
      old.waterSourcesPs = kept.1 ∧ old.waterSourcesConnectionPoints = kept.2 ∧
      new.waterSourcesPs = moved.1 ∧ new.waterSourcesConnectionPoints = moved.2 ∧
      g'.nodePs.map LocationGraphNode.core
        = (g.nodePs.map LocationGraphNode.core).set nodeP old ++ [new] := by
  cases separation with
  | alongX s =>
    obtain ⟨n, kept, moved, hn, hk, hm, hc⟩ := separateNodeX_core g g' nodeP s h
    exact ⟨n, kept, moved, _, _, hn, hk, hm, rfl, rfl, rfl, rfl, hc⟩
  | alongY s =>
    obtain ⟨n, kept, moved, hn, hk, hm, hc⟩ := separateNodeY_core g g' nodeP s h
    exact ⟨n, kept, moved, _, _, hn, hk, hm, rfl, rfl, rfl, rfl, hc⟩

theorem separateNode_pairs (g g' : LocationGraph) (nodeP : Nat) (separation : Separation)
    (h : g.separateNode nodeP separation = some g') :
    ∃ n old new, g.nodePs[nodeP]? = some n ∧
      old.sourcePairs = n.sourcePairs.filter (fun pair => !separation.beyond pair.2) ∧
      new.sourcePairs = n.sourcePairs.filter (fun pair => separation.beyond pair.2) ∧
      g'.nodePs.map LocationGraphNode.core
        = (g.nodePs.map LocationGraphNode.core).set nodeP old ++ [new] := by
  obtain ⟨n, kept, moved, old, new, hn, hk, hm, o1, o2, n1, n2, hc⟩ :=
    separateNode_cores g g' nodeP separation h
  refine ⟨n, old, new, hn, ?_, ?_, hc⟩
  · have := keptSources_pairs 0 0 0 0 separation.beyond _ _ kept hk
    simp only [LocationGraphNode.sourcePairs, rectangleWith] at this
    simp only [LocationGraphNode.sourcePairs, o1, o2]
    exact this
  · have := movedSources_pairs 0 0 0 0 separation.beyond _ _ moved hm
    simp only [LocationGraphNode.sourcePairs, rectangleWith] at this
    simp only [LocationGraphNode.sourcePairs, n1, n2]
    exact this

theorem separateNode_perm (g g' : LocationGraph) (nodeP : Nat) (separation : Separation)
    (h : g.separateNode nodeP separation = some g') :
    g'.sourcePairs.Perm g.sourcePairs := by
  obtain ⟨n, old, new, hn, ho, hw, hc⟩ := separateNode_pairs g g' nodeP separation h
  unfold LocationGraph.sourcePairs
  rw [← sourcePairs_map_core g'.nodePs, ← sourcePairs_map_core g.nodePs, hc]
  apply flatMap_set_perm LocationGraphNode.sourcePairs _ nodeP n.core old new
  · rw [List.getElem?_map, hn]
    rfl
  · rw [ho, hw, sourcePairs_core]
    exact List.perm_append_comm.trans (List.filter_append_perm _ _)

theorem separateWaterSourcesLoop_perm (fuel : Nat) :
    ∀ (g g' : LocationGraph) (u : Unit),
      LocationGraph.separateWaterSourcesLoop fuel g = some (.ok u g') →
      g'.sourcePairs.Perm g.sourcePairs := by
  induction fuel with
  | zero => intro g g' u h; simp [LocationGraph.separateWaterSourcesLoop] at h
  | succ fuel ih =>
    intro g g' u h
    unfold LocationGraph.separateWaterSourcesLoop at h
    split at h
    · simp at h
    · simp only [Option.some.injEq, Outcome.ok.injEq] at h
      rw [← h.2]
    · rename_i nodeP separation _
      split at h
      · simp at h
      · rename_i g1 hs
        exact (ih g1 g' u h).trans (separateNode_perm g g1 nodeP separation hs)

theorem nodes_of_cores (nodes' nodes : List LocationGraphNode) (nodeP : Nat)
    (old new : LocationGraphNode)
    (h : nodes'.map LocationGraphNode.core
      = (nodes.map LocationGraphNode.core).set nodeP old ++ [new])
    (hp : nodeP < nodes.length) :
    nodes'.length = nodes.length + 1 ∧
      (∃ old', nodes'[nodeP]? = some old' ∧ old'.core = old) ∧
      (∃ new', nodes'[nodes.length]? = some new' ∧ new'.core = new) ∧
      ∀ k m, k ≠ nodeP → nodes[k]? = some m →
        ∃ m', nodes'[k]? = some m' ∧ m'.core = m.core := by
  have hlen : nodes'.length = nodes.length + 1 := by
    have := congrArg List.length h
    simpa using this
  have hget : ∀ k : Nat, (nodes'[k]?).map LocationGraphNode.core
      = ((nodes.map LocationGraphNode.core).set nodeP old ++ [new])[k]? := by
    intro k
    rw [← h, List.getElem?_map]
  refine ⟨hlen, ?_, ?_, ?_⟩
  · have := hget nodeP
    rw [List.getElem?_append_left (by simp; exact hp), List.getElem?_set_self (by simp; exact hp)]
      at this
    cases hn : nodes'[nodeP]? with
    | none => rw [hn] at this; simp at this
    | some old' =>
      rw [hn] at this
      exact ⟨old', rfl, Option.some.inj this⟩
  · have := hget nodes.length
    rw [List.getElem?_append_right (by simp)] at this
    simp only [List.length_set, List.length_map, Nat.sub_self, List.getElem?_cons_zero] at this
    cases hn : nodes'[nodes.length]? with
    | none => rw [hn] at this; simp at this
    | some new' =>
      rw [hn] at this
      exact ⟨new', rfl, Option.some.inj this⟩
  · intro k m hk hm
    have hkl : k < nodes.length := (List.getElem?_eq_some_iff.mp hm).1
    have := hget k
    rw [List.getElem?_append_left (by simp; exact hkl), List.getElem?_set_ne (Ne.symm hk),
      List.getElem?_map, hm] at this
    cases hn : nodes'[k]? with
    | none => rw [hn] at this; simp at this
    | some m' =>
      rw [hn] at this
      exact ⟨m', rfl, Option.some.inj this⟩

/-- C30: `separateWaterSources` neither loses nor duplicates sources. When a run returns, the
pairs (source, entry point) of all nodes after the run are a rearrangement of the pairs before
the run, with their entry points. And when a cut of the node at `nodeP` returns, the new
node, at the end of `nodePs`, holds exactly the pairs of the cut node whose entry point lies
beyond the cut (`x > separationX` or `y > separationY`), the cut node keeps exactly the
others, both in their order, and every other node has the sources and entry points it
had. -/
theorem separateWaterSources_keeps_source_pairs (fuel : Nat) (g g' : LocationGraph)
    (h : g.separateWaterSources fuel = some (.ok () g')) :
    g'.sourcePairs.Perm g.sourcePairs ∧
      ∀ (g0 g1 : LocationGraph) (nodeP : Nat) (separation : Separation),
        g0.separateNode nodeP separation = some g1 →
        ∃ n old new, g0.nodePs[nodeP]? = some n ∧ g1.nodePs[nodeP]? = some old ∧
          g1.nodePs[g0.nodePs.length]? = some new ∧
          g1.nodePs.length = g0.nodePs.length + 1 ∧
          new.sourcePairs = n.sourcePairs.filter (fun pair => separation.beyond pair.2) ∧
          old.sourcePairs = n.sourcePairs.filter (fun pair => !separation.beyond pair.2) ∧
          ∀ k m, k ≠ nodeP → g0.nodePs[k]? = some m →
            ∃ m1, g1.nodePs[k]? = some m1 ∧ m1.waterSourcesPs = m.waterSourcesPs ∧
              m1.waterSourcesConnectionPoints = m.waterSourcesConnectionPoints := by
  constructor
  · obtain ⟨g1, u1, hl, e⟩ := separateWaterSources_ok fuel g g' () h
    have := separateWaterSourcesLoop_perm fuel g g1 u1 hl
    rw [e]
    exact this
  · intro g0 g1 nodeP separation hs
    obtain ⟨n, old, new, hn, ho, hw, hc⟩ := separateNode_pairs g0 g1 nodeP separation hs
    have hp : nodeP < g0.nodePs.length := (List.getElem?_eq_some_iff.mp hn).1
    obtain ⟨hlen, ⟨old', ho1, ho2⟩, ⟨new', hn1, hn2⟩, hrest⟩ :=
      nodes_of_cores g1.nodePs g0.nodePs nodeP old new hc hp
    refine ⟨n, old', new', hn, ho1, hn1, hlen, ?_, ?_, ?_⟩
    · rw [← sourcePairs_core new', hn2, hw]
    · rw [← sourcePairs_core old', ho2, ho]
    · intro k m hk hm
      obtain ⟨m', hm1, hm2⟩ := hrest k m hk hm
      exact ⟨m', hm1,
        (congrArg LocationGraphNode.waterSourcesPs hm2 :
          m'.core.waterSourcesPs = m.core.waterSourcesPs),
        (congrArg LocationGraphNode.waterSourcesConnectionPoints hm2 :
          m'.core.waterSourcesConnectionPoints = m.core.waterSourcesConnectionPoints)⟩

/-- Witness for C30: the run on `sharedNodeGraphAttached 300`, which cuts the node with the
two sources along `y = 500`. -/
theorem separateWaterSources_keeps_source_pairs_witness :
    (sharedNodeGraphAttached 300).separateWaterSources 2 = some (.ok () sharedNodeGraphSplit) ∧
      (sharedNodeGraphAttached 300).sourcePairs = [(0, ⟨150, 200, 0⟩), (1, ⟨150, 800, 0⟩)] ∧
      sharedNodeGraphSplit.sourcePairs = [(0, ⟨150, 200, 0⟩), (1, ⟨150, 800, 0⟩)] ∧
      sharedNodeGraphSplit.sourcePairs.Perm (sharedNodeGraphAttached 300).sourcePairs :=
  ⟨by decide!, by decide!, by decide!,
    (separateWaterSources_keeps_source_pairs 2 (sharedNodeGraphAttached 300)
      sharedNodeGraphSplit (by decide!)).1⟩



theorem sourcesPaired_core (nodes nodes' : List LocationGraphNode)
    (h : nodes'.map LocationGraphNode.core = nodes.map LocationGraphNode.core)
    (hp : ∀ n ∈ nodes, n.waterSourcesConnectionPoints.length = n.waterSourcesPs.length) :
    ∀ n ∈ nodes', n.waterSourcesConnectionPoints.length = n.waterSourcesPs.length := by
  intro n hn
  have : n.core ∈ nodes.map LocationGraphNode.core := by
    rw [← h]
    exact List.mem_map_of_mem _ hn
  obtain ⟨m, hm, e⟩ := List.mem_map.mp this
  have := hp m hm
  have e1 : m.waterSourcesPs = n.waterSourcesPs :=
    (congrArg LocationGraphNode.waterSourcesPs e :
      m.core.waterSourcesPs = n.core.waterSourcesPs)
  have e2 : m.waterSourcesConnectionPoints = n.waterSourcesConnectionPoints :=
    (congrArg LocationGraphNode.waterSourcesConnectionPoints e :
      m.core.waterSourcesConnectionPoints = n.core.waterSourcesConnectionPoints)
  rw [← e1, ← e2]
  exact this

theorem getElem?_set_append {α : Type} (l : List α) (i : Nat) (a b : α) (k : Nat)
    (hi : i < l.length) :
    (l.set i a ++ [b])[k]? =
      if k = l.length then some b else if k = i then some a else l[k]? := by
  by_cases h1 : k = l.length
  · subst h1
    rw [if_pos rfl, List.getElem?_append_right (by simp)]
    simp
  · rw [if_neg h1]
    by_cases h2 : k < l.length
    · rw [List.getElem?_append_left (by simp; exact h2)]
      by_cases h3 : k = i
      · subst h3
        rw [if_pos rfl, List.getElem?_set_self hi]
      · rw [if_neg h3, List.getElem?_set_ne (Ne.symm h3)]
    · have h4 : l.length < k := by omega
      rw [List.getElem?_eq_none (by simp; omega), if_neg (by omega),
        List.getElem?_eq_none (by omega)]

theorem getElem?_append_one {α : Type} (l : List α) (b : α) (k : Nat) :
    (l ++ [b])[k]? = if k = l.length then some b else l[k]? := by
  by_cases h1 : k = l.length
  · subst h1
    rw [if_pos rfl, List.getElem?_append_right (by simp)]
    simp
  · rw [if_neg h1]
    by_cases h2 : k < l.length
    · rw [List.getElem?_append_left h2]
    · rw [List.getElem?_eq_none (by simp; omega), List.getElem?_eq_none (by omega)]

theorem addNewRootNode_empty (self track : SimplePipeTrack) (id : Int) (point : Point)
    (diameter : Nat) (hroot : self.rootNodeP = none) (hheap : self.heap = [])
    (h : self.addNewRootNode id point diameter = some track) :
    track.rootNodeP = some 0 ∧ track.heap = [⟨id, point, ⟨0, 0, 0⟩, 1, []⟩] := by
  unfold SimplePipeTrack.addNewRootNode at h
  split at h
  · cases h
  · simp only [SimplePipeTrackNode.new, Nat.lt_irrefl, gt_iff_lt, Nat.zero_lt_one, if_true,
      hroot, hheap] at h
    cases h
    exact ⟨rfl, rfl⟩

theorem addNewRootNode_root (self track : SimplePipeTrack) (id : Int) (point : Point)
    (diameter : Nat) (rootNodeP : Nat) (hroot : self.rootNodeP = some rootNodeP)
    (h : self.addNewRootNode id point diameter = some track) :
    ∃ rootNode, self.heap[rootNodeP]? = some rootNode ∧
      track.rootNodeP = some self.heap.length ∧
      track.heap = self.heap.set rootNodeP
          { rootNode with pipeDirection := rootNode.point.sub point, diameter := diameter }
        ++ [⟨id, point, ⟨0, 0, 0⟩, 1, [rootNodeP]⟩] := by
  unfold SimplePipeTrack.addNewRootNode at h
  split at h
  · cases h
  · simp only [SimplePipeTrackNode.new, gt_iff_lt, Nat.zero_lt_one, if_true, hroot] at h
    cases hr : self.heap[rootNodeP]? with
    | none => rw [hr] at h; cases h
    | some rootNode =>
      rw [hr] at h
      cases h
      exact ⟨rootNode, rfl, rfl, rfl⟩

theorem addNewNodeToExisting_some (self track : SimplePipeTrack) (newNodeId : Int)
    (newNodePoint : Point) (newNodeDiameter : CalcNumber) (existingNodeId : Int)
    (h : self.addNewNodeToExisting newNodeId newNodePoint newNodeDiameter existingNodeId
      = some track) :
    ∃ existingNodeP existingNode diameter, self.heap[existingNodeP]? = some existingNode ∧
      track.rootNodeP = self.rootNodeP ∧
      track.heap = self.heap.set existingNodeP
          { existingNode with nextNodesPs := existingNode.nextNodesPs ++ [self.heap.length] }
        ++ [⟨newNodeId, newNodePoint, newNodePoint.sub existingNode.point, diameter, []⟩] := by
  unfold SimplePipeTrack.addNewNodeToExisting at h
  split at h
  · cases h
  · cases he : self.nodePsForId.lookup existingNodeId with
    | none => rw [he] at h; cases h
    | some existingNodeP =>
      rw [he] at h
      dsimp only at h
      cases hn : self.heap[existingNodeP]? with
      | none => rw [hn] at h; cases h
      | some existingNode =>
        rw [hn] at h
        dsimp only at h
        cases hd : toUnsignedInt newNodeDiameter with
        | none => rw [hd] at h; cases h
        | some diameter =>
          rw [hd] at h
          dsimp only at h
          unfold SimplePipeTrackNode.new at h
          by_cases hpos : diameter > 0
          · rw [if_pos hpos] at h
            cases h
            exact ⟨existingNodeP, existingNode, diameter, hn, rfl, rfl⟩
          · rw [if_neg hpos] at h
            cases h

theorem wellFormed_new : SimplePipeTrack.new.WellFormed := by
  refine ⟨⟨fun _ => 0, fun _ => rfl, ?_, ?_, ?_, ?_⟩, ?_⟩
  · intro r h; cases h
  · rintro p c ⟨parent, hp, _⟩
    simp [SimplePipeTrack.new] at hp
  · rintro c ⟨hc, _⟩
    simp [SimplePipeTrack.new] at hc
  · intro c hc
    simp [SimplePipeTrack.new] at hc
  · intro p c parent node hp
    simp [SimplePipeTrack.new] at hp

theorem addNewRootNode_wellFormed (self track : SimplePipeTrack) (id : Int) (point : Point)
    (diameter : Nat) (hw : self.WellFormed)
    (h : self.addNewRootNode id point diameter = some track) : track.WellFormed := by
  obtain ⟨⟨level, t1, t2, t3, t4, t5⟩, hd⟩ := hw
  cases hroot : self.rootNodeP with
  | none =>
    obtain ⟨e1, e2⟩ := addNewRootNode_empty self track id point diameter hroot (t1 hroot) h
    refine ⟨⟨fun _ => 0, ?_, ?_, ?_, ?_, ?_⟩, ?_⟩
    · intro hn; rw [e1] at hn; cases hn
    · intro r hr
      rw [e1] at hr
      cases hr
      rw [e2]
      exact ⟨by simp, rfl⟩
    · rintro p c ⟨parent, hp, hc⟩
      rw [e2] at hp
      cases p with
      | zero =>
        simp only [List.getElem?_cons_zero, Option.some.injEq] at hp
        subst hp
        cases hc
      | succ p => simp at hp
    · rintro c ⟨hc, hne⟩
      rw [e2] at hc
      rw [e1] at hne
      simp only [List.length_singleton, Nat.lt_one_iff] at hc
      subst hc
      exact absurd rfl hne
    · intro c hc
      rw [e2] at hc ⊢
      simp
    · intro p c parent node hp hc _
      rw [e2] at hp
      cases p with
      | zero =>
        simp only [List.getElem?_cons_zero, Option.some.injEq] at hp
        subst hp
        cases hc
      | succ p => simp at hp
  | some r =>
    obtain ⟨rootNode, hr, e1, e2⟩ := addNewRootNode_root self track id point diameter r hroot h
    obtain ⟨hrl, hr0⟩ := t2 r hroot
    have hget : ∀ k : Nat, track.heap[k]? =
        if k = self.heap.length then
          some ⟨id, point, ⟨0, 0, 0⟩, 1, [r]⟩
        else if k = r then
          some { rootNode with pipeDirection := rootNode.point.sub point, diameter := diameter }
        else self.heap[k]? := by
      intro k
      rw [e2]
      exact getElem?_set_append _ _ _ _ k hrl
    have hlen : track.heap.length = self.heap.length + 1 := by
      rw [e2]
      simp
    have hold : ∀ (p : Nat) (parent' : SimplePipeTrackNode), p ≠ self.heap.length →
        track.heap[p]? = some parent' →
        ∃ parent, self.heap[p]? = some parent ∧ parent'.nextNodesPs = parent.nextNodesPs ∧
          parent'.point = parent.point ∧ (p ≠ r → parent' = parent) := by
      intro p parent' hp hp'
      rw [hget p, if_neg hp] at hp'
      by_cases hpr : p = r
      · rw [if_pos hpr] at hp'
        cases hp'
        subst hpr
        exact ⟨rootNode, hr, rfl, rfl, fun hne => absurd rfl hne⟩
      · rw [if_neg hpr] at hp'
        exact ⟨parent', hp', rfl, rfl, fun _ => rfl⟩
    refine ⟨⟨fun c => if c = self.heap.length then 0 else level c + 1, ?_, ?_, ?_, ?_, ?_⟩, ?_⟩
    · intro hn; rw [e1] at hn; cases hn
    · intro r' hr'
      rw [e1] at hr'
      cases hr'
      rw [hlen]
      exact ⟨Nat.lt_succ_self _, if_pos rfl⟩
    · rintro p c ⟨parent', hp', hc⟩
      by_cases hpn : p = self.heap.length
      · rw [hget p, if_pos hpn] at hp'
        cases hp'
        simp only [List.mem_singleton] at hc
        subst hc
        rw [hlen]
        refine ⟨by omega, ?_⟩
        dsimp only
        rw [if_neg (by omega), if_pos hpn, hr0]
      · obtain ⟨parent, hp, hnext, _, _⟩ := hold p parent' hpn hp'
        rw [hnext] at hc
        obtain ⟨hcl, hlev⟩ := t3 p c ⟨parent, hp, hc⟩
        rw [hlen]
        refine ⟨by omega, ?_⟩
        dsimp only
        rw [if_neg (by omega), if_neg hpn, hlev]
    · rintro c ⟨hcl, hne⟩
      rw [hlen] at hcl
      rw [e1] at hne
      have hcn : c ≠ self.heap.length := fun e => hne (by rw [e])
      by_cases hcr : c = r
      · have hn : track.heap[self.heap.length]? = some ⟨id, point, ⟨0, 0, 0⟩, 1, [r]⟩ := by
          rw [hget, if_pos rfl]
        exact ⟨self.heap.length, _, hn, by rw [hcr]; exact List.mem_singleton.mpr rfl⟩
      · obtain ⟨p, parent, hp, hc⟩ := t4 c ⟨by omega, by rw [hroot]; intro e; cases e; exact hcr rfl⟩
        have hpl : p < self.heap.length := (List.getElem?_eq_some_iff.mp hp).1
        by_cases hpr : p = r
        · have hn : track.heap[p]? = some { rootNode with
              pipeDirection := rootNode.point.sub point, diameter := diameter } := by
            rw [hget, if_neg (by omega), if_pos hpr]
          subst hpr
          rw [hr] at hp
          cases hp
          exact ⟨p, _, hn, hc⟩
        · have hn : track.heap[p]? = some parent := by
            rw [hget, if_neg (by omega), if_neg hpr]
            exact hp
          exact ⟨p, _, hn, hc⟩
    · intro c hc
      rw [hlen] at hc ⊢
      dsimp only
      by_cases hcn : c = self.heap.length
      · rw [if_pos hcn]
        omega
      · rw [if_neg hcn]
        have := t5 c (by omega)
        omega
    · intro p c parent' node' hp' hc hn'
      by_cases hpn : p = self.heap.length
      · rw [hget p, if_pos hpn] at hp'
        cases hp'
        simp only [List.mem_singleton] at hc
        subst hc
        rw [hget c, if_neg (by omega), if_pos rfl] at hn'
        cases hn'
        rfl
      · obtain ⟨parent, hp, hnext, hpoint, _⟩ := hold p parent' hpn hp'
        rw [hnext] at hc
        obtain ⟨hcl, hlev⟩ := t3 p c ⟨parent, hp, hc⟩
        have hcr : c ≠ r := by
          intro e
          rw [e, hr0] at hlev
          omega
        obtain ⟨node, hn, _, _, hsame⟩ := hold c node' (by omega) hn'
        rw [hsame hcr, hpoint]
        exact hd p c parent node hp hc hn

theorem addNewNodeToExisting_wellFormed (self track : SimplePipeTrack) (newNodeId : Int)
    (newNodePoint : Point) (newNodeDiameter : CalcNumber) (existingNodeId : Int)
    (hw : self.WellFormed)
    (h : self.addNewNodeToExisting newNodeId newNodePoint newNodeDiameter existingNodeId
      = some track) : track.WellFormed := by
  obtain ⟨⟨level, t1, t2, t3, t4, t5⟩, hd⟩ := hw
  obtain ⟨e, existing, diameter, he, e1, e2⟩ := addNewNodeToExisting_some self track newNodeId
    newNodePoint newNodeDiameter existingNodeId h
  have hel : e < self.heap.length := (List.getElem?_eq_some_iff.mp he).1
  have hget : ∀ k : Nat, track.heap[k]? =
      if k = self.heap.length then
        some ⟨newNodeId, newNodePoint, newNodePoint.sub existing.point, diameter, []⟩
      else if k = e then
        some { existing with nextNodesPs := existing.nextNodesPs ++ [self.heap.length] }
      else self.heap[k]? := by
    intro k
    rw [e2]
    exact getElem?_set_append _ _ _ _ k hel
  have hlen : track.heap.length = self.heap.length + 1 := by
    rw [e2]
    simp
  obtain ⟨r, hroot⟩ : ∃ r, self.rootNodeP = some r := by
    cases hr : self.rootNodeP with
    | none =>
      have := t1 hr
      rw [this] at hel
      simp at hel
    | some r => exact ⟨r, rfl⟩
  obtain ⟨hrl, hr0⟩ := t2 r hroot
  have hold : ∀ (p : Nat) (node' : SimplePipeTrackNode), p ≠ self.heap.length →
      track.heap[p]? = some node' →
      ∃ node, self.heap[p]? = some node ∧ node'.point = node.point ∧
        node'.pipeDirection = node.pipeDirection ∧
        (p ≠ e → node'.nextNodesPs = node.nextNodesPs) ∧
        (p = e → node = existing ∧
          node'.nextNodesPs = existing.nextNodesPs ++ [self.heap.length]) := by
    intro p node' hp hp'
    rw [hget p, if_neg hp] at hp'
    by_cases hpe : p = e
    · rw [if_pos hpe] at hp'
      cases hp'
      subst hpe
      exact ⟨existing, he, rfl, rfl, fun hne => absurd rfl hne, fun _ => ⟨rfl, rfl⟩⟩
    · rw [if_neg hpe] at hp'
      exact ⟨node', hp', rfl, rfl, fun _ => rfl, fun e' => absurd e' hpe⟩
  refine ⟨⟨fun c => if c = self.heap.length then level e + 1 else level c, ?_, ?_, ?_, ?_, ?_⟩,
    ?_⟩
  · intro hn
    rw [e1, hroot] at hn
    cases hn
  · intro r' hr'
    rw [e1, hroot] at hr'
    cases hr'
    rw [hlen]
    refine ⟨by omega, ?_⟩
    dsimp only
    rw [if_neg (by omega), hr0]
  · rintro p c ⟨parent', hp', hc⟩
    by_cases hpn : p = self.heap.length
    · rw [hget p, if_pos hpn] at hp'
      cases hp'
      cases hc
    · obtain ⟨parent, hp, _, _, hne, heq⟩ := hold p parent' hpn hp'
      rw [hlen]
      dsimp only
      rw [if_neg hpn]
      by_cases hpe : p = e
      · obtain ⟨hpar, hnext⟩ := heq hpe
        rw [hnext] at hc
        rcases List.mem_append.mp hc with hc1 | hc1
        · obtain ⟨hcl, hlev⟩ := t3 p c ⟨parent, hp, by rw [hpar]; exact hc1⟩
          refine ⟨by omega, ?_⟩
          rw [if_neg (by omega), hlev]
        · simp only [List.mem_singleton] at hc1
          subst hc1
          refine ⟨by omega, ?_⟩
          rw [if_pos rfl, hpe]
      · rw [hne hpe] at hc
        obtain ⟨hcl, hlev⟩ := t3 p c ⟨parent, hp, hc⟩
        refine ⟨by omega, ?_⟩
        rw [if_neg (by omega), hlev]
  · rintro c ⟨hcl, hne⟩
    rw [hlen] at hcl
    rw [e1, hroot] at hne
    by_cases hcn : c = self.heap.length
    · have hn : track.heap[e]? = some { existing with
          nextNodesPs := existing.nextNodesPs ++ [self.heap.length] } := by
        rw [hget, if_neg (by omega), if_pos rfl]
      exact ⟨e, _, hn, by rw [hcn]; simp⟩
    · obtain ⟨p, parent, hp, hc⟩ := t4 c ⟨by omega, by rw [hroot]; exact hne⟩
      have hpl : p < self.heap.length := (List.getElem?_eq_some_iff.mp hp).1
      by_cases hpe : p = e
      · have hn : track.heap[p]? = some { existing with
            nextNodesPs := existing.nextNodesPs ++ [self.heap.length] } := by
          rw [hget, if_neg (by omega), if_pos hpe]
        subst hpe
        rw [he] at hp
        cases hp
        exact ⟨p, _, hn, List.mem_append_left _ hc⟩
      · have hn : track.heap[p]? = some parent := by
          rw [hget, if_neg (by omega), if_neg hpe]
          exact hp
        exact ⟨p, _, hn, hc⟩
  · intro c hc
    rw [hlen] at hc ⊢
    dsimp only
    by_cases hcn : c = self.heap.length
    · rw [if_pos hcn]
      have := t5 e hel
      omega
    · rw [if_neg hcn]
      have := t5 c (by omega)
      omega
  · intro p c parent' node' hp' hc hn'
    by_cases hpn : p = self.heap.length
    · rw [hget p, if_pos hpn] at hp'
      cases hp'
      cases hc
    · obtain ⟨parent, hp, hpoint, _, hne, heq⟩ := hold p parent' hpn hp'
      by_cases hcn : c = self.heap.length
      · have hpe : p = e := by
          by_contra hpe
          rw [hne hpe] at hc
          have := (t3 p c ⟨parent, hp, hc⟩).1
          omega
        rw [hget c, if_pos hcn] at hn'
        cases hn'
        obtain ⟨hpar, _⟩ := heq hpe
        rw [hpoint, hpar]
      · obtain ⟨node, hn, hnpoint, hndir, _, _⟩ := hold c node' hcn hn'
        have hc' : c ∈ parent.nextNodesPs := by
          by_cases hpe : p = e
          · obtain ⟨hpar, hnext⟩ := heq hpe
            rw [hnext] at hc
            rcases List.mem_append.mp hc with hc1 | hc1
            · rw [hpar]; exact hc1
            · simp only [List.mem_singleton] at hc1
              exact absurd hc1 hcn
          · rw [hne hpe] at hc
            exact hc
        rw [hndir, hnpoint, hpoint]
        exact hd p c parent node hp hc' hn

theorem call_wellFormed (self track : SimplePipeTrack) (call : TrackCall)
    (hw : self.WellFormed) (h : self.call call = some track) : track.WellFormed := by
  cases call with
  | addNewRootNode id point diameter =>
    exact addNewRootNode_wellFormed self track id point diameter hw h
  | addNewNodeToExisting newNodeId newNodePoint newNodeDiameter existingNodeId =>
    exact addNewNodeToExisting_wellFormed self track newNodeId newNodePoint newNodeDiameter
      existingNodeId hw h

theorem calls_wellFormed (calls : List TrackCall) :
    ∀ (self track : SimplePipeTrack), self.WellFormed → self.calls calls = some track →
      track.WellFormed := by
  induction calls with
  | nil =>
    intro self track hw h
    simp only [SimplePipeTrack.calls, Option.some.injEq] at h
    rw [← h]
    exact hw
  | cons call rest ih =>
    intro self track hw h
    simp only [SimplePipeTrack.calls] at h
    cases hc : self.call call with
    | none => rw [hc] at h; cases h
    | some track1 =>
      rw [hc] at h
      exact ih track1 track (call_wellFormed self track1 call hw hc) h

theorem minWithSlope_eq (sqrt : CalcNumber → CalcNumber)
    (hpos : ∀ x : CalcNumber, 0 < x → sqrt x ≠ 0) (m : CalcNumber) (direction : Point) :
    SimplePipeTrack.minWithSlope sqrt m direction
      = some (if direction.length sqrt = 0 then m
        else min m (direction.z / direction.length sqrt)) := by
  unfold SimplePipeTrack.minWithSlope
  by_cases hl : direction.length sqrt = 0
  · rw [if_pos hl, if_pos hl]
    have hz : ¬ direction.z < 0 := by
      intro hz
      unfold Point.length at hl
      apply hpos _ _ hl
      have h1 := mul_self_nonneg direction.x
      have h2 := mul_self_nonneg direction.y
      have h3 : 0 < direction.z * direction.z := mul_self_pos.mpr (ne_of_lt hz)
      linarith
    rw [if_neg hz]
  · rw [if_neg hl, if_neg hl]

theorem slopeLoop_spec (sqrt : CalcNumber → CalcNumber)
    (hpos : ∀ x : CalcNumber, 0 < x → sqrt x ≠ 0) (self : SimplePipeTrack)
    (subTree : Nat → Option CalcNumber) :
    ∀ (nodesPs : List Nat) (m : CalcNumber), m ≤ 1 →
      (∀ c ∈ nodesPs, c < self.heap.length ∧
        ∃ s, subTree c = some s ∧ self.IsSubTreeMin sqrt c s) →
      ∃ r, SimplePipeTrack.slopeLoop sqrt self subTree nodesPs m = some r ∧ r ≤ m ∧
        (∀ c ∈ nodesPs, (∀ slope, self.HasSlope sqrt c slope → r ≤ slope) ∧
          ∀ d slope, self.Descendant c d → self.HasSlope sqrt d slope → r ≤ slope) ∧
        (r = m ∨ ∃ c ∈ nodesPs, self.HasSlope sqrt c r ∨
          ∃ d, self.Descendant c d ∧ self.HasSlope sqrt d r) := by
  intro nodesPs
  induction nodesPs with
  | nil =>
    intro m _ _
    exact ⟨m, rfl, le_refl _, ⟨fun c hc => absurd hc (List.not_mem_nil c), Or.inl rfl⟩⟩
  | cons c rest ih =>
    intro m hm hall
    obtain ⟨hcl, s, hs, hs1, hs2, hs3⟩ := hall c (List.mem_cons_self _ _)
    obtain ⟨node, hn⟩ : ∃ node, self.heap[c]? = some node :=
      ⟨_, List.getElem?_eq_getElem hcl⟩
    unfold SimplePipeTrack.slopeLoop
    rw [hs, hn]
    dsimp only
    rw [minWithSlope_eq sqrt hpos]
    dsimp only
    have hm1 : (if node.pipeDirection.length sqrt = 0 then min m s
        else min (min m s) (node.pipeDirection.z / node.pipeDirection.length sqrt)) ≤ 1 := by
      split
      · exact le_trans (min_le_left _ _) hm
      · exact le_trans (le_trans (min_le_left _ _) (min_le_left _ _)) hm
    obtain ⟨r, hr, hr1, hr2, hr3⟩ := ih _ hm1
      (fun c' hc' => hall c' (List.mem_cons_of_mem _ hc'))
    refine ⟨r, hr, ?_, ?_, ?_⟩
    · refine le_trans hr1 ?_
      split
      · exact min_le_left _ _
      · exact le_trans (min_le_left _ _) (min_le_left _ _)
    · intro c' hc'
      rcases List.mem_cons.mp hc' with e | hmem
      · subst e
        constructor
        · rintro slope ⟨node', hn', hlen, hslope⟩
          rw [hn] at hn'
          cases hn'
          refine le_trans hr1 ?_
          rw [if_neg hlen, hslope]
          exact min_le_right _ _
        · intro d slope hd hslope
          refine le_trans hr1 (le_trans ?_ (hs2 d slope hd hslope))
          split
          · exact min_le_right _ _
          · exact le_trans (min_le_left _ _) (min_le_right _ _)
      · exact hr2 c' hmem
    · rcases hr3 with e | ⟨c', hc', h'⟩
      · by_cases hlen : node.pipeDirection.length sqrt = 0
        · rw [if_pos hlen] at e
          rcases min_choice m s with e' | e'
          · exact Or.inl (by rw [e, e'])
          · rcases hs3 with e1 | ⟨d, hd, hslope⟩
            · left
              rw [e, e', e1]
              rw [e1] at e'
              rw [← e']
              exact min_eq_left hm
            · right
              refine ⟨c, List.mem_cons_self _ _, Or.inr ⟨d, hd, ?_⟩⟩
              rw [e, e']
              exact hslope
        · rw [if_neg hlen] at e
          rcases min_choice (min m s) (node.pipeDirection.z / node.pipeDirection.length sqrt)
            with e' | e'
          · rcases min_choice m s with e'' | e''
            · exact Or.inl (by rw [e, e', e''])
            · rcases hs3 with e1 | ⟨d, hd, hslope⟩
              · left
                rw [e, e', e'']
                rw [e1] at e''
                rw [e1, ← e'']
                exact min_eq_left hm
              · right
                refine ⟨c, List.mem_cons_self _ _, Or.inr ⟨d, hd, ?_⟩⟩
                rw [e, e', e'']
                exact hslope
          · right
            refine ⟨c, List.mem_cons_self _ _, Or.inl ⟨node, hn, hlen, ?_⟩⟩
            rw [e, e']
      · exact Or.inr ⟨c', List.mem_cons_of_mem _ hc', h'⟩

theorem calculateMinSlopeAngleSinFrom_spec (sqrt : CalcNumber → CalcNumber)
    (hpos : ∀ x : CalcNumber, 0 < x → sqrt x ≠ 0) (self : SimplePipeTrack) (level : Nat → Nat)
    (ht : self.TreeWith level) :
    ∀ (fuel p : Nat), p < self.heap.length → self.heap.length + 1 ≤ fuel + level p →
      ∃ r, SimplePipeTrack.calculateMinSlopeAngleSinFrom sqrt self fuel (some p) = some r ∧
        self.IsSubTreeMin sqrt p r := by
  obtain ⟨_, _, t3, _, t5⟩ := ht
  intro fuel
  induction fuel with
  | zero =>
    intro p hp hf
    have := t5 p hp
    omega
  | succ fuel ih =>
    intro p hp hf
    obtain ⟨rootNode, hn⟩ : ∃ node, self.heap[p]? = some node :=
      ⟨_, List.getElem?_eq_getElem hp⟩
    unfold SimplePipeTrack.calculateMinSlopeAngleSinFrom
    rw [hn]
    dsimp only
    obtain ⟨r, hr, hr1, hr2, hr3⟩ := slopeLoop_spec sqrt hpos self
      (fun nodeP => SimplePipeTrack.calculateMinSlopeAngleSinFrom sqrt self fuel (some nodeP))
      rootNode.nextNodesPs 1 (le_refl 1)
      (fun c hc => by
        obtain ⟨hcl, hlev⟩ := t3 p c ⟨rootNode, hn, hc⟩
        exact ⟨hcl, ih c hcl (by omega)⟩)
    refine ⟨r, hr, hr1, ?_, ?_⟩
    · intro d slope hd hslope
      cases hd with
      | child _ _ hchild =>
        obtain ⟨parent, hparent, hmem⟩ := hchild
        rw [hn] at hparent
        cases hparent
        exact (hr2 d hmem).1 slope hslope
      | step _ c _ hchild hdesc =>
        obtain ⟨parent, hparent, hmem⟩ := hchild
        rw [hn] at hparent
        cases hparent
        exact (hr2 c hmem).2 d slope hdesc hslope
    · rcases hr3 with e | ⟨c, hc, h' | ⟨d, hd, hslope⟩⟩
      · exact Or.inl e
      · exact Or.inr ⟨c, .child p c ⟨rootNode, hn, hc⟩, h'⟩
      · exact Or.inr ⟨d, .step p c d ⟨rootNode, hn, hc⟩ hd, hslope⟩

theorem descendant_level (self : SimplePipeTrack) (level : Nat → Nat)
    (ht : self.TreeWith level) (a c : Nat) (h : self.Descendant a c) :
    c < self.heap.length ∧ level a + 1 ≤ level c := by
  obtain ⟨_, _, t3, _, _⟩ := ht
  induction h with
  | child p c hchild =>
    obtain ⟨h1, h2⟩ := t3 p c hchild
    exact ⟨h1, by omega⟩
  | step a p c hchild _ ih =>
    obtain ⟨_, h2⟩ := t3 a p hchild
    exact ⟨ih.1, by omega⟩

theorem descendant_snoc (self : SimplePipeTrack) (a p c : Nat) (h : self.Descendant a p)
    (hc : self.IsChild p c) : self.Descendant a c := by
  induction h with
  | child a p hchild => exact .step a p c hchild (.child p c hc)
  | step a q p hchild _ ih => exact .step a q c hchild (ih hc)

theorem nonRoot_descendant (self : SimplePipeTrack) (level : Nat → Nat)
    (ht : self.TreeWith level) (rootNodeP : Nat) (hroot : self.rootNodeP = some rootNodeP) :
    ∀ (n c : Nat), level c = n → self.NonRoot c → self.Descendant rootNodeP c := by
  obtain ⟨_, _, t3, t4, _⟩ := ht
  intro n
  induction n using Nat.strong_induction_on with
  | _ n ih =>
    intro c hlev hc
    obtain ⟨p, hchild⟩ := t4 c hc
    obtain ⟨_, hl⟩ := t3 p c hchild
    by_cases hp : p = rootNodeP
    · subst hp
      exact .child p c hchild
    · have hpl : p < self.heap.length := by
        obtain ⟨parent, hparent, _⟩ := hchild
        exact (List.getElem?_eq_some_iff.mp hparent).1
      have hnr : self.NonRoot p := ⟨hpl, by rw [hroot]; intro e; cases e; exact hp rfl⟩
      exact descendant_snoc self rootNodeP p c (ih (level p) (by omega) p rfl hnr) hchild

theorem calculateMinSlopeAngleSin_spec (sqrt : CalcNumber → CalcNumber)
    (hpos : ∀ x : CalcNumber, 0 < x → sqrt x ≠ 0) (self : SimplePipeTrack)
    (hw : self.WellFormed) (fuel : Nat) (hfuel : self.heap.length + 1 ≤ fuel) :
    ∃ r, self.calculateMinSlopeAngleSin sqrt fuel = some r ∧
      self.IsMinSlopeAngleSin sqrt r := by
  obtain ⟨⟨level, ht⟩, _⟩ := hw
  unfold SimplePipeTrack.calculateMinSlopeAngleSin
  cases hroot : self.rootNodeP with
  | none =>
    refine ⟨1, ?_, le_refl 1, ?_, Or.inl rfl⟩
    · cases fuel <;> rfl
    · rintro c slope ⟨hc, _⟩ _
      rw [ht.1 hroot] at hc
      simp at hc
  | some rootNodeP =>
    obtain ⟨hrl, hr0⟩ := ht.2.1 rootNodeP hroot
    obtain ⟨r, hr, h1, h2, h3⟩ := calculateMinSlopeAngleSinFrom_spec sqrt hpos self level ht
      fuel rootNodeP hrl (by omega)
    refine ⟨r, hr, h1, ?_, ?_⟩
    · intro c slope hc hslope
      exact h2 c slope (nonRoot_descendant self level ht rootNodeP hroot (level c) c rfl hc)
        hslope
    · rcases h3 with e | ⟨d, hd, hslope⟩
      · exact Or.inl e
      · obtain ⟨hdl, hlev⟩ := descendant_level self level ht rootNodeP d hd
        refine Or.inr ⟨d, ⟨hdl, ?_⟩, hslope⟩
        rw [hroot]
        intro e
        cases e
        omega

theorem slopeTestTrack_value (sqrt : CalcNumber → CalcNumber) (h1 : sqrt 1 = 1)
    (h11 : 1 ≤ sqrt 11) :
    slopeTestTrack.calculateMinSlopeAngleSin sqrt 4 = some (1 / sqrt 11) := by
  have e1 : sqrt ((0 : CalcNumber) * 0 + 0 * 0 + 1 * 1) = 1 := by norm_num [h1]
  have e11 : sqrt ((1 : CalcNumber) * 1 + -3 * -3 + 1 * 1) = sqrt 11 := by norm_num
  have hne : sqrt 11 ≠ 0 := by linarith
  have hle : 1 / sqrt 11 ≤ 1 := by
    rw [div_le_one (by linarith)]
    exact h11
  have m6 : SimplePipeTrack.minWithSlope sqrt (min 1 1) ⟨1, -3, 1⟩ = some (1 / sqrt 11) := by
    unfold SimplePipeTrack.minWithSlope Point.length
    dsimp only
    rw [e11, if_neg hne, min_self, min_eq_right hle]
  have m5 : SimplePipeTrack.minWithSlope sqrt (min 1 (1 / sqrt 11)) ⟨0, 0, 1⟩
      = some (1 / sqrt 11) := by
    unfold SimplePipeTrack.minWithSlope Point.length
    dsimp only
    rw [e1, if_neg one_ne_zero, min_eq_right hle, div_one, min_eq_left hle]
  have s0 : SimplePipeTrack.calculateMinSlopeAngleSinFrom sqrt slopeTestTrack 3 (some 0)
      = some (1 / sqrt 11) := by
    have : SimplePipeTrack.calculateMinSlopeAngleSinFrom sqrt slopeTestTrack 3 (some 0)
        = (SimplePipeTrack.minWithSlope sqrt (min 1 1) ⟨1, -3, 1⟩).bind some := by
      rw [m6]
      unfold SimplePipeTrack.calculateMinSlopeAngleSinFrom
      simp only [slopeTestTrack, List.getElem?_cons_zero, SimplePipeTrack.slopeLoop]
      unfold SimplePipeTrack.calculateMinSlopeAngleSinFrom
      simp only [List.getElem?_cons_succ, List.getElem?_cons_zero, SimplePipeTrack.slopeLoop]
      rw [m6]
      rfl
    rw [this, m6]
    rfl
  unfold SimplePipeTrack.calculateMinSlopeAngleSin
  show SimplePipeTrack.calculateMinSlopeAngleSinFrom sqrt slopeTestTrack 4 (some 1) = _
  unfold SimplePipeTrack.calculateMinSlopeAngleSinFrom
  simp only [slopeTestTrack, List.getElem?_cons_succ, List.getElem?_cons_zero,
    SimplePipeTrack.slopeLoop]
  have s0' := s0
  simp only [slopeTestTrack] at s0'
  rw [s0']
  dsimp only
  rw [m5]

/-- C28: after any sequence of calls of `addNewRootNode` and `addNewNodeToExisting` on the
empty track that fails no assertion, every node other than the root is a next node of a node,
its parent, and its `pipeDirection` is its point minus the point of the parent; and for every
function `sqrt` that is not zero on positive numbers `calculateMinSlopeAngleSin` returns, when
allowed as many nested calls as there are nodes plus one, the minimum of 1 and of the
quotients `pipeDirection.z / |pipeDirection|` of the nodes other than the root: the value 1
for a track without nodes or with a root only, and a quotient of a node when some quotient is
at most 1, as all are for the square root. -/
theorem calculateMinSlopeAngleSin_is_minimum (calls : List TrackCall)
    (track : SimplePipeTrack) (h : SimplePipeTrack.new.calls calls = some track) :
    (∀ (nodeP : Nat) (node : SimplePipeTrackNode), track.NonRoot nodeP →
      track.heap[nodeP]? = some node →
      ∃ (parentP : Nat) (parent : SimplePipeTrackNode),
        track.heap[parentP]? = some parent ∧ nodeP ∈ parent.nextNodesPs ∧
        node.pipeDirection = node.point.sub parent.point) ∧
    track.DirectionsFromParents ∧
    ∀ sqrt : CalcNumber → CalcNumber, (∀ x : CalcNumber, 0 < x → sqrt x ≠ 0) →
      ∀ fuel, track.heap.length + 1 ≤ fuel →
      ∃ r, track.calculateMinSlopeAngleSin sqrt fuel = some r ∧
        track.IsMinSlopeAngleSin sqrt r ∧
        (track.heap.length ≤ 1 → r = 1) ∧
        ((∃ nodeP slope, track.NonRoot nodeP ∧ track.HasSlope sqrt nodeP slope ∧ slope ≤ 1) →
          ∃ nodeP, track.NonRoot nodeP ∧ track.HasSlope sqrt nodeP r) := by
  have hw := calls_wellFormed calls SimplePipeTrack.new track wellFormed_new h
  refine ⟨?_, hw.2, ?_⟩
  · intro nodeP node hnr hn
    obtain ⟨⟨level, ht⟩, hd⟩ := hw
    obtain ⟨parentP, parent, hp, hmem⟩ := ht.2.2.2.1 nodeP hnr
    exact ⟨parentP, parent, hp, hmem, hd parentP nodeP parent node hp hmem hn⟩
  · intro sqrt hpos fuel hfuel
    obtain ⟨r, hr, hmin⟩ := calculateMinSlopeAngleSin_spec sqrt hpos track hw fuel hfuel
    refine ⟨r, hr, hmin, ?_, ?_⟩
    · intro hlen
      rcases hmin.2.2 with e | ⟨nodeP, ⟨hl, hne⟩, _⟩
      · exact e
      · obtain ⟨⟨level, ht⟩, _⟩ := hw
        cases hroot : track.rootNodeP with
        | none =>
          have := ht.1 hroot
          rw [this] at hl
          simp at hl
        | some rootNodeP =>
          have := (ht.2.1 rootNodeP hroot).1
          rw [hroot] at hne
          have : nodeP = rootNodeP := by omega
          exact absurd (by rw [this]) hne
    · rintro ⟨nodeP, slope, hnr, hslope, hle⟩
      rcases hmin.2.2 with e | hex
      · have := hmin.2.1 nodeP slope hnr hslope
        have e' : slope = r := by
          rw [e] at this ⊢
          exact le_antisymm hle this
        rw [e'] at hslope
        exact ⟨nodeP, hnr, hslope⟩
      · exact hex

/-- Witness for C28: the calls of the test build the track `slopeTestTrack` of the nodes 4, 5
and 6, for which `calculateMinSlopeAngleSin` returns `1 / sqrt(11)` for every function `sqrt`
with `sqrt(1) = 1` and `1 <= sqrt(11)`; the empty track and the track of a root only give
1. -/
theorem calculateMinSlopeAngleSin_is_minimum_witness :
    SimplePipeTrack.new.calls slopeTestCalls = some slopeTestTrack ∧
      (∀ sqrt : CalcNumber → CalcNumber, sqrt 1 = 1 → 1 ≤ sqrt 11 →
        slopeTestTrack.calculateMinSlopeAngleSin sqrt 4 = some (1 / sqrt 11)) ∧
      (∀ sqrt : CalcNumber → CalcNumber,
        SimplePipeTrack.new.calculateMinSlopeAngleSin sqrt 1 = some 1) ∧
      (∀ sqrt : CalcNumber → CalcNumber,
        (SimplePipeTrack.new.addNewRootNode 5 ⟨4, 7, 11⟩ (UINT_RANGE - 1)).bind
          (SimplePipeTrack.calculateMinSlopeAngleSin sqrt 2) = some 1) ∧
      slopeTestTrack.DirectionsFromParents :=
  ⟨by decide!, slopeTestTrack_value, fun _ => rfl, fun _ => rfl,
    (calculateMinSlopeAngleSin_is_minimum slopeTestCalls slopeTestTrack (by decide!)).2.1⟩


/-! ## Matrices of size 4 by 4: the determinant and the inverse -/

theorem determinant4_eq_det (m : Fin 4 → Fin 4 → CalcNumber) :
    determinant4 m = (Matrix.of m).det := by
  rw [Matrix.det_succ_row_zero]
  have h3 : (Fin.succ 2 : Fin 4) = 3 := rfl
  have h2 : (Fin.castSucc 2 : Fin 4) = 2 := rfl
  simp [Fin.sum_univ_succ, Matrix.det_fin_three, Fin.succAbove, determinant4, h3, h2]
  ring

theorem determinant4_exchangeRows (m : Fin 4 → Fin 4 → CalcNumber) (i k : Fin 4) (h : i < k) :
    determinant4 (Matrix4x4.exchangeRows m i k) = - determinant4 m := by
  fin_cases i <;> fin_cases k <;> simp at h <;>
    simp [determinant4, Matrix4x4.exchangeRows] <;> ring

theorem determinant4_rowsMinus (m : Fin 4 → Fin 4 → CalcNumber) (i : Fin 4)
    (c : Fin 4 → CalcNumber) : determinant4 (rowsMinus m i c) = determinant4 m := by
  fin_cases i <;>
    simp only [determinant4, rowsMinus, Fin.zero_eta, Fin.mk_one, Fin.reduceFinMk, Fin.reduceLT,
      Fin.isValue, ↓reduceIte, lt_self_iff_false] <;> ring

theorem finRange_four : List.finRange 4 = [0, 1, 2, 3] := rfl

theorem pivotRow_some {tempMatrix : Fin 4 → Fin 4 → CalcNumber} {i k : Fin 4}
    (h : Matrix4x4.pivotRow tempMatrix i = some k) : i ≤ k ∧ tempMatrix k i ≠ 0 := by
  have hp := List.find?_some h
  simpa using hp

theorem pivotRow_none {tempMatrix : Fin 4 → Fin 4 → CalcNumber} {i : Fin 4}
    (h : Matrix4x4.pivotRow tempMatrix i = none) : ∀ k : Fin 4, i ≤ k → tempMatrix k i = 0 := by
  intro k hk
  have hp := List.find?_eq_none.mp h k (List.mem_finRange k)
  simpa [hk] using hp

theorem exchangeRows_pivot (m : Fin 4 → Fin 4 → CalcNumber) (i k : Fin 4) :
    (if i < k then Matrix4x4.exchangeRows m i k else m) i = m (if i < k then k else i) := by
  by_cases h : i < k
  · simp [h, Matrix4x4.exchangeRows]
  · simp [h]

theorem upperTo_exchangeRows {m : Fin 4 → Fin 4 → CalcNumber} {i k : Fin 4}
    (hU : UpperTo i.val m) (hik : i ≤ k) :
    UpperTo i.val (if i < k then Matrix4x4.exchangeRows m i k else m) := by
  by_cases h : i < k
  · rw [if_pos h]
    intro r j hj hjr
    have hji : j < i := hj
    unfold Matrix4x4.exchangeRows
    by_cases h1 : r = i
    · rw [if_pos h1]
      exact hU k j hj (lt_of_lt_of_le hji hik)
    · rw [if_neg h1]
      by_cases h2 : r = k
      · rw [if_pos h2]
        exact hU i j hj hji
      · rw [if_neg h2]
        exact hU r j hj hjr
  · rw [if_neg h]
    exact hU

theorem determinant4_exchange (m : Fin 4 → Fin 4 → CalcNumber) (i k : Fin 4) :
    determinant4 (if i < k then Matrix4x4.exchangeRows m i k else m) =
      (-1) ^ (if i < k then 1 else 0) * determinant4 m := by
  by_cases h : i < k
  · rw [if_pos h, if_pos h, determinant4_exchangeRows m i k h]
    ring
  · rw [if_neg h, if_neg h]
    ring

theorem eliminateBelow_eq {m : Fin 4 → Fin 4 → CalcNumber} {i : Fin 4}
    (hU : UpperTo i.val m) (hp : m i i ≠ 0) :
    Matrix4x4.eliminateBelow m i = rowsMinus m i (fun k => m k i / m i i) := by
  funext k j
  unfold Matrix4x4.eliminateBelow rowsMinus
  by_cases hk : i < k
  · rw [if_pos hk, if_pos hk]
    by_cases hj : j = i
    · rw [if_pos hj, hj]
      field_simp
    · rw [if_neg hj]
      by_cases hij : i < j
      · rw [if_pos hij]
      · rw [if_neg hij]
        have hji : j < i := lt_of_le_of_ne (not_lt.mp hij) hj
        rw [hU i j hji hji]
        ring
  · rw [if_neg hk, if_neg hk]

theorem upperTo_eliminateBelow {m : Fin 4 → Fin 4 → CalcNumber} {i : Fin 4}
    (hU : UpperTo i.val m) : UpperTo (i.val + 1) (Matrix4x4.eliminateBelow m i) := by
  intro k j hj hjk
  unfold Matrix4x4.eliminateBelow
  by_cases hk : i < k
  · rw [if_pos hk]
    by_cases hji : j = i
    · rw [if_pos hji]
    · rw [if_neg hji]
      have hlt : j < i := lt_of_le_of_ne (Nat.lt_succ_iff.mp hj) hji
      rw [if_neg (not_lt.mpr (le_of_lt hlt))]
      exact hU k j hlt hjk
  · rw [if_neg hk]
    have hki : k ≤ i := not_lt.mp hk
    exact hU k j (lt_of_lt_of_le hjk hki) hjk

theorem determinant4_zero_column {m : Fin 4 → Fin 4 → CalcNumber} {i : Fin 4}
    (hU : UpperTo i.val m) (hz : ∀ k : Fin 4, i ≤ k → m k i = 0) : determinant4 m = 0 := by
  have h : ∀ k j : Fin 4, (j < i ∧ j < k) ∨ (j = i ∧ i ≤ k) → m k j = 0 := by
    intro k j hkj
    rcases hkj with ⟨h1, h2⟩ | ⟨h1, h2⟩
    · exact hU k j h1 h2
    · rw [h1]
      exact hz k h2
  clear hU hz
  fin_cases i
  · have e0 := h 0 0 (by decide)
    have e1 := h 1 0 (by decide)
    have e2 := h 2 0 (by decide)
    have e3 := h 3 0 (by decide)
    simp only [determinant4, e0, e1, e2, e3]
    ring
  · have e1 := h 1 0 (by decide)
    have e2 := h 2 0 (by decide)
    have e3 := h 3 0 (by decide)
    have f1 := h 1 1 (by decide)
    have f2 := h 2 1 (by decide)
    have f3 := h 3 1 (by decide)
    simp only [determinant4, e1, e2, e3, f1, f2, f3]
    ring
  · have e1 := h 1 0 (by decide)
    have e2 := h 2 0 (by decide)
    have e3 := h 3 0 (by decide)
    have f2 := h 2 1 (by decide)
    have f3 := h 3 1 (by decide)
    have g2 := h 2 2 (by decide)
    have g3 := h 3 2 (by decide)
    simp only [determinant4, e1, e2, e3, f2, f3, g2, g3]
    ring
  · have e1 := h 1 0 (by decide)
    have e2 := h 2 0 (by decide)
    have e3 := h 3 0 (by decide)
    have f2 := h 2 1 (by decide)
    have f3 := h 3 1 (by decide)
    have g3 := h 3 2 (by decide)
    have k3 := h 3 3 (by decide)
    simp only [determinant4, e1, e2, e3, f2, f3, g3, k3]
    ring

theorem determinant4_upper {m : Fin 4 → Fin 4 → CalcNumber} (hU : UpperTo 4 m) :
    determinant4 m = m 0 0 * m 1 1 * m 2 2 * m 3 3 := by
  have e1 := hU 1 0 (by decide) (by decide)
  have e2 := hU 2 0 (by decide) (by decide)
  have e3 := hU 3 0 (by decide) (by decide)
  have f2 := hU 2 1 (by decide) (by decide)
  have f3 := hU 3 1 (by decide) (by decide)
  have g3 := hU 3 2 (by decide) (by decide)
  simp only [determinant4, e1, e2, e3, f2, f3, g3]
  ring

theorem zero_of_neg_one_pow_mul {a b : CalcNumber} {n : Nat} (h : a = (-1) ^ n * b)
    (ha : a = 0) : b = 0 := by
  rw [ha] at h
  rcases neg_one_pow_eq_or CalcNumber n with h1 | h1 <;> rw [h1] at h <;> linarith

/-- One pass of step 2 on `tempMatrix`: the element on the diagonal is not zero after the
exchange, the next column is cleared below the diagonal and the determinant changes its sign
with an exchange of rows and is kept without. -/
theorem tempStep_spec {m : Fin 4 → Fin 4 → CalcNumber} {i k : Fin 4}
    (hU : UpperTo i.val m) (hp : Matrix4x4.pivotRow m i = some k) :
    (if i < k then Matrix4x4.exchangeRows m i k else m) i i ≠ 0 ∧
    UpperTo (i.val + 1)
      (Matrix4x4.eliminateBelow (if i < k then Matrix4x4.exchangeRows m i k else m) i) ∧
    determinant4
        (Matrix4x4.eliminateBelow (if i < k then Matrix4x4.exchangeRows m i k else m) i) =
      (-1) ^ (if i < k then 1 else 0) * determinant4 m := by
  obtain ⟨hik, hne⟩ := pivotRow_some hp
  have hU1 := upperTo_exchangeRows hU hik
  have hpiv : (if i < k then Matrix4x4.exchangeRows m i k else m) i i ≠ 0 := by
    rw [exchangeRows_pivot]
    by_cases h : i < k
    · rw [if_pos h]
      exact hne
    · rw [if_neg h]
      have : i = k := le_antisymm hik (not_lt.mp h)
      rw [this]
      rw [this] at hne
      exact hne
  refine ⟨hpiv, upperTo_eliminateBelow hU1, ?_⟩
  rw [eliminateBelow_eq hU1 hpiv, determinant4_rowsMinus]
  exact determinant4_exchange m i k

theorem determinantLoop_cons (i : Fin 4) (rest : List (Fin 4)) (m : Fin 4 → Fin 4 → CalcNumber)
    (hU : UpperTo i.val m) :
    (determinant4 m = 0 ∧ Matrix4x4.determinantLoop (i :: rest) m = none) ∨
    ∃ (m1 : Fin 4 → Fin 4 → CalcNumber) (s : Nat),
      Matrix4x4.determinantLoop (i :: rest) m = Matrix4x4.determinantLoop rest m1 ∧
      Matrix4x4.exchangeCount (i :: rest) m = s + Matrix4x4.exchangeCount rest m1 ∧
      UpperTo (i.val + 1) m1 ∧ determinant4 m1 = (-1) ^ s * determinant4 m := by
  cases hp : Matrix4x4.pivotRow m i with
  | none =>
    left
    refine ⟨determinant4_zero_column hU (pivotRow_none hp), ?_⟩
    simp only [Matrix4x4.determinantLoop, hp]
  | some k =>
    right
    obtain ⟨_, hU1, hd⟩ := tempStep_spec hU hp
    refine ⟨_, _, ?_, ?_, hU1, hd⟩
    · simp only [Matrix4x4.determinantLoop, hp]
    · simp only [Matrix4x4.exchangeCount, hp]

theorem upperTo_zero (m : Fin 4 → Fin 4 → CalcNumber) : UpperTo 0 m :=
  fun _ _ hj _ => absurd hj (Nat.not_lt_zero _)

/-- The method `determinant` returns the determinant with the sign changed once for every
exchange of rows that step 2.1 makes. -/
theorem determinant_eq (self : Matrix4x4) :
    self.determinant =
      (-1) ^ Matrix4x4.exchangeCount (List.finRange 4) self.elems *
        determinant4 self.elems := by
  unfold Matrix4x4.determinant
  rw [finRange_four]
  rcases determinantLoop_cons 0 [1, 2, 3] self.elems (upperTo_zero _) with
    ⟨hz, hn⟩ | ⟨m1, s1, e1, c1, hU1, hd1⟩
  · rw [hn, hz]
    simp
  rw [e1, c1]
  rcases determinantLoop_cons 1 [2, 3] m1 hU1 with ⟨hz, hn⟩ | ⟨m2, s2, e2, c2, hU2, hd2⟩
  · rw [hn, zero_of_neg_one_pow_mul hd1 hz]
    simp
  rw [e2, c2]
  rcases determinantLoop_cons 2 [3] m2 hU2 with ⟨hz, hn⟩ | ⟨m3, s3, e3, c3, hU3, hd3⟩
  · rw [hn, zero_of_neg_one_pow_mul hd1 (zero_of_neg_one_pow_mul hd2 hz)]
    simp
  rw [e3, c3]
  rcases determinantLoop_cons 3 [] m3 hU3 with ⟨hz, hn⟩ | ⟨m4, s4, e4, c4, hU4, hd4⟩
  · rw [hn,
      zero_of_neg_one_pow_mul hd1 (zero_of_neg_one_pow_mul hd2 (zero_of_neg_one_pow_mul hd3 hz))]
    simp
  rw [e4, c4]
  simp only [Matrix4x4.determinantLoop, Matrix4x4.exchangeCount]
  rw [← determinant4_upper hU4, hd4, hd3, hd2, hd1]
  ring

/-- The method `determinant` returns the determinant or its opposite. -/
theorem determinant_eq_or_neg (self : Matrix4x4) :
    self.determinant = determinant4 self.elems ∨
      self.determinant = - determinant4 self.elems := by
  rw [determinant_eq]
  rcases neg_one_pow_eq_or CalcNumber
    (Matrix4x4.exchangeCount (List.finRange 4) self.elems) with h | h
  · left
    rw [h, one_mul]
  · right
    rw [h]
    ring

theorem isProduct_exchangeRows {r m t : Fin 4 → Fin 4 → CalcNumber} (i k : Fin 4)
    (h : IsProduct r m t) :
    IsProduct (if i < k then Matrix4x4.exchangeRows r i k else r) m
      (if i < k then Matrix4x4.exchangeRows t i k else t) := by
  by_cases hik : i < k
  · rw [if_pos hik, if_pos hik]
    intro row j
    unfold Matrix4x4.exchangeRows
    by_cases h1 : row = i
    · simp only [if_pos h1]
      exact h k j
    · simp only [if_neg h1]
      by_cases h2 : row = k
      · simp only [if_pos h2]
        exact h i j
      · simp only [if_neg h2]
        exact h row j
  · rw [if_neg hik, if_neg hik]
    exact h

theorem isProduct_rowsMinus {r m t : Fin 4 → Fin 4 → CalcNumber} (i : Fin 4)
    (c : Fin 4 → CalcNumber) (h : IsProduct r m t) :
    IsProduct (rowsMinus r i c) m (rowsMinus t i c) := by
  intro k j
  have hk := h k j
  have hi := h i j
  simp only [Fin.sum_univ_four] at hk hi ⊢
  unfold rowsMinus
  by_cases hik : i < k
  · simp only [if_pos hik]
    linear_combination hk - c k * hi
  · simp only [if_neg hik]
    exact hk

theorem inversedForward_cons (i : Fin 4) (rest : List (Fin 4))
    (m t r : Fin 4 → Fin 4 → CalcNumber)
    (hU : UpperTo i.val t) (hd : determinant4 t ≠ 0) (hP : IsProduct r m t) :
    ∃ t1 r1 : Fin 4 → Fin 4 → CalcNumber,
      Matrix4x4.inversedForward (i :: rest) (t, r) = Matrix4x4.inversedForward rest (t1, r1) ∧
      UpperTo (i.val + 1) t1 ∧ determinant4 t1 ≠ 0 ∧ IsProduct r1 m t1 := by
  cases hp : Matrix4x4.pivotRow t i with
  | none => exact absurd (determinant4_zero_column hU (pivotRow_none hp)) hd
  | some k =>
    obtain ⟨hpiv, hU1, hd1⟩ := tempStep_spec hU hp
    obtain ⟨hik, _⟩ := pivotRow_some hp
    refine ⟨_, Matrix4x4.eliminateBelowResult
      (if i < k then Matrix4x4.exchangeRows t i k else t)
      (if i < k then Matrix4x4.exchangeRows r i k else r) i, ?_, hU1, ?_, ?_⟩
    · simp only [Matrix4x4.inversedForward, hp]
      rw [if_neg hpiv]
    · intro h0
      exact hd (zero_of_neg_one_pow_mul hd1 h0)
    · rw [eliminateBelow_eq (upperTo_exchangeRows hU hik) hpiv]
      exact isProduct_rowsMinus i _ (isProduct_exchangeRows i k hP)

theorem identity_elems :
    Matrix4x4.getIdentityMatrix.elems = fun i j => if i = j then 1 else 0 := by
  funext i j
  fin_cases i <;> fin_cases j <;> rfl

theorem isProduct_identity (m : Fin 4 → Fin 4 → CalcNumber) :
    IsProduct Matrix4x4.getIdentityMatrix.elems m m := by
  intro k j
  rw [identity_elems]
  simp

/-- The loop of step 2 of `inversed` ends without the `assert(false)` and without a zero
divisor when the determinant is not zero, with an upper triangular `tempMatrix`. -/
theorem inversedForward_spec (m : Fin 4 → Fin 4 → CalcNumber) (hd : determinant4 m ≠ 0) :
    ∃ t r : Fin 4 → Fin 4 → CalcNumber,
      Matrix4x4.inversedForward (List.finRange 4) (m, Matrix4x4.getIdentityMatrix.elems) =
        some (t, r) ∧
      UpperTo 4 t ∧ determinant4 t ≠ 0 ∧ IsProduct r m t := by
  rw [finRange_four]
  obtain ⟨t1, r1, e1, hU1, hd1, hP1⟩ :=
    inversedForward_cons 0 [1, 2, 3] m m _ (upperTo_zero _) hd (isProduct_identity m)
  obtain ⟨t2, r2, e2, hU2, hd2, hP2⟩ := inversedForward_cons 1 [2, 3] m t1 r1 hU1 hd1 hP1
  obtain ⟨t3, r3, e3, hU3, hd3, hP3⟩ := inversedForward_cons 2 [3] m t2 r2 hU2 hd2 hP2
  obtain ⟨t4, r4, e4, hU4, hd4, hP4⟩ := inversedForward_cons 3 [] m t3 r3 hU3 hd3 hP3
  refine ⟨t4, r4, ?_, hU4, hd4, hP4⟩
  rw [e1, e2, e3, e4]
  rfl

theorem inversedBackwardStep_spec (i : Fin 4) (m t r : Fin 4 → Fin 4 → CalcNumber)
    (hU : UpperTo 4 t) (hI : UnitFrom (i.val + 1) t) (hD : ∀ k : Fin 4, k ≤ i → t k k ≠ 0)
    (hP : IsProduct r m t) :
    ∃ t1 r1 : Fin 4 → Fin 4 → CalcNumber,
      Matrix4x4.inversedBackwardStep i (t, r) = some (t1, r1) ∧
      UpperTo 4 t1 ∧ UnitFrom i.val t1 ∧ (∀ k : Fin 4, k < i → t1 k k ≠ 0) ∧
      IsProduct r1 m t1 := by
  have hii : t i i ≠ 0 := hD i le_rfl
  have hrow : ∀ j : Fin 4, j ≠ i → t i j = 0 := by
    intro j hj
    rcases lt_or_gt_of_ne hj with h | h
    · exact hU i j j.isLt h
    · rw [hI i j h, if_neg (Ne.symm hj)]
  refine ⟨fun k j => if k = i ∧ j = i then 1 else if k < i ∧ j = i then 0 else t k j,
    fun k j =>
      if k = i then r i j * (1 / t i i)
      else if k < i then r k j - r i j * (1 / t i i) * t k i
      else r k j, ?_, ?_, ?_, ?_, ?_⟩
  · unfold Matrix4x4.inversedBackwardStep
    simp only
    rw [if_neg hii]
  · intro k j hj hjk
    show (if k = i ∧ j = i then 1 else if k < i ∧ j = i then 0 else t k j) = 0
    by_cases h1 : k = i ∧ j = i
    · exact absurd hjk (by rw [h1.1, h1.2]; exact lt_irrefl i)
    · rw [if_neg h1]
      by_cases h2 : k < i ∧ j = i
      · rw [if_pos h2]
      · rw [if_neg h2]
        exact hU k j hj hjk
  · intro k j hj
    show (if k = i ∧ j = i then 1 else if k < i ∧ j = i then 0 else t k j) =
      if k = j then 1 else 0
    by_cases hji : j = i
    · subst hji
      by_cases h1 : k = j
      · simp [h1]
      · by_cases h2 : k < j
        · simp [h1, h2]
        · have h3 : j < k := lt_of_le_of_ne (not_lt.mp h2) (Ne.symm h1)
          simp only [h1, h2, false_and, and_true, if_false]
          exact hU k j j.isLt h3
    · have h1 : ¬ (k = i ∧ j = i) := fun h => hji h.2
      have h2 : ¬ (k < i ∧ j = i) := fun h => hji h.2
      rw [if_neg h1, if_neg h2]
      exact hI k j (Nat.lt_of_le_of_ne hj (fun h => hji (Fin.ext h.symm)))
  · intro k hk
    show (if k = i ∧ k = i then 1 else if k < i ∧ k = i then 0 else t k k) ≠ 0
    have h1 : ¬ (k = i ∧ k = i) := fun h => absurd hk (by rw [h.1]; exact lt_irrefl i)
    have h2 : ¬ (k < i ∧ k = i) := fun h => absurd hk (by rw [h.2]; exact lt_irrefl i)
    rw [if_neg h1, if_neg h2]
    exact hD k (le_of_lt hk)
  · intro k j
    have hk := hP k j
    have hi := hP i j
    have hc : 1 / t i i * t i i = 1 := by field_simp
    simp only [Fin.sum_univ_four] at hk hi ⊢
    by_cases hki : k = i
    · subst hki
      simp only [if_true, true_and, lt_self_iff_false, false_and, if_false]
      by_cases hj : j = k
      · subst hj
        rw [if_pos rfl]
        linear_combination (1 / t j j) * hk + hc
      · rw [if_neg hj]
        have hz := hrow j hj
        linear_combination (1 / t k k) * hk + (1 / t k k - 1) * hz
    · simp only [if_neg hki, hki, false_and, if_false]
      by_cases hlt : k < i
      · simp only [if_pos hlt, hlt, true_and, if_true]
        by_cases hj : j = i
        · subst hj
          rw [if_pos rfl]
          linear_combination hk - (1 / t j j * t k j) * hi - t k j * hc
        · rw [if_neg hj]
          have hz := hrow j hj
          linear_combination hk - (1 / t i i * t k i) * hi - (1 / t i i * t k i) * hz
      · simp only [if_neg hlt, hlt, false_and, if_false]
        exact hk

theorem upperTo_unitFrom_four (t : Fin 4 → Fin 4 → CalcNumber) : UnitFrom 4 t :=
  fun _ j hj => absurd j.isLt (not_lt.mpr hj)

theorem diagonal_ne_zero {t : Fin 4 → Fin 4 → CalcNumber} (hU : UpperTo 4 t)
    (hd : determinant4 t ≠ 0) : ∀ k : Fin 4, t k k ≠ 0 := by
  rw [determinant4_upper hU] at hd
  intro k hk
  apply hd
  fin_cases k <;> simp at hk <;> simp [hk]

/-- The loop of step 3 of `inversed` ends without a zero divisor on an upper triangular
`tempMatrix` of determinant not zero, and `tempMatrix` is the identity matrix then. -/
theorem inversedBackward_spec (m t r : Fin 4 → Fin 4 → CalcNumber) (hU : UpperTo 4 t)
    (hd : determinant4 t ≠ 0) (hP : IsProduct r m t) :
    ∃ t1 r1 : Fin 4 → Fin 4 → CalcNumber,
      Matrix4x4.inversedBackward (List.finRange 4).reverse (t, r) = some (t1, r1) ∧
      UnitFrom 0 t1 ∧ IsProduct r1 m t1 := by
  have hl : (List.finRange 4).reverse = [3, 2, 1, 0] := rfl
  rw [hl]
  have hD := diagonal_ne_zero hU hd
  obtain ⟨t3, r3, e3, hU3, hI3, hD3, hP3⟩ :=
    inversedBackwardStep_spec 3 m t r hU (upperTo_unitFrom_four t) (fun k _ => hD k) hP
  obtain ⟨t2, r2, e2, hU2, hI2, hD2, hP2⟩ :=
    inversedBackwardStep_spec 2 m t3 r3 hU3 hI3
      (fun k hk => hD3 k (Nat.lt_succ_of_le hk)) hP3
  obtain ⟨t1, r1, e1, hU1, hI1, hD1, hP1⟩ :=
    inversedBackwardStep_spec 1 m t2 r2 hU2 hI2
      (fun k hk => hD2 k (Nat.lt_succ_of_le hk)) hP2
  obtain ⟨t0, r0, e0, _, hI0, _, hP0⟩ :=
    inversedBackwardStep_spec 0 m t1 r1 hU1 hI1
      (fun k hk => hD1 k (Nat.lt_succ_of_le hk)) hP1
  refine ⟨t0, r0, ?_, hI0, hP0⟩
  simp only [Matrix4x4.inversedBackward, e3, e2, e1, e0]

theorem mul_elems (a b : Matrix4x4) :
    (a.mul b).elems = fun i j => ∑ l : Fin 4, a.elems i l * b.elems l j := by
  funext i j
  simp only [Matrix4x4.mul, finRange_four, List.foldl, Fin.sum_univ_four, zero_add]
  rfl

theorem mul_eq_identity_iff (a b : Matrix4x4) :
    a.mul b = Matrix4x4.getIdentityMatrix ↔ Matrix.of a.elems * Matrix.of b.elems = 1 := by
  constructor
  · intro h
    ext i j
    have h1 := congrArg (fun x => x.elems i j) h
    simp only [mul_elems, identity_elems] at h1
    rw [Matrix.mul_apply, Matrix.one_apply]
    exact h1
  · intro h
    have h1 : (a.mul b).elems = Matrix4x4.getIdentityMatrix.elems := by
      funext i j
      have h2 := congrFun (congrFun h i) j
      rw [Matrix.mul_apply, Matrix.one_apply] at h2
      rw [mul_elems, identity_elems]
      exact h2
    cases hab : a.mul b with
    | mk e =>
      rw [hab] at h1
      simp only at h1
      rw [h1]

/-- The method `inversed` on a matrix of determinant not zero: it returns a matrix, and the
product of this matrix and of the given one, in this order, is the identity matrix. -/
theorem inversed_spec (self : Matrix4x4) (hd : determinant4 self.elems ≠ 0) :
    ∃ inv : Matrix4x4, self.inversed = some inv ∧
      Matrix.of inv.elems * Matrix.of self.elems = 1 := by
  obtain ⟨t, r, e, hU, hd1, hP⟩ := inversedForward_spec self.elems hd
  obtain ⟨t1, r1, e1, hI, hP1⟩ := inversedBackward_spec self.elems t r hU hd1 hP
  refine ⟨⟨r1⟩, ?_, ?_⟩
  · unfold Matrix4x4.inversed
    rw [e]
    simp only
    rw [e1]
  · ext i j
    rw [Matrix.mul_apply, Matrix.one_apply]
    have h := hP1 i j
    rw [hI i j (Nat.zero_le _)] at h
    exact h

/-- C24, the code against its documentation: `determinant` is documented to return the
determinant, by transformations that keep it, but the exchange of two rows in step 2.1
changes the sign of the determinant and the method does not take it back. For every matrix
the method returns the determinant times -1 to the power of the number of exchanges made. On
the matrix of the test no exchange is made and the value is -42, the determinant. On the
identity matrix with its first two rows exchanged one exchange is made and the method returns
1, while the determinant is -1. -/
theorem determinant_loses_sign_of_exchange :
    (∀ self : Matrix4x4,
      self.determinant =
        (-1) ^ Matrix4x4.exchangeCount (List.finRange 4) self.elems *
          (Matrix.of self.elems).det) ∧
    (∀ self : Matrix4x4,
      self.determinant = (Matrix.of self.elems).det ∨
        self.determinant = - (Matrix.of self.elems).det) ∧
    Matrix4x4.exchangeCount (List.finRange 4) determinantTestMatrix.elems = 0 ∧
    determinantTestMatrix.determinant = -42 ∧
    (Matrix.of determinantTestMatrix.elems).det = -42 ∧
    Matrix4x4.exchangeCount (List.finRange 4) exchangedRowsMatrix.elems = 1 ∧
    exchangedRowsMatrix.determinant = 1 ∧
    (Matrix.of exchangedRowsMatrix.elems).det = -1 := by
  refine ⟨?_, ?_, ?_, ?_, ?_, ?_, ?_, ?_⟩
  · intro self
    rw [← determinant4_eq_det]
    exact determinant_eq self
  · intro self
    rw [← determinant4_eq_det]
    exact determinant_eq_or_neg self
  · decide!
  · decide!
  · rw [← determinant4_eq_det]
    decide!
  · decide!
  · decide!
  · rw [← determinant4_eq_det]
    decide!

/-- The test of `inversed` in exact numbers: the method returns the matrix of the test. -/
theorem inversed_test :
    inversedTestMatrix.inversed.map (fun m => List.ofFn fun i => List.ofFn fun j => m.elems i j)
      = some (List.ofFn fun i => List.ofFn fun j => inversedTestResult.elems i j) := by
  decide!

/-- C25: for every matrix whose determinant is not zero the method `inversed` returns a
matrix, so that the elimination meets neither the `assert(false)` nor a zero divisor, and the
products of the given matrix and of the returned one by the operator `*`, in both orders, are
the identity matrix. -/
theorem inversed_is_inverse (self : Matrix4x4) (hdet : (Matrix.of self.elems).det ≠ 0) :
    ∃ inv : Matrix4x4, self.inversed = some inv ∧
      self.mul inv = Matrix4x4.getIdentityMatrix ∧
      inv.mul self = Matrix4x4.getIdentityMatrix := by
  rw [← determinant4_eq_det] at hdet
  obtain ⟨inv, h1, h2⟩ := inversed_spec self hdet
  refine ⟨inv, h1, ?_, ?_⟩
  · rw [mul_eq_identity_iff]
    exact (Matrix.mul_eq_one_comm).mp h2
  · rw [mul_eq_identity_iff]
    exact h2

/-- The matrix of the test of `inversed` has the determinant 80, so it has an inverse and
the method returns it. -/
theorem inversed_is_inverse_witness :
    (Matrix.of inversedTestMatrix.elems).det ≠ 0 ∧
    ∃ inv : Matrix4x4, inversedTestMatrix.inversed = some inv ∧
      inversedTestMatrix.mul inv = Matrix4x4.getIdentityMatrix ∧
      inv.mul inversedTestMatrix = Matrix4x4.getIdentityMatrix :=
  have h : (Matrix.of inversedTestMatrix.elems).det ≠ 0 := by
    rw [← determinant4_eq_det]
    decide!
  ⟨h, inversed_is_inverse inversedTestMatrix h⟩


/-! ## The sources after the ordering step of `loadObjectsFromFile` -/

theorem perm_cons_set {α : Type} (x b : α) :
    ∀ (xs : List α) (j : Nat), xs[j]? = some b → (b :: xs.set j x).Perm (x :: xs)
  | [], j, h => by simp at h
  | y :: t, 0, h => by
    simp only [List.getElem?_cons_zero, Option.some.injEq] at h
    subst h
    exact List.Perm.swap _ _ _
  | y :: t, j + 1, h => by
    simp only [List.getElem?_cons_succ] at h
    simp only [List.set_cons_succ]
    exact ((List.Perm.swap y b _).trans ((perm_cons_set x b t j h).cons y)).trans
      (List.Perm.swap x y t)

theorem perm_set_set {α : Type} (a b : α) :
    ∀ (l : List α) (i j : Nat), l[i]? = some a → l[j]? = some b →
      ((l.set i b).set j a).Perm l
  | [], i, _, hi, _ => by simp at hi
  | x :: xs, 0, 0, hi, hj => by
    simp only [List.getElem?_cons_zero, Option.some.injEq] at hi hj
    subst hi
    simp
  | x :: xs, 0, j + 1, hi, hj => by
    simp only [List.getElem?_cons_zero, Option.some.injEq] at hi
    simp only [List.getElem?_cons_succ] at hj
    subst hi
    simp only [List.set_cons_zero, List.set_cons_succ]
    exact perm_cons_set x b xs j hj
  | x :: xs, i + 1, 0, hi, hj => by
    simp only [List.getElem?_cons_zero, Option.some.injEq] at hj
    simp only [List.getElem?_cons_succ] at hi
    subst hj
    simp only [List.set_cons_zero, List.set_cons_succ]
    exact perm_cons_set x a xs i hi
  | x :: xs, i + 1, j + 1, hi, hj => by
    simp only [List.getElem?_cons_succ] at hi hj
    simp only [List.set_cons_succ]
    exact (perm_set_set a b xs i j hi hj).cons x

theorem exchangeSources_perm (i j : Nat) (waterSources : List WaterSource) :
    (WaterConnectionObjects.exchangeSources i j waterSources).Perm waterSources := by
  unfold WaterConnectionObjects.exchangeSources
  cases hi : waterSources[i]? with
  | none => exact List.Perm.refl _
  | some sourceI =>
    cases hj : waterSources[j]? with
    | none => exact List.Perm.refl _
    | some sourceJ =>
      dsimp only
      split_ifs with hlt
      · exact perm_set_set sourceI sourceJ waterSources i j hi hj
      · exact List.Perm.refl _

theorem foldl_perm {α β : Type} (f : List α → β → List α) (hf : ∀ l b, (f l b).Perm l) :
    ∀ (bs : List β) (l : List α), (bs.foldl f l).Perm l
  | [], l => List.Perm.refl l
  | b :: bs, l => (foldl_perm f hf bs (f l b)).trans (hf l b)

theorem sortWaterSources_perm (waterSources : List WaterSource) :
    (WaterConnectionObjects.sortWaterSources waterSources).Perm waterSources := by
  unfold WaterConnectionObjects.sortWaterSources
  exact foldl_perm _
    (fun l i => foldl_perm _ (fun l1 j => exchangeSources_perm i j l1) _ l) _ _

theorem readLines_sources :
    ∀ (lines : List ObjectLine) (objects result : WaterConnectionObjects),
      WaterConnectionObjects.readLines lines objects = .ok result →
      result.waterSources = objects.waterSources ++ sourcesOfLines lines
  | [], objects, result, h => by
    simp only [WaterConnectionObjects.readLines, Except.ok.injEq] at h
    subst h
    simp [sourcesOfLines]
  | .source waterSource :: lines, objects, result, h => by
    simp only [WaterConnectionObjects.readLines] at h
    rw [readLines_sources lines _ result h]
    simp [sourcesOfLines]
  | .destination waterDestination :: lines, objects, result, h => by
    simp only [WaterConnectionObjects.readLines] at h
    split_ifs at h
    rw [readLines_sources lines _ result h]
    simp [sourcesOfLines]

/-- C39: the ordering step of `loadObjectsFromFile` only exchanges elements. When the method
returns, the vector `waterSources` is a rearrangement of the sources of the file, with as many
elements, whatever `waterSources` held before the call; and the ordering step returns a
rearrangement of every vector it is given. -/
theorem loadObjectsFromFile_permutes_sources (self objects : WaterConnectionObjects)
    (lines : List ObjectLine) (h : self.loadObjectsFromFile lines = .ok objects) :
    objects.waterSources.Perm (sourcesOfLines lines) ∧
      objects.waterSources.length = (sourcesOfLines lines).length ∧
      ∀ waterSources : List WaterSource,
        (WaterConnectionObjects.sortWaterSources waterSources).Perm waterSources := by
  have hp : objects.waterSources.Perm (sourcesOfLines lines) := by
    unfold WaterConnectionObjects.loadObjectsFromFile at h
    cases hr : WaterConnectionObjects.readLines lines
      { self with waterSources := [], waterDestinationIsSet := false } with
    | error e => rw [hr] at h; simp at h
    | ok read =>
      rw [hr] at h
      dsimp only at h
      split_ifs at h
      simp only [Except.ok.injEq] at h
      subst h
      have hs := readLines_sources lines _ read hr
      simp only [List.nil_append] at hs
      dsimp only
      rw [← hs]
      exact sortWaterSources_perm _
  exact ⟨hp, hp.length_eq, sortWaterSources_perm⟩

/-- The file with the sources `S1`, `S2`, `S3`, `S4` is read without an error, and the
vector `S3`, `S1`, `S4`, `S2` is a rearrangement of its four sources. -/
theorem loadObjectsFromFile_permutes_sources_witness :
    ∃ objects, WaterConnectionObjects.new.loadObjectsFromFile fourSourceLines = .ok objects ∧
      objects.waterSources.Perm (sourcesOfLines fourSourceLines) ∧
      objects.waterSources.length = (sourcesOfLines fourSourceLines).length ∧
      ∀ waterSources : List WaterSource,
        (WaterConnectionObjects.sortWaterSources waterSources).Perm waterSources :=
  ⟨_, rfl, loadObjectsFromFile_permutes_sources WaterConnectionObjects.new _ fourSourceLines rfl⟩


/-! ## The polyline along a path -/

/-- One pass of the loop over the borders of a path: the path is given up when the range
shared with the next node is narrower than `2 * externalDiameterHalfed`, and otherwise the
point `crossingPoint` is added to the polyline. -/
theorem zigzagAlongPath_cons_cons (locationGraph : LocationGraph)
    (externalDiameterHalfed : CalcNumber) (currentNodeP nextNodeP : Nat) (rest : List Nat)
    (zigzag : List Point) :
    OptimalPipeTrackFinder.zigzagAlongPath locationGraph externalDiameterHalfed
        (currentNodeP :: nextNodeP :: rest) zigzag
      = match locationGraph.nodePs[currentNodeP]?, locationGraph.nodePs[nextNodeP]?,
          zigzag.getLast? with
        | some currentNode, some nextNode, some lastAddedPoint =>
          if sharedWidth currentNode nextNode nextNodeP < 2 * externalDiameterHalfed then
            some none
          else
            OptimalPipeTrackFinder.zigzagAlongPath locationGraph externalDiameterHalfed
              (nextNodeP :: rest)
              (zigzag ++ [crossingPoint externalDiameterHalfed currentNode nextNode nextNodeP
                lastAddedPoint])
        | _, _, _ => none := by
  rw [OptimalPipeTrackFinder.zigzagAlongPath]
  cases hc : locationGraph.nodePs[currentNodeP]? with
  | none => rfl
  | some currentNode =>
    cases hn : locationGraph.nodePs[nextNodeP]? with
    | none => rfl
    | some nextNode =>
      cases hl : zigzag.getLast? with
      | none => rfl
      | some lastAddedPoint =>
        dsimp only
        unfold sharedWidth crossingPoint
        by_cases htop : nextNodeP ∈ currentNode.topNodesPs
        · simp only [htop, decide_True, true_or, if_true]
          by_cases hw : min currentNode.right nextNode.right - max currentNode.left nextNode.left
              < 2 * externalDiameterHalfed
          · rw [if_pos hw, if_pos hw]
          · rw [if_neg hw, if_neg hw, clamp_eq _ _ _ (by linarith)]
        · by_cases hbottom : nextNodeP ∈ currentNode.bottomNodesPs
          · simp only [htop, hbottom, decide_True, decide_False, or_true, false_or, if_true,
              if_false, Bool.false_eq_true]
            by_cases hw : min currentNode.right nextNode.right
                - max currentNode.left nextNode.left < 2 * externalDiameterHalfed
            · rw [if_pos hw, if_pos hw]
            · rw [if_neg hw, if_neg hw, clamp_eq _ _ _ (by linarith)]
          · simp only [htop, hbottom, decide_False, or_self, if_false, Bool.false_eq_true]
            by_cases hw : min currentNode.top nextNode.top
                - max currentNode.bottom nextNode.bottom < 2 * externalDiameterHalfed
            · rw [if_pos hw, if_pos hw]
            · rw [if_neg hw, if_neg hw, clamp_eq _ _ _ (by linarith)]
              by_cases hright : nextNodeP ∈ currentNode.rightNodesPs
              · simp only [hright, decide_True, if_true]
              · simp only [hright, decide_False, if_false, Bool.false_eq_true]

theorem pathStep_zero {locationGraph : LocationGraph} {currentNodeP nextNodeP : Nat}
    {rest : List Nat} {a b : Nat} {c n : LocationGraphNode}
    (h : PathStep locationGraph (currentNodeP :: nextNodeP :: rest) 0 a b c n) :
    a = currentNodeP ∧ b = nextNodeP := by
  obtain ⟨h1, h2, _, _⟩ := h
  simp only [List.getElem?_cons_zero, Option.some.injEq, zero_add, List.getElem?_cons_succ]
    at h1 h2
  exact ⟨h1.symm, h2.symm⟩

theorem pathStep_succ {locationGraph : LocationGraph} {currentNodeP : Nat} {path : List Nat}
    {i a b : Nat} {c n : LocationGraphNode} :
    PathStep locationGraph (currentNodeP :: path) (i + 1) a b c n
      ↔ PathStep locationGraph path i a b c n := by
  unfold PathStep
  simp only [List.getElem?_cons_succ]

/-- The polyline that the loop over the borders returns: the points given to it, followed by
one point for every border of the path, each the `crossingPoint` for the point before it, and
every border is at least `2 * externalDiameterHalfed` wide. -/
theorem zigzagAlongPath_some (locationGraph : LocationGraph)
    (externalDiameterHalfed : CalcNumber) :
    ∀ (path : List Nat) (zigzag out : List Point),
      OptimalPipeTrackFinder.zigzagAlongPath locationGraph externalDiameterHalfed path zigzag
        = some (some out) →
      out.length = zigzag.length + (path.length - 1) ∧
        (∀ k, k < zigzag.length → out[k]? = zigzag[k]?) ∧
        ∀ i currentNodeP nextNodeP currentNode nextNode,
          PathStep locationGraph path i currentNodeP nextNodeP currentNode nextNode →
          2 * externalDiameterHalfed ≤ sharedWidth currentNode nextNode nextNodeP ∧
          1 ≤ zigzag.length ∧
          ∃ previous, out[zigzag.length - 1 + i]? = some previous ∧
            out[zigzag.length + i]? = some
              (crossingPoint externalDiameterHalfed currentNode nextNode nextNodeP previous)
  | [], zigzag, out, h => by
    simp only [OptimalPipeTrackFinder.zigzagAlongPath, Option.some.injEq] at h
    subst h
    refine ⟨by simp, fun _ _ => rfl, ?_⟩
    intro i a b c n hs
    simp [PathStep] at hs
  | [p], zigzag, out, h => by
    simp only [OptimalPipeTrackFinder.zigzagAlongPath, Option.some.injEq] at h
    subst h
    refine ⟨by simp, fun _ _ => rfl, ?_⟩
    intro i a b c n hs
    simp [PathStep] at hs
  | currentNodeP :: nextNodeP :: rest, zigzag, out, h => by
    rw [zigzagAlongPath_cons_cons] at h
    cases hc : locationGraph.nodePs[currentNodeP]? with
    | none => rw [hc] at h; simp at h
    | some currentNode =>
      cases hn : locationGraph.nodePs[nextNodeP]? with
      | none => rw [hc, hn] at h; simp at h
      | some nextNode =>
        cases hl : zigzag.getLast? with
        | none => rw [hc, hn, hl] at h; simp at h
        | some lastAddedPoint =>
          rw [hc, hn, hl] at h
          dsimp only at h
          by_cases hw : sharedWidth currentNode nextNode nextNodeP < 2 * externalDiameterHalfed
          · rw [if_pos hw] at h
            simp at h
          · rw [if_neg hw] at h
            obtain ⟨ih1, ih2, ih3⟩ := zigzagAlongPath_some locationGraph
              externalDiameterHalfed (nextNodeP :: rest) _ out h
            have hne : zigzag ≠ [] := by
              intro e
              rw [e] at hl
              simp at hl
            have hpos : 1 ≤ zigzag.length := List.length_pos.mpr hne
            have hlast : zigzag[zigzag.length - 1]? = some lastAddedPoint := by
              rw [← hl, List.getLast?_eq_getElem?]
            simp only [List.length_append, List.length_cons, List.length_nil, zero_add,
              Nat.add_sub_cancel] at ih1 ih2 ih3 ⊢
            refine ⟨by omega, ?_, ?_⟩
            · intro k hk
              rw [ih2 k (by omega), List.getElem?_append_left hk]
            · intro i a b c n hs
              cases i with
              | zero =>
                obtain ⟨ea, eb⟩ := pathStep_zero hs
                subst ea
                subst eb
                obtain ⟨_, _, h3, h4⟩ := hs
                rw [hc] at h3
                rw [hn] at h4
                simp only [Option.some.injEq] at h3 h4
                subst h3
                subst h4
                refine ⟨not_lt.mp hw, hpos, lastAddedPoint, ?_, ?_⟩
                · rw [Nat.add_zero, ih2 _ (by omega), List.getElem?_append_left (by omega)]
                  exact hlast
                · rw [Nat.add_zero, ih2 _ (by omega), List.getElem?_append_right (le_refl _)]
                  simp
              | succ i =>
                obtain ⟨w, _, previous, p1, p2⟩ := ih3 i a b c n (pathStep_succ.mp hs)
                refine ⟨w, hpos, previous, ?_, ?_⟩
                · rw [← p1]
                  congr 1
                  omega
                · rw [← p2]
                  congr 1
                  omega

/-- The loop over the borders gives the path up only at a border that is narrower than
`2 * externalDiameterHalfed`. -/
theorem zigzagAlongPath_none (locationGraph : LocationGraph)
    (externalDiameterHalfed : CalcNumber) :
    ∀ (path : List Nat) (zigzag : List Point),
      OptimalPipeTrackFinder.zigzagAlongPath locationGraph externalDiameterHalfed path zigzag
        = some none →
      ∃ i currentNodeP nextNodeP currentNode nextNode,
        PathStep locationGraph path i currentNodeP nextNodeP currentNode nextNode ∧
        sharedWidth currentNode nextNode nextNodeP < 2 * externalDiameterHalfed
  | [], zigzag, h => by simp [OptimalPipeTrackFinder.zigzagAlongPath] at h
  | [p], zigzag, h => by simp [OptimalPipeTrackFinder.zigzagAlongPath] at h
  | currentNodeP :: nextNodeP :: rest, zigzag, h => by
    rw [zigzagAlongPath_cons_cons] at h
    cases hc : locationGraph.nodePs[currentNodeP]? with
    | none => rw [hc] at h; simp at h
    | some currentNode =>
      cases hn : locationGraph.nodePs[nextNodeP]? with
      | none => rw [hc, hn] at h; simp at h
      | some nextNode =>
        cases hl : zigzag.getLast? with
        | none => rw [hc, hn, hl] at h; simp at h
        | some lastAddedPoint =>
          rw [hc, hn, hl] at h
          dsimp only at h
          by_cases hw : sharedWidth currentNode nextNode nextNodeP < 2 * externalDiameterHalfed
          · exact ⟨0, currentNodeP, nextNodeP, currentNode, nextNode,
              ⟨rfl, by simp, hc, hn⟩, hw⟩
          · rw [if_neg hw] at h
            obtain ⟨i, a, b, c, n, hs, hnarrow⟩ := zigzagAlongPath_none locationGraph
              externalDiameterHalfed (nextNodeP :: rest) _ h
            exact ⟨i + 1, a, b, c, n, pathStep_succ.mpr hs, hnarrow⟩

/-- The loop over the borders has a defined result when the polyline given to it is not empty
and every pointer of the path is the address of a node. -/
theorem zigzagAlongPath_defined (locationGraph : LocationGraph)
    (externalDiameterHalfed : CalcNumber) :
    ∀ (path : List Nat) (zigzag : List Point), zigzag ≠ [] →
      (∀ nodeP ∈ path, nodeP < locationGraph.nodePs.length) →
      OptimalPipeTrackFinder.zigzagAlongPath locationGraph externalDiameterHalfed path zigzag
        ≠ none
  | [], zigzag, _, _ => by simp [OptimalPipeTrackFinder.zigzagAlongPath]
  | [p], zigzag, _, _ => by simp [OptimalPipeTrackFinder.zigzagAlongPath]
  | currentNodeP :: nextNodeP :: rest, zigzag, hne, hvalid => by
    rw [zigzagAlongPath_cons_cons]
    have h1 : currentNodeP < locationGraph.nodePs.length :=
      hvalid _ (List.mem_cons_self _ _)
    have h2 : nextNodeP < locationGraph.nodePs.length :=
      hvalid _ (List.mem_cons_of_mem _ (List.mem_cons_self _ _))
    rw [List.getElem?_eq_getElem h1, List.getElem?_eq_getElem h2]
    cases hl : zigzag.getLast? with
    | none =>
      rw [List.getLast?_eq_none_iff] at hl
      exact absurd hl hne
    | some lastAddedPoint =>
      dsimp only
      split_ifs with hw
      · simp
      · exact zigzagAlongPath_defined locationGraph externalDiameterHalfed (nextNodeP :: rest) _
          (by simp) (fun nodeP hp => hvalid nodeP (List.mem_cons_of_mem _ hp))

/-! ## The end of a polyline -/

theorem length_sub_comm (sqrt : CalcNumber → CalcNumber) (a b : Point) :
    (a.sub b).length sqrt = (b.sub a).length sqrt := by
  unfold Point.length Point.sub
  congr 1
  ring

theorem isEndCandidate_mono {sqrt : CalcNumber → CalcNumber} {pipeTrack : PipeTrack}
    {endNode : LocationGraphNode} {done more : List Nat} {lastAddedPoint candidate : Point}
    {nodeP : Option Nat} (hsub : ∀ p ∈ done, p ∈ more)
    (h : IsEndCandidate sqrt pipeTrack endNode done lastAddedPoint candidate nodeP) :
    IsEndCandidate sqrt pipeTrack endNode more lastAddedPoint candidate nodeP := by
  rcases h with ⟨p, node, h1, h2, h3⟩ | h
  · exact Or.inl ⟨p, node, h1, hsub p h2, h3⟩
  · exact Or.inr h

theorem endSearchAfter_skip {sqrt : CalcNumber → CalcNumber} {pipeTrack : PipeTrack}
    {endNode : LocationGraphNode} {lastAddedPoint : Point} {done : List Nat}
    {search : OptimalPipeTrackFinder.EndSearch} (pipeTrackNodeP : Nat)
    (h : EndSearchAfter sqrt pipeTrack endNode lastAddedPoint done search)
    (hskip : ∀ candidate,
      IsEndCandidate sqrt pipeTrack endNode [pipeTrackNodeP] lastAddedPoint candidate
        (some pipeTrackNodeP) →
      search.minDistance ≤ endDistance sqrt lastAddedPoint candidate) :
    EndSearchAfter sqrt pipeTrack endNode lastAddedPoint (done ++ [pipeTrackNodeP]) search := by
  obtain ⟨h1, h2, h3⟩ := h
  refine ⟨fun hf => ?_, h2, ?_⟩
  · obtain ⟨c1, c2, c3, c4⟩ := h1 hf
    exact ⟨isEndCandidate_mono (fun p hp => List.mem_append_left _ hp) c1, c2, c3, c4⟩
  · intro candidate p hc
    rcases hc with ⟨q, node, e, hq, hrest⟩ | ⟨e, _⟩
    · rcases List.mem_append.mp hq with hq | hq
      · exact h3 candidate p (Or.inl ⟨q, node, e, hq, hrest⟩)
      · simp only [List.mem_singleton] at hq
        subst hq
        simp only [Option.some.injEq] at e
        subst e
        exact hskip candidate (Or.inl ⟨p, node, rfl, List.mem_singleton_self _, hrest⟩)
    · simp at e

/-- The loop over the track nodes of the last node of a path keeps `EndSearchAfter`. -/
theorem searchPipeTrackNodes_spec (sqrt : CalcNumber → CalcNumber) (pipeTrack : PipeTrack)
    (endNode : LocationGraphNode) (lastAddedPoint : Point) :
    ∀ (rest done : List Nat) (search result : OptimalPipeTrackFinder.EndSearch),
      EndSearchAfter sqrt pipeTrack endNode lastAddedPoint done search →
      OptimalPipeTrackFinder.searchPipeTrackNodes sqrt pipeTrack endNode lastAddedPoint rest
        search = some result →
      EndSearchAfter sqrt pipeTrack endNode lastAddedPoint (done ++ rest) result
  | [], done, search, result, hinv, h => by
    simp only [OptimalPipeTrackFinder.searchPipeTrackNodes, Option.some.injEq] at h
    subst h
    simpa using hinv
  | pipeTrackNodeP :: rest, done, search, result, hinv, h => by
    have happ : done ++ pipeTrackNodeP :: rest = (done ++ [pipeTrackNodeP]) ++ rest := by simp
    rw [happ]
    rw [OptimalPipeTrackFinder.searchPipeTrackNodes] at h
    cases hn : pipeTrack.nodePs[pipeTrackNodeP]? with
    | none => rw [hn] at h; simp at h
    | some pipeTrackNode =>
      rw [hn] at h
      dsimp only at h
      by_cases htype : pipeTrackNode.type = .direct ∨ pipeTrackNode.type = .fan
      · rw [if_pos htype] at h
        cases hnear : pipeTrackNode.calculateNearestCenterPoint2D sqrt lastAddedPoint with
        | none => rw [hnear] at h; simp at h
        | some nearestCenterPoint =>
          rw [hnear] at h
          dsimp only at h
          by_cases hin : endNode.left ≤ nearestCenterPoint.x
              ∧ nearestCenterPoint.x ≤ endNode.right
              ∧ endNode.bottom ≤ nearestCenterPoint.y ∧ nearestCenterPoint.y ≤ endNode.top
          · rw [if_pos hin] at h
            by_cases hlt : (lastAddedPoint.sub nearestCenterPoint).length sqrt
                < search.minDistance
            · rw [if_pos hlt] at h
              refine searchPipeTrackNodes_spec sqrt pipeTrack endNode lastAddedPoint rest _ _
                result ?_ h
              obtain ⟨h1, h2, h3⟩ := hinv
              have hle : search.minDistance ≤ 999999 := by
                cases hf : search.somePointIsFound with
                | true => exact le_of_lt (h1 hf).2.2.2
                | false => exact le_of_eq (h2 hf).1
              refine ⟨fun _ => ⟨Or.inl ⟨pipeTrackNodeP, pipeTrackNode, rfl, by simp, hn, htype,
                hnear, hin⟩, by simp, rfl, lt_of_lt_of_le hlt hle⟩, fun hf => by simp at hf, ?_⟩
              intro candidate p hc
              rcases hc with ⟨q, node, e, hq, hq1, hq2, hq3, hq4⟩ | ⟨e, _⟩
              · rcases List.mem_append.mp hq with hq | hq
                · exact le_trans (le_of_lt hlt)
                    (h3 candidate p (Or.inl ⟨q, node, e, hq, hq1, hq2, hq3, hq4⟩))
                · simp only [List.mem_singleton] at hq
                  subst hq
                  rw [hn] at hq1
                  simp only [Option.some.injEq] at hq1
                  subst hq1
                  rw [hnear] at hq3
                  simp only [Option.some.injEq] at hq3
                  subst hq3
                  exact le_refl _
              · simp at e
            · rw [if_neg hlt] at h
              refine searchPipeTrackNodes_spec sqrt pipeTrack endNode lastAddedPoint rest _ _
                result (endSearchAfter_skip pipeTrackNodeP hinv ?_) h
              intro candidate hc
              rcases hc with ⟨q, node, e, _, hq1, _, hq3, _⟩ | ⟨e, _⟩
              · simp only [Option.some.injEq] at e
                subst e
                rw [hn] at hq1
                simp only [Option.some.injEq] at hq1
                subst hq1
                rw [hnear] at hq3
                simp only [Option.some.injEq] at hq3
                subst hq3
                exact not_lt.mp hlt
              · simp at e
          · rw [if_neg hin] at h
            refine searchPipeTrackNodes_spec sqrt pipeTrack endNode lastAddedPoint rest _ _
              result (endSearchAfter_skip pipeTrackNodeP hinv ?_) h
            intro candidate hc
            rcases hc with ⟨q, node, e, _, hq1, _, hq3, hq4⟩ | ⟨e, _⟩
            · simp only [Option.some.injEq] at e
              subst e
              rw [hn] at hq1
              simp only [Option.some.injEq] at hq1
              subst hq1
              rw [hnear] at hq3
              simp only [Option.some.injEq] at hq3
              subst hq3
              exact absurd hq4 hin
            · simp at e
      · rw [if_neg htype] at h
        refine searchPipeTrackNodes_spec sqrt pipeTrack endNode lastAddedPoint rest _ _
          result (endSearchAfter_skip pipeTrackNodeP hinv ?_) h
        intro candidate hc
        rcases hc with ⟨q, node, e, _, hq1, hq2, _⟩ | ⟨e, _⟩
        · simp only [Option.some.injEq] at e
          subst e
          rw [hn] at hq1
          simp only [Option.some.injEq] at hq1
          subst hq1
          exact absurd hq2 htype
        · simp at e

theorem endSearchAfter_start (sqrt : CalcNumber → CalcNumber) (pipeTrack : PipeTrack)
    (endNode : LocationGraphNode) (lastAddedPoint : Point) :
    EndSearchAfter sqrt pipeTrack endNode lastAddedPoint [] {} := by
  refine ⟨fun hf => by simp at hf, fun _ => ⟨rfl, rfl⟩, ?_⟩
  intro candidate p hc
  rcases hc with ⟨q, node, _, hq, _⟩ | ⟨e, _⟩
  · simp at hq
  · simp at e

/-- The end of a polyline that the two searches choose: when a point is found, it is a
candidate, nearer than `999999` and at least as near as every candidate; when none is found,
the track node returned is `nullptr` and no candidate is nearer than `999999`. -/
theorem searchDestination_spec (sqrt : CalcNumber → CalcNumber) (pipeTrack : PipeTrack)
    (endNode : LocationGraphNode) (lastAddedPoint : Point) (pipeTrackNodesPs : List Nat)
    (search1 : OptimalPipeTrackFinder.EndSearch)
    (h : OptimalPipeTrackFinder.searchPipeTrackNodes sqrt pipeTrack endNode lastAddedPoint
      pipeTrackNodesPs {} = some search1) :
    ((OptimalPipeTrackFinder.searchDestination sqrt endNode lastAddedPoint
          search1).somePointIsFound = true →
        IsEndCandidate sqrt pipeTrack endNode pipeTrackNodesPs lastAddedPoint
          (OptimalPipeTrackFinder.searchDestination sqrt endNode lastAddedPoint search1).endPoint
          (OptimalPipeTrackFinder.searchDestination sqrt endNode lastAddedPoint
            search1).resultPipeTrackNodeP ∧
        endDistance sqrt lastAddedPoint
          (OptimalPipeTrackFinder.searchDestination sqrt endNode lastAddedPoint search1).endPoint
          < 999999 ∧
        ∀ candidate nodeP,
          IsEndCandidate sqrt pipeTrack endNode pipeTrackNodesPs lastAddedPoint candidate
            nodeP →
          endDistance sqrt lastAddedPoint
            (OptimalPipeTrackFinder.searchDestination sqrt endNode lastAddedPoint
              search1).endPoint ≤ endDistance sqrt lastAddedPoint candidate) ∧
      ((OptimalPipeTrackFinder.searchDestination sqrt endNode lastAddedPoint
          search1).somePointIsFound = false →
        (OptimalPipeTrackFinder.searchDestination sqrt endNode lastAddedPoint
          search1).resultPipeTrackNodeP = none ∧
        ∀ candidate nodeP,
          IsEndCandidate sqrt pipeTrack endNode pipeTrackNodesPs lastAddedPoint candidate
            nodeP →
          999999 ≤ endDistance sqrt lastAddedPoint candidate) := by
  have hinv := searchPipeTrackNodes_spec sqrt pipeTrack endNode lastAddedPoint pipeTrackNodesPs
    [] {} search1 (endSearchAfter_start sqrt pipeTrack endNode lastAddedPoint) h
  rw [List.nil_append] at hinv
  obtain ⟨h1, h2, h3⟩ := hinv
  have hle : search1.minDistance ≤ 999999 := by
    cases hf : search1.somePointIsFound with
    | true => exact le_of_lt (h1 hf).2.2.2
    | false => exact le_of_eq (h2 hf).1
  unfold OptimalPipeTrackFinder.searchDestination
  cases hd : endNode.waterDestinationP with
  | none =>
    dsimp only
    refine ⟨fun hf => ?_, fun hf => ?_⟩
    · obtain ⟨c1, _, c3, c4⟩ := h1 hf
      refine ⟨c1, by rw [c3]; exact c4, ?_⟩
      intro candidate nodeP hc
      rw [c3]
      rcases hc with ⟨p, node, e, hrest⟩ | ⟨_, d, hd1, _⟩
      · exact h3 candidate p (Or.inl ⟨p, node, rfl, hrest⟩)
      · rw [hd] at hd1
        simp at hd1
    · obtain ⟨c1, c2⟩ := h2 hf
      refine ⟨c2, ?_⟩
      intro candidate nodeP hc
      rw [← c1]
      rcases hc with ⟨p, node, e, hrest⟩ | ⟨_, d, hd1, _⟩
      · exact h3 candidate p (Or.inl ⟨p, node, rfl, hrest⟩)
      · rw [hd] at hd1
        simp at hd1
  | some waterDestination =>
    dsimp only
    have hdist : ((⟨waterDestination.point.x, waterDestination.point.y, 0⟩ : Point).sub
        lastAddedPoint).length sqrt
        = endDistance sqrt lastAddedPoint ⟨waterDestination.point.x, waterDestination.point.y, 0⟩ :=
      length_sub_comm sqrt _ _
    by_cases hlt : ((⟨waterDestination.point.x, waterDestination.point.y, 0⟩ : Point).sub
        lastAddedPoint).length sqrt < search1.minDistance
    · rw [if_pos hlt]
      dsimp only
      refine ⟨fun _ => ⟨Or.inr ⟨rfl, waterDestination, hd, rfl⟩, ?_, ?_⟩,
        fun hf => by simp at hf⟩
      · rw [← hdist]
        exact lt_of_lt_of_le hlt hle
      · intro candidate nodeP hc
        rw [← hdist]
        rcases hc with ⟨p, node, e, hrest⟩ | ⟨_, d, hd1, hd2⟩
        · exact le_trans (le_of_lt hlt) (h3 candidate p (Or.inl ⟨p, node, rfl, hrest⟩))
        · rw [hd] at hd1
          simp only [Option.some.injEq] at hd1
          subst hd1
          rw [hd2, hdist]
    · rw [if_neg hlt]
      refine ⟨fun hf => ?_, fun hf => ?_⟩
      · obtain ⟨c1, _, c3, c4⟩ := h1 hf
        refine ⟨c1, by rw [c3]; exact c4, ?_⟩
        intro candidate nodeP hc
        rw [c3]
        rcases hc with ⟨p, node, e, hrest⟩ | ⟨_, d, hd1, hd2⟩
        · exact h3 candidate p (Or.inl ⟨p, node, rfl, hrest⟩)
        · rw [hd] at hd1
          simp only [Option.some.injEq] at hd1
          subst hd1
          rw [hd2, ← hdist]
          exact not_lt.mp hlt
      · obtain ⟨c1, c2⟩ := h2 hf
        refine ⟨c2, ?_⟩
        intro candidate nodeP hc
        rw [← c1]
        rcases hc with ⟨p, node, e, hrest⟩ | ⟨_, d, hd1, hd2⟩
        · exact h3 candidate p (Or.inl ⟨p, node, rfl, hrest⟩)
        · rw [hd] at hd1
          simp only [Option.some.injEq] at hd1
          subst hd1
          rw [hd2, ← hdist]
          exact not_lt.mp hlt

theorem entryPointsOfSource_eq (sourceP : Nat) :
    ∀ (sourcesPs : List Nat) (points : List Point), points.length = sourcesPs.length →
      OptimalPipeTrackFinder.entryPointsOfSource sourceP sourcesPs points
        = some (((sourcesPs.zip points).filter (fun pair => decide (pair.1 = sourceP))).map
            Prod.snd)
  | [], points, _ => by simp [OptimalPipeTrackFinder.entryPointsOfSource]
  | waterSourceP :: sourcesPs, [], h => by simp at h
  | waterSourceP :: sourcesPs, point :: points, h => by
    have hlen : points.length = sourcesPs.length := by simpa using h
    rw [OptimalPipeTrackFinder.entryPointsOfSource]
    by_cases he : sourceP = waterSourceP
    · rw [if_pos he]
      rw [entryPointsOfSource_eq sourceP sourcesPs points hlen]
      simp [List.filter_cons, he]
    · rw [if_neg he]
      rw [List.tail_cons, entryPointsOfSource_eq sourceP sourcesPs points hlen]
      have he1 : ¬ waterSourceP = sourceP := fun e => he e.symm
      simp [List.filter_cons, he1]

/-- The parts of a call of `findMinPseudoLengthZigzagFromSourceToPipeTrackAndPipeTrackNodeP`
that returns: the entry points of the source, the loop over the borders, which either gives
the path up or returns a polyline, and the search for the end of that polyline. -/
theorem findMinPseudoLengthZigzag_some (sqrt : CalcNumber → CalcNumber)
    (self : OptimalPipeTrackFinder) (pathFromSourceToPipeTrack : List Nat)
    (pipeTrack : PipeTrack) (sourceP : Nat) (waterSource : WaterSource)
    (pipeTrackNodesForLocationNode : List (List Nat)) (result : Zigzag)
    (h : self.findMinPseudoLengthZigzagFromSourceToPipeTrackAndPipeTrackNodeP sqrt
      pathFromSourceToPipeTrack pipeTrack sourceP waterSource pipeTrackNodesForLocationNode
      = some result) :
    ∃ externalDiameter sourceLocationNodeP endNodeP sourceLocationNode endNode zigzag0,
      self.pipeObjectsBag.getExternalDiameter waterSource.diameter = some externalDiameter ∧
      pathFromSourceToPipeTrack.head? = some sourceLocationNodeP ∧
      pathFromSourceToPipeTrack.getLast? = some endNodeP ∧
      self.locationGraph.nodePs[sourceLocationNodeP]? = some sourceLocationNode ∧
      self.locationGraph.nodePs[endNodeP]? = some endNode ∧
      OptimalPipeTrackFinder.entryPointsOfSource sourceP sourceLocationNode.waterSourcesPs
        sourceLocationNode.waterSourcesConnectionPoints = some zigzag0 ∧
      ((OptimalPipeTrackFinder.zigzagAlongPath self.locationGraph
            ((externalDiameter / 2 : Nat) : CalcNumber) pathFromSourceToPipeTrack zigzag0
            = some none ∧ result = ([], none)) ∨
        ∃ out lastAddedPoint search1,
          OptimalPipeTrackFinder.zigzagAlongPath self.locationGraph
            ((externalDiameter / 2 : Nat) : CalcNumber) pathFromSourceToPipeTrack zigzag0
            = some (some out) ∧
          out.getLast? = some lastAddedPoint ∧
          OptimalPipeTrackFinder.searchPipeTrackNodes sqrt pipeTrack endNode lastAddedPoint
            (pipeTrackNodesForLocationNode[endNodeP]?.getD []) {} = some search1 ∧
          result =
            if (OptimalPipeTrackFinder.searchDestination sqrt endNode lastAddedPoint
                search1).somePointIsFound then
              (out ++ [(OptimalPipeTrackFinder.searchDestination sqrt endNode lastAddedPoint
                  search1).endPoint],
                (OptimalPipeTrackFinder.searchDestination sqrt endNode lastAddedPoint
                  search1).resultPipeTrackNodeP)
            else ([], (OptimalPipeTrackFinder.searchDestination sqrt endNode lastAddedPoint
              search1).resultPipeTrackNodeP)) := by
  unfold OptimalPipeTrackFinder.findMinPseudoLengthZigzagFromSourceToPipeTrackAndPipeTrackNodeP
    at h
  cases hext : self.pipeObjectsBag.getExternalDiameter waterSource.diameter with
  | none => rw [hext] at h; simp at h
  | some externalDiameter =>
    cases hhead : pathFromSourceToPipeTrack.head? with
    | none => rw [hext, hhead] at h; simp at h
    | some sourceLocationNodeP =>
      cases hlast : pathFromSourceToPipeTrack.getLast? with
      | none => rw [hext, hhead, hlast] at h; simp at h
      | some endNodeP =>
        rw [hext, hhead, hlast] at h
        dsimp only at h
        cases hsn : self.locationGraph.nodePs[sourceLocationNodeP]? with
        | none => rw [hsn] at h; simp at h
        | some sourceLocationNode =>
          cases hen : self.locationGraph.nodePs[endNodeP]? with
          | none => rw [hsn, hen] at h; simp at h
          | some endNode =>
            rw [hsn, hen] at h
            dsimp only at h
            cases hentry : OptimalPipeTrackFinder.entryPointsOfSource sourceP
                sourceLocationNode.waterSourcesPs
                sourceLocationNode.waterSourcesConnectionPoints with
            | none => rw [hentry] at h; simp at h
            | some zigzag0 =>
              rw [hentry] at h
              dsimp only at h
              refine ⟨externalDiameter, sourceLocationNodeP, endNodeP, sourceLocationNode,
                endNode, zigzag0, rfl, rfl, rfl, hsn, hen, hentry, ?_⟩
              cases hz : OptimalPipeTrackFinder.zigzagAlongPath self.locationGraph
                  ((externalDiameter / 2 : Nat) : CalcNumber) pathFromSourceToPipeTrack
                  zigzag0 with
              | none => rw [hz] at h; simp at h
              | some loop =>
                cases loop with
                | none =>
                  rw [hz] at h
                  simp only [Option.some.injEq] at h
                  exact Or.inl ⟨rfl, h.symm⟩
                | some out =>
                  rw [hz] at h
                  dsimp only at h
                  cases hl : out.getLast? with
                  | none => rw [hl] at h; simp at h
                  | some lastAddedPoint =>
                    rw [hl] at h
                    dsimp only at h
                    cases hs : OptimalPipeTrackFinder.searchPipeTrackNodes sqrt pipeTrack
                        endNode lastAddedPoint
                        (pipeTrackNodesForLocationNode[endNodeP]?.getD []) {} with
                    | none => rw [hs] at h; simp at h
                    | some search1 =>
                      rw [hs] at h
                      dsimp only at h
                      refine Or.inr ⟨out, lastAddedPoint, search1, rfl, hl, hs, ?_⟩
                      split_ifs at h with hf
                      · rw [if_pos hf]
                        exact (Option.some.inj h).symm
                      · rw [if_neg hf]
                        exact (Option.some.inj h).symm

/-! ## The polyline of a path: points, clearance and end -/

theorem oddPassage_zigzag :
    oddPassageFinder.findMinPseudoLengthZigzagFromSourceToPipeTrackAndPipeTrackNodeP exactSqrt
        [0, 1] PipeTrack.new 0 ⟨"S1", ⟨100, 100, 0⟩, 50, 0⟩ [[], []]
      = some ([⟨100, 100, 0⟩, ⟨470, 530, 0⟩, ⟨770, 930, 0⟩], none) := by
  decide!

theorem oddPassage_pathStep (i currentNodeP nextNodeP : Nat)
    (currentNode nextNode : LocationGraphNode)
    (h : PathStep oddPassageFinder.locationGraph [0, 1] i currentNodeP nextNodeP currentNode
      nextNode) :
    i = 0 ∧ currentNodeP = 0 ∧ nextNodeP = 1 ∧ currentNode = oddPassageBottomNode ∧
      nextNode = oddPassageTopNode := by
  obtain ⟨h1, h2, h3, h4⟩ := h
  cases i with
  | zero =>
    simp only [List.getElem?_cons_zero, Option.some.injEq, zero_add, List.getElem?_cons_succ]
      at h1 h2
    subst h1
    subst h2
    have e3 : oddPassageFinder.locationGraph.nodePs[0]? = some oddPassageBottomNode := rfl
    have e4 : oddPassageFinder.locationGraph.nodePs[1]? = some oddPassageTopNode := rfl
    rw [e3] at h3
    rw [e4] at h4
    exact ⟨rfl, rfl, rfl, (Option.some.inj h3).symm, (Option.some.inj h4).symm⟩
  | succ i =>
    cases i <;> simp at h2

/-- The points of a polyline, with the radius that the code computes: when
`findMinPseudoLengthZigzagFromSourceToPipeTrackAndPipeTrackNodeP` returns a
polyline that is not empty for a path, and the first node of the path holds one entry point
`entry` for the source, the polyline starts with `entry` and has one point more than the path
has nodes. For every two consecutive nodes of the path, the point of the polyline behind their
border is `crossingPoint` for the point before it, with `r` the external diameter divided by 2
as the code divides: when the next node is in the top list, `y = top + r` and `x` is that of
the point before clamped into `[max(lefts) + r, min(rights) - r]`; else, in the bottom list,
`y = bottom - r` with the same `x`; else, in the right list, `x = right + r` and `y` is that
of the point before clamped into `[max(bottoms) + r, min(tops) - r]`; else `x = left - r` with
the same `y`. -/
theorem zigzag_points_code_radius (sqrt : CalcNumber → CalcNumber)
    (self : OptimalPipeTrackFinder) (pathFromSourceToPipeTrack : List Nat)
    (pipeTrack : PipeTrack) (sourceP : Nat) (waterSource : WaterSource)
    (pipeTrackNodesForLocationNode : List (List Nat)) (zigzag : List Point)
    (nodeP : Option Nat) (externalDiameter sourceLocationNodeP : Nat)
    (sourceLocationNode : LocationGraphNode) (entry : Point)
    (h : self.findMinPseudoLengthZigzagFromSourceToPipeTrackAndPipeTrackNodeP sqrt
      pathFromSourceToPipeTrack pipeTrack sourceP waterSource pipeTrackNodesForLocationNode
      = some (zigzag, nodeP))
    (hne : zigzag ≠ [])
    (hext : self.pipeObjectsBag.getExternalDiameter waterSource.diameter = some externalDiameter)
    (hhead : pathFromSourceToPipeTrack.head? = some sourceLocationNodeP)
    (hnode : self.locationGraph.nodePs[sourceLocationNodeP]? = some sourceLocationNode)
    (hpaired : sourceLocationNode.waterSourcesConnectionPoints.length
      = sourceLocationNode.waterSourcesPs.length)
    (hentry : sourceLocationNode.entryPointsOf sourceP = [entry]) :
    zigzag[0]? = some entry ∧ zigzag.length = pathFromSourceToPipeTrack.length + 1 ∧
      ∀ i currentNodeP nextNodeP currentNode nextNode,
        PathStep self.locationGraph pathFromSourceToPipeTrack i currentNodeP nextNodeP
          currentNode nextNode →
        ∃ previous, zigzag[i]? = some previous ∧
          zigzag[i + 1]? = some
            (crossingPoint ((externalDiameter / 2 : Nat) : CalcNumber) currentNode nextNode
              nextNodeP previous) := by
  obtain ⟨ext1, sP, eP, sN, eN, zigzag0, h1, h2, h3, h4, h5, h6, h7⟩ :=
    findMinPseudoLengthZigzag_some sqrt self pathFromSourceToPipeTrack pipeTrack sourceP
      waterSource pipeTrackNodesForLocationNode (zigzag, nodeP) h
  rw [hext] at h1
  rw [hhead] at h2
  simp only [Option.some.injEq] at h1 h2
  subst h1
  subst h2
  rw [hnode] at h4
  simp only [Option.some.injEq] at h4
  subst h4
  rw [entryPointsOfSource_eq sourceP _ _ hpaired] at h6
  have hz0 : zigzag0 = [entry] := by
    rw [← hentry]
    exact (Option.some.inj h6).symm
  subst hz0
  rcases h7 with ⟨_, hres⟩ | ⟨out, lastAddedPoint, search1, hloop, hlast, _, hres⟩
  · simp only [Prod.mk.injEq] at hres
    exact absurd hres.1 hne
  · obtain ⟨o1, o2, o3⟩ := zigzagAlongPath_some self.locationGraph _ _ _ out hloop
    have hpath : 1 ≤ pathFromSourceToPipeTrack.length := by
      cases pathFromSourceToPipeTrack with
      | nil => simp at hhead
      | cons _ _ => simp
    simp only [List.length_singleton] at o1 o2 o3
    split_ifs at hres with hf
    · simp only [Prod.mk.injEq] at hres
      obtain ⟨hz, _⟩ := hres
      subst hz
      refine ⟨?_, ?_, ?_⟩
      · rw [List.getElem?_append_left (by omega), o2 0 (by omega)]
        rfl
      · rw [List.length_append, List.length_singleton, o1]
        omega
      · intro i a b c n hs
        obtain ⟨_, _, previous, p1, p2⟩ := o3 i a b c n hs
        have hi : i + 1 < pathFromSourceToPipeTrack.length := by
          obtain ⟨_, hs2, _, _⟩ := hs
          exact (List.getElem?_eq_some_iff.mp hs2).1
        refine ⟨previous, ?_, ?_⟩
        · rw [List.getElem?_append_left (by omega)]
          simpa using p1
        · rw [List.getElem?_append_left (by omega)]
          rw [show i + 1 = 1 + i by omega]
          exact p2
    · simp only [Prod.mk.injEq] at hres
      exact absurd hres.1 hne

theorem crossingPoint_exact (r : CalcNumber) (currentNode nextNode : LocationGraphNode)
    (nextNodeP : Nat) (previous : Point)
    (h : sharedWidth currentNode nextNode nextNodeP = 2 * r) :
    (nextNodeP ∈ currentNode.topNodesPs ∨ nextNodeP ∈ currentNode.bottomNodesPs →
      (crossingPoint r currentNode nextNode nextNodeP previous).x
          = max currentNode.left nextNode.left + r ∧
        (crossingPoint r currentNode nextNode nextNodeP previous).x
          = min currentNode.right nextNode.right - r) ∧
    (¬ (nextNodeP ∈ currentNode.topNodesPs ∨ nextNodeP ∈ currentNode.bottomNodesPs) →
      (crossingPoint r currentNode nextNode nextNodeP previous).y
          = max currentNode.bottom nextNode.bottom + r ∧
        (crossingPoint r currentNode nextNode nextNodeP previous).y
          = min currentNode.top nextNode.top - r) := by
  have hclamp : ∀ v lo hi : CalcNumber, lo = hi → clamp v lo hi = lo ∧ clamp v lo hi = hi := by
    intro v lo hi e
    subst e
    unfold clamp
    have : max lo (min v lo) = lo := max_eq_left (min_le_right _ _)
    exact ⟨this, this⟩
  unfold sharedWidth at h
  constructor
  · intro hv
    rw [if_pos hv] at h
    have e : max currentNode.left nextNode.left + r = min currentNode.right nextNode.right - r := by
      linarith
    unfold crossingPoint
    rcases hv with ht | hb
    · simp only [ht, if_true]
      exact hclamp _ _ _ e
    · by_cases ht : nextNodeP ∈ currentNode.topNodesPs
      · simp only [ht, if_true]
        exact hclamp _ _ _ e
      · simp only [ht, hb, if_true, if_false]
        exact hclamp _ _ _ e
  · intro hv
    rw [if_neg hv] at h
    have e : max currentNode.bottom nextNode.bottom + r = min currentNode.top nextNode.top - r := by
      linarith
    push_neg at hv
    unfold crossingPoint
    simp only [hv.1, hv.2, if_false]
    by_cases hr : nextNodeP ∈ currentNode.rightNodesPs
    · simp only [hr, if_true]
      exact hclamp _ _ _ e
    · simp only [hr, if_false]
      exact hclamp _ _ _ e

/-- The rejection of a path, with the radius that the code computes: a call of
`findMinPseudoLengthZigzagFromSourceToPipeTrackAndPipeTrackNodeP` that
returns gives the path up for lack of clearance, with the empty polyline and `nullptr`,
exactly when two consecutive nodes of the path share a range narrower than `2 * r`, where `r`
is the external diameter divided by 2 as the code divides and the range is the common x-range
of a border crossed upwards or downwards and the common y-range otherwise. When no border is
narrower, the loop over the borders returns a polyline, and the result is that polyline with
an end point, or empty for lack of an end point only. A border of the width `2 * r` exactly is
not narrower, and the crossing coordinate is then `lo + r = hi - r`. -/
theorem zigzag_rejected_iff_narrow_code_radius (sqrt : CalcNumber → CalcNumber)
    (self : OptimalPipeTrackFinder) (pathFromSourceToPipeTrack : List Nat)
    (pipeTrack : PipeTrack) (sourceP : Nat) (waterSource : WaterSource)
    (pipeTrackNodesForLocationNode : List (List Nat)) (result : Zigzag)
    (externalDiameter : Nat) (r : CalcNumber)
    (h : self.findMinPseudoLengthZigzagFromSourceToPipeTrackAndPipeTrackNodeP sqrt
      pathFromSourceToPipeTrack pipeTrack sourceP waterSource pipeTrackNodesForLocationNode
      = some result)
    (hext : self.pipeObjectsBag.getExternalDiameter waterSource.diameter = some externalDiameter)
    (hr : r = ((externalDiameter / 2 : Nat) : CalcNumber)) :
    ∃ zigzag0 : List Point,
      (OptimalPipeTrackFinder.zigzagAlongPath self.locationGraph r pathFromSourceToPipeTrack
          zigzag0 = some none ↔
        ∃ i currentNodeP nextNodeP currentNode nextNode,
          PathStep self.locationGraph pathFromSourceToPipeTrack i currentNodeP nextNodeP
            currentNode nextNode ∧
          sharedWidth currentNode nextNode nextNodeP < 2 * r) ∧
      (OptimalPipeTrackFinder.zigzagAlongPath self.locationGraph r pathFromSourceToPipeTrack
          zigzag0 = some none → result = ([], none)) ∧
      (OptimalPipeTrackFinder.zigzagAlongPath self.locationGraph r pathFromSourceToPipeTrack
          zigzag0 ≠ some none →
        ∃ out lastAddedPoint endNodeP endNode,
          OptimalPipeTrackFinder.zigzagAlongPath self.locationGraph r pathFromSourceToPipeTrack
            zigzag0 = some (some out) ∧
          out.getLast? = some lastAddedPoint ∧
          pathFromSourceToPipeTrack.getLast? = some endNodeP ∧
          self.locationGraph.nodePs[endNodeP]? = some endNode ∧
          ((∃ endPoint, result.1 = out ++ [endPoint]) ∨
            (result.1 = [] ∧ ∀ candidate nodeP,
              IsEndCandidate sqrt pipeTrack endNode
                (pipeTrackNodesForLocationNode[endNodeP]?.getD []) lastAddedPoint candidate
                nodeP →
              999999 ≤ endDistance sqrt lastAddedPoint candidate))) ∧
      ∀ (currentNode nextNode : LocationGraphNode) (nextNodeP : Nat) (previous : Point),
        sharedWidth currentNode nextNode nextNodeP = 2 * r →
        ¬ sharedWidth currentNode nextNode nextNodeP < 2 * r ∧
        (nextNodeP ∈ currentNode.topNodesPs ∨ nextNodeP ∈ currentNode.bottomNodesPs →
          (crossingPoint r currentNode nextNode nextNodeP previous).x
              = max currentNode.left nextNode.left + r ∧
            (crossingPoint r currentNode nextNode nextNodeP previous).x
              = min currentNode.right nextNode.right - r) ∧
        (¬ (nextNodeP ∈ currentNode.topNodesPs ∨ nextNodeP ∈ currentNode.bottomNodesPs) →
          (crossingPoint r currentNode nextNode nextNodeP previous).y
              = max currentNode.bottom nextNode.bottom + r ∧
            (crossingPoint r currentNode nextNode nextNodeP previous).y
              = min currentNode.top nextNode.top - r) := by
  obtain ⟨ext1, sP, eP, sN, eN, zigzag0, h1, h2, h3, h4, h5, h6, h7⟩ :=
    findMinPseudoLengthZigzag_some sqrt self pathFromSourceToPipeTrack pipeTrack sourceP
      waterSource pipeTrackNodesForLocationNode result h
  rw [hext] at h1
  simp only [Option.some.injEq] at h1
  subst h1
  subst hr
  refine ⟨zigzag0, ?_, ?_, ?_, ?_⟩
  · constructor
    · exact zigzagAlongPath_none _ _ _ _
    · rintro ⟨i, a, b, c, n, hs, hnarrow⟩
      rcases h7 with ⟨hloop, _⟩ | ⟨out, _, _, hloop, _⟩
      · exact hloop
      · obtain ⟨_, _, o3⟩ := zigzagAlongPath_some _ _ _ _ out hloop
        exact absurd hnarrow (not_lt.mpr (o3 i a b c n hs).1)
  · intro hloop
    rcases h7 with ⟨_, hres⟩ | ⟨out, _, _, hloop1, _⟩
    · exact hres
    · rw [hloop1] at hloop
      simp at hloop
  · intro hloop
    rcases h7 with ⟨hloop1, _⟩ | ⟨out, lastAddedPoint, search1, hloop1, hlast, hsearch, hres⟩
    · exact absurd hloop1 hloop
    · refine ⟨out, lastAddedPoint, eP, eN, hloop1, hlast, h3, h5, ?_⟩
      obtain ⟨_, s2⟩ := searchDestination_spec sqrt pipeTrack eN lastAddedPoint _ search1 hsearch
      split_ifs at hres with hf
      · left
        exact ⟨_, by rw [hres]⟩
      · right
        refine ⟨by rw [hres], ?_⟩
        exact (s2 (by simpa using hf)).2
  · intro c n next previous hw
    exact ⟨by rw [hw]; exact lt_irrefl _, crossingPoint_exact _ c n next previous hw⟩

theorem two_mul_half_nat (externalDiameter : Nat) :
    (externalDiameter : CalcNumber) - 1 ≤ 2 * ((externalDiameter / 2 : Nat) : CalcNumber) ∧
      (externalDiameter % 2 = 0 →
        2 * ((externalDiameter / 2 : Nat) : CalcNumber) = (externalDiameter : CalcNumber)) := by
  have h := Nat.div_add_mod externalDiameter 2
  have h2 : externalDiameter % 2 < 2 := Nat.mod_lt _ (by decide)
  constructor
  · have : externalDiameter ≤ 2 * (externalDiameter / 2) + 1 := by omega
    have hq : (externalDiameter : CalcNumber) ≤ ((2 * (externalDiameter / 2) + 1 : Nat) : CalcNumber) := by
      exact_mod_cast this
    push_cast at hq
    linarith
  · intro he
    have : 2 * (externalDiameter / 2) = externalDiameter := by omega
    have hq : ((2 * (externalDiameter / 2) : Nat) : CalcNumber) = (externalDiameter : CalcNumber) := by
      exact_mod_cast this
    push_cast at hq
    exact hq

/-- C35, the code against its documentation: the loop over the borders of a path accepts a
border whose shared range is narrower than the external diameter of the pipe. The clearance
radius, documented as the half of the external diameter of the source, is computed by a
division of `unsigned int`, so the range accepted is at least `2 * (externalDiameter / 2)`
wide, which is the external diameter when that is even and one less when it is odd. In
`oddPassageFinder` the external diameter of the source is 61 and the two nodes share the
x-range `[440, 500]` of width 60: the border is accepted and the polyline crosses it at
`x = 470`. -/
theorem zigzag_accepts_passage_narrower_than_pipe :
    (∀ (locationGraph : LocationGraph) (externalDiameter : Nat) (path : List Nat)
        (zigzag out : List Point),
      OptimalPipeTrackFinder.zigzagAlongPath locationGraph
        ((externalDiameter / 2 : Nat) : CalcNumber) path zigzag = some (some out) →
      ∀ i currentNodeP nextNodeP currentNode nextNode,
        PathStep locationGraph path i currentNodeP nextNodeP currentNode nextNode →
        (externalDiameter : CalcNumber) - 1 ≤ sharedWidth currentNode nextNode nextNodeP ∧
        (externalDiameter % 2 = 0 →
          (externalDiameter : CalcNumber) ≤ sharedWidth currentNode nextNode nextNodeP)) ∧
    oddPassageFinder.pipeObjectsBag.getExternalDiameter 50 = some 61 ∧
    PathStep oddPassageFinder.locationGraph [0, 1] 0 0 1 oddPassageBottomNode
      oddPassageTopNode ∧
    sharedWidth oddPassageBottomNode oddPassageTopNode 1 = 60 ∧
    OptimalPipeTrackFinder.zigzagAlongPath oddPassageFinder.locationGraph
      ((61 / 2 : Nat) : CalcNumber) [0, 1] [⟨100, 100, 0⟩]
      = some (some [⟨100, 100, 0⟩, ⟨470, 530, 0⟩]) ∧
    oddPassageFinder.findMinPseudoLengthZigzagFromSourceToPipeTrackAndPipeTrackNodeP exactSqrt
        [0, 1] PipeTrack.new 0 ⟨"S1", ⟨100, 100, 0⟩, 50, 0⟩ [[], []]
      = some ([⟨100, 100, 0⟩, ⟨470, 530, 0⟩, ⟨770, 930, 0⟩], none) := by
  refine ⟨?_, rfl, ⟨rfl, rfl, rfl, rfl⟩, by decide!, by decide!, oddPassage_zigzag⟩
  intro locationGraph externalDiameter path zigzag out h i a b c n hs
  obtain ⟨_, _, o3⟩ := zigzagAlongPath_some _ _ _ _ out h
  have hw := (o3 i a b c n hs).1
  obtain ⟨t1, t2⟩ := two_mul_half_nat externalDiameter
  refine ⟨le_trans t1 hw, fun he => ?_⟩
  rw [← t2 he]
  exact hw

/-- C36: when all borders of a path are wide enough and
`findMinPseudoLengthZigzagFromSourceToPipeTrackAndPipeTrackNodeP` returns, the polyline `out`
of the loop over the borders ends with a point `lastAddedPoint` in the last node of the path.
The candidates for the end are the nearest centre points to `lastAddedPoint` of the direct and
fan track nodes listed for the last node that lie in its closed rectangle, and the point of
the destination when it is attached to the last node. Either the result is the empty polyline
with `nullptr`, and then no candidate is nearer than `999999`; or it is `out` with an end
point that is a candidate, nearer than `999999` and at least as near as every candidate, and
the track node returned is `nullptr` when the end point is chosen as the point of the
destination and otherwise the track node whose nearest centre point the end point is. -/
theorem zigzag_end_is_nearest_candidate (sqrt : CalcNumber → CalcNumber)
    (self : OptimalPipeTrackFinder) (pathFromSourceToPipeTrack : List Nat)
    (pipeTrack : PipeTrack) (sourceP : Nat) (waterSource : WaterSource)
    (pipeTrackNodesForLocationNode : List (List Nat)) (zigzag : List Point)
    (nodeP : Option Nat) (externalDiameter : Nat)
    (h : self.findMinPseudoLengthZigzagFromSourceToPipeTrackAndPipeTrackNodeP sqrt
      pathFromSourceToPipeTrack pipeTrack sourceP waterSource pipeTrackNodesForLocationNode
      = some (zigzag, nodeP))
    (hext : self.pipeObjectsBag.getExternalDiameter waterSource.diameter = some externalDiameter)
    (hwide : ∀ i currentNodeP nextNodeP currentNode nextNode,
      PathStep self.locationGraph pathFromSourceToPipeTrack i currentNodeP nextNodeP
        currentNode nextNode →
      2 * ((externalDiameter / 2 : Nat) : CalcNumber)
        ≤ sharedWidth currentNode nextNode nextNodeP) :
    ∃ endNodeP endNode zigzag0 out lastAddedPoint,
      pathFromSourceToPipeTrack.getLast? = some endNodeP ∧
      self.locationGraph.nodePs[endNodeP]? = some endNode ∧
      OptimalPipeTrackFinder.zigzagAlongPath self.locationGraph
        ((externalDiameter / 2 : Nat) : CalcNumber) pathFromSourceToPipeTrack zigzag0
        = some (some out) ∧
      out.getLast? = some lastAddedPoint ∧
      ((zigzag = [] ∧ nodeP = none) ∨
        ∃ endPoint, zigzag = out ++ [endPoint] ∧
          IsEndCandidate sqrt pipeTrack endNode
            (pipeTrackNodesForLocationNode[endNodeP]?.getD []) lastAddedPoint endPoint nodeP ∧
          endDistance sqrt lastAddedPoint endPoint < 999999 ∧
          (∀ candidate candidateNodeP,
            IsEndCandidate sqrt pipeTrack endNode
              (pipeTrackNodesForLocationNode[endNodeP]?.getD []) lastAddedPoint candidate
              candidateNodeP →
            endDistance sqrt lastAddedPoint endPoint
              ≤ endDistance sqrt lastAddedPoint candidate) ∧
          (nodeP = none → ∃ waterDestination,
            endNode.waterDestinationP = some waterDestination ∧
            endPoint = ⟨waterDestination.point.x, waterDestination.point.y, 0⟩) ∧
          (∀ p, nodeP = some p → ∃ pipeTrackNode,
            p ∈ pipeTrackNodesForLocationNode[endNodeP]?.getD [] ∧
            pipeTrack.nodePs[p]? = some pipeTrackNode ∧
            (pipeTrackNode.type = .direct ∨ pipeTrackNode.type = .fan) ∧
            pipeTrackNode.calculateNearestCenterPoint2D sqrt lastAddedPoint
              = some endPoint)) ∧
      (zigzag = [] ↔ ∀ candidate candidateNodeP,
        IsEndCandidate sqrt pipeTrack endNode
          (pipeTrackNodesForLocationNode[endNodeP]?.getD []) lastAddedPoint candidate
          candidateNodeP →
        999999 ≤ endDistance sqrt lastAddedPoint candidate) := by
  obtain ⟨ext1, sP, eP, sN, eN, zigzag0, h1, h2, h3, h4, h5, h6, h7⟩ :=
    findMinPseudoLengthZigzag_some sqrt self pathFromSourceToPipeTrack pipeTrack sourceP
      waterSource pipeTrackNodesForLocationNode (zigzag, nodeP) h
  rw [hext] at h1
  simp only [Option.some.injEq] at h1
  subst h1
  rcases h7 with ⟨hloop, _⟩ | ⟨out, lastAddedPoint, search1, hloop, hlast, hsearch, hres⟩
  · obtain ⟨i, a, b, c, n, hs, hnarrow⟩ := zigzagAlongPath_none _ _ _ _ hloop
    exact absurd hnarrow (not_lt.mpr (hwide i a b c n hs))
  · refine ⟨eP, eN, zigzag0, out, lastAddedPoint, h3, h5, hloop, hlast, ?_⟩
    obtain ⟨s1, s2⟩ := searchDestination_spec sqrt pipeTrack eN lastAddedPoint _ search1 hsearch
    split_ifs at hres with hf
    · simp only [Prod.mk.injEq] at hres
      obtain ⟨hz, hp⟩ := hres
      obtain ⟨c1, c2, c3⟩ := s1 hf
      rw [← hp] at c1
      have hne : zigzag ≠ [] := by
        rw [hz]
        simp
      refine ⟨Or.inr ⟨_, hz, c1, c2, c3, ?_, ?_⟩, ?_⟩
      · intro hn
        rcases c1 with ⟨p, _, e, _⟩ | ⟨_, d, hd1, hd2⟩
        · rw [hn] at e
          simp at e
        · exact ⟨d, hd1, hd2⟩
      · intro p hn
        rcases c1 with ⟨q, node, e, hq, hq1, hq2, hq3, _⟩ | ⟨e, _⟩
        · rw [hn] at e
          simp only [Option.some.injEq] at e
          subst e
          exact ⟨node, hq, hq1, hq2, hq3⟩
        · rw [hn] at e
          simp at e
      · constructor
        · intro he
          exact absurd he hne
        · intro hall
          exact absurd (hall _ _ c1) (not_le.mpr c2)
    · simp only [Prod.mk.injEq] at hres
      obtain ⟨hz, hp⟩ := hres
      obtain ⟨c1, c2⟩ := s2 (by simpa using hf)
      refine ⟨Or.inl ⟨hz, by rw [hp]; exact c1⟩, ?_⟩
      exact ⟨fun _ => c2, fun _ => hz⟩

theorem ringPath_wide (i currentNodeP nextNodeP : Nat) (currentNode nextNode : LocationGraphNode)
    (h : PathStep ringFinder.locationGraph [0, 1, 3] i currentNodeP nextNodeP currentNode
      nextNode) :
    2 * ((60 / 2 : Nat) : CalcNumber) ≤ sharedWidth currentNode nextNode nextNodeP := by
  obtain ⟨h1, h2, h3, h4⟩ := h
  rcases i with _ | _ | i
  · simp only [List.getElem?_cons_zero, Option.some.injEq, zero_add, List.getElem?_cons_succ]
      at h1 h2
    subst h1
    subst h2
    simp only [ringFinder, List.getElem?_cons_zero, List.getElem?_cons_succ,
      Option.some.injEq] at h3 h4
    subst h3
    subst h4
    decide!
  · simp only [List.getElem?_cons_zero, Option.some.injEq, zero_add, List.getElem?_cons_succ]
      at h1 h2
    subst h1
    subst h2
    simp only [ringFinder, List.getElem?_cons_zero, List.getElem?_cons_succ,
      Option.some.injEq] at h3 h4
    subst h3
    subst h4
    decide!
  · simp at h2

/-- Witness for C36: in `ringFinder` with the track `ringTrack`, whose two pipes lie in the
last node `[500, 1000] x [500, 1000]` of the path through the nodes 0, 1 and 3, the polyline
reaches that node in `(530, 530)`. The candidates for the end are the nearest centre point
`(650, 690)` of the pipe at the address 0, at the distance 200, the nearest centre point
`(560, 570)` of the pipe at the address 1, at the distance 50, and the point `(830, 930)` of
the destination, at the distance 500. The polyline ends in `(560, 570)`, and the track node
returned is the pipe at the address 1. -/
theorem zigzag_end_is_nearest_candidate_witness :
    ringFinder.findMinPseudoLengthZigzagFromSourceToPipeTrackAndPipeTrackNodeP exactSqrt
        [0, 1, 3] ringTrack 0 ⟨"S1", ⟨100, 100, 0⟩, 50, 0⟩ [[], [], [], [0, 1]]
      = some ([⟨100, 100, 0⟩, ⟨530, 100, 0⟩, ⟨530, 530, 0⟩, ⟨560, 570, 0⟩], some 1) ∧
    OptimalPipeTrackFinder.pipeTrackNodesForLocationNodes exactSqrt ringTrack
      ringFinder.locationGraph.nodePs = some [[], [], [], [0, 1]] ∧
    ringFinder.pipeObjectsBag.getExternalDiameter 50 = some 60 ∧
    (∃ endNode, ringFinder.locationGraph.nodePs[3]? = some endNode ∧
      IsEndCandidate exactSqrt ringTrack endNode [0, 1] ⟨530, 530, 0⟩ ⟨650, 690, 0⟩ (some 0) ∧
      IsEndCandidate exactSqrt ringTrack endNode [0, 1] ⟨530, 530, 0⟩ ⟨560, 570, 0⟩ (some 1) ∧
      IsEndCandidate exactSqrt ringTrack endNode [0, 1] ⟨530, 530, 0⟩ ⟨830, 930, 0⟩ none) ∧
    endDistance exactSqrt ⟨530, 530, 0⟩ ⟨650, 690, 0⟩ = 200 ∧
    endDistance exactSqrt ⟨530, 530, 0⟩ ⟨560, 570, 0⟩ = 50 ∧
    endDistance exactSqrt ⟨530, 530, 0⟩ ⟨830, 930, 0⟩ = 500 ∧
    ∃ endNodeP endNode zigzag0 out lastAddedPoint,
      ([0, 1, 3] : List Nat).getLast? = some endNodeP ∧
      ringFinder.locationGraph.nodePs[endNodeP]? = some endNode ∧
      OptimalPipeTrackFinder.zigzagAlongPath ringFinder.locationGraph
        ((60 / 2 : Nat) : CalcNumber) [0, 1, 3] zigzag0 = some (some out) ∧
      out.getLast? = some lastAddedPoint ∧
      ((([⟨100, 100, 0⟩, ⟨530, 100, 0⟩, ⟨530, 530, 0⟩, ⟨560, 570, 0⟩] : List Point) = [] ∧
          (some 1 : Option Nat) = none) ∨
        ∃ endPoint,
          ([⟨100, 100, 0⟩, ⟨530, 100, 0⟩, ⟨530, 530, 0⟩, ⟨560, 570, 0⟩] : List Point)
            = out ++ [endPoint] ∧
          IsEndCandidate exactSqrt ringTrack endNode
            (([[], [], [], [0, 1]] : List (List Nat))[endNodeP]?.getD []) lastAddedPoint
            endPoint (some 1) ∧
          endDistance exactSqrt lastAddedPoint endPoint < 999999 ∧
          (∀ candidate candidateNodeP,
            IsEndCandidate exactSqrt ringTrack endNode
              (([[], [], [], [0, 1]] : List (List Nat))[endNodeP]?.getD []) lastAddedPoint
              candidate candidateNodeP →
            endDistance exactSqrt lastAddedPoint endPoint
              ≤ endDistance exactSqrt lastAddedPoint candidate) ∧
          ((some 1 : Option Nat) = none → ∃ waterDestination,
            endNode.waterDestinationP = some waterDestination ∧
            endPoint = ⟨waterDestination.point.x, waterDestination.point.y, 0⟩) ∧
          (∀ p, (some 1 : Option Nat) = some p → ∃ pipeTrackNode,
            p ∈ ([[], [], [], [0, 1]] : List (List Nat))[endNodeP]?.getD [] ∧
            ringTrack.nodePs[p]? = some pipeTrackNode ∧
            (pipeTrackNode.type = .direct ∨ pipeTrackNode.type = .fan) ∧
            pipeTrackNode.calculateNearestCenterPoint2D exactSqrt lastAddedPoint
              = some endPoint)) ∧
      (([⟨100, 100, 0⟩, ⟨530, 100, 0⟩, ⟨530, 530, 0⟩, ⟨560, 570, 0⟩] : List Point) = [] ↔
        ∀ candidate candidateNodeP,
          IsEndCandidate exactSqrt ringTrack endNode
            (([[], [], [], [0, 1]] : List (List Nat))[endNodeP]?.getD []) lastAddedPoint
            candidate candidateNodeP →
          999999 ≤ endDistance exactSqrt lastAddedPoint candidate) :=
  ⟨by decide!, by decide!, rfl,
    ⟨_, rfl,
      Or.inl ⟨0, _, rfl, by decide!, rfl, Or.inl rfl, by decide!, by decide!, by decide!,
        by decide!, by decide!⟩,
      Or.inl ⟨1, _, rfl, by decide!, rfl, Or.inl rfl, by decide!, by decide!, by decide!,
        by decide!, by decide!⟩,
      Or.inr ⟨rfl, _, rfl, rfl⟩⟩,
    by decide!, by decide!, by decide!,
    zigzag_end_is_nearest_candidate exactSqrt ringFinder [0, 1, 3] ringTrack 0
      ⟨"S1", ⟨100, 100, 0⟩, 50, 0⟩ [[], [], [], [0, 1]] _ (some 1) 60 (by decide!) rfl
      ringPath_wide⟩


/-! ## The footprint of a slanted pipe and a rectangle -/

/-- The second case of `rectanglesAreIntersected` for a direct pipe: when the axis is parallel
to neither Ox nor Oy and the enlarged box of the pipe meets the rectangle, the method returns
whether the test of the source holds for some edge of the footprint and some edge of the
rectangle. -/
theorem isIntersectedWithRectangle_slanted (sqrt : CalcNumber → CalcNumber)
    (self : PipeTrackNode) (pipeObject : PipeObject) (diameter width : Nat)
    (left right bottom top : CalcNumber) (normal : Point)
    (htype : self.type = .direct) (hpipe : self.pipeObjectP = some pipeObject)
    (hdata : pipeObject.data = .direct diameter)
    (hwidth : PipeTrackNode.externalDiameter pipeObject diameter = some width)
    (haxis : ¬ (self.endPoint.x - self.startPoint.x = 0 ∨ self.endPoint.y - self.startPoint.y = 0))
    (hbox : ¬ (min self.startPoint.x self.endPoint.x - (width : CalcNumber) ≥ right
      ∨ max self.startPoint.x self.endPoint.x + (width : CalcNumber) ≤ left
      ∨ min self.startPoint.y self.endPoint.y - (width : CalcNumber) ≥ top
      ∨ max self.startPoint.y self.endPoint.y + (width : CalcNumber) ≤ bottom))
    (hnormal : PipeTrackNode.calculateNormal2D sqrt (self.endPoint.sub self.startPoint)
      = some normal) :
    self.isIntersectedWithRectangle sqrt left right bottom top
      = some ((footprintEdges self.startPoint self.endPoint
            (normal.mul ((width : CalcNumber) / 2))).any
          (fun edge1 => (rectangleEdges left right bottom top).any
            (fun edge2 => PipeTrackNode.edgesAreIntersected edge1 edge2))) := by
  unfold PipeTrackNode.isIntersectedWithRectangle
  rw [hpipe]
  dsimp only
  rw [htype, hdata]
  dsimp only
  rw [hwidth]
  simp only [Option.some_bind]
  unfold PipeTrackNode.rectanglesAreIntersected
  simp only [Point.sub] at haxis hnormal ⊢
  rw [if_neg haxis, if_neg hbox, hnormal]
  rfl

theorem calculateNormal2D_three_four (sqrt : CalcNumber → CalcNumber)
    (h : sqrt (25 / 9) = 5 / 3) :
    PipeTrackNode.calculateNormal2D sqrt ((⟨300, 400, 0⟩ : Point).sub ⟨0, 0, 0⟩)
      = some ⟨-4 / 5, 3 / 5, 0⟩ := by
  unfold PipeTrackNode.calculateNormal2D
  simp only [Point.sub]
  norm_num [Point.length, Point.div, h]

theorem slantedNode_intersected (sqrt : CalcNumber → CalcNumber) (h : sqrt (25 / 9) = 5 / 3)
    (left right bottom top : CalcNumber)
    (hbox : ¬ (min (0 : CalcNumber) 300 - ((60 : Nat) : CalcNumber) ≥ right
      ∨ max (0 : CalcNumber) 300 + ((60 : Nat) : CalcNumber) ≤ left
      ∨ min (0 : CalcNumber) 400 - ((60 : Nat) : CalcNumber) ≥ top
      ∨ max (0 : CalcNumber) 400 + ((60 : Nat) : CalcNumber) ≤ bottom)) :
    (directNode50 ⟨0, 0, 0⟩ ⟨300, 400, 0⟩).isIntersectedWithRectangle sqrt left right bottom top
      = some ((footprintEdges ⟨0, 0, 0⟩ ⟨300, 400, 0⟩ ⟨-24, 18, 0⟩).any
          (fun edge1 => (rectangleEdges left right bottom top).any
            (fun edge2 => PipeTrackNode.edgesAreIntersected edge1 edge2))) := by
  have e := isIntersectedWithRectangle_slanted sqrt (directNode50 ⟨0, 0, 0⟩ ⟨300, 400, 0⟩)
    directPipe50 50 60 left right bottom top ⟨-4 / 5, 3 / 5, 0⟩ rfl rfl rfl rfl
    (by decide!) hbox (calculateNormal2D_three_four sqrt h)
  rw [e]
  have hn : (⟨-4 / 5, 3 / 5, 0⟩ : Point).mul (((60 : Nat) : CalcNumber) / 2) = ⟨-24, 18, 0⟩ := by
    decide!
  rw [hn]
  rfl

/-- C38, the code against its documentation: for a direct pipe whose axis is parallel to
neither Ox nor Oy, `isIntersectedWithRectangle` does not return whether an edge of the
footprint crosses an edge of the rectangle. The test of a pair of edges solves the system
`a11 * alfa + a12 * betta = b1`, `a21 * alfa + a22 * betta = b2` for the parameters of the
common point, whose solution has `betta = (a11 * b2 - a21 * b1) / (a11 * a22 - a21 * a12)`;
the source divides the other way round. For the pipe of external diameter 60 from `(0, 0)`
to `(300, 400)`, with the unit normal `(-4/5, 3/5)`, and the rectangle
`[-100, 400] x [100, 200]`, which the pipe passes through, a long edge of the footprint
crosses the bottom edge of the rectangle in `(37.5, 100)` and the method returns false; for
the rectangle `[200, 400] x [-100, 100]`, to the right of the pipe, no edge of the footprint
crosses an edge of the rectangle and the method returns true. -/
theorem isIntersectedWithRectangle_wrong_for_slanted_pipe :
    (∀ a11 a12 a21 a22 b1 b2 alfa betta : CalcNumber,
      a11 * alfa + a12 * betta = b1 → a21 * alfa + a22 * betta = b2 →
      a11 * a22 - a21 * a12 ≠ 0 →
      betta = (a11 * b2 - a21 * b1) / (a11 * a22 - a21 * a12)) ∧
    (∀ sqrt : CalcNumber → CalcNumber, sqrt (25 / 9) = 5 / 3 →
      PipeTrackNode.calculateNormal2D sqrt ((⟨300, 400, 0⟩ : Point).sub ⟨0, 0, 0⟩)
          = some ⟨-4 / 5, 3 / 5, 0⟩ ∧
        (directNode50 ⟨0, 0, 0⟩ ⟨300, 400, 0⟩).isIntersectedWithRectangle sqrt
          (-100) 400 100 200 = some false ∧
        (directNode50 ⟨0, 0, 0⟩ ⟨300, 400, 0⟩).isIntersectedWithRectangle sqrt
          200 400 (-100) 100 = some true) ∧
    ((⟨-24, 18, 0⟩, ⟨276, 418, 0⟩) ∈ footprintEdges ⟨0, 0, 0⟩ ⟨300, 400, 0⟩ ⟨-24, 18, 0⟩ ∧
      (⟨-100, 100, 0⟩, ⟨400, 100, 0⟩) ∈ rectangleEdges (-100) 400 100 200 ∧
      edgePoint (⟨-24, 18, 0⟩, ⟨276, 418, 0⟩) (41 / 200) = (75 / 2, 100) ∧
      edgePoint (⟨-100, 100, 0⟩, ⟨400, 100, 0⟩) (11 / 40) = (75 / 2, 100) ∧
      EdgesCross (⟨-24, 18, 0⟩, ⟨276, 418, 0⟩) (⟨-100, 100, 0⟩, ⟨400, 100, 0⟩)) ∧
    (∀ edge1 ∈ footprintEdges ⟨0, 0, 0⟩ ⟨300, 400, 0⟩ ⟨-24, 18, 0⟩,
      ∀ edge2 ∈ rectangleEdges 200 400 (-100) 100, ¬ EdgesCross edge1 edge2) := by
  refine ⟨?_, ?_, ?_, ?_⟩
  · intro a11 a12 a21 a22 b1 b2 alfa betta h1 h2 hd
    rw [eq_div_iff hd]
    rw [← h1, ← h2]
    ring
  · intro sqrt h
    refine ⟨calculateNormal2D_three_four sqrt h, ?_, ?_⟩
    · rw [slantedNode_intersected sqrt h _ _ _ _ (by decide!)]
      decide!
    · rw [slantedNode_intersected sqrt h _ _ _ _ (by decide!)]
      decide!
  · refine ⟨by decide!, by decide!, by decide!, by decide!, ?_⟩
    exact ⟨41 / 200, 11 / 40, by norm_num, by norm_num, by norm_num, by norm_num, by decide!⟩
  · intro edge1 h1 edge2 h2 hc
    simp only [footprintEdges, rectangleEdges, Point.add, Point.sub, List.mem_cons,
      List.mem_singleton, List.not_mem_nil, or_false] at h1 h2
    obtain ⟨s, t, hs0, hs1, ht0, ht1, he⟩ := hc
    simp only [edgePoint, Prod.mk.injEq] at he
    obtain ⟨hx, hy⟩ := he
    rcases h1 with e | e | e | e <;> rcases h2 with f | f | f | f <;> subst e <;> subst f <;>
      simp only at hx hy <;> linarith


/-! ## The path that `connectSourceToPipeTrack` commits -/

theorem exchangePaths_perm (sqrt : CalcNumber → CalcNumber) (i j : Nat)
    (paths : List (List Nat × Zigzag)) :
    (OptimalPipeTrackFinder.exchangePaths sqrt i j paths).Perm paths := by
  unfold OptimalPipeTrackFinder.exchangePaths
  cases hi : paths[i]? with
  | none => exact List.Perm.refl _
  | some pathI =>
    cases hj : paths[j]? with
    | none => exact List.Perm.refl _
    | some pathJ =>
      dsimp only
      split_ifs with hlt
      · exact perm_set_set pathI pathJ paths i j hi hj
      · exact List.Perm.refl _

/-- The vector of paths after the body of the inner loop of step 5, position by position. -/
theorem exchangePaths_getElem? (sqrt : CalcNumber → CalcNumber) (i j k : Nat) (hij : i ≠ j)
    (paths : List (List Nat × Zigzag)) (pathI pathJ : List Nat × Zigzag)
    (hi : paths[i]? = some pathI) (hj : paths[j]? = some pathJ) :
    (OptimalPipeTrackFinder.exchangePaths sqrt i j paths)[k]?
      = if OptimalPipeTrackFinder.zigzagLength sqrt pathJ.2.1
            < OptimalPipeTrackFinder.zigzagLength sqrt pathI.2.1 then
          if k = i then some pathJ else if k = j then some pathI else paths[k]?
        else paths[k]? := by
  unfold OptimalPipeTrackFinder.exchangePaths
  rw [hi, hj]
  dsimp only
  have hil : i < paths.length := (List.getElem?_eq_some_iff.mp hi).1
  have hjl : j < paths.length := (List.getElem?_eq_some_iff.mp hj).1
  split_ifs with hlt hki hkj
  · subst hki
    rw [List.getElem?_set_ne (Ne.symm hij), List.getElem?_set_self hil]
  · subst hkj
    rw [List.getElem?_set_self (by simpa using hjl)]
  · rw [List.getElem?_set_ne (Ne.symm hkj), List.getElem?_set_ne (Ne.symm hki)]
  · rfl

theorem getElem?_some_of_lt {α : Type} (l : List α) (k : Nat) (h : k < l.length) :
    ∃ a, l[k]? = some a :=
  ⟨l[k], List.getElem?_eq_getElem h⟩

/-- The first pass of the outer loop of step 5 puts the first shortest polyline to the
front. -/
theorem firstPass_finds_shortest (sqrt : CalcNumber → CalcNumber)
    (paths : List (List Nat × Zigzag)) :
    ∀ (count J : Nat) (cur : List (List Nat × Zigzag)), 0 < J → J + count = paths.length →
      cur.length = paths.length →
      (∃ path m, cur[0]? = some path ∧ m < J ∧ paths[m]? = some path ∧
        (∀ n q, n < J → paths[n]? = some q →
          OptimalPipeTrackFinder.zigzagLength sqrt path.2.1
            ≤ OptimalPipeTrackFinder.zigzagLength sqrt q.2.1) ∧
        ∀ n q, n < m → paths[n]? = some q →
          OptimalPipeTrackFinder.zigzagLength sqrt path.2.1
            < OptimalPipeTrackFinder.zigzagLength sqrt q.2.1) →
      (∀ k, J ≤ k → cur[k]? = paths[k]?) →
      ∃ path, ((List.range' J count).foldl
          (fun paths2 j => OptimalPipeTrackFinder.exchangePaths sqrt 0 j paths2) cur)[0]?
          = some path ∧ IsFirstShortest sqrt paths path := by
  intro count
  induction count with
  | zero =>
    intro J cur _ hJ _ hinv _
    obtain ⟨path, m, h0, _, hm, hle, hlt⟩ := hinv
    refine ⟨path, by simpa using h0, m, hm, ?_, hlt⟩
    intro n q hq
    exact hle n q (by
      have := (List.getElem?_eq_some_iff.mp hq).1
      omega) hq
  | succ count ih =>
    intro J cur hJ0 hJ hlen hinv hrest
    obtain ⟨path, m, h0, hmJ, hm, hle, hlt⟩ := hinv
    rw [List.range'_succ, List.foldl_cons]
    have hJl : J < paths.length := by omega
    obtain ⟨pathJ, hpJ⟩ := getElem?_some_of_lt paths J hJl
    have hcJ : cur[J]? = some pathJ := by rw [hrest J (le_refl _), hpJ]
    have hget := fun k => exchangePaths_getElem? sqrt 0 J k (by omega) cur path pathJ h0 hcJ
    apply ih (J + 1) _ (by omega) (by omega)
      ((exchangePaths_length sqrt 0 J cur).trans hlen)
    · by_cases hlt2 : OptimalPipeTrackFinder.zigzagLength sqrt pathJ.2.1
          < OptimalPipeTrackFinder.zigzagLength sqrt path.2.1
      · refine ⟨pathJ, J, ?_, by omega, hpJ, ?_, ?_⟩
        · rw [hget 0, if_pos hlt2, if_pos rfl]
        · intro n q hn hq
          by_cases hnJ : n = J
          · subst hnJ
            rw [hpJ] at hq
            rw [← Option.some.inj hq]
          · exact le_trans (le_of_lt hlt2) (hle n q (by omega) hq)
        · intro n q hn hq
          exact lt_of_lt_of_le hlt2 (hle n q hn hq)
      · refine ⟨path, m, ?_, by omega, hm, ?_, hlt⟩
        · rw [hget 0, if_neg hlt2]
          exact h0
        · intro n q hn hq
          by_cases hnJ : n = J
          · subst hnJ
            rw [hpJ] at hq
            rw [← Option.some.inj hq]
            exact not_lt.mp hlt2
          · exact hle n q (by omega) hq
    · intro k hk
      rw [hget k]
      split_ifs with h1 h2 h3
      · omega
      · omega
      · exact hrest k (by omega)
      · exact hrest k (by omega)

theorem innerLoop_getElem?_zero (sqrt : CalcNumber → CalcNumber) (i : Nat) (hi : 0 < i) :
    ∀ (js : List Nat) (paths : List (List Nat × Zigzag)), (∀ j ∈ js, i < j) →
      (js.foldl (fun paths2 j => OptimalPipeTrackFinder.exchangePaths sqrt i j paths2)
        paths)[0]? = paths[0]? := by
  intro js
  induction js with
  | nil => intro paths _; rfl
  | cons j js ih =>
    intro paths hjs
    have hj : i < j := hjs j (List.mem_cons_self _ _)
    rw [List.foldl_cons, ih _ (fun j' hj' => hjs j' (List.mem_cons_of_mem _ hj'))]
    exact exchangePaths_getElem?_other sqrt i j 0 (by omega) (by omega) paths

theorem outerLoop_getElem?_zero (sqrt : CalcNumber → CalcNumber) (size : Nat) :
    ∀ (is : List Nat) (paths : List (List Nat × Zigzag)), (∀ i ∈ is, 0 < i) →
      (is.foldl (fun paths1 i =>
          (List.range' (i + 1) (size - (i + 1))).foldl
            (fun paths2 j => OptimalPipeTrackFinder.exchangePaths sqrt i j paths2) paths1)
        paths)[0]? = paths[0]? := by
  intro is
  induction is with
  | nil => intro paths _; rfl
  | cons i is ih =>
    intro paths his
    rw [List.foldl_cons, ih _ (fun i' hi' => his i' (List.mem_cons_of_mem _ hi'))]
    exact innerLoop_getElem?_zero sqrt i (his i (List.mem_cons_self _ _)) _ paths
      (fun j hj => by
        have := (List.mem_range'_1.mp hj).1
        omega)

/-- After step 5 of `connectSourceToPipeTrack` the first path is the first shortest of the
enumerated ones. -/
theorem sortPaths_head (sqrt : CalcNumber → CalcNumber) (paths : List (List Nat × Zigzag))
    (hne : paths ≠ []) :
    ∃ path, (OptimalPipeTrackFinder.sortPaths sqrt paths)[0]? = some path ∧
      IsFirstShortest sqrt paths path := by
  have hpos : 0 < paths.length := List.length_pos.mpr hne
  obtain ⟨p0, hp0⟩ := getElem?_some_of_lt paths 0 hpos
  have hstart : ∃ path m, paths[0]? = some path ∧ m < 1 ∧ paths[m]? = some path ∧
      (∀ n q, n < 1 → paths[n]? = some q →
        OptimalPipeTrackFinder.zigzagLength sqrt path.2.1
          ≤ OptimalPipeTrackFinder.zigzagLength sqrt q.2.1) ∧
      ∀ n q, n < m → paths[n]? = some q →
        OptimalPipeTrackFinder.zigzagLength sqrt path.2.1
          < OptimalPipeTrackFinder.zigzagLength sqrt q.2.1 := by
    refine ⟨p0, 0, hp0, by omega, hp0, ?_, ?_⟩
    · intro n q hn hq
      have : n = 0 := by omega
      subst this
      rw [hp0] at hq
      rw [← Option.some.inj hq]
    · intro n q hn
      omega
  unfold OptimalPipeTrackFinder.sortPaths
  dsimp only
  by_cases h1 : paths.length = 1
  · rw [h1]
    have := firstPass_finds_shortest sqrt paths 0 1 paths (by omega) (by omega) rfl hstart
      (fun _ _ => rfl)
    simpa using this
  · have hsize : paths.length - 1 = (paths.length - 2) + 1 := by omega
    rw [hsize, List.range_succ_eq_map, List.foldl_cons]
    rw [outerLoop_getElem?_zero sqrt _ _ _ (fun i hi => by
      obtain ⟨a, _, ha⟩ := List.mem_map.mp hi
      omega)]
    have := firstPass_finds_shortest sqrt paths (paths.length - 1) 1 paths (by omega)
      (by omega) rfl hstart (fun _ _ => rfl)
    simpa using this

/-- A pass of the outer loop of step 5 for the counter `i`: the polylines before the position
`i` stay where they are, and the polyline at the position `i` is then no longer than any
polyline behind it. -/
theorem innerLoop_sorts (sqrt : CalcNumber → CalcNumber) (i size : Nat) :
    ∀ (count J : Nat) (cur : List (List Nat × Zigzag)), i < J → J + count = size →
      cur.length = size → SortedBefore sqrt i cur →
      (∀ (b : Nat) (pi pb : List Nat × Zigzag), i < b → b < J → cur[i]? = some pi →
        cur[b]? = some pb →
        OptimalPipeTrackFinder.zigzagLength sqrt pi.2.1
          ≤ OptimalPipeTrackFinder.zigzagLength sqrt pb.2.1) →
      SortedBefore sqrt (i + 1) ((List.range' J count).foldl
        (fun paths2 j => OptimalPipeTrackFinder.exchangePaths sqrt i j paths2) cur) := by
  intro count
  induction count with
  | zero =>
    intro J cur hiJ hJ hlen hsorted hmin
    simp only [List.range'_zero, List.foldl_nil]
    intro a b pa pb ha hab hpa hpb
    by_cases hai : a < i
    · exact hsorted a b pa pb hai hab hpa hpb
    · have e : a = i := by omega
      subst e
      have hb : b < cur.length := (List.getElem?_eq_some_iff.mp hpb).1
      exact hmin b pa pb hab (by omega) hpa hpb
  | succ count ih =>
    intro J cur hiJ hJ hlen hsorted hmin
    rw [List.range'_succ, List.foldl_cons]
    obtain ⟨pathI, hpI⟩ := getElem?_some_of_lt cur i (by omega)
    obtain ⟨pathJ, hpJ⟩ := getElem?_some_of_lt cur J (by omega)
    have hget := fun k => exchangePaths_getElem? sqrt i J k (by omega) cur pathI pathJ hpI hpJ
    apply ih (J + 1) _ (by omega) (by omega)
      ((exchangePaths_length sqrt i J cur).trans hlen)
    · intro a b pa pb ha hab hpa hpb
      rw [hget a] at hpa
      rw [hget b] at hpb
      by_cases hlt : OptimalPipeTrackFinder.zigzagLength sqrt pathJ.2.1
          < OptimalPipeTrackFinder.zigzagLength sqrt pathI.2.1
      · rw [if_pos hlt, if_neg (by omega), if_neg (by omega)] at hpa
        rw [if_pos hlt] at hpb
        split_ifs at hpb with h1 h2
        · rw [← Option.some.inj hpb]
          exact hsorted a J pa pathJ ha (by omega) hpa hpJ
        · rw [← Option.some.inj hpb]
          exact hsorted a i pa pathI ha (by omega) hpa hpI
        · exact hsorted a b pa pb ha hab hpa hpb
      · rw [if_neg hlt] at hpa hpb
        exact hsorted a b pa pb ha hab hpa hpb
    · intro b pi pb hib hbJ hpi hpb
      rw [hget i] at hpi
      rw [hget b] at hpb
      by_cases hlt : OptimalPipeTrackFinder.zigzagLength sqrt pathJ.2.1
          < OptimalPipeTrackFinder.zigzagLength sqrt pathI.2.1
      · rw [if_pos hlt, if_pos rfl] at hpi
        rw [if_pos hlt, if_neg (by omega)] at hpb
        rw [← Option.some.inj hpi]
        split_ifs at hpb with h2
        · rw [← Option.some.inj hpb]
          exact le_of_lt hlt
        · exact le_trans (le_of_lt hlt) (hmin b pathI pb hib (by omega) hpI hpb)
      · rw [if_neg hlt] at hpi hpb
        rw [hpI] at hpi
        rw [← Option.some.inj hpi]
        by_cases hbJ2 : b = J
        · subst hbJ2
          rw [hpJ] at hpb
          rw [← Option.some.inj hpb]
          exact not_lt.mp hlt
        · exact hmin b pathI pb hib (by omega) hpI hpb

theorem innerLoop_length (sqrt : CalcNumber → CalcNumber) (i : Nat) :
    ∀ (js : List Nat) (paths : List (List Nat × Zigzag)),
      (js.foldl (fun paths2 j => OptimalPipeTrackFinder.exchangePaths sqrt i j paths2)
        paths).length = paths.length ∧
      (js.foldl (fun paths2 j => OptimalPipeTrackFinder.exchangePaths sqrt i j paths2)
        paths).Perm paths := by
  intro js
  induction js with
  | nil => intro paths; exact ⟨rfl, List.Perm.refl _⟩
  | cons j js ih =>
    intro paths
    rw [List.foldl_cons]
    obtain ⟨h1, h2⟩ := ih (OptimalPipeTrackFinder.exchangePaths sqrt i j paths)
    exact ⟨h1.trans (exchangePaths_length sqrt i j paths),
      h2.trans (exchangePaths_perm sqrt i j paths)⟩

/-- The passes of the outer loop of step 5 for the counters from `i` on, `count` of them. -/
theorem outerLoop_sorts (sqrt : CalcNumber → CalcNumber) (size : Nat) :
    ∀ (count i : Nat) (cur : List (List Nat × Zigzag)), i + count + 1 = size →
      cur.length = size → SortedBefore sqrt i cur →
      SortedBefore sqrt (i + count) ((List.range' i count).foldl
          (fun paths1 i =>
            (List.range' (i + 1) (size - (i + 1))).foldl
              (fun paths2 j => OptimalPipeTrackFinder.exchangePaths sqrt i j paths2) paths1)
          cur) ∧
        ((List.range' i count).foldl
          (fun paths1 i =>
            (List.range' (i + 1) (size - (i + 1))).foldl
              (fun paths2 j => OptimalPipeTrackFinder.exchangePaths sqrt i j paths2) paths1)
          cur).Perm cur := by
  intro count
  induction count with
  | zero =>
    intro i cur _ _ hsorted
    exact ⟨hsorted, List.Perm.refl _⟩
  | succ count ih =>
    intro i cur hi hlen hsorted
    rw [List.range'_succ, List.foldl_cons]
    have h1 := innerLoop_sorts sqrt i size (size - (i + 1)) (i + 1) cur (by omega) (by omega)
      hlen hsorted (fun b _ _ hib hb => by omega)
    obtain ⟨l1, p1⟩ := innerLoop_length sqrt i (List.range' (i + 1) (size - (i + 1))) cur
    obtain ⟨h2, p2⟩ := ih (i + 1) _ (by omega) (l1.trans hlen) h1
    refine ⟨?_, p2.trans p1⟩
    have e : i + (count + 1) = i + 1 + count := by omega
    rw [e]
    exact h2

/-- Step 5 of `connectSourceToPipeTrack` sorts: after it no polyline is longer than a
polyline behind it, and the paths are the enumerated ones in another order. -/
theorem sortPaths_sorted (sqrt : CalcNumber → CalcNumber) (paths : List (List Nat × Zigzag))
    (hne : paths ≠ []) :
    (∀ (a b : Nat) (pa pb : List Nat × Zigzag), a < b →
      (OptimalPipeTrackFinder.sortPaths sqrt paths)[a]? = some pa →
      (OptimalPipeTrackFinder.sortPaths sqrt paths)[b]? = some pb →
      OptimalPipeTrackFinder.zigzagLength sqrt pa.2.1
        ≤ OptimalPipeTrackFinder.zigzagLength sqrt pb.2.1) ∧
      (OptimalPipeTrackFinder.sortPaths sqrt paths).Perm paths := by
  have hpos : 0 < paths.length := List.length_pos.mpr hne
  unfold OptimalPipeTrackFinder.sortPaths
  dsimp only
  rw [List.range_eq_range']
  obtain ⟨h1, h2⟩ := outerLoop_sorts sqrt paths.length (paths.length - 1) 0 paths (by omega) rfl
    (fun a _ _ _ ha => by omega)
  refine ⟨?_, h2⟩
  intro a b pa pb hab hpa hpb
  have hb : b < paths.length := by
    have := (List.getElem?_eq_some_iff.mp hpb).1
    rw [h2.length_eq] at this
    exact this
  exact h1 a b pa pb (by omega) hab hpa hpb

theorem removeFailedPaths_found :
    ∀ (k : Nat) (paths : List (List Nat × Zigzag)), k ≤ paths.length →
      (∀ (a : Nat) (pa : List Nat × Zigzag), a < k → paths[a]? = some pa → pa.2.1 ≠ []) →
      OptimalPipeTrackFinder.removeFailedPaths (List.range k).reverse paths = some paths := by
  intro k
  induction k with
  | zero => intro paths _ _; rfl
  | succ k ih =>
    intro paths hk hall
    rw [List.range_succ, List.reverse_append, List.reverse_singleton, List.singleton_append]
    unfold OptimalPipeTrackFinder.removeFailedPaths
    have hlt : k < paths.length := by omega
    rw [List.getElem?_eq_getElem hlt]
    dsimp only
    have hgood := hall k paths[k] (by omega) (List.getElem?_eq_getElem hlt)
    rw [if_neg (fun e => hgood (List.length_eq_zero.mp e))]
    exact ih paths (by omega) (fun a pa ha => hall a pa (by omega))

/-- Step 6 of `connectSourceToPipeTrack` on a vector whose empty polylines stand at the end:
the paths with a polyline that is not empty remain, in their order. -/
theorem removeFailedPaths_failedLast :
    ∀ (k : Nat) (paths : List (List Nat × Zigzag)), paths.length = k → FailedLast paths →
      OptimalPipeTrackFinder.removeFailedPaths (List.range k).reverse paths
        = some (paths.filter (fun path => decide (path.2.1 ≠ []))) := by
  intro k
  induction k with
  | zero =>
    intro paths hlen _
    have : paths = [] := List.length_eq_zero.mp hlen
    subst this
    rfl
  | succ k ih =>
    intro paths hlen hlast
    have hlt : k < paths.length := by omega
    by_cases hbad : paths[k].2.1 = []
    · rw [List.range_succ, List.reverse_append, List.reverse_singleton, List.singleton_append]
      unfold OptimalPipeTrackFinder.removeFailedPaths
      rw [List.getElem?_eq_getElem hlt]
      dsimp only
      rw [if_pos (by rw [hbad]; rfl)]
      have hsplit : paths = paths.dropLast ++ [paths[k]] := by
        have hne : paths ≠ [] := by
          intro e
          rw [e] at hlen
          simp at hlen
        have h1 := (List.dropLast_append_getLast hne).symm
        have h2 : paths.getLast hne = paths[k] := by
          rw [List.getLast_eq_getElem]
          congr 1
          omega
        rw [h2] at h1
        exact h1
      rw [ih paths.dropLast (by simp; omega) ?_]
      · congr 1
        conv_rhs => rw [hsplit]
        rw [List.filter_append]
        simp [hbad]
      · intro a b pa pb hab hpa hpb hempty
        have ha : a < paths.dropLast.length := (List.getElem?_eq_some_iff.mp hpa).1
        have hb : b < paths.dropLast.length := (List.getElem?_eq_some_iff.mp hpb).1
        rw [List.getElem?_eq_getElem ha, List.getElem_dropLast] at hpa
        rw [List.getElem?_eq_getElem hb, List.getElem_dropLast] at hpb
        simp only [List.length_dropLast] at ha hb
        exact hlast a b pa pb hab
          (by rw [List.getElem?_eq_getElem (by omega)]; exact hpa)
          (by rw [List.getElem?_eq_getElem (by omega)]; exact hpb) hempty
    · have hall : ∀ (a : Nat) (pa : List Nat × Zigzag), a < k + 1 → paths[a]? = some pa →
          pa.2.1 ≠ [] := by
        intro a pa ha hpa hempty
        by_cases hak : a = k
        · subst hak
          rw [List.getElem?_eq_getElem hlt] at hpa
          rw [Option.some.inj hpa] at hbad
          exact hbad hempty
        · exact hbad (hlast a k pa paths[k] (by omega) hpa (List.getElem?_eq_getElem hlt)
            hempty)
      rw [removeFailedPaths_found (k + 1) paths (by omega) hall]
      congr 1
      symm
      rw [List.filter_eq_self]
      intro pa hmem
      obtain ⟨a, ha, hget⟩ := List.getElem_of_mem hmem
      have := hall a pa (by omega) (by rw [List.getElem?_eq_getElem ha, hget])
      simpa using this

theorem zigzagLengthLoop_eq (sqrt : CalcNumber → CalcNumber) :
    ∀ (zigzag : List Point) (zigzagLength : CalcNumber),
      OptimalPipeTrackFinder.zigzagLengthLoop sqrt zigzag zigzagLength
        = zigzagLength + polylineLength sqrt zigzag
  | [], zigzagLength => by simp [OptimalPipeTrackFinder.zigzagLengthLoop, polylineLength]
  | [_], zigzagLength => by simp [OptimalPipeTrackFinder.zigzagLengthLoop, polylineLength]
  | previous :: current :: rest, zigzagLength => by
    rw [OptimalPipeTrackFinder.zigzagLengthLoop, zigzagLengthLoop_eq sqrt (current :: rest)]
    simp only [polylineLength, List.tail_cons, List.zipWith_cons_cons, List.sum_cons]
    ring

/-- Step 5 of `connectSourceToPipeTrack` takes for the length of a polyline that is not empty
the sum of the lengths of its segments. -/
theorem zigzagLength_eq (sqrt : CalcNumber → CalcNumber) (zigzag : List Point)
    (h : zigzag ≠ []) :
    OptimalPipeTrackFinder.zigzagLength sqrt zigzag = polylineLength sqrt zigzag := by
  unfold OptimalPipeTrackFinder.zigzagLength
  rw [if_neg (fun e => h (List.length_eq_zero.mp e)), zigzagLengthLoop_eq, zero_add]

theorem ringFinder_paths :
    enumeratedPaths exactSqrt ringFinder PipeTrack.new 0 ⟨"S1", ⟨100, 100, 0⟩, 50, 0⟩
      = some ringPaths := by
  decide!

/-- C37: when some enumerated path has a polyline and the polylines are shorter than `999999`,
`connectSourceToPipeTrack` lays the pipes along the polyline of the first shortest path: of
the polylines that are not empty none has a smaller sum of the lengths of its segments, and
those of the paths enumerated before it have a larger one. Step 6 keeps exactly the paths
whose polyline is not empty, the chosen path at their head. -/
theorem connectSourceToPipeTrack_commits_first_shortest (sqrt : CalcNumber → CalcNumber)
    (self : OptimalPipeTrackFinder) (pipeTrack : PipeTrack) (sourceP : Nat)
    (waterSource : WaterSource) (paths : List (List Nat × Zigzag))
    (h : enumeratedPaths sqrt self pipeTrack sourceP waterSource = some paths)
    (hshort : ShortZigzags sqrt paths) (hfound : ∃ path ∈ paths, path.2.1 ≠ []) :
    ∃ (path : List Nat × Zigzag) (kept : List (List Nat × Zigzag)) (pipeTrack1 : PipeTrack)
        (m : Nat),
      self.selectPath sqrt pipeTrack sourceP waterSource = .ok path ∧
      self.layPipes sqrt pipeTrack waterSource path.2.1 = some pipeTrack1 ∧
      self.connectSourceToPipeTrack sqrt pipeTrack sourceP waterSource = .ok pipeTrack1 ∧
      paths[m]? = some path ∧ path.2.1 ≠ [] ∧
      (∀ (n : Nat) (q : List Nat × Zigzag), paths[n]? = some q → q.2.1 ≠ [] →
        polylineLength sqrt path.2.1 ≤ polylineLength sqrt q.2.1) ∧
      (∀ (n : Nat) (q : List Nat × Zigzag), n < m → paths[n]? = some q → q.2.1 ≠ [] →
        polylineLength sqrt path.2.1 < polylineLength sqrt q.2.1) ∧
      OptimalPipeTrackFinder.removeFailedPaths (List.range paths.length).reverse
        (OptimalPipeTrackFinder.sortPaths sqrt paths) = some kept ∧
      kept.head? = some path ∧
      kept.Perm (paths.filter (fun q => decide (q.2.1 ≠ []))) := by
  have hne : paths ≠ [] := by
    obtain ⟨path, hmem, _⟩ := hfound
    intro e
    rw [e] at hmem
    cases hmem
  obtain ⟨path, h0, m, hm, hmin, hfirst⟩ := sortPaths_head sqrt paths hne
  obtain ⟨hsorted, hperm⟩ := sortPaths_sorted sqrt paths hne
  have hgood : path.2.1 ≠ [] := by
    intro hbad
    obtain ⟨q, hmem, hq⟩ := hfound
    obtain ⟨n, hn, hget⟩ := List.getElem_of_mem hmem
    have h1 := hmin n q (by rw [List.getElem?_eq_getElem hn, hget])
    rw [hbad, zigzagLength_nil] at h1
    exact absurd (lt_of_le_of_lt h1 (hshort q hmem hq)) (lt_irrefl _)
  have hlast : FailedLast (OptimalPipeTrackFinder.sortPaths sqrt paths) := by
    intro a b pa pb hab hpa hpb hempty
    by_contra hpbgood
    have h1 := hsorted a b pa pb hab hpa hpb
    rw [hempty, zigzagLength_nil] at h1
    have hmem : pb ∈ paths := hperm.subset (List.getElem?_mem hpb)
    exact absurd (lt_of_le_of_lt h1 (hshort pb hmem hpbgood)) (lt_irrefl _)
  have hremoved := removeFailedPaths_failedLast paths.length
    (OptimalPipeTrackFinder.sortPaths sqrt paths) hperm.length_eq hlast
  have hhead : ((OptimalPipeTrackFinder.sortPaths sqrt paths).filter
      (fun q => decide (q.2.1 ≠ []))).head? = some path := by
    cases hs : OptimalPipeTrackFinder.sortPaths sqrt paths with
    | nil => rw [hs] at h0; simp at h0
    | cons first rest =>
      rw [hs] at h0
      simp only [List.getElem?_cons_zero, Option.some.injEq] at h0
      subst h0
      rw [List.filter_cons_of_pos (by simpa using hgood)]
      rfl
  have hselect : self.selectPath sqrt pipeTrack sourceP waterSource = .ok path := by
    rw [selectPath_eq, h]
    dsimp only
    rw [if_neg (fun e => hne (List.length_eq_zero.mp e)), hremoved]
    cases hf : (OptimalPipeTrackFinder.sortPaths sqrt paths).filter
        (fun q => decide (q.2.1 ≠ [])) with
    | nil => rw [hf] at hhead; simp at hhead
    | cons first rest =>
      rw [hf] at hhead
      simp only [List.head?_cons, Option.some.injEq] at hhead
      subst hhead
      rfl
  obtain ⟨pipeTrack1, hl⟩ := layPipes_some sqrt self pipeTrack waterSource path.2.1 hgood
  refine ⟨path, _, pipeTrack1, m, hselect, hl, ?_, hm, hgood, ?_, ?_, hremoved, hhead,
    hperm.filter _⟩
  · unfold OptimalPipeTrackFinder.connectSourceToPipeTrack
    rw [hselect]
    dsimp only
    rw [hl]
  · intro n q hq hqgood
    have := hmin n q hq
    rw [zigzagLength_eq sqrt _ hgood, zigzagLength_eq sqrt _ hqgood] at this
    exact this
  · intro n q hn hq hqgood
    have := hfirst n q hn hq
    rw [zigzagLength_eq sqrt _ hgood, zigzagLength_eq sqrt _ hqgood] at this
    exact this

theorem connectSourceToPipeTrack_commits_first_shortest_witness :
    enumeratedPaths exactSqrt ringFinder PipeTrack.new 0 ⟨"S1", ⟨100, 100, 0⟩, 50, 0⟩
        = some ringPaths ∧
      ShortZigzags exactSqrt ringPaths ∧
      (∃ path ∈ ringPaths, path.2.1 ≠ []) ∧
      ringFinder.selectPath exactSqrt PipeTrack.new 0 ⟨"S1", ⟨100, 100, 0⟩, 50, 0⟩
        = .ok ([0, 1, 3], ([⟨100, 100, 0⟩, ⟨530, 100, 0⟩, ⟨530, 530, 0⟩, ⟨830, 930, 0⟩], none)) ∧
      ∃ (path : List Nat × Zigzag) (kept : List (List Nat × Zigzag)) (pipeTrack1 : PipeTrack)
          (m : Nat),
        ringFinder.selectPath exactSqrt PipeTrack.new 0 ⟨"S1", ⟨100, 100, 0⟩, 50, 0⟩
          = .ok path ∧
        ringFinder.layPipes exactSqrt PipeTrack.new ⟨"S1", ⟨100, 100, 0⟩, 50, 0⟩ path.2.1
          = some pipeTrack1 ∧
        ringFinder.connectSourceToPipeTrack exactSqrt PipeTrack.new 0
          ⟨"S1", ⟨100, 100, 0⟩, 50, 0⟩ = .ok pipeTrack1 ∧
        ringPaths[m]? = some path ∧ path.2.1 ≠ [] ∧
        (∀ (n : Nat) (q : List Nat × Zigzag), ringPaths[n]? = some q → q.2.1 ≠ [] →
          polylineLength exactSqrt path.2.1 ≤ polylineLength exactSqrt q.2.1) ∧
        (∀ (n : Nat) (q : List Nat × Zigzag), n < m → ringPaths[n]? = some q → q.2.1 ≠ [] →
          polylineLength exactSqrt path.2.1 < polylineLength exactSqrt q.2.1) ∧
        OptimalPipeTrackFinder.removeFailedPaths (List.range ringPaths.length).reverse
          (OptimalPipeTrackFinder.sortPaths exactSqrt ringPaths) = some kept ∧
        kept.head? = some path ∧
        kept.Perm (ringPaths.filter (fun q => decide (q.2.1 ≠ []))) :=
  have hshort : ShortZigzags exactSqrt ringPaths := by
    intro path hmem _
    simp only [ringPaths, List.mem_cons, List.mem_singleton, List.not_mem_nil, or_false] at hmem
    rcases hmem with e | e <;> subst e <;> decide!
  have hfound : ∃ path ∈ ringPaths, path.2.1 ≠ [] :=
    ⟨_, List.mem_cons_self _ _, by simp⟩
  ⟨ringFinder_paths, hshort, hfound, by decide!,
    connectSourceToPipeTrack_commits_first_shortest exactSqrt ringFinder PipeTrack.new 0
      ⟨"S1", ⟨100, 100, 0⟩, 50, 0⟩ ringPaths ringFinder_paths hshort hfound⟩


/-! ## The paths that `findAllPathsFromSourceToPipeTrack` records -/

theorem length_le_of_nodup_lt (n : Nat) (l : List Nat) (hnodup : l.Nodup)
    (hlt : ∀ p ∈ l, p < n) : l.length ≤ n := by
  have h := (hnodup.subperm (fun p hp => List.mem_range.mpr (hlt p hp))).length_le
  simpa using h

/-- The loop of `findAllPathsFromSourceToPipeTrack` over the adjacent nodes, when every
recursive call returns the paths of the specification. -/
theorem findAllPaths_loop (locationGraph : LocationGraph)
    (pipeTrackNodesForLocationNode : List (List Nat)) (depth fuel : Nat)
    (buildingPath passedNodes : List Nat)
    (hpassed : ∀ p, p ∈ passedNodes ↔ p ∈ buildingPath)
    (ih : ∀ (builtPaths : List (List Nat)) (adjacentNodeP : Nat),
      adjacentNodeP ∉ passedNodes → adjacentNodeP < locationGraph.nodePs.length →
      OptimalPipeTrackFinder.findAllPathsFromSourceToPipeTrack locationGraph
          pipeTrackNodesForLocationNode depth builtPaths (buildingPath ++ [adjacentNodeP])
          (adjacentNodeP :: passedNodes)
        = some (builtPaths ++ simplePathsFrom locationGraph pipeTrackNodesForLocationNode fuel
          (buildingPath ++ [adjacentNodeP]))) :
    ∀ (adjacent : List Nat) (builtPaths : List (List Nat)),
      (∀ p ∈ adjacent, p < locationGraph.nodePs.length) →
      adjacent.foldl
          (fun builtPaths? adjacentNodeP =>
            match builtPaths? with
            | none => none
            | some builtPaths1 =>
              if adjacentNodeP ∈ passedNodes then some builtPaths1
              else OptimalPipeTrackFinder.findAllPathsFromSourceToPipeTrack locationGraph
                pipeTrackNodesForLocationNode depth builtPaths1 (buildingPath ++ [adjacentNodeP])
                (adjacentNodeP :: passedNodes))
          (some builtPaths)
        = some (builtPaths ++ (adjacent.filter (fun next => decide (next ∉ buildingPath))).flatMap
          (fun next => simplePathsFrom locationGraph pipeTrackNodesForLocationNode fuel
            (buildingPath ++ [next])))
  | [], builtPaths, _ => by simp
  | adjacentNodeP :: rest, builtPaths, hvalid => by
    rw [List.foldl_cons]
    dsimp only
    by_cases hmem : adjacentNodeP ∈ passedNodes
    · rw [if_pos hmem, findAllPaths_loop locationGraph pipeTrackNodesForLocationNode depth fuel
        buildingPath passedNodes hpassed ih rest builtPaths
        (fun p hp => hvalid p (List.mem_cons_of_mem _ hp))]
      rw [List.filter_cons_of_neg (by simpa using (hpassed _).mp hmem)]
    · rw [if_neg hmem, ih builtPaths adjacentNodeP hmem (hvalid _ (List.mem_cons_self _ _)),
        findAllPaths_loop locationGraph pipeTrackNodesForLocationNode depth fuel
          buildingPath passedNodes hpassed ih rest _
          (fun p hp => hvalid p (List.mem_cons_of_mem _ hp))]
      rw [List.filter_cons_of_pos (by simpa using fun h => hmem ((hpassed _).mpr h)),
        List.flatMap_cons, List.append_assoc]

/-- The method `findAllPathsFromSourceToPipeTrack` returns: with the nodes of `passedNodes`
distinct addresses of nodes, a depth of the recursion above the number of the nodes that are
not passed is enough, and the paths of the specification are appended to `builtPaths`. -/
theorem findAllPaths_eq (locationGraph : LocationGraph)
    (pipeTrackNodesForLocationNode : List (List Nat)) (hvalid : AdjacencyValid locationGraph) :
    ∀ (depth fuel : Nat) (builtPaths : List (List Nat)) (buildingPath passedNodes : List Nat)
      (last : Nat), buildingPath.getLast? = some last → last < locationGraph.nodePs.length →
      (∀ p, p ∈ passedNodes ↔ p ∈ buildingPath) → passedNodes.Nodup →
      (∀ p ∈ passedNodes, p < locationGraph.nodePs.length) →
      locationGraph.nodePs.length + 1 ≤ depth + passedNodes.length →
      locationGraph.nodePs.length + 1 ≤ fuel + passedNodes.length →
      OptimalPipeTrackFinder.findAllPathsFromSourceToPipeTrack locationGraph
          pipeTrackNodesForLocationNode depth builtPaths buildingPath passedNodes
        = some (builtPaths ++ simplePathsFrom locationGraph pipeTrackNodesForLocationNode fuel
          buildingPath) := by
  intro depth
  induction depth with
  | zero =>
    intro fuel builtPaths buildingPath passedNodes last _ _ _ hnodup hlt hdepth _
    have := length_le_of_nodup_lt _ passedNodes hnodup hlt
    omega
  | succ depth ih =>
    intro fuel builtPaths buildingPath passedNodes last hlast hlastlt hpassed hnodup hlt hdepth
      hfuel
    have hlen := length_le_of_nodup_lt _ passedNodes hnodup hlt
    cases fuel with
    | zero => omega
    | succ fuel =>
      unfold OptimalPipeTrackFinder.findAllPathsFromSourceToPipeTrack simplePathsFrom
      rw [hlast]
      dsimp only
      rw [List.getElem?_eq_getElem hlastlt]
      dsimp only [Option.map_some', Option.getD_some]
      have hloop := findAllPaths_loop locationGraph pipeTrackNodesForLocationNode depth fuel
        buildingPath passedNodes hpassed
        (fun builtPaths1 adjacentNodeP hnot hp =>
          ih fuel builtPaths1 (buildingPath ++ [adjacentNodeP]) (adjacentNodeP :: passedNodes)
            adjacentNodeP (List.getLast?_concat _) hp
            (fun p => by
              simp only [List.mem_cons, List.mem_append, List.mem_singleton, hpassed p]
              tauto)
            (List.nodup_cons.mpr ⟨hnot, hnodup⟩)
            (fun p hp1 => by
              rcases List.mem_cons.mp hp1 with e | hp2
              · rw [e]; exact hp
              · exact hlt p hp2)
            (by simp only [List.length_cons]; omega)
            (by simp only [List.length_cons]; omega))
        (locationGraph.nodePs[last]).adjacentNodes
      rw [hloop _ (hvalid _ (List.getElem_mem _))]
      unfold EndsPath
      split_ifs <;> simp

/-- Every path of the depth-first enumeration from `path` extends `path` by a chain of
adjacent nodes into a simple path whose last node ends a path. -/
theorem simplePathsFrom_sound (locationGraph : LocationGraph)
    (pipeTrackNodesForLocationNode : List (List Nat)) :
    ∀ (fuel : Nat) (path : List Nat) (last : Nat) (q : List Nat),
      path.getLast? = some last → path.Nodup →
      q ∈ simplePathsFrom locationGraph pipeTrackNodesForLocationNode fuel path →
      ∃ ext, q = path ++ ext ∧ q.Nodup ∧ List.Chain (Adjacent locationGraph) last ext ∧
        ∃ l, q.getLast? = some l ∧ EndsPath locationGraph pipeTrackNodesForLocationNode l := by
  intro fuel
  induction fuel with
  | zero =>
    intro path last q _ _ hq
    simp [simplePathsFrom] at hq
  | succ fuel ih =>
    intro path last q hlast hnodup hq
    unfold simplePathsFrom at hq
    rw [hlast] at hq
    dsimp only at hq
    rcases List.mem_append.mp hq with h1 | h2
    · split_ifs at h1 with hends
      · rw [List.mem_singleton] at h1
        subst h1
        exact ⟨[], by simp, hnodup, List.Chain.nil, last, hlast, hends⟩
      · cases h1
    · obtain ⟨next, hnext, hq2⟩ := List.mem_flatMap.mp h2
      rw [List.mem_filter] at hnext
      obtain ⟨hadj, hnot⟩ := hnext
      have hnot2 : next ∉ path := by simpa using hnot
      obtain ⟨ext, e, hn, hchain, hl⟩ := ih (path ++ [next]) next q (List.getLast?_concat _)
        (List.Nodup.append hnodup (List.nodup_singleton _)
          (fun p hp hs => hnot2 (by rw [List.mem_singleton] at hs; rw [← hs]; exact hp))) hq2
      refine ⟨next :: ext, by rw [e]; simp, hn, List.Chain.cons ?_ hchain, hl⟩
      cases hnode : locationGraph.nodePs[last]? with
      | none => rw [hnode] at hadj; simp at hadj
      | some node =>
        rw [hnode] at hadj
        exact ⟨node, hnode, by simpa using hadj⟩

/-- Every simple extension of `path` by a chain of adjacent nodes whose last node ends a path
is in the depth-first enumeration from `path`, when the enumeration goes deeper than the
extension is long. -/
theorem simplePathsFrom_complete (locationGraph : LocationGraph)
    (pipeTrackNodesForLocationNode : List (List Nat)) :
    ∀ (ext : List Nat) (fuel : Nat) (path : List Nat) (last : Nat),
      path.getLast? = some last → ext.length < fuel → (path ++ ext).Nodup →
      List.Chain (Adjacent locationGraph) last ext →
      (∃ l, (path ++ ext).getLast? = some l ∧
        EndsPath locationGraph pipeTrackNodesForLocationNode l) →
      path ++ ext ∈ simplePathsFrom locationGraph pipeTrackNodesForLocationNode fuel path := by
  intro ext
  induction ext with
  | nil =>
    intro fuel path last hlast hfuel _ _ hends
    cases fuel with
    | zero => simp at hfuel
    | succ fuel =>
      unfold simplePathsFrom
      rw [hlast]
      dsimp only
      obtain ⟨l, hl, hends⟩ := hends
      rw [List.append_nil, hlast] at hl
      rw [← Option.some.inj hl] at hends
      rw [if_pos hends, List.append_nil]
      exact List.mem_append_left _ (List.mem_singleton_self _)
  | cons next ext ih =>
    intro fuel path last hlast hfuel hnodup hchain hends
    cases fuel with
    | zero => simp at hfuel
    | succ fuel =>
      unfold simplePathsFrom
      rw [hlast]
      dsimp only
      apply List.mem_append_right
      rw [List.mem_flatMap]
      rw [List.chain_cons] at hchain
      obtain ⟨⟨node, hnode, hadj⟩, hchain⟩ := hchain
      have e : path ++ next :: ext = (path ++ [next]) ++ ext := by simp
      refine ⟨next, ?_, ?_⟩
      · rw [List.mem_filter, hnode]
        refine ⟨by simpa using hadj, ?_⟩
        have : next ∉ path := by
          intro hmem
          have := List.disjoint_of_nodup_append hnodup hmem (List.mem_cons_self _ _)
          exact this
        simpa using this
      · rw [e]
        apply ih fuel (path ++ [next]) next (List.getLast?_concat _)
          (by simp only [List.length_cons] at hfuel; omega) (by rw [← e]; exact hnodup) hchain
        rw [← e]
        exact hends

theorem chain_lt_length (locationGraph : LocationGraph) (hvalid : AdjacencyValid locationGraph) :
    ∀ (ext : List Nat) (last : Nat), List.Chain (Adjacent locationGraph) last ext →
      ∀ p ∈ ext, p < locationGraph.nodePs.length := by
  intro ext
  induction ext with
  | nil => intro _ _ p hp; cases hp
  | cons next ext ih =>
    intro last hchain p hp
    rw [List.chain_cons] at hchain
    obtain ⟨⟨node, hnode, hadj⟩, hchain⟩ := hchain
    rcases List.mem_cons.mp hp with e | hp2
    · rw [e]
      exact hvalid node (List.getElem?_mem hnode) next hadj
    · exact ih next hchain p hp2

/-- The paths of the depth-first enumeration from the node `start` are the paths to
record. -/
theorem simplePathsFrom_iff (locationGraph : LocationGraph)
    (pipeTrackNodesForLocationNode : List (List Nat)) (hvalid : AdjacencyValid locationGraph)
    (start : Nat) (hstart : start < locationGraph.nodePs.length) (fuel : Nat)
    (hfuel : locationGraph.nodePs.length ≤ fuel) (q : List Nat) :
    q ∈ simplePathsFrom locationGraph pipeTrackNodesForLocationNode fuel [start]
      ↔ IsRecordedPath locationGraph pipeTrackNodesForLocationNode start q := by
  constructor
  · intro hq
    obtain ⟨ext, e, hn, hchain, hl⟩ := simplePathsFrom_sound locationGraph
      pipeTrackNodesForLocationNode fuel [start] start q rfl (List.nodup_singleton _) hq
    subst e
    exact ⟨rfl, hn, by simpa [List.Chain'] using hchain, hl⟩
  · rintro ⟨hhead, hn, hchain, hl⟩
    cases q with
    | nil => simp at hhead
    | cons first ext =>
      simp only [List.head?_cons, Option.some.injEq] at hhead
      subst hhead
      have hchain2 : List.Chain (Adjacent locationGraph) first ext := hchain
      have hlt : ∀ p ∈ first :: ext, p < locationGraph.nodePs.length := by
        intro p hp
        rcases List.mem_cons.mp hp with e | hp2
        · rw [e]; exact hstart
        · exact chain_lt_length locationGraph hvalid ext first hchain2 p hp2
      have hlen := length_le_of_nodup_lt _ _ hn hlt
      simp only [List.length_cons] at hlen
      exact simplePathsFrom_complete locationGraph pipeTrackNodesForLocationNode ext fuel
        [first] first rfl (by omega) hn hchain2 hl

/-- The depth-first enumeration records no path twice when no node occurs twice among the
adjacent nodes of a node. -/
theorem simplePathsFrom_nodup (locationGraph : LocationGraph)
    (pipeTrackNodesForLocationNode : List (List Nat))
    (hadjacent : ∀ node ∈ locationGraph.nodePs, node.adjacentNodes.Nodup) :
    ∀ (fuel : Nat) (path : List Nat), path.Nodup →
      (simplePathsFrom locationGraph pipeTrackNodesForLocationNode fuel path).Nodup := by
  intro fuel
  induction fuel with
  | zero => intro path _; simp [simplePathsFrom]
  | succ fuel ih =>
    intro path hnodup
    unfold simplePathsFrom
    cases hlast : path.getLast? with
    | none => simp
    | some last =>
      dsimp only
      have hext : ∀ next, next ∉ path →
          ∀ q ∈ simplePathsFrom locationGraph pipeTrackNodesForLocationNode fuel
            (path ++ [next]), ∃ ext, q = path ++ next :: ext := by
        intro next hnot q hq
        obtain ⟨ext, e, _⟩ := simplePathsFrom_sound locationGraph pipeTrackNodesForLocationNode
          fuel (path ++ [next]) next q (List.getLast?_concat _)
          (List.Nodup.append hnodup (List.nodup_singleton _)
            (fun p hp hs => hnot (by rw [List.mem_singleton] at hs; rw [← hs]; exact hp))) hq
        exact ⟨ext, by rw [e]; simp⟩
      rw [List.nodup_append]
      refine ⟨by split_ifs <;> simp, ?_, ?_⟩
      · rw [List.nodup_flatMap]
        constructor
        · intro next hnext
          rw [List.mem_filter] at hnext
          have hnot : next ∉ path := by simpa using hnext.2
          exact ih _ (List.Nodup.append hnodup (List.nodup_singleton _)
            (fun p hp hs => hnot (by rw [List.mem_singleton] at hs; rw [← hs]; exact hp)))
        · have hadj : ((locationGraph.nodePs[last]?.map LocationGraphNode.adjacentNodes).getD
              []).Nodup := by
            cases hnode : locationGraph.nodePs[last]? with
            | none => simp
            | some node => exact hadjacent node (List.getElem?_mem hnode)
          have hpair : List.Pairwise (fun a b => a ≠ b)
              ((((locationGraph.nodePs[last]?.map LocationGraphNode.adjacentNodes).getD
                []).filter (fun next => decide (next ∉ path)))) := hadj.filter _
          rw [List.pairwise_iff_forall_sublist] at hpair ⊢
          intro a b hsub
          have hne := hpair hsub
          have ha : a ∉ path := by
            have := (List.mem_filter.mp (hsub.subset (List.mem_cons_self _ _))).2
            simpa using this
          have hb : b ∉ path := by
            have := (List.mem_filter.mp
              (hsub.subset (List.mem_cons_of_mem _ (List.mem_singleton_self _)))).2
            simpa using this
          intro q hqa hqb
          obtain ⟨ea, ha2⟩ := hext a ha q hqa
          obtain ⟨eb, hb2⟩ := hext b hb q hqb
          rw [ha2] at hb2
          have := List.append_cancel_left hb2
          exact hne (List.cons.inj this).1
      · intro q hq1 hq2
        split_ifs at hq1
        · rw [List.mem_singleton] at hq1
          obtain ⟨next, hnext, hq3⟩ := List.mem_flatMap.mp hq2
          have hnot : next ∉ path := by simpa using (List.mem_filter.mp hnext).2
          obtain ⟨ext, e⟩ := hext next hnot q hq3
          rw [hq1] at e
          have := congrArg List.length e
          simp at this
        · cases hq1

theorem pairwise_positions (l : List Nat) :
    l.Pairwise (fun a b => ∃ (i j : Nat), i < j ∧ l[i]? = some a ∧ l[j]? = some b) := by
  rw [List.pairwise_iff_getElem]
  intro i j hi hj hij
  exact ⟨i, j, hij, List.getElem?_eq_getElem hi, List.getElem?_eq_getElem hj⟩

/-- The depth-first enumeration lists the paths in the depth-first order: a path before its
extensions, and the paths through an adjacent node before the paths through the adjacent
nodes behind it. -/
theorem simplePathsFrom_ordered (locationGraph : LocationGraph)
    (pipeTrackNodesForLocationNode : List (List Nat)) :
    ∀ (fuel : Nat) (path : List Nat), path.Nodup →
      (simplePathsFrom locationGraph pipeTrackNodesForLocationNode fuel path).Pairwise
        (DfsBefore locationGraph) := by
  intro fuel
  induction fuel with
  | zero => intro path _; simp [simplePathsFrom]
  | succ fuel ih =>
    intro path hnodup
    unfold simplePathsFrom
    cases hlast : path.getLast? with
    | none => simp
    | some last =>
      dsimp only
      have hnodup2 : ∀ next, next ∉ path → (path ++ [next]).Nodup := fun next hnot =>
        List.Nodup.append hnodup (List.nodup_singleton _)
          (fun p hp hs => hnot (by rw [List.mem_singleton] at hs; rw [← hs]; exact hp))
      have hext : ∀ next, next ∉ path →
          ∀ q ∈ simplePathsFrom locationGraph pipeTrackNodesForLocationNode fuel
            (path ++ [next]), ∃ ext, q = path ++ next :: ext := by
        intro next hnot q hq
        obtain ⟨ext, e, _⟩ := simplePathsFrom_sound locationGraph pipeTrackNodesForLocationNode
          fuel (path ++ [next]) next q (List.getLast?_concat _) (hnodup2 next hnot) hq
        exact ⟨ext, by rw [e]; simp⟩
      rw [List.pairwise_append]
      refine ⟨by split_ifs <;> simp, ?_, ?_⟩
      · rw [List.pairwise_flatMap]
        constructor
        · intro next hnext
          rw [List.mem_filter] at hnext
          exact ih _ (hnodup2 next (by simpa using hnext.2))
        · cases hnode : locationGraph.nodePs[last]? with
          | none => simp
          | some node =>
            dsimp only [Option.map_some', Option.getD_some]
            refine List.Pairwise.imp_of_mem ?_
              ((pairwise_positions node.adjacentNodes).filter _)
            intro a b ha hb hab x hx y hy
            obtain ⟨i, j, hij, hi, hj⟩ := hab
            obtain ⟨ex, e1⟩ := hext a (by simpa using (List.mem_filter.mp ha).2) x hx
            obtain ⟨ey, e2⟩ := hext b (by simpa using (List.mem_filter.mp hb).2) y hy
            have hpath : path = path.dropLast ++ [last] :=
              (List.dropLast_append_getLast? last (by rw [hlast]; rfl)).symm
            refine Or.inr ⟨path.dropLast, last, a, b, ex, ey, node, i, j, ?_, ?_, hnode, hij,
              hi, hj⟩
            · rw [e1]
              conv_lhs => rw [hpath]
              simp
            · rw [e2]
              conv_lhs => rw [hpath]
              simp
      · intro a ha b hb
        split_ifs at ha
        · rw [List.mem_singleton] at ha
          obtain ⟨next, hnext, hb2⟩ := List.mem_flatMap.mp hb
          obtain ⟨ext, e⟩ := hext next (by simpa using (List.mem_filter.mp hnext).2) b hb2
          exact Or.inl ⟨next :: ext, by simp, by rw [e, ha]⟩
        · cases ha

theorem ringFinder_adjacencyValid : AdjacencyValid ringFinder.locationGraph := by
  unfold AdjacencyValid
  decide!

/-- C32: on a graph whose adjacency lists hold addresses of nodes,
`findAllPathsFromSourceToPipeTrack` returns from the node `start` with a recursion as deep
as the graph has nodes: it appends to `builtPaths` the paths of the depth-first enumeration
`simplePathsFrom`, which goes through the adjacent nodes in the order left, right, bottom,
top. These are exactly the simple paths from `start` along adjacent nodes to a node that
holds a node of the track or is the node of the destination; a recorded path is extended
further, so that its recorded extensions are there as well; the paths stand in the
depth-first order; and no path is recorded twice when no node occurs twice among the
adjacent nodes of a node. -/
theorem findAllPaths_records_simple_paths (locationGraph : LocationGraph)
    (pipeTrackNodesForLocationNode : List (List Nat)) (start depth : Nat)
    (hvalid : AdjacencyValid locationGraph) (hstart : start < locationGraph.nodePs.length)
    (hdepth : locationGraph.nodePs.length ≤ depth) :
    ∃ paths : List (List Nat),
      (∀ builtPaths : List (List Nat),
        OptimalPipeTrackFinder.findAllPathsFromSourceToPipeTrack locationGraph
            pipeTrackNodesForLocationNode depth builtPaths [start] [start]
          = some (builtPaths ++ paths)) ∧
      paths = simplePathsFrom locationGraph pipeTrackNodesForLocationNode
        locationGraph.nodePs.length [start] ∧
      (∀ node : LocationGraphNode, node.adjacentNodes
        = node.leftNodesPs ++ node.rightNodesPs ++ node.bottomNodesPs ++ node.topNodesPs) ∧
      (∀ q, q ∈ paths ↔ IsRecordedPath locationGraph pipeTrackNodesForLocationNode start q) ∧
      (∀ q ext, q ∈ paths →
        IsRecordedPath locationGraph pipeTrackNodesForLocationNode start (q ++ ext) →
        q ++ ext ∈ paths) ∧
      paths.Pairwise (DfsBefore locationGraph) ∧
      ((∀ node ∈ locationGraph.nodePs, node.adjacentNodes.Nodup) → paths.Nodup) := by
  have hiff := simplePathsFrom_iff locationGraph pipeTrackNodesForLocationNode hvalid start
    hstart locationGraph.nodePs.length (le_refl _)
  refine ⟨_, ?_, rfl, ?_, hiff, fun q ext _ h => (hiff _).mpr h,
    simplePathsFrom_ordered locationGraph pipeTrackNodesForLocationNode _ _
      (List.nodup_singleton _),
    fun hadjacent => simplePathsFrom_nodup locationGraph pipeTrackNodesForLocationNode hadjacent
      _ _ (List.nodup_singleton _)⟩
  · intro builtPaths
    exact findAllPaths_eq locationGraph pipeTrackNodesForLocationNode hvalid depth
      locationGraph.nodePs.length builtPaths [start] [start] start rfl hstart (fun _ => Iff.rfl)
      (List.nodup_singleton _)
      (fun p hp => by rw [List.mem_singleton.mp hp]; exact hstart)
      (by simp only [List.length_singleton]; omega)
      (by simp only [List.length_singleton]; omega)
  · intro node
    simp [LocationGraphNode.adjacentNodes]

theorem findAllPaths_records_simple_paths_witness :
    AdjacencyValid ringFinder.locationGraph ∧
      OptimalPipeTrackFinder.findAllPathsFromSourceToPipeTrack ringFinder.locationGraph
          [[], [0], [], []] 5 [] [0] [0]
        = some [[0, 1], [0, 1, 3], [0, 2, 3], [0, 2, 3, 1]] ∧
      ∃ paths : List (List Nat),
        (∀ builtPaths : List (List Nat),
          OptimalPipeTrackFinder.findAllPathsFromSourceToPipeTrack ringFinder.locationGraph
              [[], [0], [], []] 5 builtPaths [0] [0]
            = some (builtPaths ++ paths)) ∧
        paths = simplePathsFrom ringFinder.locationGraph [[], [0], [], []]
          ringFinder.locationGraph.nodePs.length [0] ∧
        (∀ node : LocationGraphNode, node.adjacentNodes
          = node.leftNodesPs ++ node.rightNodesPs ++ node.bottomNodesPs ++ node.topNodesPs) ∧
        (∀ q, q ∈ paths ↔ IsRecordedPath ringFinder.locationGraph [[], [0], [], []] 0 q) ∧
        (∀ q ext, q ∈ paths →
          IsRecordedPath ringFinder.locationGraph [[], [0], [], []] 0 (q ++ ext) →
          q ++ ext ∈ paths) ∧
        paths.Pairwise (DfsBefore ringFinder.locationGraph) ∧
        ((∀ node ∈ ringFinder.locationGraph.nodePs, node.adjacentNodes.Nodup) → paths.Nodup) :=
  ⟨ringFinder_adjacencyValid, by decide!,
    findAllPaths_records_simple_paths ringFinder.locationGraph [[], [0], [], []] 0 5
      ringFinder_adjacencyValid (by decide!) (by decide!)⟩


/-! ## The destination during `separateWaterSources` -/

theorem place_setNodesPs (n : LocationGraphNode) (side : Side) (nodesPs : List Nat) :
    (n.setNodesPs side nodesPs).place = n.place := by
  cases side <;> rfl

theorem map_place_set_same (nodes : List LocationGraphNode) (p : Nat) (a b : LocationGraphNode)
    (ha : nodes[p]? = some a) (hb : b.place = a.place) :
    (nodes.set p b).map LocationGraphNode.place = nodes.map LocationGraphNode.place := by
  apply List.ext_getElem?
  intro i
  simp only [List.getElem?_map, List.getElem?_set]
  by_cases hi : p = i
  · subst hi
    rw [if_pos rfl, ha]
    obtain ⟨hlt, _⟩ := List.getElem?_eq_some_iff.mp ha
    simp [hlt, hb]
  · rw [if_neg hi]

theorem redirect_place (side : Side) (nodeP newNodeP neighbourP : Nat) (g g1 : LocationGraph)
    (h : LocationGraph.redirect side nodeP newNodeP neighbourP g = some g1) :
    g1.pipeObjectsBagP = g.pipeObjectsBagP ∧
      g1.nodePs.map LocationGraphNode.place = g.nodePs.map LocationGraphNode.place := by
  unfold LocationGraph.redirect at h
  cases hn : g.nodePs[neighbourP]? with
  | none => rw [hn] at h; simp at h
  | some neighbour =>
    rw [hn] at h
    dsimp only at h
    cases hr : LocationGraph.replaceFirst nodeP newNodeP (neighbour.nodesPs side) with
    | none => rw [hr] at h; simp at h
    | some nodesPs =>
      rw [hr] at h
      simp only [Option.some.injEq] at h
      rw [← h]
      exact ⟨rfl, map_place_set_same g.nodePs neighbourP neighbour _ hn
        (place_setNodesPs _ _ _)⟩

theorem redirectAll_place (side : Side) (nodeP newNodeP : Nat) (neighbours : List Nat) :
    ∀ (g g1 : LocationGraph),
      LocationGraph.redirectAll side nodeP newNodeP neighbours g = some g1 →
      g1.pipeObjectsBagP = g.pipeObjectsBagP ∧
        g1.nodePs.map LocationGraphNode.place = g.nodePs.map LocationGraphNode.place := by
  induction neighbours with
  | nil =>
    intro g g1 h
    simp only [LocationGraph.redirectAll, Option.some.injEq] at h
    rw [h]
    exact ⟨rfl, rfl⟩
  | cons neighbourP rest ih =>
    intro g g1 h
    unfold LocationGraph.redirectAll at h
    cases hr : LocationGraph.redirect side nodeP newNodeP neighbourP g with
    | none => rw [hr] at h; simp at h
    | some g2 =>
      rw [hr] at h
      obtain ⟨a1, a2⟩ := ih g2 g1 h
      obtain ⟨b1, b2⟩ := redirect_place side nodeP newNodeP neighbourP g g2 hr
      exact ⟨a1.trans b1, a2.trans b2⟩

theorem moveNeighbours_place (listSide oppositeSide : Side) (beyond : LocationGraphNode → Bool)
    (nodeP newNodeP : Nat) (neighbours : List Nat) :
    ∀ (g g1 : LocationGraph),
      LocationGraph.moveNeighbours listSide oppositeSide beyond nodeP newNodeP neighbours g
        = some g1 →
      g1.pipeObjectsBagP = g.pipeObjectsBagP ∧
        g1.nodePs.map LocationGraphNode.place = g.nodePs.map LocationGraphNode.place := by
  induction neighbours with
  | nil =>
    intro g g1 h
    simp only [LocationGraph.moveNeighbours, Option.some.injEq] at h
    rw [h]
    exact ⟨rfl, rfl⟩
  | cons neighbourP rest ih =>
    intro g g1 h
    unfold LocationGraph.moveNeighbours at h
    cases hn : g.nodePs[neighbourP]? with
    | none => rw [hn] at h; simp at h
    | some neighbour =>
      cases hnew : g.nodePs[newNodeP]? with
      | none => rw [hn, hnew] at h; simp at h
      | some newNode =>
        rw [hn, hnew] at h
        dsimp only at h
        by_cases hb : beyond neighbour = true
        · rw [if_pos hb] at h
          cases hr : LocationGraph.redirect oppositeSide nodeP newNodeP neighbourP
              (g.setNode newNodeP
                (newNode.setNodesPs listSide (newNode.nodesPs listSide ++ [neighbourP]))) with
          | none => rw [hr] at h; simp at h
          | some g2 =>
            rw [hr] at h
            obtain ⟨a1, a2⟩ := ih g2 g1 h
            obtain ⟨b1, b2⟩ := redirect_place _ _ _ _ _ g2 hr
            exact ⟨a1.trans b1, a2.trans (b2.trans
              (map_place_set_same g.nodePs newNodeP newNode _ hnew (place_setNodesPs _ _ _)))⟩
        · rw [if_neg hb] at h
          exact ih g g1 h

theorem copyObjects_place (beyond : Point → Bool) (nodeP newNodeP : Nat) (g g1 : LocationGraph)
    (h : LocationGraph.copyObjects beyond nodeP newNodeP g = some g1) :
    ∃ node newNode, g.nodePs[nodeP]? = some node ∧ g.nodePs[newNodeP]? = some newNode ∧
      g1.pipeObjectsBagP = g.pipeObjectsBagP ∧
      g1.nodePs.map LocationGraphNode.place = (g.nodePs.map LocationGraphNode.place).set newNodeP
        (placeWith newNode.left newNode.right newNode.bottom newNode.top
          (match node.waterDestinationP with
            | some waterDestination =>
              if beyond waterDestination.point then some waterDestination
              else newNode.waterDestinationP
            | none => newNode.waterDestinationP)) := by
  unfold LocationGraph.copyObjects at h
  cases hn : g.nodePs[nodeP]? with
  | none => rw [hn] at h; simp at h
  | some node =>
    cases hnew : g.nodePs[newNodeP]? with
    | none => rw [hn, hnew] at h; simp at h
    | some newNode =>
      rw [hn, hnew] at h
      dsimp only at h
      cases hm : LocationGraph.movedSources beyond node.waterSourcesPs
          node.waterSourcesConnectionPoints with
      | none => rw [hm] at h; simp at h
      | some moved =>
        rw [hm] at h
        obtain ⟨movedPs, movedPoints⟩ := moved
        simp only [Option.some.injEq] at h
        refine ⟨node, newNode, rfl, rfl, ?_, ?_⟩
        · rw [← h]; rfl
        · rw [← h]
          simp only [LocationGraph.setNode, List.map_set]
          rfl

theorem separateNodeXShrink_place (separationX : CalcNumber) (nodeP newNodeP : Nat)
    (g g1 : LocationGraph)
    (h : LocationGraph.separateNodeXShrink separationX nodeP newNodeP g = some g1) :
    ∃ node, g.nodePs[nodeP]? = some node ∧ g1.pipeObjectsBagP = g.pipeObjectsBagP ∧
      g1.nodePs.map LocationGraphNode.place = (g.nodePs.map LocationGraphNode.place).set nodeP
        (placeWith node.left separationX node.bottom node.top
          (LocationGraph.keptDestination (fun point => decide (point.x > separationX)) node)) := by
  unfold LocationGraph.separateNodeXShrink at h
  cases hn : g.nodePs[nodeP]? with
  | none => rw [hn] at h; simp at h
  | some node =>
    rw [hn] at h
    dsimp only at h
    split at h
    · simp only [Option.some.injEq] at h
      refine ⟨node, rfl, ?_, ?_⟩
      · rw [← h]; rfl
      · rw [← h]
        simp only [LocationGraph.setNode, List.map_set]
        rfl
    · simp at h

theorem separateNodeYShrink_place (separationY : CalcNumber) (nodeP newNodeP : Nat)
    (g g1 : LocationGraph)
    (h : LocationGraph.separateNodeYShrink separationY nodeP newNodeP g = some g1) :
    ∃ node, g.nodePs[nodeP]? = some node ∧ g1.pipeObjectsBagP = g.pipeObjectsBagP ∧
      g1.nodePs.map LocationGraphNode.place = (g.nodePs.map LocationGraphNode.place).set nodeP
        (placeWith node.left node.right node.bottom separationY
          (LocationGraph.keptDestination (fun point => decide (point.y > separationY)) node)) := by
  unfold LocationGraph.separateNodeYShrink at h
  cases hn : g.nodePs[nodeP]? with
  | none => rw [hn] at h; simp at h
  | some node =>
    rw [hn] at h
    dsimp only at h
    split at h
    · simp only [Option.some.injEq] at h
      refine ⟨node, rfl, ?_, ?_⟩
      · rw [← h]; rfl
      · rw [← h]
        simp only [LocationGraph.setNode, List.map_set]
        rfl
    · simp at h

theorem separateNodeXCreate_place (separationX : CalcNumber) (nodeP : Nat) (g g1 : LocationGraph)
    (h : LocationGraph.separateNodeXCreate separationX nodeP g = some g1) :
    ∃ n, g.nodePs[nodeP]? = some n ∧ g1.pipeObjectsBagP = g.pipeObjectsBagP ∧
      g1.nodePs.map LocationGraphNode.place = g.nodePs.map LocationGraphNode.place
        ++ [placeWith separationX n.right n.bottom n.top none] := by
  simp only [LocationGraph.separateNodeXCreate, LocationGraph.generateNewNodeId] at h
  cases hn : g.nodePs[nodeP]? with
  | none => rw [hn] at h; simp at h
  | some n =>
    rw [hn] at h
    simp only [Option.some.injEq] at h
    refine ⟨n, rfl, ?_, ?_⟩
    · rw [← h]
    · rw [← h]
      simp only [List.map_append, List.map_cons, List.map_nil]
      rfl

theorem separateNodeYCreate_place (separationY : CalcNumber) (nodeP : Nat) (g g1 : LocationGraph)
    (h : LocationGraph.separateNodeYCreate separationY nodeP g = some g1) :
    ∃ n, g.nodePs[nodeP]? = some n ∧ g1.pipeObjectsBagP = g.pipeObjectsBagP ∧
      g1.nodePs.map LocationGraphNode.place = g.nodePs.map LocationGraphNode.place
        ++ [placeWith n.left n.right separationY n.top none] := by
  simp only [LocationGraph.separateNodeYCreate, LocationGraph.generateNewNodeId] at h
  cases hn : g.nodePs[nodeP]? with
  | none => rw [hn] at h; simp at h
  | some n =>
    rw [hn] at h
    simp only [Option.some.injEq] at h
    refine ⟨n, rfl, ?_, ?_⟩
    · rw [← h]
    · rw [← h]
      simp only [List.map_append, List.map_cons, List.map_nil]
      rfl

theorem separateNodeYLink_place (nodeP newNodeP : Nat) (g g1 : LocationGraph)
    (h : LocationGraph.separateNodeYLink nodeP newNodeP g = some g1) :
    g1.pipeObjectsBagP = g.pipeObjectsBagP ∧
      g1.nodePs.map LocationGraphNode.place = g.nodePs.map LocationGraphNode.place := by
  unfold LocationGraph.separateNodeYLink at h
  cases hn : g.nodePs[nodeP]? with
  | none => rw [hn] at h; simp at h
  | some node =>
    cases hnew : g.nodePs[newNodeP]? with
    | none => rw [hn, hnew] at h; simp at h
    | some newNode =>
      rw [hn, hnew] at h
      simp only [Option.some.injEq] at h
      rw [← h]
      exact ⟨rfl, map_place_set_same g.nodePs newNodeP newNode _ hnew rfl⟩

theorem getElem?_map_place (nodes : List LocationGraphNode) (p : Nat) (a : LocationGraphNode)
    (h : nodes[p]? = some a) : (nodes.map LocationGraphNode.place)[p]? = some a.place := by
  simp [h]

theorem place_eq (a b : LocationGraphNode) (h : a.place = b.place) :
    a.left = b.left ∧ a.right = b.right ∧ a.bottom = b.bottom ∧ a.top = b.top ∧
      a.waterDestinationP = b.waterDestinationP :=
  ⟨(congrArg LocationGraphNode.left h : a.place.left = b.place.left),
    (congrArg LocationGraphNode.right h : a.place.right = b.place.right),
    (congrArg LocationGraphNode.bottom h : a.place.bottom = b.place.bottom),
    (congrArg LocationGraphNode.top h : a.place.top = b.place.top),
    (congrArg LocationGraphNode.waterDestinationP h :
      a.place.waterDestinationP = b.place.waterDestinationP)⟩

/-- The rectangles and destinations of the nodes after the statements of a cut that follow
the creation of the new node: the new node has received the destination when its point lies
beyond the cut, and the cut node has kept it otherwise. -/
theorem cut_places (g g4 g5 g6 : LocationGraph) (nodeP : Nat) (n : LocationGraphNode)
    (beyond : Point → Bool) (cutLeft cutRight cutBottom cutTop : LocationGraphNode → CalcNumber)
    (newLeft newRight newBottom newTop : CalcNumber)
    (hcut : ∀ a b : LocationGraphNode, a.place = b.place →
      cutLeft a = cutLeft b ∧ cutRight a = cutRight b ∧ cutBottom a = cutBottom b ∧
        cutTop a = cutTop b)
    (hn : g.nodePs[nodeP]? = some n)
    (h4 : g4.nodePs.map LocationGraphNode.place = g.nodePs.map LocationGraphNode.place
      ++ [placeWith newLeft newRight newBottom newTop none])
    (h5 : LocationGraph.copyObjects beyond nodeP g.nodePs.length g4 = some g5)
    (h6 : ∃ node, g5.nodePs[nodeP]? = some node ∧
      g6.nodePs.map LocationGraphNode.place = (g5.nodePs.map LocationGraphNode.place).set nodeP
        (placeWith (cutLeft node) (cutRight node) (cutBottom node) (cutTop node)
          (LocationGraph.keptDestination beyond node))) :
    g6.nodePs.map LocationGraphNode.place
      = (g.nodePs.map LocationGraphNode.place).set nodeP
          (placeWith (cutLeft n) (cutRight n) (cutBottom n) (cutTop n)
            (LocationGraph.keptDestination beyond n))
        ++ [placeWith newLeft newRight newBottom newTop (movedDestination beyond n)] := by
  obtain ⟨hlt, _⟩ := List.getElem?_eq_some_iff.mp hn
  have hlen : (g.nodePs.map LocationGraphNode.place).length = g.nodePs.length := by simp
  obtain ⟨node4, newNode4, hn4, hnew4, _, hM5⟩ :=
    copyObjects_place beyond nodeP g.nodePs.length g4 g5 h5
  have c4 : node4.place = n.place := by
    have e1 := getElem?_map_place _ _ _ hn4
    rw [h4, List.getElem?_append_left (by rw [hlen]; exact hlt), getElem?_map_place _ _ _ hn]
      at e1
    exact (Option.some.inj e1).symm
  have cnew : newNode4.place = placeWith newLeft newRight newBottom newTop none := by
    have e1 := getElem?_map_place _ _ _ hnew4
    rw [h4, List.getElem?_append_right (by rw [hlen]), hlen] at e1
    simp only [Nat.sub_self, List.getElem?_cons_zero, Option.some.injEq] at e1
    exact e1.symm
  obtain ⟨node5, hn5, hM6⟩ := h6
  have c5 : node5.place = n.place := by
    have e1 := getElem?_map_place _ _ _ hn5
    rw [hM5, List.getElem?_set, if_neg (by omega), h4,
      List.getElem?_append_left (by rw [hlen]; exact hlt), getElem?_map_place _ _ _ hn] at e1
    exact (Option.some.inj e1).symm
  have d4 : node4.waterDestinationP = n.waterDestinationP :=
    (congrArg LocationGraphNode.waterDestinationP c4 :
      node4.place.waterDestinationP = n.place.waterDestinationP)
  have d5 : node5.waterDestinationP = n.waterDestinationP :=
    (congrArg LocationGraphNode.waterDestinationP c5 :
      node5.place.waterDestinationP = n.place.waterDestinationP)
  have b1 : newNode4.left = newLeft := congrArg LocationGraphNode.left cnew
  have b2 : newNode4.right = newRight := congrArg LocationGraphNode.right cnew
  have b3 : newNode4.bottom = newBottom := congrArg LocationGraphNode.bottom cnew
  have b4 : newNode4.top = newTop := congrArg LocationGraphNode.top cnew
  have b5 : newNode4.waterDestinationP = none :=
    congrArg LocationGraphNode.waterDestinationP cnew
  have k5 : LocationGraph.keptDestination beyond node5 = LocationGraph.keptDestination beyond n := by
    unfold LocationGraph.keptDestination
    rw [d5]
  obtain ⟨e1, e2, e3, e4⟩ := hcut node5 n c5
  rw [hM6, hM5, h4, b1, b2, b3, b4, b5, d4, k5, e1, e2, e3, e4]
  rw [List.set_append_right _ _ (by rw [hlen]), hlen]
  simp only [Nat.sub_self, List.set_cons_zero]
  rw [List.set_append_left _ _ (by rw [hlen]; exact hlt)]
  rfl

/-- The rectangles and destinations of the nodes after a cut: the node at `nodeP` keeps its
left or bottom part, with the destination when its point does not lie beyond the cut, the
new node, appended to the list, is the other part, with the destination when its point lies
beyond the cut, and the other nodes keep their rectangles and destinations. The catalog is
not changed. -/
theorem separateNode_place (g g' : LocationGraph) (nodeP : Nat) (separation : Separation)
    (h : g.separateNode nodeP separation = some g') :
    ∃ n, g.nodePs[nodeP]? = some n ∧ g'.pipeObjectsBagP = g.pipeObjectsBagP ∧
      g'.nodePs.map LocationGraphNode.place
        = match separation with
          | .alongX separationX =>
            (g.nodePs.map LocationGraphNode.place).set nodeP
                (placeWith n.left separationX n.bottom n.top
                  (LocationGraph.keptDestination (fun point => decide (point.x > separationX))
                    n))
              ++ [placeWith separationX n.right n.bottom n.top
                (movedDestination (fun point => decide (point.x > separationX)) n)]
          | .alongY separationY =>
            (g.nodePs.map LocationGraphNode.place).set nodeP
                (placeWith n.left n.right n.bottom separationY
                  (LocationGraph.keptDestination (fun point => decide (point.y > separationY))
                    n))
              ++ [placeWith n.left n.right separationY n.top
                (movedDestination (fun point => decide (point.y > separationY)) n)] := by
  cases separation with
  | alongX separationX =>
    simp only [LocationGraph.separateNode, LocationGraph.separateNodeX,
      Option.bind_eq_some] at h
    obtain ⟨g1, h1, rs, _, g2, h2, bs, _, g3, h3, ts, _, g4, h4, g5, h5, h6⟩ := h
    obtain ⟨n, hn, hb1, hM1⟩ := separateNodeXCreate_place separationX nodeP g g1 h1
    obtain ⟨hb2, hM2⟩ := redirectAll_place _ _ _ _ g1 g2 h2
    obtain ⟨hb3, hM3⟩ := moveNeighbours_place _ _ _ _ _ _ g2 g3 h3
    obtain ⟨hb4, hM4⟩ := moveNeighbours_place _ _ _ _ _ _ g3 g4 h4
    obtain ⟨_, _, _, _, hb5, _⟩ := copyObjects_place _ _ _ g4 g5 h5
    obtain ⟨node5, hn5, hb6, hM6⟩ := separateNodeXShrink_place separationX nodeP _ g5 g' h6
    refine ⟨n, hn, ?_, ?_⟩
    · rw [hb6, hb5, hb4, hb3, hb2, hb1]
    · exact cut_places g g4 g5 g' nodeP n (fun point => decide (point.x > separationX))
        LocationGraphNode.left (fun _ => separationX) LocationGraphNode.bottom
        LocationGraphNode.top separationX n.right n.bottom n.top
        (fun a b hab => ⟨(place_eq a b hab).1, rfl, (place_eq a b hab).2.2.1,
          (place_eq a b hab).2.2.2.1⟩)
        hn (by rw [hM4, hM3, hM2, hM1]) h5 ⟨node5, hn5, hM6⟩
  | alongY separationY =>
    simp only [LocationGraph.separateNode, LocationGraph.separateNodeY,
      Option.bind_eq_some] at h
    obtain ⟨g1, h1, ls, _, g2, h2, rs, _, g3, h3, g4, h4, ts, _, g5, h5, g6, h6, h7⟩ := h
    obtain ⟨n, hn, hb1, hM1⟩ := separateNodeYCreate_place separationY nodeP g g1 h1
    obtain ⟨hb2, hM2⟩ := moveNeighbours_place _ _ _ _ _ _ g1 g2 h2
    obtain ⟨hb3, hM3⟩ := moveNeighbours_place _ _ _ _ _ _ g2 g3 h3
    obtain ⟨hb4, hM4⟩ := separateNodeYLink_place _ _ g3 g4 h4
    obtain ⟨hb5, hM5⟩ := redirectAll_place _ _ _ _ g4 g5 h5
    obtain ⟨_, _, _, _, hb6, _⟩ := copyObjects_place _ _ _ g5 g6 h6
    obtain ⟨node6, hn6, hb7, hM7⟩ := separateNodeYShrink_place separationY nodeP _ g6 g' h7
    refine ⟨n, hn, ?_, ?_⟩
    · rw [hb7, hb6, hb5, hb4, hb3, hb2, hb1]
    · exact cut_places g g5 g6 g' nodeP n (fun point => decide (point.y > separationY))
        LocationGraphNode.left LocationGraphNode.right LocationGraphNode.bottom
        (fun _ => separationY) n.left n.right separationY n.top
        (fun a b hab => ⟨(place_eq a b hab).1, (place_eq a b hab).2.1,
          (place_eq a b hab).2.2.1, rfl⟩)
        hn (by rw [hM5, hM4, hM3, hM2, hM1]) h6 ⟨node6, hn6, hM7⟩

/-- A cut that the loop over the sorted coordinates accepts for a node with a destination
lies outside the interval of the radius that the code computes around the coordinate of the
destination. -/
theorem findSeparation_avoids (g : LocationGraph) (c : CalcNumber) (diameter : Nat)
    (rd : CalcNumber) (hrd : g.externalDiameterHalfed diameter = some rd) :
    ∀ (l : List CalcNumber) (s : CalcNumber),
      LocationGraph.findSeparation g (some (c, diameter)) l = some (some s) →
      s < c - rd ∨ s > c + rd
  | [], s, h => by simp [LocationGraph.findSeparation] at h
  | [_], s, h => by simp [LocationGraph.findSeparation] at h
  | x :: y :: rest, s, h => by
    rw [LocationGraph.findSeparation] at h
    by_cases hg : y - x ≥ g.optimizationParametersP.minSourceDistanceToSeparate
    · rw [if_pos hg] at h
      dsimp only at h
      rw [hrd] at h
      dsimp only at h
      by_cases hout : (x + y) / 2 < c - rd ∨ (x + y) / 2 > c + rd
      · rw [if_pos hout] at h
        simp only [Option.some.injEq] at h
        rw [← h]
        exact hout
      · rw [if_neg hout] at h
        exact findSeparation_avoids g c diameter rd hrd (y :: rest) s h
    · rw [if_neg hg] at h
      exact findSeparation_avoids g c diameter rd hrd (y :: rest) s h

theorem nodeSeparation_avoids (g : LocationGraph) (n : LocationGraphNode)
    (separation : Separation) (d : WaterDestination) (rd : CalcNumber)
    (h : LocationGraph.nodeSeparation g n = some (some separation))
    (hd : n.waterDestinationP = some d) (hrd : g.externalDiameterHalfed d.diameter = some rd) :
    separation.AvoidsFootprint d rd := by
  unfold LocationGraph.nodeSeparation at h
  split at h
  · cases hx : LocationGraph.findSeparationX g n with
    | none => rw [hx] at h; simp at h
    | some sx =>
      rw [hx] at h
      cases sx with
      | some s =>
        simp only [Option.some.injEq] at h
        subst h
        unfold LocationGraph.findSeparationX at hx
        dsimp only at hx
        split at hx
        · rw [hd] at hx
          exact findSeparation_avoids g d.point.x d.diameter rd hrd _ s hx
        · simp at hx
      | none =>
        dsimp only at h
        cases hy : LocationGraph.findSeparationY g n with
        | none => rw [hy] at h; simp at h
        | some sy =>
          rw [hy] at h
          cases sy with
          | none => simp at h
          | some s =>
            simp only [Option.some.injEq] at h
            subst h
            unfold LocationGraph.findSeparationY at hy
            dsimp only at hy
            split at hy
            · rw [hd] at hy
              exact findSeparation_avoids g d.point.y d.diameter rd hrd _ s hy
            · simp at hy
  · simp at h

theorem destinationInside_map_place (nodes : List LocationGraphNode) (p : Nat)
    (d : WaterDestination) (rd : CalcNumber) :
    DestinationInside (nodes.map LocationGraphNode.place) p d rd
      ↔ DestinationInside nodes p d rd := by
  unfold DestinationInside
  simp only [List.getElem?_map, Option.map_eq_some']
  constructor
  · rintro ⟨⟨n, ⟨a, ha, e⟩, hd, hbox⟩, huniq⟩
    subst e
    exact ⟨⟨a, ha, hd, hbox⟩, fun q m hm hne => huniq q m.place ⟨m, hm, rfl⟩ hne⟩
  · rintro ⟨⟨n, hn, hd, hbox⟩, huniq⟩
    refine ⟨⟨n.place, ⟨n, hn, rfl⟩, hd, hbox⟩, ?_⟩
    rintro q m ⟨a, ha, e⟩ hne
    subst e
    exact huniq q a ha hne

/-- A cut keeps the destination in exactly one node, with its footprint inside the node:
the node at `nodeP` is replaced by `cutNode`, which keeps the destination when its point
does not lie beyond the cut, and `newNode`, which receives it otherwise, is appended. -/
theorem destinationInside_cut (nodes : List LocationGraphNode) (p nodeP : Nat)
    (d : WaterDestination) (rd : CalcNumber) (n cutNode newNode : LocationGraphNode)
    (beyond : Point → Bool) (hinside : DestinationInside nodes p d rd)
    (hn : nodes[nodeP]? = some n)
    (hkept : cutNode.waterDestinationP = LocationGraph.keptDestination beyond n)
    (hmoved : newNode.waterDestinationP = movedDestination beyond n)
    (hbox : n.waterDestinationP = some d → FootprintInside d rd n →
      (beyond d.point = true → FootprintInside d rd newNode) ∧
        (beyond d.point = false → FootprintInside d rd cutNode)) :
    ∃ p1, DestinationInside (nodes.set nodeP cutNode ++ [newNode]) p1 d rd := by
  obtain ⟨⟨n0, hn0, hd0, hbox0⟩, huniq⟩ := hinside
  obtain ⟨hlt, _⟩ := List.getElem?_eq_some_iff.mp hn
  obtain ⟨hplt, _⟩ := List.getElem?_eq_some_iff.mp hn0
  have hget : ∀ (q : Nat) (m : LocationGraphNode),
      (nodes.set nodeP cutNode ++ [newNode])[q]? = some m →
      (q = nodeP ∧ m = cutNode) ∨ (q ≠ nodeP ∧ nodes[q]? = some m) ∨
        (q = nodes.length ∧ m = newNode) := by
    intro q m hm
    by_cases hq : q < nodes.length
    · rw [List.getElem?_append_left (by simpa using hq), List.getElem?_set] at hm
      by_cases e : nodeP = q
      · rw [if_pos e] at hm
        simp only [hlt, ↓reduceIte, Option.some.injEq] at hm
        exact Or.inl ⟨e.symm, hm.symm⟩
      · rw [if_neg e] at hm
        exact Or.inr (Or.inl ⟨fun h => e h.symm, hm⟩)
    · rw [List.getElem?_append_right (by simpa using hq)] at hm
      simp only [List.length_set] at hm
      cases hk : q - nodes.length with
      | zero =>
        rw [hk] at hm
        simp only [List.getElem?_cons_zero, Option.some.injEq] at hm
        exact Or.inr (Or.inr ⟨by omega, hm.symm⟩)
      | succ k =>
        rw [hk] at hm
        simp at hm
  have hnew : (nodes.set nodeP cutNode ++ [newNode])[nodes.length]? = some newNode := by
    rw [List.getElem?_append_right (by simp)]
    simp
  have hcutget : (nodes.set nodeP cutNode ++ [newNode])[nodeP]? = some cutNode := by
    rw [List.getElem?_append_left (by simpa using hlt), List.getElem?_set_self hlt]
  by_cases hp : nodeP = p
  · subst hp
    rw [hn] at hn0
    have e := Option.some.inj hn0
    subst e
    obtain ⟨hb1, hb2⟩ := hbox hd0 hbox0
    cases hb : beyond d.point with
    | true =>
      have k1 : cutNode.waterDestinationP = none := by
        rw [hkept]
        simp [LocationGraph.keptDestination, hd0, hb]
      have k2 : newNode.waterDestinationP = some d := by
        rw [hmoved]
        simp [movedDestination, hd0, hb]
      refine ⟨nodes.length, ⟨newNode, hnew, k2, hb1 hb⟩, ?_⟩
      intro q m hm hne
      rcases hget q m hm with ⟨_, e⟩ | ⟨hq, hm2⟩ | ⟨hq, _⟩
      · rw [e, k1] at hne
        exact absurd rfl hne
      · exact absurd (huniq q m hm2 hne) hq
      · exact hq
    | false =>
      have k1 : cutNode.waterDestinationP = some d := by
        rw [hkept]
        simp [LocationGraph.keptDestination, hd0, hb]
      have k2 : newNode.waterDestinationP = none := by
        rw [hmoved]
        simp [movedDestination, hd0, hb]
      refine ⟨nodeP, ⟨cutNode, hcutget, k1, hb2 hb⟩, ?_⟩
      intro q m hm hne
      rcases hget q m hm with ⟨hq, _⟩ | ⟨hq, hm2⟩ | ⟨_, e⟩
      · exact hq
      · exact huniq q m hm2 hne
      · rw [e, k2] at hne
        exact absurd rfl hne
  · have hnone : n.waterDestinationP = none := by
      by_contra hne
      exact hp (huniq nodeP n hn hne)
    have k1 : cutNode.waterDestinationP = none := by
      rw [hkept]
      simp [LocationGraph.keptDestination, hnone]
    have k2 : newNode.waterDestinationP = none := by
      rw [hmoved]
      simp [movedDestination, hnone]
    refine ⟨p, ⟨n0, ?_, hd0, hbox0⟩, ?_⟩
    · rw [List.getElem?_append_left (by simpa using hplt), List.getElem?_set_ne hp]
      exact hn0
    · intro q m hm hne
      rcases hget q m hm with ⟨_, e⟩ | ⟨hq, hm2⟩ | ⟨_, e⟩
      · rw [e, k1] at hne
        exact absurd rfl hne
      · exact huniq q m hm2 hne
      · rw [e, k2] at hne
        exact absurd rfl hne

/-- A cut made by `separateWaterSources` keeps the destination in exactly one node with its
footprint inside the node, and a cut of the node of the destination avoids the footprint. -/
theorem separateNode_destination (g g1 : LocationGraph) (p nodeP : Nat) (d : WaterDestination)
    (rd : CalcNumber) (n : LocationGraphNode) (separation : Separation)
    (hinside : DestinationInside g.nodePs p d rd)
    (hrd : g.externalDiameterHalfed d.diameter = some rd)
    (hn : g.nodePs[nodeP]? = some n)
    (hsep : LocationGraph.nodeSeparation g n = some (some separation))
    (h : g.separateNode nodeP separation = some g1) :
    (∃ p1, DestinationInside g1.nodePs p1 d rd) ∧
      g1.externalDiameterHalfed d.diameter = some rd ∧
      (n.waterDestinationP ≠ none → separation.AvoidsFootprint d rd) := by
  have h0 := externalDiameterHalfed_nonneg g _ rd hrd
  have havoid : n.waterDestinationP ≠ none → separation.AvoidsFootprint d rd := by
    intro hne
    have e : nodeP = p := hinside.2 nodeP n hn hne
    obtain ⟨⟨n0, hn0, hd0, _⟩, _⟩ := hinside
    rw [← e, hn] at hn0
    rw [Option.some.inj hn0] at hsep
    exact nodeSeparation_avoids g n0 separation d rd hsep hd0 hrd
  obtain ⟨n1, hn1, hbag, hM⟩ := separateNode_place g g1 nodeP separation h
  rw [hn] at hn1
  have e := Option.some.inj hn1
  subst e
  refine ⟨?_, ?_, havoid⟩
  · have hplace := (destinationInside_map_place g.nodePs p d rd).mpr hinside
    have hnp := getElem?_map_place g.nodePs nodeP n hn
    cases separation with
    | alongX s =>
      dsimp only at hM
      obtain ⟨p1, hp1⟩ := destinationInside_cut _ p nodeP d rd n.place
        (placeWith n.left s n.bottom n.top
          (LocationGraph.keptDestination (fun point => decide (point.x > s)) n))
        (placeWith s n.right n.bottom n.top
          (movedDestination (fun point => decide (point.x > s)) n))
        (fun point => decide (point.x > s)) hplace hnp rfl rfl
        (by
          intro hd hbox
          have ha : s < d.point.x - rd ∨ s > d.point.x + rd :=
            havoid (by have e : n.waterDestinationP = some d := hd; rw [e]; simp)
          obtain ⟨b1, b2, b3, b4⟩ := hbox
          constructor
          · intro hb
            have hb' : d.point.x > s := by simpa using hb
            refine ⟨?_, b2, b3, b4⟩
            show s ≤ d.point.x - rd
            rcases ha with ha | ha
            · exact le_of_lt ha
            · linarith
          · intro hb
            have hb' : ¬ d.point.x > s := by simpa using hb
            refine ⟨b1, ?_, b3, b4⟩
            show d.point.x + rd ≤ s
            rcases ha with ha | ha
            · linarith
            · exact le_of_lt ha)
      rw [← hM] at hp1
      exact ⟨p1, (destinationInside_map_place _ _ _ _).mp hp1⟩
    | alongY s =>
      dsimp only at hM
      obtain ⟨p1, hp1⟩ := destinationInside_cut _ p nodeP d rd n.place
        (placeWith n.left n.right n.bottom s
          (LocationGraph.keptDestination (fun point => decide (point.y > s)) n))
        (placeWith n.left n.right s n.top
          (movedDestination (fun point => decide (point.y > s)) n))
        (fun point => decide (point.y > s)) hplace hnp rfl rfl
        (by
          intro hd hbox
          have ha : s < d.point.y - rd ∨ s > d.point.y + rd :=
            havoid (by have e : n.waterDestinationP = some d := hd; rw [e]; simp)
          obtain ⟨b1, b2, b3, b4⟩ := hbox
          constructor
          · intro hb
            have hb' : d.point.y > s := by simpa using hb
            refine ⟨b1, b2, ?_, b4⟩
            show s ≤ d.point.y - rd
            rcases ha with ha | ha
            · exact le_of_lt ha
            · linarith
          · intro hb
            have hb' : ¬ d.point.y > s := by simpa using hb
            refine ⟨b1, b2, b3, ?_⟩
            show d.point.y + rd ≤ s
            rcases ha with ha | ha
            · linarith
            · exact le_of_lt ha)
      rw [← hM] at hp1
      exact ⟨p1, (destinationInside_map_place _ _ _ _).mp hp1⟩
  · unfold LocationGraph.externalDiameterHalfed at hrd ⊢
    rw [hbag]
    exact hrd

/-- The loop of `separateWaterSources` keeps the destination in exactly one node with its
footprint inside the node, and no cut of a node with the destination meets the footprint. -/
theorem separateWaterSourcesLoop_destination (d : WaterDestination) (rd : CalcNumber)
    (fuel : Nat) :
    ∀ (g g' : LocationGraph) (u : Unit) (p : Nat),
      LocationGraph.separateWaterSourcesLoop fuel g = some (.ok u g') →
      DestinationInside g.nodePs p d rd → g.externalDiameterHalfed d.diameter = some rd →
      (∃ p1, DestinationInside g'.nodePs p1 d rd) ∧
        ∀ cut ∈ g.cutsMade fuel, cut.1.waterDestinationP ≠ none →
          cut.2.AvoidsFootprint d rd := by
  induction fuel with
  | zero => intro g g' u p h; simp [LocationGraph.separateWaterSourcesLoop] at h
  | succ fuel ih =>
    intro g g' u p h hinside hrd
    unfold LocationGraph.separateWaterSourcesLoop at h
    unfold LocationGraph.cutsMade
    cases hf : LocationGraph.findNodeToSeparate g g.nodePs 0 with
    | none => rw [hf] at h; simp at h
    | some found =>
      rw [hf] at h
      cases found with
      | none =>
        simp only [Option.some.injEq, Outcome.ok.injEq] at h
        rw [← h.2]
        exact ⟨⟨p, hinside⟩, fun cut hcut => by cases hcut⟩
      | some ps =>
        obtain ⟨nodeP, separation⟩ := ps
        dsimp only at h ⊢
        obtain ⟨n, _, hn, hsep⟩ := findNodeToSeparate_some g g.nodePs 0 nodeP separation hf
        rw [Nat.sub_zero] at hn
        cases hcut : g.separateNode nodeP separation with
        | none => rw [hcut] at h; simp at h
        | some g1 =>
          rw [hcut] at h
          rw [hn]
          dsimp only
          obtain ⟨⟨p1, hp1⟩, hrd1, havoid⟩ :=
            separateNode_destination g g1 p nodeP d rd n separation hinside hrd hn hsep hcut
          obtain ⟨hres, hcuts⟩ := ih g1 g' u p1 h hp1 hrd1
          refine ⟨hres, ?_⟩
          intro cut hmem hne
          rcases List.mem_cons.mp hmem with e | hmem2
          · subst e
            exact havoid hne
          · exact hcuts cut hmem2 hne

/-- The loop of `recalculateWaterDestinationNodeP` ends with the address of the only node
that has a destination attached. -/
theorem recalculateLoop_unique :
    ∀ (nodes : List LocationGraphNode) (k p : Nat) (result : Option Nat)
      (n : LocationGraphNode), nodes[p]? = some n → n.waterDestinationP ≠ none →
      (∀ (q : Nat) (m : LocationGraphNode), nodes[q]? = some m → m.waterDestinationP ≠ none →
        q = p) →
      LocationGraph.recalculateLoop nodes k result = some (k + p)
  | [], k, p, result, n, hn, _, _ => by simp at hn
  | node :: rest, k, p, result, n, hn, hd, huniq => by
    have hnone : ∀ (nodes : List LocationGraphNode) (k : Nat) (result : Option Nat),
        (∀ m ∈ nodes, m.waterDestinationP = none) →
        LocationGraph.recalculateLoop nodes k result = result := by
      intro nodes
      induction nodes with
      | nil => intro k result _; rfl
      | cons m rest ih =>
        intro k result hall
        unfold LocationGraph.recalculateLoop
        rw [if_neg (by rw [hall m (List.mem_cons_self _ _)]; simp)]
        exact ih (k + 1) result (fun m' hm' => hall m' (List.mem_cons_of_mem _ hm'))
    unfold LocationGraph.recalculateLoop
    cases p with
    | zero =>
      simp only [List.getElem?_cons_zero, Option.some.injEq] at hn
      subst hn
      rw [if_pos hd]
      rw [hnone rest (k + 1) (some k)]
      · rfl
      · intro m hm
        by_contra hne
        obtain ⟨q, hq⟩ := List.mem_iff_getElem?.mp hm
        have := huniq (q + 1) m (by simpa using hq) hne
        omega
    | succ p =>
      have hnode : node.waterDestinationP = none := by
        by_contra hne
        have := huniq 0 node (by simp) hne
        omega
      rw [if_neg (by rw [hnode]; simp)]
      rw [recalculateLoop_unique rest (k + 1) p result n (by simpa using hn) hd
        (fun q m hm hne => by
          have := huniq (q + 1) m (by simpa using hm) hne
          omega)]
      congr 1
      omega

/-- The destination after `separateWaterSources`, with the radius that the code computes: let
exactly one node have the destination `d` attached before
`separateWaterSources`, with the footprint box of `d` inside that node, the box of the radius
`rd` around the point of `d`, where `rd` is the external diameter of `d` divided by 2 as the
code divides; for an even external diameter `rd` is its exact half. When
`separateWaterSources` returns, exactly one node has a destination attached, the destination
is `d`, its footprint box lies inside that node, and `waterDestinationNodeP` is the address
of that node. Every cut made in a node with the destination has its line outside the closed
interval of radius `rd` around the coordinate of the destination. -/
theorem separateWaterSources_destination_inside_code_radius (fuel : Nat) (g g' : LocationGraph)
    (p : Nat) (d : WaterDestination) (rd : CalcNumber)
    (h : g.separateWaterSources fuel = some (.ok () g'))
    (hrd : g.externalDiameterHalfed d.diameter = some rd)
    (hinside : DestinationInside g.nodePs p d rd) :
    ∃ p1, DestinationInside g'.nodePs p1 d rd ∧ g'.waterDestinationNodeP = some p1 ∧
      (∀ cut ∈ g.cutsMade fuel, cut.1.waterDestinationP ≠ none →
        cut.2.AvoidsFootprint d rd) ∧
      (∀ ext, g.pipeObjectsBagP.getExternalDiameter d.diameter = some ext → ext % 2 = 0 →
        rd = (ext : CalcNumber) / 2) := by
  obtain ⟨g1, u1, hl, e⟩ := separateWaterSources_ok fuel g g' () h
  obtain ⟨⟨p1, hp1⟩, hcuts⟩ :=
    separateWaterSourcesLoop_destination d rd fuel g g1 u1 p hl hinside hrd
  refine ⟨p1, ?_, ?_, hcuts, ?_⟩
  · rw [e]
    exact hp1
  · rw [e]
    obtain ⟨⟨n, hn, hd, _⟩, huniq⟩ := hp1
    have := recalculateLoop_unique g1.nodePs 0 p1 g1.waterDestinationNodeP n hn
      (by rw [hd]; simp) huniq
    rw [Nat.zero_add] at this
    exact this
  · intro ext hext heven
    unfold LocationGraph.externalDiameterHalfed at hrd
    rw [hext] at hrd
    simp only [Option.map_some', Option.some.injEq] at hrd
    have := (two_mul_half_nat ext).2 heven
    rw [← hrd]
    linarith

/-! ## The clearance radius of an odd external diameter -/

theorem oddStripGraphAttached_destinationInside :
    DestinationInside oddStripGraphAttached.nodePs 0 oddStripObjects.waterDestination
      (61 / 2) := by
  refine ⟨⟨_, rfl, rfl, by unfold FootprintInside; decide!⟩, ?_⟩
  intro q m hm _
  cases q with
  | zero => rfl
  | succ q => simp [oddStripGraphAttached] at hm

/-- C31, the code against its documentation: `separateWaterSources` makes a cut that crosses
the destination with its external diameter. The radius of the destination is computed by a
division of `unsigned int`; with that radius `rd` the property holds for every run that
returns: when exactly one node has the destination attached and holds the box of radius `rd`
around its point, the same is true afterwards, `waterDestinationNodeP` is that node, no cut
of a node with the destination meets the interval of radius `rd`, and `rd` is the half of an
even external diameter. For the odd external diameter 61 the radius is 30 instead of 30.5: in
`oddStripGraph` the destination at `(500, 50)` lies with its footprint
`[469.5, 530.5] x [19.5, 80.5]` inside the node `[0, 1000] x [0, 100]`, the sources enter at
`x = 380` and `x = 680.5`, and the node is cut along `x = 530.25`, through the footprint:
afterwards the destination is attached to the node `[0, 530.25] x [0, 100]`, and no node
holds its footprint. -/
theorem separateWaterSources_cuts_through_footprint :
    (∀ (fuel : Nat) (g g' : LocationGraph) (p : Nat) (d : WaterDestination) (rd : CalcNumber),
      g.separateWaterSources fuel = some (.ok () g') →
      g.externalDiameterHalfed d.diameter = some rd →
      DestinationInside g.nodePs p d rd →
      ∃ p1, DestinationInside g'.nodePs p1 d rd ∧ g'.waterDestinationNodeP = some p1 ∧
        (∀ cut ∈ g.cutsMade fuel, cut.1.waterDestinationP ≠ none →
          cut.2.AvoidsFootprint d rd) ∧
        (∀ ext, g.pipeObjectsBagP.getExternalDiameter d.diameter = some ext → ext % 2 = 0 →
          rd = (ext : CalcNumber) / 2)) ∧
    oddStripGraph.addWaterConnectionObjects oddStripObjects = .ok () oddStripGraphAttached ∧
    oddStripGraphAttached.pipeObjectsBagP.getExternalDiameter 50 = some 61 ∧
    oddStripGraphAttached.externalDiameterHalfed 50 = some 30 ∧
    DestinationInside oddStripGraphAttached.nodePs 0 oddStripObjects.waterDestination
      (61 / 2) ∧
    oddStripGraphAttached.separateWaterSources 2 = some (.ok () oddStripGraphSplit) ∧
    (oddStripGraphAttached.cutsMade 2).map Prod.snd = [.alongX (2121 / 4)] ∧
    ¬ (Separation.alongX (2121 / 4)).AvoidsFootprint oddStripObjects.waterDestination
      (61 / 2) ∧
    oddStripGraphSplit.waterDestinationNodeP = some 0 ∧
    oddStripGraphSplit.nodePs.map
        (fun n => (n.left, n.right, n.bottom, n.top, n.waterDestinationP))
      = [(0, 2121 / 4, 0, 100, some oddStripObjects.waterDestination),
        (2121 / 4, 1000, 0, 100, none)] ∧
    ∀ n ∈ oddStripGraphSplit.nodePs,
      ¬ FootprintInside oddStripObjects.waterDestination (61 / 2) n := by
  refine ⟨?_, by decide!, by decide!, by decide!, oddStripGraphAttached_destinationInside,
    by decide!, by decide!, ?_, rfl, by decide!, ?_⟩
  · intro fuel g g' p d rd h hrd hinside
    exact separateWaterSources_destination_inside_code_radius fuel g g' p d rd h hrd hinside
  · unfold Separation.AvoidsFootprint
    decide!
  · intro n hn
    simp only [oddStripGraphSplit, List.mem_cons, List.mem_singleton, List.not_mem_nil,
      or_false] at hn
    rcases hn with e | e <;> subst e <;> unfold FootprintInside <;> decide!

/-- C33, the code against its documentation: the points of the polyline are set off from the
borders and clamped with the clearance radius, documented as the half of the external
diameter of the source, which the code computes by a division of `unsigned int`. With that
radius `r` the points are those of the claim: the polyline of an accepted path starts with
the entry point of the source, has one point more than the path has nodes, and the point
behind every border is `crossingPoint` for `r`; `r` is the half of an even external diameter.
For the odd external diameter 61 it is 30 instead of 30.5: in `oddWideFinder`, whose nodes
share the x-range `[300, 500]` of width 200, the polyline crosses the border `y = 500` in
`(330, 530)`, where the half of the external diameter gives `(330.5, 530.5)`. -/
theorem zigzag_crossing_uses_truncated_radius :
    (∀ (sqrt : CalcNumber → CalcNumber) (self : OptimalPipeTrackFinder)
        (pathFromSourceToPipeTrack : List Nat) (pipeTrack : PipeTrack) (sourceP : Nat)
        (waterSource : WaterSource) (pipeTrackNodesForLocationNode : List (List Nat))
        (zigzag : List Point) (nodeP : Option Nat) (externalDiameter sourceLocationNodeP : Nat)
        (sourceLocationNode : LocationGraphNode) (entry : Point),
      self.findMinPseudoLengthZigzagFromSourceToPipeTrackAndPipeTrackNodeP sqrt
          pathFromSourceToPipeTrack pipeTrack sourceP waterSource pipeTrackNodesForLocationNode
        = some (zigzag, nodeP) →
      zigzag ≠ [] →
      self.pipeObjectsBag.getExternalDiameter waterSource.diameter = some externalDiameter →
      pathFromSourceToPipeTrack.head? = some sourceLocationNodeP →
      self.locationGraph.nodePs[sourceLocationNodeP]? = some sourceLocationNode →
      sourceLocationNode.waterSourcesConnectionPoints.length
        = sourceLocationNode.waterSourcesPs.length →
      sourceLocationNode.entryPointsOf sourceP = [entry] →
      zigzag[0]? = some entry ∧ zigzag.length = pathFromSourceToPipeTrack.length + 1 ∧
        ∀ i currentNodeP nextNodeP currentNode nextNode,
          PathStep self.locationGraph pathFromSourceToPipeTrack i currentNodeP nextNodeP
            currentNode nextNode →
          ∃ previous, zigzag[i]? = some previous ∧
            zigzag[i + 1]? = some
              (crossingPoint ((externalDiameter / 2 : Nat) : CalcNumber) currentNode nextNode
                nextNodeP previous)) ∧
    (∀ externalDiameter : Nat, externalDiameter % 2 = 0 →
      ((externalDiameter / 2 : Nat) : CalcNumber) = (externalDiameter : CalcNumber) / 2) ∧
    oddWideFinder.pipeObjectsBag.getExternalDiameter 50 = some 61 ∧
    PathStep oddWideFinder.locationGraph [0, 1] 0 0 1 oddPassageBottomNode oddWideTopNode ∧
    sharedWidth oddPassageBottomNode oddWideTopNode 1 = 200 ∧
    oddWideFinder.findMinPseudoLengthZigzagFromSourceToPipeTrackAndPipeTrackNodeP exactSqrt
        [0, 1] PipeTrack.new 0 ⟨"S1", ⟨100, 100, 0⟩, 50, 0⟩ [[], []]
      = some ([⟨100, 100, 0⟩, ⟨330, 530, 0⟩, ⟨630, 930, 0⟩], none) ∧
    crossingPoint ((61 / 2 : Nat) : CalcNumber) oddPassageBottomNode oddWideTopNode 1
      ⟨100, 100, 0⟩ = ⟨330, 530, 0⟩ ∧
    crossingPoint ((61 : CalcNumber) / 2) oddPassageBottomNode oddWideTopNode 1 ⟨100, 100, 0⟩
      = ⟨661 / 2, 1061 / 2, 0⟩ := by
  refine ⟨?_, ?_, rfl, ⟨rfl, rfl, rfl, rfl⟩, by decide!, by decide!, by decide!, by decide!⟩
  · intro sqrt self path pipeTrack sourceP waterSource lists zigzag nodeP externalDiameter
      sourceLocationNodeP sourceLocationNode entry h hne hext hhead hnode hpaired hentry
    exact zigzag_points_code_radius sqrt self path pipeTrack sourceP waterSource lists zigzag
      nodeP externalDiameter sourceLocationNodeP sourceLocationNode entry h hne hext hhead
      hnode hpaired hentry
  · intro externalDiameter heven
    have := (two_mul_half_nat externalDiameter).2 heven
    linarith

/-- C34, the code against its documentation: a path is given up for lack of clearance when a
border is narrower than `2 * r` for the clearance radius `r`, documented as the half of the
external diameter of the source, which the code computes by a division of `unsigned int`.
With that radius the claim holds: a call that returns gives the path up exactly when two
consecutive nodes share a range narrower than `2 * r`, and a range of the width `2 * r`
exactly is accepted with the crossing coordinate `lo + r = hi - r`; `2 * r` is the external
diameter when that is even. For the odd external diameter 61 the radius is 30 instead of
30.5: in `oddSideFinder` the two nodes share the y-range `[440, 500]` of width 60, narrower
than `2 * 30.5`, and the path is not given up: the polyline crosses the border in
`(530, 470)`. -/
theorem zigzag_accepts_border_narrower_than_two_radii :
    (∀ (sqrt : CalcNumber → CalcNumber) (self : OptimalPipeTrackFinder)
        (pathFromSourceToPipeTrack : List Nat) (pipeTrack : PipeTrack) (sourceP : Nat)
        (waterSource : WaterSource) (pipeTrackNodesForLocationNode : List (List Nat))
        (result : Zigzag) (externalDiameter : Nat) (r : CalcNumber),
      self.findMinPseudoLengthZigzagFromSourceToPipeTrackAndPipeTrackNodeP sqrt
          pathFromSourceToPipeTrack pipeTrack sourceP waterSource pipeTrackNodesForLocationNode
        = some result →
      self.pipeObjectsBag.getExternalDiameter waterSource.diameter = some externalDiameter →
      r = ((externalDiameter / 2 : Nat) : CalcNumber) →
      ∃ zigzag0 : List Point,
        (OptimalPipeTrackFinder.zigzagAlongPath self.locationGraph r pathFromSourceToPipeTrack
            zigzag0 = some none ↔
          ∃ i currentNodeP nextNodeP currentNode nextNode,
            PathStep self.locationGraph pathFromSourceToPipeTrack i currentNodeP nextNodeP
              currentNode nextNode ∧
            sharedWidth currentNode nextNode nextNodeP < 2 * r) ∧
        (OptimalPipeTrackFinder.zigzagAlongPath self.locationGraph r pathFromSourceToPipeTrack
            zigzag0 = some none → result = ([], none)) ∧
        (OptimalPipeTrackFinder.zigzagAlongPath self.locationGraph r pathFromSourceToPipeTrack
            zigzag0 ≠ some none →
          ∃ out lastAddedPoint endNodeP endNode,
            OptimalPipeTrackFinder.zigzagAlongPath self.locationGraph r
              pathFromSourceToPipeTrack zigzag0 = some (some out) ∧
            out.getLast? = some lastAddedPoint ∧
            pathFromSourceToPipeTrack.getLast? = some endNodeP ∧
            self.locationGraph.nodePs[endNodeP]? = some endNode ∧
            ((∃ endPoint, result.1 = out ++ [endPoint]) ∨
              (result.1 = [] ∧ ∀ candidate nodeP,
                IsEndCandidate sqrt pipeTrack endNode
                  (pipeTrackNodesForLocationNode[endNodeP]?.getD []) lastAddedPoint candidate
                  nodeP →
                999999 ≤ endDistance sqrt lastAddedPoint candidate))) ∧
        ∀ (currentNode nextNode : LocationGraphNode) (nextNodeP : Nat) (previous : Point),
          sharedWidth currentNode nextNode nextNodeP = 2 * r →
          ¬ sharedWidth currentNode nextNode nextNodeP < 2 * r ∧
          (nextNodeP ∈ currentNode.topNodesPs ∨ nextNodeP ∈ currentNode.bottomNodesPs →
            (crossingPoint r currentNode nextNode nextNodeP previous).x
                = max currentNode.left nextNode.left + r ∧
              (crossingPoint r currentNode nextNode nextNodeP previous).x
                = min currentNode.right nextNode.right - r) ∧
          (¬ (nextNodeP ∈ currentNode.topNodesPs ∨ nextNodeP ∈ currentNode.bottomNodesPs) →
            (crossingPoint r currentNode nextNode nextNodeP previous).y
                = max currentNode.bottom nextNode.bottom + r ∧
              (crossingPoint r currentNode nextNode nextNodeP previous).y
                = min currentNode.top nextNode.top - r)) ∧
    (∀ externalDiameter : Nat, externalDiameter % 2 = 0 →
      2 * ((externalDiameter / 2 : Nat) : CalcNumber) = (externalDiameter : CalcNumber)) ∧
    oddSideFinder.pipeObjectsBag.getExternalDiameter 50 = some 61 ∧
    PathStep oddSideFinder.locationGraph [0, 1] 0 0 1 oddSideLeftNode oddSideRightNode ∧
    sharedWidth oddSideLeftNode oddSideRightNode 1 = 60 ∧
    sharedWidth oddSideLeftNode oddSideRightNode 1 < 2 * ((61 : CalcNumber) / 2) ∧
    OptimalPipeTrackFinder.zigzagAlongPath oddSideFinder.locationGraph
      ((61 / 2 : Nat) : CalcNumber) [0, 1] [⟨100, 100, 0⟩]
      = some (some [⟨100, 100, 0⟩, ⟨530, 470, 0⟩]) ∧
    oddSideFinder.findMinPseudoLengthZigzagFromSourceToPipeTrackAndPipeTrackNodeP exactSqrt
        [0, 1] PipeTrack.new 0 ⟨"S1", ⟨100, 100, 0⟩, 50, 0⟩ [[], []]
      = some ([⟨100, 100, 0⟩, ⟨530, 470, 0⟩, ⟨930, 770, 0⟩], none) := by
  refine ⟨?_, fun externalDiameter heven => (two_mul_half_nat externalDiameter).2 heven, rfl,
    ⟨rfl, rfl, rfl, rfl⟩, by decide!, by decide!, by decide!, by decide!⟩
  intro sqrt self path pipeTrack sourceP waterSource lists result externalDiameter r h hext hr
  exact zigzag_rejected_iff_narrow_code_radius sqrt self path pipeTrack sourceP waterSource
    lists result externalDiameter r h hext hr


end Pipes
